import Mathlib

/-!
# RecSSD OpenSSD firmware: low-level scheduler and translation engine

A shallow embedding of `low_level_scheduler.c` and `trans_buffer.c`.

* C arrays are total functions on `Nat`; an update writes one index.
* `unsigned int` arithmetic is reduced modulo `2 ^ 32` wherever the C
  expression can wrap; bit-fields are reduced modulo their width on writes.
* Hardware registers, DMA status words, the completion / error-information
  tables and the page buffers are written by the hardware, not by the
  firmware.  They are read through an environment `Env` indexed by a clock
  that advances on every read, so that any behaviour of the hardware is some
  environment.
* Calls into drivers that are not part of these two files (NAND primitives,
  host DMA set-up, `xil_printf`) are recorded, in order, in `FW.trace`.
* The embedding attribute type is abstract (`α`): the C code accumulates
  4-byte floats; one cell of the result buffer, of the cache and of a page
  buffer holds one attribute.
-/

set_option linter.unusedTactic false
set_option linter.unusedVariables false
set_option linter.unreachableTactic false

namespace RecSSD

/-! ## Constants of `low_level_scheduler.h` and `trans_buffer.h` -/

abbrev REQ_QUEUE_DEPTH : Nat := 256
abbrev LLSCommand_ReadRawPage : Nat := 100
abbrev LLSCommand_ReadLsbPage : Nat := 101
abbrev LLSCommand_WriteLsbPage : Nat := 102
abbrev LLSCommand_RxDMA : Nat := 150
abbrev LLSCommand_TxDMA : Nat := 151

abbrev NONE : Nat := 0
abbrev STATUS_CHECK : Nat := 1
abbrev CHECK_STATUS_REPORT : Nat := 2

abbrev DS_IDLE : Nat := 0
abbrev DS_EXE : Nat := 1
abbrev DS_TR_FAIL : Nat := 2
abbrev DS_TR_REEXE : Nat := 3
abbrev DS_FAIL : Nat := 4
abbrev DS_REEXE : Nat := 5
abbrev DS_SUB_EXE : Nat := 11
abbrev DS_SUB_TR_FAIL : Nat := 12
abbrev DS_SUB_TR_REEXE : Nat := 13
abbrev DS_SUB_FAIL : Nat := 14
abbrev DS_SUB_REEXE : Nat := 15

abbrev RS_RUNNING : Nat := 0
abbrev RS_DONE : Nat := 1
abbrev RS_FAIL : Nat := 2
abbrev RS_WARNING : Nat := 3

abbrev REQ_QUEUE : Nat := 0
abbrev SUB_REQ_QUEUE : Nat := 1

abbrev EI_FAIL : Nat := 0
abbrev EI_PASS : Nat := 1
abbrev EI_WARNING : Nat := 2

abbrev LUN_0_BASE_ADDR : Nat := 0x00000000
abbrev LUN_1_BASE_ADDR : Nat := 0x00200000

abbrev TRANS_BUF_ENTRY_NUM : Nat := 8
abbrev MAX_EMBEDDINGS_PER_REQUEST : Nat := 262144
abbrev MAX_EMBEDDING_RESULT_PAGES : Nat := 256
abbrev TRANS_EMBED_CACHE_ENTRY_NUM : Nat := 1048576

/-- The word size of `unsigned int`. -/
abbrev U32 : Nat := 2 ^ 32

/-- Constants that the two source files take from headers which are not part of
the sources at hand (`init_ftl.h`, `fmc_driver.h`, `memory_map.h`,
`lru_buffer.h`).  They are parameters of the embedding.  `slcMode` stands for
`BIT_PER_FLASH_CELL == SLC_MODE`; the only other supported value is
`MLC_MODE` (any third value trips an `assert` at the first push). -/
structure Params where
  CHANNEL_NUM : Nat
  WAY_NUM : Nat
  DIE_NUM : Nat
  CHANNEL_NUM_PER_HP_PORT : Nat
  RETRY_LIMIT : Nat
  BIT_ERROR_THRESHOLD : Nat
  slcMode : Bool
  PAGE_NUM_PER_LUN : Nat
  PAGE_NUM_PER_BLOCK : Nat
  PAGE_NUM_PER_SLC_BLOCK : Nat
  MAX_PAGE_NUM_PER_SLC_LUN : Nat
  PAGE_NUM_PER_MLC_BLOCK : Nat
  MAX_BLOCK_NUM_PER_LUN : Nat
  MAX_LUN_NUM_PER_DIE : Nat
  SECTOR_SIZE_FTL : Nat
  SECTOR_NUM_PER_PAGE : Nat
  PAGE_SIZE : Nat
  BUFFER_ADDR : Nat
  BUF_ENTRY_SIZE : Nat
  BUF_ENTRY_NUM : Nat
  SPARE_ADDR : Nat
  V2FCommand_ReadPageTrigger : Nat
  V2FCommand_ReadPageTransfer : Nat
  V2FCommand_ProgramPage : Nat
  V2FCommand_BlockErase : Nat
  V2FCommand_ReadPageTransferRaw : Nat
  V2FCommand_Reset : Nat
  V2FCommand_SetFeatures : Nat

/-- `SUB_REQ_QUEUE_DEPTH` of `low_level_scheduler.h`. -/
def Params.SUB_REQ_QUEUE_DEPTH (P : Params) : Nat := P.PAGE_NUM_PER_BLOCK * 2

/-- `TRANS_BUF_ENTRY_SIZE` of `trans_buffer.h`, in bytes. -/
def Params.TRANS_BUF_ENTRY_SIZE (P : Params) : Nat := P.SECTOR_SIZE_FTL * 256

/-- Number of 4-byte cells between the result regions of two consecutive
translation buffer entries. -/
def Params.transBufStride (P : Params) : Nat := P.TRANS_BUF_ENTRY_SIZE / 4

/-! ## Data model -/

/-- `struct reqEntry`. -/
structure ReqEntry where
  rowAddr : Nat
  devAddr : Nat
  pageDataBuf : Nat
  spareDataBuf : Nat
  cmdSlotTag : Nat
  startDmaIndex : Nat
  statusOption : Nat
  subReqSect : Nat
  bufferEntry : Nat
  request : Nat
  translate : Nat
  transBufferEntry : Nat
  transPageIdx : Nat
deriving DecidableEq, Repr, Inhabited

/-- `struct subReqEntry`. -/
structure SubReqEntry where
  request : Nat
  rowAddr : Nat
  pageDataBuf : Nat
  spareDataBuf : Nat
  statusOption : Nat
deriving DecidableEq, Repr, Inhabited

/-- `struct rqPointerEntry`. -/
structure RqPointerEntry where
  front : Nat
  rear : Nat
deriving DecidableEq, Repr, Inhabited

/-- `struct dieStatusEntry`. -/
structure DieStatusEntry where
  dieStatus : Nat
  queueSelect : Nat
  reqQueueEmpty : Nat
  subReqQueueEmpty : Nat
  prevWay : Nat
  nextWay : Nat
deriving DecidableEq, Repr, Inhabited

/-- `struct transPageReqEntry`: the single-slot per-die mailbox. -/
structure TransPageReqEntry where
  transBufferEntry : Nat
  pageDataBuf : Nat
  transPageIdx : Nat
  valid : Nat
deriving DecidableEq, Repr, Inhabited

/-- The eight way lists of a channel. -/
inductive WayList where
  | idle
  | statusReport
  | nvmeDma
  | nandTrigger
  | nandTrigNTrans
  | nandTransfer
  | nandErase
  | nandStatus
deriving DecidableEq, Repr, Inhabited

/-- All eight way lists. -/
def WayList.all : List WayList :=
  [.idle, .statusReport, .nvmeDma, .nandTrigger, .nandTrigNTrans, .nandTransfer, .nandErase,
    .nandStatus]

/-- `struct wayPriorityEntry`: `head .idle` is `idleHead`, `tail .idle` is
`idleTail`, and so on for the eight lists. -/
structure WayPriorityEntry where
  head : WayList → Nat
  tail : WayList → Nat

/-- `LOW_LEVEL_REQ_INFO`, the argument of a push to the primary ring. -/
structure LowLevelReqInfo where
  chNo : Nat
  wayNo : Nat
  request : Nat
  rowAddr : Nat
  devAddr : Nat
  spareDataBuf : Nat
  cmdSlotTag : Nat
  startDmaIndex : Nat
  subReqSect : Nat
  bufferEntry : Nat
  translate : Nat
  transBufferEntry : Nat
  transPageIdx : Nat
deriving DecidableEq, Repr, Inhabited

/-- `struct embeddingIDPair`. -/
structure EmbeddingIDPair where
  result : Nat
  embeddingID : Nat
deriving DecidableEq, Repr, Inhabited

/-- `struct transConfig`, the configuration blob written by the host. -/
structure TransConfig where
  attributeSize : Nat
  embeddingLength : Nat
  resultEmbeddings : Nat
  inputEmbeddings : Nat
  tableID : Nat
  embeddingIDList : Nat → EmbeddingIDPair

/-- `struct transBufEntry` without its time stamps.  The arrays are functions of the index;
`perResultSectorInputEmbeddings` and `perResultSectorCompletedEmbeddings` have
`MAX_EMBEDDING_RESULT_PAGES` slots in the firmware. -/
structure TransBufEntry where
  perPageSLBAs : Nat → Nat
  perPageStartingIndex : Nat → Nat
  perPageInputLength : Nat → Nat
  perResultSectorInputEmbeddings : Nat → Nat
  perResultSectorCompletedEmbeddings : Nat → Nat
  slba : Nat
  requestId : Nat
  nlb : Nat
  nlbRequested : Nat
  nlbCompleted : Nat
  nPages : Nat
  pagesTranslated : Nat
  configured : Nat
  allocated : Nat
  rxDmaExe : Nat
  rxDmaTail : Nat
  rxDmaOverFlowCnt : Nat
  prev : Nat
  next : Nat

/-- `struct transEmbedCacheEntry`; `embedding k` is the `k`-th attribute held in
`embedding_bytes`, which has 128 bytes in the firmware (32 attributes of 4 bytes). -/
structure TransEmbedCacheEntry (α : Type) where
  valid : Nat
  tag : Nat
  embedding : Nat → α

/-- `struct transReqEntry`. -/
structure TransReqEntry where
  entryIdx : Nat
  nextPage : Nat
  nextSector : Nat
  firstSector : Nat
  nlb : Nat
  cmdSlotTag : Nat
  prev : Nat
  next : Nat
deriving DecidableEq, Repr, Inhabited

/-- `struct transRqPointerEntry`. -/
structure TransRqPointerEntry where
  head : Nat
  tail : Nat
  current : Nat
  availhead : Nat
  availtail : Nat
deriving DecidableEq, Repr, Inhabited

/-- The fields of an LRU buffer entry (`bufMap->bufEntry[i]`) that the two files
read or write. -/
structure BufEntry where
  txDmaExe : Nat
  txDmaTail : Nat
  txDmaOverFlowCnt : Nat
  rxDmaExe : Nat
  rxDmaTail : Nat
  rxDmaOverFlowCnt : Nat
  dirty : Nat
  prevEntry : Nat
  nextEntry : Nat
  lpn : Nat
deriving DecidableEq, Repr, Inhabited

/-- `bufLruList->bufLruEntry[die]`. -/
structure BufLruEntry where
  head : Nat
  tail : Nat
deriving DecidableEq, Repr, Inhabited

/-- Calls that leave the two source files, in the order they are made. -/
inductive Event where
  | ReadPageTriggerAsync (chNo wayNo rowAddr : Nat)
  | ReadPageTransferAsync (chNo wayNo pageDataBuf spareDataBuf table tableCh rowAddr : Nat)
  | ReadPageTransferRawAsync (chNo wayNo pageDataBuf table tableCh : Nat)
  | ProgramPageAsync (chNo wayNo rowAddr pageDataBuf spareDataBuf : Nat)
  | EraseBlockAsync (chNo wayNo rowAddr : Nat)
  | StatusCheckAsync (chNo wayNo table tableCh : Nat)
  | ResetSync (chNo wayNo : Nat)
  | EnterToggleMode (chNo wayNo : Nat)
  | set_auto_rx_dma (cmdSlotTag dmaIndex devAddr : Nat)
  | set_auto_tx_dma (cmdSlotTag dmaIndex devAddr : Nat)
  | translatePageFromMailbox (chNo wayNo transBufferEntry pageDataBuf transPageIdx : Nat)
  | translatePageInline (transBufferEntry devAddr pageIdx : Nat)
  | DeallocateTransBufEntry (entryIdx : Nat)
  | UpdateBadBlockTable (chNo wayNo blockNo : Nat)
  | writeByte (addr value : Nat)
  | printNotDefinedRequest (which : Nat)
  | printRequestFail (dieStatus request chNo wayNo rowAddr completion : Nat)
  | printWarning (chNo wayNo blockNo rowAddr : Nat)
  | printWrongStatus
deriving DecidableEq, Repr, Inhabited

/-- What the hardware and the collaborators outside the two files provide.  The
first argument of every time-dependent field is the clock value at the read. -/
structure Env (α : Type) where
  readyBusy : Nat → Nat → Nat
  controllerBusy : Nat → Nat → Bool
  beforeNandReset : Nat → Nat
  completeTable0 : Nat → Nat → Nat → Nat
  completeTable1 : Nat → Nat → Nat → Nat
  errorInfoTable0 : Nat → Nat → Nat → Nat → Nat
  errorInfoTable1 : Nat → Nat → Nat → Nat → Nat
  CrcValid : Nat → Bool
  SpareChunkValid : Nat → Bool
  PageChunkValid : Nat → Bool
  WorstChunkErrorCount : Nat → Nat
  rxDmaPartialDone : Nat → Nat → Nat → Bool
  txDmaPartialDone : Nat → Nat → Nat → Bool
  fifoTailRx : Nat → Nat
  fifoTailTx : Nat → Nat
  rxOverFlowCnt : Nat → Nat
  txOverFlowCnt : Nat → Nat
  CheckBufHit : Nat → Nat → Nat
  AllocateBufEntry : Nat → Nat → Nat
  ppn : Nat → Nat → Nat → Nat
  pageData : Nat → Nat → Nat → α

/-- The firmware state: every global of the two files that the embedded
functions touch, the clock of the environment, the trace of outgoing calls and
a flag that is set when an assertion of the firmware fails. -/
structure FW (α : Type) where
  reqQueue : Nat → Nat → Nat → ReqEntry
  rqPointer : Nat → Nat → RqPointerEntry
  subReqQueue : Nat → Nat → Nat → SubReqEntry
  srqPointer : Nat → Nat → RqPointerEntry
  dieStatusTable : Nat → Nat → DieStatusEntry
  newBadBlockTable : Nat → Nat → Nat → Nat
  retryLimitTable : Nat → Nat → Int
  wayPriorityTable : Nat → WayPriorityEntry
  transPageReqQueue : Nat → Nat → TransPageReqEntry
  transReqQueue : Nat → TransReqEntry
  transReadReqQueue : Nat → TransReqEntry
  transRqPointer : TransRqPointerEntry
  transReadRqPointer : TransRqPointerEntry
  reservedReq : Nat
  badBlockUpdate : Nat
  transConfig : Nat → TransConfig
  transMap : Nat → TransBufEntry
  transAvailQ : Nat × Nat
  transCache : Nat → TransEmbedCacheEntry α
  transBuf : Nat → α
  cache_hits : Nat
  cache_misses : Nat
  bufMap : Nat → BufEntry
  bufLruList : Nat → BufLruEntry
  clock : Nat
  trace : List Event
  halted : Bool

/-- Write one index of a one-dimensional array. -/
def set1 {β : Type} (f : Nat → β) (i : Nat) (v : β) : Nat → β :=
  fun i' => if i' = i then v else f i'

/-- Write one index of a two-dimensional array. -/
def set2 {β : Type} (f : Nat → Nat → β) (i j : Nat) (v : β) : Nat → Nat → β :=
  fun i' j' => if i' = i ∧ j' = j then v else f i' j'

/-- Write one index of a three-dimensional array. -/
def set3 {β : Type} (f : Nat → Nat → Nat → β) (i j k : Nat) (v : β) : Nat → Nat → Nat → β :=
  fun i' j' k' => if i' = i ∧ j' = j ∧ k' = k then v else f i' j' k'

/-- Conversion of an `unsigned int` value to `int` (two's complement). -/
def toInt32 (n : Nat) : Int :=
  if n % U32 < 2 ^ 31 then ((n % U32 : Nat) : Int) else ((n % U32 : Nat) : Int) - 2 ^ 32

/-- Conversion of an `int` value to `unsigned int`. -/
def toUInt32 (i : Int) : Nat := (i % (2 ^ 32 : Int)).toNat

variable {α : Type}

/-- Record one outgoing call. -/
def FW.emit (s : FW α) (e : Event) : FW α := { s with trace := s.trace ++ [e] }

/-- Advance the clock of the environment after a read. -/
def FW.tick (s : FW α) : FW α := { s with clock := s.clock + 1 }

/-- Rewrite the die status entry of `(chNo, wayNo)`. -/
def FW.modDie (s : FW α) (chNo wayNo : Nat) (f : DieStatusEntry → DieStatusEntry) : FW α :=
  { s with dieStatusTable := set2 s.dieStatusTable chNo wayNo (f (s.dieStatusTable chNo wayNo)) }

/-- Rewrite slot `slot` of the primary ring of `(chNo, wayNo)`. -/
def FW.modReq (s : FW α) (slot chNo wayNo : Nat) (f : ReqEntry → ReqEntry) : FW α :=
  { s with reqQueue := set3 s.reqQueue slot chNo wayNo (f (s.reqQueue slot chNo wayNo)) }

/-- Rewrite slot `slot` of the sub ring of `(chNo, wayNo)`. -/
def FW.modSubReq (s : FW α) (slot chNo wayNo : Nat) (f : SubReqEntry → SubReqEntry) : FW α :=
  { s with subReqQueue := set3 s.subReqQueue slot chNo wayNo (f (s.subReqQueue slot chNo wayNo)) }

/-- Rewrite the front / rear pair of the primary ring of `(chNo, wayNo)`. -/
def FW.modRq (s : FW α) (chNo wayNo : Nat) (f : RqPointerEntry → RqPointerEntry) : FW α :=
  { s with rqPointer := set2 s.rqPointer chNo wayNo (f (s.rqPointer chNo wayNo)) }

/-- Rewrite the front / rear pair of the sub ring of `(chNo, wayNo)`. -/
def FW.modSrq (s : FW α) (chNo wayNo : Nat) (f : RqPointerEntry → RqPointerEntry) : FW α :=
  { s with srqPointer := set2 s.srqPointer chNo wayNo (f (s.srqPointer chNo wayNo)) }

/-- Rewrite the mailbox of `(chNo, wayNo)`. -/
def FW.modMailbox (s : FW α) (chNo wayNo : Nat) (f : TransPageReqEntry → TransPageReqEntry) :
    FW α :=
  { s with
    transPageReqQueue := set2 s.transPageReqQueue chNo wayNo (f (s.transPageReqQueue chNo wayNo)) }

/-- Rewrite translation buffer entry `entryIdx`. -/
def FW.modTransMap (s : FW α) (entryIdx : Nat) (f : TransBufEntry → TransBufEntry) : FW α :=
  { s with transMap := set1 s.transMap entryIdx (f (s.transMap entryIdx)) }

/-- Rewrite LRU buffer entry `bufferEntry`. -/
def FW.modBuf (s : FW α) (bufferEntry : Nat) (f : BufEntry → BufEntry) : FW α :=
  { s with bufMap := set1 s.bufMap bufferEntry (f (s.bufMap bufferEntry)) }

/-- Rewrite the way priority entry of channel `chNo`. -/
def FW.modWayPriority (s : FW α) (chNo : Nat) (f : WayPriorityEntry → WayPriorityEntry) : FW α :=
  { s with wayPriorityTable := set1 s.wayPriorityTable chNo (f (s.wayPriorityTable chNo)) }

/-! ## The primary ring -/

/-- `CheckReqQueueAvailability`.  The left operand of `>=` is computed in `int`
(`%` truncates towards zero), the right one in `unsigned int`; the comparison
is made in `unsigned int`. -/
def CheckReqQueueAvailability (s : FW α) (chNo wayNo openSlots : Nat) : Nat :=
  let lhs : Int :=
    Int.tmod (toInt32 (s.rqPointer chNo wayNo).rear - toInt32 (s.rqPointer chNo wayNo).front
      + (REQ_QUEUE_DEPTH : Int)) (REQ_QUEUE_DEPTH : Int)
  let rhs : Nat := (REQ_QUEUE_DEPTH - 1 + (U32 - openSlots % U32)) % U32
  if toUInt32 lhs ≥ rhs then 0 else 1

/-- The physical row address computed by a push to the primary ring. -/
def phyRowAddrOf (P : Params) (rowAddr : Nat) : Nat :=
  if P.slcMode then
    let lun := rowAddr / P.PAGE_NUM_PER_LUN
    let tempBlock := (rowAddr % P.PAGE_NUM_PER_LUN) / P.PAGE_NUM_PER_BLOCK
    let tempPage := rowAddr % P.PAGE_NUM_PER_BLOCK
    let base := if lun = 0 then LUN_0_BASE_ADDR else LUN_1_BASE_ADDR
    let phyPage := if tempPage = 0 then 0 else (tempPage * 2 - 1) % U32
    (base + (tempBlock * P.PAGE_NUM_PER_BLOCK * 2 + phyPage)) % U32
  else
    let lun := rowAddr / P.PAGE_NUM_PER_LUN
    let tempRowAddr := rowAddr % P.PAGE_NUM_PER_LUN
    if lun = 0 then (LUN_0_BASE_ADDR + tempRowAddr) % U32
    else (LUN_1_BASE_ADDR + tempRowAddr) % U32

/-- The slot contents written by a push of a DMA request (`request >= LLSCommand_RxDMA`). -/
def pushDmaEntry (old : ReqEntry) (lowLevelCmd : LowLevelReqInfo) : ReqEntry :=
  { old with
    devAddr := lowLevelCmd.devAddr
    cmdSlotTag := lowLevelCmd.cmdSlotTag % 2 ^ 16
    startDmaIndex := lowLevelCmd.startDmaIndex % 2 ^ 16
    subReqSect := lowLevelCmd.subReqSect % 2 ^ 8
    bufferEntry := lowLevelCmd.bufferEntry % 2 ^ 16
    request := lowLevelCmd.request % 2 ^ 16 }

/-- The slot contents written by a push of a NAND request. -/
def pushNandEntry (P : Params) (old : ReqEntry) (lowLevelCmd : LowLevelReqInfo) : ReqEntry :=
  { old with
    rowAddr := phyRowAddrOf P lowLevelCmd.rowAddr
    bufferEntry := lowLevelCmd.bufferEntry % 2 ^ 16
    transBufferEntry := lowLevelCmd.transBufferEntry % 2 ^ 8
    translate := lowLevelCmd.translate % 2
    transPageIdx := lowLevelCmd.transPageIdx
    pageDataBuf := (P.BUFFER_ADDR + lowLevelCmd.bufferEntry * P.BUF_ENTRY_SIZE) % U32
    spareDataBuf := lowLevelCmd.spareDataBuf
    statusOption := STATUS_CHECK
    request := lowLevelCmd.request % 2 ^ 16 }

/-- `PushToReqQueueNonBlocking`: the new state and the returned flag. -/
def PushToReqQueueNonBlocking (P : Params) (s : FW α) (lowLevelCmd : LowLevelReqInfo)
    (openSlots : Nat) : FW α × Nat :=
  let chNo := lowLevelCmd.chNo
  let wayNo := lowLevelCmd.wayNo
  if CheckReqQueueAvailability s chNo wayNo openSlots = 0 then (s, 0)
  else
    let s1 := s.modDie chNo wayNo (fun d => { d with reqQueueEmpty := 0 })
    let rear := (s1.rqPointer chNo wayNo).rear
    let s2 :=
      if lowLevelCmd.request ≥ LLSCommand_RxDMA then
        s1.modReq rear chNo wayNo (fun old => pushDmaEntry old lowLevelCmd)
      else
        s1.modReq rear chNo wayNo (fun old => pushNandEntry P old lowLevelCmd)
    (s2.modRq chNo wayNo (fun p => { p with rear := (rear + 1) % REQ_QUEUE_DEPTH }), 1)


/-! ## The translation engine (`trans_buffer.c`) -/

/-- A `for (i = 0; i < n; i++)` loop whose bound is not changed by its body. -/
def forRange {σ : Type} (n : Nat) (body : Nat → σ → σ) (init : σ) : σ :=
  (List.range n).foldl (fun st i => body i st) init

/-- The cache slot and tag of `(embeddingID, tableID)`:
`fullindex = (embeddingID << 5) | tableID`, `cache_index = fullindex & ((1 << 20) - 1)`,
`tag = (fullindex >> 20) & ((1 << 12) - 1)`. -/
def cacheKey (embeddingID tableID : Nat) : Nat × Nat :=
  let fullindex := ((embeddingID <<< 5) % U32) ||| (tableID % U32)
  (fullindex &&& ((1 <<< 20) - 1), (fullindex >>> 20) &&& ((1 <<< 12) - 1))

/-- The reduction loop `for (k = 0; k < L; k++) { *toAtr += *fromAtr; toAtr++; fromAtr++; }`
on the cells of the result memory.  A cell is one attribute.  The firmware steps its pointers
by `attributeSize` bytes and adds 4-byte `float` values, so the cells are the attributes of
the firmware for `attributeSize = 4` (`FloatVectors`). -/
def accumulate [Add α] (buf : Nat → α) (toAtr : Nat) (src : Nat → α) (fromAtr L : Nat) :
    Nat → α :=
  forRange L (fun k b => set1 b (toAtr + k) (b (toAtr + k) + src (fromAtr + k))) buf

/-- The copy loop `for (k = 0; k < L; k++) { *toAtr = *fromAtr; toAtr++; fromAtr++; }` into
the vector of a cache entry, one cell per attribute.  The vector of the firmware is
`embedding_bytes[128]`: the cells are those of the firmware for vectors of at most 128 bytes
(`FloatVectors`); a longer copy of the firmware runs into the next cache entries. -/
def copyVector (dst : Nat → α) (src : Nat → α) (fromAtr L : Nat) : Nat → α :=
  forRange L (fun k d => set1 d k (src (fromAtr + k))) dst

/-- First cell of the result region of translation buffer entry `entryIdx`
(`TRANS_BUF_ADDR + entryIdx * TRANS_BUF_ENTRY_SIZE`, in 4-byte cells from `TRANS_BUF_ADDR`). -/
def resultBase (P : Params) (entryIdx : Nat) : Nat := entryIdx * P.transBufStride

/-- The local variables of the pair loop of `ConfigureTransBufEntry`. -/
structure ConfigLocals where
  page_index : Nat
  page_id : Nat
  cur_page_input_length : Nat
deriving DecidableEq, Repr, Inhabited

/-- One iteration of the pair loop of `ConfigureTransBufEntry`. -/
def configurePair [Add α] (P : Params) (entryIdx : Nat) (embedding_index : Nat)
    (st : FW α × ConfigLocals) : FW α × ConfigLocals :=
  let s := st.1
  let loc := st.2
  let config := s.transConfig entryIdx
  let eID := config.embeddingIDList embedding_index
  let result_sector :=
    ((eID.result * ((config.embeddingLength * config.attributeSize) % U32)) % U32)
      / P.SECTOR_SIZE_FTL
  let key := cacheKey eID.embeddingID config.tableID
  if (s.transCache key.1).valid ≠ 0 ∧ (s.transCache key.1).tag = key.2 then
    let toAtr := resultBase P entryIdx + (eID.result * config.embeddingLength) % U32
    ({ s with
        transBuf := accumulate s.transBuf toAtr (s.transCache key.1).embedding 0
          config.embeddingLength
        cache_hits := s.cache_hits + 1 }, loc)
  else
    let s1 : FW α := { s with cache_misses := s.cache_misses + 1 }
    let s2 := s1.modTransMap entryIdx (fun e =>
      { e with
        perResultSectorInputEmbeddings :=
          set1 e.perResultSectorInputEmbeddings result_sector
            ((e.perResultSectorInputEmbeddings result_sector + 1) % U32) })
    let cur_page_id :=
      ((eID.embeddingID * config.attributeSize * config.embeddingLength) % U32) / P.PAGE_SIZE
    if cur_page_id ≠ loc.page_id then
      let page_index := loc.page_index + 1
      let s3 := s2.modTransMap entryIdx (fun e =>
        { e with
          perPageSLBAs := set1 e.perPageSLBAs page_index
            ((e.slba + (cur_page_id * P.SECTOR_NUM_PER_PAGE) % U32) % U32)
          perPageStartingIndex := set1 e.perPageStartingIndex page_index embedding_index
          perPageInputLength := set1 e.perPageInputLength (page_index - 1)
            loc.cur_page_input_length })
      (s3, { page_index := page_index, page_id := cur_page_id, cur_page_input_length := 0 + 1 })
    else
      (s2, { page_index := loc.page_index, page_id := cur_page_id,
             cur_page_input_length := loc.cur_page_input_length + 1 })

/-- `ConfigureTransBufEntry`.  The counters of an entry are functions of the sector index;
the arrays of the firmware have `MAX_EMBEDDING_RESULT_PAGES` slots and are followed by
`slba`, `requestId` and `nlb`, so the function is that of the firmware for a result of at most
`MAX_EMBEDDING_RESULT_PAGES` sectors whose pairs have 4-byte attributes (`CountersFit`,
`FloatVectors`). -/
def ConfigureTransBufEntry [Add α] [Zero α] (P : Params) (s : FW α) (entryIdx : Nat) : FW α :=
  let config := s.transConfig entryIdx
  let bytes := (config.resultEmbeddings * config.attributeSize * config.embeddingLength) % U32
  let nlb := bytes / P.SECTOR_SIZE_FTL + (if bytes % P.SECTOR_SIZE_FTL ≠ 0 then 1 else 0)
  let s1 := s.modTransMap entryIdx (fun e => { e with nlb := nlb })
  let s2 := forRange nlb (fun i (st : FW α) => st.modTransMap entryIdx (fun e =>
      { e with
        perResultSectorCompletedEmbeddings := set1 e.perResultSectorCompletedEmbeddings i 0
        perResultSectorInputEmbeddings := set1 e.perResultSectorInputEmbeddings i 0 })) s1
  let page_id :=
    (((config.embeddingIDList 0).embeddingID * config.attributeSize * config.embeddingLength)
      % U32) / P.PAGE_SIZE
  let s3 := s2.modTransMap entryIdx (fun e =>
    { e with
      perPageSLBAs := set1 e.perPageSLBAs 0
        ((e.slba + (page_id * P.SECTOR_NUM_PER_PAGE) % U32) % U32)
      perPageStartingIndex := set1 e.perPageStartingIndex 0 0 })
  let r := forRange config.inputEmbeddings (configurePair P entryIdx)
    (s3, { page_index := 0, page_id := page_id, cur_page_input_length := 0 })
  let s4 := r.1.modTransMap entryIdx (fun e =>
    { e with
      perPageInputLength := set1 e.perPageInputLength r.2.page_index r.2.cur_page_input_length
      nPages := r.2.page_index + 1 })
  let s5 : FW α :=
    { s4 with
      transBuf := forRange bytes (fun i b => set1 b (resultBase P entryIdx + i) 0) s4.transBuf }
  s5.modTransMap entryIdx (fun e => { e with configured := 1 })

/-- One iteration of the pair loop of `translatePage`; `i` is the loop counter,
so that `pair_index` is the starting index of the page plus `i`.  The page buffer, the cache
vector and the result memory are indexed by attribute, as in `accumulate` and `copyVector`:
the iteration is that of the firmware for 4-byte attributes and vectors of at most 128 bytes
(`FloatVectors`), and for a result sector below `MAX_EMBEDDING_RESULT_PAGES`
(`CountersFit`). -/
def translatePair [Add α] (P : Params) (entryIdx : Nat) (page : Nat → α)
    (pair_index0 base_embedding_id : Nat) (i : Nat) (s : FW α) : FW α :=
  let config := s.transConfig entryIdx
  let pair_index := pair_index0 + i
  let embedding_id := (config.embeddingIDList pair_index).embeddingID
  let result_index := (config.embeddingIDList pair_index).result
  let embedding_offset := (embedding_id + (U32 - base_embedding_id % U32)) % U32
  let fromAtr := (embedding_offset * config.embeddingLength) % U32
  let key := cacheKey embedding_id config.tableID
  let s1 : FW α :=
    { s with
      transCache := set1 s.transCache key.1
        { valid := 1, tag := key.2,
          embedding := copyVector (s.transCache key.1).embedding page fromAtr
            config.embeddingLength } }
  let result_sector :=
    ((result_index * ((config.embeddingLength * config.attributeSize) % U32)) % U32)
      / P.SECTOR_SIZE_FTL
  let toAtr := resultBase P entryIdx + (result_index * config.embeddingLength) % U32
  let s2 : FW α :=
    { s1 with
      transBuf := accumulate s1.transBuf toAtr page fromAtr config.embeddingLength }
  s2.modTransMap entryIdx (fun e =>
    { e with
      perResultSectorCompletedEmbeddings :=
        set1 e.perResultSectorCompletedEmbeddings result_sector
          ((e.perResultSectorCompletedEmbeddings result_sector + 1) % U32) })

/-- `translatePage(entryIdx, devAddr, pageIdx)`; `page` is the content of the
page buffer at `devAddr`, one attribute per index (see `translatePair` for the
configurations on which this is the layout of the firmware). -/
def translatePage [Add α] (P : Params) (s : FW α) (entryIdx : Nat) (page : Nat → α)
    (pageIdx : Nat) : FW α :=
  let config := s.transConfig entryIdx
  let e := s.transMap entryIdx
  let pair_index := e.perPageStartingIndex pageIdx
  let n_embeddings := e.perPageInputLength pageIdx
  let base_embedding_id :=
    ((((e.perPageSLBAs pageIdx + (U32 - e.slba % U32)) % U32) * P.SECTOR_SIZE_FTL) % U32)
      / ((config.attributeSize * config.embeddingLength) % U32)
  let s1 := forRange n_embeddings
    (translatePair P entryIdx page pair_index base_embedding_id) s
  s1.modTransMap entryIdx (fun e => { e with pagesTranslated := (e.pagesTranslated + 1) % U32 })


/-! ## Issuing requests (`PopFromReqQueue`, `PopFromSubReqQueue`) -/

/-- Front of the primary ring of `(chNo, wayNo)`. -/
def FW.front (s : FW α) (chNo wayNo : Nat) : Nat := (s.rqPointer chNo wayNo).front

/-- The entry at the front of the primary ring of `(chNo, wayNo)`. -/
def FW.headReq (s : FW α) (chNo wayNo : Nat) : ReqEntry :=
  s.reqQueue (s.front chNo wayNo) chNo wayNo

/-- Front of the sub ring of `(chNo, wayNo)`. -/
def FW.subFront (s : FW α) (chNo wayNo : Nat) : Nat := (s.srqPointer chNo wayNo).front

/-- The entry at the front of the sub ring of `(chNo, wayNo)`. -/
def FW.headSubReq (s : FW α) (chNo wayNo : Nat) : SubReqEntry :=
  s.subReqQueue (s.subFront chNo wayNo) chNo wayNo

/-- `front = (front + 1) % REQ_QUEUE_DEPTH` on the primary ring. -/
def FW.advanceFront (s : FW α) (chNo wayNo : Nat) : FW α :=
  s.modRq chNo wayNo (fun p => { p with front := (p.front + 1) % REQ_QUEUE_DEPTH })

/-- `front = (front + 1) % SUB_REQ_QUEUE_DEPTH` on the sub ring. -/
def FW.advanceSubFront (P : Params) (s : FW α) (chNo wayNo : Nat) : FW α :=
  s.modSrq chNo wayNo (fun p => { p with front := (p.front + 1) % P.SUB_REQ_QUEUE_DEPTH })

/-- The descriptor loop of a DMA request: `n` descriptors starting at DMA index
`dmaIndex` (wrapping at 256) and device address `devAddr`. -/
def dmaDescriptors (mk : Nat → Nat → Nat → Event) (P : Params) (cmdSlotTag : Nat) :
    Nat → Nat → Nat → List Event
  | 0, _, _ => []
  | n + 1, dmaIndex, devAddr =>
    mk cmdSlotTag dmaIndex devAddr ::
      dmaDescriptors mk P cmdSlotTag n (if dmaIndex + 1 ≥ 256 then 0 else dmaIndex + 1)
        ((devAddr + P.SECTOR_SIZE_FTL) % U32)

/-- The completion / error-information table that serves channel `chNo`, and the
channel index inside it. -/
def hpTable (P : Params) (chNo : Nat) : Nat × Nat :=
  if chNo < P.CHANNEL_NUM_PER_HP_PORT then (0, chNo) else (1, chNo - P.CHANNEL_NUM_PER_HP_PORT)

/-- `PopFromReqQueue`: the new state and the returned flag. -/
def PopFromReqQueue (env : Env α) (P : Params) (s : FW α) (chNo wayNo : Nat) : FW α × Nat :=
  let front := s.front chNo wayNo
  let e := s.reqQueue front chNo wayNo
  let request := e.request
  if request = LLSCommand_RxDMA then
    let s1 : FW α :=
      { s with
        trace := s.trace ++
          dmaDescriptors Event.set_auto_rx_dma P e.cmdSlotTag e.subReqSect e.startDmaIndex
            e.devAddr }
    let s2 := s1.modBuf e.bufferEntry (fun b =>
      { b with
        rxDmaExe := 1
        rxDmaTail := env.fifoTailRx s1.clock
        rxDmaOverFlowCnt := env.rxOverFlowCnt s1.clock })
    ((s2.tick).advanceFront chNo wayNo, 0)
  else if request = LLSCommand_TxDMA then
    let s1 : FW α :=
      { s with
        trace := s.trace ++
          dmaDescriptors Event.set_auto_tx_dma P e.cmdSlotTag e.subReqSect e.startDmaIndex
            e.devAddr }
    let s2 := s1.modBuf e.bufferEntry (fun b =>
      { b with
        txDmaExe := 1
        txDmaTail := env.fifoTailTx s1.clock
        txDmaOverFlowCnt := env.txOverFlowCnt s1.clock })
    ((s2.tick).advanceFront chNo wayNo, 0)
  else if request = P.V2FCommand_ReadPageTrigger then
    (s.emit (.ReadPageTriggerAsync chNo wayNo e.rowAddr), 1)
  else if request = P.V2FCommand_ReadPageTransfer then
    (s.emit (.ReadPageTransferAsync chNo wayNo e.pageDataBuf e.spareDataBuf (hpTable P chNo).1
      (hpTable P chNo).2 e.rowAddr), 1)
  else if request = P.V2FCommand_ProgramPage then
    (s.emit (.ProgramPageAsync chNo wayNo e.rowAddr e.pageDataBuf e.spareDataBuf), 1)
  else
    (s.emit (.printNotDefinedRequest 1), 1)

/-- `PopFromSubReqQueue`; it always returns 1. -/
def PopFromSubReqQueue (P : Params) (s : FW α) (chNo wayNo : Nat) : FW α :=
  let e := s.headSubReq chNo wayNo
  let request := e.request
  if request = P.V2FCommand_ReadPageTrigger then
    s.emit (.ReadPageTriggerAsync chNo wayNo e.rowAddr)
  else if request = P.V2FCommand_ReadPageTransfer then
    s.emit (.ReadPageTransferAsync chNo wayNo e.pageDataBuf e.spareDataBuf (hpTable P chNo).1
      (hpTable P chNo).2 e.rowAddr)
  else if request = P.V2FCommand_ProgramPage then
    s.emit (.ProgramPageAsync chNo wayNo e.rowAddr e.pageDataBuf e.spareDataBuf)
  else if request = P.V2FCommand_BlockErase then
    s.emit (.EraseBlockAsync chNo wayNo e.rowAddr)
  else if request = LLSCommand_ReadRawPage then
    s.emit (.ReadPageTriggerAsync chNo wayNo e.rowAddr)
  else if request = P.V2FCommand_ReadPageTransferRaw then
    s.emit (.ReadPageTransferRawAsync chNo wayNo e.pageDataBuf (hpTable P chNo).1
      (hpTable P chNo).2)
  else if request = P.V2FCommand_Reset then
    s.emit (.ResetSync chNo wayNo)
  else if request = P.V2FCommand_SetFeatures then
    s.emit (.EnterToggleMode chNo wayNo)
  else
    s.emit (.printNotDefinedRequest 2)

/-! ## The per-die state machine (`ExeLowLevelReqPerDie`) -/

/-- The block that the source repeats wherever it drains a mailbox:
`if (valid) { translatePage(transBufferEntry, pageDataBuf, transPageIdx); valid = 0; }`. -/
def drainMailbox [Add α] (env : Env α) (P : Params) (s : FW α) (chNo wayNo : Nat) : FW α :=
  let m := s.transPageReqQueue chNo wayNo
  if m.valid ≠ 0 then
    let s1 := translatePage P s m.transBufferEntry (env.pageData s.clock m.pageDataBuf)
      m.transPageIdx
    let s2 := (s1.tick).emit
      (.translatePageFromMailbox chNo wayNo m.transBufferEntry m.pageDataBuf m.transPageIdx)
    s2.modMailbox chNo wayNo (fun m => { m with valid := 0 })
  else s

/-- The completion word read for the failure message. -/
def completionWord (env : Env α) (P : Params) (s : FW α) (chNo wayNo : Nat) : Nat :=
  if chNo < P.CHANNEL_NUM_PER_HP_PORT then env.completeTable0 s.clock chNo wayNo
  else env.completeTable1 s.clock (chNo - P.CHANNEL_NUM_PER_HP_PORT) wayNo

/-- Set `dieStatus` of `(chNo, wayNo)`. -/
def FW.setDieStatus (s : FW α) (chNo wayNo st : Nat) : FW α :=
  s.modDie chNo wayNo (fun d => { d with dieStatus := st })

/-- The search loop of the `RS_WARNING` branch over the new-bad-block slots of
one die, starting at slot `entry` with `fuel` slots left:
store `blockNo` in the first free slot unless it is met first. -/
def recordNewBadBlock (tbl : Nat → Nat) (blockNo : Nat) : Nat → Nat → (Nat → Nat)
  | 0, _ => tbl
  | fuel + 1, entry =>
    if tbl entry = 0xffffffff then set1 tbl entry blockNo
    else if tbl entry = blockNo then tbl
    else recordNewBadBlock tbl blockNo fuel (entry + 1)

/-- The `RS_WARNING` branch of `DS_EXE` and `DS_REEXE`. -/
def warningBranch (P : Params) (s : FW α) (chNo wayNo : Nat) : FW α :=
  let rowAddr := (s.headReq chNo wayNo).rowAddr
  let tempLun := rowAddr / LUN_1_BASE_ADDR
  let tempRowAddr := rowAddr % LUN_1_BASE_ADDR
  let blockNo := (tempLun * P.MAX_BLOCK_NUM_PER_LUN + tempRowAddr / P.PAGE_NUM_PER_MLC_BLOCK) % U32
  let s1 := s.emit (.printWarning chNo wayNo blockNo rowAddr)
  let tbl := recordNewBadBlock (fun entry => s1.newBadBlockTable entry chNo wayNo) blockNo
    REQ_QUEUE_DEPTH 0
  let s2 : FW α :=
    { s1 with
      newBadBlockTable := fun entry c w =>
        if c = chNo ∧ w = wayNo then tbl entry else s1.newBadBlockTable entry c w }
  let s3 := (s2.advanceFront chNo wayNo).setDieStatus chNo wayNo DS_IDLE
  { s3 with badBlockUpdate := 1 }

/-- The body shared by `case DS_EXE` and `case DS_REEXE` (the two differ only in
the text of the failure message, `label`). -/
def primaryExeCase [Add α] (env : Env α) (P : Params) (label : Nat) (s : FW α)
    (chNo wayNo reqStatus : Nat) : FW α :=
  if reqStatus = RS_DONE then
    let front := s.front chNo wayNo
    let e := s.reqQueue front chNo wayNo
    let s1 :=
      if e.request = P.V2FCommand_ReadPageTrigger then
        s.modReq front chNo wayNo (fun r => { r with request := P.V2FCommand_ReadPageTransfer })
      else if e.request = P.V2FCommand_ReadPageTransfer ∧ e.translate ≠ 0 then
        let s2 := drainMailbox env P s chNo wayNo
        let s3 := s2.modMailbox chNo wayNo (fun _ =>
          { transBufferEntry := (s2.reqQueue front chNo wayNo).transBufferEntry
            pageDataBuf := (s2.reqQueue front chNo wayNo).pageDataBuf
            transPageIdx := (s2.reqQueue front chNo wayNo).transPageIdx
            valid := 1 })
        s3.advanceFront chNo wayNo
      else
        s.advanceFront chNo wayNo
    s1.setDieStatus chNo wayNo DS_IDLE
  else if reqStatus = RS_FAIL then
    if s.retryLimitTable chNo wayNo > 0 then
      let s1 : FW α :=
        { s with
          retryLimitTable := set2 s.retryLimitTable chNo wayNo (s.retryLimitTable chNo wayNo - 1) }
      let front := s1.front chNo wayNo
      let s2 := s1.modReq front chNo wayNo (fun r => { r with statusOption := STATUS_CHECK })
      if (s2.reqQueue front chNo wayNo).request = P.V2FCommand_ReadPageTransfer then
        (s2.modReq front chNo wayNo
          (fun r => { r with request := P.V2FCommand_ReadPageTrigger })).setDieStatus
          chNo wayNo DS_TR_FAIL
      else
        s2.setDieStatus chNo wayNo DS_FAIL
    else
      let e := s.headReq chNo wayNo
      let s1 := (s.emit (.printRequestFail label e.request chNo wayNo e.rowAddr
        (completionWord env P s chNo wayNo))).tick
      (s1.advanceFront chNo wayNo).setDieStatus chNo wayNo DS_IDLE
  else if reqStatus = RS_WARNING then
    warningBranch P s chNo wayNo
  else if reqStatus = RS_RUNNING then
    drainMailbox env P s chNo wayNo
  else
    s.emit .printWrongStatus

/-- The body shared by `case DS_SUB_EXE` and `case DS_SUB_REEXE`. -/
def subExeCase (env : Env α) (P : Params) (label : Nat) (s : FW α)
    (chNo wayNo reqStatus : Nat) : FW α :=
  if reqStatus = RS_DONE then
    let front := s.subFront chNo wayNo
    let e := s.subReqQueue front chNo wayNo
    let s1 :=
      if e.request = P.V2FCommand_ReadPageTrigger then
        s.modSubReq front chNo wayNo (fun r => { r with request := P.V2FCommand_ReadPageTransfer })
      else if e.request = LLSCommand_ReadRawPage then
        s.modSubReq front chNo wayNo
          (fun r => { r with request := P.V2FCommand_ReadPageTransferRaw })
      else
        s.advanceSubFront P chNo wayNo
    s1.setDieStatus chNo wayNo DS_IDLE
  else if reqStatus = RS_FAIL then
    if s.retryLimitTable chNo wayNo > 0 then
      let s1 : FW α :=
        { s with
          retryLimitTable := set2 s.retryLimitTable chNo wayNo (s.retryLimitTable chNo wayNo - 1) }
      let front := s1.subFront chNo wayNo
      let s2 := s1.modSubReq front chNo wayNo (fun r => { r with statusOption := STATUS_CHECK })
      if (s2.subReqQueue front chNo wayNo).request = P.V2FCommand_ReadPageTransfer then
        (s2.modSubReq front chNo wayNo
          (fun r => { r with request := P.V2FCommand_ReadPageTrigger })).setDieStatus
          chNo wayNo DS_SUB_TR_FAIL
      else
        s2.setDieStatus chNo wayNo DS_SUB_FAIL
    else
      let e := s.headSubReq chNo wayNo
      let s1 := (s.emit (.printRequestFail label e.request chNo wayNo e.rowAddr
        (completionWord env P s chNo wayNo))).tick
      let s2 := if e.request = LLSCommand_ReadRawPage then s1.emit (.writeByte e.pageDataBuf 0)
        else s1
      (s2.advanceSubFront P chNo wayNo).setDieStatus chNo wayNo DS_IDLE
  else if reqStatus = RS_RUNNING then
    s
  else
    s.emit .printWrongStatus

/-- `case DS_IDLE` of `ExeLowLevelReqPerDie`. -/
def idleCase [Add α] (env : Env α) (P : Params) (s : FW α) (chNo wayNo : Nat) : FW α :=
  if (s.dieStatusTable chNo wayNo).queueSelect = REQ_QUEUE then
    let r := PopFromReqQueue env P s chNo wayNo
    if r.2 ≠ 0 then
      let s1 : FW α :=
        { r.1 with retryLimitTable := set2 r.1.retryLimitTable chNo wayNo (P.RETRY_LIMIT : Int) }
      s1.setDieStatus chNo wayNo DS_EXE
    else
      drainMailbox env P r.1 chNo wayNo
  else
    let s1 := PopFromSubReqQueue P s chNo wayNo
    let s2 : FW α :=
      { s1 with retryLimitTable := set2 s1.retryLimitTable chNo wayNo (P.RETRY_LIMIT : Int) }
    s2.setDieStatus chNo wayNo DS_SUB_EXE

/-- `case DS_TR_REEXE` of `ExeLowLevelReqPerDie`. -/
def trReexeCase (env : Env α) (P : Params) (s : FW α) (chNo wayNo reqStatus : Nat) : FW α :=
  if reqStatus = RS_DONE then
    (s.modReq (s.front chNo wayNo) chNo wayNo
      (fun r => { r with request := P.V2FCommand_ReadPageTransfer })).setDieStatus
      chNo wayNo DS_FAIL
  else if reqStatus = RS_FAIL then
    if s.retryLimitTable chNo wayNo > 0 then
      let s1 : FW α :=
        { s with
          retryLimitTable :=
            set2 s.retryLimitTable chNo wayNo (s.retryLimitTable chNo wayNo - 1) }
      (s1.modReq (s1.front chNo wayNo) chNo wayNo
        (fun r => { r with statusOption := STATUS_CHECK })).setDieStatus chNo wayNo DS_TR_FAIL
    else
      let e := s.headReq chNo wayNo
      let s1 := (s.emit (.printRequestFail DS_TR_REEXE e.request chNo wayNo e.rowAddr
        (completionWord env P s chNo wayNo))).tick
      (s1.advanceFront chNo wayNo).setDieStatus chNo wayNo DS_IDLE
  else if reqStatus = RS_RUNNING then s
  else s.emit .printWrongStatus

/-- `case DS_SUB_TR_REEXE` of `ExeLowLevelReqPerDie`. -/
def subTrReexeCase (env : Env α) (P : Params) (s : FW α) (chNo wayNo reqStatus : Nat) : FW α :=
  if reqStatus = RS_DONE then
    (s.modSubReq (s.subFront chNo wayNo) chNo wayNo
      (fun r => { r with request := P.V2FCommand_ReadPageTransfer })).setDieStatus
      chNo wayNo DS_SUB_FAIL
  else if reqStatus = RS_FAIL then
    if s.retryLimitTable chNo wayNo > 0 then
      let s1 : FW α :=
        { s with
          retryLimitTable :=
            set2 s.retryLimitTable chNo wayNo (s.retryLimitTable chNo wayNo - 1) }
      (s1.modSubReq (s1.subFront chNo wayNo) chNo wayNo
        (fun r => { r with statusOption := STATUS_CHECK })).setDieStatus
        chNo wayNo DS_SUB_TR_FAIL
    else
      let e := s.headSubReq chNo wayNo
      let s1 := (s.emit (.printRequestFail DS_SUB_TR_REEXE e.request chNo wayNo e.rowAddr
        (completionWord env P s chNo wayNo))).tick
      (s1.advanceSubFront P chNo wayNo).setDieStatus chNo wayNo DS_IDLE
  else if reqStatus = RS_RUNNING then s
  else s.emit .printWrongStatus

/-- `ExeLowLevelReqPerDie`: the `switch` on `dieStatus` (the function always
returns 1). -/
def ExeLowLevelReqPerDie [Add α] (env : Env α) (P : Params) (s : FW α)
    (chNo wayNo reqStatus : Nat) : FW α :=
  let dieStatus := (s.dieStatusTable chNo wayNo).dieStatus
  if dieStatus = DS_IDLE then idleCase env P s chNo wayNo
  else if dieStatus = DS_EXE then primaryExeCase env P DS_EXE s chNo wayNo reqStatus
  else if dieStatus = DS_TR_FAIL then
    (PopFromReqQueue env P s chNo wayNo).1.setDieStatus chNo wayNo DS_TR_REEXE
  else if dieStatus = DS_TR_REEXE then trReexeCase env P s chNo wayNo reqStatus
  else if dieStatus = DS_FAIL then
    (PopFromReqQueue env P s chNo wayNo).1.setDieStatus chNo wayNo DS_REEXE
  else if dieStatus = DS_REEXE then primaryExeCase env P DS_REEXE s chNo wayNo reqStatus
  else if dieStatus = DS_SUB_EXE then subExeCase env P DS_SUB_EXE s chNo wayNo reqStatus
  else if dieStatus = DS_SUB_TR_FAIL then
    (PopFromSubReqQueue P s chNo wayNo).setDieStatus chNo wayNo DS_SUB_TR_REEXE
  else if dieStatus = DS_SUB_TR_REEXE then subTrReexeCase env P s chNo wayNo reqStatus
  else if dieStatus = DS_SUB_FAIL then
    (PopFromSubReqQueue P s chNo wayNo).setDieStatus chNo wayNo DS_SUB_REEXE
  else if dieStatus = DS_SUB_REEXE then subExeCase env P DS_SUB_REEXE s chNo wayNo reqStatus
  else s

/-! ## Views of the primary ring used in the statements -/

/-- Occupancy of the primary ring of `(chNo, wayNo)`. -/
def FW.occupancy (s : FW α) (chNo wayNo : Nat) : Nat :=
  ((s.rqPointer chNo wayNo).rear + REQ_QUEUE_DEPTH - (s.rqPointer chNo wayNo).front)
    % REQ_QUEUE_DEPTH

/-- The entries between front and rear of the primary ring of `(chNo, wayNo)`,
oldest first. -/
def FW.window (s : FW α) (chNo wayNo : Nat) : List ReqEntry :=
  (List.range (s.occupancy chNo wayNo)).map
    (fun i => s.reqQueue (((s.rqPointer chNo wayNo).front + i) % REQ_QUEUE_DEPTH) chNo wayNo)

/-- The two operations on the primary rings: a non-blocking push, and the
advance of the front of a ring by the state machine. -/
inductive RingOp where
  | push (lowLevelCmd : LowLevelReqInfo) (openSlots : Nat)
  | advance (chNo wayNo : Nat)

/-- Effect of a ring operation.  The front of a ring is advanced only past a
request that is in the ring, so `advance` leaves an empty ring alone. -/
def RingOp.step (P : Params) (s : FW α) : RingOp → FW α
  | .push lowLevelCmd openSlots => (PushToReqQueueNonBlocking P s lowLevelCmd openSlots).1
  | .advance chNo wayNo =>
    if (s.rqPointer chNo wayNo).front = (s.rqPointer chNo wayNo).rear then s
    else s.advanceFront chNo wayNo

/-- The reserve asked for by a push is smaller than the ring. -/
def RingOp.reserveOk : RingOp → Prop
  | .push _ openSlots => openSlots < REQ_QUEUE_DEPTH
  | .advance _ _ => True

/-- Run a sequence of ring operations. -/
def ringRun (P : Params) (s : FW α) (ops : List RingOp) : FW α :=
  ops.foldl (RingOp.step P) s

/-! ## A concrete build and concrete states, for evaluation -/

/-- A build with 8 channels of 8 ways, `RETRY_LIMIT = 3`, 16 KiB pages of four
4 KiB sectors, and the command codes of the Cosmos+ flash controller driver. -/
def exampleParams : Params where
  CHANNEL_NUM := 8
  WAY_NUM := 8
  DIE_NUM := 64
  CHANNEL_NUM_PER_HP_PORT := 4
  RETRY_LIMIT := 3
  BIT_ERROR_THRESHOLD := 20
  slcMode := true
  PAGE_NUM_PER_LUN := 262144
  PAGE_NUM_PER_BLOCK := 128
  PAGE_NUM_PER_SLC_BLOCK := 128
  MAX_PAGE_NUM_PER_SLC_LUN := 524288
  PAGE_NUM_PER_MLC_BLOCK := 256
  MAX_BLOCK_NUM_PER_LUN := 4096
  MAX_LUN_NUM_PER_DIE := 2
  SECTOR_SIZE_FTL := 4096
  SECTOR_NUM_PER_PAGE := 4
  PAGE_SIZE := 16384
  BUFFER_ADDR := 0x10000000
  BUF_ENTRY_SIZE := 16384
  BUF_ENTRY_NUM := 16384
  SPARE_ADDR := 0x1F000000
  V2FCommand_ReadPageTrigger := 13
  V2FCommand_ReadPageTransfer := 18
  V2FCommand_ProgramPage := 28
  V2FCommand_BlockErase := 37
  V2FCommand_ReadPageTransferRaw := 55
  V2FCommand_Reset := 1
  V2FCommand_SetFeatures := 6

/-- An environment in which nothing is ready, nothing is busy and all memory
written by the hardware reads as zero. -/
def quietEnv : Env Int where
  readyBusy := fun _ _ => 0
  controllerBusy := fun _ _ => false
  beforeNandReset := fun _ => 0
  completeTable0 := fun _ _ _ => 0
  completeTable1 := fun _ _ _ => 0
  errorInfoTable0 := fun _ _ _ _ => 0
  errorInfoTable1 := fun _ _ _ _ => 0
  CrcValid := fun _ => true
  SpareChunkValid := fun _ => true
  PageChunkValid := fun _ => true
  WorstChunkErrorCount := fun _ => 0
  rxDmaPartialDone := fun _ _ _ => true
  txDmaPartialDone := fun _ _ _ => true
  fifoTailRx := fun _ => 0
  fifoTailTx := fun _ => 0
  rxOverFlowCnt := fun _ => 0
  txOverFlowCnt := fun _ => 0
  CheckBufHit := fun _ _ => 0x7fff
  AllocateBufEntry := fun _ _ => 0
  ppn := fun _ _ _ => 0
  pageData := fun _ _ _ => 0

/-- A translation buffer entry with every field zero. -/
def blankTransBufEntry : TransBufEntry where
  perPageSLBAs := fun _ => 0
  perPageStartingIndex := fun _ => 0
  perPageInputLength := fun _ => 0
  perResultSectorInputEmbeddings := fun _ => 0
  perResultSectorCompletedEmbeddings := fun _ => 0
  slba := 0
  requestId := 0
  nlb := 0
  nlbRequested := 0
  nlbCompleted := 0
  nPages := 0
  pagesTranslated := 0
  configured := 0
  allocated := 0
  rxDmaExe := 0
  rxDmaTail := 0
  rxDmaOverFlowCnt := 0
  prev := 0xffff
  next := 0xffff

/-- A configuration with no pairs. -/
def blankTransConfig : TransConfig where
  attributeSize := 4
  embeddingLength := 32
  resultEmbeddings := 0
  inputEmbeddings := 0
  tableID := 0
  embeddingIDList := fun _ => { result := 0, embeddingID := 0 }

/-- The state after initialisation of an 8-way build: all rings empty, all dies
idle, and on every channel the ways `0 .. 7` chained on the idle list in
order; every cache entry invalid, every mailbox empty. -/
def blankFW : FW Int where
  reqQueue := fun _ _ _ => default
  rqPointer := fun _ _ => { front := 0, rear := 0 }
  subReqQueue := fun _ _ _ => default
  srqPointer := fun _ _ => { front := 0, rear := 0 }
  dieStatusTable := fun _ w =>
    { dieStatus := DS_IDLE, queueSelect := REQ_QUEUE, reqQueueEmpty := 1, subReqQueueEmpty := 1,
      prevWay := if w = 0 then 0xf else w - 1, nextWay := if w + 1 < 8 then w + 1 else 0xf }
  newBadBlockTable := fun _ _ _ => 0xffffffff
  retryLimitTable := fun _ _ => 0
  wayPriorityTable := fun _ =>
    { head := fun l => if l = WayList.idle then 0 else 0xf,
      tail := fun l => if l = WayList.idle then 7 else 0xf }
  transPageReqQueue := fun _ _ => default
  transReqQueue := fun _ => default
  transReadReqQueue := fun _ => default
  transRqPointer :=
    { head := 0xffff, tail := 0xffff, current := 0xffff, availhead := 0xffff, availtail := 0xffff }
  transReadRqPointer :=
    { head := 0xffff, tail := 0xffff, current := 0xffff, availhead := 0xffff, availtail := 0xffff }
  reservedReq := 0
  badBlockUpdate := 0
  transConfig := fun _ => blankTransConfig
  transMap := fun _ => blankTransBufEntry
  transAvailQ := (0xffff, 0xffff)
  transCache := fun _ => { valid := 0, tag := 0, embedding := fun _ => 0 }
  transBuf := fun _ => 0
  cache_hits := 0
  cache_misses := 0
  bufMap := fun _ => default
  bufLruList := fun _ => { head := 0x7fff, tail := 0x7fff }
  clock := 0
  trace := []
  halted := false

/-- A push of a `ReadPageTrigger` for die `(0, 0)`. -/
def exampleReadCmd : LowLevelReqInfo :=
  { (default : LowLevelReqInfo) with request := 13, rowAddr := 5, bufferEntry := 2 }

/-- A state in which the primary ring of die `(0, 0)` holds 255 requests
(`front = 1`, `rear = 0`). -/
def fullRingFW : FW Int :=
  { blankFW with rqPointer := set2 blankFW.rqPointer 0 0 { front := 1, rear := 0 } }

/-! ## Runs of the per-die state machine, for the statements about runs -/

/-- The steps that can touch a die between two observations: a call of
`ExeLowLevelReqPerDie`, the mailbox-drain block that `ExeLowLevelReqPerCh`
executes for a way, and a push to a primary ring. -/
inductive DieOp where
  | exe (chNo wayNo reqStatus : Nat)
  | drain (chNo wayNo : Nat)
  | push (lowLevelCmd : LowLevelReqInfo) (openSlots : Nat)

/-- Effect of one step. -/
def DieOp.step [Add α] (env : Env α) (P : Params) (s : FW α) : DieOp → FW α
  | .exe chNo wayNo reqStatus => ExeLowLevelReqPerDie env P s chNo wayNo reqStatus
  | .drain chNo wayNo => drainMailbox env P s chNo wayNo
  | .push lowLevelCmd openSlots => (PushToReqQueueNonBlocking P s lowLevelCmd openSlots).1

/-- Run a sequence of steps. -/
def dieRun [Add α] (env : Env α) (P : Params) (s : FW α) (ops : List DieOp) : FW α :=
  ops.foldl (DieOp.step env P) s

/-- The step is a call of `ExeLowLevelReqPerDie` for die `(chNo, wayNo)` that
completes, with `RS_DONE`, a translate-tagged `ReadPageTransfer` at the head of
the primary ring. -/
def completesTranslateRead (P : Params) (s : FW α) (chNo wayNo : Nat) : DieOp → Bool
  | .exe c w reqStatus =>
    decide (c = chNo ∧ w = wayNo ∧ reqStatus = RS_DONE ∧
      ((s.dieStatusTable chNo wayNo).dieStatus = DS_EXE ∨
        (s.dieStatusTable chNo wayNo).dieStatus = DS_REEXE) ∧
      (s.headReq chNo wayNo).request ≠ P.V2FCommand_ReadPageTrigger ∧
      (s.headReq chNo wayNo).request = P.V2FCommand_ReadPageTransfer ∧
      (s.headReq chNo wayNo).translate ≠ 0)
  | _ => false

/-- Number of translate-tagged reads of die `(chNo, wayNo)` completed with
`RS_DONE` during a run from `s`. -/
def completedTranslateReads [Add α] (env : Env α) (P : Params) (chNo wayNo : Nat) :
    FW α → List DieOp → Nat
  | _, [] => 0
  | s, op :: ops =>
    (if completesTranslateRead P s chNo wayNo op then 1 else 0) +
      completedTranslateReads env P chNo wayNo (DieOp.step env P s op) ops

/-- The event is a `translatePage` call made from the mailbox of `(chNo, wayNo)`. -/
def Event.isMailboxCall (chNo wayNo : Nat) : Event → Bool
  | .translatePageFromMailbox c w _ _ _ => decide (c = chNo ∧ w = wayNo)
  | _ => false

/-- Number of `translatePage` calls made from the mailbox of `(chNo, wayNo)`. -/
def mailboxCalls (chNo wayNo : Nat) (trace : List Event) : Nat :=
  trace.countP (Event.isMailboxCall chNo wayNo)

/-- One if the mailbox of `(chNo, wayNo)` is valid, zero otherwise. -/
def FW.mailboxPending (s : FW α) (chNo wayNo : Nat) : Nat :=
  if (s.transPageReqQueue chNo wayNo).valid ≠ 0 then 1 else 0

/-- The status handed to `ExeLowLevelReqPerDie` at step `i` of a run in which every
status check of the die fails: `RS_FAIL`, except in `DS_FAIL` and `DS_TR_FAIL`,
where the function does not look at its status argument and the caller's value
`other i` is arbitrary (the arbiter passes `NONE`). -/
def failingStatus (s : FW α) (chNo wayNo : Nat) (other : Nat → Nat) (i : Nat) : Nat :=
  if (s.dieStatusTable chNo wayNo).dieStatus = DS_FAIL ∨
      (s.dieStatusTable chNo wayNo).dieStatus = DS_TR_FAIL then other i
  else RS_FAIL

/-- `n` consecutive calls of `ExeLowLevelReqPerDie` for one die, numbered from `i`,
every status check failing. -/
def failRun [Add α] (env : Env α) (P : Params) (chNo wayNo : Nat) (other : Nat → Nat) :
    Nat → Nat → FW α → FW α
  | _, 0, s => s
  | i, n + 1, s =>
    failRun env P chNo wayNo other (i + 1) n
      (ExeLowLevelReqPerDie env P s chNo wayNo (failingStatus s chNo wayNo other i))

/-- The events with which `PopFromReqQueue` answers a head request that is not a
DMA request. -/
def Event.isPop : Event → Bool
  | .ReadPageTriggerAsync _ _ _ => true
  | .ReadPageTransferAsync _ _ _ _ _ _ _ => true
  | .ProgramPageAsync _ _ _ _ _ => true
  | .printNotDefinedRequest _ => true
  | _ => false

/-- Number of requests issued by `PopFromReqQueue` in a trace. -/
def popCount (trace : List Event) : Nat := trace.countP Event.isPop

/-- The state of a die whose head request is being executed for the `k`-th retry. -/
def Retrying (P : Params) (s0 : FW α) (c0 : Nat) (chNo wayNo k : Nat) (t : FW α) : Prop :=
  ((t.dieStatusTable chNo wayNo).dieStatus = DS_EXE ∨
    (t.dieStatusTable chNo wayNo).dieStatus = DS_REEXE ∨
    (t.dieStatusTable chNo wayNo).dieStatus = DS_TR_REEXE) ∧
  t.rqPointer chNo wayNo = s0.rqPointer chNo wayNo ∧
  t.retryLimitTable chNo wayNo = (P.RETRY_LIMIT : Int) - (k : Int) ∧
  popCount t.trace = c0 + k ∧
  (t.headReq chNo wayNo).request ≠ LLSCommand_RxDMA ∧
  (t.headReq chNo wayNo).request ≠ LLSCommand_TxDMA

/-- Die `(chNo, wayNo)` is in state `ds` with retry counter `r`, its ring pointers are
those of `s0`, and the head of its primary ring is a `ReadPageTrigger`. -/
def TriggerState (P : Params) (s0 : FW α) (chNo wayNo : Nat) (ds : Nat) (r : Int) (t : FW α) :
    Prop :=
  (t.dieStatusTable chNo wayNo).dieStatus = ds ∧
  t.retryLimitTable chNo wayNo = r ∧
  t.rqPointer chNo wayNo = s0.rqPointer chNo wayNo ∧
  (t.headReq chNo wayNo).request = P.V2FCommand_ReadPageTrigger

/-- The blank state with a `ReadPageTrigger` for die `(0, 0)` queued. -/
def readQueuedFW : FW Int := (PushToReqQueueNonBlocking exampleParams blankFW exampleReadCmd 0).1

/-- The state after the queued `ReadPageTrigger` of die `(0, 0)` has been issued: `DS_EXE`. -/
def exeFW : FW Int := ExeLowLevelReqPerDie quietEnv exampleParams readQueuedFW 0 0 NONE

/-- Die `(0, 0)` in `DS_EXE` with a translate-tagged `ReadPageTransfer` at the head of its
primary ring and a page of an earlier read still pending in its mailbox. -/
def handoffFW : FW Int :=
  { blankFW with
    reqQueue := set3 blankFW.reqQueue 0 0 0
      { (default : ReqEntry) with
        request := 18, translate := 1, transBufferEntry := 1, pageDataBuf := 0x1000,
        transPageIdx := 2, statusOption := STATUS_CHECK }
    rqPointer := set2 blankFW.rqPointer 0 0 { front := 0, rear := 1 }
    dieStatusTable := set2 blankFW.dieStatusTable 0 0
      { (blankFW.dieStatusTable 0 0) with dieStatus := DS_EXE }
    retryLimitTable := set2 blankFW.retryLimitTable 0 0 3
    transPageReqQueue := set2 blankFW.transPageReqQueue 0 0
      { transBufferEntry := 0, pageDataBuf := 0x2000, transPageIdx := 0, valid := 1 } }

/-! ## The flash-resident table and a full translation, for the statements -/

/-- Content of flash page `q` of a table whose attributes are `table 0, table 1, ...`:
a page holds `PAGE_SIZE / attributeSize` attributes. -/
def tablePage (P : Params) (table : Nat → α) (attributeSize q : Nat) : Nat → α :=
  fun x => table (q * (P.PAGE_SIZE / attributeSize) + x)

/-- The flash contents of the page planned in slot `pageIdx` of entry `entryIdx`: the table
page addressed by the slot's SLBA, counted from the SLBA of the table. -/
def slotPage (P : Params) (table : Nat → α) (s : FW α) (entryIdx pageIdx : Nat) : Nat → α :=
  tablePage P table (s.transConfig entryIdx).attributeSize
    (((s.transMap entryIdx).perPageSLBAs pageIdx - (s.transMap entryIdx).slba)
      / P.SECTOR_NUM_PER_PAGE)

/-- `translatePage` applied to the plan slots listed in `order`, each with the flash contents
of its page. -/
def translatePlanned [Add α] (P : Params) (table : Nat → α) (s : FW α) (entryIdx : Nat)
    (order : List Nat) : FW α :=
  order.foldl (fun st pageIdx =>
    translatePage P st entryIdx (slotPage P table st entryIdx pageIdx) pageIdx) s

/-- What one pair of the plan adds to cell `c` of the result memory when `translatePage`
reduces it from the page buffer `page`. -/
def pairContribution [Zero α] (P : Params) (config : TransConfig) (entryIdx : Nat)
    (page : Nat → α) (base_embedding_id pair_index c : Nat) : α :=
  let embedding_offset :=
    ((config.embeddingIDList pair_index).embeddingID + (U32 - base_embedding_id % U32)) % U32
  let fromAtr := (embedding_offset * config.embeddingLength) % U32
  let toAtr := resultBase P entryIdx
    + ((config.embeddingIDList pair_index).result * config.embeddingLength) % U32
  if toAtr ≤ c ∧ c < toAtr + config.embeddingLength then page (fromAtr + (c - toAtr)) else 0

/-- The page id that `ConfigureTransBufEntry` computes for pair `i`. -/
def pageIdOf (P : Params) (config : TransConfig) (i : Nat) : Nat :=
  (((config.embeddingIDList i).embeddingID * config.attributeSize * config.embeddingLength)
    % U32) / P.PAGE_SIZE

/-- The SLBA recorded for a plan slot of page id `q`. -/
def slbaOfPage (P : Params) (slba q : Nat) : Nat :=
  (slba + (q * P.SECTOR_NUM_PER_PAGE) % U32) % U32

/-- Pair `i` of the configuration does not hit the cache `cache`. -/
def cacheMiss (cache : Nat → TransEmbedCacheEntry α) (config : TransConfig) (i : Nat) : Prop :=
  ¬((cache (cacheKey (config.embeddingIDList i).embeddingID config.tableID).1).valid ≠ 0 ∧
    (cache (cacheKey (config.embeddingIDList i).embeddingID config.tableID).1).tag
      = (cacheKey (config.embeddingIDList i).embeddingID config.tableID).2)

/-- The fields of a translation buffer entry that make up its page plan. -/
def SamePlan (st st' : FW α) : Prop :=
  st'.transConfig = st.transConfig ∧
  ∀ e, (st'.transMap e).perPageSLBAs = (st.transMap e).perPageSLBAs ∧
    (st'.transMap e).perPageStartingIndex = (st.transMap e).perPageStartingIndex ∧
    (st'.transMap e).perPageInputLength = (st.transMap e).perPageInputLength ∧
    (st'.transMap e).slba = (st.transMap e).slba ∧
    (st'.transMap e).nPages = (st.transMap e).nPages

/-- Loop invariant of the pair loop of `ConfigureTransBufEntry` after `m` pairs that all
missed the cache; `s` is the state on entry of the function. -/
structure PlanInv (P : Params) (s : FW α) (e m : Nat) (st : FW α × ConfigLocals) : Prop where
  cfg : st.1.transConfig = s.transConfig
  cache : st.1.transCache = s.transCache
  buf : st.1.transBuf = s.transBuf
  slba : (st.1.transMap e).slba = (s.transMap e).slba
  start0 : (st.1.transMap e).perPageStartingIndex 0 = 0
  next : ∀ j, j < st.2.page_index →
    (st.1.transMap e).perPageStartingIndex (j + 1)
      = (st.1.transMap e).perPageStartingIndex j + (st.1.transMap e).perPageInputLength j
  cur : (st.1.transMap e).perPageStartingIndex st.2.page_index + st.2.cur_page_input_length = m
  slbaCur : (st.1.transMap e).perPageSLBAs st.2.page_index
    = slbaOfPage P (s.transMap e).slba st.2.page_id
  curPid : ∀ i, (st.1.transMap e).perPageStartingIndex st.2.page_index ≤ i → i < m →
    pageIdOf P (s.transConfig e) i = st.2.page_id
  closed : ∀ j, j < st.2.page_index → ∀ i, (st.1.transMap e).perPageStartingIndex j ≤ i →
    i < (st.1.transMap e).perPageStartingIndex (j + 1) →
    (st.1.transMap e).perPageSLBAs j
      = slbaOfPage P (s.transMap e).slba (pageIdOf P (s.transConfig e) i)

/-- What `translatePage` on plan slot `j` of entry `e`, fed the flash contents of the slot's
page, adds to cell `c` of the result memory; read off the plan held in `s`. -/
def slotSum [AddCommMonoid α] (P : Params) (table : Nat → α) (s : FW α) (e j c : Nat) : α :=
  ((List.range ((s.transMap e).perPageInputLength j)).map
    (fun i => pairContribution P (s.transConfig e) e (slotPage P table s e j)
      ((((s.transMap e).perPageSLBAs j + (U32 - (s.transMap e).slba % U32)) % U32
          * P.SECTOR_SIZE_FTL % U32)
        / ((s.transConfig e).attributeSize * (s.transConfig e).embeddingLength % U32))
      ((s.transMap e).perPageStartingIndex j + i) c)).sum


/-- A table whose attribute `i` holds `i + 1`. -/
def exampleTable : Nat → Int := fun i => (i : Int) + 1

/-- Three pairs over two result rows, drawn from two flash pages of the table:
`(0, 1)`, `(1, 1)` and `(0, 5000)`, with two 4-byte attributes per row. -/
def gatherConfig : TransConfig :=
  { attributeSize := 4, embeddingLength := 2, resultEmbeddings := 2, inputEmbeddings := 3,
    tableID := 0,
    embeddingIDList := fun i =>
      if i = 0 then { result := 0, embeddingID := 1 }
      else if i = 1 then { result := 1, embeddingID := 1 }
      else { result := 0, embeddingID := 5000 } }

/-- The blank firmware state with `gatherConfig` written to configuration frame 0 and a cold
cache. -/
def gatherFW : FW Int :=
  { blankFW with transConfig := set1 blankFW.transConfig 0 gatherConfig }

/-! ## A warm and a cold cache, for the statements -/

/-- One result row of two 4-byte attributes fed by the single pair `(0, 1)`. -/
def singleConfig : TransConfig :=
  { attributeSize := 4, embeddingLength := 2, resultEmbeddings := 1, inputEmbeddings := 1,
    tableID := 0, embeddingIDList := fun _ => { result := 0, embeddingID := 1 } }

/-- One result row fed by the two pairs `(0, 1)` and `(0, 2)`, both on flash page 0. -/
def doubleConfig : TransConfig :=
  { attributeSize := 4, embeddingLength := 2, resultEmbeddings := 1, inputEmbeddings := 2,
    tableID := 0,
    embeddingIDList := fun i =>
      if i = 0 then { result := 0, embeddingID := 1 } else { result := 0, embeddingID := 2 } }

/-- The blank state with `config` in configuration frame 0 and every cache entry invalid. -/
def coldFW (config : TransConfig) : FW Int :=
  { blankFW with transConfig := set1 blankFW.transConfig 0 config }

/-- The state `coldFW config` with the cache entry of `(embeddingID 1, tableID 0)` valid,
tag-matching and holding row 1 of `exampleTable`, the vector that flash holds. -/
def warmFW (config : TransConfig) : FW Int :=
  { coldFW config with
    transCache := set1 (coldFW config).transCache (cacheKey 1 0).1
      { valid := 1, tag := (cacheKey 1 0).2, embedding := fun k => exampleTable (1 * 2 + k) } }

/-- The result memory after `ConfigureTransBufEntry` on entry 0 of `s` followed by
`translatePage` on every planned page `0 .. nPages - 1`. -/
def configureAndTranslate (s : FW Int) : Nat → Int :=
  (translatePlanned exampleParams exampleTable (ConfigureTransBufEntry exampleParams s 0) 0
    (List.range ((ConfigureTransBufEntry exampleParams s 0).transMap 0).nPages)).transBuf

/-! ## The way lists (`LinkTo...`, `FindPriorityTable`) -/

/-- Write the head or tail field of list `l`. -/
def setList (f : WayList → Nat) (l : WayList) (v : Nat) : WayList → Nat :=
  fun l' => if l' = l then v else f l'

/-- `LinkToIdle`, `LinkToStatusReport`, `LinkToNvmeDma`, `LinkToNandTrigger`,
`LinkToNandTrigNTrans`, `LinkToNandTransfer`, `LinkToNandStatus` and `LinkToNandErase`: the
eight functions are the same text up to the list `l` whose head and tail they use.  `prevWay`,
`nextWay` and the heads and tails are 4-bit fields, so every value stored is taken mod 16. -/
def LinkTo (l : WayList) (s : FW α) (chNo wayNo : Nat) : FW α :=
  if (s.wayPriorityTable chNo).tail l ≠ 0xf then
    let s1 := s.modDie chNo wayNo (fun d =>
      { d with prevWay := (s.wayPriorityTable chNo).tail l % 16 })
    let s2 := s1.modDie chNo wayNo (fun d => { d with nextWay := 0xf })
    let s3 := s2.modDie chNo ((s2.wayPriorityTable chNo).tail l) (fun d =>
      { d with nextWay := wayNo % 16 })
    s3.modWayPriority chNo (fun p => { p with tail := setList p.tail l (wayNo % 16) })
  else
    let s1 := s.modDie chNo wayNo (fun d => { d with prevWay := 0xf })
    let s2 := s1.modDie chNo wayNo (fun d => { d with nextWay := 0xf })
    let s3 := s2.modWayPriority chNo (fun p => { p with head := setList p.head l (wayNo % 16) })
    s3.modWayPriority chNo (fun p => { p with tail := setList p.tail l (wayNo % 16) })

/-- `LinkToIdle`. -/
def LinkToIdle (s : FW α) (chNo wayNo : Nat) : FW α := LinkTo .idle s chNo wayNo

/-- `LinkToStatusReport`. -/
def LinkToStatusReport (s : FW α) (chNo wayNo : Nat) : FW α := LinkTo .statusReport s chNo wayNo

/-- `LinkToNvmeDma`. -/
def LinkToNvmeDma (s : FW α) (chNo wayNo : Nat) : FW α := LinkTo .nvmeDma s chNo wayNo

/-- `LinkToNandTrigger`. -/
def LinkToNandTrigger (s : FW α) (chNo wayNo : Nat) : FW α := LinkTo .nandTrigger s chNo wayNo

/-- `LinkToNandTrigNTrans`. -/
def LinkToNandTrigNTrans (s : FW α) (chNo wayNo : Nat) : FW α :=
  LinkTo .nandTrigNTrans s chNo wayNo

/-- `LinkToNandTransfer`. -/
def LinkToNandTransfer (s : FW α) (chNo wayNo : Nat) : FW α := LinkTo .nandTransfer s chNo wayNo

/-- `LinkToNandStatus`. -/
def LinkToNandStatus (s : FW α) (chNo wayNo : Nat) : FW α := LinkTo .nandStatus s chNo wayNo

/-- `LinkToNandErase`. -/
def LinkToNandErase (s : FW α) (chNo wayNo : Nat) : FW α := LinkTo .nandErase s chNo wayNo

/-- The four-branch block with which `ExeLowLevelReqPerCh` takes `wayNo` out of the list `l`
it is sweeping.  `slip` is true for the copy of the block in the sweep of the erase list, whose
second branch assigns `nandEraseHead` where the other seven copies assign the tail. -/
def unlinkWay (l : WayList) (slip : Bool) (s : FW α) (chNo wayNo : Nat) : FW α :=
  if (s.dieStatusTable chNo wayNo).nextWay ≠ 0xf ∧ (s.dieStatusTable chNo wayNo).prevWay ≠ 0xf
  then
    let s1 := s.modDie chNo (s.dieStatusTable chNo wayNo).prevWay (fun d =>
      { d with nextWay := (s.dieStatusTable chNo wayNo).nextWay % 16 })
    s1.modDie chNo (s1.dieStatusTable chNo wayNo).nextWay (fun d =>
      { d with prevWay := (s1.dieStatusTable chNo wayNo).prevWay % 16 })
  else if (s.dieStatusTable chNo wayNo).nextWay = 0xf
      ∧ (s.dieStatusTable chNo wayNo).prevWay ≠ 0xf then
    let s1 := s.modDie chNo (s.dieStatusTable chNo wayNo).prevWay (fun d =>
      { d with nextWay := 0xf })
    if slip then
      s1.modWayPriority chNo (fun p =>
        { p with head := setList p.head l ((s1.dieStatusTable chNo wayNo).prevWay % 16) })
    else
      s1.modWayPriority chNo (fun p =>
        { p with tail := setList p.tail l ((s1.dieStatusTable chNo wayNo).prevWay % 16) })
  else if (s.dieStatusTable chNo wayNo).nextWay ≠ 0xf
      ∧ (s.dieStatusTable chNo wayNo).prevWay = 0xf then
    let s1 := s.modDie chNo (s.dieStatusTable chNo wayNo).nextWay (fun d =>
      { d with prevWay := 0xf })
    s1.modWayPriority chNo (fun p =>
      { p with head := setList p.head l ((s1.dieStatusTable chNo wayNo).nextWay % 16) })
  else
    let s1 := s.modWayPriority chNo (fun p => { p with head := setList p.head l 0xf })
    s1.modWayPriority chNo (fun p => { p with tail := setList p.tail l 0xf })

/-- The tail of `FindPriorityTable`: the list chosen by the request at the front. -/
def listOfRequest (P : Params) (request : Nat) : WayList :=
  if request ≥ LLSCommand_RxDMA then .nvmeDma
  else if request = P.V2FCommand_ReadPageTrigger ∨ request = LLSCommand_ReadRawPage then
    .nandTrigger
  else if request = P.V2FCommand_ReadPageTransfer
      ∨ request = P.V2FCommand_ReadPageTransferRaw then .nandTransfer
  else if request = P.V2FCommand_ProgramPage then .nandTrigNTrans
  else if request = P.V2FCommand_BlockErase then .nandErase
  else .nandStatus

/-- `FindPriorityTable`. -/
def FindPriorityTable (P : Params) (s : FW α) (chNo wayNo firstQueue : Nat) : FW α :=
  if firstQueue = REQ_QUEUE then
    if (s.rqPointer chNo wayNo).front = (s.rqPointer chNo wayNo).rear then
      let s1 := s.modDie chNo wayNo (fun d => { d with reqQueueEmpty := 1 })
      let s2 := s1.modDie chNo wayNo (fun d => { d with queueSelect := SUB_REQ_QUEUE })
      if (s2.srqPointer chNo wayNo).front = (s2.srqPointer chNo wayNo).rear then
        let s3 := s2.modDie chNo wayNo (fun d => { d with subReqQueueEmpty := 1 })
        LinkToIdle s3 chNo wayNo
      else
        LinkTo (listOfRequest P (s2.headSubReq chNo wayNo).request) s2 chNo wayNo
    else
      let s1 := s.modDie chNo wayNo (fun d => { d with queueSelect := REQ_QUEUE })
      LinkTo (listOfRequest P (s1.headReq chNo wayNo).request) s1 chNo wayNo
  else
    if (s.srqPointer chNo wayNo).front = (s.srqPointer chNo wayNo).rear then
      let s1 := s.modDie chNo wayNo (fun d => { d with subReqQueueEmpty := 1 })
      let s2 := s1.modDie chNo wayNo (fun d => { d with queueSelect := REQ_QUEUE })
      if (s2.rqPointer chNo wayNo).front = (s2.rqPointer chNo wayNo).rear then
        let s3 := s2.modDie chNo wayNo (fun d => { d with reqQueueEmpty := 1 })
        LinkToIdle s3 chNo wayNo
      else
        LinkTo (listOfRequest P (s2.headReq chNo wayNo).request) s2 chNo wayNo
    else
      let s1 := s.modDie chNo wayNo (fun d => { d with queueSelect := SUB_REQ_QUEUE })
      LinkTo (listOfRequest P (s1.headSubReq chNo wayNo).request) s1 chNo wayNo

/-! ## Status checks (`CheckReqStatusAsync`, `CheckSubReqStatusAsync`, `CheckDMA`) -/

/-- The two error-information words of `(chNo, wayNo)`. -/
def errorInfoWord (env : Env α) (P : Params) (s : FW α) (chNo wayNo k : Nat) : Nat :=
  if chNo < P.CHANNEL_NUM_PER_HP_PORT then env.errorInfoTable0 s.clock chNo wayNo k
  else env.errorInfoTable1 s.clock (chNo - P.CHANNEL_NUM_PER_HP_PORT) wayNo k

/-- `CheckReqErrorInfo`. -/
def CheckReqErrorInfo (env : Env α) (P : Params) (s : FW α) (chNo wayNo : Nat) : Nat :=
  let errorInfo0 := errorInfoWord env P s chNo wayNo 0
  let errorInfo1 := errorInfoWord env P s chNo wayNo 1
  if env.CrcValid errorInfo0 then
    if env.SpareChunkValid errorInfo0 then
      if env.PageChunkValid errorInfo1 then
        if env.WorstChunkErrorCount errorInfo0 > P.BIT_ERROR_THRESHOLD then EI_WARNING
        else EI_PASS
      else EI_FAIL
    else EI_FAIL
  else EI_FAIL

/-- `CheckSubReqErrorInfo`. -/
def CheckSubReqErrorInfo (env : Env α) (P : Params) (s : FW α) (chNo wayNo : Nat) : Nat :=
  let errorInfo0 := errorInfoWord env P s chNo wayNo 0
  let errorInfo1 := errorInfoWord env P s chNo wayNo 1
  if env.CrcValid errorInfo0 then
    if env.SpareChunkValid errorInfo0 then
      if env.PageChunkValid errorInfo1 then EI_PASS else EI_FAIL
    else EI_FAIL
  else EI_FAIL

/-- The branch `statusOption == CHECK_STATUS_REPORT` shared by the two status checks: the
returned status and whether `statusOption` goes back to `STATUS_CHECK`. -/
def statusReportVerdict (statusReport : Nat) : Nat × Bool :=
  if statusReport % 2 = 1 then
    let status := statusReport / 2
    if status &&& 0x60 = 0x60 then
      if status &&& 3 ≠ 0 then (RS_FAIL, false) else (RS_DONE, false)
    else (RS_RUNNING, true)
  else (RS_RUNNING, false)

/-- `CheckReqStatusAsync`: the new state and the returned request status. -/
def CheckReqStatusAsync (env : Env α) (P : Params) (s : FW α) (chNo wayNo : Nat) : FW α × Nat :=
  let front := s.front chNo wayNo
  let previousReq := (s.reqQueue front chNo wayNo).request
  if previousReq = P.V2FCommand_ReadPageTransfer then
    let completion := completionWord env P s chNo wayNo
    let s1 := s.tick
    if completion % 2 = 1 then
      let errorInfo := CheckReqErrorInfo env P s1 chNo wayNo
      if errorInfo = EI_PASS then (s1.tick, RS_DONE)
      else if errorInfo = EI_WARNING then (s1.tick, RS_WARNING)
      else (s1.tick, RS_FAIL)
    else (s1, RS_RUNNING)
  else if (s.reqQueue front chNo wayNo).statusOption = STATUS_CHECK then
    let s1 := s.emit (.StatusCheckAsync chNo wayNo (hpTable P chNo).1 (hpTable P chNo).2)
    (s1.modReq front chNo wayNo (fun e => { e with statusOption := CHECK_STATUS_REPORT }),
      RS_RUNNING)
  else if (s.reqQueue front chNo wayNo).statusOption = CHECK_STATUS_REPORT then
    let v := statusReportVerdict (completionWord env P s chNo wayNo)
    let s1 := s.tick
    if v.2 then
      (s1.modReq front chNo wayNo (fun e => { e with statusOption := STATUS_CHECK }), v.1)
    else (s1, v.1)
  else (s, RS_RUNNING)

/-- `CheckSubReqStatusAsync`: the new state and the returned request status. -/
def CheckSubReqStatusAsync (env : Env α) (P : Params) (s : FW α) (chNo wayNo : Nat) :
    FW α × Nat :=
  let front := s.subFront chNo wayNo
  let previousReq := (s.subReqQueue front chNo wayNo).request
  if previousReq = P.V2FCommand_ReadPageTransfer then
    let completion := completionWord env P s chNo wayNo
    let s1 := s.tick
    if completion % 2 = 1 then
      let errorInfo := CheckSubReqErrorInfo env P s1 chNo wayNo
      if errorInfo = EI_PASS then (s1.tick, RS_DONE) else (s1.tick, RS_FAIL)
    else (s1, RS_RUNNING)
  else if previousReq = P.V2FCommand_ReadPageTransferRaw then
    let completion := completionWord env P s chNo wayNo
    if completion % 2 = 1 then (s.tick, RS_DONE) else (s.tick, RS_RUNNING)
  else if (s.subReqQueue front chNo wayNo).statusOption = STATUS_CHECK then
    let s1 := s.emit (.StatusCheckAsync chNo wayNo (hpTable P chNo).1 (hpTable P chNo).2)
    (s1.modSubReq front chNo wayNo (fun e => { e with statusOption := CHECK_STATUS_REPORT }),
      RS_RUNNING)
  else if (s.subReqQueue front chNo wayNo).statusOption = CHECK_STATUS_REPORT then
    let v := statusReportVerdict (completionWord env P s chNo wayNo)
    let s1 := s.tick
    if v.2 then
      (s1.modSubReq front chNo wayNo (fun e => { e with statusOption := STATUS_CHECK }), v.1)
    else (s1, v.1)
  else
    let readyBusy := env.readyBusy s.clock chNo
    if (readyBusy >>> wayNo) % 2 = 1 then (s.tick, RS_DONE) else (s.tick, RS_RUNNING)

/-- `CheckDMA`: the new state and the returned flag. -/
def CheckDMA (env : Env α) (s : FW α) (chNo wayNo : Nat) : FW α × Nat :=
  let bufferEntry := (s.headReq chNo wayNo).bufferEntry
  let tx : FW α × Bool :=
    if (s.bufMap bufferEntry).txDmaExe ≠ 0 then
      if env.txDmaPartialDone s.clock (s.bufMap bufferEntry).txDmaTail
          (s.bufMap bufferEntry).txDmaOverFlowCnt then
        ((s.tick).modBuf bufferEntry (fun b => { b with txDmaExe := 0 }), true)
      else (s.tick, false)
    else (s, true)
  if tx.2 then
    let s1 := tx.1
    if (s1.bufMap bufferEntry).rxDmaExe ≠ 0 then
      if env.rxDmaPartialDone s1.clock (s1.bufMap bufferEntry).rxDmaTail
          (s1.bufMap bufferEntry).rxDmaOverFlowCnt then
        ((s1.tick).modBuf bufferEntry (fun b => { b with rxDmaExe := 0 }), 1)
      else (s1.tick, 0)
    else (s1, 1)
  else (tx.1, 0)

/-! ## The translation queues (`PopFromTransReqQueue`, `PopFromTransReadReqQueue`) -/

/-- `DeallocateTransBufEntry`, without the latency statistics. -/
def DeallocateTransBufEntry (s : FW α) (entryIdx : Nat) : FW α :=
  let s1 := s.modTransMap entryIdx (fun e => { e with prev := s.transAvailQ.2 % 2 ^ 16 })
  let s2 := s1.modTransMap entryIdx (fun e => { e with next := 0xffff })
  let s3 := s2.modTransMap entryIdx (fun e => { e with allocated := 0 })
  let s4 := s3.modTransMap entryIdx (fun e => { e with configured := 0 })
  let s5 : FW α :=
    if s4.transAvailQ.2 = 0xffff then
      { s4 with transAvailQ := (entryIdx % 2 ^ 16, s4.transAvailQ.2) }
    else
      s4.modTransMap s4.transAvailQ.2 (fun e => { e with next := entryIdx % 2 ^ 16 })
  { s5 with transAvailQ := (s5.transAvailQ.1, entryIdx % 2 ^ 16) }

/-- One iteration of the sector loop of `readTranslatedPagesNonBlocking`; the third component
is set once the loop has returned.  Addresses handed to the DMA engine are counted from
`TRANS_BUF_ADDR`.  The counters are read at `sectorNum`, a slot of the arrays of the firmware
for `sectorNum < MAX_EMBEDDING_RESULT_PAGES`. -/
def readTranslatedSector (P : Params) (entryIdx firstSector nextSector cmdSlotTag : Nat)
    (sectorNum : Nat) (st : FW α × Nat × Bool) : FW α × Nat × Bool :=
  if st.2.2 then st
  else
    let s := st.1
    let curSector := (nextSector + sectorNum) % U32
    if (s.transMap entryIdx).perResultSectorCompletedEmbeddings curSector
        < (s.transMap entryIdx).perResultSectorInputEmbeddings curSector then
      (s, st.2.1, true)
    else
      let s1 := s.modTransMap entryIdx (fun e =>
        { e with
          perResultSectorCompletedEmbeddings :=
            set1 e.perResultSectorCompletedEmbeddings curSector 0 })
      let s2 := s1.emit (.set_auto_tx_dma cmdSlotTag ((curSector + (U32 - firstSector % U32)) % U32)
        ((entryIdx * P.TRANS_BUF_ENTRY_SIZE + curSector * P.SECTOR_SIZE_FTL) % U32))
      let s3 := s2.modTransMap entryIdx (fun e =>
        { e with nlbCompleted := (e.nlbCompleted + 1) % U32 })
      let s4 :=
        if (s3.transMap entryIdx).nlbCompleted = (s3.transMap entryIdx).nlb then
          DeallocateTransBufEntry s3 entryIdx
        else s3
      (s4, st.2.1 + 1, false)

/-- `readTranslatedPagesNonBlocking`: the new state and the number of sectors handed to the
DMA engine. -/
def readTranslatedPagesNonBlocking (P : Params) (s : FW α)
    (entryIdx firstSector nextSector requestedSectors cmdSlotTag : Nat) : FW α × Nat :=
  if (s.transMap entryIdx).configured = 0 then (s, 0)
  else
    let r := forRange requestedSectors
      (readTranslatedSector P entryIdx firstSector nextSector cmdSlotTag) (s, 0, false)
    (r.1, r.2.1)

/-- The block with which both pop functions move the slot `current` of a translation queue
from the active list to the tail of the free list. -/
def retireSlot (q : Nat → TransReqEntry) (p : TransRqPointerEntry) :
    (Nat → TransReqEntry) × TransRqPointerEntry :=
  let slot := p.current
  let p1 := if p.head = slot then { p with head := (q slot).next } else p
  let p2 :=
    if p1.tail = slot then
      { p1 with tail := (q slot).prev, current := p1.head }
    else { p1 with current := (q slot).next }
  let q1 :=
    if (q slot).prev ≠ 0xffff then
      set1 q (q slot).prev { (q (q slot).prev) with next := (q slot).next }
    else q
  let q2 :=
    if (q1 slot).next ≠ 0xffff then
      set1 q1 (q1 slot).next { (q1 (q1 slot).next) with prev := (q1 slot).prev }
    else q1
  let q3 := set1 q2 slot { (q2 slot) with next := 0xffff }
  let q4 := set1 q3 slot { (q3 slot) with prev := p2.availtail }
  let q5 :=
    if p2.availtail ≠ 0xffff then
      set1 q4 p2.availtail { (q4 p2.availtail) with next := slot % 2 ^ 16 }
    else q4
  let p3 := { p2 with availtail := slot % 2 ^ 16 }
  let p4 := if p3.availhead = 0xffff then { p3 with availhead := slot % 2 ^ 16 } else p3
  (q5, p4)

/-- The block with which both pop functions step `current` to the next active slot. -/
def rotateSlot (q : Nat → TransReqEntry) (p : TransRqPointerEntry) : TransRqPointerEntry :=
  if p.current = p.tail then { p with current := p.head }
  else { p with current := (q p.current).next }

/-- `PopFromTransReadReqQueue`: the new state and the returned flag. -/
def PopFromTransReadReqQueue (P : Params) (s : FW α) : FW α × Nat :=
  if s.transReadRqPointer.head = 0xffff then (s, 0)
  else
    let cur := s.transReadRqPointer.current
    let e := s.transReadReqQueue cur
    let r := readTranslatedPagesNonBlocking P s e.entryIdx e.firstSector e.nextSector e.nlb
      e.cmdSlotTag
    let nlbReturned := r.2
    let s1 : FW α :=
      { r.1 with
        transReadReqQueue := set1 r.1.transReadReqQueue cur
          { (r.1.transReadReqQueue cur) with
            nlb := ((r.1.transReadReqQueue cur).nlb + (U32 - nlbReturned % U32)) % U32 } }
    let s2 : FW α :=
      { s1 with
        transReadReqQueue := set1 s1.transReadReqQueue cur
          { (s1.transReadReqQueue cur) with
            nextSector := ((s1.transReadReqQueue cur).nextSector + nlbReturned) % U32 } }
    let s3 : FW α :=
      if (s2.transReadReqQueue cur).nlb = 0 then
        { s2 with
          transReadReqQueue := (retireSlot s2.transReadReqQueue s2.transReadRqPointer).1
          transReadRqPointer := (retireSlot s2.transReadReqQueue s2.transReadRqPointer).2 }
      else
        { s2 with transReadRqPointer := rotateSlot s2.transReadReqQueue s2.transReadRqPointer }
    (s3, if s3.transReadRqPointer.head ≠ 0xffff then 1 else 0)

/-- `CheckTransConfigDMA`: the new state and the returned flag. -/
def CheckTransConfigDMA [Add α] [Zero α] (env : Env α) (P : Params) (s : FW α)
    (bufferEntry : Nat) : FW α × Nat :=
  if (s.transMap bufferEntry).rxDmaExe ≠ 0 then
    if env.rxDmaPartialDone s.clock (s.transMap bufferEntry).rxDmaTail
        (s.transMap bufferEntry).rxDmaOverFlowCnt then
      let s1 := (s.tick).modTransMap bufferEntry (fun e => { e with rxDmaExe := 0 })
      (ConfigureTransBufEntry P s1 bufferEntry, 1)
    else (s.tick, 0)
  else (s, 0)

/-- The command that `readPageToTranslateNonBlocking` pushes for a page that is neither in the
LRU buffer nor unmapped.  The fields it leaves unset are not read by a push of a NAND
request. -/
def translateReadCmd (P : Params) (lpa ppn bufferEntry entryIdx page_idx : Nat) :
    LowLevelReqInfo :=
  { chNo := (lpa % P.DIE_NUM) % P.CHANNEL_NUM
    wayNo := (lpa % P.DIE_NUM) / P.CHANNEL_NUM
    request := P.V2FCommand_ReadPageTrigger
    rowAddr := ppn
    devAddr := 0
    spareDataBuf := P.SPARE_ADDR
    cmdSlotTag := 0
    startDmaIndex := 0
    subReqSect := 0
    bufferEntry := bufferEntry
    translate := 1
    transBufferEntry := entryIdx
    transPageIdx := page_idx }

/-- `readPageToTranslateNonBlocking`: the new state and the returned flag.  `CheckBufHit`,
`AllocateBufEntry` and the page map belong to files outside the sources and are read from
the environment; a failed `ASSERT` sets `halted`. -/
def readPageToTranslateNonBlocking [Add α] (env : Env α) (P : Params) (s : FW α)
    (entryIdx lpa page_idx : Nat) : FW α × Nat :=
  let hitEntry := env.CheckBufHit s.clock lpa
  let s0 := s.tick
  if hitEntry ≠ 0x7fff then
    let devAddr := (P.BUFFER_ADDR + hitEntry * P.BUF_ENTRY_SIZE) % U32
    let s1 := translatePage P s0 entryIdx (env.pageData s0.clock devAddr) page_idx
    ((s1.tick).emit (.translatePageInline entryIdx devAddr page_idx), 1)
  else
    let dieNo := lpa % P.DIE_NUM
    let dieLpn := lpa / P.DIE_NUM
    if CheckReqQueueAvailability s0 (dieNo % P.CHANNEL_NUM) (dieNo / P.CHANNEL_NUM) 2 = 0 then
      (s0, 0)
    else
      let bufferEntry := env.AllocateBufEntry s0.clock lpa
      let s1 := s0.tick
      if ¬ bufferEntry < P.BUF_ENTRY_NUM then ({ s1 with halted := true }, 0)
      else
        let s2 := s1.modBuf bufferEntry (fun b => { b with dirty := 0 })
        let s3 : FW α :=
          if (s2.bufLruList dieNo).head ≠ 0x7fff then
            let t1 := s2.modBuf bufferEntry (fun b => { b with prevEntry := 0x7fff })
            let t2 := t1.modBuf bufferEntry (fun b =>
              { b with nextEntry := (t1.bufLruList dieNo).head })
            let t3 := t2.modBuf (t2.bufLruList dieNo).head (fun b =>
              { b with prevEntry := bufferEntry })
            { t3 with
              bufLruList := set1 t3.bufLruList dieNo
                { (t3.bufLruList dieNo) with head := bufferEntry } }
          else
            let t1 := s2.modBuf bufferEntry (fun b => { b with prevEntry := 0x7fff })
            let t2 := t1.modBuf bufferEntry (fun b => { b with nextEntry := 0x7fff })
            { t2 with
              bufLruList := set1 t2.bufLruList dieNo { head := bufferEntry, tail := bufferEntry } }
        let s4 := s3.modBuf bufferEntry (fun b => { b with lpn := lpa })
        let ppn := env.ppn s4.clock dieNo dieLpn
        let s5 := s4.tick
        if ppn ≠ 0xffffffff then
          let r := PushToReqQueueNonBlocking P s5
            (translateReadCmd P lpa ppn bufferEntry entryIdx page_idx) 0
          if r.2 = 0 then ({ r.1 with halted := true }, 0) else (r.1, 1)
        else
          let devAddr := (P.BUFFER_ADDR + bufferEntry * P.BUF_ENTRY_SIZE) % U32
          let s6 := translatePage P s5 entryIdx (env.pageData s5.clock devAddr) page_idx
          ((s6.tick).emit (.translatePageInline entryIdx devAddr page_idx), 1)

/-- The page loop of `translatePagesNonBlocking` from page `page` on, with `fuel` pages left
to visit: the new state and the returned value (`-1` when every page was handed over). -/
def translatePagesFrom [Add α] (env : Env α) (P : Params) (entryIdx : Nat) :
    Nat → FW α → Nat → FW α × Int
  | 0, s, _ => (s, -1)
  | fuel + 1, s, page =>
    if page < (s.transMap entryIdx).nPages then
      let lpa := (s.transMap entryIdx).perPageSLBAs page / P.SECTOR_NUM_PER_PAGE
      let r := readPageToTranslateNonBlocking env P s entryIdx lpa page
      if r.2 = 0 then (r.1, toInt32 page)
      else translatePagesFrom env P entryIdx fuel r.1 ((page + 1) % U32)
    else (s, -1)

/-- `translatePagesNonBlocking`; the loop visits at most `nPages - nextPageIdx` pages. -/
def translatePagesNonBlocking [Add α] (env : Env α) (P : Params) (s : FW α)
    (entryIdx nextPageIdx : Nat) : FW α × Int :=
  translatePagesFrom env P entryIdx ((s.transMap entryIdx).nPages - nextPageIdx) s nextPageIdx

/-- `PopFromTransReqQueue`: the new state and the returned flag.  Nothing is done after a
failed `ASSERT`. -/
def PopFromTransReqQueue [Add α] [Zero α] (env : Env α) (P : Params) (s : FW α) :
    FW α × Nat :=
  if s.transRqPointer.head = 0xffff then (s, 0)
  else
    let cur := s.transRqPointer.current
    let entryIdx := (s.transReqQueue cur).entryIdx
    let nextPage0 := toInt32 (s.transReqQueue cur).nextPage
    let c : FW α × Nat :=
      if (s.transMap entryIdx).configured ≠ 0 then (s, 1)
      else CheckTransConfigDMA env P s entryIdx
    let r : FW α × Int :=
      if c.2 ≠ 0 then
        translatePagesNonBlocking env P c.1 (c.1.transReqQueue c.1.transRqPointer.current).entryIdx
          (toUInt32 nextPage0)
      else (c.1, nextPage0)
    let s1 := r.1
    if s1.halted then (s1, 0)
    else
      let s2 : FW α :=
        if r.2 = -1 then
          { s1 with
            transReqQueue := (retireSlot s1.transReqQueue s1.transRqPointer).1
            transRqPointer := (retireSlot s1.transReqQueue s1.transRqPointer).2 }
        else
          let t1 : FW α :=
            { s1 with
              transReqQueue := set1 s1.transReqQueue s1.transRqPointer.current
                { (s1.transReqQueue s1.transRqPointer.current) with nextPage := toUInt32 r.2 } }
          { t1 with transRqPointer := rotateSlot t1.transReqQueue t1.transRqPointer }
      (s2, if s2.transRqPointer.head ≠ 0xffff then 1 else 0)

/-! ## The channel arbiter (`ExeLowLevelReqPerCh`) -/

/-- How a piece of `ExeLowLevelReqPerCh` ends: control falls through to the next statement,
the function returns `v`, or execution stops inside it (a failed `assert`, or a loop of the
embedding that ran out of fuel). -/
inductive Exit where
  | fallThrough
  | returned (v : Nat)
  | stopped
deriving DecidableEq, Repr, Inhabited

/-- Run `f` when `r` fell through. -/
def andThen (r : FW α × Exit) (f : FW α → FW α × Exit) : FW α × Exit :=
  match r.2 with
  | .fallThrough => f r.1
  | _ => r

/-- One pass of the body of a `while (wayNo != 0xf)` loop: the next value of `wayNo`, or the
way the function leaves the loop. -/
inductive Flow (σ : Type) where
  | next (st : σ) (wayNo : Nat)
  | leave (st : σ) (e : Exit)

/-- A loop `while (wayNo != 0xf) body`, run for at most `fuel` passes.  The result is
`next st 0xf` when the loop ended by its condition, `next st wayNo` with `wayNo ≠ 0xf` when
the fuel ran out, and `leave st e` when the body left the loop. -/
def whileWay {σ : Type} (body : σ → Nat → Flow σ) : Nat → σ → Nat → Flow σ
  | 0, st, wayNo => .next st wayNo
  | fuel + 1, st, wayNo =>
    if wayNo = 0xf then .next st 0xf
    else
      match body st wayNo with
      | .next st' wayNo' => whileWay body fuel st' wayNo'
      | .leave st' e => .leave st' e

/-- The way a loop result continues the function. -/
def Flow.exit {σ : Type} (proj : σ → FW α) : Flow σ → FW α × Exit
  | .next st wayNo => (proj st, if wayNo = 0xf then .fallThrough else .stopped)
  | .leave st e => (proj st, e)

/-- The loop `for (wayNo = 0; wayNo < WAY_NUM; wayNo++) if (valid) { translatePage(...);
valid = 0; }` that drains every mailbox of the channel. -/
def drainAll [Add α] (env : Env α) (P : Params) (s : FW α) (chNo : Nat) : FW α :=
  forRange P.WAY_NUM (fun wayNo st => drainMailbox env P st chNo wayNo) s

/-- The loop `for (wayNo = 0; wayNo < WAY_NUM; wayNo++) if (valid) { translatePage(...);
valid = 0; return 1; }`: it drains the first full mailbox of the channel and returns. -/
def drainFirst [Add α] (env : Env α) (P : Params) (s : FW α) (chNo : Nat) : FW α :=
  match (List.range P.WAY_NUM).find? (fun wayNo => (s.transPageReqQueue chNo wayNo).valid ≠ 0)
  with
  | some wayNo => drainMailbox env P s chNo wayNo
  | none => s

/-- The block `if (V2FIsControllerBusy(...)) { drain; return 1; }` that follows every issue of
a NAND command, and then `wayNo = dieStatusTable[chNo][wayNo].nextWay`. -/
def afterIssue [Add α] (env : Env α) (P : Params) (s : FW α) (chNo wayNo : Nat) :
    Flow (FW α) :=
  if env.controllerBusy s.clock chNo then .leave (drainFirst env P s.tick chNo) (.returned 1)
  else .next s.tick (s.tick.dieStatusTable chNo wayNo).nextWay

/-- The status check selected by `queueSelect`. -/
def checkStatus (env : Env α) (P : Params) (s : FW α) (chNo wayNo : Nat) : FW α × Nat :=
  if (s.dieStatusTable chNo wayNo).queueSelect = REQ_QUEUE then
    CheckReqStatusAsync env P s chNo wayNo
  else CheckSubReqStatusAsync env P s chNo wayNo

/-- Body of the sweep of the idle list; the second component of the loop state is
`idleWay`. -/
def idleBody (P : Params) (chNo firstQueue : Nat) (st : FW α × Nat) (wayNo : Nat) :
    Flow (FW α × Nat) :=
  let s := st.1
  if (s.rqPointer chNo wayNo).rear ≠ (s.rqPointer chNo wayNo).front
      ∨ (s.srqPointer chNo wayNo).rear ≠ (s.srqPointer chNo wayNo).front then
    let s1 := unlinkWay .idle false s chNo wayNo
    let nextWay := (s1.dieStatusTable chNo wayNo).nextWay
    .next (FindPriorityTable P s1 chNo wayNo firstQueue, st.2) nextWay
  else .next (s, st.2 + 1) (s.dieStatusTable chNo wayNo).nextWay

/-- Body of the sweep of the status-report list. -/
def statusReportBody [Add α] (env : Env α) (P : Params) (chNo firstQueue readyBusy : Nat)
    (s : FW α) (wayNo : Nat) : Flow (FW α) :=
  if (readyBusy >>> wayNo) % 2 = 1 then
    let r := checkStatus env P s chNo wayNo
    let statusOption :=
      if (s.dieStatusTable chNo wayNo).queueSelect = REQ_QUEUE then
        (r.1.headReq chNo wayNo).statusOption
      else (r.1.headSubReq chNo wayNo).statusOption
    if r.2 ≠ RS_RUNNING then
      let s1 := unlinkWay .statusReport false r.1 chNo wayNo
      let s2 := ExeLowLevelReqPerDie env P s1 chNo wayNo r.2
      let nextWay := (s2.dieStatusTable chNo wayNo).nextWay
      .next (FindPriorityTable P s2 chNo wayNo firstQueue) nextWay
    else if statusOption = STATUS_CHECK then
      let s1 := unlinkWay .statusReport false r.1 chNo wayNo
      let nextWay := (s1.dieStatusTable chNo wayNo).nextWay
      .next (LinkToNandStatus s1 chNo wayNo) nextWay
    else .next r.1 (r.1.dieStatusTable chNo wayNo).nextWay
  else .next s (s.dieStatusTable chNo wayNo).nextWay

/-- Body of the sweep of the DMA list. -/
def nvmeDmaBody [Add α] (env : Env α) (P : Params) (chNo firstQueue : Nat) (s : FW α)
    (wayNo : Nat) : Flow (FW α) :=
  if (s.dieStatusTable chNo wayNo).queueSelect = REQ_QUEUE then
    let r := CheckDMA env s chNo wayNo
    if r.2 ≠ 0 then
      let s1 := unlinkWay .nvmeDma false r.1 chNo wayNo
      let s2 := ExeLowLevelReqPerDie env P s1 chNo wayNo NONE
      let nextWay := (s2.dieStatusTable chNo wayNo).nextWay
      .next (FindPriorityTable P s2 chNo wayNo firstQueue) nextWay
    else .next r.1 (r.1.dieStatusTable chNo wayNo).nextWay
  else .leave { s with halted := true } .stopped

/-- Body of the sweep of the NAND status list. -/
def nandStatusBody [Add α] (env : Env α) (P : Params) (chNo readyBusy : Nat) (s : FW α)
    (wayNo : Nat) : Flow (FW α) :=
  if (readyBusy >>> wayNo) % 2 = 1 then
    let s1 := unlinkWay .nandStatus false s chNo wayNo
    let r := checkStatus env P s1 chNo wayNo
    let s2 := LinkToStatusReport r.1 chNo wayNo
    afterIssue env P s2 chNo wayNo
  else .next s (s.dieStatusTable chNo wayNo).nextWay

/-- Body of the sweeps of the trigger list (`l = nandTrigger`) and of the erase list
(`l = nandErase`, whose copy of the unlink block has the slip). -/
def nandIssueBody [Add α] (env : Env α) (P : Params) (l : WayList) (slip : Bool) (chNo : Nat)
    (s : FW α) (wayNo : Nat) : Flow (FW α) :=
  let s1 := unlinkWay l slip s chNo wayNo
  let s2 := ExeLowLevelReqPerDie env P s1 chNo wayNo NONE
  let s3 := LinkToNandStatus s2 chNo wayNo
  afterIssue env P s3 chNo wayNo

/-- Body of the sweeps of the program list (`l = nandTrigNTrans`, relinked to the NAND status
list) and of the transfer list (`l = nandTransfer`, relinked to the status-report list). -/
def nandDmaBody [Add α] (env : Env α) (P : Params) (l target : WayList) (chNo : Nat)
    (s : FW α) (wayNo : Nat) : Flow (FW α) :=
  let r : FW α × Nat :=
    if (s.dieStatusTable chNo wayNo).queueSelect = REQ_QUEUE then CheckDMA env s chNo wayNo
    else (s, 1)
  if r.2 ≠ 0 then
    let s1 := unlinkWay l false r.1 chNo wayNo
    let s2 := ExeLowLevelReqPerDie env P s1 chNo wayNo NONE
    let s3 := LinkTo target s2 chNo wayNo
    afterIssue env P s3 chNo wayNo
  else .next r.1 (r.1.dieStatusTable chNo wayNo).nextWay

/-- A sweep `if (head != 0xf) { wayNo = head; while (wayNo != 0xf) body }`. -/
def sweep (l : WayList) (body : FW α → Nat → Flow (FW α)) (fuel : Nat) (chNo : Nat)
    (s : FW α) : FW α × Exit :=
  if (s.wayPriorityTable chNo).head l ≠ 0xf then
    (whileWay body fuel s ((s.wayPriorityTable chNo).head l)).exit id
  else (s, .fallThrough)

/-- The part of `ExeLowLevelReqPerCh` on the idle list: the sweep and, when every way of the
channel is idle, the hand-over to the translation queue that ends the function. -/
def idleStage [Add α] [Zero α] (env : Env α) (P : Params) (fuel chNo firstQueue : Nat)
    (transWaiting : Nat) (s : FW α) : FW α × Exit :=
  if (s.wayPriorityTable chNo).head .idle ≠ 0xf then
    match whileWay (idleBody P chNo firstQueue) fuel (s, 0)
      ((s.wayPriorityTable chNo).head .idle) with
    | .next st wayNo =>
      if wayNo ≠ 0xf then (st.1, .stopped)
      else if st.2 = P.WAY_NUM then
        let r := PopFromTransReqQueue env P st.1
        if r.1.halted then (r.1, .stopped)
        else (drainAll env P r.1 chNo, .returned (transWaiting ||| r.2))
      else (st.1, .fallThrough)
    | .leave st e => (st.1, e)
  else (s, .fallThrough)

/-- The part of `ExeLowLevelReqPerCh` on the status-report list. -/
def statusReportStage [Add α] (env : Env α) (P : Params) (fuel chNo firstQueue : Nat)
    (s : FW α) : FW α × Exit :=
  if (s.wayPriorityTable chNo).head .statusReport ≠ 0xf then
    (whileWay (statusReportBody env P chNo firstQueue (env.readyBusy s.clock chNo)) fuel s.tick
      ((s.wayPriorityTable chNo).head .statusReport)).exit id
  else (s, .fallThrough)

/-- The part of `ExeLowLevelReqPerCh` on the NAND status list. -/
def nandStatusStage [Add α] (env : Env α) (P : Params) (fuel chNo : Nat) (s : FW α) :
    FW α × Exit :=
  if (s.wayPriorityTable chNo).head .nandStatus ≠ 0xf then
    let readyBusy :=
      if env.beforeNandReset s.clock ≠ 0 then 0xffffffff else env.readyBusy s.clock chNo
    (whileWay (nandStatusBody env P chNo readyBusy) fuel s.tick
      ((s.wayPriorityTable chNo).head .nandStatus)).exit id
  else (s, .fallThrough)

/-- The part of `ExeLowLevelReqPerCh` under `if (!V2FIsControllerBusy(...))`. -/
def nandStages [Add α] (env : Env α) (P : Params) (fuel chNo : Nat) (s : FW α) :
    FW α × Exit :=
  if env.controllerBusy s.clock chNo then (s.tick, .fallThrough)
  else
    andThen (nandStatusStage env P fuel chNo s.tick) (fun s1 =>
    andThen (sweep .nandTrigger (nandIssueBody env P .nandTrigger false chNo) fuel chNo s1)
      (fun s2 =>
    andThen (sweep .nandErase (nandIssueBody env P .nandErase true chNo) fuel chNo s2)
      (fun s3 =>
    andThen (sweep .nandTrigNTrans (nandDmaBody env P .nandTrigNTrans .nandStatus chNo) fuel
      chNo s3) (fun s4 =>
    sweep .nandTransfer (nandDmaBody env P .nandTransfer .statusReport chNo) fuel chNo s4))))

/-- `ExeLowLevelReqPerCh`: the new state and how the call ended.  Every `while` loop of the
function runs for at most `fuel` passes. -/
def ExeLowLevelReqPerCh [Add α] [Zero α] (env : Env α) (P : Params) (fuel : Nat) (s : FW α)
    (chNo firstQueue : Nat) : FW α × Exit :=
  let t := PopFromTransReadReqQueue P s
  andThen (idleStage env P fuel chNo firstQueue t.2 t.1) (fun s1 =>
  andThen (statusReportStage env P fuel chNo firstQueue s1) (fun s2 =>
  andThen (sweep .nvmeDma (nvmeDmaBody env P chNo firstQueue) fuel chNo s2) (fun s3 =>
  andThen (nandStages env P fuel chNo s3) (fun s4 =>
  (drainFirst env P s4 chNo, .returned 1)))))

/-! ## The sub ring (`PushToSubReqQueue`) -/

/-- The physical row address computed by `PushToSubReqQueue`. -/
def subPhyRowAddrOf (P : Params) (request rowAddress : Nat) : Nat :=
  if request = LLSCommand_ReadRawPage ∨ request = LLSCommand_ReadLsbPage
      ∨ request = LLSCommand_WriteLsbPage then
    let lun := rowAddress / P.MAX_PAGE_NUM_PER_SLC_LUN
    let tempBlock := (rowAddress % P.MAX_PAGE_NUM_PER_SLC_LUN) / P.PAGE_NUM_PER_SLC_BLOCK
    let tempPage := rowAddress % P.PAGE_NUM_PER_SLC_BLOCK
    let base := if lun = 0 then LUN_0_BASE_ADDR else LUN_1_BASE_ADDR
    let phyPage :=
      if tempPage = 0 then 0
      else if tempPage = (P.PAGE_NUM_PER_BLOCK + (U32 - 1)) % U32
          ∧ request = LLSCommand_ReadRawPage then
        (2 * P.PAGE_NUM_PER_BLOCK + (U32 - 1)) % U32
      else (tempPage * 2 - 1) % U32
    (base + (tempBlock * P.PAGE_NUM_PER_SLC_BLOCK * 2 + phyPage)) % U32
  else phyRowAddrOf P rowAddress

/-- The request code stored by `PushToSubReqQueue`. -/
def subRequestOf (P : Params) (request : Nat) : Nat :=
  if request = LLSCommand_ReadLsbPage then P.V2FCommand_ReadPageTrigger
  else if request = LLSCommand_WriteLsbPage then P.V2FCommand_ProgramPage
  else request

/-- `PushToSubReqQueue` once its waiting loop has ended (the loop only calls
`ExeLowLevelReq` until the sub ring of the die has a free slot). -/
def PushToSubReqQueue (P : Params) (s : FW α)
    (chNo wayNo request rowAddress pageDataBuf spareDataBuf : Nat) : FW α :=
  let s1 := s.modDie chNo wayNo (fun d => { d with subReqQueueEmpty := 0 })
  let rear := (s1.srqPointer chNo wayNo).rear
  let s2 := s1.modSubReq rear chNo wayNo (fun e =>
    { e with
      rowAddr := subPhyRowAddrOf P request rowAddress
      request := subRequestOf P request
      pageDataBuf := pageDataBuf
      spareDataBuf := spareDataBuf
      statusOption :=
        if subRequestOf P request = P.V2FCommand_Reset
            ∨ subRequestOf P request = P.V2FCommand_SetFeatures then NONE
        else STATUS_CHECK })
  s2.modSrq chNo wayNo (fun p => { p with rear := (rear + 1) % P.SUB_REQ_QUEUE_DEPTH })

/-! ## Well-formed way lists, for the statements -/

/-- Starting at `h` and following `nxt`, one walks exactly the ways `ws` and then reaches
`q`. -/
def Fwd (nxt : Nat → Nat) : Nat → List Nat → Nat → Prop
  | h, [], q => h = q
  | h, w :: ws, q => h = w ∧ Fwd nxt (nxt w) ws q

/-- The ways `ws` point back to each other through `prv`, the first one to `p`, and `t` is
the last of them (`p` when there is none). -/
def Bwd (prv : Nat → Nat) : Nat → List Nat → Nat → Prop
  | p, [], t => t = p
  | p, w :: ws, t => prv w = p ∧ Bwd prv w ws t

/-- The ways `ws l` are the members of list `l` of channel `chNo`, in order: each list is
doubly linked through `nextWay` and `prevWay` from its head to its tail and closed by `0xf`
at both ends, has no way twice, no way is on two lists, every way named is a way of the
channel, and every way of the channel is on a list, except the way `free` (if any) that the
arbiter has taken out and not yet put back. -/
structure WayInv (P : Params) (s : FW α) (chNo : Nat) (ws : WayList → List Nat)
    (free : Option Nat) : Prop where
  fwd : ∀ l, Fwd (fun w => (s.dieStatusTable chNo w).nextWay)
    ((s.wayPriorityTable chNo).head l) (ws l) 0xf
  bwd : ∀ l, Bwd (fun w => (s.dieStatusTable chNo w).prevWay) 0xf (ws l)
    ((s.wayPriorityTable chNo).tail l)
  nodup : ∀ l, (ws l).Nodup
  disj : ∀ l l' w, w ∈ ws l → w ∈ ws l' → l = l'
  bound : ∀ l w, w ∈ ws l → w < P.WAY_NUM
  cover : ∀ w, w < P.WAY_NUM → free = some w ∨ ∃ l, w ∈ ws l
  out : ∀ w, free = some w → w < P.WAY_NUM ∧ ∀ l, w ∉ ws l

/-- Every way of channel `chNo` is a member of exactly one of the eight lists, and each list
is a well-formed doubly linked list terminated by `0xf`. -/
def WayListsOK (P : Params) (s : FW α) (chNo : Nat) : Prop :=
  ∃ ws : WayList → List Nat, WayInv P s chNo ws none

/-- Every way of channel `chNo` is on the idle list, which is well formed, and the other
seven lists are empty. -/
def AllIdle (P : Params) (s : FW α) (chNo : Nat) : Prop :=
  ∃ ws : WayList → List Nat, WayInv P s chNo ws none ∧ ∀ l, l ≠ WayList.idle → ws l = []

/-- Replace the member list of `l`. -/
def setWs (ws : WayList → List Nat) (l : WayList) (v : List Nat) : WayList → List Nat :=
  fun l' => if l' = l then v else ws l'

/-- The part of the state that makes up the way lists: the heads and tails of every channel
and the `(prevWay, nextWay)` pair of every die. -/
def linkView (s : FW α) : (Nat → WayPriorityEntry) × (Nat → Nat → Nat × Nat) :=
  (s.wayPriorityTable, fun c w => ((s.dieStatusTable c w).prevWay, (s.dieStatusTable c w).nextWay))

/-- The way lists of every channel are the same in `s` and `s'`. -/
def SameLinks (s s' : FW α) : Prop := linkView s' = linkView s

/-- The way lists of channel `c` are the same in `s` and `s'`. -/
def SameLinksOn (c : Nat) (s s' : FW α) : Prop :=
  (linkView s').1 c = (linkView s).1 c ∧ (linkView s').2 c = (linkView s).2 c

/-- A step of a run on the scheduler: a push to a primary ring, a push to a sub ring, or a
call of `ExeLowLevelReqPerCh` whose loops get `fuel` passes each. -/
inductive ChOp where
  | push (lowLevelCmd : LowLevelReqInfo) (openSlots : Nat)
  | pushSub (chNo wayNo request rowAddress pageDataBuf spareDataBuf : Nat)
  | exe (chNo firstQueue fuel : Nat)

/-- The state after one step. -/
def ChOp.step [Add α] [Zero α] (env : Env α) (P : Params) (s : FW α) : ChOp → FW α
  | .push lowLevelCmd openSlots => (PushToReqQueueNonBlocking P s lowLevelCmd openSlots).1
  | .pushSub chNo wayNo request rowAddress pageDataBuf spareDataBuf =>
    PushToSubReqQueue P s chNo wayNo request rowAddress pageDataBuf spareDataBuf
  | .exe chNo firstQueue fuel => (ExeLowLevelReqPerCh env P fuel s chNo firstQueue).1

/-- The channel on which a step calls `ExeLowLevelReqPerCh`, if it does. -/
def ChOp.exeChannel : ChOp → Option Nat
  | .exe chNo _ _ => some chNo
  | _ => none

/-- The state after a run. -/
def chRun [Add α] [Zero α] (env : Env α) (P : Params) (s : FW α) (ops : List ChOp) : FW α :=
  ops.foldl (ChOp.step env P) s

/-- The state carried by a loop result. -/
def Flow.state {σ : Type} : Flow σ → σ
  | .next st _ => st
  | .leave st _ => st

/-- The lists of channel `chNo` are well formed in `s`, and those of the other channels are
as in `s0`. -/
def ChanOK (P : Params) (s0 : FW α) (chNo : Nat) (s : FW α) : Prop :=
  WayListsOK P s chNo ∧ ∀ c, c ≠ chNo → SameLinksOn c s0 s

/-- Loop invariant of a sweep of list `l`: the lists of the channel are well formed and the
cursor `wayNo` is `0xf` or a member of `l` (the first member when `atHead` is set). -/
def SweepInv (P : Params) (s0 : FW α) (chNo : Nat) (l : WayList) (atHead : Bool) (s : FW α)
    (wayNo : Nat) : Prop :=
  (∃ ws, WayInv P s chNo ws none ∧
    (wayNo = 0xf ∨ ∃ pre post, ws l = pre ++ wayNo :: post ∧ (atHead = true → pre = []))) ∧
  ∀ c, c ≠ chNo → SameLinksOn c s0 s

/-- A loop result that keeps the loop invariant `I` when the loop goes on and establishes `Q`
when the loop is left. -/
def FlowOK {σ : Type} (I : σ → Nat → Prop) (Q : σ → Prop) : Flow σ → Prop
  | .next st wayNo => I st wayNo
  | .leave st _ => Q st

/-! ## A concrete run of the arbiter, for evaluation -/

/-- An environment in which every die is ready and every completion word reports success. -/
def readyEnv : Env Int :=
  { quietEnv with readyBusy := fun _ _ => 0xff, completeTable0 := fun _ _ _ => 0xc1 }

/-- Two reads pushed to dies `(0, 2)` and `(0, 5)`, then six arbiter calls on channel 0 and
one on channel 1. -/
def exampleOps : List ChOp :=
  [.push { exampleReadCmd with chNo := 0, wayNo := 2 } 0,
   .push { exampleReadCmd with chNo := 0, wayNo := 5 } 0,
   .exe 0 0 20, .exe 0 0 20, .exe 1 1 20, .exe 0 0 20, .exe 0 0 20, .exe 0 0 20, .exe 0 0 20]

/-- The member lists of a channel whose eight ways are all idle. -/
def idleWays : WayList → List Nat := fun l => if l = WayList.idle then List.range 8 else []

/-- The new-bad-block slots of die `(chNo, wayNo)`. -/
def FW.newBadBlocks (s : FW α) (chNo wayNo : Nat) : Nat → Nat :=
  fun entry => s.newBadBlockTable entry chNo wayNo

/-- The block number that the `RS_WARNING` branch derives from a physical row address. -/
def warningBlockNo (P : Params) (rowAddr : Nat) : Nat :=
  ((rowAddr / LUN_1_BASE_ADDR) * P.MAX_BLOCK_NUM_PER_LUN
    + (rowAddr % LUN_1_BASE_ADDR) / P.PAGE_NUM_PER_MLC_BLOCK) % U32

/-- The slots of one die hold a list of `k` block numbers: the first `k` slots are
taken (not `0xffffffff`) and pairwise different, the slots from `k` up to
`REQ_QUEUE_DEPTH` are free. -/
def BadBlockList (tbl : Nat → Nat) (k : Nat) : Prop :=
  k ≤ REQ_QUEUE_DEPTH ∧
  (∀ i, i < k → tbl i ≠ 0xffffffff) ∧
  (∀ i, k ≤ i → i < REQ_QUEUE_DEPTH → tbl i = 0xffffffff) ∧
  (∀ i j, i < j → j < k → tbl i ≠ tbl j)

/-- A die in `DS_EXE` whose head request has row address `0x200105` and whose
new-bad-block list holds the blocks 7 and 9. -/
def warnedFW : FW Int :=
  { blankFW with
    reqQueue := set3 blankFW.reqQueue 0 0 0
      { (default : ReqEntry) with rowAddr := 0x200105, request := 18 }
    rqPointer := set2 blankFW.rqPointer 0 0 { front := 0, rear := 1 }
    dieStatusTable := set2 blankFW.dieStatusTable 0 0
      { (blankFW.dieStatusTable 0 0) with dieStatus := DS_EXE }
    newBadBlockTable := fun entry c w =>
      if c = 0 ∧ w = 0 then (if entry = 0 then 7 else if entry = 1 then 9 else 0xffffffff)
      else 0xffffffff }

/-- Die `(0, 0)` in `DS_EXE` with a translate-tagged `ReadPageTransfer` at the head of its
primary ring (the only entry) and an empty mailbox. -/
def warnedTranslateFW : FW Int :=
  { blankFW with
    reqQueue := set3 blankFW.reqQueue 0 0 0
      { (default : ReqEntry) with
        request := 18, translate := 1, transBufferEntry := 1, pageDataBuf := 0x1000,
        transPageIdx := 2, statusOption := STATUS_CHECK }
    rqPointer := set2 blankFW.rqPointer 0 0 { front := 0, rear := 1 }
    dieStatusTable := set2 blankFW.dieStatusTable 0 0
      { (blankFW.dieStatusTable 0 0) with dieStatus := DS_EXE }
    retryLimitTable := set2 blankFW.retryLimitTable 0 0 3 }

/-- An environment in which every transfer has completed and the worst chunk of every page
needed 21 corrections, one more than the threshold of the example build. -/
def warningEnv : Env Int :=
  { readyEnv with WorstChunkErrorCount := fun _ => 21 }

/-- Die `(0, 0)` in `DS_EXE` with a `ProgramPage` at the head of its primary ring whose
status-check command has been issued (`statusOption = CHECK_STATUS_REPORT`). -/
def reportFW : FW Int :=
  { blankFW with
    reqQueue := set3 blankFW.reqQueue 0 0 0
      { (default : ReqEntry) with request := 28, statusOption := CHECK_STATUS_REPORT }
    rqPointer := set2 blankFW.rqPointer 0 0 { front := 0, rear := 1 }
    dieStatusTable := set2 blankFW.dieStatusTable 0 0
      { (blankFW.dieStatusTable 0 0) with dieStatus := DS_EXE }
    retryLimitTable := set2 blankFW.retryLimitTable 0 0 3 }

/-- An environment whose status reports read `0xc5`: ready flag set, status byte `0x62`
(bits 6 and 5 set, bit 1 set, bit 0 clear). -/
def failcEnv : Env Int :=
  { quietEnv with readyBusy := fun _ _ => 0xff, completeTable0 := fun _ _ _ => 0xc5 }

/-- The completion word of `(chNo, wayNo)` read at clock value `clk`. -/
def reportAt (env : Env α) (P : Params) (chNo wayNo clk : Nat) : Nat :=
  if chNo < P.CHANNEL_NUM_PER_HP_PORT then env.completeTable0 clk chNo wayNo
  else env.completeTable1 clk (chNo - P.CHANNEL_NUM_PER_HP_PORT) wayNo

/-- A status report that says ready: bit 0 set and bits 6 and 5 of the status byte set. -/
abbrev ReadyReport (w : Nat) : Prop := w % 2 = 1 ∧ (w / 2) &&& 0x60 = 0x60

/-- A ready report whose status byte has neither fail bit set. -/
abbrev ReadyPass (w : Nat) : Prop := ReadyReport w ∧ (w / 2) &&& 3 = 0

/-- The statuses returned by `n` consecutive calls of `CheckReqStatusAsync` for one die,
oldest first, and the state after the calls. -/
def pollRun (env : Env α) (P : Params) (chNo wayNo : Nat) : Nat → FW α → FW α × List Nat
  | 0, s => (s, [])
  | n + 1, s =>
    let r := CheckReqStatusAsync env P s chNo wayNo
    ((pollRun env P chNo wayNo n r.1).1, r.2 :: (pollRun env P chNo wayNo n r.1).2)

/-- Die `(0, 0)` in `DS_EXE` with a `ProgramPage` at the head of its primary ring, before the
first status check (`statusOption = STATUS_CHECK`). -/
def pollFW : FW Int :=
  { blankFW with
    reqQueue := set3 blankFW.reqQueue 0 0 0
      { (default : ReqEntry) with request := 28, statusOption := STATUS_CHECK }
    rqPointer := set2 blankFW.rqPointer 0 0 { front := 0, rear := 1 }
    dieStatusTable := set2 blankFW.dieStatusTable 0 0
      { (blankFW.dieStatusTable 0 0) with dieStatus := DS_EXE }
    retryLimitTable := set2 blankFW.retryLimitTable 0 0 3 }

/-- An environment whose status reports read `0` (nothing written yet), then `0x41` (written,
status byte `0x20`: not ready), then `0xc1` (ready, pass). -/
def pollEnv : Env Int :=
  { quietEnv with
    completeTable0 := fun clk _ _ => if clk = 0 then 0 else if clk = 1 then 0x41 else 0xc1 }

/-- The classification table as the specification words it: `RxDMA` and `TxDMA` go to
`nvmeDma`, the listed NAND commands to their lists, anything else to `nandStatus`. -/
def listNamedBySpec (P : Params) (request : Nat) : WayList :=
  if request = LLSCommand_RxDMA ∨ request = LLSCommand_TxDMA then .nvmeDma
  else if request = P.V2FCommand_ReadPageTrigger ∨ request = LLSCommand_ReadRawPage then
    .nandTrigger
  else if request = P.V2FCommand_ReadPageTransfer
      ∨ request = P.V2FCommand_ReadPageTransferRaw then .nandTransfer
  else if request = P.V2FCommand_ProgramPage then .nandTrigNTrans
  else if request = P.V2FCommand_BlockErase then .nandErase
  else .nandStatus

/-- The primary ring of `(chNo, wayNo)` is empty. -/
abbrev FW.reqEmpty (s : FW α) (chNo wayNo : Nat) : Prop :=
  (s.rqPointer chNo wayNo).front = (s.rqPointer chNo wayNo).rear

/-- The sub ring of `(chNo, wayNo)` is empty. -/
abbrev FW.subEmpty (s : FW α) (chNo wayNo : Nat) : Prop :=
  (s.srqPointer chNo wayNo).front = (s.srqPointer chNo wayNo).rear

/-- The ring that `FindPriorityTable` selects: the one named by `firstQueue` if it is not
empty, the other one otherwise (`firstQueue` other than `REQ_QUEUE` names the sub ring). -/
def selectedQueue (s : FW α) (chNo wayNo firstQueue : Nat) : Nat :=
  if firstQueue = REQ_QUEUE then
    if s.reqEmpty chNo wayNo then SUB_REQ_QUEUE else REQ_QUEUE
  else
    if s.subEmpty chNo wayNo then REQ_QUEUE else SUB_REQ_QUEUE

/-- The request at the head of the selected ring. -/
def selectedRequest (s : FW α) (chNo wayNo firstQueue : Nat) : Nat :=
  if selectedQueue s chNo wayNo firstQueue = REQ_QUEUE then (s.headReq chNo wayNo).request
  else (s.headSubReq chNo wayNo).request

/-- The list that `FindPriorityTable` links the way to. -/
def chosenList (P : Params) (s : FW α) (chNo wayNo firstQueue : Nat) : WayList :=
  if s.reqEmpty chNo wayNo ∧ s.subEmpty chNo wayNo then .idle
  else listOfRequest P (selectedRequest s chNo wayNo firstQueue)

/-- The blank state with a `ReadPageTrigger` queued for die `(0, 0)` and way 0 of channel 0
taken off the idle list, as the idle sweep does before it classifies the way. -/
def unlinkedReadFW : FW Int := unlinkWay .idle false readQueuedFW 0 0

/-- A translate-tagged `ReadPageTrigger` pushed for die `(0, wayNo)`, page `wayNo` of
translation entry 1. -/
def translateReadPush (wayNo : Nat) : LowLevelReqInfo :=
  { (default : LowLevelReqInfo) with
    request := 13, rowAddr := 5, bufferEntry := 2, chNo := 0, wayNo := wayNo, translate := 1,
    transBufferEntry := 1, transPageIdx := wayNo }

/-- An environment in which every die is ready and every command has completed, except that
the completion word of die `(0, 0)` reads zero from clock 12 up to clock 17: its page
transfer completes one arbiter call late, together with the transfer of die `(0, 1)`. -/
def lateEnv : Env Int :=
  { quietEnv with
    readyBusy := fun _ _ => 0xff
    completeTable0 := fun clk _ w => if w = 0 ∧ 12 ≤ clk ∧ clk < 17 then 0 else 0xc1 }

/-- Two translate-tagged reads pushed to dies `(0, 0)` and `(0, 1)`, then five arbiter calls on
channel 0. -/
def twoReadsOps : List ChOp :=
  [.push (translateReadPush 0) 0, .push (translateReadPush 1) 0,
   .exe 0 0 20, .exe 0 0 20, .exe 0 0 20, .exe 0 0 20, .exe 0 0 20]

/-- A piece of `ExeLowLevelReqPerCh` that returns does so with the value 1, right after the
mailbox loop that stops at the first valid mailbox. -/
def ReturnsFirst [Add α] (env : Env α) (P : Params) (chNo : Nat) (st : FW α) (e : Exit) :
    Prop :=
  ∀ v, e = .returned v → v = 1 ∧ ∃ s1, st = drainFirst env P s1 chNo

/-- A push of a `ReadPageTrigger` for logical row address `262444` of die `(0, 0)`: LUN 1,
block 2, page 44 in the SLC geometry of the example build. -/
def lunOneReadCmd : LowLevelReqInfo :=
  { (default : LowLevelReqInfo) with request := 13, rowAddr := 262444, bufferEntry := 2 }

/-- The size of the result in bytes as `ConfigureTransBufEntry` computes it. -/
def resultBytes (config : TransConfig) : Nat :=
  (config.resultEmbeddings * config.attributeSize * config.embeddingLength) % U32

/-- The result sector of pair `j` as the pair loop computes it. -/
def resultSectorOf (P : Params) (config : TransConfig) (j : Nat) : Nat :=
  (((config.embeddingIDList j).result
      * ((config.embeddingLength * config.attributeSize) % U32)) % U32) / P.SECTOR_SIZE_FTL

/-- Number of pairs among the first `m` that miss the cache and fall into result sector `i`. -/
def missesInSector (P : Params) (cache : Nat → TransEmbedCacheEntry α) (config : TransConfig)
    (i : Nat) : Nat → Nat
  | 0 => 0
  | m + 1 =>
    missesInSector P cache config i m +
      (if ¬((cache (cacheKey (config.embeddingIDList m).embeddingID config.tableID).1).valid ≠ 0 ∧
            (cache (cacheKey (config.embeddingIDList m).embeddingID config.tableID).1).tag
              = (cacheKey (config.embeddingIDList m).embeddingID config.tableID).2) ∧
          resultSectorOf P config m = i then 1 else 0)

/-- Loop invariant of the pair loop of `ConfigureTransBufEntry` for the counters of the
result sectors, after `m` pairs; `s` is the state on entry of the function. -/
def CountInv (P : Params) (s : FW α) (e nlb m : Nat) (st : FW α × ConfigLocals) : Prop :=
  st.1.transConfig = s.transConfig ∧ st.1.transCache = s.transCache ∧
  (st.1.transMap e).nlb = nlb ∧
  (∀ i, i < nlb → (st.1.transMap e).perResultSectorCompletedEmbeddings i = 0) ∧
  (∀ i, i < nlb → (st.1.transMap e).perResultSectorInputEmbeddings i
    = missesInSector P s.transCache (s.transConfig e) i m % U32)

/-- The state `gatherFW` with stale counters in entry 0: every result sector shows 7 completed
and 9 expected embeddings from an earlier use of the entry. -/
def staleFW : FW Int :=
  { gatherFW with
    transMap := set1 gatherFW.transMap 0
      { (gatherFW.transMap 0) with
        perResultSectorCompletedEmbeddings := fun _ => 7
        perResultSectorInputEmbeddings := fun _ => 9 } }

/-- Loop invariant of the pair loop of `ConfigureTransBufEntry` for the order of the plan
slots, after `m` pairs (hits or misses); `s` is the state on entry of the function. -/
structure PlanOrder (P : Params) (s : FW α) (e m : Nat) (st : FW α × ConfigLocals) : Prop where
  cfg : st.1.transConfig = s.transConfig
  slba : (st.1.transMap e).slba = (s.transMap e).slba
  start : (st.1.transMap e).perPageStartingIndex st.2.page_index < m ∨
    (st.1.transMap e).perPageStartingIndex st.2.page_index = 0
  pid : ∃ k, (k < m ∨ k = 0) ∧ st.2.page_id = pageIdOf P (s.transConfig e) k
  slbaCur : (st.1.transMap e).perPageSLBAs st.2.page_index
    = slbaOfPage P (s.transMap e).slba st.2.page_id
  monoStart : ∀ j, j < st.2.page_index →
    (st.1.transMap e).perPageStartingIndex j < (st.1.transMap e).perPageStartingIndex (j + 1)
  monoSlba : ∀ j, j < st.2.page_index →
    (st.1.transMap e).perPageSLBAs j < (st.1.transMap e).perPageSLBAs (j + 1)

/-- The state `gatherFW` with the table of entry 0 starting four sectors below the end of the
32-bit sector range and the configuration reduced to the sorted pairs `(0, 1)`, `(0, 5000)`,
which lie on flash pages 0 and 2 of the table. -/
def wrapFW : FW Int :=
  { blankFW with
    transConfig := set1 blankFW.transConfig 0
      { attributeSize := 4, embeddingLength := 2, resultEmbeddings := 1, inputEmbeddings := 2,
        tableID := 0,
        embeddingIDList := fun i =>
          if i = 0 then { result := 0, embeddingID := 1 }
          else { result := 0, embeddingID := 5000 } }
    transMap := set1 blankFW.transMap 0 { (blankFW.transMap 0) with slba := 4294967292 } }

/-- Two result rows in different result sectors (rows 0 and 512 of 8 bytes, sectors 0 and 1),
fed by the pairs `(0, 1)` and `(512, 2)`, both on flash page 0. -/
def splitConfig : TransConfig :=
  { attributeSize := 4, embeddingLength := 2, resultEmbeddings := 513, inputEmbeddings := 2,
    tableID := 0,
    embeddingIDList := fun i =>
      if i = 0 then { result := 0, embeddingID := 1 } else { result := 512, embeddingID := 2 } }

/-- The state after `ConfigureTransBufEntry` on entry 0 of `s` followed by `translatePage` on
every planned page `0 .. nPages - 1`. -/
def configuredAndTranslated (s : FW Int) : FW Int :=
  translatePlanned exampleParams exampleTable (ConfigureTransBufEntry exampleParams s 0) 0
    (List.range ((ConfigureTransBufEntry exampleParams s 0).transMap 0).nPages)

/-- Number of pairs of the list of `config` whose result sector is `sector`. -/
def pairsInSector (P : Params) (config : TransConfig) (sector : Nat) : Nat :=
  ((List.range config.inputEmbeddings).filter
    (fun j => resultSectorOf P config j = sector)).length

/-- Number of pairs of the list of `config` whose result sector is `sector` and that hit the
cache `cache`. -/
def hitsInSector (P : Params) (cache : Nat → TransEmbedCacheEntry α) (config : TransConfig)
    (sector : Nat) : Nat :=
  ((List.range config.inputEmbeddings).filter
    (fun j => resultSectorOf P config j = sector ∧
      ((cache (cacheKey (config.embeddingIDList j).embeddingID config.tableID).1).valid ≠ 0 ∧
        (cache (cacheKey (config.embeddingIDList j).embeddingID config.tableID).1).tag
          = (cacheKey (config.embeddingIDList j).embeddingID config.tableID).2))).length

/-- One iteration of the page loop of `translatePagesNonBlocking`: the call
`readPageToTranslateNonBlocking(entryIdx, perPageSLBAs[page] / SECTOR_NUM_PER_PAGE, page)`. -/
def pageAttempt [Add α] (env : Env α) (P : Params) (entryIdx page : Nat) (s : FW α) :
    FW α × Nat :=
  readPageToTranslateNonBlocking env P s entryIdx
    ((s.transMap entryIdx).perPageSLBAs page / P.SECTOR_NUM_PER_PAGE) page

/-- The state after the `k` plan pages `start, start + 1, ..., start + k - 1` were handed to
`readPageToTranslateNonBlocking` in this order, once each. -/
def pagesHandled [Add α] (env : Env α) (P : Params) (entryIdx start : Nat) : Nat → FW α → FW α
  | 0, s => s
  | k + 1, s => (pageAttempt env P entryIdx (start + k) (pagesHandled env P entryIdx start k s)).1
/-- The part of the state that the page loop of `translatePagesNonBlocking` and the queue
update of `PopFromTransReqQueue` read besides the plan: the translation request list and the
number of planned pages of every entry. -/
def transQueueView (s : FW α) : (Nat → TransReqEntry) × TransRqPointerEntry × (Nat → Nat) :=
  (s.transReqQueue, s.transRqPointer, fun e => (s.transMap e).nPages)
/-- The state `gatherFW` after `ConfigureTransBufEntry` on entry 0 (a plan of two pages, on
dies `(0, 0)` and `(2, 0)`), with entry 0 queued in slot 0 of the translation request list at
`nextPage = 0`, and with 253 requests in the primary ring of die `(2, 0)`. -/
def resumeFW : FW Int :=
  { ConfigureTransBufEntry exampleParams gatherFW 0 with
    transReqQueue := set1 blankFW.transReqQueue 0
      { entryIdx := 0, nextPage := 0, nextSector := 0, firstSector := 0, nlb := 0,
        cmdSlotTag := 0, prev := 0xffff, next := 0xffff }
    transRqPointer :=
      { head := 0, tail := 0, current := 0, availhead := 0xffff, availtail := 0xffff }
    rqPointer := set2 blankFW.rqPointer 2 0 { front := 3, rear := 0 } }

/-- The state `resumeFW` after a first `PopFromTransReqQueue`, with three requests of the
ring of die `(2, 0)` served since. -/
def resumedFW : FW Int :=
  { (PopFromTransReqQueue quietEnv exampleParams resumeFW).1 with
    rqPointer := set2 (PopFromTransReqQueue quietEnv exampleParams resumeFW).1.rqPointer 2 0
      { front := 6, rear := 0 } }

/-- What the sector loop of `readTranslatedPagesNonBlocking` does for a ready sector before
it tests `++nlbCompleted == nlb`: clear the completed counter, hand the sector to the TX DMA
engine, count it. -/
def shipOne (P : Params) (entryIdx firstSector cmdSlotTag curSector : Nat) (s : FW α) : FW α :=
  let s1 := s.modTransMap entryIdx (fun e =>
    { e with
      perResultSectorCompletedEmbeddings :=
        set1 e.perResultSectorCompletedEmbeddings curSector 0 })
  let s2 := s1.emit (.set_auto_tx_dma cmdSlotTag ((curSector + (U32 - firstSector % U32)) % U32)
    ((entryIdx * P.TRANS_BUF_ENTRY_SIZE + curSector * P.SECTOR_SIZE_FTL) % U32))
  s2.modTransMap entryIdx (fun e => { e with nlbCompleted := (e.nlbCompleted + 1) % U32 })

/-- The whole iteration for a ready sector: `shipOne`, then `DeallocateTransBufEntry` if the
entry is complete. -/
def shipStep (P : Params) (entryIdx firstSector cmdSlotTag curSector : Nat) (s : FW α) : FW α :=
  if ((shipOne P entryIdx firstSector cmdSlotTag curSector s).transMap entryIdx).nlbCompleted
      = ((shipOne P entryIdx firstSector cmdSlotTag curSector s).transMap entryIdx).nlb then
    DeallocateTransBufEntry (shipOne P entryIdx firstSector cmdSlotTag curSector s) entryIdx
  else shipOne P entryIdx firstSector cmdSlotTag curSector s

/-- The state after the `k` sectors `nextSector, ..., nextSector + k - 1` were shipped in
this order. -/
def shipped (P : Params) (entryIdx firstSector nextSector cmdSlotTag : Nat) (k : Nat)
    (s : FW α) : FW α :=
  forRange k (fun j st => shipStep P entryIdx firstSector cmdSlotTag ((nextSector + j) % U32) st) s

/-- Result sector `x` of entry `entryIdx` can be shipped: its completed counter has reached
its input counter. -/
abbrev sectorReady (s : FW α) (entryIdx x : Nat) : Prop :=
  ¬ ((s.transMap entryIdx).perResultSectorCompletedEmbeddings x
      < (s.transMap entryIdx).perResultSectorInputEmbeddings x)

/-- The counters, sizes and trace that the sector loop works on. -/
def shipView (s : FW α) (e : Nat) : (Nat → Nat) × (Nat → Nat) × Nat × Nat × List Event :=
  ((s.transMap e).perResultSectorCompletedEmbeddings,
    (s.transMap e).perResultSectorInputEmbeddings, (s.transMap e).nlb,
    (s.transMap e).nlbCompleted, s.trace)
/-- The completed counters after the sectors `nextSector, ..., nextSector + k - 1` were
cleared in this order. -/
def clearedRun (completed : Nat → Nat) (nextSector k : Nat) : Nat → Nat :=
  forRange k (fun j c => set1 c ((nextSector + j) % U32) 0) completed

/-- The TX DMA descriptors issued for the sectors `nextSector, ..., nextSector + k - 1`, in
this order: DMA index `sector - firstSector`, device address of the sector in the result
region of the entry (counted from `TRANS_BUF_ADDR`). -/
def shipEvents (P : Params) (entryIdx firstSector nextSector cmdSlotTag k : Nat) : List Event :=
  (List.range k).map (fun j =>
    Event.set_auto_tx_dma cmdSlotTag
      (((nextSector + j) % U32 + (U32 - firstSector % U32)) % U32)
      ((entryIdx * P.TRANS_BUF_ENTRY_SIZE + ((nextSector + j) % U32) * P.SECTOR_SIZE_FTL) % U32))
/-- The translation read list: its slots and its pointers. -/
def readView (s : FW α) : (Nat → TransReqEntry) × TransRqPointerEntry :=
  (s.transReadReqQueue, s.transReadRqPointer)
/-- A configured entry 0 of ten result sectors of which sectors 0, 1 and 2 await nothing and
every other sector awaits one pair, with a read of ten sectors from sector 0 (command slot 5)
in slot 0 of the translation read list. -/
def tenSectorFW : FW Int :=
  { blankFW with
    transMap := set1 blankFW.transMap 0
      { blankTransBufEntry with
        configured := 1
        allocated := 1
        nlb := 10
        nlbRequested := 10
        perResultSectorInputEmbeddings := fun x => if x < 3 then 0 else 1 }
    transReadReqQueue := set1 blankFW.transReadReqQueue 0
      { entryIdx := 0, nextPage := 0, nextSector := 0, firstSector := 0, nlb := 10,
        cmdSlotTag := 5, prev := 0xffff, next := 0xffff }
    transReadRqPointer :=
      { head := 0, tail := 0, current := 0, availhead := 0xffff, availtail := 0xffff } }

/-- The state after the `k` sectors `nextSector, ..., nextSector + k - 1` were shipped in
this order without any call of `DeallocateTransBufEntry`. -/
def shippedPlain (P : Params) (entryIdx firstSector nextSector cmdSlotTag : Nat) (k : Nat)
    (s : FW α) : FW α :=
  forRange k (fun j st => shipOne P entryIdx firstSector cmdSlotTag ((nextSector + j) % U32) st) s

/-- A configured entry 0 of one result sector, nothing completed yet, every sector ready. -/
def oneSectorFW : FW Int :=
  { blankFW with
    transMap := set1 blankFW.transMap 0
      { blankTransBufEntry with configured := 1, allocated := 1, nlb := 1 } }

/-- One iteration of the entry loop of `TransBufInit`. -/
def TransBufInitEntry (i : Nat) (st : FW α) : FW α :=
  let t1 := st.modTransMap i (fun e => { e with rxDmaExe := 0 })
  let t2 := t1.modTransMap i (fun e => { e with prev := if i = 0 then 0xffff else i - 1 })
  let t3 := t2.modTransMap i (fun e =>
    { e with next := if i = TRANS_BUF_ENTRY_NUM - 1 then 0xffff else i + 1 })
  let t4 := t3.modTransMap i (fun e => { e with allocated := 0 })
  t4.modTransMap i (fun e => { e with configured := 0 })

/-- The cache loop of `TransBufInit`: every cache entry becomes invalid. -/
def invalidateCache (cache : Nat → TransEmbedCacheEntry α) : Nat → TransEmbedCacheEntry α :=
  forRange TRANS_EMBED_CACHE_ENTRY_NUM (fun i c => set1 c i { (c i) with valid := 0 }) cache

/-- `TransBufInit`, without the statistics: every entry free and chained on the free list in
index order, every cache entry invalid. -/
def TransBufInit (s : FW α) : FW α :=
  let s1 := forRange TRANS_BUF_ENTRY_NUM TransBufInitEntry s
  let s2 : FW α := { s1 with transAvailQ := (0, TRANS_BUF_ENTRY_NUM - 1) }
  { s2 with transCache := invalidateCache s2.transCache }

/-- `AllocateTransBufEntry(slba, requestId)`: the new state and the returned index.  The
branch `ASSERT(0)` of an empty free list sets `halted` and nothing after it is modelled. -/
def AllocateTransBufEntry (s : FW α) (slba requestId : Nat) : FW α × Nat :=
  if s.transAvailQ.1 ≠ 0xffff then
    let entryIdx := s.transAvailQ.1
    let s1 : FW α :=
      if s.transAvailQ.1 = s.transAvailQ.2 then
        { s with transAvailQ := (0xffff, 0xffff) }
      else
        let t : FW α :=
          { s with transAvailQ := ((s.transMap s.transAvailQ.1).next % 2 ^ 16, s.transAvailQ.2) }
        t.modTransMap t.transAvailQ.1 (fun e => { e with prev := 0xffff })
    let s2 := s1.modTransMap entryIdx (fun e => { e with slba := slba })
    let s3 := s2.modTransMap entryIdx (fun e => { e with requestId := requestId })
    let s4 := s3.modTransMap entryIdx (fun e => { e with configured := 0 })
    let s5 := s4.modTransMap entryIdx (fun e => { e with allocated := 1 })
    let s6 := s5.modTransMap entryIdx (fun e => { e with nlbRequested := 0 })
    let s7 := s6.modTransMap entryIdx (fun e => { e with nlbCompleted := 0 })
    (s7.modTransMap entryIdx (fun e => { e with pagesTranslated := 0 }), entryIdx)
  else ({ s with halted := true }, 0xffff)

/-- A call of the pool interface. -/
inductive PoolOp where
  | alloc (slba requestId : Nat)
  | dealloc (entryIdx : Nat)
deriving DecidableEq, Repr

/-- The state after one call. -/
def PoolOp.step (s : FW α) : PoolOp → FW α
  | .alloc slba requestId => (AllocateTransBufEntry s slba requestId).1
  | .dealloc entryIdx => DeallocateTransBufEntry s entryIdx

/-- The state after the calls `ops`, in order. -/
def poolRun (s : FW α) (ops : List PoolOp) : FW α := ops.foldl PoolOp.step s

/-- The entries on the free list of `s`, read by following `next` from the head for at most
`fuel` steps. -/
def freeListOf (s : FW α) : Nat → Nat → List Nat
  | 0, _ => []
  | fuel + 1, h => if h = 0xffff then [] else h :: freeListOf s fuel ((s.transMap h).next)
/-- The free list of the translation buffer pool of `s` consists of the entries `free`, in
order: chained through `next` from the head to `0xffff`, the tail is the last of them (and
head and tail are both `0xffff` when there is none), no entry occurs twice, every member is
an entry of the pool, and an entry of the pool is on the list exactly when its `allocated`
bit is 0. -/
structure PoolInv (s : FW α) (free : List Nat) : Prop where
  fwd : Fwd (fun i => (s.transMap i).next) s.transAvailQ.1 free 0xffff
  last : s.transAvailQ.2 = free.getLastD 0xffff
  nodup : free.Nodup
  bound : ∀ i, i ∈ free → i < TRANS_BUF_ENTRY_NUM
  alloc : ∀ i, i < TRANS_BUF_ENTRY_NUM → (i ∈ free ↔ (s.transMap i).allocated = 0)

/-- A call is admissible in `s`: an allocation needs a free entry, a deallocation names an
entry of the pool that is allocated. -/
def PoolOp.ok (s : FW α) : PoolOp → Prop
  | .alloc _ _ => s.transAvailQ.1 ≠ 0xffff
  | .dealloc entryIdx => entryIdx < TRANS_BUF_ENTRY_NUM ∧ (s.transMap entryIdx).allocated ≠ 0

/-- Every call of `ops` is admissible in the state in which it is made. -/
def poolRunOk (s : FW α) : List PoolOp → Prop
  | [] => True
  | op :: ops => op.ok s ∧ poolRunOk (op.step s) ops
/-- The `next` field of every entry of the pool. -/
def nextOf (s : FW α) : Nat → Nat := fun i => (s.transMap i).next

/-- The `allocated` bit of every entry of the pool. -/
def allocatedOf (s : FW α) : Nat → Nat := fun i => (s.transMap i).allocated
/-- Decidable form of `poolRunOk` for evaluation on concrete runs. -/
def poolRunOkB (s : FW α) : List PoolOp → Bool
  | [] => true
  | .alloc slba requestId :: ops =>
    decide (s.transAvailQ.1 ≠ 0xffff) && poolRunOkB (PoolOp.step s (.alloc slba requestId)) ops
  | .dealloc e :: ops =>
    (decide (e < TRANS_BUF_ENTRY_NUM) && decide ((s.transMap e).allocated ≠ 0))
      && poolRunOkB (PoolOp.step s (.dealloc e)) ops

/-- Two allocations followed by the release of the first entry. -/
def examplePoolOps : List PoolOp := [.alloc 1000 42, .alloc 2000 43, .dealloc 0]

/-- The blank state with `n` requests in the primary ring of die `(0, 0)`
(`front = 256 - n`, `rear = 0`), for `0 < n < 256`. -/
def ringWith (n : Nat) : FW Int :=
  { blankFW with rqPointer := set2 blankFW.rqPointer 0 0 { front := 256 - n, rear := 0 } }
/-- The pointers of the primary rings. -/
def rqView (s : FW α) : Nat → Nat → RqPointerEntry := s.rqPointer
/-- The bookkeeping of `readPageToTranslateNonBlocking` for the buffer entry it allocated:
the entry is marked clean, put at the head of the LRU list of its die, and tagged with the
page. -/
def lruInsert (s1 : FW α) (bufferEntry dieNo lpa : Nat) : FW α :=
  let s2 := s1.modBuf bufferEntry (fun b => { b with dirty := 0 })
  let s3 : FW α :=
    if (s2.bufLruList dieNo).head ≠ 0x7fff then
      let t1 := s2.modBuf bufferEntry (fun b => { b with prevEntry := 0x7fff })
      let t2 := t1.modBuf bufferEntry (fun b =>
        { b with nextEntry := (t1.bufLruList dieNo).head })
      let t3 := t2.modBuf (t2.bufLruList dieNo).head (fun b =>
        { b with prevEntry := bufferEntry })
      { t3 with
        bufLruList := set1 t3.bufLruList dieNo
          { (t3.bufLruList dieNo) with head := bufferEntry } }
    else
      let t1 := s2.modBuf bufferEntry (fun b => { b with prevEntry := 0x7fff })
      let t2 := t1.modBuf bufferEntry (fun b => { b with nextEntry := 0x7fff })
      { t2 with
        bufLruList := set1 t2.bufLruList dieNo { head := bufferEntry, tail := bufferEntry } }
  s3.modBuf bufferEntry (fun b => { b with lpn := lpa })

/-- The last block of `readPageToTranslateNonBlocking`: a mapped page is read from flash
through the primary ring (`ASSERT(PushToReqQueueNonBlocking(&lowLevelCmd, 0))`), an unmapped
page is translated from the buffer entry at once. -/
def pushOrTranslate [Add α] (env : Env α) (P : Params) (s4 : FW α)
    (entryIdx lpa page_idx bufferEntry : Nat) : FW α × Nat :=
  let ppn := env.ppn s4.clock (lpa % P.DIE_NUM) (lpa / P.DIE_NUM)
  let s5 := s4.tick
  if ppn ≠ 0xffffffff then
    let r := PushToReqQueueNonBlocking P s5
      (translateReadCmd P lpa ppn bufferEntry entryIdx page_idx) 0
    if r.2 = 0 then ({ r.1 with halted := true }, 0) else (r.1, 1)
  else
    let devAddr := (P.BUFFER_ADDR + bufferEntry * P.BUF_ENTRY_SIZE) % U32
    let s6 := translatePage P s5 entryIdx (env.pageData s5.clock devAddr) page_idx
    ((s6.tick).emit (.translatePageInline entryIdx devAddr page_idx), 1)
/-- The ring pointers, the assertion flag and the clock. -/
def coreView (s : FW α) : (Nat → Nat → RqPointerEntry) × Bool × Nat :=
  (s.rqPointer, s.halted, s.clock)

/-- A build with one channel of one way; everything else as in `exampleParams`.  One die
holds `4096 * 2 = 8192` blocks, so its bad block table fits in one 16 KiB page. -/
def tinyParams : Params :=
  { exampleParams with CHANNEL_NUM := 1, WAY_NUM := 1, DIE_NUM := 1 }

/-- The state after initialisation of the one-die build: both rings of die `(0, 0)` empty,
the die idle and alone on the idle list of channel 0. -/
def tinyFW : FW Int :=
  { blankFW with
    dieStatusTable := fun _ _ =>
      { dieStatus := DS_IDLE, queueSelect := REQ_QUEUE, reqQueueEmpty := 1,
        subReqQueueEmpty := 1, prevWay := 0xf, nextWay := 0xf }
    wayPriorityTable := fun _ =>
      { head := fun l => if l = WayList.idle then 0 else 0xf
        tail := fun l => if l = WayList.idle then 0 else 0xf } }

/-- The idle one-die build with a configured translation entry 0 (the one-page plan of
`singleConfig`) waiting in slot 0 of the translation request list at `nextPage = 0`. -/
def tinyTransFW : FW Int :=
  { ConfigureTransBufEntry tinyParams
      { tinyFW with transConfig := set1 tinyFW.transConfig 0 singleConfig } 0 with
    transReqQueue := set1 tinyFW.transReqQueue 0
      { entryIdx := 0, nextPage := 0, nextSector := 0, firstSector := 0, nlb := 0,
        cmdSlotTag := 0, prev := 0xffff, next := 0xffff }
    transRqPointer :=
      { head := 0, tail := 0, current := 0, availhead := 0xffff, availtail := 0xffff } }
/-- The pass `reservedReq = 0; for (chNo ...) reservedReq += ExeLowLevelReqPerCh(chNo,
firstQueue)` from channel `chNo` on, with `n` channels left. -/
def exeChannelsFrom [Add α] [Zero α] (env : Env α) (P : Params) (fuel firstQueue : Nat) :
    Nat → Nat → FW α → FW α × Exit
  | 0, _, s => (s, .fallThrough)
  | n + 1, chNo, s =>
    match ExeLowLevelReqPerCh env P fuel s chNo firstQueue with
    | (s1, .returned v) =>
      exeChannelsFrom env P fuel firstQueue n (chNo + 1)
        { s1 with reservedReq := (s1.reservedReq + v) % U32 }
    | (s1, _) => (s1, .stopped)

/-- One pass over all channels, after `reservedReq = 0`. -/
def exeAllChannels [Add α] [Zero α] (env : Env α) (P : Params) (fuel firstQueue : Nat)
    (s : FW α) : FW α × Exit :=
  exeChannelsFrom env P fuel firstQueue P.CHANNEL_NUM 0 { s with reservedReq := 0 }

/-- The loop `reservedReq = 1; while (reservedReq) { reservedReq = 0; for (chNo ...) ... }`,
run for at most `ticks` passes; `stopped` when the passes ran out. -/
def drainLoop [Add α] [Zero α] (env : Env α) (P : Params) (fuel firstQueue : Nat) :
    Nat → FW α → FW α × Exit
  | 0, s => (s, .stopped)
  | ticks + 1, s =>
    andThen (exeAllChannels env P fuel firstQueue s) (fun t =>
      if t.reservedReq ≠ 0 then drainLoop env P fuel firstQueue ticks t
      else (t, .fallThrough))

/-- Values read by `EmptyLowLevelQ` that are defined outside the two files. -/
structure MetaParams where
  metadataBlockNo : Nat
  GC_BUFFER_ADDR : Nat

/-- `realBlockNoPerDie = MAX_BLOCK_NUM_PER_LUN * MAX_LUN_NUM_PER_DIE`. -/
def realBlockNoPerDie (P : Params) : Nat := (P.MAX_BLOCK_NUM_PER_LUN * P.MAX_LUN_NUM_PER_DIE) % U32

/-- Start of the scratch region of die `(chNo, wayNo)` in the GC buffer:
`GC_BUFFER_ADDR + (wayNo * CHANNEL_NUM + chNo) * (realBlockNoPerDie / PAGE_SIZE + 1) * PAGE_SIZE`. -/
def dieRegion (P : Params) (M : MetaParams) (chNo wayNo : Nat) : Nat :=
  (M.GC_BUFFER_ADDR
    + (wayNo * P.CHANNEL_NUM + chNo) * (realBlockNoPerDie P / P.PAGE_SIZE + 1) * P.PAGE_SIZE) % U32

/-- The two-level loop `for (wayNo ...) for (chNo ...) body` of `EmptyLowLevelQ`, over a
state with a local array. -/
def forDies {σ : Type} (P : Params) (body : Nat → Nat → σ → σ) (init : σ) : σ :=
  forRange P.WAY_NUM (fun wayNo st => forRange P.CHANNEL_NUM (fun chNo st1 => body chNo wayNo st1) st)
    init

/-- The state of the loops of `EmptyLowLevelQ`: the firmware state, the local array
`badBlockTableUpdate`, and how execution went on so far. -/
structure MarkState (α : Type) where
  fw : FW α
  update : Nat → Nat → Nat
  exit : Exit

/-- Run a push in a loop state, unless execution has stopped. -/
def MarkState.push (st : MarkState α) (push : FW α → FW α × Exit) : MarkState α :=
  match st.exit with
  | .fallThrough => { st with fw := (push st.fw).1, exit := (push st.fw).2 }
  | _ => st

/-- One pass of `while (dataSize > 0)` of the block that reads the bad block marks. -/
def readMarksPass (P : Params) (M : MetaParams)
    (push : Nat → Nat → Nat → Nat → Nat → Nat → FW α → FW α × Exit) (loop diePpn : Nat)
    (st : MarkState α) : MarkState α :=
  forDies P (fun chNo wayNo st1 =>
    let tempBuffer := (dieRegion P M chNo wayNo + loop * P.PAGE_SIZE) % U32
    let st2 := st1.push (push chNo wayNo LLSCommand_ReadLsbPage diePpn tempBuffer P.SPARE_ADDR)
    match st2.exit with
    | .fallThrough => { st2 with update := set2 st2.update chNo wayNo 0 }
    | _ => st2) st

/-- The loop `while (dataSize > 0) { ...; diePpn++; loop++; dataSize -= PAGE_SIZE; }` with
the pass `pass loop diePpn`; `dataSize` is an `int`. -/
def whileDataSize (P : Params) (pass : Nat → Nat → MarkState α → MarkState α) :
    Nat → Int → Nat → Nat → MarkState α → MarkState α
  | 0, _, _, _, st => { st with exit := .stopped }
  | fuel + 1, dataSize, loop, diePpn, st =>
    if dataSize > 0 then
      let st1 := pass loop diePpn st
      match st1.exit with
      | .fallThrough =>
        whileDataSize P pass fuel (toInt32 (toUInt32 (dataSize - (P.PAGE_SIZE : Int))))
          ((loop + 1) % U32) ((diePpn + 1) % U32) st1
      | _ => st1
    else st

/-- The triple loop that marks the recorded blocks: for every valid slot of
`newBadBlockTable`, the byte of the block in the scratch region of the die is set to 1,
`UpdateBadBlockTable` is called, the slot is cleared and the die is flagged. -/
def markNewBadBlocks (P : Params) (M : MetaParams) (st : FW α × (Nat → Nat → Nat)) :
    FW α × (Nat → Nat → Nat) :=
  forRange REQ_QUEUE_DEPTH (fun entry st1 =>
    forDies P (fun chNo wayNo st2 =>
      if st2.1.newBadBlockTable entry chNo wayNo ≠ 0xffffffff then
        let blockNo := st2.1.newBadBlockTable entry chNo wayNo
        let s1 := st2.1.emit (.writeByte
          ((M.GC_BUFFER_ADDR + blockNo
            + (wayNo * P.CHANNEL_NUM + chNo) * (realBlockNoPerDie P / P.PAGE_SIZE + 1)
              * P.PAGE_SIZE) % U32) 1)
        let s2 := s1.emit (.UpdateBadBlockTable chNo wayNo blockNo)
        let s3 : FW α :=
          { s2 with newBadBlockTable := set3 s2.newBadBlockTable entry chNo wayNo 0xffffffff }
        (s3, set2 st2.2 chNo wayNo 1)
      else st2) st1) st

/-- One pass of `while (dataSize > 0)` of the block that saves the bad block marks. -/
def saveMarksPass (P : Params) (M : MetaParams)
    (push : Nat → Nat → Nat → Nat → Nat → Nat → FW α → FW α × Exit) (loop diePpn : Nat)
    (st : MarkState α) : MarkState α :=
  forDies P (fun chNo wayNo st1 =>
    if st1.update chNo wayNo ≠ 0 then
      let st2 :=
        if loop = 0 then
          st1.push (push chNo wayNo P.V2FCommand_BlockErase
            ((M.metadataBlockNo * P.PAGE_NUM_PER_BLOCK) % U32) NONE NONE)
        else st1
      let tempBuffer := (dieRegion P M chNo wayNo + loop * P.PAGE_SIZE) % U32
      st2.push (push chNo wayNo LLSCommand_WriteLsbPage diePpn tempBuffer P.SPARE_ADDR)
    else st1) st

/-- The first page of the bad block table: `metadataBlockNo * PAGE_NUM_PER_SLC_BLOCK + 1`. -/
def firstMarkPage (P : Params) (M : MetaParams) : Nat :=
  (M.metadataBlockNo * P.PAGE_NUM_PER_SLC_BLOCK + 1) % U32

/-- The block `//read bad block marks` of `EmptyLowLevelQ`; `uninit` is the content of the
local array `badBlockTableUpdate` on entry. -/
def readMarks (P : Params) (M : MetaParams)
    (push : Nat → Nat → Nat → Nat → Nat → Nat → FW α → FW α × Exit) (ticks : Nat)
    (uninit : Nat → Nat → Nat) (s : FW α) : MarkState α :=
  whileDataSize P (readMarksPass P M push) ticks (toInt32 (realBlockNoPerDie P)) 0
    (firstMarkPage P M) { fw := s, update := uninit, exit := .fallThrough }

/-- The block `// save bad block mark` of `EmptyLowLevelQ`. -/
def saveMarks (P : Params) (M : MetaParams)
    (push : Nat → Nat → Nat → Nat → Nat → Nat → FW α → FW α × Exit) (ticks : Nat)
    (s : FW α) (update : Nat → Nat → Nat) : MarkState α :=
  whileDataSize P (saveMarksPass P M push) ticks (toInt32 (realBlockNoPerDie P)) 0
    (firstMarkPage P M) { fw := s, update := update, exit := .fallThrough }

/-- The end of `EmptyLowLevelQ`, from the triple loop over `newBadBlockTable` on: mark the
recorded blocks, push the erase and the writes, `reservedReq = 1`. -/
def markAndSave (P : Params) (M : MetaParams)
    (push : Nat → Nat → Nat → Nat → Nat → Nat → FW α → FW α × Exit) (ticks : Nat)
    (s : FW α) (update : Nat → Nat → Nat) : FW α × Exit :=
  let m := markNewBadBlocks P M (s, update)
  let r := saveMarks P M push ticks m.1 m.2
  andThen (r.fw, r.exit) (fun s5 => ({ s5 with reservedReq := 1 }, .fallThrough))

/-- A function of `low_level_scheduler.c` that calls, directly or not, itself. -/
inductive SchedCall where
  | ExeLowLevelReq (firstQueue : Nat)
  | EmptyLowLevelQ (firstQueue : Nat)
  | PushToSubReqQueue (chNo wayNo request rowAddress pageDataBuf spareDataBuf : Nat)
deriving DecidableEq, Repr

/-- `ExeLowLevelReq`, `EmptyLowLevelQ` and `PushToSubReqQueue` with its waiting loop.  The
first number bounds the depth of calls and the passes of the waiting loop, `ticks` the passes
of each drain loop and of each `while (dataSize > 0)`, `fuel` the loops of the channel
arbiter; `uninit` is the content of the local array `badBlockTableUpdate` on entry of
`EmptyLowLevelQ`.  The result is `stopped` when one of the bounds was reached or an assertion
failed. -/
def schedCall [Add α] [Zero α] (env : Env α) (P : Params) (M : MetaParams)
    (uninit : Nat → Nat → Nat) (ticks fuel : Nat) : Nat → SchedCall → FW α → FW α × Exit
  | 0, _, s => (s, .stopped)
  | depth + 1, .ExeLowLevelReq firstQueue, s =>
    andThen (exeAllChannels env P fuel firstQueue s) (fun s1 =>
      if s1.badBlockUpdate ≠ 0 then
        schedCall env P M uninit ticks fuel depth (.EmptyLowLevelQ firstQueue) s1
      else (s1, .fallThrough))
  | depth + 1, .PushToSubReqQueue chNo wayNo request rowAddress pageDataBuf spareDataBuf, s =>
    if ((s.srqPointer chNo wayNo).rear + 1) % P.SUB_REQ_QUEUE_DEPTH
        = (s.srqPointer chNo wayNo).front then
      andThen (schedCall env P M uninit ticks fuel depth (.ExeLowLevelReq REQ_QUEUE) s)
        (fun s1 => schedCall env P M uninit ticks fuel depth
          (.PushToSubReqQueue chNo wayNo request rowAddress pageDataBuf spareDataBuf) s1)
    else
      (PushToSubReqQueue P s chNo wayNo request rowAddress pageDataBuf spareDataBuf,
        .fallThrough)
  | depth + 1, .EmptyLowLevelQ firstQueue, s =>
    andThen (drainLoop env P fuel firstQueue ticks { s with reservedReq := 1 }) (fun s1 =>
      if s1.badBlockUpdate ≠ 0 then
        let push := fun c w rq row buf spare (t : FW α) =>
          schedCall env P M uninit ticks fuel depth (.PushToSubReqQueue c w rq row buf spare) t
        let r := readMarks P M push ticks uninit { s1 with badBlockUpdate := 0 }
        andThen (r.fw, r.exit) (fun s3 =>
          andThen (drainLoop env P fuel firstQueue ticks { s3 with reservedReq := 1 })
            (fun s4 => markAndSave P M push ticks s4 r.update))
      else (s1, .fallThrough))

/-- `PushToSubReqQueue` as the blocks of `EmptyLowLevelQ` call it. -/
def pushWaiting [Add α] [Zero α] (env : Env α) (P : Params) (M : MetaParams)
    (uninit : Nat → Nat → Nat) (ticks fuel depth : Nat) :
    Nat → Nat → Nat → Nat → Nat → Nat → FW α → FW α × Exit :=
  fun c w rq row buf spare t =>
    schedCall env P M uninit ticks fuel depth (.PushToSubReqQueue c w rq row buf spare) t

/-- The metadata block and the GC buffer of the examples. -/
def exampleMeta : MetaParams := { metadataBlockNo := 1, GC_BUFFER_ADDR := 0x20000000 }

/-- The state `tinyFW` with block 5 of die `(0, 0)` recorded in slot 0 of `newBadBlockTable`
and `badBlockUpdate` set. -/
def tinyReportFW : FW Int :=
  { tinyFW with
    newBadBlockTable := set3 tinyFW.newBadBlockTable 0 0 0 5
    badBlockUpdate := 1 }

/-- `EmptyLowLevelQ(SUB_REQ_QUEUE)` on the one-die build in an environment where every flash
operation completes, with bounds that are not reached. -/
def tinyEmptyRun : FW Int × Exit :=
  schedCall readyEnv tinyParams exampleMeta (fun _ _ => 7) 40 20 4 (.EmptyLowLevelQ SUB_REQ_QUEUE)
    tinyReportFW

/-- The number of pages that cover the bad block marks of a die:
`ceil(realBlockNoPerDie / PAGE_SIZE)`. -/
def coveredPages (P : Params) : Nat :=
  (realBlockNoPerDie P + P.PAGE_SIZE - 1) / P.PAGE_SIZE

/-- Die `(chNo, wayNo)` of the build has been visited when the two-level loop over the dies
stands at way `w`, channel `c`. -/
def dieDone (P : Params) (w c chNo wayNo : Nat) : Prop :=
  chNo < P.CHANNEL_NUM ∧ wayNo < P.WAY_NUM ∧ (wayNo < w ∨ (wayNo = w ∧ chNo < c))

/-- Slot `(entry, chNo, wayNo)` of `newBadBlockTable` has been visited when the triple loop
of `EmptyLowLevelQ` stands at entry `e`, way `w`, channel `c`. -/
def markDone (P : Params) (e w c entry chNo wayNo : Nat) : Prop :=
  chNo < P.CHANNEL_NUM ∧ wayNo < P.WAY_NUM ∧
    (entry < e ∨ (entry = e ∧ (wayNo < w ∨ (wayNo = w ∧ chNo < c))))

/-- The body of the triple loop of `EmptyLowLevelQ`. -/
def markSlot (P : Params) (M : MetaParams) (entry chNo wayNo : Nat)
    (st2 : FW α × (Nat → Nat → Nat)) : FW α × (Nat → Nat → Nat) :=
  if st2.1.newBadBlockTable entry chNo wayNo ≠ 0xffffffff then
    let blockNo := st2.1.newBadBlockTable entry chNo wayNo
    let s1 := st2.1.emit (.writeByte
      ((M.GC_BUFFER_ADDR + blockNo
        + (wayNo * P.CHANNEL_NUM + chNo) * (realBlockNoPerDie P / P.PAGE_SIZE + 1)
          * P.PAGE_SIZE) % U32) 1)
    let s2 := s1.emit (.UpdateBadBlockTable chNo wayNo blockNo)
    let s3 : FW α :=
      { s2 with newBadBlockTable := set3 s2.newBadBlockTable entry chNo wayNo 0xffffffff }
    (s3, set2 st2.2 chNo wayNo 1)
  else st2

/-- What the triple loop does for one slot holding `tbl entry chNo wayNo`: for a recorded
block, the byte at offset `block` of the scratch region of the die is set to 1 and
`UpdateBadBlockTable` is called; for a free slot, nothing. -/
def markEvent (P : Params) (M : MetaParams) (tbl : Nat → Nat → Nat → Nat)
    (entry wayNo chNo : Nat) : List Event :=
  if tbl entry chNo wayNo ≠ 0xffffffff then
    [.writeByte ((dieRegion P M chNo wayNo + tbl entry chNo wayNo) % U32) 1,
     .UpdateBadBlockTable chNo wayNo (tbl entry chNo wayNo)]
  else []

/-- The calls for the slots of one entry and one way, channels in rising order. -/
def markEventsOfWay (P : Params) (M : MetaParams) (tbl : Nat → Nat → Nat → Nat)
    (entry wayNo : Nat) : List Event :=
  (List.range P.CHANNEL_NUM).flatMap (fun chNo => markEvent P M tbl entry wayNo chNo)

/-- The calls for the slots of one entry. -/
def markEventsOfEntry (P : Params) (M : MetaParams) (tbl : Nat → Nat → Nat → Nat)
    (entry : Nat) : List Event :=
  (List.range P.WAY_NUM).flatMap (fun wayNo => markEventsOfWay P M tbl entry wayNo)

/-- The calls for all recorded blocks of the table `tbl`: one pair per recorded
`(entry, chNo, wayNo)`. -/
def markEvents (P : Params) (M : MetaParams) (tbl : Nat → Nat → Nat → Nat) : List Event :=
  (List.range REQ_QUEUE_DEPTH).flatMap (fun entry => markEventsOfEntry P M tbl entry)

/-- The state without `newBadBlockTable` and without the record of outgoing calls. -/
def markFrame (s : FW α) : FW α := { s with newBadBlockTable := fun _ _ _ => 0, trace := [] }

/-- What holds while the triple loop runs from the state `s4` with flags `upd0`: the slots
in `done` are visited, `tr` are the calls made. -/
structure MarkInv (s4 : FW α) (upd0 : Nat → Nat → Nat) (done : Nat → Nat → Nat → Prop)
    (tr : List Event) (st : FW α × (Nat → Nat → Nat)) : Prop where
  frame : markFrame st.1 = markFrame s4
  trace : st.1.trace = s4.trace ++ tr
  cleared : ∀ entry ch way, done entry ch way →
    st.1.newBadBlockTable entry ch way = 0xffffffff
  pending : ∀ entry ch way, ¬ done entry ch way →
    st.1.newBadBlockTable entry ch way = s4.newBadBlockTable entry ch way
  flagged : ∀ entry ch way, done entry ch way →
    s4.newBadBlockTable entry ch way ≠ 0xffffffff → st.2 ch way = 1
  unflagged : ∀ ch way,
    (∀ entry, done entry ch way → s4.newBadBlockTable entry ch way = 0xffffffff) →
    st.2 ch way = upd0 ch way

/-- The entry that `PushToSubReqQueue` stores in the sub ring. -/
def subEntryOf (P : Params) (request rowAddress pageDataBuf spareDataBuf : Nat) : SubReqEntry :=
  { rowAddr := subPhyRowAddrOf P request rowAddress
    request := subRequestOf P request
    pageDataBuf := pageDataBuf
    spareDataBuf := spareDataBuf
    statusOption :=
      if subRequestOf P request = P.V2FCommand_Reset
          ∨ subRequestOf P request = P.V2FCommand_SetFeatures then NONE
      else STATUS_CHECK }

/-- The body of the loops over the dies in the block that saves the bad block marks. -/
def saveDie (P : Params) (M : MetaParams)
    (push : Nat → Nat → Nat → Nat → Nat → Nat → FW α → FW α × Exit) (loop diePpn : Nat)
    (chNo wayNo : Nat) (st1 : MarkState α) : MarkState α :=
  if st1.update chNo wayNo ≠ 0 then
    let st2 :=
      if loop = 0 then
        st1.push (push chNo wayNo P.V2FCommand_BlockErase
          ((M.metadataBlockNo * P.PAGE_NUM_PER_BLOCK) % U32) NONE NONE)
      else st1
    let tempBuffer := (dieRegion P M chNo wayNo + loop * P.PAGE_SIZE) % U32
    st2.push (push chNo wayNo LLSCommand_WriteLsbPage diePpn tempBuffer P.SPARE_ADDR)
  else st1

/-- The `k`-th request that the save block pushes to die `(chNo, wayNo)`: first the erase of
the metadata block, then the write of page `k - 1` of the bad block table from the scratch
region of the die. -/
def savedRequest (P : Params) (M : MetaParams) (chNo wayNo : Nat) : Nat → SubReqEntry
  | 0 => subEntryOf P P.V2FCommand_BlockErase ((M.metadataBlockNo * P.PAGE_NUM_PER_BLOCK) % U32)
      NONE NONE
  | i + 1 => subEntryOf P LLSCommand_WriteLsbPage ((firstMarkPage P M + i) % U32)
      ((dieRegion P M chNo wayNo + i * P.PAGE_SIZE) % U32) P.SPARE_ADDR

/-- The state without the sub rings and the die status table. -/
def subFrame (s : FW α) : FW α :=
  { s with
    subReqQueue := fun _ _ _ => default
    srqPointer := fun _ _ => default
    dieStatusTable := fun _ _ => default }

/-- The number of requests pushed to die `(chNo, wayNo)` when the save block stands at pass
`l`, way `w`, channel `c`; `upd` are the flags `badBlockTableUpdate`. -/
def savedCount (P : Params) (upd : Nat → Nat → Nat) (l w c chNo wayNo : Nat) : Nat :=
  if chNo < P.CHANNEL_NUM ∧ wayNo < P.WAY_NUM ∧ upd chNo wayNo ≠ 0 then
    (if l = 0 then 0 else l + 1)
      + (if wayNo < w ∨ (wayNo = w ∧ chNo < c) then (if l = 0 then 2 else 1) else 0)
  else 0

/-- What holds while the save block runs from the state `s0` with flags `upd`: die
`(ch, way)` has received the first `k ch way` of its requests. -/
structure SaveInv (P : Params) (M : MetaParams) (s0 : FW α) (upd : Nat → Nat → Nat)
    (k : Nat → Nat → Nat) (st : MarkState α) : Prop where
  exit : st.exit = .fallThrough
  update : st.update = upd
  frame : subFrame st.fw = subFrame s0
  front : ∀ ch way, (st.fw.srqPointer ch way).front = (s0.srqPointer ch way).front
  rear : ∀ ch way, (st.fw.srqPointer ch way).rear
    = if k ch way = 0 then (s0.srqPointer ch way).rear
      else ((s0.srqPointer ch way).rear + k ch way) % P.SUB_REQ_QUEUE_DEPTH
  pushed : ∀ ch way j, j < k ch way →
    st.fw.subReqQueue (((s0.srqPointer ch way).rear + j) % P.SUB_REQ_QUEUE_DEPTH) ch way
      = savedRequest P M ch way j
  kept : ∀ ch way slot,
    (∀ j, j < k ch way → slot ≠ ((s0.srqPointer ch way).rear + j) % P.SUB_REQ_QUEUE_DEPTH) →
    st.fw.subReqQueue slot ch way = s0.subReqQueue slot ch way

/-- No push of the save block to a flagged die of the build finds the sub ring full. -/
def SaveRoom (P : Params) (s0 : FW α) (upd : Nat → Nat → Nat) : Prop :=
  ∀ ch way, ch < P.CHANNEL_NUM → way < P.WAY_NUM → upd ch way ≠ 0 →
    (s0.srqPointer ch way).rear < P.SUB_REQ_QUEUE_DEPTH ∧
    ∀ k, k ≤ coveredPages P →
      ((s0.srqPointer ch way).rear + k + 1) % P.SUB_REQ_QUEUE_DEPTH
        ≠ (s0.srqPointer ch way).front

/-- Die `(chNo, wayNo)` of the build has at least one recorded block in `newBadBlockTable`. -/
def Reported (P : Params) (s : FW α) (chNo wayNo : Nat) : Prop :=
  chNo < P.CHANNEL_NUM ∧ wayNo < P.WAY_NUM ∧
    ∃ entry, entry < REQ_QUEUE_DEPTH ∧ s.newBadBlockTable entry chNo wayNo ≠ 0xffffffff

/-- The state without what the end of `EmptyLowLevelQ` writes: the sub rings, the die status
table, `newBadBlockTable`, the record of outgoing calls and `reservedReq`. -/
def updateFrame (s : FW α) : FW α :=
  { s with
    subReqQueue := fun _ _ _ => default
    srqPointer := fun _ _ => default
    dieStatusTable := fun _ _ => default
    newBadBlockTable := fun _ _ _ => 0
    trace := []
    reservedReq := 0 }

/-- What the end of `EmptyLowLevelQ` (marking and saving) has done to the state `s4` left by
the second drain. -/
structure UpdateEffect (P : Params) (M : MetaParams) (s4 final : FW α) : Prop where
  reserved : final.reservedReq = 1
  frame : updateFrame final = updateFrame s4
  cleared : ∀ entry ch way, entry < REQ_QUEUE_DEPTH → ch < P.CHANNEL_NUM → way < P.WAY_NUM →
    final.newBadBlockTable entry ch way = 0xffffffff
  trace : final.trace = s4.trace ++ markEvents P M s4.newBadBlockTable
  front : ∀ ch way, (final.srqPointer ch way).front = (s4.srqPointer ch way).front
  rear : ∀ ch way, Reported P s4 ch way →
    (final.srqPointer ch way).rear
      = ((s4.srqPointer ch way).rear + (coveredPages P + 1)) % P.SUB_REQ_QUEUE_DEPTH
  pushed : ∀ ch way, Reported P s4 ch way → ∀ j, j < coveredPages P + 1 →
    final.subReqQueue (((s4.srqPointer ch way).rear + j) % P.SUB_REQ_QUEUE_DEPTH) ch way
      = savedRequest P M ch way j
  kept : ∀ ch way, Reported P s4 ch way → ∀ slot,
    (∀ j, j < coveredPages P + 1 →
      slot ≠ ((s4.srqPointer ch way).rear + j) % P.SUB_REQ_QUEUE_DEPTH) →
    final.subReqQueue slot ch way = s4.subReqQueue slot ch way
  others : ∀ ch way, ¬ Reported P s4 ch way →
    final.srqPointer ch way = s4.srqPointer ch way ∧
    ∀ slot, final.subReqQueue slot ch way = s4.subReqQueue slot ch way

/-- The state that the first drain of `tinyEmptyRun` leaves. -/
def tinyDrained : FW Int :=
  (drainLoop readyEnv tinyParams 20 SUB_REQ_QUEUE 40 { tinyReportFW with reservedReq := 1 }).1

/-- The state that the second drain of `tinyEmptyRun` leaves: the marks have been read. -/
def tinyMarksRead : FW Int :=
  (drainLoop readyEnv tinyParams 20 SUB_REQ_QUEUE 40
    { (readMarks tinyParams exampleMeta
        (pushWaiting readyEnv tinyParams exampleMeta (fun _ _ => 7) 40 20 3) 40 (fun _ _ => 7)
        { tinyDrained with badBlockUpdate := 0 }).fw with reservedReq := 1 }).1

/-- The physical page of logical page `p` inside an SLC block: page 0 stays, page `p > 0` goes
to `2p - 1`. -/
def slcPhyPage (p : Nat) : Nat := if p = 0 then 0 else 2 * p - 1

/-- One "Save to Cache" of `translatePage`: the pair saved, the size of an attribute and the
length of the vector, and the place of the source vector in the page buffer. -/
structure CacheSave (α : Type) where
  embedding_id : Nat
  tableID : Nat
  attributeSize : Nat
  embeddingLength : Nat
  fromAtr : Nat
  page : Nat → α

/-- The cache after the "Save to Cache" block of the pair loop of `translatePage`:
the vector is copied into the slot and the slot is marked valid with the tag of the pair.
The slot of the embedding is the `embedding_bytes` of the firmware for vectors of at most 128
bytes; a longer copy runs past the slot in the firmware, which the embedding does not
represent. -/
def saveToCache (cache : Nat → TransEmbedCacheEntry α) (sv : CacheSave α) :
    Nat → TransEmbedCacheEntry α :=
  set1 cache (cacheKey sv.embedding_id sv.tableID).1
    { valid := 1, tag := (cacheKey sv.embedding_id sv.tableID).2,
      embedding := copyVector (cache (cacheKey sv.embedding_id sv.tableID).1).embedding
        sv.page sv.fromAtr sv.embeddingLength }

/-- The save that iteration `i` of the pair loop of `translatePage` performs in state `s`. -/
def pairSave (s : FW α) (entryIdx : Nat) (page : Nat → α)
    (pair_index0 base_embedding_id i : Nat) : CacheSave α :=
  { embedding_id := ((s.transConfig entryIdx).embeddingIDList (pair_index0 + i)).embeddingID
    tableID := (s.transConfig entryIdx).tableID
    attributeSize := (s.transConfig entryIdx).attributeSize
    embeddingLength := (s.transConfig entryIdx).embeddingLength
    fromAtr :=
      ((((s.transConfig entryIdx).embeddingIDList (pair_index0 + i)).embeddingID
          + (U32 - base_embedding_id % U32)) % U32
        * (s.transConfig entryIdx).embeddingLength) % U32
    page := page }

/-- The cache probe of `ConfigureTransBufEntry` for `(embeddingID, tableID)`: the slot is
valid and its tag matches. -/
def cacheProbe (cache : Nat → TransEmbedCacheEntry α) (embeddingID tableID : Nat) : Prop :=
  (cache (cacheKey embeddingID tableID).1).valid ≠ 0 ∧
  (cache (cacheKey embeddingID tableID).1).tag = (cacheKey embeddingID tableID).2

instance (cache : Nat → TransEmbedCacheEntry α) (embeddingID tableID : Nat) :
    Decidable (cacheProbe cache embeddingID tableID) := by
  unfold cacheProbe
  infer_instance

/-- The most recent save of `(embeddingID, tableID)` in a history of saves, oldest first. -/
def lastSave (saves : List (CacheSave α)) (embeddingID tableID : Nat) : Option (CacheSave α) :=
  saves.reverse.find? (fun sv => sv.embedding_id = embeddingID ∧ sv.tableID = tableID)

/-- A page buffer whose attribute `i` holds `i + 1`, saved for the pair
`(embeddingID 1, tableID 0)` with two 4-byte attributes per vector. -/
def exampleSave : CacheSave Int :=
  { embedding_id := 1, tableID := 0, attributeSize := 4, embeddingLength := 2, fromAtr := 2,
    page := exampleTable }

/-- The state `coldFW doubleConfig` after `exampleSave` was saved to its cache. -/
def savedFW : FW Int :=
  { coldFW doubleConfig with transCache := saveToCache blankFW.transCache exampleSave }

/-- A configuration of 2049 result rows of 32 four-byte attributes and no pair:
262272 result bytes, 65 sectors. -/
def wideConfig : TransConfig :=
  { attributeSize := 4, embeddingLength := 32, resultEmbeddings := 2049, inputEmbeddings := 0,
    tableID := 0, embeddingIDList := fun _ => { result := 0, embeddingID := 0 } }

/-- The blank state with `wideConfig` in configuration frame 0 and the value 7 in the
first cell of the result region of entry 1. -/
def wideFW : FW Int :=
  { blankFW with
    transConfig := set1 blankFW.transConfig 0 wideConfig
    transBuf := set1 blankFW.transBuf (resultBase exampleParams 1) 7 }

/-- The event of the NAND primitive that `PopFromReqQueue` issues for the head `e` of the
primary ring of `(chNo, wayNo)` when the head is not a DMA request. -/
def nandIssueEvent (P : Params) (chNo wayNo : Nat) (e : ReqEntry) : Event :=
  if e.request = P.V2FCommand_ReadPageTrigger then
    .ReadPageTriggerAsync chNo wayNo e.rowAddr
  else if e.request = P.V2FCommand_ReadPageTransfer then
    .ReadPageTransferAsync chNo wayNo e.pageDataBuf e.spareDataBuf (hpTable P chNo).1
      (hpTable P chNo).2 e.rowAddr
  else if e.request = P.V2FCommand_ProgramPage then
    .ProgramPageAsync chNo wayNo e.rowAddr e.pageDataBuf e.spareDataBuf
  else
    .printNotDefinedRequest 1

/-- A DMA request for die `(0, 0)`: an RxDMA of two sectors starting at DMA index 255. -/
def wrapDmaCmd : LowLevelReqInfo :=
  { (default : LowLevelReqInfo) with
    request := LLSCommand_RxDMA, devAddr := 0x10000000, cmdSlotTag := 3, startDmaIndex := 255,
    subReqSect := 2, bufferEntry := 2 }

/-- The blank state after the push of `wrapDmaCmd`. -/
def wrapDmaFW : FW Int := (PushToReqQueueNonBlocking exampleParams blankFW wrapDmaCmd 1).1

/-- The blank state after the push of an RxDMA of two sectors whose `startDmaIndex` is 300. -/
def highDmaFW : FW Int :=
  (PushToReqQueueNonBlocking exampleParams blankFW { wrapDmaCmd with startDmaIndex := 300 } 1).1

/-- The environment `quietEnv` with a controller that always reports busy. -/
def busyEnv : Env Int := { quietEnv with controllerBusy := fun _ _ => true }

/-- The blank state after the push of a `ReadPageTrigger` to die `(0, 0)` and of one to die
`(0, 1)`: both ways are on the idle list, each with a trigger at the head of its primary
ring. -/
def twoTriggersFW : FW Int :=
  chRun quietEnv exampleParams blankFW
    [.push { exampleReadCmd with chNo := 0, wayNo := 0 } 0,
     .push { exampleReadCmd with chNo := 0, wayNo := 1, rowAddr := 6 } 0]

/-- The state `twoTriggersFW` after a call of `ExeLowLevelReqPerCh` on channel 0 during which
the controller was busy: the idle sweep has moved ways 0 and 1 to the trigger list and
nothing was issued. -/
def triggersListedFW : FW Int :=
  (ExeLowLevelReqPerCh busyEnv exampleParams 20 twoTriggersFW 0 REQ_QUEUE).1

/-- An environment in which no die is ready and the controller reports busy at its second
read only (the read that follows the first issue of a call that starts at clock 0); `b` is
what it reports at its fourth read, after the first issue of the next call. -/
def yieldEnv (b : Bool) : Env Int :=
  { quietEnv with
    controllerBusy := fun clk _ => if clk = 1 then true else if clk = 4 then b else false }

/-- A `BlockErase` pushed to the sub ring of die `(0, 0)`, two arbiter calls on channel 0
(the erase is issued, then its status check), a `ReadPageTrigger` pushed to the primary ring
of the same die, and a third arbiter call; every call has `firstQueue = REQ_QUEUE`. -/
def retryOps : List ChOp :=
  [.pushSub 0 0 37 128 0 0, .exe 0 REQ_QUEUE 20, .exe 0 REQ_QUEUE 20,
   .push exampleReadCmd 0, .exe 0 REQ_QUEUE 20]

/-- The `next` field of every slot of a translation request list. -/
def nextOfQ (q : Nat → TransReqEntry) : Nat → Nat := fun i => (q i).next

/-- The `prev` field of every slot of a translation request list. -/
def prevOfQ (q : Nat → TransReqEntry) : Nat → Nat := fun i => (q i).prev

/-- The block with which both push functions take the slot at the head of the free list of
a translation queue and append it to the active list.  The third component tells whether
`ASSERT(availtail == 0xffff)` held; when it failed, only `availtail` has been rewritten. -/
def linkSlot (q : Nat → TransReqEntry) (p : TransRqPointerEntry) :
    (Nat → TransReqEntry) × TransRqPointerEntry × Bool :=
  let slot := p.availhead
  let p1 := if p.availtail = p.availhead then { p with availtail := (q slot).next } else p
  if p.availtail = p.availhead ∧ p1.availtail ≠ 0xffff then (q, p1, false)
  else
    let p2 := { p1 with availhead := (q slot).next }
    let q1 := set1 q slot { (q slot) with next := 0xffff }
    let q2 := set1 q1 slot { (q1 slot) with prev := p2.tail }
    let q3 :=
      if p2.tail ≠ 0xffff then set1 q2 p2.tail { (q2 p2.tail) with next := slot % 2 ^ 16 }
      else q2
    let p3 := { p2 with tail := slot % 2 ^ 16 }
    let p4 :=
      if p3.head = 0xffff then { p3 with head := slot % 2 ^ 16, current := slot % 2 ^ 16 }
      else p3
    (q3, p4, true)

/-- `PushToTransReqQueue` once its waiting loop
`while (availhead == 0xffff) ExeLowLevelReq(SUB_REQ_QUEUE)` has ended; the loop is not
entered when a free slot is available.  Nothing is done after a failed `ASSERT`. -/
def PushToTransReqQueue (s : FW α) (entryIdx : Nat) : FW α :=
  let slot := s.transRqPointer.availhead
  let r := linkSlot s.transReqQueue s.transRqPointer
  if r.2.2 then
    let q1 := set1 r.1 slot { (r.1 slot) with entryIdx := entryIdx }
    let q2 := set1 q1 slot { (q1 slot) with nextPage := 0 }
    { s with transReqQueue := q2, transRqPointer := r.2.1 }
  else { s with transRqPointer := r.2.1, halted := true }

/-- `PushToTransReadReqQueue` once its waiting loop has ended; the loop is not entered when
a free slot is available.  Nothing is done after a failed `ASSERT`. -/
def PushToTransReadReqQueue (s : FW α) (entryIdx cmdSlotTag nlb : Nat) : FW α :=
  let slot := s.transReadRqPointer.availhead
  let r := linkSlot s.transReadReqQueue s.transReadRqPointer
  if r.2.2 then
    let q1 := set1 r.1 slot { (r.1 slot) with entryIdx := entryIdx }
    let q2 := set1 q1 slot { (q1 slot) with firstSector := (s.transMap entryIdx).nlbRequested }
    let q3 := set1 q2 slot { (q2 slot) with nextSector := (s.transMap entryIdx).nlbRequested }
    let q4 := set1 q3 slot { (q3 slot) with cmdSlotTag := cmdSlotTag }
    let q5 := set1 q4 slot { (q4 slot) with nlb := nlb }
    let s1 : FW α := { s with transReadReqQueue := q5, transReadRqPointer := r.2.1 }
    s1.modTransMap entryIdx (fun e => { e with nlbRequested := (e.nlbRequested + nlb) % U32 })
  else { s with transReadRqPointer := r.2.1, halted := true }

/-- The slots `act` are the active list and the slots `free` the free list of a translation
queue of `N` slots with links `nxt`, `prv` and pointers `p`: the active list is doubly
linked from `head` to `tail` and closed by `0xffff` at both ends, the free list is chained
through `nxt` from `availhead` to `0xffff` and `availtail` is its last slot, no slot occurs
twice, every member is a slot of the queue and every slot is a member, and `current` is
`0xffff` when the active list is empty and one of its members otherwise. -/
structure TransLinks (N : Nat) (nxt prv : Nat → Nat) (p : TransRqPointerEntry)
    (act free : List Nat) : Prop where
  fwd : Fwd nxt p.head act 0xffff
  bwd : Bwd prv 0xffff act p.tail
  freeFwd : Fwd nxt p.availhead free 0xffff
  freeLast : p.availtail = free.getLastD 0xffff
  nodup : (act ++ free).Nodup
  bound : ∀ i, i ∈ act ++ free → i < N
  cover : ∀ i, i < N → i ∈ act ++ free
  curNil : act = [] → p.current = 0xffff
  curMem : act ≠ [] → p.current ∈ act

/-- The translation queue `q` with pointers `p` is well formed, with members `act` and
`free`. -/
def TransListInv (N : Nat) (q : Nat → TransReqEntry) (p : TransRqPointerEntry)
    (act free : List Nat) : Prop :=
  TransLinks N (nextOfQ q) (prevOfQ q) p act free

/-- The effect of `retireSlot` on the links and the pointers. -/
def retireLinks (nxt prv : Nat → Nat) (p : TransRqPointerEntry) :
    (Nat → Nat) × (Nat → Nat) × TransRqPointerEntry :=
  let slot := p.current
  let p1 := if p.head = slot then { p with head := nxt slot } else p
  let p2 :=
    if p1.tail = slot then { p1 with tail := prv slot, current := p1.head }
    else { p1 with current := nxt slot }
  let nxt1 := if prv slot ≠ 0xffff then set1 nxt (prv slot) (nxt slot) else nxt
  let prv2 := if nxt1 slot ≠ 0xffff then set1 prv (nxt1 slot) (prv slot) else prv
  let nxt3 := set1 nxt1 slot 0xffff
  let prv4 := set1 prv2 slot p2.availtail
  let nxt5 := if p2.availtail ≠ 0xffff then set1 nxt3 p2.availtail (slot % 2 ^ 16) else nxt3
  let p3 := { p2 with availtail := slot % 2 ^ 16 }
  let p4 := if p3.availhead = 0xffff then { p3 with availhead := slot % 2 ^ 16 } else p3
  (nxt5, prv4, p4)

/-- The effect of `linkSlot` on the links and the pointers when its assertion holds. -/
def linkLinks (nxt prv : Nat → Nat) (p : TransRqPointerEntry) :
    (Nat → Nat) × (Nat → Nat) × TransRqPointerEntry :=
  let slot := p.availhead
  let p1 := if p.availtail = p.availhead then { p with availtail := nxt slot } else p
  let p2 := { p1 with availhead := nxt slot }
  let nxt1 := set1 nxt slot 0xffff
  let prv2 := set1 prv slot p2.tail
  let nxt3 := if p2.tail ≠ 0xffff then set1 nxt1 p2.tail (slot % 2 ^ 16) else nxt1
  let p3 := { p2 with tail := slot % 2 ^ 16 }
  let p4 :=
    if p3.head = 0xffff then { p3 with head := slot % 2 ^ 16, current := slot % 2 ^ 16 }
    else p3
  (nxt3, prv2, p4)

/-- The two translation request lists of a state: slots and pointers of `transRq` and of
`transReadRq`. -/
def transLists (s : FW α) :
    (Nat → TransReqEntry) × TransRqPointerEntry × (Nat → TransReqEntry) × TransRqPointerEntry :=
  (s.transReqQueue, s.transRqPointer, s.transReadReqQueue, s.transReadRqPointer)

/-- A call on the translation request lists: a push or a pop attempt on `transRq`, a push or
a pop attempt on `transReadRq`. -/
inductive TransOp where
  | push (entryIdx : Nat)
  | pop
  | pushRead (entryIdx cmdSlotTag nlb : Nat)
  | popRead
deriving DecidableEq, Repr

/-- The state after one call. -/
def TransOp.step [Add α] [Zero α] (env : Env α) (P : Params) (s : FW α) : TransOp → FW α
  | .push entryIdx => PushToTransReqQueue s entryIdx
  | .pop => (PopFromTransReqQueue env P s).1
  | .pushRead entryIdx cmdSlotTag nlb => PushToTransReadReqQueue s entryIdx cmdSlotTag nlb
  | .popRead => (PopFromTransReadReqQueue P s).1

/-- The state after the calls `ops`, in order. -/
def transRun [Add α] [Zero α] (env : Env α) (P : Params) (s : FW α) (ops : List TransOp) :
    FW α :=
  ops.foldl (TransOp.step env P) s

/-- A push is made with a free slot available. -/
def TransOp.ok (s : FW α) : TransOp → Prop
  | .push _ => s.transRqPointer.availhead ≠ 0xffff
  | .pushRead _ _ _ => s.transReadRqPointer.availhead ≠ 0xffff
  | _ => True

/-- Every push of `ops` finds a free slot in the state in which it is made. -/
def transRunOk [Add α] [Zero α] (env : Env α) (P : Params) (s : FW α) : List TransOp → Prop
  | [] => True
  | op :: ops => op.ok s ∧ transRunOk env P (op.step env P s) ops

/-- Decidable form of `transRunOk` for evaluation on concrete runs. -/
def transRunOkB [Add α] [Zero α] (env : Env α) (P : Params) (s : FW α) : List TransOp → Bool
  | [] => true
  | .push e :: ops =>
    decide (s.transRqPointer.availhead ≠ 0xffff)
      && transRunOkB env P (TransOp.step env P s (.push e)) ops
  | .pushRead e c n :: ops =>
    decide (s.transReadRqPointer.availhead ≠ 0xffff)
      && transRunOkB env P (TransOp.step env P s (.pushRead e c n)) ops
  | .pop :: ops => transRunOkB env P (TransOp.step env P s .pop) ops
  | .popRead :: ops => transRunOkB env P (TransOp.step env P s .popRead) ops

/-- Both translation request lists of `s` are well formed, `transRq` with `N` slots and
`transReadRq` with `M` slots. -/
def TransListsOK (N M : Nat) (s : FW α) : Prop :=
  (∃ act free, TransListInv N s.transReqQueue s.transRqPointer act free) ∧
  (∃ act free, TransListInv M s.transReadReqQueue s.transReadRqPointer act free)

/-- Three slots chained `0 -> 1 -> 2` through `next`. -/
def chainedSlots : Nat → TransReqEntry := fun i =>
  { (default : TransReqEntry) with
    next := if i + 1 < 3 then i + 1 else 0xffff
    prev := if i = 0 then 0xffff else i - 1 }

/-- The blank state with two translation request lists of three slots each, every slot on
the free list and the active lists empty. -/
def chainedFW : FW Int :=
  { blankFW with
    transReqQueue := chainedSlots
    transReadReqQueue := chainedSlots
    transRqPointer :=
      { head := 0xffff, tail := 0xffff, current := 0xffff, availhead := 0, availtail := 2 }
    transReadRqPointer :=
      { head := 0xffff, tail := 0xffff, current := 0xffff, availhead := 0, availtail := 2 } }

/-- Two pushes and a pop attempt on `transRq`, then three pushes and three pop attempts on
`transReadRq`, the first and the third push asking for no block. -/
def exampleTransOps : List TransOp :=
  [.push 0, .push 1, .pop, .pushRead 0 5 0, .pushRead 1 6 1, .pushRead 1 7 0, .popRead,
    .popRead, .popRead]

/-- What a pop attempt does to a list `q`, `p` with members `act` and free slots `free`,
giving `q2`, `p2`: nothing; or, with `act = pre ++ p.current :: post`, it unlinks the current
slot onto the end of the free list and `current` becomes the member after it (the head if
it was the tail, `0xffff` if it was the only member); or it leaves the membership as it is
and steps `current` to the next member, wrapping from the tail to the head. -/
def PopOutcome (N : Nat) (q : Nat → TransReqEntry) (p : TransRqPointerEntry)
    (q2 : Nat → TransReqEntry) (p2 : TransRqPointerEntry) (act free : List Nat) : Prop :=
  (q2 = q ∧ p2 = p) ∨
  ∃ pre post, act = pre ++ p.current :: post ∧
    ((TransListInv N q2 p2 (pre ++ post) (free ++ [p.current]) ∧
        p2.current = (post ++ pre).headD 0xffff) ∨
      (TransListInv N q2 p2 act free ∧
        p2.current = (post ++ pre ++ [p.current]).headD 0xffff))

/-- The DMA index of descriptor `k` of the descriptor loop of `PopFromReqQueue`: the loop
starts at `startDmaIndex` as stored and resets the index to 0 when an increment reaches 256 or
more. -/
def dmaIndexAt (startDmaIndex k : Nat) : Nat :=
  if k = 0 then startDmaIndex
  else if startDmaIndex < 256 then (startDmaIndex + k) % 256
  else (k - 1) % 256

/-- The device address of descriptor `k` of the descriptor loop of `PopFromReqQueue`:
`devAddr += SECTOR_SIZE_FTL` in 32-bit arithmetic after every descriptor. -/
def dmaAddrAt (P : Params) (devAddr k : Nat) : Nat :=
  if k = 0 then devAddr else (devAddr + k * P.SECTOR_SIZE_FTL) % U32

/-- The vectors of the configuration are vectors of `float` that fit a cache slot: the
reduction of `translatePage` and the cache-hit path of `ConfigureTransBufEntry` read and write
`float`, so an attribute is taken to be 4 bytes, and `embedding_bytes` of a cache entry holds
128 bytes.  Inside these bounds one cell of the embedding is one attribute of the firmware. -/
structure FloatVectors (config : TransConfig) : Prop where
  float : config.attributeSize = 4
  slot : config.embeddingLength * config.attributeSize ≤ 128

/-- The result of the configuration keeps within the counter arrays of a translation buffer
entry: `perResultSectorInputEmbeddings` and `perResultSectorCompletedEmbeddings` have
`MAX_EMBEDDING_RESULT_PAGES` slots each, so the result takes at most that many sectors and
the result sector of every pair is below that number.  Inside these bounds the arrays of the
embedding are the arrays of the firmware. -/
structure CountersFit (P : Params) (config : TransConfig) : Prop where
  sectors : resultBytes config ≤ MAX_EMBEDDING_RESULT_PAGES * P.SECTOR_SIZE_FTL
  pairs : ∀ i, i < config.inputEmbeddings →
    resultSectorOf P config i < MAX_EMBEDDING_RESULT_PAGES

/-- Way `wayNo` of channel `chNo` has a request in its primary ring or in its sub ring: the
test with which the idle sweep of `ExeLowLevelReqPerCh` takes a way out of the idle list. -/
def FW.queued (s : FW α) (chNo wayNo : Nat) : Prop :=
  (s.rqPointer chNo wayNo).rear ≠ (s.rqPointer chNo wayNo).front
    ∨ (s.srqPointer chNo wayNo).rear ≠ (s.srqPointer chNo wayNo).front

instance (s : FW α) (chNo wayNo : Nat) : Decidable (s.queued chNo wayNo) :=
  inferInstanceAs (Decidable (_ ∨ _))

/-- Die `(chNo, wayNo)` is in `DS_IDLE`, the head of its non-empty primary ring is a
`ReadPageTrigger`, and `FindPriorityTable` called with `firstQueue` selects the primary ring
(`firstQueue` names it, or the sub ring is empty). -/
structure TriggerAtHead (P : Params) (s : FW α) (chNo wayNo firstQueue : Nat) : Prop where
  idle : (s.dieStatusTable chNo wayNo).dieStatus = DS_IDLE
  queued : (s.rqPointer chNo wayNo).rear ≠ (s.rqPointer chNo wayNo).front
  request : (s.headReq chNo wayNo).request = P.V2FCommand_ReadPageTrigger
  primary : firstQueue = REQ_QUEUE ∨ s.subEmpty chNo wayNo

/-- The state `s'` is `s` up to the die status table and the way priority table, and every
die has the same `dieStatus` in both. -/
def Relinked (s s' : FW α) : Prop :=
  ∃ D W, s' = { s with dieStatusTable := D, wayPriorityTable := W } ∧
    ∀ c w, (D c w).dieStatus = (s.dieStatusTable c w).dieStatus

/-- The state in which `ExeLowLevelReqPerDie` leaves a die that it finds in `DS_IDLE` with
`queueSelect = REQ_QUEUE` and a `ReadPageTrigger` at the head of its primary ring: the trigger
is issued for the row address of the head entry, the retry counter is armed and the die is in
`DS_EXE`. -/
def triggerIssued (P : Params) (s : FW α) (chNo wayNo : Nat) : FW α :=
  ({ s.emit (.ReadPageTriggerAsync chNo wayNo (s.headReq chNo wayNo).rowAddr) with
      retryLimitTable := set2 s.retryLimitTable chNo wayNo (P.RETRY_LIMIT : Int) }).setDieStatus
    chNo wayNo DS_EXE

/-- The state `s'` is `s` up to the die status table, the way priority table, the retry
counters, the clock and the trace. -/
def Rescheduled (s s' : FW α) : Prop :=
  ∃ D W R k tr, s' = { s with
    dieStatusTable := D, wayPriorityTable := W, retryLimitTable := R, clock := k, trace := tr }

/-- A channel with nothing in flight but read triggers: its ways are on the idle, trigger and
NAND status lists `ws`, the other five lists are empty, the translated-read queue and the
mailboxes of the channel are empty, every idle way that has a request queued is as
`TriggerAtHead` says, and every way of the trigger list is in `DS_IDLE` with
`queueSelect = REQ_QUEUE` and a `ReadPageTrigger` at the head of its primary ring. -/
structure QuietChannel (P : Params) (s : FW α) (chNo firstQueue : Nat)
    (ws : WayList → List Nat) : Prop where
  lists : WayInv P s chNo ws none
  others : ∀ l, l ≠ .idle → l ≠ .nandTrigger → l ≠ .nandStatus → ws l = []
  noReads : s.transReadRqPointer.head = 0xffff
  noMail : ∀ w, w < P.WAY_NUM → (s.transPageReqQueue chNo w).valid = 0
  idleWays : ∀ w, w ∈ ws .idle → s.queued chNo w → TriggerAtHead P s chNo w firstQueue
  listed : ∀ w, w ∈ ws .nandTrigger → (s.dieStatusTable chNo w).dieStatus = DS_IDLE ∧
    (s.dieStatusTable chNo w).queueSelect = REQ_QUEUE ∧
    (s.headReq chNo w).request = P.V2FCommand_ReadPageTrigger

/-- The environment `readyEnv` with a controller that reports busy at clock 14 only. -/
def lateBusyEnv : Env Int :=
  { readyEnv with controllerBusy := fun clk _ => decide (clk = 14) }

/-- A `ReadPageTrigger` pushed to die `(0, 0)` of the blank state and served to completion by
four arbiter calls on channel 0, which put way 0 back at the end of the idle list, and then a
`ReadPageTrigger` pushed to die `(0, 0)` and one to die `(0, 1)`: the idle list of channel 0
holds the ways `1, 2, .., 7, 0` in this order, and ways 0 and 1 each have a trigger at the head
of their primary ring. -/
def servedFW : FW Int :=
  chRun lateBusyEnv exampleParams blankFW
    [.push { exampleReadCmd with chNo := 0, wayNo := 0 } 0,
     .exe 0 REQ_QUEUE 20, .exe 0 REQ_QUEUE 20, .exe 0 REQ_QUEUE 20, .exe 0 REQ_QUEUE 20,
     .push { exampleReadCmd with chNo := 0, wayNo := 0, rowAddr := 9 } 0,
     .push { exampleReadCmd with chNo := 0, wayNo := 1, rowAddr := 6 } 0]

/-! ## Theorems -/

theorem toInt32_of_lt {n : Nat} (h : n < 2 ^ 31) : toInt32 n = (n : Int) := by
  unfold toInt32 U32
  have h1 : n % 2 ^ 32 = n := Nat.mod_eq_of_lt (by omega)
  rw [h1, if_pos h]

theorem CheckReqQueueAvailability_eq (s : FW α) (chNo wayNo openSlots : Nat)
    (hf : (s.rqPointer chNo wayNo).front < REQ_QUEUE_DEPTH)
    (hr : (s.rqPointer chNo wayNo).rear < REQ_QUEUE_DEPTH) :
    CheckReqQueueAvailability s chNo wayNo openSlots =
      if s.occupancy chNo wayNo ≥ (REQ_QUEUE_DEPTH - 1 + (U32 - openSlots % U32)) % U32
      then 0 else 1 := by
  unfold CheckReqQueueAvailability FW.occupancy
  simp only [REQ_QUEUE_DEPTH] at hf hr ⊢
  rw [toInt32_of_lt (by omega), toInt32_of_lt (by omega)]
  have hnn : (0 : Int) ≤ ((s.rqPointer chNo wayNo).rear : Int)
      - ((s.rqPointer chNo wayNo).front : Int) + ((256 : Nat) : Int) := by omega
  rw [Int.tmod_eq_emod hnn (by decide)]
  have : toUInt32 ((((s.rqPointer chNo wayNo).rear : Int)
      - ((s.rqPointer chNo wayNo).front : Int) + ((256 : Nat) : Int)) % ((256 : Nat) : Int))
      = ((s.rqPointer chNo wayNo).rear + 256 - (s.rqPointer chNo wayNo).front) % 256 := by
    unfold toUInt32
    omega
  rw [this]

@[simp] theorem set1_eq {β : Type} (f : Nat → β) (i : Nat) (v : β) : set1 f i v i = v := by
  simp [set1]

theorem set1_ne {β : Type} (f : Nat → β) {i j : Nat} (v : β) (h : j ≠ i) :
    set1 f i v j = f j := by
  simp [set1, h]

@[simp] theorem set2_eq {β : Type} (f : Nat → Nat → β) (i j : Nat) (v : β) :
    set2 f i j v i j = v := by
  simp [set2]

theorem set2_ne {β : Type} (f : Nat → Nat → β) {i j i' j' : Nat} (v : β)
    (h : ¬(i' = i ∧ j' = j)) : set2 f i j v i' j' = f i' j' := by
  simp only [set2, if_neg h]

@[simp] theorem set3_eq {β : Type} (f : Nat → Nat → Nat → β) (i j k : Nat) (v : β) :
    set3 f i j k v i j k = v := by
  simp [set3]

theorem set3_ne {β : Type} (f : Nat → Nat → Nat → β) {i j k i' j' k' : Nat} (v : β)
    (h : ¬(i' = i ∧ j' = j ∧ k' = k)) : set3 f i j k v i' j' k' = f i' j' k' := by
  simp only [set3, if_neg h]

/-- C5: for `front, rear < REQ_QUEUE_DEPTH` and every `unsigned` value of `openSlots`,
`CheckReqQueueAvailability` returns non-zero exactly when
`(rear - front + REQ_QUEUE_DEPTH) mod REQ_QUEUE_DEPTH < REQ_QUEUE_DEPTH - 1 - openSlots`,
the right-hand side being computed in `unsigned int` (modulo `2 ^ 32`). -/
theorem CheckReqQueueAvailability_iff (s : FW α) (chNo wayNo openSlots : Nat)
    (hf : (s.rqPointer chNo wayNo).front < REQ_QUEUE_DEPTH)
    (hr : (s.rqPointer chNo wayNo).rear < REQ_QUEUE_DEPTH)
    (ho : openSlots < 2 ^ 32) :
    CheckReqQueueAvailability s chNo wayNo openSlots ≠ 0 ↔
      (((s.rqPointer chNo wayNo).rear : Int) - ((s.rqPointer chNo wayNo).front : Int)
          + (REQ_QUEUE_DEPTH : Int)) % (REQ_QUEUE_DEPTH : Int)
        < ((REQ_QUEUE_DEPTH : Int) - 1 - (openSlots : Int)) % (2 ^ 32 : Int) := by
  rw [CheckReqQueueAvailability_eq s chNo wayNo openSlots hf hr]
  unfold FW.occupancy
  simp only [REQ_QUEUE_DEPTH, U32] at hf hr ⊢
  have h1 : openSlots % 2 ^ 32 = openSlots := Nat.mod_eq_of_lt ho
  rw [h1]
  split <;> rename_i h <;> simp <;> omega

theorem push_rqPointer (P : Params) (s : FW α) (cmd : LowLevelReqInfo) (openSlots : Nat)
    (hok : (PushToReqQueueNonBlocking P s cmd openSlots).2 ≠ 0) :
    (PushToReqQueueNonBlocking P s cmd openSlots).1.rqPointer =
      set2 s.rqPointer cmd.chNo cmd.wayNo
        { front := (s.rqPointer cmd.chNo cmd.wayNo).front,
          rear := ((s.rqPointer cmd.chNo cmd.wayNo).rear + 1) % REQ_QUEUE_DEPTH } := by
  unfold PushToReqQueueNonBlocking at hok ⊢
  by_cases hc : CheckReqQueueAvailability s cmd.chNo cmd.wayNo openSlots = 0
  · simp [hc] at hok
  · simp only [hc, if_false]
    split <;> simp [FW.modRq, FW.modReq, FW.modDie]

theorem push_reqQueue_ne (P : Params) (s : FW α) (cmd : LowLevelReqInfo) (openSlots : Nat)
    (slot c w : Nat)
    (h : ¬(slot = (s.rqPointer cmd.chNo cmd.wayNo).rear ∧ c = cmd.chNo ∧ w = cmd.wayNo)) :
    (PushToReqQueueNonBlocking P s cmd openSlots).1.reqQueue slot c w = s.reqQueue slot c w := by
  unfold PushToReqQueueNonBlocking
  by_cases hc : CheckReqQueueAvailability s cmd.chNo cmd.wayNo openSlots = 0
  · simp [hc]
  · simp only [hc, if_false]
    split <;> simp [FW.modRq, FW.modReq, FW.modDie, set3_ne _ _ h]

theorem push_fail_state (P : Params) (s : FW α) (cmd : LowLevelReqInfo) (openSlots : Nat)
    (hok : (PushToReqQueueNonBlocking P s cmd openSlots).2 = 0) :
    (PushToReqQueueNonBlocking P s cmd openSlots).1 = s := by
  unfold PushToReqQueueNonBlocking at hok ⊢
  by_cases hc : CheckReqQueueAvailability s cmd.chNo cmd.wayNo openSlots = 0
  · simp [hc]
  · simp [hc] at hok

theorem push_ok_iff (P : Params) (s : FW α) (cmd : LowLevelReqInfo) (openSlots : Nat) :
    (PushToReqQueueNonBlocking P s cmd openSlots).2 ≠ 0 ↔
      CheckReqQueueAvailability s cmd.chNo cmd.wayNo openSlots ≠ 0 := by
  unfold PushToReqQueueNonBlocking
  by_cases hc : CheckReqQueueAvailability s cmd.chNo cmd.wayNo openSlots = 0 <;> simp [hc]

theorem push_ok_occupancy (P : Params) (s : FW α) (cmd : LowLevelReqInfo) (openSlots : Nat)
    (hf : (s.rqPointer cmd.chNo cmd.wayNo).front < REQ_QUEUE_DEPTH)
    (hr : (s.rqPointer cmd.chNo cmd.wayNo).rear < REQ_QUEUE_DEPTH)
    (ho : openSlots < REQ_QUEUE_DEPTH)
    (hok : (PushToReqQueueNonBlocking P s cmd openSlots).2 ≠ 0) :
    s.occupancy cmd.chNo cmd.wayNo + openSlots < REQ_QUEUE_DEPTH - 1 := by
  rw [push_ok_iff, CheckReqQueueAvailability_eq s _ _ _ hf hr] at hok
  simp only [REQ_QUEUE_DEPTH, U32] at hf hr ho hok ⊢
  have h1 : openSlots % 2 ^ 32 = openSlots := Nat.mod_eq_of_lt (by omega)
  rw [h1] at hok
  split at hok
  · exact absurd rfl hok
  · omega

theorem window_push (P : Params) (s : FW α) (cmd : LowLevelReqInfo) (openSlots : Nat)
    (hf : (s.rqPointer cmd.chNo cmd.wayNo).front < REQ_QUEUE_DEPTH)
    (hr : (s.rqPointer cmd.chNo cmd.wayNo).rear < REQ_QUEUE_DEPTH)
    (ho : openSlots < REQ_QUEUE_DEPTH)
    (hok : (PushToReqQueueNonBlocking P s cmd openSlots).2 ≠ 0) :
    (PushToReqQueueNonBlocking P s cmd openSlots).1.window cmd.chNo cmd.wayNo =
      s.window cmd.chNo cmd.wayNo ++
        [(PushToReqQueueNonBlocking P s cmd openSlots).1.reqQueue
          (s.rqPointer cmd.chNo cmd.wayNo).rear cmd.chNo cmd.wayNo] := by
  have hocc := push_ok_occupancy P s cmd openSlots hf hr ho hok
  have hp := push_rqPointer P s cmd openSlots hok
  have hocc' : (PushToReqQueueNonBlocking P s cmd openSlots).1.occupancy cmd.chNo cmd.wayNo
      = s.occupancy cmd.chNo cmd.wayNo + 1 := by
    unfold FW.occupancy at hocc ⊢
    rw [hp]
    simp only [set2_eq, REQ_QUEUE_DEPTH] at hf hr hocc ⊢
    omega
  unfold FW.window
  rw [hocc', List.range_succ, List.map_append, hp]
  simp only [set2_eq, List.map_cons, List.map_nil]
  congr 1
  · apply List.map_congr_left
    intro i hi
    rw [List.mem_range] at hi
    apply push_reqQueue_ne
    unfold FW.occupancy at hi hocc
    simp only [REQ_QUEUE_DEPTH] at hf hr hi hocc ⊢
    omega
  · congr 2
    unfold FW.occupancy
    simp only [REQ_QUEUE_DEPTH] at hf hr ⊢
    omega

theorem push_other_rqPointer (P : Params) (s : FW α) (cmd : LowLevelReqInfo) (openSlots : Nat)
    (c w : Nat) (h : ¬(c = cmd.chNo ∧ w = cmd.wayNo)) :
    (PushToReqQueueNonBlocking P s cmd openSlots).1.rqPointer c w = s.rqPointer c w := by
  by_cases hok : (PushToReqQueueNonBlocking P s cmd openSlots).2 = 0
  · rw [push_fail_state P s cmd openSlots hok]
  · rw [push_rqPointer P s cmd openSlots hok, set2_ne _ _ h]

theorem window_push_other (P : Params) (s : FW α) (cmd : LowLevelReqInfo) (openSlots : Nat)
    (c w : Nat) (h : ¬(c = cmd.chNo ∧ w = cmd.wayNo)) :
    (PushToReqQueueNonBlocking P s cmd openSlots).1.window c w = s.window c w := by
  unfold FW.window FW.occupancy
  rw [push_other_rqPointer P s cmd openSlots c w h]
  apply List.map_congr_left
  intro i _
  apply push_reqQueue_ne
  intro hh
  exact h ⟨hh.2.1, hh.2.2⟩

theorem window_advance (s : FW α) (chNo wayNo : Nat)
    (hf : (s.rqPointer chNo wayNo).front < REQ_QUEUE_DEPTH)
    (hr : (s.rqPointer chNo wayNo).rear < REQ_QUEUE_DEPTH)
    (hne : (s.rqPointer chNo wayNo).front ≠ (s.rqPointer chNo wayNo).rear) :
    (s.advanceFront chNo wayNo).window chNo wayNo = (s.window chNo wayNo).tail ∧
      (s.advanceFront chNo wayNo).occupancy chNo wayNo + 1 = s.occupancy chNo wayNo := by
  have hocc : (s.advanceFront chNo wayNo).occupancy chNo wayNo + 1 = s.occupancy chNo wayNo := by
    unfold FW.occupancy FW.advanceFront FW.modRq
    simp only [set2_eq, REQ_QUEUE_DEPTH] at hf hr ⊢
    omega
  refine ⟨?_, hocc⟩
  unfold FW.window
  rw [← hocc, List.range_succ_eq_map, List.map_cons, List.tail_cons, List.map_map]
  apply List.map_congr_left
  intro i _
  simp only [FW.advanceFront, FW.modRq, set2_eq, Function.comp, REQ_QUEUE_DEPTH]
  congr 1
  omega

theorem window_advance_other (s : FW α) (chNo wayNo c w : Nat) (h : ¬(c = chNo ∧ w = wayNo)) :
    (s.advanceFront chNo wayNo).window c w = s.window c w ∧
      (s.advanceFront chNo wayNo).rqPointer c w = s.rqPointer c w := by
  have hp : (s.advanceFront chNo wayNo).rqPointer c w = s.rqPointer c w := by
    simp only [FW.advanceFront, FW.modRq, set2_ne _ _ h]
  refine ⟨?_, hp⟩
  unfold FW.window FW.occupancy
  rw [hp]
  rfl

theorem ringRun_window (P : Params) (chNo wayNo : Nat) (ops : List RingOp) :
    ∀ (s : FW α), (∀ op ∈ ops, op.reserveOk) →
      (s.rqPointer chNo wayNo).front < REQ_QUEUE_DEPTH →
      (s.rqPointer chNo wayNo).rear < REQ_QUEUE_DEPTH →
      ((ringRun P s ops).rqPointer chNo wayNo).front < REQ_QUEUE_DEPTH ∧
      ((ringRun P s ops).rqPointer chNo wayNo).rear < REQ_QUEUE_DEPTH ∧
      ∃ (pushed : List ReqEntry) (k : Nat),
        (ringRun P s ops).window chNo wayNo = (s.window chNo wayNo ++ pushed).drop k := by
  induction ops with
  | nil =>
    intro s _ hf hr
    exact ⟨hf, hr, [], 0, by simp [ringRun]⟩
  | cons op ops ih =>
    intro s hops hf hr
    have hop : op.reserveOk := hops op (List.mem_cons_self _ _)
    have hrest : ∀ o ∈ ops, o.reserveOk := fun o ho => hops o (List.mem_cons_of_mem _ ho)
    have hrun : ringRun P s (op :: ops) = ringRun P (RingOp.step P s op) ops := by
      simp [ringRun]
    rw [hrun]
    cases op with
    | push cmd openSlots =>
      simp only [RingOp.step]
      by_cases hd : chNo = cmd.chNo ∧ wayNo = cmd.wayNo
      · obtain ⟨h1, h2⟩ := hd
        subst h1 h2
        by_cases hok : (PushToReqQueueNonBlocking P s cmd openSlots).2 = 0
        · rw [push_fail_state P s cmd openSlots hok]
          exact ih s hrest hf hr
        · have hp := push_rqPointer P s cmd openSlots hok
          have hw := window_push P s cmd openSlots hf hr hop hok
          have hf' : ((PushToReqQueueNonBlocking P s cmd openSlots).1.rqPointer
              cmd.chNo cmd.wayNo).front < REQ_QUEUE_DEPTH := by
            rw [hp]; simpa using hf
          have hr' : ((PushToReqQueueNonBlocking P s cmd openSlots).1.rqPointer
              cmd.chNo cmd.wayNo).rear < REQ_QUEUE_DEPTH := by
            rw [hp]; simp only [set2_eq]; exact Nat.mod_lt _ (by decide)
          obtain ⟨h1, h2, pushed, k, h3⟩ := ih _ hrest hf' hr'
          refine ⟨h1, h2, (PushToReqQueueNonBlocking P s cmd openSlots).1.reqQueue
            (s.rqPointer cmd.chNo cmd.wayNo).rear cmd.chNo cmd.wayNo :: pushed, k, ?_⟩
          rw [h3, hw, List.append_assoc, List.singleton_append]
      · have hp := push_other_rqPointer P s cmd openSlots chNo wayNo hd
        have hw := window_push_other P s cmd openSlots chNo wayNo hd
        obtain ⟨h1, h2, pushed, k, h3⟩ := ih (PushToReqQueueNonBlocking P s cmd openSlots).1 hrest
          (by rw [hp]; exact hf) (by rw [hp]; exact hr)
        exact ⟨h1, h2, pushed, k, by rw [h3, hw]⟩
    | advance c w =>
      simp only [RingOp.step]
      by_cases hemp : (s.rqPointer c w).front = (s.rqPointer c w).rear
      · rw [if_pos hemp]
        exact ih s hrest hf hr
      · rw [if_neg hemp]
        by_cases hd : chNo = c ∧ wayNo = w
        · obtain ⟨h1, h2⟩ := hd
          subst h1 h2
          have hw := window_advance s chNo wayNo hf hr hemp
          have hf' : ((s.advanceFront chNo wayNo).rqPointer chNo wayNo).front
              < REQ_QUEUE_DEPTH := by
            simp only [FW.advanceFront, FW.modRq, set2_eq]; exact Nat.mod_lt _ (by decide)
          have hr' : ((s.advanceFront chNo wayNo).rqPointer chNo wayNo).rear
              < REQ_QUEUE_DEPTH := by
            simp only [FW.advanceFront, FW.modRq, set2_eq]; exact hr
          obtain ⟨h1, h2, pushed, k, h3⟩ := ih _ hrest hf' hr'
          refine ⟨h1, h2, pushed, k + 1, ?_⟩
          rw [h3, hw.1]
          have hne : s.window chNo wayNo ≠ [] := by
            intro h0
            have := hw.2
            have hl : (s.window chNo wayNo).length = s.occupancy chNo wayNo := by
              simp [FW.window]
            rw [h0] at hl
            simp at hl
            omega
          obtain ⟨x, xs, hx⟩ := List.exists_cons_of_ne_nil hne
          rw [hx]
          simp
        · have hw := window_advance_other s c w chNo wayNo hd
          obtain ⟨h1, h2, pushed, k, h3⟩ := ih (s.advanceFront c w) hrest
            (by rw [hw.2]; exact hf) (by rw [hw.2]; exact hr)
          exact ⟨h1, h2, pushed, k, by rw [h3, hw.1]⟩

/-- Witness of C5 on the empty ring of die `(0, 0)` with two slots held back. -/
theorem CheckReqQueueAvailability_iff_witness :
    (CheckReqQueueAvailability blankFW 0 0 2 ≠ 0 ↔
      (((blankFW.rqPointer 0 0).rear : Int) - ((blankFW.rqPointer 0 0).front : Int)
          + (REQ_QUEUE_DEPTH : Int)) % (REQ_QUEUE_DEPTH : Int)
        < ((REQ_QUEUE_DEPTH : Int) - 1 - ((2 : Nat) : Int)) % (2 ^ 32 : Int)) :=
  CheckReqQueueAvailability_iff blankFW 0 0 2 (by decide) (by decide) (by decide)

/-- C4, counterexample: with 255 requests queued (`front = 1`, `rear = 0`) a push
that asks for `openSlots = 256` succeeds, and the new rear equals the front. -/
theorem push_openSlots_256_reaches_front :
    (fullRingFW.rqPointer 0 0).front < REQ_QUEUE_DEPTH ∧
    (fullRingFW.rqPointer 0 0).rear < REQ_QUEUE_DEPTH ∧
    (PushToReqQueueNonBlocking exampleParams fullRingFW exampleReadCmd 256).2 ≠ 0 ∧
    ((PushToReqQueueNonBlocking exampleParams fullRingFW exampleReadCmd 256).1.rqPointer 0 0).rear
      = (fullRingFW.rqPointer 0 0).front := by
  decide

/-- C4 (amended): for `front, rear < REQ_QUEUE_DEPTH` and `openSlots < REQ_QUEUE_DEPTH`, a
successful `PushToReqQueueNonBlocking` writes only slot `rear` of the ring of its die, sets
rear to `(rear + 1) mod REQ_QUEUE_DEPTH` and leaves front alone, the new rear differs from
front, the occupancy grows by one and stays at most `REQ_QUEUE_DEPTH - 1`, and the queued
entries are the old ones followed by the new one.  Hence after any sequence of such pushes
and of front advances the queued entries of a die are a suffix of the entries queued at the
start followed by entries pushed since: nothing between front and rear was overwritten. -/
theorem PushToReqQueueNonBlocking_no_overwrite (P : Params) (s : FW α) (cmd : LowLevelReqInfo)
    (openSlots : Nat)
    (hf : (s.rqPointer cmd.chNo cmd.wayNo).front < REQ_QUEUE_DEPTH)
    (hr : (s.rqPointer cmd.chNo cmd.wayNo).rear < REQ_QUEUE_DEPTH)
    (ho : openSlots < REQ_QUEUE_DEPTH)
    (hok : (PushToReqQueueNonBlocking P s cmd openSlots).2 ≠ 0) :
    (∀ slot c w, ¬(slot = (s.rqPointer cmd.chNo cmd.wayNo).rear ∧ c = cmd.chNo ∧ w = cmd.wayNo) →
      (PushToReqQueueNonBlocking P s cmd openSlots).1.reqQueue slot c w = s.reqQueue slot c w) ∧
    (PushToReqQueueNonBlocking P s cmd openSlots).1.rqPointer cmd.chNo cmd.wayNo =
      { front := (s.rqPointer cmd.chNo cmd.wayNo).front,
        rear := ((s.rqPointer cmd.chNo cmd.wayNo).rear + 1) % REQ_QUEUE_DEPTH } ∧
    ((s.rqPointer cmd.chNo cmd.wayNo).rear + 1) % REQ_QUEUE_DEPTH
      ≠ (s.rqPointer cmd.chNo cmd.wayNo).front ∧
    (PushToReqQueueNonBlocking P s cmd openSlots).1.occupancy cmd.chNo cmd.wayNo
      = s.occupancy cmd.chNo cmd.wayNo + 1 ∧
    (PushToReqQueueNonBlocking P s cmd openSlots).1.occupancy cmd.chNo cmd.wayNo
      ≤ REQ_QUEUE_DEPTH - 1 ∧
    (PushToReqQueueNonBlocking P s cmd openSlots).1.window cmd.chNo cmd.wayNo =
      s.window cmd.chNo cmd.wayNo ++
        [(PushToReqQueueNonBlocking P s cmd openSlots).1.reqQueue
          (s.rqPointer cmd.chNo cmd.wayNo).rear cmd.chNo cmd.wayNo] ∧
    (∀ ops : List RingOp, (∀ op ∈ ops, op.reserveOk) →
      ((ringRun P s ops).rqPointer cmd.chNo cmd.wayNo).front < REQ_QUEUE_DEPTH ∧
      ((ringRun P s ops).rqPointer cmd.chNo cmd.wayNo).rear < REQ_QUEUE_DEPTH ∧
      (ringRun P s ops).occupancy cmd.chNo cmd.wayNo ≤ REQ_QUEUE_DEPTH - 1 ∧
      ∃ (pushed : List ReqEntry) (k : Nat),
        (ringRun P s ops).window cmd.chNo cmd.wayNo
          = (s.window cmd.chNo cmd.wayNo ++ pushed).drop k) := by
  have hocc := push_ok_occupancy P s cmd openSlots hf hr ho hok
  have hp := push_rqPointer P s cmd openSlots hok
  have hocc' : (PushToReqQueueNonBlocking P s cmd openSlots).1.occupancy cmd.chNo cmd.wayNo
      = s.occupancy cmd.chNo cmd.wayNo + 1 := by
    unfold FW.occupancy at hocc ⊢
    rw [hp]
    simp only [set2_eq, REQ_QUEUE_DEPTH] at hf hr hocc ⊢
    omega
  refine ⟨fun slot c w h => push_reqQueue_ne P s cmd openSlots slot c w h, ?_, ?_, hocc', ?_,
    window_push P s cmd openSlots hf hr ho hok, ?_⟩
  · rw [hp, set2_eq]
  · unfold FW.occupancy at hocc
    simp only [REQ_QUEUE_DEPTH] at hf hr hocc ⊢
    omega
  · rw [hocc']
    simp only [REQ_QUEUE_DEPTH] at hocc ⊢
    omega
  · intro ops hops
    obtain ⟨h1, h2, h3⟩ := ringRun_window P cmd.chNo cmd.wayNo ops s hops hf hr
    refine ⟨h1, h2, ?_, h3⟩
    unfold FW.occupancy
    have := Nat.mod_lt (((ringRun P s ops).rqPointer cmd.chNo cmd.wayNo).rear + REQ_QUEUE_DEPTH
      - ((ringRun P s ops).rqPointer cmd.chNo cmd.wayNo).front) (show 0 < REQ_QUEUE_DEPTH by decide)
    omega

/-- Witness of C4 (amended): a push onto the empty ring of die `(0, 0)`. -/
theorem PushToReqQueueNonBlocking_no_overwrite_witness :
    (PushToReqQueueNonBlocking exampleParams blankFW exampleReadCmd 0).2 ≠ 0 ∧
    (PushToReqQueueNonBlocking exampleParams blankFW exampleReadCmd 0).1.rqPointer
        exampleReadCmd.chNo exampleReadCmd.wayNo =
      { front := (blankFW.rqPointer exampleReadCmd.chNo exampleReadCmd.wayNo).front,
        rear := ((blankFW.rqPointer exampleReadCmd.chNo exampleReadCmd.wayNo).rear + 1)
          % REQ_QUEUE_DEPTH } :=
  ⟨by decide,
    (PushToReqQueueNonBlocking_no_overwrite exampleParams blankFW exampleReadCmd 0
      (by decide) (by decide) (by decide) (by decide)).2.1⟩

theorem primaryExeCase_of_EXE [Add α] (env : Env α) (P : Params) (s : FW α)
    (chNo wayNo reqStatus : Nat) (h : (s.dieStatusTable chNo wayNo).dieStatus = DS_EXE) :
    ExeLowLevelReqPerDie env P s chNo wayNo reqStatus =
      primaryExeCase env P DS_EXE s chNo wayNo reqStatus := by
  simp [ExeLowLevelReqPerDie, h]

theorem primaryExeCase_of_REEXE [Add α] (env : Env α) (P : Params) (s : FW α)
    (chNo wayNo reqStatus : Nat) (h : (s.dieStatusTable chNo wayNo).dieStatus = DS_REEXE) :
    ExeLowLevelReqPerDie env P s chNo wayNo reqStatus =
      primaryExeCase env P DS_REEXE s chNo wayNo reqStatus := by
  simp [ExeLowLevelReqPerDie, h]

theorem exe_or_reexe [Add α] (env : Env α) (P : Params) (s : FW α)
    (chNo wayNo reqStatus : Nat)
    (h : (s.dieStatusTable chNo wayNo).dieStatus = DS_EXE ∨
      (s.dieStatusTable chNo wayNo).dieStatus = DS_REEXE) :
    ∃ label, ExeLowLevelReqPerDie env P s chNo wayNo reqStatus =
      primaryExeCase env P label s chNo wayNo reqStatus := by
  rcases h with h | h
  · exact ⟨DS_EXE, primaryExeCase_of_EXE env P s chNo wayNo reqStatus h⟩
  · exact ⟨DS_REEXE, primaryExeCase_of_REEXE env P s chNo wayNo reqStatus h⟩

/-- `PopFromReqQueue` on a head `ReadPageTrigger`: the trigger is issued for the row address of
the head entry and nothing else changes. -/
theorem PopFromReqQueue_trigger (env : Env α) (P : Params) (s : FW α) (chNo wayNo : Nat)
    (hreq : (s.headReq chNo wayNo).request = P.V2FCommand_ReadPageTrigger)
    (hlt : P.V2FCommand_ReadPageTrigger < LLSCommand_RxDMA) :
    (PopFromReqQueue env P s chNo wayNo).1 =
      s.emit (.ReadPageTriggerAsync chNo wayNo (s.headReq chNo wayNo).rowAddr) := by
  simp only [FW.headReq, FW.front] at hreq
  have h1 : P.V2FCommand_ReadPageTrigger ≠ LLSCommand_RxDMA := by
    simp only [LLSCommand_RxDMA] at hlt ⊢; omega
  have h2 : P.V2FCommand_ReadPageTrigger ≠ LLSCommand_TxDMA := by
    simp only [LLSCommand_RxDMA, LLSCommand_TxDMA] at hlt ⊢; omega
  simp [PopFromReqQueue, FW.front, FW.headReq, hreq, h1, h2]

/-- C8: in `DS_EXE` or `DS_REEXE`, on `RS_FAIL` with a positive retry counter,
`ExeLowLevelReqPerDie` leaves front (and rear) unchanged, sets the head entry's
`statusOption` to `STATUS_CHECK`, and either rewrites a head `ReadPageTransfer` to
`ReadPageTrigger` and enters `DS_TR_FAIL`, or leaves the request as it is and enters
`DS_FAIL`; from `DS_TR_FAIL` it always steps to `DS_TR_REEXE` and from `DS_FAIL` always to
`DS_REEXE`, in both cases by calling `PopFromReqQueue` on the head request (which, for a
head `ReadPageTrigger`, issues the trigger for the head's row address). -/
theorem fail_transition_with_retries_left [Add α] (env : Env α) (P : Params) (s : FW α)
    (chNo wayNo : Nat) :
    (((s.dieStatusTable chNo wayNo).dieStatus = DS_EXE ∨
        (s.dieStatusTable chNo wayNo).dieStatus = DS_REEXE) →
      0 < s.retryLimitTable chNo wayNo →
      (ExeLowLevelReqPerDie env P s chNo wayNo RS_FAIL).rqPointer chNo wayNo
        = s.rqPointer chNo wayNo ∧
      ((ExeLowLevelReqPerDie env P s chNo wayNo RS_FAIL).headReq chNo wayNo).statusOption
        = STATUS_CHECK ∧
      ((s.headReq chNo wayNo).request = P.V2FCommand_ReadPageTransfer →
        ((ExeLowLevelReqPerDie env P s chNo wayNo RS_FAIL).headReq chNo wayNo).request
          = P.V2FCommand_ReadPageTrigger ∧
        ((ExeLowLevelReqPerDie env P s chNo wayNo RS_FAIL).dieStatusTable chNo wayNo).dieStatus
          = DS_TR_FAIL) ∧
      ((s.headReq chNo wayNo).request ≠ P.V2FCommand_ReadPageTransfer →
        ((ExeLowLevelReqPerDie env P s chNo wayNo RS_FAIL).headReq chNo wayNo).request
          = (s.headReq chNo wayNo).request ∧
        ((ExeLowLevelReqPerDie env P s chNo wayNo RS_FAIL).dieStatusTable chNo wayNo).dieStatus
          = DS_FAIL)) ∧
    ((s.dieStatusTable chNo wayNo).dieStatus = DS_TR_FAIL → ∀ reqStatus,
      ExeLowLevelReqPerDie env P s chNo wayNo reqStatus =
        (PopFromReqQueue env P s chNo wayNo).1.setDieStatus chNo wayNo DS_TR_REEXE ∧
      ((ExeLowLevelReqPerDie env P s chNo wayNo reqStatus).dieStatusTable chNo wayNo).dieStatus
        = DS_TR_REEXE) ∧
    ((s.dieStatusTable chNo wayNo).dieStatus = DS_FAIL → ∀ reqStatus,
      ExeLowLevelReqPerDie env P s chNo wayNo reqStatus =
        (PopFromReqQueue env P s chNo wayNo).1.setDieStatus chNo wayNo DS_REEXE ∧
      ((ExeLowLevelReqPerDie env P s chNo wayNo reqStatus).dieStatusTable chNo wayNo).dieStatus
        = DS_REEXE) ∧
    ((s.headReq chNo wayNo).request = P.V2FCommand_ReadPageTrigger →
      P.V2FCommand_ReadPageTrigger < LLSCommand_RxDMA →
      (PopFromReqQueue env P s chNo wayNo).1 =
        s.emit (.ReadPageTriggerAsync chNo wayNo (s.headReq chNo wayNo).rowAddr)) := by
  refine ⟨?_, ?_, ?_, ?_⟩
  · intro hst hretry
    obtain ⟨label, hl⟩ := exe_or_reexe env P s chNo wayNo RS_FAIL hst
    rw [hl]
    unfold primaryExeCase
    simp only [show RS_FAIL ≠ RS_DONE by decide, if_false, if_true, hretry]
    refine ⟨?_, ?_, ?_, ?_⟩
    · split <;> simp [FW.setDieStatus, FW.modDie, FW.modReq]
    · split <;>
        simp [FW.headReq, FW.front, FW.setDieStatus, FW.modDie, FW.modReq]
    · intro hreq
      simp only [FW.headReq, FW.front] at hreq
      simp [FW.headReq, FW.front, FW.setDieStatus, FW.modDie, FW.modReq, hreq]
    · intro hreq
      simp only [FW.headReq, FW.front] at hreq
      simp [FW.headReq, FW.front, FW.setDieStatus, FW.modDie, FW.modReq, hreq]
  · intro hst reqStatus
    simp [ExeLowLevelReqPerDie, hst, FW.setDieStatus, FW.modDie]
  · intro hst reqStatus
    simp [ExeLowLevelReqPerDie, hst, FW.setDieStatus, FW.modDie]
  · intro hreq hlt
    exact PopFromReqQueue_trigger env P s chNo wayNo hreq hlt

theorem forRange_induction {σ : Type} (Q : σ → Prop) (n : Nat) (body : Nat → σ → σ) (init : σ)
    (h0 : Q init) (hstep : ∀ i st, i < n → Q st → Q (body i st)) : Q (forRange n body init) := by
  unfold forRange
  induction n with
  | zero => simpa using h0
  | succ n ih =>
    rw [List.range_succ, List.foldl_append]
    simp only [List.foldl_cons, List.foldl_nil]
    apply hstep n _ (Nat.lt_succ_self n)
    exact ih (fun i st hi hq => hstep i st (Nat.lt_succ_of_lt hi) hq)

theorem forRange_succ {σ : Type} (n : Nat) (body : Nat → σ → σ) (init : σ) :
    forRange (n + 1) body init = body n (forRange n body init) := by
  unfold forRange
  rw [List.range_succ, List.foldl_append]
  rfl

@[simp] theorem forRange_zero {σ : Type} (body : Nat → σ → σ) (init : σ) :
    forRange 0 body init = init := rfl

theorem translatePairs_frame [Add α] (P : Params) (s : FW α) (entryIdx : Nat) (page : Nat → α)
    (pair_index base_embedding_id n : Nat) :
    ∃ c b m, forRange n (translatePair P entryIdx page pair_index base_embedding_id) s =
      { s with transCache := c, transBuf := b, transMap := m } := by
  refine forRange_induction
    (fun st => ∃ c b m, st = { s with transCache := c, transBuf := b, transMap := m })
    n _ s ⟨_, _, _, rfl⟩ ?_
  rintro i st _ ⟨c, b, m, rfl⟩
  exact ⟨_, _, _, rfl⟩

/-- `translatePage` writes only the cache, the result memory and the translation map. -/
theorem translatePage_frame [Add α] (P : Params) (s : FW α) (entryIdx : Nat) (page : Nat → α)
    (pageIdx : Nat) :
    ∃ c b m, translatePage P s entryIdx page pageIdx =
      { s with transCache := c, transBuf := b, transMap := m } := by
  unfold translatePage
  simp only []
  obtain ⟨c, b, m, h⟩ := translatePairs_frame P s entryIdx page
    ((s.transMap entryIdx).perPageStartingIndex pageIdx)
    ((((s.transMap entryIdx).perPageSLBAs pageIdx + (U32 - (s.transMap entryIdx).slba % U32))
        % U32 * P.SECTOR_SIZE_FTL % U32) /
      ((s.transConfig entryIdx).attributeSize * (s.transConfig entryIdx).embeddingLength % U32))
    ((s.transMap entryIdx).perPageInputLength pageIdx)
  rw [h]
  exact ⟨_, _, _, rfl⟩

/-- `drainMailbox` on an empty mailbox does nothing. -/
theorem drainMailbox_invalid [Add α] (env : Env α) (P : Params) (s : FW α) (chNo wayNo : Nat)
    (h : (s.transPageReqQueue chNo wayNo).valid = 0) : drainMailbox env P s chNo wayNo = s := by
  simp [drainMailbox, h]

/-- `drainMailbox` on a full mailbox: one `translatePage` on its contents, then `valid = 0`. -/
theorem drainMailbox_valid [Add α] (env : Env α) (P : Params) (s : FW α) (chNo wayNo : Nat)
    (h : (s.transPageReqQueue chNo wayNo).valid ≠ 0) :
    drainMailbox env P s chNo wayNo =
      (((translatePage P s (s.transPageReqQueue chNo wayNo).transBufferEntry
          (env.pageData s.clock (s.transPageReqQueue chNo wayNo).pageDataBuf)
          (s.transPageReqQueue chNo wayNo).transPageIdx).tick).emit
        (.translatePageFromMailbox chNo wayNo (s.transPageReqQueue chNo wayNo).transBufferEntry
          (s.transPageReqQueue chNo wayNo).pageDataBuf
          (s.transPageReqQueue chNo wayNo).transPageIdx)).modMailbox chNo wayNo
        (fun m => { m with valid := 0 }) := by
  simp [drainMailbox, h]

/-- What `drainMailbox` leaves alone. -/
theorem drainMailbox_frame [Add α] (env : Env α) (P : Params) (s : FW α) (chNo wayNo : Nat) :
    (drainMailbox env P s chNo wayNo).reqQueue = s.reqQueue ∧
    (drainMailbox env P s chNo wayNo).rqPointer = s.rqPointer ∧
    (drainMailbox env P s chNo wayNo).subReqQueue = s.subReqQueue ∧
    (drainMailbox env P s chNo wayNo).srqPointer = s.srqPointer ∧
    (drainMailbox env P s chNo wayNo).dieStatusTable = s.dieStatusTable ∧
    (drainMailbox env P s chNo wayNo).retryLimitTable = s.retryLimitTable ∧
    (drainMailbox env P s chNo wayNo).wayPriorityTable = s.wayPriorityTable ∧
    (drainMailbox env P s chNo wayNo).newBadBlockTable = s.newBadBlockTable ∧
    (drainMailbox env P s chNo wayNo).badBlockUpdate = s.badBlockUpdate ∧
    (drainMailbox env P s chNo wayNo).halted = s.halted ∧
    (∀ c w, ¬(c = chNo ∧ w = wayNo) →
      (drainMailbox env P s chNo wayNo).transPageReqQueue c w = s.transPageReqQueue c w) ∧
    ((drainMailbox env P s chNo wayNo).transPageReqQueue chNo wayNo).valid = 0 := by
  by_cases h : (s.transPageReqQueue chNo wayNo).valid = 0
  · rw [drainMailbox_invalid env P s chNo wayNo h]
    simp [h]
  · rw [drainMailbox_valid env P s chNo wayNo h]
    obtain ⟨c, b, m, hf⟩ := translatePage_frame P s (s.transPageReqQueue chNo wayNo).transBufferEntry
      (env.pageData s.clock (s.transPageReqQueue chNo wayNo).pageDataBuf)
      (s.transPageReqQueue chNo wayNo).transPageIdx
    rw [hf]
    simp only [FW.tick, FW.emit, FW.modMailbox, set2_eq, true_and, and_true]
    intro c' w' hne
    rw [set2_ne _ _ hne]

/-- C9: in `DS_EXE` or `DS_REEXE`, on `RS_DONE` with a head `ReadPageTrigger`,
`ExeLowLevelReqPerDie` rewrites the `request` field of the head entry to `ReadPageTransfer`
in place (no other field of the entry, no other slot and neither front nor rear changes) and
sets the die to `DS_IDLE`; for any other completed request that is not a translate-tagged
`ReadPageTransfer` it advances front by one modulo `REQ_QUEUE_DEPTH`, leaves the ring
entries alone and sets `DS_IDLE`. -/
theorem two_phase_read [Add α] (env : Env α) (P : Params) (s : FW α) (chNo wayNo : Nat)
    (hst : (s.dieStatusTable chNo wayNo).dieStatus = DS_EXE ∨
      (s.dieStatusTable chNo wayNo).dieStatus = DS_REEXE) :
    ((s.headReq chNo wayNo).request = P.V2FCommand_ReadPageTrigger →
      (ExeLowLevelReqPerDie env P s chNo wayNo RS_DONE).reqQueue =
        set3 s.reqQueue (s.front chNo wayNo) chNo wayNo
          { (s.headReq chNo wayNo) with request := P.V2FCommand_ReadPageTransfer } ∧
      (ExeLowLevelReqPerDie env P s chNo wayNo RS_DONE).rqPointer = s.rqPointer ∧
      ((ExeLowLevelReqPerDie env P s chNo wayNo RS_DONE).dieStatusTable chNo wayNo).dieStatus
        = DS_IDLE) ∧
    ((s.headReq chNo wayNo).request ≠ P.V2FCommand_ReadPageTrigger →
      ¬((s.headReq chNo wayNo).request = P.V2FCommand_ReadPageTransfer ∧
        (s.headReq chNo wayNo).translate ≠ 0) →
      (ExeLowLevelReqPerDie env P s chNo wayNo RS_DONE).rqPointer chNo wayNo =
        { front := ((s.rqPointer chNo wayNo).front + 1) % REQ_QUEUE_DEPTH,
          rear := (s.rqPointer chNo wayNo).rear } ∧
      (ExeLowLevelReqPerDie env P s chNo wayNo RS_DONE).reqQueue = s.reqQueue ∧
      ((ExeLowLevelReqPerDie env P s chNo wayNo RS_DONE).dieStatusTable chNo wayNo).dieStatus
        = DS_IDLE) := by
  obtain ⟨label, hl⟩ := exe_or_reexe env P s chNo wayNo RS_DONE hst
  rw [hl]
  unfold primaryExeCase
  simp only [if_true]
  constructor
  · intro hreq
    simp only [FW.headReq, FW.front] at hreq
    simp [FW.headReq, FW.front, FW.setDieStatus, FW.modDie, FW.modReq, hreq]
  · intro hreq hnot
    simp only [FW.headReq, FW.front] at hreq hnot
    simp only [FW.front, hreq, if_false]
    rw [if_neg hnot]
    simp [FW.setDieStatus, FW.modDie, FW.advanceFront, FW.modRq]

theorem mailboxCalls_append (chNo wayNo : Nat) (t1 t2 : List Event) :
    mailboxCalls chNo wayNo (t1 ++ t2) = mailboxCalls chNo wayNo t1 + mailboxCalls chNo wayNo t2 := by
  simp [mailboxCalls, List.countP_append]

theorem mailboxCalls_dmaDescriptors (chNo wayNo : Nat) (mk : Nat → Nat → Nat → Event)
    (hmk : ∀ a b c, Event.isMailboxCall chNo wayNo (mk a b c) = false)
    (P : Params) (tag n : Nat) :
    ∀ idx addr, mailboxCalls chNo wayNo (dmaDescriptors mk P tag n idx addr) = 0 := by
  induction n with
  | zero => intro idx addr; simp [dmaDescriptors, mailboxCalls]
  | succ n ih =>
    intro idx addr
    have := ih (if idx + 1 ≥ 256 then 0 else idx + 1) ((addr + P.SECTOR_SIZE_FTL) % U32)
    simp only [mailboxCalls] at this ⊢
    rw [dmaDescriptors, List.countP_cons, hmk, this]
    rfl

/-- `PopFromReqQueue` neither touches a mailbox nor calls `translatePage`. -/
theorem PopFromReqQueue_mailbox (env : Env α) (P : Params) (s : FW α) (chNo wayNo c w : Nat) :
    (PopFromReqQueue env P s chNo wayNo).1.transPageReqQueue = s.transPageReqQueue ∧
    mailboxCalls c w (PopFromReqQueue env P s chNo wayNo).1.trace = mailboxCalls c w s.trace := by
  unfold PopFromReqQueue
  simp only []
  split
  · refine ⟨rfl, ?_⟩
    simp only [FW.advanceFront, FW.modRq, FW.tick, FW.modBuf]
    rw [mailboxCalls_append,
      mailboxCalls_dmaDescriptors c w Event.set_auto_rx_dma (fun _ _ _ => rfl)]
    rfl
  · split
    · refine ⟨rfl, ?_⟩
      simp only [FW.advanceFront, FW.modRq, FW.tick, FW.modBuf]
      rw [mailboxCalls_append,
        mailboxCalls_dmaDescriptors c w Event.set_auto_tx_dma (fun _ _ _ => rfl)]
      rfl
    · split_ifs <;>
        simp [FW.emit, mailboxCalls, List.countP_append, Event.isMailboxCall]

/-- `PopFromSubReqQueue` neither touches a mailbox nor calls `translatePage`. -/
theorem PopFromSubReqQueue_mailbox (P : Params) (s : FW α) (chNo wayNo c w : Nat) :
    (PopFromSubReqQueue P s chNo wayNo).transPageReqQueue = s.transPageReqQueue ∧
    mailboxCalls c w (PopFromSubReqQueue P s chNo wayNo).trace = mailboxCalls c w s.trace := by
  unfold PopFromSubReqQueue
  simp only []
  split_ifs <;> simp [FW.emit, mailboxCalls, List.countP_append, Event.isMailboxCall]

/-- Draining a mailbox moves its pending page into a `translatePage` call: for every die the
sum of calls made from its mailbox and of its pending page is unchanged. -/
theorem drainMailbox_balance [Add α] (env : Env α) (P : Params) (s : FW α)
    (chNo wayNo c w : Nat) :
    mailboxCalls c w (drainMailbox env P s chNo wayNo).trace
        + (drainMailbox env P s chNo wayNo).mailboxPending c w
      = mailboxCalls c w s.trace + s.mailboxPending c w := by
  by_cases hv : (s.transPageReqQueue chNo wayNo).valid = 0
  · rw [drainMailbox_invalid env P s chNo wayNo hv]
  · rw [drainMailbox_valid env P s chNo wayNo hv]
    obtain ⟨cc, b, m, hf⟩ := translatePage_frame P s
      (s.transPageReqQueue chNo wayNo).transBufferEntry
      (env.pageData s.clock (s.transPageReqQueue chNo wayNo).pageDataBuf)
      (s.transPageReqQueue chNo wayNo).transPageIdx
    rw [hf]
    simp only [FW.tick, FW.emit, FW.modMailbox, FW.mailboxPending, mailboxCalls,
      List.countP_append, List.countP_cons, List.countP_nil, Event.isMailboxCall]
    by_cases hd : c = chNo ∧ w = wayNo
    · obtain ⟨h1, h2⟩ := hd
      subst h1 h2
      simp [hv]
    · have hd' : ¬(chNo = c ∧ wayNo = w) := fun h => hd ⟨h.1.symm, h.2.symm⟩
      simp [hd', set2_ne _ _ hd]

/-- Sum of the `translatePage` calls made from the mailbox of a die and of its pending page. -/
theorem balance_of_same (s s' : FW α) (c w : Nat)
    (h1 : s'.transPageReqQueue = s.transPageReqQueue)
    (h2 : mailboxCalls c w s'.trace = mailboxCalls c w s.trace) :
    mailboxCalls c w s'.trace + s'.mailboxPending c w
      = mailboxCalls c w s.trace + s.mailboxPending c w := by
  simp only [FW.mailboxPending, h1, h2]

theorem warningBranch_mailbox (P : Params) (s : FW α) (chNo wayNo c w : Nat) :
    mailboxCalls c w (warningBranch P s chNo wayNo).trace
        + (warningBranch P s chNo wayNo).mailboxPending c w
      = mailboxCalls c w s.trace + s.mailboxPending c w := by
  apply balance_of_same
  · rfl
  · simp [warningBranch, FW.setDieStatus, FW.modDie, FW.advanceFront, FW.modRq, FW.emit,
      mailboxCalls, List.countP_append, Event.isMailboxCall]

theorem primaryExeCase_balance [Add α] (env : Env α) (P : Params) (label : Nat) (s : FW α)
    (chNo wayNo reqStatus c w : Nat) :
    mailboxCalls c w (primaryExeCase env P label s chNo wayNo reqStatus).trace
        + (primaryExeCase env P label s chNo wayNo reqStatus).mailboxPending c w
      = mailboxCalls c w s.trace + s.mailboxPending c w +
        (if c = chNo ∧ w = wayNo ∧ reqStatus = RS_DONE ∧
            (s.headReq chNo wayNo).request ≠ P.V2FCommand_ReadPageTrigger ∧
            (s.headReq chNo wayNo).request = P.V2FCommand_ReadPageTransfer ∧
            (s.headReq chNo wayNo).translate ≠ 0 then 1 else 0) := by
  by_cases hpub : reqStatus = RS_DONE ∧
      (s.headReq chNo wayNo).request ≠ P.V2FCommand_ReadPageTrigger ∧
      (s.headReq chNo wayNo).request = P.V2FCommand_ReadPageTransfer ∧
      (s.headReq chNo wayNo).translate ≠ 0
  · obtain ⟨h1, h2, h3, h4⟩ := hpub
    have hs : primaryExeCase env P label s chNo wayNo reqStatus =
        (((drainMailbox env P s chNo wayNo).modMailbox chNo wayNo (fun _ =>
          { transBufferEntry :=
              ((drainMailbox env P s chNo wayNo).reqQueue (s.front chNo wayNo) chNo
                wayNo).transBufferEntry
            pageDataBuf :=
              ((drainMailbox env P s chNo wayNo).reqQueue (s.front chNo wayNo) chNo
                wayNo).pageDataBuf
            transPageIdx :=
              ((drainMailbox env P s chNo wayNo).reqQueue (s.front chNo wayNo) chNo
                wayNo).transPageIdx
            valid := 1 })).advanceFront chNo wayNo).setDieStatus chNo wayNo DS_IDLE := by
      unfold primaryExeCase
      simp only [FW.headReq] at h2 h3 h4
      simp only [h1, if_true, h2, if_false]
      rw [if_pos ⟨h3, h4⟩]
    rw [hs]
    have hb := drainMailbox_balance env P s chNo wayNo c w
    have hfr := drainMailbox_frame env P s chNo wayNo
    have hv := hfr.2.2.2.2.2.2.2.2.2.2.2
    by_cases hd : c = chNo ∧ w = wayNo
    · obtain ⟨e1, e2⟩ := hd
      subst e1 e2
      have hp0 : (drainMailbox env P s c w).mailboxPending c w = 0 := by
        simp [FW.mailboxPending, hv]
      rw [if_pos ⟨rfl, rfl, h1, h2, h3, h4⟩, ← hb, hp0]
      simp [FW.setDieStatus, FW.modDie, FW.advanceFront, FW.modRq, FW.modMailbox,
        FW.mailboxPending]
    · rw [if_neg (fun h => hd ⟨h.1, h.2.1⟩), add_zero, ← hb]
      simp [FW.setDieStatus, FW.modDie, FW.advanceFront, FW.modRq, FW.modMailbox,
        FW.mailboxPending, set2_ne _ _ hd]
  · rw [if_neg (fun h => hpub h.2.2), add_zero]
    unfold primaryExeCase
    simp only [FW.headReq] at hpub
    simp only []
    split_ifs <;>
      first
      | exact drainMailbox_balance env P s chNo wayNo c w
      | exact warningBranch_mailbox P s chNo wayNo c w
      | (apply balance_of_same
         · first
           | rfl
           | (simp [FW.setDieStatus, FW.modDie, FW.advanceFront, FW.modRq, FW.modReq, FW.emit,
               FW.tick]; done)
         · first
           | rfl
           | (simp [FW.setDieStatus, FW.modDie, FW.advanceFront, FW.modRq, FW.modReq, FW.emit,
               FW.tick, mailboxCalls, List.countP_append, Event.isMailboxCall]; done))
      | (exfalso; apply hpub; simp_all; done)

theorem subExeCase_mailbox (env : Env α) (P : Params) (label : Nat) (s : FW α)
    (chNo wayNo reqStatus c w : Nat) :
    (subExeCase env P label s chNo wayNo reqStatus).transPageReqQueue = s.transPageReqQueue ∧
    mailboxCalls c w (subExeCase env P label s chNo wayNo reqStatus).trace
      = mailboxCalls c w s.trace := by
  unfold subExeCase
  simp only []
  split_ifs <;>
    simp [FW.setDieStatus, FW.modDie, FW.advanceSubFront, FW.modSrq, FW.modSubReq, FW.emit,
      FW.tick, mailboxCalls, List.countP_append, Event.isMailboxCall]

theorem balance_of_neutral (s s' : FW α) (c w : Nat)
    (h : s'.transPageReqQueue = s.transPageReqQueue ∧
      mailboxCalls c w s'.trace = mailboxCalls c w s.trace) :
    mailboxCalls c w s'.trace + s'.mailboxPending c w
      = mailboxCalls c w s.trace + s.mailboxPending c w :=
  balance_of_same s s' c w h.1 h.2

theorem setDieStatus_balance (s : FW α) (chNo wayNo st c w : Nat) :
    mailboxCalls c w (s.setDieStatus chNo wayNo st).trace
        + (s.setDieStatus chNo wayNo st).mailboxPending c w
      = mailboxCalls c w s.trace + s.mailboxPending c w :=
  balance_of_same _ _ c w rfl rfl

theorem pop_setDieStatus_balance (env : Env α) (P : Params) (s : FW α)
    (chNo wayNo st c w : Nat) :
    mailboxCalls c w ((PopFromReqQueue env P s chNo wayNo).1.setDieStatus chNo wayNo st).trace
        + ((PopFromReqQueue env P s chNo wayNo).1.setDieStatus chNo wayNo st).mailboxPending c w
      = mailboxCalls c w s.trace + s.mailboxPending c w := by
  rw [setDieStatus_balance]
  exact balance_of_neutral _ _ c w (PopFromReqQueue_mailbox env P s chNo wayNo c w)

theorem popSub_setDieStatus_balance (P : Params) (s : FW α) (chNo wayNo st c w : Nat) :
    mailboxCalls c w ((PopFromSubReqQueue P s chNo wayNo).setDieStatus chNo wayNo st).trace
        + ((PopFromSubReqQueue P s chNo wayNo).setDieStatus chNo wayNo st).mailboxPending c w
      = mailboxCalls c w s.trace + s.mailboxPending c w := by
  rw [setDieStatus_balance]
  exact balance_of_neutral _ _ c w (PopFromSubReqQueue_mailbox P s chNo wayNo c w)

theorem setRetry_balance (s : FW α) (r : Nat → Nat → Int) (c w : Nat) :
    mailboxCalls c w ({ s with retryLimitTable := r } : FW α).trace
        + ({ s with retryLimitTable := r } : FW α).mailboxPending c w
      = mailboxCalls c w s.trace + s.mailboxPending c w :=
  balance_of_same _ _ c w rfl rfl

theorem idleCase_balance [Add α] (env : Env α) (P : Params) (s : FW α) (chNo wayNo c w : Nat) :
    mailboxCalls c w (idleCase env P s chNo wayNo).trace
        + (idleCase env P s chNo wayNo).mailboxPending c w
      = mailboxCalls c w s.trace + s.mailboxPending c w := by
  have hpop := PopFromReqQueue_mailbox env P s chNo wayNo c w
  have hsub := PopFromSubReqQueue_mailbox P s chNo wayNo c w
  unfold idleCase
  simp only []
  split_ifs
  · rw [setDieStatus_balance, setRetry_balance]
    exact balance_of_neutral _ _ c w hpop
  · rw [drainMailbox_balance]
    exact balance_of_neutral _ _ c w hpop
  · rw [setDieStatus_balance, setRetry_balance]
    exact balance_of_neutral _ _ c w hsub

theorem trReexeCase_mailbox (env : Env α) (P : Params) (s : FW α)
    (chNo wayNo reqStatus c w : Nat) :
    (trReexeCase env P s chNo wayNo reqStatus).transPageReqQueue = s.transPageReqQueue ∧
    mailboxCalls c w (trReexeCase env P s chNo wayNo reqStatus).trace
      = mailboxCalls c w s.trace := by
  unfold trReexeCase
  simp only []
  split_ifs <;>
    simp [FW.setDieStatus, FW.modDie, FW.advanceFront, FW.modRq, FW.modReq, FW.emit,
      FW.tick, mailboxCalls, List.countP_append, Event.isMailboxCall]

theorem subTrReexeCase_mailbox (env : Env α) (P : Params) (s : FW α)
    (chNo wayNo reqStatus c w : Nat) :
    (subTrReexeCase env P s chNo wayNo reqStatus).transPageReqQueue = s.transPageReqQueue ∧
    mailboxCalls c w (subTrReexeCase env P s chNo wayNo reqStatus).trace
      = mailboxCalls c w s.trace := by
  unfold subTrReexeCase
  simp only []
  split_ifs <;>
    simp [FW.setDieStatus, FW.modDie, FW.advanceSubFront, FW.modSrq, FW.modSubReq, FW.emit,
      FW.tick, mailboxCalls, List.countP_append, Event.isMailboxCall]

/-- The `switch` of `ExeLowLevelReqPerDie`, one disjunct per `case`. -/
theorem ExeLowLevelReqPerDie_cases [Add α] (env : Env α) (P : Params) (s : FW α)
    (chNo wayNo reqStatus : Nat) :
    ((s.dieStatusTable chNo wayNo).dieStatus = DS_IDLE ∧
      ExeLowLevelReqPerDie env P s chNo wayNo reqStatus = idleCase env P s chNo wayNo) ∨
    ((s.dieStatusTable chNo wayNo).dieStatus = DS_EXE ∧
      ExeLowLevelReqPerDie env P s chNo wayNo reqStatus
        = primaryExeCase env P DS_EXE s chNo wayNo reqStatus) ∨
    ((s.dieStatusTable chNo wayNo).dieStatus = DS_TR_FAIL ∧
      ExeLowLevelReqPerDie env P s chNo wayNo reqStatus
        = (PopFromReqQueue env P s chNo wayNo).1.setDieStatus chNo wayNo DS_TR_REEXE) ∨
    ((s.dieStatusTable chNo wayNo).dieStatus = DS_TR_REEXE ∧
      ExeLowLevelReqPerDie env P s chNo wayNo reqStatus
        = trReexeCase env P s chNo wayNo reqStatus) ∨
    ((s.dieStatusTable chNo wayNo).dieStatus = DS_FAIL ∧
      ExeLowLevelReqPerDie env P s chNo wayNo reqStatus
        = (PopFromReqQueue env P s chNo wayNo).1.setDieStatus chNo wayNo DS_REEXE) ∨
    ((s.dieStatusTable chNo wayNo).dieStatus = DS_REEXE ∧
      ExeLowLevelReqPerDie env P s chNo wayNo reqStatus
        = primaryExeCase env P DS_REEXE s chNo wayNo reqStatus) ∨
    ((s.dieStatusTable chNo wayNo).dieStatus = DS_SUB_EXE ∧
      ExeLowLevelReqPerDie env P s chNo wayNo reqStatus
        = subExeCase env P DS_SUB_EXE s chNo wayNo reqStatus) ∨
    ((s.dieStatusTable chNo wayNo).dieStatus = DS_SUB_TR_FAIL ∧
      ExeLowLevelReqPerDie env P s chNo wayNo reqStatus
        = (PopFromSubReqQueue P s chNo wayNo).setDieStatus chNo wayNo DS_SUB_TR_REEXE) ∨
    ((s.dieStatusTable chNo wayNo).dieStatus = DS_SUB_TR_REEXE ∧
      ExeLowLevelReqPerDie env P s chNo wayNo reqStatus
        = subTrReexeCase env P s chNo wayNo reqStatus) ∨
    ((s.dieStatusTable chNo wayNo).dieStatus = DS_SUB_FAIL ∧
      ExeLowLevelReqPerDie env P s chNo wayNo reqStatus
        = (PopFromSubReqQueue P s chNo wayNo).setDieStatus chNo wayNo DS_SUB_REEXE) ∨
    ((s.dieStatusTable chNo wayNo).dieStatus = DS_SUB_REEXE ∧
      ExeLowLevelReqPerDie env P s chNo wayNo reqStatus
        = subExeCase env P DS_SUB_REEXE s chNo wayNo reqStatus) ∨
    (((s.dieStatusTable chNo wayNo).dieStatus ≠ DS_IDLE ∧
      ¬(1 ≤ (s.dieStatusTable chNo wayNo).dieStatus ∧
        (s.dieStatusTable chNo wayNo).dieStatus ≤ 5) ∧
      ¬(11 ≤ (s.dieStatusTable chNo wayNo).dieStatus ∧
        (s.dieStatusTable chNo wayNo).dieStatus ≤ 15)) ∧
      ExeLowLevelReqPerDie env P s chNo wayNo reqStatus = s) := by
  unfold ExeLowLevelReqPerDie
  generalize (s.dieStatusTable chNo wayNo).dieStatus = ds
  simp only []
  by_cases h0 : ds = DS_IDLE
  · left; exact ⟨h0, if_pos h0⟩
  right; rw [if_neg h0]
  by_cases h1 : ds = DS_EXE
  · left; exact ⟨h1, if_pos h1⟩
  right; rw [if_neg h1]
  by_cases h2 : ds = DS_TR_FAIL
  · left; exact ⟨h2, if_pos h2⟩
  right; rw [if_neg h2]
  by_cases h3 : ds = DS_TR_REEXE
  · left; exact ⟨h3, if_pos h3⟩
  right; rw [if_neg h3]
  by_cases h4 : ds = DS_FAIL
  · left; exact ⟨h4, if_pos h4⟩
  right; rw [if_neg h4]
  by_cases h5 : ds = DS_REEXE
  · left; exact ⟨h5, if_pos h5⟩
  right; rw [if_neg h5]
  by_cases h6 : ds = DS_SUB_EXE
  · left; exact ⟨h6, if_pos h6⟩
  right; rw [if_neg h6]
  by_cases h7 : ds = DS_SUB_TR_FAIL
  · left; exact ⟨h7, if_pos h7⟩
  right; rw [if_neg h7]
  by_cases h8 : ds = DS_SUB_TR_REEXE
  · left; exact ⟨h8, if_pos h8⟩
  right; rw [if_neg h8]
  by_cases h9 : ds = DS_SUB_FAIL
  · left; exact ⟨h9, if_pos h9⟩
  right; rw [if_neg h9]
  by_cases h10 : ds = DS_SUB_REEXE
  · left; exact ⟨h10, if_pos h10⟩
  right; rw [if_neg h10]
  refine ⟨⟨h0, ?_, ?_⟩, rfl⟩
  · simp only [DS_EXE, DS_TR_FAIL, DS_TR_REEXE, DS_FAIL, DS_REEXE] at h1 h2 h3 h4 h5
    omega
  · simp only [DS_SUB_EXE, DS_SUB_TR_FAIL, DS_SUB_TR_REEXE, DS_SUB_FAIL, DS_SUB_REEXE]
      at h6 h7 h8 h9 h10
    omega

theorem ExeLowLevelReqPerDie_balance [Add α] (env : Env α) (P : Params) (s : FW α)
    (chNo wayNo reqStatus c w : Nat) :
    mailboxCalls c w (ExeLowLevelReqPerDie env P s chNo wayNo reqStatus).trace
        + (ExeLowLevelReqPerDie env P s chNo wayNo reqStatus).mailboxPending c w
      = mailboxCalls c w s.trace + s.mailboxPending c w +
        (if completesTranslateRead P s c w (.exe chNo wayNo reqStatus) then 1 else 0) := by
  by_cases hexe : (s.dieStatusTable chNo wayNo).dieStatus = DS_EXE ∨
      (s.dieStatusTable chNo wayNo).dieStatus = DS_REEXE
  · obtain ⟨label, hl⟩ := exe_or_reexe env P s chNo wayNo reqStatus hexe
    rw [hl, primaryExeCase_balance]
    congr 1
    simp only [completesTranslateRead, decide_eq_true_eq]
    by_cases hd : c = chNo ∧ w = wayNo
    · obtain ⟨e1, e2⟩ := hd
      subst e1 e2
      simp [hexe]
    · have hd' : ¬(chNo = c ∧ wayNo = w) := fun h => hd ⟨h.1.symm, h.2.symm⟩
      rw [if_neg (fun h => hd ⟨h.1, h.2.1⟩), if_neg (fun h => hd' ⟨h.1, h.2.1⟩)]
  · have hno : completesTranslateRead P s c w (.exe chNo wayNo reqStatus) = false := by
      simp only [completesTranslateRead, decide_eq_false_iff_not]
      rintro ⟨e1, e2, -, h, -⟩
      subst e1 e2
      exact hexe h
    rw [hno]
    simp only [Bool.false_eq_true, if_false, add_zero]
    rcases ExeLowLevelReqPerDie_cases env P s chNo wayNo reqStatus with
      ⟨-, h⟩ | ⟨hd, -⟩ | ⟨-, h⟩ | ⟨-, h⟩ | ⟨-, h⟩ | ⟨hd, -⟩ | ⟨-, h⟩ | ⟨-, h⟩ | ⟨-, h⟩ | ⟨-, h⟩ |
      ⟨-, h⟩ | ⟨-, h⟩
    · rw [h]; exact idleCase_balance env P s chNo wayNo c w
    · exact absurd (Or.inl hd) hexe
    · rw [h]; exact pop_setDieStatus_balance env P s chNo wayNo _ c w
    · rw [h]
      exact balance_of_neutral _ _ c w (trReexeCase_mailbox env P s chNo wayNo reqStatus c w)
    · rw [h]; exact pop_setDieStatus_balance env P s chNo wayNo _ c w
    · exact absurd (Or.inr hd) hexe
    · rw [h]
      exact balance_of_neutral _ _ c w (subExeCase_mailbox env P _ s chNo wayNo reqStatus c w)
    · rw [h]; exact popSub_setDieStatus_balance P s chNo wayNo _ c w
    · rw [h]
      exact balance_of_neutral _ _ c w (subTrReexeCase_mailbox env P s chNo wayNo reqStatus c w)
    · rw [h]; exact popSub_setDieStatus_balance P s chNo wayNo _ c w
    · rw [h]
      exact balance_of_neutral _ _ c w (subExeCase_mailbox env P _ s chNo wayNo reqStatus c w)
    · rw [h]

theorem push_mailbox (P : Params) (s : FW α) (cmd : LowLevelReqInfo) (openSlots c w : Nat) :
    mailboxCalls c w (PushToReqQueueNonBlocking P s cmd openSlots).1.trace
        + (PushToReqQueueNonBlocking P s cmd openSlots).1.mailboxPending c w
      = mailboxCalls c w s.trace + s.mailboxPending c w := by
  apply balance_of_same
  · unfold PushToReqQueueNonBlocking
    simp only []
    split_ifs <;> rfl
  · unfold PushToReqQueueNonBlocking
    simp only []
    split_ifs <;> rfl

/-- Over any run, the number of translate-tagged reads of a die completed with `RS_DONE`
is the number of `translatePage` calls made from its mailbox plus its pending page. -/
theorem dieRun_balance [Add α] (env : Env α) (P : Params) (chNo wayNo : Nat)
    (ops : List DieOp) : ∀ s : FW α,
    mailboxCalls chNo wayNo (dieRun env P s ops).trace
        + (dieRun env P s ops).mailboxPending chNo wayNo
      = mailboxCalls chNo wayNo s.trace + s.mailboxPending chNo wayNo
        + completedTranslateReads env P chNo wayNo s ops := by
  induction ops with
  | nil => intro s; simp [dieRun, completedTranslateReads]
  | cons op ops ih =>
    intro s
    have hrun : dieRun env P s (op :: ops) = dieRun env P (DieOp.step env P s op) ops := by
      simp [dieRun]
    rw [hrun, ih, completedTranslateReads]
    have hstep : mailboxCalls chNo wayNo (DieOp.step env P s op).trace
        + (DieOp.step env P s op).mailboxPending chNo wayNo
        = mailboxCalls chNo wayNo s.trace + s.mailboxPending chNo wayNo
          + (if completesTranslateRead P s chNo wayNo op then 1 else 0) := by
      cases op with
      | exe c w st => exact ExeLowLevelReqPerDie_balance env P s c w st chNo wayNo
      | drain c w =>
        simp only [DieOp.step, completesTranslateRead, Bool.false_eq_true, if_false, add_zero]
        exact drainMailbox_balance env P s c w chNo wayNo
      | push cmd os =>
        simp only [DieOp.step, completesTranslateRead, Bool.false_eq_true, if_false, add_zero]
        exact push_mailbox P s cmd os chNo wayNo
    omega

/-- C10: in `DS_EXE` or `DS_REEXE`, on `RS_DONE` for a head `ReadPageTransfer` with
`translate = 1`, the mailbox of the die afterwards holds exactly the completed entry's
`(transBufferEntry, pageDataBuf, transPageIdx)` with `valid = 1`, front is advanced by one and
the die is `DS_IDLE`; if the mailbox was valid, `translatePage` has been called exactly once,
on the old mailbox contents (the translation state is the one `translatePage` produces from
the old state and the trace gains that call); if it was not valid, no call is made and the
translation state is untouched.  Consequently, over any run of `ExeLowLevelReqPerDie` calls,
mailbox drains and pushes from any state `s0`, the `translatePage` calls made from the die's
mailbox plus its pending page (one if the mailbox is valid) grow by exactly the number of
translate-tagged reads of the die completed with `RS_DONE`. -/
theorem mailbox_handoff [Add α] (env : Env α) (P : Params) (s : FW α) (chNo wayNo : Nat)
    (hst : (s.dieStatusTable chNo wayNo).dieStatus = DS_EXE ∨
      (s.dieStatusTable chNo wayNo).dieStatus = DS_REEXE)
    (hreq : (s.headReq chNo wayNo).request = P.V2FCommand_ReadPageTransfer)
    (hne : P.V2FCommand_ReadPageTransfer ≠ P.V2FCommand_ReadPageTrigger)
    (htr : (s.headReq chNo wayNo).translate ≠ 0) :
    (ExeLowLevelReqPerDie env P s chNo wayNo RS_DONE).transPageReqQueue chNo wayNo =
      { transBufferEntry := (s.headReq chNo wayNo).transBufferEntry
        pageDataBuf := (s.headReq chNo wayNo).pageDataBuf
        transPageIdx := (s.headReq chNo wayNo).transPageIdx
        valid := 1 } ∧
    (ExeLowLevelReqPerDie env P s chNo wayNo RS_DONE).rqPointer chNo wayNo =
      { front := ((s.rqPointer chNo wayNo).front + 1) % REQ_QUEUE_DEPTH,
        rear := (s.rqPointer chNo wayNo).rear } ∧
    ((ExeLowLevelReqPerDie env P s chNo wayNo RS_DONE).dieStatusTable chNo wayNo).dieStatus
      = DS_IDLE ∧
    ((s.transPageReqQueue chNo wayNo).valid ≠ 0 →
      (ExeLowLevelReqPerDie env P s chNo wayNo RS_DONE).trace =
        s.trace ++ [.translatePageFromMailbox chNo wayNo
          (s.transPageReqQueue chNo wayNo).transBufferEntry
          (s.transPageReqQueue chNo wayNo).pageDataBuf
          (s.transPageReqQueue chNo wayNo).transPageIdx] ∧
      (ExeLowLevelReqPerDie env P s chNo wayNo RS_DONE).transBuf =
        (translatePage P s (s.transPageReqQueue chNo wayNo).transBufferEntry
          (env.pageData s.clock (s.transPageReqQueue chNo wayNo).pageDataBuf)
          (s.transPageReqQueue chNo wayNo).transPageIdx).transBuf ∧
      (ExeLowLevelReqPerDie env P s chNo wayNo RS_DONE).transMap =
        (translatePage P s (s.transPageReqQueue chNo wayNo).transBufferEntry
          (env.pageData s.clock (s.transPageReqQueue chNo wayNo).pageDataBuf)
          (s.transPageReqQueue chNo wayNo).transPageIdx).transMap ∧
      (ExeLowLevelReqPerDie env P s chNo wayNo RS_DONE).transCache =
        (translatePage P s (s.transPageReqQueue chNo wayNo).transBufferEntry
          (env.pageData s.clock (s.transPageReqQueue chNo wayNo).pageDataBuf)
          (s.transPageReqQueue chNo wayNo).transPageIdx).transCache) ∧
    ((s.transPageReqQueue chNo wayNo).valid = 0 →
      (ExeLowLevelReqPerDie env P s chNo wayNo RS_DONE).trace = s.trace ∧
      (ExeLowLevelReqPerDie env P s chNo wayNo RS_DONE).transBuf = s.transBuf ∧
      (ExeLowLevelReqPerDie env P s chNo wayNo RS_DONE).transMap = s.transMap ∧
      (ExeLowLevelReqPerDie env P s chNo wayNo RS_DONE).transCache = s.transCache) ∧
    (∀ (s0 : FW α) (ops : List DieOp),
      mailboxCalls chNo wayNo (dieRun env P s0 ops).trace
          + (dieRun env P s0 ops).mailboxPending chNo wayNo
        = mailboxCalls chNo wayNo s0.trace + s0.mailboxPending chNo wayNo
          + completedTranslateReads env P chNo wayNo s0 ops) := by
  obtain ⟨label, hl⟩ := exe_or_reexe env P s chNo wayNo RS_DONE hst
  rw [hl]
  unfold primaryExeCase
  simp only [FW.headReq, FW.front] at hreq htr
  have hreq' : (s.reqQueue (s.rqPointer chNo wayNo).front chNo wayNo).request
      ≠ P.V2FCommand_ReadPageTrigger := by rw [hreq]; exact hne
  simp only [if_true, FW.front, hreq', if_false]
  rw [if_pos ⟨hreq, htr⟩]
  obtain ⟨f1, f2, -, -, -, -, -, -, -, -, -, -⟩ := drainMailbox_frame env P s chNo wayNo
  refine ⟨?_, ?_, ?_, ?_, ?_, fun s0 ops => dieRun_balance env P chNo wayNo ops s0⟩
  · simp [FW.setDieStatus, FW.modDie, FW.advanceFront, FW.modRq, FW.modMailbox, FW.headReq,
      FW.front, f1]
  · simp [FW.setDieStatus, FW.modDie, FW.advanceFront, FW.modRq, FW.modMailbox, f2]
  · simp [FW.setDieStatus, FW.modDie]
  · intro hv
    rw [drainMailbox_valid env P s chNo wayNo hv]
    obtain ⟨c, b, m, hf⟩ := translatePage_frame P s
      (s.transPageReqQueue chNo wayNo).transBufferEntry
      (env.pageData s.clock (s.transPageReqQueue chNo wayNo).pageDataBuf)
      (s.transPageReqQueue chNo wayNo).transPageIdx
    simp only [FW.setDieStatus, FW.modDie, FW.advanceFront, FW.modRq, FW.modMailbox, FW.emit,
      FW.tick, and_self, and_true]
    rw [hf]
  · intro hv
    rw [drainMailbox_invalid env P s chNo wayNo hv]
    simp [FW.setDieStatus, FW.modDie, FW.advanceFront, FW.modRq, FW.modMailbox]

/-- `PopFromReqQueue` on a head that is not a DMA request: it returns 1 and only records the
issue of the request. -/
theorem PopFromReqQueue_nand (env : Env α) (P : Params) (s : FW α) (chNo wayNo : Nat)
    (h1 : (s.headReq chNo wayNo).request ≠ LLSCommand_RxDMA)
    (h2 : (s.headReq chNo wayNo).request ≠ LLSCommand_TxDMA) :
    (PopFromReqQueue env P s chNo wayNo).2 = 1 ∧
    ∃ e, Event.isPop e = true ∧ (PopFromReqQueue env P s chNo wayNo).1 = s.emit e := by
  unfold PopFromReqQueue
  simp only [FW.headReq] at h1 h2
  simp only [h1, h2, if_false]
  split_ifs
  · exact ⟨rfl, .ReadPageTriggerAsync _ _ _, rfl, rfl⟩
  · exact ⟨rfl, .ReadPageTransferAsync _ _ _ _ _ _ _, rfl, rfl⟩
  · exact ⟨rfl, .ProgramPageAsync _ _ _ _ _, rfl, rfl⟩
  · exact ⟨rfl, .printNotDefinedRequest _, rfl, rfl⟩

/-- One failure with retries left: the die goes to `DS_FAIL` or `DS_TR_FAIL`. -/
theorem Retrying_fail [Add α] (env : Env α) (P : Params) (s0 : FW α) (c0 chNo wayNo k : Nat)
    (t : FW α) (htrig : P.V2FCommand_ReadPageTrigger < LLSCommand_RxDMA)
    (h : Retrying P s0 c0 chNo wayNo k t) (hk : k < P.RETRY_LIMIT) :
    let t1 := ExeLowLevelReqPerDie env P t chNo wayNo RS_FAIL
    ((t1.dieStatusTable chNo wayNo).dieStatus = DS_FAIL ∨
      (t1.dieStatusTable chNo wayNo).dieStatus = DS_TR_FAIL) ∧
    t1.rqPointer chNo wayNo = s0.rqPointer chNo wayNo ∧
    t1.retryLimitTable chNo wayNo = (P.RETRY_LIMIT : Int) - (k : Int) - 1 ∧
    popCount t1.trace = c0 + k ∧
    (t1.headReq chNo wayNo).request ≠ LLSCommand_RxDMA ∧
    (t1.headReq chNo wayNo).request ≠ LLSCommand_TxDMA := by
  obtain ⟨hds, hp, hr, hc, hq1, hq2⟩ := h
  have hpos : t.retryLimitTable chNo wayNo > 0 := by rw [hr]; omega
  have ht1 : P.V2FCommand_ReadPageTrigger ≠ LLSCommand_RxDMA := by
    simp only [LLSCommand_RxDMA] at htrig ⊢; omega
  have ht2 : P.V2FCommand_ReadPageTrigger ≠ LLSCommand_TxDMA := by
    simp only [LLSCommand_RxDMA, LLSCommand_TxDMA] at htrig ⊢; omega
  simp only [FW.headReq, FW.front] at hq1 hq2
  rcases hds with hds | hds | hds
  · rw [primaryExeCase_of_EXE env P t chNo wayNo RS_FAIL hds]
    unfold primaryExeCase
    simp only [show RS_FAIL ≠ RS_DONE by decide, if_false, if_true, hpos]
    split <;>
      simp_all [FW.headReq, FW.front, FW.setDieStatus, FW.modDie, FW.modReq]
  · rw [primaryExeCase_of_REEXE env P t chNo wayNo RS_FAIL hds]
    unfold primaryExeCase
    simp only [show RS_FAIL ≠ RS_DONE by decide, if_false, if_true, hpos]
    split <;>
      simp_all [FW.headReq, FW.front, FW.setDieStatus, FW.modDie, FW.modReq]
  · have : ExeLowLevelReqPerDie env P t chNo wayNo RS_FAIL
        = trReexeCase env P t chNo wayNo RS_FAIL := by
      simp [ExeLowLevelReqPerDie, hds]
    rw [this]
    unfold trReexeCase
    simp only [show RS_FAIL ≠ RS_DONE by decide, if_false, if_true, hpos]
    simp_all [FW.headReq, FW.front, FW.setDieStatus, FW.modDie, FW.modReq]

/-- The re-issue from `DS_FAIL` or `DS_TR_FAIL`: one `PopFromReqQueue`, then re-execution. -/
theorem Retrying_reissue [Add α] (env : Env α) (P : Params) (s0 : FW α) (c0 chNo wayNo k : Nat)
    (t1 : FW α) (reqStatus : Nat)
    (hds : (t1.dieStatusTable chNo wayNo).dieStatus = DS_FAIL ∨
      (t1.dieStatusTable chNo wayNo).dieStatus = DS_TR_FAIL)
    (hp : t1.rqPointer chNo wayNo = s0.rqPointer chNo wayNo)
    (hr : t1.retryLimitTable chNo wayNo = (P.RETRY_LIMIT : Int) - (k : Int) - 1)
    (hc : popCount t1.trace = c0 + k)
    (hq1 : (t1.headReq chNo wayNo).request ≠ LLSCommand_RxDMA)
    (hq2 : (t1.headReq chNo wayNo).request ≠ LLSCommand_TxDMA) :
    Retrying P s0 c0 chNo wayNo (k + 1) (ExeLowLevelReqPerDie env P t1 chNo wayNo reqStatus) := by
  obtain ⟨-, e, he, hpop⟩ := PopFromReqQueue_nand env P t1 chNo wayNo hq1 hq2
  have hcount : popCount (t1.trace ++ [e]) = c0 + (k + 1) := by
    simp [popCount, List.countP_append, he] at hc ⊢
    omega
  simp only [FW.headReq, FW.front] at hq1 hq2
  rcases hds with hds | hds
  · have : ExeLowLevelReqPerDie env P t1 chNo wayNo reqStatus
        = (PopFromReqQueue env P t1 chNo wayNo).1.setDieStatus chNo wayNo DS_REEXE := by
      simp [ExeLowLevelReqPerDie, hds]
    rw [this, hpop]
    refine ⟨?_, ?_, ?_, ?_, ?_, ?_⟩
    · simp [FW.setDieStatus, FW.modDie, FW.emit]
    · simpa [FW.setDieStatus, FW.modDie, FW.emit] using hp
    · simp only [FW.setDieStatus, FW.modDie, FW.emit, hr]; push_cast; ring
    · simpa [FW.setDieStatus, FW.modDie, FW.emit] using hcount
    · simpa [FW.setDieStatus, FW.modDie, FW.emit, FW.headReq, FW.front] using hq1
    · simpa [FW.setDieStatus, FW.modDie, FW.emit, FW.headReq, FW.front] using hq2
  · have : ExeLowLevelReqPerDie env P t1 chNo wayNo reqStatus
        = (PopFromReqQueue env P t1 chNo wayNo).1.setDieStatus chNo wayNo DS_TR_REEXE := by
      simp [ExeLowLevelReqPerDie, hds]
    rw [this, hpop]
    refine ⟨?_, ?_, ?_, ?_, ?_, ?_⟩
    · simp [FW.setDieStatus, FW.modDie, FW.emit]
    · simpa [FW.setDieStatus, FW.modDie, FW.emit] using hp
    · simp only [FW.setDieStatus, FW.modDie, FW.emit, hr]; push_cast; ring
    · simpa [FW.setDieStatus, FW.modDie, FW.emit] using hcount
    · simpa [FW.setDieStatus, FW.modDie, FW.emit, FW.headReq, FW.front] using hq1
    · simpa [FW.setDieStatus, FW.modDie, FW.emit, FW.headReq, FW.front] using hq2

/-- The failure after the last retry: front advances by one and the die is idle. -/
theorem Retrying_exhausted [Add α] (env : Env α) (P : Params) (s0 : FW α) (c0 chNo wayNo : Nat)
    (t : FW α) (h : Retrying P s0 c0 chNo wayNo P.RETRY_LIMIT t) :
    let t1 := ExeLowLevelReqPerDie env P t chNo wayNo RS_FAIL
    (t1.dieStatusTable chNo wayNo).dieStatus = DS_IDLE ∧
    t1.rqPointer chNo wayNo =
      { front := ((s0.rqPointer chNo wayNo).front + 1) % REQ_QUEUE_DEPTH,
        rear := (s0.rqPointer chNo wayNo).rear } ∧
    t1.retryLimitTable chNo wayNo = 0 ∧
    popCount t1.trace = c0 + P.RETRY_LIMIT := by
  obtain ⟨hds, hp, hr, hc, hq1, hq2⟩ := h
  have hzero : t.retryLimitTable chNo wayNo = 0 := by rw [hr]; omega
  have hpos : ¬ t.retryLimitTable chNo wayNo > 0 := by rw [hzero]; decide
  rcases hds with hds | hds | hds
  · rw [primaryExeCase_of_EXE env P t chNo wayNo RS_FAIL hds]
    unfold primaryExeCase
    simp only [show RS_FAIL ≠ RS_DONE by decide, if_false, if_true, hpos]
    simp [FW.setDieStatus, FW.modDie, FW.advanceFront, FW.modRq, FW.emit, FW.tick, hp, hzero,
      popCount, List.countP_append, Event.isPop] at hc ⊢
    exact hc
  · rw [primaryExeCase_of_REEXE env P t chNo wayNo RS_FAIL hds]
    unfold primaryExeCase
    simp only [show RS_FAIL ≠ RS_DONE by decide, if_false, if_true, hpos]
    simp [FW.setDieStatus, FW.modDie, FW.advanceFront, FW.modRq, FW.emit, FW.tick, hp, hzero,
      popCount, List.countP_append, Event.isPop] at hc ⊢
    exact hc
  · have : ExeLowLevelReqPerDie env P t chNo wayNo RS_FAIL
        = trReexeCase env P t chNo wayNo RS_FAIL := by
      simp [ExeLowLevelReqPerDie, hds]
    rw [this]
    unfold trReexeCase
    simp only [show RS_FAIL ≠ RS_DONE by decide, if_false, if_true, hpos]
    simp [FW.setDieStatus, FW.modDie, FW.advanceFront, FW.modRq, FW.emit, FW.tick, hp, hzero,
      popCount, List.countP_append, Event.isPop] at hc ⊢
    exact hc

theorem failRun_add [Add α] (env : Env α) (P : Params) (chNo wayNo : Nat) (other : Nat → Nat)
    (m n : Nat) : ∀ (i : Nat) (s : FW α),
    failRun env P chNo wayNo other i (m + n) s
      = failRun env P chNo wayNo other (i + m) n (failRun env P chNo wayNo other i m s) := by
  induction m with
  | zero => intro i s; simp [failRun]
  | succ m ih =>
    intro i s
    have : m + 1 + n = (m + n) + 1 := by omega
    rw [this]
    simp only [failRun]
    rw [ih]
    congr 1
    omega

theorem failingStatus_exeLike (t : FW α) (chNo wayNo : Nat) (other : Nat → Nat) (i : Nat)
    (h : (t.dieStatusTable chNo wayNo).dieStatus = DS_EXE ∨
      (t.dieStatusTable chNo wayNo).dieStatus = DS_REEXE ∨
      (t.dieStatusTable chNo wayNo).dieStatus = DS_TR_REEXE) :
    failingStatus t chNo wayNo other i = RS_FAIL := by
  unfold failingStatus
  rcases h with h | h | h <;> simp [h]

/-- Entering `DS_EXE` from `DS_IDLE` with a NAND request at the head of the primary ring. -/
theorem enter_exe [Add α] (env : Env α) (P : Params) (s : FW α) (chNo wayNo reqStatus : Nat)
    (hidle : (s.dieStatusTable chNo wayNo).dieStatus = DS_IDLE)
    (hq : (s.dieStatusTable chNo wayNo).queueSelect = REQ_QUEUE)
    (h1 : (s.headReq chNo wayNo).request ≠ LLSCommand_RxDMA)
    (h2 : (s.headReq chNo wayNo).request ≠ LLSCommand_TxDMA) :
    ((ExeLowLevelReqPerDie env P s chNo wayNo reqStatus).dieStatusTable chNo wayNo).dieStatus
      = DS_EXE ∧
    (ExeLowLevelReqPerDie env P s chNo wayNo reqStatus).rqPointer = s.rqPointer ∧
    (ExeLowLevelReqPerDie env P s chNo wayNo reqStatus).reqQueue = s.reqQueue ∧
    (ExeLowLevelReqPerDie env P s chNo wayNo reqStatus).retryLimitTable chNo wayNo
      = (P.RETRY_LIMIT : Int) := by
  obtain ⟨hr, e, he, hpop⟩ := PopFromReqQueue_nand env P s chNo wayNo h1 h2
  have : ExeLowLevelReqPerDie env P s chNo wayNo reqStatus = idleCase env P s chNo wayNo := by
    simp [ExeLowLevelReqPerDie, hidle]
  rw [this]
  unfold idleCase
  simp only [hq, if_true, hr, hpop]
  simp [FW.setDieStatus, FW.modDie, FW.emit]

theorem Retrying_two_steps [Add α] (env : Env α) (P : Params) (s0 : FW α)
    (c0 chNo wayNo k : Nat) (other : Nat → Nat) (i : Nat) (t : FW α)
    (htrig : P.V2FCommand_ReadPageTrigger < LLSCommand_RxDMA)
    (h : Retrying P s0 c0 chNo wayNo k t) (hk : k < P.RETRY_LIMIT) :
    Retrying P s0 c0 chNo wayNo (k + 1) (failRun env P chNo wayNo other i 2 t) ∧
    (((failRun env P chNo wayNo other i 1 t).dieStatusTable chNo wayNo).dieStatus = DS_FAIL ∨
      ((failRun env P chNo wayNo other i 1 t).dieStatusTable chNo wayNo).dieStatus
        = DS_TR_FAIL) ∧
    (failRun env P chNo wayNo other i 1 t).rqPointer chNo wayNo = s0.rqPointer chNo wayNo ∧
    (failRun env P chNo wayNo other i 1 t).retryLimitTable chNo wayNo
      = (P.RETRY_LIMIT : Int) - (k : Int) - 1 ∧
    popCount (failRun env P chNo wayNo other i 1 t).trace = c0 + k := by
  have hf := Retrying_fail env P s0 c0 chNo wayNo k t htrig h hk
  simp only [] at hf
  obtain ⟨a1, a2, a3, a4, a5, a6⟩ := hf
  have hs := failingStatus_exeLike t chNo wayNo other i h.1
  have e1 : failRun env P chNo wayNo other i 1 t
      = ExeLowLevelReqPerDie env P t chNo wayNo RS_FAIL := by
    simp [failRun, hs]
  have e2 : failRun env P chNo wayNo other i 2 t
      = ExeLowLevelReqPerDie env P (ExeLowLevelReqPerDie env P t chNo wayNo RS_FAIL) chNo wayNo
          (failingStatus (ExeLowLevelReqPerDie env P t chNo wayNo RS_FAIL) chNo wayNo other
            (i + 1)) := by
    simp [failRun, hs]
  rw [e1, e2]
  exact ⟨Retrying_reissue env P s0 c0 chNo wayNo k _ _ a1 a2 a3 a4 a5 a6, a1, a2, a3, a4⟩

theorem Retrying_run [Add α] (env : Env α) (P : Params) (s0 : FW α)
    (c0 chNo wayNo : Nat) (other : Nat → Nat) (s1 : FW α)
    (htrig : P.V2FCommand_ReadPageTrigger < LLSCommand_RxDMA)
    (h : Retrying P s0 c0 chNo wayNo 0 s1) (k : Nat) (hk : k ≤ P.RETRY_LIMIT) :
    Retrying P s0 c0 chNo wayNo k (failRun env P chNo wayNo other 0 (2 * k) s1) := by
  induction k with
  | zero => simpa [failRun] using h
  | succ k ih =>
    have hk' : k < P.RETRY_LIMIT := by omega
    have e : 2 * (k + 1) = 2 * k + 2 := by ring
    rw [e, failRun_add]
    exact (Retrying_two_steps env P s0 c0 chNo wayNo k other _ _ htrig (ih (by omega)) hk').1

/-- C6: a primary-ring request that enters `DS_EXE` (retry counter `RETRY_LIMIT`) and whose
every later status is `RS_FAIL` is re-issued by `PopFromReqQueue` exactly `RETRY_LIMIT`
times: during the first `2 * RETRY_LIMIT` calls of `ExeLowLevelReqPerDie` the retry counter
is never negative, front and rear do not move, the die is never idle and the `n`-th state
has seen `n / 2` re-issues; the next call (the failure after the last retry) advances front
by exactly one and returns the die to `DS_IDLE`, `RETRY_LIMIT` re-issues in all. -/
theorem bounded_retries [Add α] (env : Env α) (P : Params) (s : FW α)
    (chNo wayNo reqStatus : Nat) (other : Nat → Nat)
    (hidle : (s.dieStatusTable chNo wayNo).dieStatus = DS_IDLE)
    (hq : (s.dieStatusTable chNo wayNo).queueSelect = REQ_QUEUE)
    (h1 : (s.headReq chNo wayNo).request ≠ LLSCommand_RxDMA)
    (h2 : (s.headReq chNo wayNo).request ≠ LLSCommand_TxDMA)
    (htrig : P.V2FCommand_ReadPageTrigger < LLSCommand_RxDMA) :
    ((ExeLowLevelReqPerDie env P s chNo wayNo reqStatus).dieStatusTable chNo wayNo).dieStatus
      = DS_EXE ∧
    (ExeLowLevelReqPerDie env P s chNo wayNo reqStatus).retryLimitTable chNo wayNo
      = (P.RETRY_LIMIT : Int) ∧
    (∀ n, n ≤ 2 * P.RETRY_LIMIT →
      0 ≤ (failRun env P chNo wayNo other 0 n
        (ExeLowLevelReqPerDie env P s chNo wayNo reqStatus)).retryLimitTable chNo wayNo ∧
      (failRun env P chNo wayNo other 0 n
        (ExeLowLevelReqPerDie env P s chNo wayNo reqStatus)).rqPointer chNo wayNo
        = s.rqPointer chNo wayNo ∧
      ((failRun env P chNo wayNo other 0 n
        (ExeLowLevelReqPerDie env P s chNo wayNo reqStatus)).dieStatusTable chNo wayNo).dieStatus
        ≠ DS_IDLE ∧
      popCount (failRun env P chNo wayNo other 0 n
        (ExeLowLevelReqPerDie env P s chNo wayNo reqStatus)).trace
        = popCount (ExeLowLevelReqPerDie env P s chNo wayNo reqStatus).trace + n / 2) ∧
    ((failRun env P chNo wayNo other 0 (2 * P.RETRY_LIMIT + 1)
        (ExeLowLevelReqPerDie env P s chNo wayNo reqStatus)).dieStatusTable chNo wayNo).dieStatus
      = DS_IDLE ∧
    (failRun env P chNo wayNo other 0 (2 * P.RETRY_LIMIT + 1)
        (ExeLowLevelReqPerDie env P s chNo wayNo reqStatus)).rqPointer chNo wayNo
      = { front := ((s.rqPointer chNo wayNo).front + 1) % REQ_QUEUE_DEPTH,
          rear := (s.rqPointer chNo wayNo).rear } ∧
    (failRun env P chNo wayNo other 0 (2 * P.RETRY_LIMIT + 1)
        (ExeLowLevelReqPerDie env P s chNo wayNo reqStatus)).retryLimitTable chNo wayNo = 0 ∧
    popCount (failRun env P chNo wayNo other 0 (2 * P.RETRY_LIMIT + 1)
        (ExeLowLevelReqPerDie env P s chNo wayNo reqStatus)).trace
      = popCount (ExeLowLevelReqPerDie env P s chNo wayNo reqStatus).trace + P.RETRY_LIMIT := by
  obtain ⟨e1, e2, e3, e4⟩ := enter_exe env P s chNo wayNo reqStatus hidle hq h1 h2
  have h0 : Retrying P s (popCount (ExeLowLevelReqPerDie env P s chNo wayNo reqStatus).trace)
      chNo wayNo 0 (ExeLowLevelReqPerDie env P s chNo wayNo reqStatus) := by
    refine ⟨Or.inl e1, by rw [e2], by simpa using e4, rfl, ?_, ?_⟩
    · simpa [FW.headReq, FW.front, e2, e3] using h1
    · simpa [FW.headReq, FW.front, e2, e3] using h2
  refine ⟨e1, e4, ?_, ?_⟩
  · intro n hn
    obtain ⟨k, rfl | rfl⟩ := Nat.even_or_odd' n
    · have hr := Retrying_run env P s _ chNo wayNo other _ htrig h0 k (by omega)
      obtain ⟨hds, hp, hret, hc, -, -⟩ := hr
      refine ⟨by rw [hret]; omega, hp, ?_, by rw [hc]; omega⟩
      rcases hds with hds | hds | hds <;> rw [hds] <;> decide
    · have hr := Retrying_run env P s _ chNo wayNo other _ htrig h0 k (by omega)
      have h2s := Retrying_two_steps env P s _ chNo wayNo k other (0 + 2 * k) _ htrig hr
        (by omega)
      obtain ⟨-, hds, hp, hret, hc⟩ := h2s
      rw [← failRun_add] at hds hp hret hc
      refine ⟨by rw [hret]; omega, hp, ?_, by rw [hc]; omega⟩
      rcases hds with hds | hds <;> rw [hds] <;> decide
  · have hr := Retrying_run env P s _ chNo wayNo other _ htrig h0 P.RETRY_LIMIT (le_refl _)
    have hs := failingStatus_exeLike _ chNo wayNo other (0 + 2 * P.RETRY_LIMIT) hr.1
    have hx := Retrying_exhausted env P s _ chNo wayNo _ hr
    simp only [] at hx
    rw [failRun_add]
    simp only [failRun, hs]
    exact hx

/-- C7, counterexample: with `RETRY_LIMIT = 3`, after the third failure of a `ReadPageTrigger`
(five calls after entering `DS_EXE`: fail, re-issue, fail, re-issue, fail) the die is in
`DS_FAIL` with the request still at the front; it is abandoned only by the fourth failure. -/
theorem third_failure_not_abandoned :
    exampleParams.RETRY_LIMIT = 3 ∧
    (exeFW.dieStatusTable 0 0).dieStatus = DS_EXE ∧
    (exeFW.headReq 0 0).request = exampleParams.V2FCommand_ReadPageTrigger ∧
    ((failRun quietEnv exampleParams 0 0 (fun _ => NONE) 0 5 exeFW).dieStatusTable 0 0).dieStatus
      = DS_FAIL ∧
    (failRun quietEnv exampleParams 0 0 (fun _ => NONE) 0 5 exeFW).retryLimitTable 0 0 = 0 ∧
    (failRun quietEnv exampleParams 0 0 (fun _ => NONE) 0 5 exeFW).rqPointer 0 0
      = exeFW.rqPointer 0 0 ∧
    ((failRun quietEnv exampleParams 0 0 (fun _ => NONE) 0 7 exeFW).dieStatusTable 0 0).dieStatus
      = DS_IDLE ∧
    ((failRun quietEnv exampleParams 0 0 (fun _ => NONE) 0 7 exeFW).rqPointer 0 0).front
      = ((exeFW.rqPointer 0 0).front + 1) % REQ_QUEUE_DEPTH := by
  decide

/-- A failed `ReadPageTrigger` with retries left: the counter is tested (`> 0`), then
decremented, and the die goes to `DS_FAIL`. -/
theorem TriggerState_fail [Add α] (env : Env α) (P : Params) (s0 : FW α) (chNo wayNo ds : Nat)
    (r : Int) (t : FW α) (hne : P.V2FCommand_ReadPageTrigger ≠ P.V2FCommand_ReadPageTransfer)
    (hds : ds = DS_EXE ∨ ds = DS_REEXE) (hr : 0 < r)
    (h : TriggerState P s0 chNo wayNo ds r t) :
    TriggerState P s0 chNo wayNo DS_FAIL (r - 1) (ExeLowLevelReqPerDie env P t chNo wayNo RS_FAIL)
    := by
  obtain ⟨h1, h2, h3, h4⟩ := h
  have hpos : t.retryLimitTable chNo wayNo > 0 := by rw [h2]; exact hr
  obtain ⟨label, hl⟩ := exe_or_reexe env P t chNo wayNo RS_FAIL (by rw [h1]; exact hds)
  rw [hl]
  unfold primaryExeCase
  simp only [show RS_FAIL ≠ RS_DONE by decide, if_false, if_true, hpos]
  simp only [FW.headReq, FW.front] at h4
  unfold TriggerState
  split <;> simp_all [FW.headReq, FW.front, FW.setDieStatus, FW.modDie, FW.modReq]

/-- The re-issue of a failed `ReadPageTrigger` from `DS_FAIL`. -/
theorem TriggerState_reissue [Add α] (env : Env α) (P : Params) (s0 : FW α) (chNo wayNo : Nat)
    (r : Int) (t : FW α) (reqStatus : Nat)
    (htrig : P.V2FCommand_ReadPageTrigger < LLSCommand_RxDMA)
    (h : TriggerState P s0 chNo wayNo DS_FAIL r t) :
    TriggerState P s0 chNo wayNo DS_REEXE r (ExeLowLevelReqPerDie env P t chNo wayNo reqStatus) ∧
    (ExeLowLevelReqPerDie env P t chNo wayNo reqStatus).trace =
      t.trace ++ [.ReadPageTriggerAsync chNo wayNo (t.headReq chNo wayNo).rowAddr] := by
  obtain ⟨h1, h2, h3, h4⟩ := h
  have hpop := PopFromReqQueue_trigger env P t chNo wayNo h4 htrig
  have : ExeLowLevelReqPerDie env P t chNo wayNo reqStatus
      = (PopFromReqQueue env P t chNo wayNo).1.setDieStatus chNo wayNo DS_REEXE := by
    simp [ExeLowLevelReqPerDie, h1]
  rw [this, hpop]
  simp only [FW.headReq, FW.front] at h4
  unfold TriggerState
  simp_all [FW.headReq, FW.front, FW.setDieStatus, FW.modDie, FW.emit]

/-- A failed `ReadPageTrigger` with the counter at zero: abandoned. -/
theorem TriggerState_abandon [Add α] (env : Env α) (P : Params) (s0 : FW α) (chNo wayNo ds : Nat)
    (t : FW α) (hds : ds = DS_EXE ∨ ds = DS_REEXE)
    (h : TriggerState P s0 chNo wayNo ds 0 t) :
    ((ExeLowLevelReqPerDie env P t chNo wayNo RS_FAIL).dieStatusTable chNo wayNo).dieStatus
      = DS_IDLE ∧
    (ExeLowLevelReqPerDie env P t chNo wayNo RS_FAIL).rqPointer chNo wayNo
      = { front := ((s0.rqPointer chNo wayNo).front + 1) % REQ_QUEUE_DEPTH,
          rear := (s0.rqPointer chNo wayNo).rear } := by
  obtain ⟨h1, h2, h3, h4⟩ := h
  have hpos : ¬ t.retryLimitTable chNo wayNo > 0 := by rw [h2]; decide
  obtain ⟨label, hl⟩ := exe_or_reexe env P t chNo wayNo RS_FAIL (by rw [h1]; exact hds)
  rw [hl]
  unfold primaryExeCase
  simp only [show RS_FAIL ≠ RS_DONE by decide, if_false, if_true, hpos]
  simp [FW.setDieStatus, FW.modDie, FW.advanceFront, FW.modRq, FW.emit, FW.tick, h3]

theorem failRun_one_exeLike [Add α] (env : Env α) (P : Params) (chNo wayNo : Nat)
    (other : Nat → Nat) (i : Nat) (t : FW α)
    (h : (t.dieStatusTable chNo wayNo).dieStatus = DS_EXE ∨
      (t.dieStatusTable chNo wayNo).dieStatus = DS_REEXE) :
    failRun env P chNo wayNo other i 1 t = ExeLowLevelReqPerDie env P t chNo wayNo RS_FAIL := by
  have hs := failingStatus_exeLike t chNo wayNo other i
    (h.elim Or.inl (fun h => Or.inr (Or.inl h)))
  simp [failRun, hs]

theorem failRun_one_fail [Add α] (env : Env α) (P : Params) (chNo wayNo : Nat)
    (other : Nat → Nat) (i : Nat) (t : FW α)
    (h : (t.dieStatusTable chNo wayNo).dieStatus = DS_FAIL) :
    failRun env P chNo wayNo other i 1 t
      = ExeLowLevelReqPerDie env P t chNo wayNo (other i) := by
  simp [failRun, failingStatus, h]

theorem failRun_succ_last [Add α] (env : Env α) (P : Params) (chNo wayNo : Nat)
    (other : Nat → Nat) (n : Nat) (s : FW α) :
    failRun env P chNo wayNo other 0 (n + 1) s
      = failRun env P chNo wayNo other n 1 (failRun env P chNo wayNo other 0 n s) := by
  rw [failRun_add]
  simp

/-- C7 (amended): with `RETRY_LIMIT = 3`, a primary-ring `ReadPageTrigger` whose every
attempt ends in `RS_FAIL` is abandoned on its fourth failure.  The FAIL handler tests the
retry counter first (`> 0`) and decrements it when it retries, so the die goes
`EXE -> FAIL (retry = 2) -> REEXE -> FAIL (retry = 1) -> REEXE -> FAIL (retry = 0) -> REEXE`
and the fourth failure advances front by one and leaves the die in `DS_IDLE`. -/
theorem retry_exhaustion_on_fourth_failure [Add α] (env : Env α) (P : Params) (s : FW α)
    (chNo wayNo reqStatus : Nat) (other : Nat → Nat)
    (hlimit : P.RETRY_LIMIT = 3)
    (hidle : (s.dieStatusTable chNo wayNo).dieStatus = DS_IDLE)
    (hq : (s.dieStatusTable chNo wayNo).queueSelect = REQ_QUEUE)
    (hreq : (s.headReq chNo wayNo).request = P.V2FCommand_ReadPageTrigger)
    (hne : P.V2FCommand_ReadPageTrigger ≠ P.V2FCommand_ReadPageTransfer)
    (htrig : P.V2FCommand_ReadPageTrigger < LLSCommand_RxDMA) :
    TriggerState P s chNo wayNo DS_EXE 3 (ExeLowLevelReqPerDie env P s chNo wayNo reqStatus) ∧
    TriggerState P s chNo wayNo DS_FAIL 2 (failRun env P chNo wayNo other 0 1
      (ExeLowLevelReqPerDie env P s chNo wayNo reqStatus)) ∧
    TriggerState P s chNo wayNo DS_REEXE 2 (failRun env P chNo wayNo other 0 2
      (ExeLowLevelReqPerDie env P s chNo wayNo reqStatus)) ∧
    TriggerState P s chNo wayNo DS_FAIL 1 (failRun env P chNo wayNo other 0 3
      (ExeLowLevelReqPerDie env P s chNo wayNo reqStatus)) ∧
    TriggerState P s chNo wayNo DS_REEXE 1 (failRun env P chNo wayNo other 0 4
      (ExeLowLevelReqPerDie env P s chNo wayNo reqStatus)) ∧
    TriggerState P s chNo wayNo DS_FAIL 0 (failRun env P chNo wayNo other 0 5
      (ExeLowLevelReqPerDie env P s chNo wayNo reqStatus)) ∧
    TriggerState P s chNo wayNo DS_REEXE 0 (failRun env P chNo wayNo other 0 6
      (ExeLowLevelReqPerDie env P s chNo wayNo reqStatus)) ∧
    ((failRun env P chNo wayNo other 0 7
      (ExeLowLevelReqPerDie env P s chNo wayNo reqStatus)).dieStatusTable chNo wayNo).dieStatus
      = DS_IDLE ∧
    (failRun env P chNo wayNo other 0 7
      (ExeLowLevelReqPerDie env P s chNo wayNo reqStatus)).rqPointer chNo wayNo
      = { front := ((s.rqPointer chNo wayNo).front + 1) % REQ_QUEUE_DEPTH,
          rear := (s.rqPointer chNo wayNo).rear } := by
  have hd1 : (s.headReq chNo wayNo).request ≠ LLSCommand_RxDMA := by
    rw [hreq]; simp only [LLSCommand_RxDMA] at htrig ⊢; omega
  have hd2 : (s.headReq chNo wayNo).request ≠ LLSCommand_TxDMA := by
    rw [hreq]; simp only [LLSCommand_RxDMA, LLSCommand_TxDMA] at htrig ⊢; omega
  obtain ⟨e1, e2, e3, e4⟩ := enter_exe env P s chNo wayNo reqStatus hidle hq hd1 hd2
  have t0 : TriggerState P s chNo wayNo DS_EXE 3
      (ExeLowLevelReqPerDie env P s chNo wayNo reqStatus) := by
    refine ⟨e1, by rw [e4, hlimit]; rfl, by rw [e2], ?_⟩
    simpa [FW.headReq, FW.front, e2, e3] using hreq
  have t1 : TriggerState P s chNo wayNo DS_FAIL 2 (failRun env P chNo wayNo other 0 1
      (ExeLowLevelReqPerDie env P s chNo wayNo reqStatus)) := by
    rw [failRun_one_exeLike env P chNo wayNo other 0 _ (Or.inl t0.1)]
    exact TriggerState_fail env P s chNo wayNo DS_EXE 3 _ hne (Or.inl rfl) (by decide) t0
  have t2 : TriggerState P s chNo wayNo DS_REEXE 2 (failRun env P chNo wayNo other 0 2
      (ExeLowLevelReqPerDie env P s chNo wayNo reqStatus)) := by
    rw [failRun_succ_last, failRun_one_fail env P chNo wayNo other 1 _ t1.1]
    exact (TriggerState_reissue env P s chNo wayNo 2 _ _ htrig t1).1
  have t3 : TriggerState P s chNo wayNo DS_FAIL 1 (failRun env P chNo wayNo other 0 3
      (ExeLowLevelReqPerDie env P s chNo wayNo reqStatus)) := by
    rw [failRun_succ_last, failRun_one_exeLike env P chNo wayNo other 2 _ (Or.inr t2.1)]
    exact TriggerState_fail env P s chNo wayNo DS_REEXE 2 _ hne (Or.inr rfl) (by decide) t2
  have t4 : TriggerState P s chNo wayNo DS_REEXE 1 (failRun env P chNo wayNo other 0 4
      (ExeLowLevelReqPerDie env P s chNo wayNo reqStatus)) := by
    rw [failRun_succ_last, failRun_one_fail env P chNo wayNo other 3 _ t3.1]
    exact (TriggerState_reissue env P s chNo wayNo 1 _ _ htrig t3).1
  have t5 : TriggerState P s chNo wayNo DS_FAIL 0 (failRun env P chNo wayNo other 0 5
      (ExeLowLevelReqPerDie env P s chNo wayNo reqStatus)) := by
    rw [failRun_succ_last, failRun_one_exeLike env P chNo wayNo other 4 _ (Or.inr t4.1)]
    exact TriggerState_fail env P s chNo wayNo DS_REEXE 1 _ hne (Or.inr rfl) (by decide) t4
  have t6 : TriggerState P s chNo wayNo DS_REEXE 0 (failRun env P chNo wayNo other 0 6
      (ExeLowLevelReqPerDie env P s chNo wayNo reqStatus)) := by
    rw [failRun_succ_last, failRun_one_fail env P chNo wayNo other 5 _ t5.1]
    exact (TriggerState_reissue env P s chNo wayNo 0 _ _ htrig t5).1
  refine ⟨t0, t1, t2, t3, t4, t5, t6, ?_⟩
  rw [failRun_succ_last, failRun_one_exeLike env P chNo wayNo other 6 _ (Or.inr t6.1)]
  exact TriggerState_abandon env P s chNo wayNo DS_REEXE _ (Or.inr rfl) t6

/-- Witness of C6 on the queued `ReadPageTrigger` of die `(0, 0)`. -/
theorem bounded_retries_witness :
    (readQueuedFW.dieStatusTable 0 0).dieStatus = DS_IDLE ∧
    (readQueuedFW.headReq 0 0).request ≠ LLSCommand_RxDMA ∧
    ((failRun quietEnv exampleParams 0 0 (fun _ => NONE) 0 (2 * exampleParams.RETRY_LIMIT + 1)
      (ExeLowLevelReqPerDie quietEnv exampleParams readQueuedFW 0 0 NONE)).dieStatusTable
      0 0).dieStatus = DS_IDLE :=
  ⟨by decide, by decide,
    (bounded_retries quietEnv exampleParams readQueuedFW 0 0 NONE (fun _ => NONE) (by decide)
      (by decide) (by decide) (by decide) (by decide)).2.2.2.1⟩

/-- Witness of C7 (amended) on the queued `ReadPageTrigger` of die `(0, 0)`. -/
theorem retry_exhaustion_on_fourth_failure_witness :
    exampleParams.RETRY_LIMIT = 3 ∧
    (readQueuedFW.headReq 0 0).request = exampleParams.V2FCommand_ReadPageTrigger ∧
    TriggerState exampleParams readQueuedFW 0 0 DS_FAIL 0
      (failRun quietEnv exampleParams 0 0 (fun _ => NONE) 0 5
        (ExeLowLevelReqPerDie quietEnv exampleParams readQueuedFW 0 0 NONE)) :=
  ⟨by decide, by decide,
    (retry_exhaustion_on_fourth_failure quietEnv exampleParams readQueuedFW 0 0 NONE
      (fun _ => NONE) (by decide) (by decide) (by decide) (by decide) (by decide)
      (by decide)).2.2.2.2.2.1⟩

/-- Witness of C8: the first failure of the `ReadPageTrigger` issued on die `(0, 0)`. -/
theorem fail_transition_with_retries_left_witness :
    (exeFW.dieStatusTable 0 0).dieStatus = DS_EXE ∧
    0 < exeFW.retryLimitTable 0 0 ∧
    (exeFW.headReq 0 0).request ≠ exampleParams.V2FCommand_ReadPageTransfer ∧
    ((ExeLowLevelReqPerDie quietEnv exampleParams exeFW 0 0 RS_FAIL).dieStatusTable 0 0).dieStatus
      = DS_FAIL :=
  ⟨by decide, by decide, by decide,
    (((fail_transition_with_retries_left quietEnv exampleParams exeFW 0 0).1
      (Or.inl (by decide)) (by decide)).2.2.2 (by decide)).2⟩

/-- Witness of C9: the trigger of die `(0, 0)` completes and becomes a transfer. -/
theorem two_phase_read_witness :
    (exeFW.dieStatusTable 0 0).dieStatus = DS_EXE ∧
    (exeFW.headReq 0 0).request = exampleParams.V2FCommand_ReadPageTrigger ∧
    ((ExeLowLevelReqPerDie quietEnv exampleParams exeFW 0 0 RS_DONE).dieStatusTable 0 0).dieStatus
      = DS_IDLE :=
  ⟨by decide, by decide,
    ((two_phase_read quietEnv exampleParams exeFW 0 0 (Or.inl (by decide))).1 (by decide)).2.2⟩

/-- Witness of C10: a translate-tagged transfer completes while the mailbox is still full. -/
theorem mailbox_handoff_witness :
    (handoffFW.dieStatusTable 0 0).dieStatus = DS_EXE ∧
    (handoffFW.headReq 0 0).request = exampleParams.V2FCommand_ReadPageTransfer ∧
    (handoffFW.headReq 0 0).translate ≠ 0 ∧
    (handoffFW.transPageReqQueue 0 0).valid ≠ 0 ∧
    (ExeLowLevelReqPerDie quietEnv exampleParams handoffFW 0 0 RS_DONE).transPageReqQueue 0 0 =
      { transBufferEntry := (handoffFW.headReq 0 0).transBufferEntry
        pageDataBuf := (handoffFW.headReq 0 0).pageDataBuf
        transPageIdx := (handoffFW.headReq 0 0).transPageIdx
        valid := 1 } :=
  ⟨by decide, by decide, by decide, by decide,
    (mailbox_handoff quietEnv exampleParams handoffFW 0 0 (Or.inl (by decide)) (by decide)
      (by decide) (by decide)).1⟩

/-! ### The reduction loops -/

theorem accumulate_apply [AddCommMonoid α] (buf : Nat → α) (toAtr : Nat) (src : Nat → α)
    (fromAtr L c : Nat) :
    accumulate buf toAtr src fromAtr L c =
      if toAtr ≤ c ∧ c < toAtr + L then buf c + src (fromAtr + (c - toAtr)) else buf c := by
  unfold accumulate
  induction L with
  | zero =>
    have : ¬(toAtr ≤ c ∧ c < toAtr + 0) := by omega
    rw [if_neg this]
    rfl
  | succ L ih =>
    rw [forRange_succ]
    by_cases hc : c = toAtr + L
    · subst hc
      rw [set1_eq, ih]
      have h1 : ¬(toAtr ≤ toAtr + L ∧ toAtr + L < toAtr + L) := by omega
      have h2 : toAtr ≤ toAtr + L ∧ toAtr + L < toAtr + (L + 1) := by omega
      rw [if_neg h1, if_pos h2]
      congr 2
      omega
    · rw [set1_ne _ _ hc, ih]
      by_cases h1 : toAtr ≤ c ∧ c < toAtr + L
      · have h2 : toAtr ≤ c ∧ c < toAtr + (L + 1) := by omega
        rw [if_pos h1, if_pos h2]
      · have h2 : ¬(toAtr ≤ c ∧ c < toAtr + (L + 1)) := by omega
        rw [if_neg h1, if_neg h2]

theorem zeroRange_apply [Zero α] (buf : Nat → α) (base n c : Nat) :
    forRange n (fun i b => set1 b (base + i) 0) buf c =
      if base ≤ c ∧ c < base + n then 0 else buf c := by
  induction n with
  | zero =>
    have : ¬(base ≤ c ∧ c < base + 0) := by omega
    rw [if_neg this]
    rfl
  | succ n ih =>
    rw [forRange_succ]
    by_cases hc : c = base + n
    · subst hc
      rw [set1_eq]
      have h2 : base ≤ base + n ∧ base + n < base + (n + 1) := by omega
      rw [if_pos h2]
    · rw [set1_ne _ _ hc, ih]
      by_cases h1 : base ≤ c ∧ c < base + n
      · have h2 : base ≤ c ∧ c < base + (n + 1) := by omega
        rw [if_pos h1, if_pos h2]
      · have h2 : ¬(base ≤ c ∧ c < base + (n + 1)) := by omega
        rw [if_neg h1, if_neg h2]

/-- A sum over consecutive blocks is the sum over their concatenation. -/
theorem sum_range_add [AddCommMonoid α] (g : Nat → α) (a b : Nat) :
    ((List.range (a + b)).map g).sum
      = ((List.range a).map g).sum + ((List.range b).map (fun i => g (a + i))).sum := by
  induction b with
  | zero => simp
  | succ b ih =>
    rw [← Nat.add_assoc, List.range_succ, List.map_append, List.sum_append, ih,
      List.range_succ, List.map_append, List.sum_append]
    simp [add_assoc]

/-- A plan of `nPages` consecutive blocks of lengths `len j` that starts at `0`. -/
theorem sum_blocks [AddCommMonoid α] (g : Nat → α) (start len : Nat → Nat) (nPages : Nat)
    (h0 : start 0 = 0) (hnext : ∀ j, j < nPages → start (j + 1) = start j + len j) :
    ((List.range nPages).map
        (fun j => ((List.range (len j)).map (fun i => g (start j + i))).sum)).sum
      = ((List.range (start nPages)).map g).sum := by
  induction nPages with
  | zero => simp [h0]
  | succ n ih =>
    rw [List.range_succ, List.map_append, List.sum_append,
      ih (fun j hj => hnext j (Nat.lt_succ_of_lt hj)), hnext n (Nat.lt_succ_self n),
      sum_range_add]
    simp

theorem sum_ite_eq_filter [AddCommMonoid α] (p : Nat → Prop) [DecidablePred p] (g : Nat → α)
    (l : List Nat) :
    (l.map (fun i => if p i then g i else 0)).sum = ((l.filter (fun i => p i)).map g).sum := by
  induction l with
  | nil => simp
  | cons x xs ih =>
    by_cases hx : p x
    · simp [List.filter_cons, hx, ih]
    · simp [List.filter_cons, hx, ih]

theorem SamePlan.planRefl (st : FW α) : SamePlan st st := ⟨rfl, fun _ => ⟨rfl, rfl, rfl, rfl, rfl⟩⟩

theorem SamePlan.planTrans {a b c : FW α} (h1 : SamePlan a b) (h2 : SamePlan b c) : SamePlan a c := by
  refine ⟨h2.1.trans h1.1, fun e => ?_⟩
  obtain ⟨a1, a2, a3, a4, a5⟩ := h1.2 e
  obtain ⟨b1, b2, b3, b4, b5⟩ := h2.2 e
  exact ⟨b1.trans a1, b2.trans a2, b3.trans a3, b4.trans a4, b5.trans a5⟩

theorem translatePair_effect [AddCommMonoid α] (P : Params) (e : Nat) (page : Nat → α)
    (start base i : Nat) (st : FW α) :
    SamePlan st (translatePair P e page start base i st) ∧
    ∀ c, (translatePair P e page start base i st).transBuf c
      = st.transBuf c + pairContribution P (st.transConfig e) e page base (start + i) c := by
  constructor
  · refine ⟨rfl, fun e' => ?_⟩
    unfold translatePair
    simp only [FW.modTransMap]
    by_cases he : e' = e
    · subst he
      simp
    · simp [set1_ne _ _ he]
  · intro c
    unfold translatePair pairContribution
    simp only [FW.modTransMap, accumulate_apply]
    split <;> simp

theorem translatePairs_effect [AddCommMonoid α] (P : Params) (e : Nat) (page : Nat → α)
    (start base n : Nat) (st : FW α) :
    SamePlan st (forRange n (translatePair P e page start base) st) ∧
    ∀ c, (forRange n (translatePair P e page start base) st).transBuf c
      = st.transBuf c + ((List.range n).map
          (fun i => pairContribution P (st.transConfig e) e page base (start + i) c)).sum := by
  induction n with
  | zero => exact ⟨SamePlan.planRefl st, fun c => by simp⟩
  | succ n ih =>
    rw [forRange_succ]
    obtain ⟨h1, h2⟩ := ih
    obtain ⟨g1, g2⟩ := translatePair_effect P e page start base n
      (forRange n (translatePair P e page start base) st)
    refine ⟨h1.planTrans g1, fun c => ?_⟩
    rw [g2, h2, h1.1, List.range_succ, List.map_append, List.sum_append]
    simp [add_assoc]

theorem translatePage_effect [AddCommMonoid α] (P : Params) (st : FW α) (e : Nat)
    (page : Nat → α) (j : Nat) :
    SamePlan st (translatePage P st e page j) ∧
    ∀ c, (translatePage P st e page j).transBuf c
      = st.transBuf c + ((List.range ((st.transMap e).perPageInputLength j)).map
          (fun i => pairContribution P (st.transConfig e) e page
            ((((st.transMap e).perPageSLBAs j + (U32 - (st.transMap e).slba % U32)) % U32
                * P.SECTOR_SIZE_FTL % U32)
              / ((st.transConfig e).attributeSize * (st.transConfig e).embeddingLength % U32))
            ((st.transMap e).perPageStartingIndex j + i) c)).sum := by
  unfold translatePage
  simp only []
  obtain ⟨h1, h2⟩ := translatePairs_effect P e page
    ((st.transMap e).perPageStartingIndex j)
    ((((st.transMap e).perPageSLBAs j + (U32 - (st.transMap e).slba % U32)) % U32
        * P.SECTOR_SIZE_FTL % U32)
      / ((st.transConfig e).attributeSize * (st.transConfig e).embeddingLength % U32))
    ((st.transMap e).perPageInputLength j) st
  constructor
  · refine SamePlan.planTrans h1 ⟨rfl, fun e' => ?_⟩
    simp only [FW.modTransMap]
    by_cases he : e' = e
    · subst he
      simp
    · simp [set1_ne _ _ he]
  · intro c
    simp only [FW.modTransMap]
    exact h2 c

/-- Arithmetic of one planned pair: from the recorded SLBA of its page, `translatePage`
finds the pair's vector at attribute `embeddingID * L` of the table. -/
theorem pair_source_index (P : Params) (A L eid slba : Nat)
    (hdiv : A * L ∣ P.PAGE_SIZE) (hpos : 0 < P.PAGE_SIZE) (hps : P.PAGE_SIZE < U32)
    (hgeo : P.SECTOR_NUM_PER_PAGE * P.SECTOR_SIZE_FTL = P.PAGE_SIZE)
    (hov : eid * A * L < U32) (hslba : slba < U32)
    (hsl : slba + (eid * A * L / P.PAGE_SIZE) * P.SECTOR_NUM_PER_PAGE < U32) (k : Nat) :
    let q := ((eid * A * L) % U32) / P.PAGE_SIZE
    let SLBA := slbaOfPage P slba q
    let base := (((SLBA + (U32 - slba % U32)) % U32) * P.SECTOR_SIZE_FTL % U32) / (A * L % U32)
    let off := (eid + (U32 - base % U32)) % U32
    ((SLBA - slba) / P.SECTOR_NUM_PER_PAGE) * (P.PAGE_SIZE / A) + ((off * L) % U32 + k)
      = eid * L + k := by
  intro q SLBA base off
  obtain ⟨N, hN⟩ := hdiv
  have hAL : 0 < A * L := by
    rcases Nat.eq_zero_or_pos (A * L) with h | h
    · rw [h, Nat.zero_mul] at hN; omega
    · exact h
  have hA : 0 < A := Nat.pos_of_mul_pos_right hAL
  have hL : 0 < L := Nat.pos_of_mul_pos_left hAL
  have hNpos : 0 < N := by
    rcases Nat.eq_zero_or_pos N with h | h
    · rw [h, Nat.mul_zero] at hN; omega
    · exact h
  have hSPP : 0 < P.SECTOR_NUM_PER_PAGE := by
    rcases Nat.eq_zero_or_pos P.SECTOR_NUM_PER_PAGE with h | h
    · rw [h, Nat.zero_mul] at hgeo; omega
    · exact h
  have hq : q = eid / N := by
    show ((eid * A * L) % U32) / P.PAGE_SIZE = eid / N
    rw [Nat.mod_eq_of_lt hov, hN, Nat.mul_assoc, Nat.mul_comm (A * L) N]
    exact Nat.mul_div_mul_right eid N hAL
  have hq' : eid * A * L / P.PAGE_SIZE = q := by
    show _ = ((eid * A * L) % U32) / P.PAGE_SIZE
    rw [Nat.mod_eq_of_lt hov]
  have hqN : q * N ≤ eid := by rw [hq]; exact Nat.div_mul_le_self eid N
  have hqS : q * P.SECTOR_NUM_PER_PAGE < U32 := by rw [hq'] at hsl; omega
  have hSLBA : SLBA = slba + q * P.SECTOR_NUM_PER_PAGE := by
    show slbaOfPage P slba q = _
    unfold slbaOfPage
    rw [Nat.mod_eq_of_lt hqS, Nat.mod_eq_of_lt (by rw [hq'] at hsl; exact hsl)]
  have hdiff : (SLBA + (U32 - slba % U32)) % U32 = q * P.SECTOR_NUM_PER_PAGE := by
    rw [hSLBA, Nat.mod_eq_of_lt hslba]
    have : slba + q * P.SECTOR_NUM_PER_PAGE + (U32 - slba) = q * P.SECTOR_NUM_PER_PAGE + U32 := by
      omega
    rw [this, Nat.add_mod_right, Nat.mod_eq_of_lt hqS]
  have hqP : q * P.PAGE_SIZE ≤ eid * A * L := by
    rw [hN, Nat.mul_comm (A * L) N, ← Nat.mul_assoc, Nat.mul_assoc eid A L]
    exact Nat.mul_le_mul_right _ hqN
  have hbytes : q * P.SECTOR_NUM_PER_PAGE * P.SECTOR_SIZE_FTL = q * P.PAGE_SIZE := by
    rw [Nat.mul_assoc, hgeo]
  have hbase : base = q * N := by
    show (((SLBA + (U32 - slba % U32)) % U32) * P.SECTOR_SIZE_FTL % U32) / (A * L % U32) = q * N
    rw [hdiff, hbytes, Nat.mod_eq_of_lt (by omega),
      Nat.mod_eq_of_lt (by
        have : A * L ≤ P.PAGE_SIZE := Nat.le_of_dvd hpos ⟨N, hN⟩
        omega), hN, Nat.mul_comm (A * L) N, ← Nat.mul_assoc]
    exact Nat.mul_div_cancel _ hAL
  have heidlt : eid < U32 := by
    have : eid ≤ eid * A * L := by
      rw [Nat.mul_assoc]
      exact Nat.le_mul_of_pos_right eid hAL
    omega
  have hoff : off = eid - q * N := by
    show (eid + (U32 - base % U32)) % U32 = _
    have hqNlt : q * N < U32 := Nat.lt_of_le_of_lt hqN heidlt
    rw [hbase, Nat.mod_eq_of_lt hqNlt]
    have : eid + (U32 - q * N) = (eid - q * N) + U32 := by omega
    rw [this, Nat.add_mod_right, Nat.mod_eq_of_lt (by omega)]
  have hoffL : off * L ≤ eid * A * L := by
    rw [hoff, Nat.mul_assoc eid A L]
    calc (eid - q * N) * L ≤ eid * L := Nat.mul_le_mul_right _ (Nat.sub_le _ _)
      _ ≤ eid * (A * L) := Nat.mul_le_mul_left _ (Nat.le_mul_of_pos_left L hA)
  have hpage : P.PAGE_SIZE / A = N * L := by
    rw [hN, Nat.mul_comm (A * L) N, ← Nat.mul_assoc, Nat.mul_comm (N * A) L, ← Nat.mul_assoc,
      Nat.mul_div_cancel _ hA, Nat.mul_comm]
  have hslot : (SLBA - slba) / P.SECTOR_NUM_PER_PAGE = q := by
    rw [hSLBA, Nat.add_sub_cancel_left, Nat.mul_div_cancel _ hSPP]
  rw [hslot, hpage, Nat.mod_eq_of_lt (by omega), hoff, Nat.sub_mul, ← Nat.mul_assoc]
  have : q * N * L ≤ eid * L := Nat.mul_le_mul_right _ hqN
  omega

theorem configurePair_miss [Add α] (P : Params) (s : FW α) (e m : Nat)
    (st : FW α × ConfigLocals) (h : PlanInv P s e m st)
    (hmiss : cacheMiss s.transCache (s.transConfig e) m) :
    PlanInv P s e (m + 1) (configurePair P e m st) := by
  obtain ⟨st1, loc⟩ := st
  obtain ⟨hcfg, hcache, hbuf, hslba, hstart0, hnext, hcur, hslbaCur, hcurPid, hclosed⟩ := h
  simp only at hcfg hcache hbuf hslba hstart0 hnext hcur hslbaCur hcurPid hclosed
  have hmiss' : ¬((st1.transCache
      (cacheKey ((st1.transConfig e).embeddingIDList m).embeddingID (st1.transConfig e).tableID).1).valid ≠ 0 ∧
      (st1.transCache
      (cacheKey ((st1.transConfig e).embeddingIDList m).embeddingID (st1.transConfig e).tableID).1).tag
        = (cacheKey ((st1.transConfig e).embeddingIDList m).embeddingID (st1.transConfig e).tableID).2) := by
    rw [hcfg, hcache]; exact hmiss
  unfold configurePair
  simp only []
  rw [if_neg hmiss']
  have hpid : ((((st1.transConfig e).embeddingIDList m).embeddingID * (st1.transConfig e).attributeSize
      * (st1.transConfig e).embeddingLength) % U32) / P.PAGE_SIZE = pageIdOf P (s.transConfig e) m := by
    rw [hcfg]; rfl
  by_cases hp : pageIdOf P (s.transConfig e) m = loc.page_id
  · rw [if_neg (by rw [hpid]; exact fun hne => hne hp)]
    refine ⟨hcfg, hcache, hbuf, ?_, ?_, ?_, ?_, ?_, ?_, ?_⟩
    · simp only [FW.modTransMap, set1_eq, hpid]
      exact hslba
    · simp only [FW.modTransMap, set1_eq, hpid]
      exact hstart0
    · simp only [FW.modTransMap, set1_eq, hpid]
      exact hnext
    · simp only [FW.modTransMap, set1_eq, hpid]
      omega
    · simp only [FW.modTransMap, set1_eq, hpid]
      rw [hp]; exact hslbaCur
    · simp only [FW.modTransMap, set1_eq, hpid]
      intro i h1 h2
      by_cases hi : i < m
      · rw [hcurPid i h1 hi, hp]
      · have : i = m := by omega
        rw [this]
    · simp only [FW.modTransMap, set1_eq, hpid]
      exact hclosed
  · rw [if_pos (by rw [hpid]; exact hp)]
    refine ⟨hcfg, hcache, hbuf, ?_, ?_, ?_, ?_, ?_, ?_, ?_⟩
    · simp only [FW.modTransMap, set1_eq, hpid]
      exact hslba
    · simp only [FW.modTransMap, set1_eq, hpid]
      rw [set1_ne _ _ (by omega)]; exact hstart0
    · simp only [FW.modTransMap, set1_eq, hpid]
      intro j hj
      by_cases hjl : j = loc.page_index
      · subst hjl
        simp only [Nat.add_sub_cancel, set1_eq]
        rw [set1_ne _ _ (by omega)]
        omega
      · have hj' : j < loc.page_index := by omega
        rw [set1_ne _ _ (by omega), set1_ne _ _ (by omega),
          set1_ne _ _ (by simp only [Nat.add_sub_cancel]; exact hjl)]
        exact hnext j hj'
    · simp [FW.modTransMap]
    · simp only [FW.modTransMap, set1_eq, hpid]
      rw [hslba]; rfl
    · simp only [FW.modTransMap, set1_eq, hpid]
      intro i h1 h2
      have : i = m := by omega
      rw [this]
    · simp only [FW.modTransMap, set1_eq, hpid]
      intro j hj i h1 h2
      by_cases hjl : j = loc.page_index
      · subst hjl
        rw [set1_ne _ _ (by omega)] at h1 ⊢
        rw [set1_eq] at h2
        rw [hslbaCur, hcurPid i h1 h2]
      · have hj' : j < loc.page_index := by omega
        rw [set1_ne _ _ (by omega)] at h1 ⊢
        rw [set1_ne _ _ (by omega)] at h2
        exact hclosed j hj' i h1 h2

theorem configureLoop_inv [Add α] (P : Params) (s : FW α) (e : Nat)
    (init : FW α × ConfigLocals) (h0 : PlanInv P s e 0 init) (n : Nat)
    (hmiss : ∀ i, i < n → cacheMiss s.transCache (s.transConfig e) i) :
    PlanInv P s e n (forRange n (configurePair P e) init) := by
  induction n with
  | zero => exact h0
  | succ n ih =>
    rw [forRange_succ]
    exact configurePair_miss P s e n _ (ih (fun i hi => hmiss i (Nat.lt_succ_of_lt hi)))
      (hmiss n (Nat.lt_succ_self n))

theorem clearCounters_frame (e nlb : Nat) (s1 : FW α) :
    let s2 := forRange nlb (fun i (st : FW α) => st.modTransMap e (fun x =>
      { x with
        perResultSectorCompletedEmbeddings := set1 x.perResultSectorCompletedEmbeddings i 0
        perResultSectorInputEmbeddings := set1 x.perResultSectorInputEmbeddings i 0 })) s1
    s2.transConfig = s1.transConfig ∧ s2.transCache = s1.transCache ∧
      s2.transBuf = s1.transBuf ∧ (s2.transMap e).slba = (s1.transMap e).slba := by
  intro s2
  refine forRange_induction
    (fun st : FW α => st.transConfig = s1.transConfig ∧ st.transCache = s1.transCache ∧
      st.transBuf = s1.transBuf ∧ (st.transMap e).slba = (s1.transMap e).slba) nlb _ s1
    ⟨rfl, rfl, rfl, rfl⟩ ?_
  intro i st hi h
  obtain ⟨h1, h2, h3, h4⟩ := h
  refine ⟨h1, h2, h3, ?_⟩
  simp only [FW.modTransMap, set1_eq]
  exact h4

theorem planInit (P : Params) (s s2 : FW α) (e : Nat)
    (hfr : s2.transConfig = s.transConfig ∧ s2.transCache = s.transCache ∧
      s2.transBuf = s.transBuf ∧ (s2.transMap e).slba = (s.transMap e).slba) :
    PlanInv P s e 0
      (s2.modTransMap e (fun x =>
        { x with
          perPageSLBAs := set1 x.perPageSLBAs 0
            ((x.slba + (pageIdOf P (s.transConfig e) 0 * P.SECTOR_NUM_PER_PAGE) % U32) % U32)
          perPageStartingIndex := set1 x.perPageStartingIndex 0 0 }),
        { page_index := 0, page_id := pageIdOf P (s.transConfig e) 0,
          cur_page_input_length := 0 }) := by
  obtain ⟨f1, f2, f3, f4⟩ := hfr
  refine ⟨f1, f2, f3, ?_, ?_, ?_, ?_, ?_, ?_, ?_⟩
  · simp only [FW.modTransMap, set1_eq]; exact f4
  · simp [FW.modTransMap]
  · intro j hj; exact absurd hj (Nat.not_lt_zero _)
  · simp [FW.modTransMap]
  · simp only [FW.modTransMap, set1_eq]; rw [f4]; rfl
  · intro i h1 h2; exact absurd h2 (Nat.not_lt_zero _)
  · intro j hj; exact absurd hj (Nat.not_lt_zero _)

theorem planFinish [Zero α] (P : Params) (s : FW α) (e n bytes : Nat)
    (r : FW α × ConfigLocals) (hinv : PlanInv P s e n r) :
    let s4 := r.1.modTransMap e (fun x =>
      { x with
        perPageInputLength := set1 x.perPageInputLength r.2.page_index r.2.cur_page_input_length
        nPages := r.2.page_index + 1 })
    let s5 : FW α :=
      { s4 with
        transBuf := forRange bytes (fun i b => set1 b (resultBase P e + i) 0) s4.transBuf }
    let s' := s5.modTransMap e (fun x => { x with configured := 1 })
    let m := s'.transMap e
    s'.transConfig = s.transConfig ∧ m.slba = (s.transMap e).slba ∧
    m.perPageStartingIndex 0 = 0 ∧
    (∀ j, j + 1 < m.nPages →
      m.perPageStartingIndex (j + 1) = m.perPageStartingIndex j + m.perPageInputLength j) ∧
    0 < m.nPages ∧
    m.perPageStartingIndex (m.nPages - 1) + m.perPageInputLength (m.nPages - 1) = n ∧
    (∀ j, j < m.nPages → ∀ i, m.perPageStartingIndex j ≤ i →
      i < m.perPageStartingIndex j + m.perPageInputLength j →
      m.perPageSLBAs j = slbaOfPage P (s.transMap e).slba (pageIdOf P (s.transConfig e) i)) ∧
    ∀ c, s'.transBuf c =
      if resultBase P e ≤ c ∧ c < resultBase P e + bytes then 0 else s.transBuf c := by
  obtain ⟨st1, loc⟩ := r
  obtain ⟨hcfg, hcache, hbuf, hslba, hstart0, hnext, hcur, hslbaCur, hcurPid, hclosed⟩ := hinv
  simp only at hcfg hcache hbuf hslba hstart0 hnext hcur hslbaCur hcurPid hclosed
  simp only [FW.modTransMap, set1_eq, Nat.add_sub_cancel]
  refine ⟨hcfg, hslba, hstart0, ?_, Nat.succ_pos _, ?_, ?_, ?_⟩
  · intro j hj
    have hj' : j < loc.page_index := by omega
    rw [set1_ne _ _ (by omega)]
    exact hnext j hj'
  · omega
  · intro j hj i h1 h2
    by_cases hjl : j = loc.page_index
    · subst hjl
      rw [set1_eq] at h2
      rw [hslbaCur, hcurPid i h1 (by omega)]
    · have hj' : j < loc.page_index := by omega
      rw [set1_ne _ _ hjl] at h2
      rw [← hnext j hj'] at h2
      exact hclosed j hj' i h1 h2
  · intro c
    rw [zeroRange_apply, hbuf]

/-- The plan written by `ConfigureTransBufEntry` when no pair hits the cache. -/
theorem ConfigureTransBufEntry_plan [Add α] [Zero α] (P : Params) (s : FW α) (e : Nat)
    (hmiss : ∀ i, i < (s.transConfig e).inputEmbeddings →
      cacheMiss s.transCache (s.transConfig e) i) :
    let s' := ConfigureTransBufEntry P s e
    let m := s'.transMap e
    s'.transConfig = s.transConfig ∧ m.slba = (s.transMap e).slba ∧
    m.perPageStartingIndex 0 = 0 ∧
    (∀ j, j + 1 < m.nPages →
      m.perPageStartingIndex (j + 1) = m.perPageStartingIndex j + m.perPageInputLength j) ∧
    0 < m.nPages ∧
    m.perPageStartingIndex (m.nPages - 1) + m.perPageInputLength (m.nPages - 1)
      = (s.transConfig e).inputEmbeddings ∧
    (∀ j, j < m.nPages → ∀ i, m.perPageStartingIndex j ≤ i →
      i < m.perPageStartingIndex j + m.perPageInputLength j →
      m.perPageSLBAs j = slbaOfPage P (s.transMap e).slba (pageIdOf P (s.transConfig e) i)) ∧
    ∀ c, s'.transBuf c =
      if resultBase P e ≤ c ∧ c < resultBase P e +
          ((s.transConfig e).resultEmbeddings * (s.transConfig e).attributeSize
            * (s.transConfig e).embeddingLength) % U32
      then 0 else s.transBuf c := by
  unfold ConfigureTransBufEntry
  refine planFinish P s e _ _ _
    (configureLoop_inv P s e _ (planInit P s _ e ?_) _ hmiss)
  have h := clearCounters_frame e
    (((s.transConfig e).resultEmbeddings * (s.transConfig e).attributeSize
        * (s.transConfig e).embeddingLength) % U32 / P.SECTOR_SIZE_FTL
      + (if ((s.transConfig e).resultEmbeddings * (s.transConfig e).attributeSize
        * (s.transConfig e).embeddingLength) % U32 % P.SECTOR_SIZE_FTL ≠ 0 then 1 else 0))
    (s.modTransMap e (fun x => { x with nlb :=
      ((s.transConfig e).resultEmbeddings * (s.transConfig e).attributeSize
        * (s.transConfig e).embeddingLength) % U32 / P.SECTOR_SIZE_FTL
      + (if ((s.transConfig e).resultEmbeddings * (s.transConfig e).attributeSize
        * (s.transConfig e).embeddingLength) % U32 % P.SECTOR_SIZE_FTL ≠ 0 then 1 else 0) }))
  simp only at h
  obtain ⟨f1, f2, f3, f4⟩ := h
  refine ⟨f1, f2, f3, ?_⟩
  rw [f4]
  simp [FW.modTransMap]

theorem slotPage_congr (P : Params) (table : Nat → α) {s st : FW α} (h : SamePlan s st)
    (e j : Nat) : slotPage P table st e j = slotPage P table s e j := by
  obtain ⟨h1, h2⟩ := h
  obtain ⟨a1, a2, a3, a4, a5⟩ := h2 e
  unfold slotPage
  rw [h1, a1, a4]

theorem slotSum_congr [AddCommMonoid α] (P : Params) (table : Nat → α) {s st : FW α}
    (h : SamePlan s st) (e j c : Nat) : slotSum P table st e j c = slotSum P table s e j c := by
  have hp := slotPage_congr P table h e j
  obtain ⟨h1, h2⟩ := h
  obtain ⟨a1, a2, a3, a4, a5⟩ := h2 e
  unfold slotSum
  rw [hp, h1, a1, a2, a3, a4]

theorem translatePlanned_effect [AddCommMonoid α] (P : Params) (table : Nat → α) (e : Nat)
    (order : List Nat) (s : FW α) :
    SamePlan s (translatePlanned P table s e order) ∧
    ∀ c, (translatePlanned P table s e order).transBuf c
      = s.transBuf c + (order.map (fun j => slotSum P table s e j c)).sum := by
  induction order generalizing s with
  | nil =>
    refine ⟨SamePlan.planRefl s, fun c => ?_⟩
    simp [translatePlanned]
  | cons j rest ih =>
    have hstep := translatePage_effect P s e (slotPage P table s e j) j
    obtain ⟨hs1, hb1⟩ := hstep
    obtain ⟨hs2, hb2⟩ := ih (translatePage P s e (slotPage P table s e j) j)
    have hunf : translatePlanned P table s e (j :: rest)
        = translatePlanned P table (translatePage P s e (slotPage P table s e j) j) e rest := rfl
    rw [hunf]
    refine ⟨SamePlan.planTrans hs1 hs2, fun c => ?_⟩
    rw [hb2 c, hb1 c]
    have hc : (rest.map (fun j' => slotSum P table
        (translatePage P s e (slotPage P table s e j) j) e j' c))
        = rest.map (fun j' => slotSum P table s e j' c) :=
      List.map_congr_left (fun j' _ => slotSum_congr P table hs1 e j' c)
    rw [hc, List.map_cons, List.sum_cons, add_assoc]
    rfl

theorem row_cell_iff (a r L k : Nat) (hk : k < L) :
    (a * L ≤ r * L + k ∧ r * L + k < a * L + L) ↔ a = r := by
  constructor
  · rintro ⟨h1, h2⟩
    rcases Nat.lt_trichotomy a r with h | h | h
    · have : (a + 1) * L ≤ r * L := Nat.mul_le_mul_right L h
      rw [Nat.add_mul, Nat.one_mul] at this
      omega
    · exact h
    · have : (r + 1) * L ≤ a * L := Nat.mul_le_mul_right L h
      rw [Nat.add_mul, Nat.one_mul] at this
      omega
  · rintro rfl
    omega

theorem blocks_mono (start len : Nat → Nat) (nPages : Nat)
    (hnext : ∀ j, j < nPages → start (j + 1) = start j + len j) (j d : Nat)
    (h : j + d ≤ nPages) : start j ≤ start (j + d) := by
  induction d with
  | zero => exact Nat.le_refl _
  | succ d ih =>
    have h1 := ih (by omega)
    have h2 := hnext (j + d) (by omega)
    rw [← Nat.add_assoc, h2]
    omega

theorem pairContribution_planned [Zero α] (P : Params) (table : Nat → α) (s : FW α)
    (e j p r k : Nat)
    (hdiv : (s.transConfig e).attributeSize * (s.transConfig e).embeddingLength ∣ P.PAGE_SIZE)
    (hpos : 0 < P.PAGE_SIZE) (hps : P.PAGE_SIZE < U32)
    (hgeo : P.SECTOR_NUM_PER_PAGE * P.SECTOR_SIZE_FTL = P.PAGE_SIZE)
    (hslba : (s.transMap e).slba < U32)
    (hov : ((s.transConfig e).embeddingIDList p).embeddingID * (s.transConfig e).attributeSize
      * (s.transConfig e).embeddingLength < U32)
    (hsl : (s.transMap e).slba
      + (((s.transConfig e).embeddingIDList p).embeddingID * (s.transConfig e).attributeSize
          * (s.transConfig e).embeddingLength / P.PAGE_SIZE) * P.SECTOR_NUM_PER_PAGE < U32)
    (hres : ((s.transConfig e).embeddingIDList p).result * (s.transConfig e).embeddingLength
      < U32)
    (hk : k < (s.transConfig e).embeddingLength)
    (hS : (s.transMap e).perPageSLBAs j
      = slbaOfPage P (s.transMap e).slba (pageIdOf P (s.transConfig e) p)) :
    pairContribution P (s.transConfig e) e (slotPage P table s e j)
        ((((s.transMap e).perPageSLBAs j + (U32 - (s.transMap e).slba % U32)) % U32
            * P.SECTOR_SIZE_FTL % U32)
          / ((s.transConfig e).attributeSize * (s.transConfig e).embeddingLength % U32))
        p (resultBase P e + r * (s.transConfig e).embeddingLength + k)
      = if ((s.transConfig e).embeddingIDList p).result = r
        then table (((s.transConfig e).embeddingIDList p).embeddingID
          * (s.transConfig e).embeddingLength + k)
        else 0 := by
  have hiff := row_cell_iff ((s.transConfig e).embeddingIDList p).result r
    (s.transConfig e).embeddingLength k hk
  unfold pairContribution
  simp only []
  rw [Nat.mod_eq_of_lt hres]
  by_cases hr : ((s.transConfig e).embeddingIDList p).result = r
  · rw [if_pos hr, if_pos (by have := hiff.2 hr; omega)]
    have hsub : resultBase P e + r * (s.transConfig e).embeddingLength + k
        - (resultBase P e + ((s.transConfig e).embeddingIDList p).result
          * (s.transConfig e).embeddingLength) = k := by
      rw [hr]; omega
    rw [hsub]
    have hidx := pair_source_index P (s.transConfig e).attributeSize
      (s.transConfig e).embeddingLength ((s.transConfig e).embeddingIDList p).embeddingID
      (s.transMap e).slba hdiv hpos hps hgeo hov hslba hsl k
    simp only [] at hidx
    unfold slotPage tablePage
    rw [hS]
    exact congrArg table hidx
  · rw [if_neg hr, if_neg (by
      intro hc
      exact hr (hiff.1 (by omega)))]

/-- C2 fails in the code: a pair served from the cache is lost. With the single pair `(0, 1)`
the cold run leaves row 1 of the table in result row 0 and the warm run leaves zeros, because
the result memory is zeroed after the cache hits were accumulated; with the pairs `(0, 1)`
(cached) and `(0, 2)` (not cached) the warm run leaves row 1 instead of row 1 + row 2, because
the plan slot still starts at pair 0 and has length 1. -/
theorem cache_hit_changes_result :
    (configureAndTranslate (coldFW singleConfig) (resultBase exampleParams 0 + 0) = 3 ∧
      configureAndTranslate (coldFW singleConfig) (resultBase exampleParams 0 + 1) = 4) ∧
    (configureAndTranslate (warmFW singleConfig) (resultBase exampleParams 0 + 0) = 0 ∧
      configureAndTranslate (warmFW singleConfig) (resultBase exampleParams 0 + 1) = 0) ∧
    (configureAndTranslate (coldFW doubleConfig) (resultBase exampleParams 0 + 0) = 8 ∧
      configureAndTranslate (coldFW doubleConfig) (resultBase exampleParams 0 + 1) = 10) ∧
    (configureAndTranslate (warmFW doubleConfig) (resultBase exampleParams 0 + 0) = 3 ∧
      configureAndTranslate (warmFW doubleConfig) (resultBase exampleParams 0 + 1) = 4) := by
  decide

/-! ### The way lists -/

/-! ### Linked segments -/

theorem Fwd_congr (nxt nxt' : Nat → Nat) (ws : List Nat) (h q : Nat)
    (hc : ∀ w, w ∈ ws → nxt' w = nxt w) : Fwd nxt' h ws q ↔ Fwd nxt h ws q := by
  induction ws generalizing h with
  | nil => exact Iff.rfl
  | cons w ws ih =>
    simp only [Fwd]
    rw [hc w (List.mem_cons_self _ _), ih _ (fun x hx => hc x (List.mem_cons_of_mem _ hx))]

theorem Bwd_congr (prv prv' : Nat → Nat) (ws : List Nat) (p t : Nat)
    (hc : ∀ w, w ∈ ws → prv' w = prv w) : Bwd prv' p ws t ↔ Bwd prv p ws t := by
  induction ws generalizing p with
  | nil => exact Iff.rfl
  | cons w ws ih =>
    simp only [Bwd]
    rw [hc w (List.mem_cons_self _ _), ih _ (fun x hx => hc x (List.mem_cons_of_mem _ hx))]

theorem Fwd_head (nxt : Nat → Nat) (ws : List Nat) (h q : Nat) (hf : Fwd nxt h ws q) :
    h = ws.headD q := by
  cases ws with
  | nil => exact hf
  | cons w ws => exact hf.1

theorem Bwd_last (prv : Nat → Nat) (ws : List Nat) (p t : Nat) (hb : Bwd prv p ws t) :
    t = ws.getLastD p := by
  induction ws generalizing p with
  | nil => exact hb
  | cons w ws ih =>
    have := ih w hb.2
    rw [this]
    cases ws <;> rfl

theorem Fwd_append (nxt : Nat → Nat) (a b : List Nat) (h q : Nat) :
    Fwd nxt h (a ++ b) q ↔ ∃ m, Fwd nxt h a m ∧ Fwd nxt m b q := by
  induction a generalizing h with
  | nil =>
    constructor
    · intro hf; exact ⟨h, rfl, hf⟩
    · rintro ⟨m, hm, hf⟩
      have : h = m := hm
      rw [this]; exact hf
  | cons w a ih =>
    simp only [List.cons_append, Fwd]
    constructor
    · rintro ⟨hw, hf⟩
      obtain ⟨m, h1, h2⟩ := (ih _).1 hf
      exact ⟨m, ⟨hw, h1⟩, h2⟩
    · rintro ⟨m, ⟨hw, h1⟩, h2⟩
      exact ⟨hw, (ih _).2 ⟨m, h1, h2⟩⟩

theorem Bwd_append (prv : Nat → Nat) (a b : List Nat) (p t : Nat) :
    Bwd prv p (a ++ b) t ↔ ∃ m, Bwd prv p a m ∧ Bwd prv m b t := by
  induction a generalizing p with
  | nil =>
    constructor
    · intro hf; exact ⟨p, rfl, hf⟩
    · rintro ⟨m, hm, hf⟩
      have : m = p := hm
      rw [← this]; exact hf
  | cons w a ih =>
    simp only [List.cons_append, Bwd]
    constructor
    · rintro ⟨hw, hf⟩
      obtain ⟨m, h1, h2⟩ := (ih _).1 hf
      exact ⟨m, ⟨hw, h1⟩, h2⟩
    · rintro ⟨m, ⟨hw, h1⟩, h2⟩
      exact ⟨hw, (ih _).2 ⟨m, h1, h2⟩⟩

/-- Taking `w` out of a forward chain: its predecessor, if any, now points to its successor;
otherwise the head does. -/
theorem Fwd_remove (nxt : Nat → Nat) (pre post : List Nat) (w h q : Nat)
    (hf : Fwd nxt h (pre ++ w :: post) q) (hnd : (pre ++ w :: post).Nodup) :
    (pre = [] → Fwd nxt (nxt w) post q) ∧
    (∀ a, pre.getLast? = some a → Fwd (set1 nxt a (nxt w)) h (pre ++ post) q) := by
  induction pre generalizing h with
  | nil =>
    refine ⟨fun _ => hf.2, fun a ha => ?_⟩
    simp at ha
  | cons a pre ih =>
    refine ⟨fun hne => by simp at hne, fun z hz => ?_⟩
    obtain ⟨ha, hrest⟩ := hf
    have hnd' : (pre ++ w :: post).Nodup := (List.nodup_cons.1 hnd).2
    have hanot : a ∉ pre ++ w :: post := (List.nodup_cons.1 hnd).1
    obtain ⟨ih1, ih2⟩ := ih (nxt a) hrest hnd'
    cases pre with
    | nil =>
      simp at hz
      subst hz
      have h2 := ih1 rfl
      have hw : nxt a = w := hrest.1
      show h = a ∧ Fwd (set1 nxt a (nxt w)) (set1 nxt a (nxt w) a) post q
      refine ⟨ha, ?_⟩
      rw [set1_eq]
      refine (Fwd_congr nxt _ post _ q (fun x hx => set1_ne _ _ ?_)).2 h2
      intro hxa
      apply hanot
      rw [← hxa]
      simp [hx]
    | cons b pre' =>
      have hz' : (b :: pre').getLast? = some z := by
        rw [List.getLast?_cons_cons] at hz; exact hz
      have h2 := ih2 z hz'
      have hza : z ≠ a := by
        intro hza
        apply hanot
        have : z ∈ b :: pre' := List.mem_of_getLast?_eq_some hz'
        rw [← hza]
        exact List.mem_append_left _ this
      show h = a ∧ Fwd (set1 nxt z (nxt w)) (set1 nxt z (nxt w) a) ((b :: pre') ++ post) q
      refine ⟨ha, ?_⟩
      rw [set1_ne _ _ (Ne.symm hza)]
      exact h2

/-- Taking `w` out of a backward chain: its successor, if any, now points back to its
predecessor; otherwise the tail does. -/
theorem Bwd_remove (prv : Nat → Nat) (pre post : List Nat) (w p t : Nat)
    (hb : Bwd prv p (pre ++ w :: post) t) (hnd : (pre ++ w :: post).Nodup) :
    (post = [] → Bwd prv p pre (prv w)) ∧
    (∀ b, post.head? = some b → Bwd (set1 prv b (prv w)) p (pre ++ post) t) := by
  induction pre generalizing p with
  | nil =>
    obtain ⟨hw, hrest⟩ := hb
    refine ⟨fun _ => hw, fun b hb' => ?_⟩
    cases post with
    | nil => simp at hb'
    | cons c post' =>
      simp at hb'
      subst hb'
      obtain ⟨hc, hrest'⟩ := hrest
      show set1 prv c (prv w) c = p ∧ Bwd (set1 prv c (prv w)) c post' t
      rw [set1_eq]
      refine ⟨hw, (Bwd_congr prv _ post' _ t (fun x hx => set1_ne _ _ ?_)).2 hrest'⟩
      intro hxc
      have hnd' : (c :: post').Nodup := (List.nodup_cons.1 hnd).2
      have := (List.nodup_cons.1 hnd').1
      rw [hxc] at hx
      exact this hx
  | cons a pre ih =>
    obtain ⟨ha, hrest⟩ := hb
    have hnd' : (pre ++ w :: post).Nodup := (List.nodup_cons.1 hnd).2
    have hanot : a ∉ pre ++ w :: post := (List.nodup_cons.1 hnd).1
    obtain ⟨ih1, ih2⟩ := ih a hrest hnd'
    refine ⟨fun hpost => ⟨ha, ih1 hpost⟩, fun b hb' => ?_⟩
    have hba : a ≠ b := by
      intro hab
      apply hanot
      cases post with
      | nil => simp at hb'
      | cons c post' =>
        simp at hb'
        subst hb'
        rw [hab]
        simp
    show set1 prv b (prv w) a = p ∧ Bwd (set1 prv b (prv w)) a (pre ++ post) t
    rw [set1_ne _ _ hba]
    exact ⟨ha, ih2 b hb'⟩

/-- Putting `w` at the end of a backward chain. -/
theorem Bwd_snoc (prv : Nat → Nat) (ws : List Nat) (w p t : Nat) (hb : Bwd prv p ws t)
    (hw : w ∉ ws) : Bwd (set1 prv w t) p (ws ++ [w]) w := by
  refine (Bwd_append _ ws [w] p w).2 ⟨t, ?_, ?_⟩
  · refine (Bwd_congr prv _ ws p t (fun x hx => set1_ne _ _ ?_)).2 hb
    intro hxw
    rw [hxw] at hx
    exact hw hx
  · show set1 prv w t w = t ∧ w = w
    rw [set1_eq]
    exact ⟨rfl, rfl⟩

/-- Putting `w` at the end of a forward chain: the old last way, if any, now points to `w`;
otherwise the head does. -/
theorem Fwd_snoc (nxt : Nat → Nat) (ws : List Nat) (w h q : Nat) (hf : Fwd nxt h ws q)
    (hw : w ∉ ws) (hnd : ws.Nodup) :
    (ws = [] → Fwd (set1 nxt w q) w (ws ++ [w]) q) ∧
    (∀ t, ws.getLast? = some t → Fwd (set1 (set1 nxt w q) t w) h (ws ++ [w]) q) := by
  constructor
  · intro hnil
    subst hnil
    show w = w ∧ set1 nxt w q w = q
    rw [set1_eq]
    exact ⟨rfl, rfl⟩
  · intro t ht
    induction ws generalizing h with
    | nil => simp at ht
    | cons a ws ih =>
      obtain ⟨ha, hrest⟩ := hf
      have haw : w ≠ a := fun h' => hw (by rw [h']; simp)
      have hw' : w ∉ ws := fun h' => hw (List.mem_cons_of_mem _ h')
      cases ws with
      | nil =>
        simp at ht
        subst ht
        show h = a ∧ set1 (set1 nxt w q) a w a = w ∧ set1 (set1 nxt w q) a w w = q
        rw [set1_eq, set1_ne _ _ haw, set1_eq]
        exact ⟨ha, rfl, rfl⟩
      | cons b rest =>
        have ht' : (b :: rest).getLast? = some t := by
          rw [List.getLast?_cons_cons] at ht; exact ht
        have hta : a ≠ t := by
          intro hat
          have : t ∈ b :: rest := List.mem_of_getLast?_eq_some ht'
          rw [← hat] at this
          exact (List.nodup_cons.1 hnd).1 this
        have h2 := ih (nxt a) hrest hw' (List.nodup_cons.1 hnd).2 ht'
        show h = a ∧ Fwd (set1 (set1 nxt w q) t w) (set1 (set1 nxt w q) t w a)
          ((b :: rest) ++ [w]) q
        rw [set1_ne _ _ hta, set1_ne _ _ (Ne.symm haw)]
        exact ⟨ha, h2⟩

/-! ### Projections of the link fields -/

theorem set1_self {β : Type} (f : Nat → β) (i : Nat) : set1 f i (f i) = f := by
  funext j
  unfold set1
  split
  · next h => rw [h]
  · rfl

theorem setList_eq (f : WayList → Nat) (l : WayList) (v : Nat) : setList f l v l = v := by
  simp [setList]

theorem setList_ne (f : WayList → Nat) {l l' : WayList} (v : Nat) (h : l' ≠ l) :
    setList f l v l' = f l' := by
  simp [setList, h]

theorem setWs_eq (ws : WayList → List Nat) (l : WayList) (v : List Nat) : setWs ws l v l = v := by
  simp [setWs]

theorem setWs_ne (ws : WayList → List Nat) {l l' : WayList} (v : List Nat) (h : l' ≠ l) :
    setWs ws l v l' = ws l' := by
  simp [setWs, h]

theorem nextFn_modDie (s : FW α) (c x : Nat) (f : DieStatusEntry → DieStatusEntry) :
    (fun w => ((s.modDie c x f).dieStatusTable c w).nextWay)
      = set1 (fun w => (s.dieStatusTable c w).nextWay) x (f (s.dieStatusTable c x)).nextWay := by
  funext w
  unfold FW.modDie set2 set1
  by_cases h : w = x
  · simp [h]
  · simp [h]

theorem prevFn_modDie (s : FW α) (c x : Nat) (f : DieStatusEntry → DieStatusEntry) :
    (fun w => ((s.modDie c x f).dieStatusTable c w).prevWay)
      = set1 (fun w => (s.dieStatusTable c w).prevWay) x (f (s.dieStatusTable c x)).prevWay := by
  funext w
  unfold FW.modDie set2 set1
  by_cases h : w = x
  · simp [h]
  · simp [h]

theorem modDie_other (s : FW α) {c c' : Nat} (x : Nat) (f : DieStatusEntry → DieStatusEntry)
    (h : c' ≠ c) (w : Nat) : (s.modDie c x f).dieStatusTable c' w = s.dieStatusTable c' w := by
  unfold FW.modDie set2
  simp [h]

theorem modDie_at (s : FW α) (c x : Nat) (f : DieStatusEntry → DieStatusEntry) (w : Nat) :
    (s.modDie c x f).dieStatusTable c w
      = if w = x then f (s.dieStatusTable c x) else s.dieStatusTable c w := by
  unfold FW.modDie set2
  simp

theorem modWayPriority_at (s : FW α) (c : Nat) (f : WayPriorityEntry → WayPriorityEntry) :
    (s.modWayPriority c f).wayPriorityTable c = f (s.wayPriorityTable c) := by
  unfold FW.modWayPriority
  simp

theorem modWayPriority_other (s : FW α) {c c' : Nat} (f : WayPriorityEntry → WayPriorityEntry)
    (h : c' ≠ c) : (s.modWayPriority c f).wayPriorityTable c' = s.wayPriorityTable c' := by
  unfold FW.modWayPriority
  simp [set1, h]

/-! ### The invariant when a way leaves or joins a list -/

theorem mem_setWs_remove {P : Params} {s : FW α} {chNo : Nat} {ws : WayList → List Nat}
    (h : WayInv P s chNo ws none) {l : WayList} {pre post : List Nat} {w : Nat}
    (hsplit : ws l = pre ++ w :: post) (l' : WayList) (x : Nat)
    (hx : x ∈ setWs ws l (pre ++ post) l') : x ∈ ws l' ∧ x ≠ w := by
  have hwl : w ∈ ws l := by rw [hsplit]; simp
  by_cases hl : l' = l
  · subst hl
    rw [setWs_eq] at hx
    have hnd := h.nodup l'
    rw [hsplit] at hnd
    have hx' : x ∈ pre ∨ x ∈ post := List.mem_append.1 hx
    constructor
    · rw [hsplit]
      rcases hx' with h1 | h1
      · exact List.mem_append_left _ h1
      · exact List.mem_append_right _ (List.mem_cons_of_mem _ h1)
    · rintro rfl
      have hnd2 := List.nodup_append.1 hnd
      rcases hx' with h1 | h1
      · exact hnd2.2.2 h1 (List.mem_cons_self _ _)
      · exact (List.nodup_cons.1 hnd2.2.1).1 h1
  · rw [setWs_ne _ _ hl] at hx
    refine ⟨hx, ?_⟩
    rintro rfl
    exact hl (h.disj l' l x hx hwl)

/-- The fields of the invariant that do not mention pointers, after `w` left list `l`. -/
theorem WayInv_remove {P : Params} {s s' : FW α} {chNo : Nat} {ws : WayList → List Nat}
    (h : WayInv P s chNo ws none) {l : WayList} {pre post : List Nat} {w : Nat}
    (hsplit : ws l = pre ++ w :: post)
    (hfwd : ∀ l', Fwd (fun x => (s'.dieStatusTable chNo x).nextWay)
      ((s'.wayPriorityTable chNo).head l') (setWs ws l (pre ++ post) l') 0xf)
    (hbwd : ∀ l', Bwd (fun x => (s'.dieStatusTable chNo x).prevWay) 0xf
      (setWs ws l (pre ++ post) l') ((s'.wayPriorityTable chNo).tail l')) :
    WayInv P s' chNo (setWs ws l (pre ++ post)) (some w) := by
  have hwl : w ∈ ws l := by rw [hsplit]; simp
  refine ⟨hfwd, hbwd, ?_, ?_, ?_, ?_, ?_⟩
  · intro l'
    by_cases hl : l' = l
    · subst hl
      rw [setWs_eq]
      have hnd := h.nodup l'
      rw [hsplit] at hnd
      exact hnd.sublist (List.Sublist.append_left (List.sublist_cons_self _ _) _)
    · rw [setWs_ne _ _ hl]; exact h.nodup l'
  · intro l1 l2 x h1 h2
    exact h.disj l1 l2 x (mem_setWs_remove h hsplit l1 x h1).1 (mem_setWs_remove h hsplit l2 x h2).1
  · intro l' x hx
    exact h.bound l' x (mem_setWs_remove h hsplit l' x hx).1
  · intro x hx
    by_cases hxw : x = w
    · left; rw [hxw]
    · right
      rcases h.cover x hx with h0 | ⟨l', hl'⟩
      · cases h0
      · refine ⟨l', ?_⟩
        by_cases hl : l' = l
        · subst hl
          rw [setWs_eq]
          rw [hsplit] at hl'
          rcases List.mem_append.1 hl' with h1 | h1
          · exact List.mem_append_left _ h1
          · rcases List.mem_cons.1 h1 with h2 | h2
            · exact absurd h2 hxw
            · exact List.mem_append_right _ h2
        · rw [setWs_ne _ _ hl]; exact hl'
  · intro x hx
    have hxw : w = x := Option.some.inj hx
    rw [← hxw]
    refine ⟨h.bound l w hwl, fun l' hmem => ?_⟩
    exact (mem_setWs_remove h hsplit l' w hmem).2 rfl

theorem mod16_of_lt {x n : Nat} (h : x < n) (hn : n ≤ 15) : x % 16 = x :=
  Nat.mod_eq_of_lt (by omega)

@[simp] theorem modWayPriority_dieStatusTable (s : FW α) (c : Nat)
    (f : WayPriorityEntry → WayPriorityEntry) :
    (s.modWayPriority c f).dieStatusTable = s.dieStatusTable := rfl

@[simp] theorem modDie_wayPriorityTable (s : FW α) (c x : Nat)
    (f : DieStatusEntry → DieStatusEntry) :
    (s.modDie c x f).wayPriorityTable = s.wayPriorityTable := rfl

/-- What the pointers of `w` are when `w` sits between `pre` and `post` on its list. -/
theorem WayInv_pointers {P : Params} {s : FW α} {chNo : Nat} {ws : WayList → List Nat}
    (h : WayInv P s chNo ws none) {l : WayList} {pre post : List Nat} {w : Nat}
    (hsplit : ws l = pre ++ w :: post) :
    (s.dieStatusTable chNo w).nextWay = post.headD 0xf ∧
    (s.dieStatusTable chNo w).prevWay = pre.getLastD 0xf := by
  have hF := h.fwd l
  have hB := h.bwd l
  rw [hsplit] at hF hB
  obtain ⟨m, _, hm⟩ := (Fwd_append _ pre (w :: post) _ _).1 hF
  obtain ⟨m', hm1, hm2⟩ := (Bwd_append _ pre (w :: post) _ _).1 hB
  refine ⟨Fwd_head _ post _ _ hm.2, ?_⟩
  have := Bwd_last _ pre _ _ hm1
  rw [← this]
  exact hm2.1

/-- The invariant after `w` left list `l`, from the pointers of the new state. -/
theorem WayInv_remove_ptr {P : Params} {s s' : FW α} {chNo : Nat} {ws : WayList → List Nat}
    (h : WayInv P s chNo ws none) {l : WayList} {pre post : List Nat} {w : Nat}
    (hsplit : ws l = pre ++ w :: post) (nxt' prv' : Nat → Nat)
    (hn : ∀ x, (s'.dieStatusTable chNo x).nextWay = nxt' x)
    (hp : ∀ x, (s'.dieStatusTable chNo x).prevWay = prv' x)
    (hFl : Fwd nxt' ((s'.wayPriorityTable chNo).head l) (pre ++ post) 0xf)
    (hBl : Bwd prv' 0xf (pre ++ post) ((s'.wayPriorityTable chNo).tail l))
    (hcn : ∀ x, x ∉ pre ++ w :: post → nxt' x = (s.dieStatusTable chNo x).nextWay)
    (hcp : ∀ x, x ∉ pre ++ w :: post → prv' x = (s.dieStatusTable chNo x).prevWay)
    (hhead : ∀ l', l' ≠ l →
      (s'.wayPriorityTable chNo).head l' = (s.wayPriorityTable chNo).head l')
    (htail : ∀ l', l' ≠ l →
      (s'.wayPriorityTable chNo).tail l' = (s.wayPriorityTable chNo).tail l') :
    WayInv P s' chNo (setWs ws l (pre ++ post)) (some w) := by
  have hother : ∀ l', l' ≠ l → ∀ x, x ∈ ws l' → x ∉ pre ++ w :: post := by
    intro l' hl' x hx hx'
    exact hl' (h.disj l' l x hx (by rw [hsplit]; exact hx'))
  have e1 : (fun x => (s'.dieStatusTable chNo x).nextWay) = nxt' := funext hn
  have e2 : (fun x => (s'.dieStatusTable chNo x).prevWay) = prv' := funext hp
  apply WayInv_remove h hsplit
  · intro l'
    rw [e1]
    by_cases hl : l' = l
    · subst hl; rw [setWs_eq]; exact hFl
    · rw [setWs_ne _ _ hl, hhead l' hl]
      exact (Fwd_congr _ nxt' (ws l') _ _ (fun x hx => hcn x (hother l' hl x hx))).2 (h.fwd l')
  · intro l'
    rw [e2]
    by_cases hl : l' = l
    · subst hl; rw [setWs_eq]; exact hBl
    · rw [setWs_ne _ _ hl, htail l' hl]
      exact (Bwd_congr _ prv' (ws l') _ _ (fun x hx => hcp x (hother l' hl x hx))).2 (h.bwd l')

theorem unlinkWay_inv {P : Params} {s : FW α} {chNo : Nat} {ws : WayList → List Nat}
    (hW : P.WAY_NUM ≤ 15) (h : WayInv P s chNo ws none) {l : WayList} {pre post : List Nat}
    {w : Nat} (hsplit : ws l = pre ++ w :: post) (slip : Bool) (hslip : slip = true → pre = []) :
    WayInv P (unlinkWay l slip s chNo w) chNo (setWs ws l (pre ++ post)) (some w) ∧
    ((unlinkWay l slip s chNo w).dieStatusTable chNo w).nextWay
      = (s.dieStatusTable chNo w).nextWay := by
  obtain ⟨hnw, hpw⟩ := WayInv_pointers h hsplit
  have hF := h.fwd l
  have hB := h.bwd l
  have hnd := h.nodup l
  rw [hsplit] at hF hB hnd
  have hlt : ∀ x, x ∈ pre ++ w :: post → x < P.WAY_NUM := fun x hx =>
    h.bound l x (by rw [hsplit]; exact hx)
  obtain ⟨hFr1, hFr2⟩ := Fwd_remove _ pre post w _ _ hF hnd
  obtain ⟨hBr1, hBr2⟩ := Bwd_remove _ pre post w _ _ hB hnd
  rcases List.eq_nil_or_concat pre with hpre | ⟨pre', a, hpre⟩
  · subst hpre
    have hpf : (s.dieStatusTable chNo w).prevWay = 0xf := by rw [hpw]; rfl
    cases post with
    | nil =>
      have hnf : (s.dieStatusTable chNo w).nextWay = 0xf := by rw [hnw]; rfl
      have hs : unlinkWay l slip s chNo w
          = (s.modWayPriority chNo (fun p => { p with head := setList p.head l 0xf })).modWayPriority
              chNo (fun p => { p with tail := setList p.tail l 0xf }) := by
        unfold unlinkWay
        rw [if_neg (by rw [hnf]; simp), if_neg (by rw [hpf]; simp), if_neg (by rw [hnf]; simp)]
      rw [hs]
      refine ⟨WayInv_remove_ptr h hsplit _ _ (fun x => rfl) (fun x => rfl) ?_ ?_
        (fun x _ => rfl) (fun x _ => rfl) ?_ ?_, rfl⟩
      · simp only [modWayPriority_at, setList_eq]
        exact rfl
      · simp only [modWayPriority_at, setList_eq]
        exact rfl
      · intro l' hl'
        simp only [modWayPriority_at, setList_ne _ _ hl']
      · intro l' hl'
        simp only [modWayPriority_at, setList_ne _ _ hl']
    | cons b post' =>
      have hb : b < P.WAY_NUM := hlt b (by simp)
      have hnb : (s.dieStatusTable chNo w).nextWay = b := by rw [hnw]; rfl
      have hbw : w ≠ b := by
        intro hwb
        have := (List.nodup_cons.1 hnd).1
        rw [hwb] at this
        exact this (by simp)
      have hs : unlinkWay l slip s chNo w
          = (s.modDie chNo b (fun d => { d with prevWay := 0xf })).modWayPriority chNo
              (fun p => { p with head := setList p.head l b }) := by
        unfold unlinkWay
        rw [if_neg (by rw [hpf]; simp), if_neg (by rw [hpf]; simp),
          if_pos ⟨by rw [hnb]; omega, hpf⟩]
        simp only [modDie_at, hnb, if_neg hbw, mod16_of_lt hb hW]
      rw [hs]
      refine ⟨WayInv_remove_ptr h hsplit (fun x => (s.dieStatusTable chNo x).nextWay)
        (set1 (fun x => (s.dieStatusTable chNo x).prevWay) b (s.dieStatusTable chNo w).prevWay)
        ?_ ?_ ?_ ?_ (fun x _ => rfl) ?_ ?_ ?_, ?_⟩
      · intro x
        simp only [modWayPriority_dieStatusTable, modDie_at]
        split <;> simp [*]
      · intro x
        simp only [modWayPriority_dieStatusTable, modDie_at, hpf]
        unfold set1
        split <;> simp [*]
      · simp only [modWayPriority_at, modDie_wayPriorityTable, setList_eq]
        have := hFr1 rfl
        rw [hnb] at this
        exact this
      · simp only [modWayPriority_at, modDie_wayPriorityTable]
        exact hBr2 b rfl
      · intro x hx
        refine set1_ne _ _ ?_
        intro hxb
        apply hx
        rw [hxb]; simp
      · intro l' hl'
        simp only [modWayPriority_at, modDie_wayPriorityTable, setList_ne _ _ hl']
      · intro l' hl'
        simp only [modWayPriority_at, modDie_wayPriorityTable]
      · simp only [modWayPriority_dieStatusTable, modDie_at, if_neg hbw]
  · rw [List.concat_eq_append] at hpre
    subst hpre
    have hslipf : slip = false := by
      cases slip
      · rfl
      · have := hslip rfl
        simp at this
    subst hslipf
    have ha : a < P.WAY_NUM := hlt a (by simp)
    have hpa : (s.dieStatusTable chNo w).prevWay = a := by
      rw [hpw]; simp
    have haw : w ≠ a := by
      intro hwa
      have := (List.nodup_append.1 hnd).2.2 (show a ∈ pre' ++ [a] by simp)
        (show a ∈ w :: post by rw [hwa]; simp)
      exact this
    have hlast : (pre' ++ [a]).getLast? = some a := by simp
    cases post with
    | nil =>
      have hnf : (s.dieStatusTable chNo w).nextWay = 0xf := by rw [hnw]; rfl
      have hs : unlinkWay l false s chNo w
          = (s.modDie chNo a (fun d => { d with nextWay := 0xf })).modWayPriority chNo
              (fun p => { p with tail := setList p.tail l a }) := by
        unfold unlinkWay
        rw [if_neg (by rw [hnf]; simp), if_pos ⟨hnf, by rw [hpa]; omega⟩]
        simp only [modDie_at, hpa, if_neg haw, mod16_of_lt ha hW]
        rfl
      rw [hs]
      refine ⟨WayInv_remove_ptr h hsplit
        (set1 (fun x => (s.dieStatusTable chNo x).nextWay) a (s.dieStatusTable chNo w).nextWay)
        (fun x => (s.dieStatusTable chNo x).prevWay)
        ?_ ?_ ?_ ?_ ?_ (fun x _ => rfl) ?_ ?_, ?_⟩
      · intro x
        simp only [modWayPriority_dieStatusTable, modDie_at, hnf]
        unfold set1
        split <;> simp [*]
      · intro x
        simp only [modWayPriority_dieStatusTable, modDie_at]
        split <;> simp [*]
      · simp only [modWayPriority_at, modDie_wayPriorityTable]
        exact hFr2 a hlast
      · simp only [modWayPriority_at, modDie_wayPriorityTable, setList_eq, List.append_nil]
        have := hBr1 rfl
        rw [hpa] at this
        exact this
      · intro x hx
        refine set1_ne _ _ ?_
        intro hxa
        apply hx
        rw [hxa]; simp
      · intro l' hl'
        simp only [modWayPriority_at, modDie_wayPriorityTable]
      · intro l' hl'
        simp only [modWayPriority_at, modDie_wayPriorityTable, setList_ne _ _ hl']
      · simp only [modWayPriority_dieStatusTable, modDie_at, if_neg haw]
    | cons b post' =>
      have hb : b < P.WAY_NUM := hlt b (by simp)
      have hnb : (s.dieStatusTable chNo w).nextWay = b := by
        rw [hnw]; rfl
      have hbw : w ≠ b := by
        intro hwb
        have := (List.nodup_cons.1 (List.nodup_append.1 hnd).2.1).1
        rw [hwb] at this
        exact this (by simp)
      have hab : a ≠ b := by
        intro hab
        have := (List.nodup_append.1 hnd).2.2 (show a ∈ pre' ++ [a] by simp)
          (show a ∈ w :: b :: post' by rw [hab]; simp)
        exact this
      have hs : unlinkWay l false s chNo w
          = (s.modDie chNo a (fun d => { d with nextWay := b })).modDie chNo b
              (fun d => { d with prevWay := a }) := by
        unfold unlinkWay
        rw [if_pos ⟨by rw [hnb]; omega, by rw [hpa]; omega⟩]
        simp only [modDie_at, hpa, hnb, if_neg haw, mod16_of_lt ha hW, mod16_of_lt hb hW]
      rw [hs]
      refine ⟨WayInv_remove_ptr h hsplit
        (set1 (fun x => (s.dieStatusTable chNo x).nextWay) a (s.dieStatusTable chNo w).nextWay)
        (set1 (fun x => (s.dieStatusTable chNo x).prevWay) b (s.dieStatusTable chNo w).prevWay)
        ?_ ?_ ?_ ?_ ?_ ?_ (fun _ _ => rfl) (fun _ _ => rfl), ?_⟩
      · intro x
        simp only [modDie_at, hnb]
        unfold set1
        by_cases hxb : x = b
        · subst hxb
          simp [hab.symm]
        · by_cases hxa : x = a
          · simp [hxb, hxa, hab]
          · simp [hxb, hxa]
      · intro x
        simp only [modDie_at, hpa]
        unfold set1
        by_cases hxb : x = b
        · subst hxb
          simp [hab.symm]
        · by_cases hxa : x = a
          · simp [hxb, hxa, hab]
          · simp [hxb, hxa]
      · exact hFr2 a hlast
      · exact hBr2 b rfl
      · intro x hx
        refine set1_ne _ _ ?_
        intro hxa
        apply hx
        rw [hxa]; simp
      · intro x hx
        refine set1_ne _ _ ?_
        intro hxb
        apply hx
        rw [hxb]; simp
      · simp only [modDie_at, if_neg hbw, if_neg haw]

theorem mem_setWs_add {ws : WayList → List Nat} {l : WayList} {w : Nat} (l' : WayList) (x : Nat)
    (hx : x ∈ setWs ws l (ws l ++ [w]) l') : x ∈ ws l' ∨ (x = w ∧ l' = l) := by
  by_cases hl : l' = l
  · subst hl
    rw [setWs_eq] at hx
    rcases List.mem_append.1 hx with h1 | h1
    · exact Or.inl h1
    · exact Or.inr ⟨by simpa using h1, rfl⟩
  · rw [setWs_ne _ _ hl] at hx
    exact Or.inl hx

/-- The invariant after the free way `w` joined list `l` at its end, from the pointers of the
new state. -/
theorem WayInv_add_ptr {P : Params} {s s' : FW α} {chNo : Nat} {ws : WayList → List Nat}
    {w : Nat} (h : WayInv P s chNo ws (some w)) (l : WayList) (nxt' prv' : Nat → Nat)
    (hn : ∀ x, (s'.dieStatusTable chNo x).nextWay = nxt' x)
    (hp : ∀ x, (s'.dieStatusTable chNo x).prevWay = prv' x)
    (hFl : Fwd nxt' ((s'.wayPriorityTable chNo).head l) (ws l ++ [w]) 0xf)
    (hBl : Bwd prv' 0xf (ws l ++ [w]) ((s'.wayPriorityTable chNo).tail l))
    (hcn : ∀ x, x ∉ ws l → x ≠ w → nxt' x = (s.dieStatusTable chNo x).nextWay)
    (hcp : ∀ x, x ∉ ws l → x ≠ w → prv' x = (s.dieStatusTable chNo x).prevWay)
    (hhead : ∀ l', l' ≠ l →
      (s'.wayPriorityTable chNo).head l' = (s.wayPriorityTable chNo).head l')
    (htail : ∀ l', l' ≠ l →
      (s'.wayPriorityTable chNo).tail l' = (s.wayPriorityTable chNo).tail l') :
    WayInv P s' chNo (setWs ws l (ws l ++ [w])) none := by
  obtain ⟨hwlt, hwout⟩ := h.out w rfl
  have hother : ∀ l', l' ≠ l → ∀ x, x ∈ ws l' → x ∉ ws l ∧ x ≠ w := by
    intro l' hl' x hx
    refine ⟨fun hx' => hl' (h.disj l' l x hx hx'), ?_⟩
    rintro rfl
    exact hwout l' hx
  have e1 : (fun x => (s'.dieStatusTable chNo x).nextWay) = nxt' := funext hn
  have e2 : (fun x => (s'.dieStatusTable chNo x).prevWay) = prv' := funext hp
  refine ⟨?_, ?_, ?_, ?_, ?_, ?_, ?_⟩
  · intro l'
    rw [e1]
    by_cases hl : l' = l
    · subst hl; rw [setWs_eq]; exact hFl
    · rw [setWs_ne _ _ hl, hhead l' hl]
      exact (Fwd_congr _ nxt' (ws l') _ _
        (fun x hx => hcn x (hother l' hl x hx).1 (hother l' hl x hx).2)).2 (h.fwd l')
  · intro l'
    rw [e2]
    by_cases hl : l' = l
    · subst hl; rw [setWs_eq]; exact hBl
    · rw [setWs_ne _ _ hl, htail l' hl]
      exact (Bwd_congr _ prv' (ws l') _ _
        (fun x hx => hcp x (hother l' hl x hx).1 (hother l' hl x hx).2)).2 (h.bwd l')
  · intro l'
    by_cases hl : l' = l
    · subst hl
      rw [setWs_eq]
      refine List.nodup_append.2 ⟨h.nodup l', List.nodup_singleton w, ?_⟩
      intro x hx hx'
      have : x = w := by simpa using hx'
      rw [this] at hx
      exact hwout l' hx
    · rw [setWs_ne _ _ hl]; exact h.nodup l'
  · intro l1 l2 x h1 h2
    rcases mem_setWs_add l1 x h1 with a1 | ⟨a1, b1⟩
    · rcases mem_setWs_add l2 x h2 with a2 | ⟨a2, b2⟩
      · exact h.disj l1 l2 x a1 a2
      · rw [a2] at a1; exact absurd a1 (hwout l1)
    · rcases mem_setWs_add l2 x h2 with a2 | ⟨a2, b2⟩
      · rw [a1] at a2; exact absurd a2 (hwout l2)
      · rw [b1, b2]
  · intro l' x hx
    rcases mem_setWs_add l' x hx with a1 | ⟨a1, b1⟩
    · exact h.bound l' x a1
    · rw [a1]; exact hwlt
  · intro x hx
    right
    rcases h.cover x hx with h0 | ⟨l', hl'⟩
    · have hxw : w = x := Option.some.inj h0
      refine ⟨l, ?_⟩
      rw [setWs_eq, ← hxw]
      simp
    · refine ⟨l', ?_⟩
      by_cases hl : l' = l
      · subst hl
        rw [setWs_eq]
        exact List.mem_append_left _ hl'
      · rw [setWs_ne _ _ hl]; exact hl'
  · intro x hx
    cases hx

theorem LinkTo_inv {P : Params} {s : FW α} {chNo : Nat} {ws : WayList → List Nat} {w : Nat}
    (hW : P.WAY_NUM ≤ 15) (h : WayInv P s chNo ws (some w)) (l : WayList) :
    WayInv P (LinkTo l s chNo w) chNo (setWs ws l (ws l ++ [w])) none ∧
    ((LinkTo l s chNo w).dieStatusTable chNo w).nextWay = 0xf := by
  obtain ⟨hwlt, hwout⟩ := h.out w rfl
  have hF := h.fwd l
  have hB := h.bwd l
  have hnd := h.nodup l
  have hw16 : w % 16 = w := mod16_of_lt hwlt hW
  obtain ⟨hFs1, hFs2⟩ := Fwd_snoc _ (ws l) w _ _ hF (hwout l) hnd
  have hBs := Bwd_snoc _ (ws l) w _ _ hB (hwout l)
  have htl := Bwd_last _ _ _ _ hB
  rcases List.eq_nil_or_concat (ws l) with hnil | ⟨ws0, t, hcat⟩
  · have htf : (s.wayPriorityTable chNo).tail l = 0xf := by rw [htl, hnil]; rfl
    have hs : LinkTo l s chNo w
        = (((s.modDie chNo w (fun d => { d with prevWay := 0xf })).modDie chNo w
              (fun d => { d with nextWay := 0xf })).modWayPriority chNo
              (fun p => { p with head := setList p.head l w })).modWayPriority chNo
              (fun p => { p with tail := setList p.tail l w }) := by
      unfold LinkTo
      rw [if_neg (by rw [htf]; simp), hw16]
    rw [hs]
    refine ⟨WayInv_add_ptr h l
      (set1 (fun x => (s.dieStatusTable chNo x).nextWay) w 0xf)
      (set1 (fun x => (s.dieStatusTable chNo x).prevWay) w
        ((s.wayPriorityTable chNo).tail l))
      ?_ ?_ ?_ ?_ ?_ ?_ ?_ ?_, ?_⟩
    · intro x
      simp only [modWayPriority_dieStatusTable, modDie_at]
      unfold set1
      by_cases hx : x = w
      · simp [hx]
      · simp [hx]
    · intro x
      simp only [modWayPriority_dieStatusTable, modDie_at, htf]
      unfold set1
      by_cases hx : x = w
      · simp [hx]
      · simp [hx]
    · simp only [modWayPriority_at, modDie_wayPriorityTable, setList_eq]
      exact hFs1 hnil
    · simp only [modWayPriority_at, modDie_wayPriorityTable, setList_eq]
      exact hBs
    · intro x _ hx
      exact set1_ne _ _ hx
    · intro x _ hx
      exact set1_ne _ _ hx
    · intro l' hl'
      simp only [modWayPriority_at, modDie_wayPriorityTable, setList_ne _ _ hl']
    · intro l' hl'
      simp only [modWayPriority_at, modDie_wayPriorityTable, setList_ne _ _ hl']
    · simp only [modWayPriority_dieStatusTable, modDie_at]
      simp
  · rw [List.concat_eq_append] at hcat
    have htmem : t ∈ ws l := by rw [hcat]; simp
    have htlt : t < P.WAY_NUM := h.bound l t htmem
    have htt : (s.wayPriorityTable chNo).tail l = t := by rw [htl, hcat]; simp
    have htw : t ≠ w := by
      rintro rfl
      exact hwout l htmem
    have hlast : (ws l).getLast? = some t := by rw [hcat]; simp
    have hs : LinkTo l s chNo w
        = (((s.modDie chNo w (fun d => { d with prevWay := t })).modDie chNo w
              (fun d => { d with nextWay := 0xf })).modDie chNo t
              (fun d => { d with nextWay := w })).modWayPriority chNo
              (fun p => { p with tail := setList p.tail l w }) := by
      unfold LinkTo
      rw [if_pos (by rw [htt]; omega), hw16]
      simp only [modDie_wayPriorityTable, htt, mod16_of_lt htlt hW]
    rw [hs]
    refine ⟨WayInv_add_ptr h l
      (set1 (set1 (fun x => (s.dieStatusTable chNo x).nextWay) w 0xf) t w)
      (set1 (fun x => (s.dieStatusTable chNo x).prevWay) w
        ((s.wayPriorityTable chNo).tail l))
      ?_ ?_ ?_ ?_ ?_ ?_ ?_ ?_, ?_⟩
    · intro x
      simp only [modWayPriority_dieStatusTable, modDie_at]
      unfold set1
      by_cases hxt : x = t
      · subst hxt
        simp [htw]
      · by_cases hx : x = w
        · simp [hx, hxt, htw, htw.symm]
        · simp [hx, hxt]
    · intro x
      simp only [modWayPriority_dieStatusTable, modDie_at, htt]
      unfold set1
      by_cases hxt : x = t
      · subst hxt
        simp [htw]
      · by_cases hx : x = w
        · simp [hx, hxt, htw, htw.symm]
        · simp [hx, hxt]
    · simp only [modWayPriority_at, modDie_wayPriorityTable]
      exact hFs2 t hlast
    · simp only [modWayPriority_at, modDie_wayPriorityTable, setList_eq]
      exact hBs
    · intro x hxl hx
      have hxt : x ≠ t := by
        rintro rfl
        exact hxl htmem
      rw [set1_ne _ _ hxt, set1_ne _ _ hx]
    · intro x _ hx
      exact set1_ne _ _ hx
    · intro l' hl'
      simp only [modWayPriority_at, modDie_wayPriorityTable]
    · intro l' hl'
      simp only [modWayPriority_at, modDie_wayPriorityTable, setList_ne _ _ hl']
    · simp only [modWayPriority_dieStatusTable, modDie_at]
      simp [htw.symm]

/-! ### Steps that leave the way lists alone -/

theorem SameLinks.linksRefl (s : FW α) : SameLinks s s := rfl

theorem SameLinks.linksTrans {a b c : FW α} (h1 : SameLinks a b) (h2 : SameLinks b c) :
    SameLinks a c := Eq.trans h2 h1

theorem SameLinks.on {s s' : FW α} (h : SameLinks s s') (c : Nat) : SameLinksOn c s s' := by
  unfold SameLinks at h
  unfold SameLinksOn
  rw [h]
  exact ⟨rfl, rfl⟩

theorem SameLinksOn.onRefl (c : Nat) (s : FW α) : SameLinksOn c s s := ⟨rfl, rfl⟩

theorem SameLinksOn.onTrans {k : Nat} {a b c : FW α} (h1 : SameLinksOn k a b)
    (h2 : SameLinksOn k b c) : SameLinksOn k a c :=
  ⟨h2.1.trans h1.1, h2.2.trans h1.2⟩

theorem WayInv_frame {P : Params} {s s' : FW α} {c : Nat} {ws : WayList → List Nat}
    {free : Option Nat} (hs : SameLinksOn c s s') (h : WayInv P s c ws free) :
    WayInv P s' c ws free := by
  obtain ⟨h1, h2⟩ := hs
  have h1' : s'.wayPriorityTable c = s.wayPriorityTable c := h1
  have hpt : ∀ x, ((s'.dieStatusTable c x).prevWay, (s'.dieStatusTable c x).nextWay)
      = ((s.dieStatusTable c x).prevWay, (s.dieStatusTable c x).nextWay) :=
    fun x => congrFun h2 x
  have e1 : (fun x => (s'.dieStatusTable c x).nextWay) = fun x => (s.dieStatusTable c x).nextWay :=
    funext (fun x => congrArg Prod.snd (hpt x))
  have e2 : (fun x => (s'.dieStatusTable c x).prevWay) = fun x => (s.dieStatusTable c x).prevWay :=
    funext (fun x => congrArg Prod.fst (hpt x))
  refine ⟨?_, ?_, h.nodup, h.disj, h.bound, h.cover, h.out⟩
  · intro l; rw [e1, h1']; exact h.fwd l
  · intro l; rw [e2, h1']; exact h.bwd l

@[simp] theorem linkView_mk (a1 : Nat → Nat → Nat → ReqEntry) (a2 : Nat → Nat → RqPointerEntry)
    (a3 : Nat → Nat → Nat → SubReqEntry) (a4 : Nat → Nat → RqPointerEntry)
    (a5 : Nat → Nat → DieStatusEntry) (a6 : Nat → Nat → Nat → Nat) (a7 : Nat → Nat → Int)
    (a8 : Nat → WayPriorityEntry) (a9 : Nat → Nat → TransPageReqEntry)
    (a10 a11 : Nat → TransReqEntry) (a12 a13 : TransRqPointerEntry) (a14 a15 : Nat)
    (a16 : Nat → TransConfig) (a17 : Nat → TransBufEntry) (a18 : Nat × Nat)
    (a19 : Nat → TransEmbedCacheEntry α) (a20 : Nat → α) (a21 a22 : Nat) (a23 : Nat → BufEntry)
    (a24 : Nat → BufLruEntry) (a25 : Nat) (a26 : List Event) (a27 : Bool) :
    linkView (FW.mk a1 a2 a3 a4 a5 a6 a7 a8 a9 a10 a11 a12 a13 a14 a15 a16 a17 a18 a19 a20 a21 a22
      a23 a24 a25 a26 a27) = (a8, fun c w => ((a5 c w).prevWay, (a5 c w).nextWay)) := rfl

@[simp] theorem linkView_fold (s : FW α) :
    (s.wayPriorityTable, fun c w => ((s.dieStatusTable c w).prevWay, (s.dieStatusTable c w).nextWay))
      = linkView s := rfl

@[simp] theorem linkView_emit (s : FW α) (e : Event) : linkView (s.emit e) = linkView s := rfl
@[simp] theorem linkView_tick (s : FW α) : linkView s.tick = linkView s := rfl
@[simp] theorem linkView_modReq (s : FW α) (a b c : Nat) (f : ReqEntry → ReqEntry) :
    linkView (s.modReq a b c f) = linkView s := rfl
@[simp] theorem linkView_modSubReq (s : FW α) (a b c : Nat) (f : SubReqEntry → SubReqEntry) :
    linkView (s.modSubReq a b c f) = linkView s := rfl
@[simp] theorem linkView_modRq (s : FW α) (b c : Nat) (f : RqPointerEntry → RqPointerEntry) :
    linkView (s.modRq b c f) = linkView s := rfl
@[simp] theorem linkView_modSrq (s : FW α) (b c : Nat) (f : RqPointerEntry → RqPointerEntry) :
    linkView (s.modSrq b c f) = linkView s := rfl
@[simp] theorem linkView_modMailbox (s : FW α) (b c : Nat)
    (f : TransPageReqEntry → TransPageReqEntry) :
    linkView (s.modMailbox b c f) = linkView s := rfl
@[simp] theorem linkView_modTransMap (s : FW α) (b : Nat) (f : TransBufEntry → TransBufEntry) :
    linkView (s.modTransMap b f) = linkView s := rfl
@[simp] theorem linkView_modBuf (s : FW α) (b : Nat) (f : BufEntry → BufEntry) :
    linkView (s.modBuf b f) = linkView s := rfl
@[simp] theorem linkView_advanceFront (s : FW α) (b c : Nat) :
    linkView (s.advanceFront b c) = linkView s := rfl
@[simp] theorem linkView_advanceSubFront (P : Params) (s : FW α) (b c : Nat) :
    linkView (s.advanceSubFront P b c) = linkView s := rfl

theorem linkView_modDie (s : FW α) (c w : Nat) (f : DieStatusEntry → DieStatusEntry)
    (hp : ∀ d, (f d).prevWay = d.prevWay) (hn : ∀ d, (f d).nextWay = d.nextWay) :
    linkView (s.modDie c w f) = linkView s := by
  unfold linkView FW.modDie
  simp only [Prod.mk.injEq, true_and]
  funext c' w'
  unfold set2
  split
  · next hc => rw [hc.1, hc.2, hp, hn]
  · rfl

@[simp] theorem linkView_modDie_dieStatus (s : FW α) (c w v : Nat) :
    linkView (s.modDie c w (fun d => { d with dieStatus := v })) = linkView s :=
  linkView_modDie s c w _ (fun _ => rfl) (fun _ => rfl)
@[simp] theorem linkView_modDie_queueSelect (s : FW α) (c w v : Nat) :
    linkView (s.modDie c w (fun d => { d with queueSelect := v })) = linkView s :=
  linkView_modDie s c w _ (fun _ => rfl) (fun _ => rfl)
@[simp] theorem linkView_modDie_reqQueueEmpty (s : FW α) (c w v : Nat) :
    linkView (s.modDie c w (fun d => { d with reqQueueEmpty := v })) = linkView s :=
  linkView_modDie s c w _ (fun _ => rfl) (fun _ => rfl)
@[simp] theorem linkView_modDie_subReqQueueEmpty (s : FW α) (c w v : Nat) :
    linkView (s.modDie c w (fun d => { d with subReqQueueEmpty := v })) = linkView s :=
  linkView_modDie s c w _ (fun _ => rfl) (fun _ => rfl)
@[simp] theorem linkView_setDieStatus (s : FW α) (c w v : Nat) :
    linkView (s.setDieStatus c w v) = linkView s :=
  linkView_modDie s c w _ (fun _ => rfl) (fun _ => rfl)

@[simp] theorem linkView_PopFromReqQueue (env : Env α) (P : Params) (s : FW α) (chNo wayNo : Nat) :
    linkView (PopFromReqQueue env P s chNo wayNo).1 = linkView s := by
  unfold PopFromReqQueue
  simp only []
  split_ifs <;> rfl

@[simp] theorem linkView_PopFromSubReqQueue (P : Params) (s : FW α) (chNo wayNo : Nat) :
    linkView (PopFromSubReqQueue P s chNo wayNo) = linkView s := by
  unfold PopFromSubReqQueue
  simp only []
  split_ifs <;> rfl

@[simp] theorem linkView_translatePage [Add α] (P : Params) (s : FW α) (e : Nat)
    (page : Nat → α) (j : Nat) : linkView (translatePage P s e page j) = linkView s := by
  obtain ⟨c, b, m, h⟩ := translatePage_frame P s e page j
  rw [h]
  rfl

@[simp] theorem linkView_drainMailbox [Add α] (env : Env α) (P : Params) (s : FW α)
    (chNo wayNo : Nat) : linkView (drainMailbox env P s chNo wayNo) = linkView s := by
  unfold drainMailbox
  simp only []
  split_ifs <;> simp

@[simp] theorem linkView_PushToReqQueueNonBlocking (P : Params) (s : FW α)
    (cmd : LowLevelReqInfo) (openSlots : Nat) :
    linkView (PushToReqQueueNonBlocking P s cmd openSlots).1 = linkView s := by
  unfold PushToReqQueueNonBlocking
  simp only []
  split_ifs <;> simp

@[simp] theorem linkView_PushToSubReqQueue (P : Params) (s : FW α)
    (chNo wayNo request rowAddress pageDataBuf spareDataBuf : Nat) :
    linkView (PushToSubReqQueue P s chNo wayNo request rowAddress pageDataBuf spareDataBuf)
      = linkView s := by
  unfold PushToSubReqQueue
  simp

@[simp] theorem linkView_warningBranch (P : Params) (s : FW α) (chNo wayNo : Nat) :
    linkView (warningBranch P s chNo wayNo) = linkView s := by
  unfold warningBranch
  simp

@[simp] theorem linkView_primaryExeCase [Add α] (env : Env α) (P : Params) (label : Nat)
    (s : FW α) (chNo wayNo reqStatus : Nat) :
    linkView (primaryExeCase env P label s chNo wayNo reqStatus) = linkView s := by
  unfold primaryExeCase
  simp only []
  split_ifs <;> simp

@[simp] theorem linkView_subExeCase (env : Env α) (P : Params) (label : Nat)
    (s : FW α) (chNo wayNo reqStatus : Nat) :
    linkView (subExeCase env P label s chNo wayNo reqStatus) = linkView s := by
  unfold subExeCase
  simp only []
  split_ifs <;> simp

@[simp] theorem linkView_idleCase [Add α] (env : Env α) (P : Params)
    (s : FW α) (chNo wayNo : Nat) :
    linkView (idleCase env P s chNo wayNo) = linkView s := by
  unfold idleCase
  simp only []
  split_ifs <;> simp

@[simp] theorem linkView_trReexeCase (env : Env α) (P : Params)
    (s : FW α) (chNo wayNo reqStatus : Nat) :
    linkView (trReexeCase env P s chNo wayNo reqStatus) = linkView s := by
  unfold trReexeCase
  simp only []
  split_ifs <;> simp

@[simp] theorem linkView_subTrReexeCase (env : Env α) (P : Params)
    (s : FW α) (chNo wayNo reqStatus : Nat) :
    linkView (subTrReexeCase env P s chNo wayNo reqStatus) = linkView s := by
  unfold subTrReexeCase
  simp only []
  split_ifs <;> simp

@[simp] theorem linkView_ExeLowLevelReqPerDie [Add α] (env : Env α) (P : Params)
    (s : FW α) (chNo wayNo reqStatus : Nat) :
    linkView (ExeLowLevelReqPerDie env P s chNo wayNo reqStatus) = linkView s := by
  rcases ExeLowLevelReqPerDie_cases env P s chNo wayNo reqStatus with
    h | h | h | h | h | h | h | h | h | h | h | h <;> rw [h.2] <;> simp

@[simp] theorem linkView_CheckReqStatusAsync (env : Env α) (P : Params) (s : FW α)
    (chNo wayNo : Nat) : linkView (CheckReqStatusAsync env P s chNo wayNo).1 = linkView s := by
  unfold CheckReqStatusAsync
  simp only []
  split_ifs <;> simp

@[simp] theorem linkView_CheckSubReqStatusAsync (env : Env α) (P : Params) (s : FW α)
    (chNo wayNo : Nat) : linkView (CheckSubReqStatusAsync env P s chNo wayNo).1 = linkView s := by
  unfold CheckSubReqStatusAsync
  simp only []
  split_ifs <;> simp

@[simp] theorem linkView_checkStatus (env : Env α) (P : Params) (s : FW α)
    (chNo wayNo : Nat) : linkView (checkStatus env P s chNo wayNo).1 = linkView s := by
  unfold checkStatus
  split_ifs <;> simp

@[simp] theorem linkView_CheckDMA (env : Env α) (s : FW α) (chNo wayNo : Nat) :
    linkView (CheckDMA env s chNo wayNo).1 = linkView s := by
  unfold CheckDMA
  simp only []
  split_ifs <;> simp

@[simp] theorem linkView_DeallocateTransBufEntry (s : FW α) (entryIdx : Nat) :
    linkView (DeallocateTransBufEntry s entryIdx) = linkView s := by
  unfold DeallocateTransBufEntry
  simp only []
  split_ifs <;> simp

theorem linkView_readTranslatedSector (P : Params) (entryIdx firstSector nextSector cmdSlotTag : Nat)
    (sectorNum : Nat) (st : FW α × Nat × Bool) :
    linkView (readTranslatedSector P entryIdx firstSector nextSector cmdSlotTag sectorNum st).1
      = linkView st.1 := by
  unfold readTranslatedSector
  simp only []
  split_ifs <;> simp

@[simp] theorem linkView_readTranslatedPagesNonBlocking (P : Params) (s : FW α)
    (entryIdx firstSector nextSector requestedSectors cmdSlotTag : Nat) :
    linkView (readTranslatedPagesNonBlocking P s entryIdx firstSector nextSector requestedSectors
      cmdSlotTag).1 = linkView s := by
  unfold readTranslatedPagesNonBlocking
  split_ifs
  · rfl
  · simp only []
    refine forRange_induction (fun st : FW α × Nat × Bool => linkView st.1 = linkView s) _ _ _
      rfl ?_
    intro i st hi h
    rw [linkView_readTranslatedSector]
    exact h

@[simp] theorem linkView_PopFromTransReadReqQueue (P : Params) (s : FW α) :
    linkView (PopFromTransReadReqQueue P s).1 = linkView s := by
  unfold PopFromTransReadReqQueue
  simp only []
  split_ifs <;> simp

@[simp] theorem linkView_ConfigureTransBufEntry [Add α] [Zero α] (P : Params) (s : FW α)
    (e : Nat) : linkView (ConfigureTransBufEntry P s e) = linkView s := by
  unfold ConfigureTransBufEntry
  simp only [linkView_modTransMap, linkView_mk, linkView_fold]
  have h1 : ∀ n (t : FW α), linkView (forRange n (fun i (st : FW α) => st.modTransMap e (fun x =>
      { x with
        perResultSectorCompletedEmbeddings := set1 x.perResultSectorCompletedEmbeddings i 0
        perResultSectorInputEmbeddings := set1 x.perResultSectorInputEmbeddings i 0 })) t)
      = linkView t := by
    intro n t
    refine forRange_induction (fun st : FW α => linkView st = linkView t) _ _ _ rfl ?_
    intro i st hi h
    rw [linkView_modTransMap]
    exact h
  have h2 : ∀ n (t : FW α × ConfigLocals),
      linkView (forRange n (configurePair P e) t).1 = linkView t.1 := by
    intro n t
    refine forRange_induction (fun st : FW α × ConfigLocals => linkView st.1 = linkView t.1)
      _ _ _ rfl ?_
    intro i st hi h
    rw [← h]
    unfold configurePair
    simp only []
    split_ifs <;> simp
  rw [h2]
  simp only [linkView_modTransMap]
  rw [h1]
  simp

@[simp] theorem linkView_CheckTransConfigDMA [Add α] [Zero α] (env : Env α) (P : Params)
    (s : FW α) (bufferEntry : Nat) :
    linkView (CheckTransConfigDMA env P s bufferEntry).1 = linkView s := by
  unfold CheckTransConfigDMA
  split_ifs <;> simp

@[simp] theorem linkView_readPageToTranslateNonBlocking [Add α] (env : Env α) (P : Params)
    (s : FW α) (entryIdx lpa page_idx : Nat) :
    linkView (readPageToTranslateNonBlocking env P s entryIdx lpa page_idx).1 = linkView s := by
  unfold readPageToTranslateNonBlocking
  simp only []
  split_ifs <;> simp

theorem linkView_translatePagesFrom [Add α] (env : Env α) (P : Params) (entryIdx : Nat)
    (fuel : Nat) (s : FW α) (page : Nat) :
    linkView (translatePagesFrom env P entryIdx fuel s page).1 = linkView s := by
  induction fuel generalizing s page with
  | zero => rfl
  | succ n ih =>
    unfold translatePagesFrom
    simp only []
    split_ifs
    · simp
    · rw [ih]; simp
    · rfl

@[simp] theorem linkView_translatePagesNonBlocking [Add α] (env : Env α) (P : Params)
    (s : FW α) (entryIdx nextPageIdx : Nat) :
    linkView (translatePagesNonBlocking env P s entryIdx nextPageIdx).1 = linkView s := by
  unfold translatePagesNonBlocking
  exact linkView_translatePagesFrom env P entryIdx _ s nextPageIdx

@[simp] theorem linkView_PopFromTransReqQueue [Add α] [Zero α] (env : Env α) (P : Params)
    (s : FW α) : linkView (PopFromTransReqQueue env P s).1 = linkView s := by
  unfold PopFromTransReqQueue
  simp only []
  split_ifs <;> simp

@[simp] theorem linkView_drainAll [Add α] (env : Env α) (P : Params) (s : FW α) (chNo : Nat) :
    linkView (drainAll env P s chNo) = linkView s := by
  unfold drainAll
  refine forRange_induction (fun st : FW α => linkView st = linkView s) _ _ _ rfl ?_
  intro i st hi h
  rw [linkView_drainMailbox]
  exact h

@[simp] theorem linkView_drainFirst [Add α] (env : Env α) (P : Params) (s : FW α) (chNo : Nat) :
    linkView (drainFirst env P s chNo) = linkView s := by
  unfold drainFirst
  split <;> simp

/-! ### Steps on one channel leave the lists of the other channels alone -/

theorem SameLinksOn_modDie (s : FW α) {c chNo : Nat} (hc : c ≠ chNo) (x : Nat)
    (f : DieStatusEntry → DieStatusEntry) : SameLinksOn c s (s.modDie chNo x f) := by
  refine ⟨rfl, ?_⟩
  funext w
  simp only [linkView, FW.modDie, set2]
  rw [if_neg (fun h => hc h.1)]

theorem SameLinksOn_modWayPriority (s : FW α) {c chNo : Nat} (hc : c ≠ chNo)
    (f : WayPriorityEntry → WayPriorityEntry) : SameLinksOn c s (s.modWayPriority chNo f) := by
  refine ⟨?_, rfl⟩
  simp only [linkView, FW.modWayPriority, set1]
  rw [if_neg hc]

theorem SameLinksOn_unlinkWay (l : WayList) (slip : Bool) (s : FW α) {c chNo : Nat}
    (hc : c ≠ chNo) (w : Nat) : SameLinksOn c s (unlinkWay l slip s chNo w) := by
  unfold unlinkWay
  simp only []
  split_ifs
  · exact (SameLinksOn_modDie s hc _ _).onTrans (SameLinksOn_modDie _ hc _ _)
  · exact (SameLinksOn_modDie s hc _ _).onTrans (SameLinksOn_modWayPriority _ hc _)
  · exact (SameLinksOn_modDie s hc _ _).onTrans (SameLinksOn_modWayPriority _ hc _)
  · exact (SameLinksOn_modDie s hc _ _).onTrans (SameLinksOn_modWayPriority _ hc _)
  · exact (SameLinksOn_modWayPriority s hc _).onTrans (SameLinksOn_modWayPriority _ hc _)

theorem SameLinksOn_LinkTo (l : WayList) (s : FW α) {c chNo : Nat} (hc : c ≠ chNo) (w : Nat) :
    SameLinksOn c s (LinkTo l s chNo w) := by
  unfold LinkTo
  simp only []
  split_ifs
  · exact (((SameLinksOn_modDie s hc _ _).onTrans (SameLinksOn_modDie _ hc _ _)).onTrans
      (SameLinksOn_modDie _ hc _ _)).onTrans (SameLinksOn_modWayPriority _ hc _)
  · exact (((SameLinksOn_modDie s hc _ _).onTrans (SameLinksOn_modDie _ hc _ _)).onTrans
      (SameLinksOn_modWayPriority _ hc _)).onTrans (SameLinksOn_modWayPriority _ hc _)

/-- `FindPriorityTable` sets flags of the die and then links it to one of the lists. -/
theorem FindPriorityTable_eq (P : Params) (s : FW α) (chNo wayNo firstQueue : Nat) :
    ∃ s1 l, SameLinks s s1 ∧ FindPriorityTable P s chNo wayNo firstQueue = LinkTo l s1 chNo wayNo := by
  unfold FindPriorityTable
  simp only []
  split_ifs
  · exact ⟨_, .idle, by unfold SameLinks; simp, rfl⟩
  · exact ⟨_, _, by unfold SameLinks; simp, rfl⟩
  · exact ⟨_, _, by unfold SameLinks; simp, rfl⟩
  · exact ⟨_, .idle, by unfold SameLinks; simp, rfl⟩
  · exact ⟨_, _, by unfold SameLinks; simp, rfl⟩
  · exact ⟨_, _, by unfold SameLinks; simp, rfl⟩

theorem SameLinksOn_FindPriorityTable (P : Params) (s : FW α) {c chNo : Nat} (hc : c ≠ chNo)
    (wayNo firstQueue : Nat) : SameLinksOn c s (FindPriorityTable P s chNo wayNo firstQueue) := by
  obtain ⟨s1, l, h1, h2⟩ := FindPriorityTable_eq P s chNo wayNo firstQueue
  rw [h2]
  exact (h1.on c).onTrans (SameLinksOn_LinkTo l s1 hc wayNo)

theorem FindPriorityTable_inv {P : Params} {s : FW α} {chNo : Nat} {ws : WayList → List Nat}
    {w : Nat} (hW : P.WAY_NUM ≤ 15) (h : WayInv P s chNo ws (some w)) (firstQueue : Nat) :
    ∃ l, WayInv P (FindPriorityTable P s chNo w firstQueue) chNo (setWs ws l (ws l ++ [w])) none := by
  obtain ⟨s1, l, h1, h2⟩ := FindPriorityTable_eq P s chNo w firstQueue
  rw [h2]
  exact ⟨l, (LinkTo_inv hW (WayInv_frame (h1.on chNo) h) l).1⟩

/-! ### The sweeps of `ExeLowLevelReqPerCh` -/

theorem whileWay_state {σ : Type} (I : σ → Nat → Prop) (Q : σ → Prop) (body : σ → Nat → Flow σ)
    (hIQ : ∀ st w, I st w → Q st)
    (hnext : ∀ st w st' w', I st w → w ≠ 0xf → body st w = .next st' w' → I st' w')
    (hleave : ∀ st w st' e, I st w → w ≠ 0xf → body st w = .leave st' e → Q st') :
    ∀ fuel st w, I st w → Q (whileWay body fuel st w).state := by
  intro fuel
  induction fuel with
  | zero => intro st w h; exact hIQ st w h
  | succ n ih =>
    intro st w h
    unfold whileWay
    by_cases hw : w = 0xf
    · rw [if_pos hw]; exact hIQ st w h
    · rw [if_neg hw]
      cases hb : body st w with
      | next st' w' => exact ih st' w' (hnext st w st' w' h hw hb)
      | leave st' e => exact hleave st w st' e h hw hb

theorem Flow.exit_fst {σ : Type} (proj : σ → FW α) (r : Flow σ) :
    (r.exit proj).1 = proj r.state := by
  cases r <;> rfl

theorem andThen_state (Q : FW α → Prop) (r : FW α × Exit) (f : FW α → FW α × Exit)
    (hr : Q r.1) (hf : ∀ s, Q s → Q (f s).1) : Q (andThen r f).1 := by
  unfold andThen
  split
  · exact hf _ hr
  · exact hr

theorem SameLinks.nextWay {s s' : FW α} (h : SameLinks s s') (c w : Nat) :
    (s'.dieStatusTable c w).nextWay = (s.dieStatusTable c w).nextWay :=
  congrArg Prod.snd (congrFun (congrFun (congrArg Prod.snd h) c) w)

theorem SweepInv.chanOK {P : Params} {s0 s : FW α} {chNo : Nat} {l : WayList} {atHead : Bool}
    {w : Nat} (h : SweepInv P s0 chNo l atHead s w) : ChanOK P s0 chNo s := by
  obtain ⟨⟨ws, hws, _⟩, ho⟩ := h
  exact ⟨⟨ws, hws⟩, ho⟩

theorem ChanOK.okFrame {P : Params} {s0 s s' : FW α} {chNo : Nat} (h : ChanOK P s0 chNo s)
    (hs : SameLinks s s') : ChanOK P s0 chNo s' := by
  obtain ⟨⟨ws, hws⟩, ho⟩ := h
  exact ⟨⟨ws, WayInv_frame (hs.on chNo) hws⟩, fun c hc => (ho c hc).onTrans (hs.on c)⟩

/-- The loop invariant at the start of a sweep. -/
theorem SweepInv.start {P : Params} {s0 s : FW α} {chNo : Nat} (hW : P.WAY_NUM ≤ 15)
    (h : ChanOK P s0 chNo s) (l : WayList) (atHead : Bool) :
    SweepInv P s0 chNo l atHead s ((s.wayPriorityTable chNo).head l) := by
  obtain ⟨⟨ws, hws⟩, ho⟩ := h
  refine ⟨⟨ws, hws, ?_⟩, ho⟩
  have hh := Fwd_head _ _ _ _ (hws.fwd l)
  cases hl : ws l with
  | nil => left; rw [hh, hl]; rfl
  | cons a rest =>
    right
    refine ⟨[], rest, ?_, fun _ => rfl⟩
    rw [hh, hl]
    rfl

/-- The cursor moves on without a change of the lists. -/
theorem SweepInv.skip {P : Params} {s0 s s' : FW α} {chNo : Nat} {l : WayList} {w : Nat}
    (h : SweepInv P s0 chNo l false s w) (hw : w ≠ 0xf) (hs : SameLinks s s') :
    SweepInv P s0 chNo l false s' (s'.dieStatusTable chNo w).nextWay := by
  obtain ⟨⟨ws, hws, hcur⟩, ho⟩ := h
  rcases hcur with h0 | ⟨pre, post, hsplit, _⟩
  · exact absurd h0 hw
  · refine ⟨⟨ws, WayInv_frame (hs.on chNo) hws, ?_⟩, fun c hc => (ho c hc).onTrans (hs.on c)⟩
    rw [hs.nextWay, (WayInv_pointers hws hsplit).1]
    cases post with
    | nil => left; rfl
    | cons b post' =>
      right
      refine ⟨pre ++ [w], post', ?_, fun h' => by cases h'⟩
      rw [hsplit]
      simp

/-- The way under the cursor leaves its list. -/
theorem SweepInv.unlink {P : Params} {s0 s : FW α} {chNo : Nat} {l : WayList} {atHead : Bool}
    {w : Nat} (hW : P.WAY_NUM ≤ 15) (h : SweepInv P s0 chNo l atHead s w) (hw : w ≠ 0xf)
    (slip : Bool) (hslip : slip = true → atHead = true) :
    ∃ ws pre post, ws l = pre ++ w :: post ∧
      WayInv P (unlinkWay l slip s chNo w) chNo (setWs ws l (pre ++ post)) (some w) ∧
      ((unlinkWay l slip s chNo w).dieStatusTable chNo w).nextWay = post.headD 0xf ∧
      ∀ c, c ≠ chNo → SameLinksOn c s0 (unlinkWay l slip s chNo w) := by
  obtain ⟨⟨ws, hws, hcur⟩, ho⟩ := h
  rcases hcur with h0 | ⟨pre, post, hsplit, hpre⟩
  · exact absurd h0 hw
  · obtain ⟨h1, h2⟩ := unlinkWay_inv hW hws hsplit slip (fun hs => hpre (hslip hs))
    refine ⟨ws, pre, post, hsplit, h1, ?_, fun c hc =>
      (ho c hc).onTrans (SameLinksOn_unlinkWay l slip s hc w)⟩
    rw [h2, (WayInv_pointers hws hsplit).1]

/-- After the free way was linked to the end of some list, a cursor that was saved while the
way was out, or read afterwards, satisfies the loop invariant. -/
theorem SweepInv.relink {P : Params} {s0 s1 s3 : FW α} {chNo : Nat} {l : WayList}
    {ws : WayList → List Nat} {pre post : List Nat} {w : Nat}
    (h1 : WayInv P s1 chNo (setWs ws l (pre ++ post)) (some w))
    (ho : ∀ c, c ≠ chNo → SameLinksOn c s0 s1) (l' : WayList)
    (h3 : WayInv P s3 chNo
      (setWs (setWs ws l (pre ++ post)) l' (setWs ws l (pre ++ post) l' ++ [w])) none)
    (ho3 : ∀ c, c ≠ chNo → SameLinksOn c s1 s3) (atHead : Bool) :
    SweepInv P s0 chNo l false s3 (post.headD 0xf) ∧ SweepInv P s0 chNo l atHead s3 0xf := by
  have hoth : ∀ c, c ≠ chNo → SameLinksOn c s0 s3 := fun c hc => (ho c hc).onTrans (ho3 c hc)
  refine ⟨⟨⟨_, h3, ?_⟩, hoth⟩, ⟨⟨_, h3, Or.inl rfl⟩, hoth⟩⟩
  cases post with
  | nil => left; rfl
  | cons b post' =>
    right
    by_cases hl : l = l'
    · subst hl
      refine ⟨pre, post' ++ [w], ?_, fun h' => by cases h'⟩
      rw [setWs_eq, setWs_eq]
      simp
    · refine ⟨pre, post', ?_, fun h' => by cases h'⟩
      rw [setWs_ne _ _ hl, setWs_eq]
      rfl

theorem whileWay_ok {σ : Type} (I : σ → Nat → Prop) (Q : σ → Prop) (body : σ → Nat → Flow σ)
    (hIQ : ∀ st w, I st w → Q st)
    (hbody : ∀ st w, I st w → w ≠ 0xf → FlowOK I Q (body st w)) :
    ∀ fuel st w, I st w → Q (whileWay body fuel st w).state := by
  refine whileWay_state I Q body hIQ ?_ ?_
  · intro st w st' w' h hw hb
    have := hbody st w h hw
    rw [hb] at this
    exact this
  · intro st w st' e h hw hb
    have := hbody st w h hw
    rw [hb] at this
    exact this

theorem SweepInv.invFrame {P : Params} {s0 s s' : FW α} {chNo : Nat} {l : WayList} {atHead : Bool}
    {w : Nat} (h : SweepInv P s0 chNo l atHead s w) (hs : SameLinks s s') :
    SweepInv P s0 chNo l atHead s' w := by
  obtain ⟨⟨ws, hws, hcur⟩, ho⟩ := h
  exact ⟨⟨ws, WayInv_frame (hs.on chNo) hws, hcur⟩, fun c hc => (ho c hc).onTrans (hs.on c)⟩

/-- The way under the cursor leaves its list, the die is served, and the way joins a list
again. -/
theorem SweepInv.process {P : Params} {s0 s s2 : FW α} {chNo : Nat} {l : WayList}
    {atHead : Bool} {w : Nat} (hW : P.WAY_NUM ≤ 15) (h : SweepInv P s0 chNo l atHead s w)
    (hw : w ≠ 0xf) (slip : Bool) (hslip : slip = true → atHead = true)
    (hs2 : SameLinks (unlinkWay l slip s chNo w) s2) :
    (∀ fq, SweepInv P s0 chNo l false (FindPriorityTable P s2 chNo w fq)
      (s2.dieStatusTable chNo w).nextWay) ∧
    (∀ l', SweepInv P s0 chNo l false (LinkTo l' s2 chNo w) (s2.dieStatusTable chNo w).nextWay ∧
      SweepInv P s0 chNo l atHead (LinkTo l' s2 chNo w) 0xf ∧
      ((LinkTo l' s2 chNo w).dieStatusTable chNo w).nextWay = 0xf) := by
  obtain ⟨ws, pre, post, hsplit, h1, hn, ho⟩ := SweepInv.unlink hW h hw slip hslip
  have h2 : WayInv P s2 chNo (setWs ws l (pre ++ post)) (some w) := WayInv_frame (hs2.on chNo) h1
  have ho2 : ∀ c, c ≠ chNo → SameLinksOn c s0 s2 := fun c hc => (ho c hc).onTrans (hs2.on c)
  have hn2 : (s2.dieStatusTable chNo w).nextWay = post.headD 0xf := by
    rw [hs2.nextWay, hn]
  rw [hn2]
  constructor
  · intro fq
    obtain ⟨l', h3⟩ := FindPriorityTable_inv hW h2 fq
    exact (SweepInv.relink h2 ho2 l' h3
      (fun c hc => SameLinksOn_FindPriorityTable P s2 hc w fq) false).1
  · intro l'
    obtain ⟨h3, h4⟩ := LinkTo_inv hW h2 l'
    have := SweepInv.relink h2 ho2 l' h3 (fun c hc => SameLinksOn_LinkTo l' s2 hc w) atHead
    exact ⟨this.1, this.2, h4⟩

theorem SameLinks.of_view {s s' : FW α} (h : linkView s' = linkView s) : SameLinks s s' := h

theorem idleBody_ok {P : Params} (hW : P.WAY_NUM ≤ 15) (s0 : FW α) (chNo firstQueue : Nat)
    (st : FW α × Nat) (w : Nat) (h : SweepInv P s0 chNo .idle false st.1 w) (hw : w ≠ 0xf) :
    FlowOK (fun (t : FW α × Nat) w' => SweepInv P s0 chNo .idle false t.1 w')
      (fun t => ChanOK P s0 chNo t.1) (idleBody P chNo firstQueue st w) := by
  unfold idleBody
  simp only []
  split_ifs
  · exact (SweepInv.process hW h hw false (fun h' => by cases h') (SameLinks.linksRefl _)).1 firstQueue
  · exact SweepInv.skip h hw (SameLinks.linksRefl _)

theorem statusReportBody_ok [Add α] {P : Params} (hW : P.WAY_NUM ≤ 15) (env : Env α)
    (s0 : FW α) (chNo firstQueue readyBusy : Nat) (s : FW α) (w : Nat)
    (h : SweepInv P s0 chNo .statusReport false s w) (hw : w ≠ 0xf) :
    FlowOK (SweepInv P s0 chNo .statusReport false) (ChanOK P s0 chNo)
      (statusReportBody env P chNo firstQueue readyBusy s w) := by
  have hc : SameLinks s (checkStatus env P s chNo w).1 := SameLinks.of_view (by simp)
  have h' := h.invFrame hc
  unfold statusReportBody
  simp only []
  split_ifs
  all_goals first
    | exact (SweepInv.process hW h' hw false (fun h' => by cases h')
        (SameLinks.of_view (by simp))).1 firstQueue
    | exact ((SweepInv.process hW h' hw false (fun h' => by cases h') (SameLinks.linksRefl _)).2
        .nandStatus).1
    | exact SweepInv.skip h' hw (SameLinks.linksRefl _)
    | exact SweepInv.skip h hw (SameLinks.linksRefl _)

theorem nvmeDmaBody_ok [Add α] {P : Params} (hW : P.WAY_NUM ≤ 15) (env : Env α)
    (s0 : FW α) (chNo firstQueue : Nat) (s : FW α) (w : Nat)
    (h : SweepInv P s0 chNo .nvmeDma false s w) (hw : w ≠ 0xf) :
    FlowOK (SweepInv P s0 chNo .nvmeDma false) (ChanOK P s0 chNo)
      (nvmeDmaBody env P chNo firstQueue s w) := by
  have hc : SameLinks s (CheckDMA env s chNo w).1 := SameLinks.of_view (by simp)
  have h' := h.invFrame hc
  unfold nvmeDmaBody
  simp only []
  split_ifs
  · exact (SweepInv.process hW h' hw false (fun h' => by cases h')
      (SameLinks.of_view (by simp))).1 firstQueue
  · exact SweepInv.skip h' hw (SameLinks.linksRefl _)
  · exact (h.chanOK).okFrame (SameLinks.of_view rfl)

theorem afterIssue_ok [Add α] {P : Params} (env : Env α) (s0 : FW α) (chNo : Nat) (l : WayList)
    (atHead : Bool) (s : FW α) (w : Nat) (h : SweepInv P s0 chNo l atHead s 0xf)
    (hn : (s.dieStatusTable chNo w).nextWay = 0xf) :
    FlowOK (SweepInv P s0 chNo l atHead) (ChanOK P s0 chNo) (afterIssue env P s chNo w) := by
  unfold afterIssue
  split_ifs
  · exact (h.chanOK).okFrame (SameLinks.of_view (by simp))
  · show SweepInv P s0 chNo l atHead s.tick (s.tick.dieStatusTable chNo w).nextWay
    have : (s.tick.dieStatusTable chNo w).nextWay = 0xf := hn
    rw [this]
    exact h.invFrame (SameLinks.of_view rfl)

theorem nandStatusBody_ok [Add α] {P : Params} (hW : P.WAY_NUM ≤ 15) (env : Env α)
    (s0 : FW α) (chNo readyBusy : Nat) (s : FW α) (w : Nat)
    (h : SweepInv P s0 chNo .nandStatus false s w) (hw : w ≠ 0xf) :
    FlowOK (SweepInv P s0 chNo .nandStatus false) (ChanOK P s0 chNo)
      (nandStatusBody env P chNo readyBusy s w) := by
  unfold nandStatusBody
  simp only []
  split_ifs
  · obtain ⟨_, h2, h3⟩ := (SweepInv.process hW h hw false (fun h' => by cases h')
      (SameLinks.of_view (by simp) :
        SameLinks (unlinkWay .nandStatus false s chNo w)
          (checkStatus env P (unlinkWay .nandStatus false s chNo w) chNo w).1)).2 .statusReport
    exact afterIssue_ok env s0 chNo _ _ _ w h2 h3
  · exact SweepInv.skip h hw (SameLinks.linksRefl _)

theorem nandIssueBody_ok [Add α] {P : Params} (hW : P.WAY_NUM ≤ 15) (env : Env α)
    (s0 : FW α) (l : WayList) (slip : Bool) (chNo : Nat) (s : FW α) (w : Nat)
    (h : SweepInv P s0 chNo l true s w) (hw : w ≠ 0xf) :
    FlowOK (SweepInv P s0 chNo l true) (ChanOK P s0 chNo)
      (nandIssueBody env P l slip chNo s w) := by
  unfold nandIssueBody
  simp only []
  obtain ⟨_, h2, h3⟩ := (SweepInv.process hW h hw slip (fun _ => rfl)
    (SameLinks.of_view (by simp) :
      SameLinks (unlinkWay l slip s chNo w)
        (ExeLowLevelReqPerDie env P (unlinkWay l slip s chNo w) chNo w NONE))).2 .nandStatus
  exact afterIssue_ok env s0 chNo _ _ _ w h2 h3

theorem nandDmaBody_ok [Add α] {P : Params} (hW : P.WAY_NUM ≤ 15) (env : Env α)
    (s0 : FW α) (l target : WayList) (chNo : Nat) (s : FW α) (w : Nat)
    (h : SweepInv P s0 chNo l false s w) (hw : w ≠ 0xf) :
    FlowOK (SweepInv P s0 chNo l false) (ChanOK P s0 chNo)
      (nandDmaBody env P l target chNo s w) := by
  unfold nandDmaBody
  simp only []
  by_cases hq : (s.dieStatusTable chNo w).queueSelect = REQ_QUEUE
  · simp only [if_pos hq]
    have hc : SameLinks s (CheckDMA env s chNo w).1 := SameLinks.of_view (by simp)
    have h' := h.invFrame hc
    split_ifs
    · obtain ⟨_, h2, h3⟩ := (SweepInv.process hW h' hw false (fun h' => by cases h')
        (SameLinks.of_view (by simp) :
          SameLinks (unlinkWay l false (CheckDMA env s chNo w).1 chNo w)
            (ExeLowLevelReqPerDie env P (unlinkWay l false (CheckDMA env s chNo w).1 chNo w)
              chNo w NONE))).2 target
      exact afterIssue_ok env s0 chNo _ _ _ w h2 h3
    · exact SweepInv.skip h' hw (SameLinks.linksRefl _)
  · simp only [if_neg hq]
    split_ifs
    · obtain ⟨_, h2, h3⟩ := (SweepInv.process hW h hw false (fun h' => by cases h')
        (SameLinks.of_view (by simp) :
          SameLinks (unlinkWay l false s chNo w)
            (ExeLowLevelReqPerDie env P (unlinkWay l false s chNo w) chNo w NONE))).2 target
      exact afterIssue_ok env s0 chNo _ _ _ w h2 h3
    · exact SweepInv.skip h hw (SameLinks.linksRefl _)

theorem sweep_ok {P : Params} (hW : P.WAY_NUM ≤ 15) (s0 : FW α) (chNo : Nat) (l : WayList)
    (atHead : Bool) (body : FW α → Nat → Flow (FW α))
    (hbody : ∀ s w, SweepInv P s0 chNo l atHead s w → w ≠ 0xf →
      FlowOK (SweepInv P s0 chNo l atHead) (ChanOK P s0 chNo) (body s w))
    (fuel : Nat) (s : FW α) (h : ChanOK P s0 chNo s) :
    ChanOK P s0 chNo (sweep l body fuel chNo s).1 := by
  unfold sweep
  split_ifs
  · rw [Flow.exit_fst]
    exact whileWay_ok _ _ body (fun st w hI => hI.chanOK) hbody fuel s _
      (SweepInv.start hW h l atHead)
  · exact h

theorem idleStage_ok [Add α] [Zero α] {P : Params} (hW : P.WAY_NUM ≤ 15) (env : Env α)
    (s0 : FW α) (fuel chNo firstQueue transWaiting : Nat) (s : FW α) (h : ChanOK P s0 chNo s) :
    ChanOK P s0 chNo (idleStage env P fuel chNo firstQueue transWaiting s).1 := by
  unfold idleStage
  split_ifs
  · have key := whileWay_ok
      (fun (t : FW α × Nat) w' => SweepInv P s0 chNo .idle false t.1 w')
      (fun t => ChanOK P s0 chNo t.1) (idleBody P chNo firstQueue)
      (fun st w hI => hI.chanOK)
      (fun st w hI hw => idleBody_ok hW s0 chNo firstQueue st w hI hw) fuel (s, 0)
      ((s.wayPriorityTable chNo).head .idle) (SweepInv.start hW h .idle false)
    cases hr : whileWay (idleBody P chNo firstQueue) fuel (s, 0)
        ((s.wayPriorityTable chNo).head .idle) with
    | next st wayNo =>
      rw [hr] at key
      have key' : ChanOK P s0 chNo st.1 := key
      simp only []
      split_ifs
      · exact key'
      · exact key'.okFrame (SameLinks.of_view (by simp))
      · exact key'.okFrame (SameLinks.of_view (by simp))
      · exact key'
    | leave st e =>
      rw [hr] at key
      exact key
  · exact h

theorem statusReportStage_ok [Add α] {P : Params} (hW : P.WAY_NUM ≤ 15) (env : Env α)
    (s0 : FW α) (fuel chNo firstQueue : Nat) (s : FW α) (h : ChanOK P s0 chNo s) :
    ChanOK P s0 chNo (statusReportStage env P fuel chNo firstQueue s).1 := by
  unfold statusReportStage
  split_ifs
  · rw [Flow.exit_fst]
    have ht : ChanOK P s0 chNo s.tick := h.okFrame (SameLinks.of_view rfl)
    exact whileWay_ok _ _ _ (fun st w hI => hI.chanOK)
      (fun st w hI hw => statusReportBody_ok hW env s0 chNo firstQueue _ st w hI hw) fuel s.tick _
      (SweepInv.start hW ht .statusReport false)
  · exact h

theorem nandStatusStage_ok [Add α] {P : Params} (hW : P.WAY_NUM ≤ 15) (env : Env α)
    (s0 : FW α) (fuel chNo : Nat) (s : FW α) (h : ChanOK P s0 chNo s) :
    ChanOK P s0 chNo (nandStatusStage env P fuel chNo s).1 := by
  unfold nandStatusStage
  by_cases hh : (s.wayPriorityTable chNo).head .nandStatus ≠ 0xf
  · rw [if_pos hh]
    simp only []
    rw [Flow.exit_fst]
    have ht : ChanOK P s0 chNo s.tick := h.okFrame (SameLinks.of_view rfl)
    exact whileWay_ok _ _ _ (fun st w hI => hI.chanOK)
      (fun st w hI hw => nandStatusBody_ok hW env s0 chNo _ st w hI hw) fuel s.tick _
      (SweepInv.start hW ht .nandStatus false)
  · rw [if_neg hh]
    exact h

theorem nandStages_ok [Add α] {P : Params} (hW : P.WAY_NUM ≤ 15) (env : Env α)
    (s0 : FW α) (fuel chNo : Nat) (s : FW α) (h : ChanOK P s0 chNo s) :
    ChanOK P s0 chNo (nandStages env P fuel chNo s).1 := by
  unfold nandStages
  split_ifs
  · exact h.okFrame (SameLinks.of_view rfl)
  · refine andThen_state _ _ _
      (nandStatusStage_ok hW env s0 fuel chNo _ (h.okFrame (SameLinks.of_view rfl))) ?_
    intro s1 h1
    refine andThen_state _ _ _ (sweep_ok hW s0 chNo _ true _
      (fun st w hI hw => nandIssueBody_ok hW env s0 _ _ chNo st w hI hw) fuel s1 h1) ?_
    intro s2 h2
    refine andThen_state _ _ _ (sweep_ok hW s0 chNo _ true _
      (fun st w hI hw => nandIssueBody_ok hW env s0 _ _ chNo st w hI hw) fuel s2 h2) ?_
    intro s3 h3
    refine andThen_state _ _ _ (sweep_ok hW s0 chNo _ false _
      (fun st w hI hw => nandDmaBody_ok hW env s0 _ _ chNo st w hI hw) fuel s3 h3) ?_
    intro s4 h4
    exact sweep_ok hW s0 chNo _ false _
      (fun st w hI hw => nandDmaBody_ok hW env s0 _ _ chNo st w hI hw) fuel s4 h4

/-- A call of `ExeLowLevelReqPerCh` keeps the lists of its channel well formed and does not
touch the lists of the other channels, however the call ends. -/
theorem ExeLowLevelReqPerCh_ok [Add α] [Zero α] {P : Params} (hW : P.WAY_NUM ≤ 15)
    (env : Env α) (s0 : FW α) (fuel : Nat) (s : FW α) (chNo firstQueue : Nat)
    (h : ChanOK P s0 chNo s) :
    ChanOK P s0 chNo (ExeLowLevelReqPerCh env P fuel s chNo firstQueue).1 := by
  unfold ExeLowLevelReqPerCh
  simp only []
  refine andThen_state _ _ _
    (idleStage_ok hW env s0 fuel chNo firstQueue _ _ (h.okFrame (SameLinks.of_view (by simp)))) ?_
  intro s1 h1
  refine andThen_state _ _ _ (statusReportStage_ok hW env s0 fuel chNo firstQueue s1 h1) ?_
  intro s2 h2
  refine andThen_state _ _ _ (sweep_ok hW s0 chNo _ false _
    (fun st w hI hw => nvmeDmaBody_ok hW env s0 chNo firstQueue st w hI hw) fuel s2 h2) ?_
  intro s3 h3
  refine andThen_state _ _ _ (nandStages_ok hW env s0 fuel chNo s3 h3) ?_
  intro s4 h4
  exact h4.okFrame (SameLinks.of_view (by simp))

theorem WayListsOK_frame {P : Params} {s s' : FW α} {c : Nat} (hs : SameLinksOn c s s')
    (h : WayListsOK P s c) : WayListsOK P s' c := by
  obtain ⟨ws, hws⟩ := h
  exact ⟨ws, WayInv_frame hs hws⟩

theorem ChOp.step_ok [Add α] [Zero α] {P : Params} (hW : P.WAY_NUM ≤ 15) (env : Env α)
    (C : Nat → Prop) (s : FW α) (op : ChOp) (hop : ∀ c, op.exeChannel = some c → C c)
    (h : ∀ c, C c → WayListsOK P s c) : ∀ c, C c → WayListsOK P (op.step env P s) c := by
  intro c hc
  cases op with
  | push cmd openSlots =>
    exact WayListsOK_frame ((SameLinks.of_view (by simp) :
      SameLinks s (PushToReqQueueNonBlocking P s cmd openSlots).1).on c) (h c hc)
  | pushSub chNo wayNo request rowAddress pageDataBuf spareDataBuf =>
    exact WayListsOK_frame ((SameLinks.of_view (by simp) :
      SameLinks s (PushToSubReqQueue P s chNo wayNo request rowAddress pageDataBuf
        spareDataBuf)).on c) (h c hc)
  | exe chNo firstQueue fuel =>
    have hch : C chNo := hop chNo rfl
    have hk := ExeLowLevelReqPerCh_ok hW env s fuel s chNo firstQueue
      ⟨h chNo hch, fun c' _ => SameLinksOn.onRefl c' s⟩
    by_cases hcc : c = chNo
    · subst hcc
      exact hk.1
    · exact WayListsOK_frame (hk.2 c hcc) (h c hc)

theorem chRun_ok [Add α] [Zero α] {P : Params} (hW : P.WAY_NUM ≤ 15) (env : Env α)
    (C : Nat → Prop) (ops : List ChOp) (s : FW α)
    (hops : ∀ op, op ∈ ops → ∀ c, op.exeChannel = some c → C c)
    (h : ∀ c, C c → WayListsOK P s c) : ∀ c, C c → WayListsOK P (chRun env P s ops) c := by
  induction ops generalizing s with
  | nil => exact h
  | cons op ops ih =>
    have : chRun env P s (op :: ops) = chRun env P (op.step env P s) ops := rfl
    rw [this]
    exact ih _ (fun o ho => hops o (List.mem_cons_of_mem _ ho))
      (ChOp.step_ok hW env C s op (hops op (List.mem_cons_self _ _)) h)

theorem blankFW_allIdle (c : Nat) : AllIdle exampleParams blankFW c := by
  refine ⟨idleWays, ⟨?_, ?_, ?_, ?_, ?_, ?_, ?_⟩, ?_⟩
  · intro l
    cases l <;> simp [Fwd, idleWays, blankFW, List.range, List.range.loop]
  · intro l
    cases l <;> simp [Bwd, idleWays, blankFW, List.range, List.range.loop]
  · intro l
    cases l <;> simp [idleWays, List.range, List.range.loop]
  · intro l l' w h1 h2
    cases l <;> cases l' <;> first | rfl | (simp [idleWays] at h1 h2)
  · intro l w hw
    cases l <;> simp [idleWays] at hw
    show w < 8
    exact hw
  · intro w hw
    right
    refine ⟨.idle, ?_⟩
    have : w < 8 := hw
    simp [idleWays, this]
  · intro w hw
    cases hw
  · intro l hl
    cases l <;> simp [idleWays] at hl ⊢

/-- C3: from a state in which every way of the channels in `C` is on the idle list, any run of
pushes to the rings (of any die) and calls of `ExeLowLevelReqPerCh` on channels in `C`, with
any environment and any fuel, ends in a state in which, on every channel in `C`, each way is a
member of exactly one of the eight lists and each list is doubly linked from head to tail and
closed by `0xf`.  The ways must be numbered below `0xf`. -/
theorem way_lists_stay_well_formed [Add α] [Zero α] (env : Env α) (P : Params)
    (C : Nat → Prop) (s0 : FW α) (ops : List ChOp) (hW : P.WAY_NUM ≤ 15)
    (h0 : ∀ c, C c → AllIdle P s0 c)
    (hops : ∀ op, op ∈ ops → ∀ c, op.exeChannel = some c → C c) :
    ∀ c, C c → WayListsOK P (chRun env P s0 ops) c :=
  chRun_ok hW env C ops s0 hops (fun c hc => by
    obtain ⟨ws, hws, _⟩ := h0 c hc
    exact ⟨ws, hws⟩)

/-- Witness of C3: the run `exampleOps` from the blank state, on channel 0. -/
theorem way_lists_stay_well_formed_witness :
    exampleParams.WAY_NUM ≤ 15 ∧ AllIdle exampleParams blankFW 0 ∧
    WayListsOK exampleParams (chRun readyEnv exampleParams blankFW exampleOps) 0 :=
  ⟨by decide, blankFW_allIdle 0,
    way_lists_stay_well_formed readyEnv exampleParams (fun _ => True) blankFW exampleOps
      (by decide) (fun c _ => blankFW_allIdle c) (fun _ _ _ _ => trivial) 0 trivial⟩

/-- The first arbiter call of `exampleOps` returns within its fuel and moves the two dies with
work off the idle list: die 2 is issued and waits on the NAND status list, die 5 waits on the
trigger list. -/
theorem exampleOps_first_call :
    (ExeLowLevelReqPerCh readyEnv exampleParams 20
        (chRun readyEnv exampleParams blankFW (exampleOps.take 2)) 0 0).2 = Exit.returned 1 ∧
    ((chRun readyEnv exampleParams blankFW (exampleOps.take 3)).wayPriorityTable 0).head
      .nandTrigger = 5 ∧
    ((chRun readyEnv exampleParams blankFW (exampleOps.take 3)).wayPriorityTable 0).head
      .nandStatus = 2 := by
  decide

theorem recordNewBadBlock_scan (tbl : Nat → Nat) (blockNo k : Nat)
    (hk : k ≤ REQ_QUEUE_DEPTH)
    (hfree : k < REQ_QUEUE_DEPTH → tbl k = 0xffffffff) :
    ∀ fuel entry, entry + fuel = REQ_QUEUE_DEPTH → entry ≤ k →
      (∀ i, entry ≤ i → i < k → tbl i ≠ 0xffffffff) →
      ((k < REQ_QUEUE_DEPTH ∧ ∀ i, entry ≤ i → i < k → tbl i ≠ blockNo) →
        recordNewBadBlock tbl blockNo fuel entry = set1 tbl k blockNo) ∧
      (¬ (k < REQ_QUEUE_DEPTH ∧ ∀ i, entry ≤ i → i < k → tbl i ≠ blockNo) →
        recordNewBadBlock tbl blockNo fuel entry = tbl) := by
  intro fuel
  induction fuel with
  | zero =>
    intro entry he hek _
    have : k = REQ_QUEUE_DEPTH := by omega
    refine ⟨fun h => ?_, fun _ => rfl⟩
    omega
  | succ fuel ih =>
    intro entry he hek htaken
    unfold recordNewBadBlock
    by_cases h1 : tbl entry = 0xffffffff
    · have hke : entry = k := by
        by_contra hne
        exact htaken entry (le_refl _) (by omega) h1
      subst hke
      have hlt : entry < REQ_QUEUE_DEPTH := by omega
      rw [if_pos h1]
      refine ⟨fun _ => rfl, fun h => ?_⟩
      exact absurd ⟨hlt, fun i h1 h2 => by omega⟩ h
    · rw [if_neg h1]
      have hlt : entry < k := by
        by_contra hne
        have : entry = k := by omega
        subst this
        exact h1 (hfree (by omega))
      by_cases h2 : tbl entry = blockNo
      · rw [if_pos h2]
        refine ⟨fun h => ?_, fun _ => rfl⟩
        exact absurd h2 (h.2 entry (le_refl _) hlt)
      · rw [if_neg h2]
        obtain ⟨ih1, ih2⟩ := ih (entry + 1) (by omega) (by omega)
          (fun i hi hik => htaken i (by omega) hik)
        refine ⟨fun h => ih1 ⟨h.1, fun i hi hik => h.2 i (by omega) hik⟩, fun h => ih2 ?_⟩
        rintro ⟨hk1, hall⟩
        refine h ⟨hk1, fun i hi hik => ?_⟩
        by_cases hie : i = entry
        · subst hie; exact h2
        · exact hall i (by omega) hik

/-- The search loop on a well-formed list of `k` block numbers: the block number goes to the
first free slot if there is one and the list does not hold it; otherwise nothing changes. -/
theorem recordNewBadBlock_list (tbl : Nat → Nat) (blockNo k : Nat) (h : BadBlockList tbl k) :
    ((k < REQ_QUEUE_DEPTH ∧ ∀ i, i < k → tbl i ≠ blockNo) →
      recordNewBadBlock tbl blockNo REQ_QUEUE_DEPTH 0 = set1 tbl k blockNo) ∧
    (¬ (k < REQ_QUEUE_DEPTH ∧ ∀ i, i < k → tbl i ≠ blockNo) →
      recordNewBadBlock tbl blockNo REQ_QUEUE_DEPTH 0 = tbl) := by
  obtain ⟨hk, htaken, hfree, _⟩ := h
  obtain ⟨h1, h2⟩ := recordNewBadBlock_scan tbl blockNo k hk (fun hlt => hfree k (le_refl _) hlt)
    REQ_QUEUE_DEPTH 0 (by simp) (Nat.zero_le _) (fun i _ hik => htaken i hik)
  refine ⟨fun h => h1 ⟨h.1, fun i _ hik => h.2 i hik⟩, fun h => h2 ?_⟩
  rintro ⟨hk1, hall⟩
  exact h ⟨hk1, fun i hik => hall i (Nat.zero_le _) hik⟩

/-- The list stays a list without duplicates. -/
theorem recordNewBadBlock_keeps_list (tbl : Nat → Nat) (blockNo k : Nat)
    (h : BadBlockList tbl k) :
    ∃ k2, BadBlockList (recordNewBadBlock tbl blockNo REQ_QUEUE_DEPTH 0) k2 := by
  by_cases hc : k < REQ_QUEUE_DEPTH ∧ ∀ i, i < k → tbl i ≠ blockNo
  · rw [(recordNewBadBlock_list tbl blockNo k h).1 hc]
    obtain ⟨hk, htaken, hfree, hnodup⟩ := h
    by_cases hb : blockNo = 0xffffffff
    · refine ⟨k, hk, ?_, ?_, ?_⟩
      · intro i hi
        have : i ≠ k := by omega
        simp only [set1, if_neg this]; exact htaken i hi
      · intro i hki hi
        by_cases hik : i = k
        · simp [set1, hik, hb]
        · simp only [set1, if_neg hik]; exact hfree i hki hi
      · intro i j hij hj
        have h1 : i ≠ k := by omega
        have h2 : j ≠ k := by omega
        simp only [set1, if_neg h1, if_neg h2]; exact hnodup i j hij hj
    · refine ⟨k + 1, by omega, ?_, ?_, ?_⟩
      · intro i hi
        by_cases hik : i = k
        · simp only [set1, if_pos hik]; exact hb
        · simp only [set1, if_neg hik]; exact htaken i (by omega)
      · intro i hki hi
        have : i ≠ k := by omega
        simp only [set1, if_neg this]; exact hfree i (by omega) hi
      · intro i j hij hj
        have h1 : i ≠ k := by omega
        simp only [set1, if_neg h1]
        by_cases hjk : j = k
        · simp only [if_pos hjk]; exact hc.2 i (by omega)
        · simp only [if_neg hjk]; exact hnodup i j hij (by omega)
  · rw [(recordNewBadBlock_list tbl blockNo k h).2 hc]; exact ⟨k, h⟩

/-- What the `RS_WARNING` branch does to the die it handles. -/
theorem warningBranch_effect (P : Params) (s : FW α) (chNo wayNo : Nat) :
    (warningBranch P s chNo wayNo).newBadBlocks chNo wayNo =
        recordNewBadBlock (s.newBadBlocks chNo wayNo)
          (warningBlockNo P (s.headReq chNo wayNo).rowAddr) REQ_QUEUE_DEPTH 0 ∧
    (warningBranch P s chNo wayNo).rqPointer chNo wayNo =
        { front := ((s.rqPointer chNo wayNo).front + 1) % REQ_QUEUE_DEPTH,
          rear := (s.rqPointer chNo wayNo).rear } ∧
    ((warningBranch P s chNo wayNo).dieStatusTable chNo wayNo).dieStatus = DS_IDLE ∧
    (warningBranch P s chNo wayNo).badBlockUpdate = 1 ∧
    (warningBranch P s chNo wayNo).trace = s.trace ++
      [.printWarning chNo wayNo (warningBlockNo P (s.headReq chNo wayNo).rowAddr)
        (s.headReq chNo wayNo).rowAddr] := by
  refine ⟨?_, ?_, ?_, ?_, ?_⟩
  · funext entry
    unfold FW.newBadBlocks
    simp [warningBranch, warningBlockNo, FW.setDieStatus, FW.modDie,
      FW.advanceFront, FW.modRq, FW.emit, FW.headReq, FW.front]
  · simp [warningBranch, FW.setDieStatus, FW.modDie, FW.advanceFront, FW.modRq, FW.emit, set2]
  · simp [warningBranch, FW.setDieStatus, FW.modDie, set2]
  · simp [warningBranch]
  · simp [warningBranch, warningBlockNo, FW.setDieStatus, FW.modDie, FW.advanceFront, FW.modRq,
      FW.emit]

/-- C11: in `DS_EXE` or `DS_REEXE`, on `RS_WARNING`, `ExeLowLevelReqPerDie` derives the block
number from the row address of the head entry; when the new-bad-block slots of the die hold a
list of `k` different block numbers (a prefix of taken slots), the block number is stored in
the first free slot `k` if there is one and the list does not hold it yet, and the slots are
left as they are otherwise; afterwards the slots again hold a list without duplicates, front
has advanced by one (modulo `REQ_QUEUE_DEPTH`) with rear unchanged, the die is `DS_IDLE` and
`badBlockUpdate` is 1. -/
theorem warning_records_bad_block_once [Add α] (env : Env α) (P : Params) (s : FW α)
    (chNo wayNo k : Nat)
    (hst : (s.dieStatusTable chNo wayNo).dieStatus = DS_EXE ∨
      (s.dieStatusTable chNo wayNo).dieStatus = DS_REEXE)
    (hlist : BadBlockList (s.newBadBlocks chNo wayNo) k) :
    ((k < REQ_QUEUE_DEPTH ∧ ∀ i, i < k →
        s.newBadBlocks chNo wayNo i ≠ warningBlockNo P (s.headReq chNo wayNo).rowAddr) →
      (ExeLowLevelReqPerDie env P s chNo wayNo RS_WARNING).newBadBlocks chNo wayNo =
        set1 (s.newBadBlocks chNo wayNo) k (warningBlockNo P (s.headReq chNo wayNo).rowAddr)) ∧
    (¬ (k < REQ_QUEUE_DEPTH ∧ ∀ i, i < k →
        s.newBadBlocks chNo wayNo i ≠ warningBlockNo P (s.headReq chNo wayNo).rowAddr) →
      (ExeLowLevelReqPerDie env P s chNo wayNo RS_WARNING).newBadBlocks chNo wayNo =
        s.newBadBlocks chNo wayNo) ∧
    (∃ k2, BadBlockList
      ((ExeLowLevelReqPerDie env P s chNo wayNo RS_WARNING).newBadBlocks chNo wayNo) k2) ∧
    (ExeLowLevelReqPerDie env P s chNo wayNo RS_WARNING).rqPointer chNo wayNo =
      { front := ((s.rqPointer chNo wayNo).front + 1) % REQ_QUEUE_DEPTH,
        rear := (s.rqPointer chNo wayNo).rear } ∧
    ((ExeLowLevelReqPerDie env P s chNo wayNo RS_WARNING).dieStatusTable chNo wayNo).dieStatus
      = DS_IDLE ∧
    (ExeLowLevelReqPerDie env P s chNo wayNo RS_WARNING).badBlockUpdate = 1 := by
  obtain ⟨label, hl⟩ := exe_or_reexe env P s chNo wayNo RS_WARNING hst
  have hw : ExeLowLevelReqPerDie env P s chNo wayNo RS_WARNING = warningBranch P s chNo wayNo := by
    rw [hl]; simp [primaryExeCase]
  rw [hw]
  obtain ⟨h1, h2, h3, h4, _⟩ := warningBranch_effect P s chNo wayNo
  rw [h1]
  exact ⟨(recordNewBadBlock_list _ _ k hlist).1, (recordNewBadBlock_list _ _ k hlist).2,
    recordNewBadBlock_keeps_list _ _ k hlist, h2, h3, h4⟩

theorem warnedFW_list : BadBlockList (warnedFW.newBadBlocks 0 0) 2 := by
  refine ⟨by decide, ?_, ?_, ?_⟩
  · intro i hi
    have : i = 0 ∨ i = 1 := by omega
    rcases this with h | h <;> subst h <;> decide
  · intro i hi _
    have h0 : i ≠ 0 := by omega
    have h1 : i ≠ 1 := by omega
    simp [FW.newBadBlocks, warnedFW, h0, h1]
  · intro i j hij hj
    have : i = 0 ∧ j = 1 := by omega
    obtain ⟨rfl, rfl⟩ := this
    decide

theorem warning_records_bad_block_once_witness :
    (ExeLowLevelReqPerDie quietEnv exampleParams warnedFW 0 0 RS_WARNING).newBadBlocks 0 0 =
        set1 (warnedFW.newBadBlocks 0 0) 2 4097 ∧
    (ExeLowLevelReqPerDie quietEnv exampleParams warnedFW 0 0 RS_WARNING).rqPointer 0 0 =
      { front := 1, rear := 1 } :=
  ⟨(warning_records_bad_block_once quietEnv exampleParams warnedFW 0 0 2 (Or.inl (by decide))
      warnedFW_list).1
      ⟨by decide, fun i hi => by
        have : i = 0 ∨ i = 1 := by omega
        rcases this with h | h <;> subst h <;> decide⟩,
    (warning_records_bad_block_once quietEnv exampleParams warnedFW 0 0 2 (Or.inl (by decide))
      warnedFW_list).2.2.2.1⟩

/-- The `RS_WARNING` branch touches neither the mailboxes nor the translation state, and the
only call it makes is the message. -/
theorem warningBranch_translation (P : Params) (s : FW α) (chNo wayNo : Nat) :
    (warningBranch P s chNo wayNo).transPageReqQueue = s.transPageReqQueue ∧
    (warningBranch P s chNo wayNo).transMap = s.transMap ∧
    (warningBranch P s chNo wayNo).transBuf = s.transBuf := by
  simp [warningBranch, FW.setDieStatus, FW.modDie, FW.advanceFront, FW.modRq, FW.emit]

/-- C12: the code does not deliver the page of a translate-tagged `ReadPageTransfer` that
completes with `RS_WARNING`.  In `DS_EXE` or `DS_REEXE`, for a head `ReadPageTransfer` with
`translate = 1`, `ExeLowLevelReqPerDie` on `RS_WARNING` leaves every mailbox as it was (the
entry is not handed over), makes no call other than the warning message (so `translatePage`
is not called), leaves the translation entries and the result memory untouched, and still
advances front by one, so the entry is gone from the ring. -/
theorem warning_drops_translate_read [Add α] (env : Env α) (P : Params) (s : FW α)
    (chNo wayNo : Nat)
    (hst : (s.dieStatusTable chNo wayNo).dieStatus = DS_EXE ∨
      (s.dieStatusTable chNo wayNo).dieStatus = DS_REEXE)
    (_hreq : (s.headReq chNo wayNo).request = P.V2FCommand_ReadPageTransfer)
    (_htr : (s.headReq chNo wayNo).translate ≠ 0) :
    (ExeLowLevelReqPerDie env P s chNo wayNo RS_WARNING).transPageReqQueue
      = s.transPageReqQueue ∧
    (ExeLowLevelReqPerDie env P s chNo wayNo RS_WARNING).trace = s.trace ++
      [.printWarning chNo wayNo (warningBlockNo P (s.headReq chNo wayNo).rowAddr)
        (s.headReq chNo wayNo).rowAddr] ∧
    (∀ c w, mailboxCalls c w (ExeLowLevelReqPerDie env P s chNo wayNo RS_WARNING).trace
      = mailboxCalls c w s.trace) ∧
    (ExeLowLevelReqPerDie env P s chNo wayNo RS_WARNING).transMap = s.transMap ∧
    (ExeLowLevelReqPerDie env P s chNo wayNo RS_WARNING).transBuf = s.transBuf ∧
    (ExeLowLevelReqPerDie env P s chNo wayNo RS_WARNING).rqPointer chNo wayNo =
      { front := ((s.rqPointer chNo wayNo).front + 1) % REQ_QUEUE_DEPTH,
        rear := (s.rqPointer chNo wayNo).rear } := by
  obtain ⟨label, hl⟩ := exe_or_reexe env P s chNo wayNo RS_WARNING hst
  have hw : ExeLowLevelReqPerDie env P s chNo wayNo RS_WARNING = warningBranch P s chNo wayNo := by
    rw [hl]; simp [primaryExeCase]
  rw [hw]
  obtain ⟨_, h2, _, _, h5⟩ := warningBranch_effect P s chNo wayNo
  obtain ⟨g1, g2, g3⟩ := warningBranch_translation P s chNo wayNo
  refine ⟨g1, h5, ?_, g2, g3, h2⟩
  intro c w
  rw [h5]
  simp [mailboxCalls, Event.isMailboxCall]

theorem warning_drops_translate_read_witness :
    (ExeLowLevelReqPerDie quietEnv exampleParams warnedTranslateFW 0 0 RS_WARNING).transPageReqQueue
        0 0 = { transBufferEntry := 0, pageDataBuf := 0, transPageIdx := 0, valid := 0 } ∧
    mailboxCalls 0 0
      (ExeLowLevelReqPerDie quietEnv exampleParams warnedTranslateFW 0 0 RS_WARNING).trace = 0 ∧
    (ExeLowLevelReqPerDie quietEnv exampleParams warnedTranslateFW 0 0 RS_WARNING).rqPointer 0 0
      = { front := 1, rear := 1 } ∧
    (ExeLowLevelReqPerDie quietEnv exampleParams warnedTranslateFW 0 0 RS_DONE).transPageReqQueue
        0 0 = { transBufferEntry := 1, pageDataBuf := 0x1000, transPageIdx := 2, valid := 1 } := by
  have h := warning_drops_translate_read quietEnv exampleParams warnedTranslateFW 0 0
    (Or.inl (by decide)) (by decide) (by decide)
  refine ⟨?_, ?_, ?_, by decide⟩
  · rw [h.1]; decide
  · rw [h.2.2.1]; decide
  · rw [h.2.2.2.2.2]; decide

/-- C13: for a head `ReadPageTransfer` of the primary ring, `CheckReqStatusAsync` reads the
completion word from table 0 at `chNo` when `chNo < CHANNEL_NUM_PER_HP_PORT` and from table 1
at `chNo - CHANNEL_NUM_PER_HP_PORT` otherwise, and the two error-information words from the
same table and index.  With bit 0 of the completion word clear it returns `RS_RUNNING`; with
bit 0 set it returns `RS_FAIL` iff one of `CrcValid(errorInfo0)`, `SpareChunkValid(errorInfo0)`,
`PageChunkValid(errorInfo1)` is false, else `RS_WARNING` iff
`WorstChunkErrorCount(errorInfo0) > BIT_ERROR_THRESHOLD`, else `RS_DONE`.  The firmware state
is not written (only the reads of the hardware tables advance the clock of the
environment). -/
theorem ecc_classification (env : Env α) (P : Params) (s : FW α) (chNo wayNo : Nat)
    (hreq : (s.headReq chNo wayNo).request = P.V2FCommand_ReadPageTransfer) :
    completionWord env P s chNo wayNo =
      (if chNo < P.CHANNEL_NUM_PER_HP_PORT then env.completeTable0 s.clock chNo wayNo
        else env.completeTable1 s.clock (chNo - P.CHANNEL_NUM_PER_HP_PORT) wayNo) ∧
    (∀ k, errorInfoWord env P s.tick chNo wayNo k =
      (if chNo < P.CHANNEL_NUM_PER_HP_PORT then env.errorInfoTable0 (s.clock + 1) chNo wayNo k
        else env.errorInfoTable1 (s.clock + 1) (chNo - P.CHANNEL_NUM_PER_HP_PORT) wayNo k)) ∧
    (completionWord env P s chNo wayNo % 2 = 0 →
      (CheckReqStatusAsync env P s chNo wayNo).2 = RS_RUNNING ∧
      (CheckReqStatusAsync env P s chNo wayNo).1 = s.tick) ∧
    (completionWord env P s chNo wayNo % 2 = 1 →
      ((CheckReqStatusAsync env P s chNo wayNo).2 = RS_FAIL ↔
        ¬ (env.CrcValid (errorInfoWord env P s.tick chNo wayNo 0) = true ∧
            env.SpareChunkValid (errorInfoWord env P s.tick chNo wayNo 0) = true ∧
            env.PageChunkValid (errorInfoWord env P s.tick chNo wayNo 1) = true)) ∧
      ((CheckReqStatusAsync env P s chNo wayNo).2 = RS_WARNING ↔
        (env.CrcValid (errorInfoWord env P s.tick chNo wayNo 0) = true ∧
            env.SpareChunkValid (errorInfoWord env P s.tick chNo wayNo 0) = true ∧
            env.PageChunkValid (errorInfoWord env P s.tick chNo wayNo 1) = true) ∧
          env.WorstChunkErrorCount (errorInfoWord env P s.tick chNo wayNo 0)
            > P.BIT_ERROR_THRESHOLD) ∧
      ((CheckReqStatusAsync env P s chNo wayNo).2 = RS_DONE ↔
        (env.CrcValid (errorInfoWord env P s.tick chNo wayNo 0) = true ∧
            env.SpareChunkValid (errorInfoWord env P s.tick chNo wayNo 0) = true ∧
            env.PageChunkValid (errorInfoWord env P s.tick chNo wayNo 1) = true) ∧
          ¬ env.WorstChunkErrorCount (errorInfoWord env P s.tick chNo wayNo 0)
            > P.BIT_ERROR_THRESHOLD) ∧
      (CheckReqStatusAsync env P s chNo wayNo).1 = s.tick.tick) := by
  simp only [FW.headReq] at hreq
  refine ⟨rfl, fun k => rfl, ?_, ?_⟩
  · intro hc
    have hc2 : completionWord env P s chNo wayNo % 2 ≠ 1 := by omega
    simp [CheckReqStatusAsync, hreq, hc2]
  · intro hc
    unfold CheckReqStatusAsync CheckReqErrorInfo
    simp only [hreq, if_true, hc]
    generalize errorInfoWord env P s.tick chNo wayNo 0 = e0
    generalize errorInfoWord env P s.tick chNo wayNo 1 = e1
    by_cases h1 : env.CrcValid e0 = true <;> by_cases h2 : env.SpareChunkValid e0 = true <;>
      by_cases h3 : env.PageChunkValid e1 = true <;>
      by_cases h4 : env.WorstChunkErrorCount e0 > P.BIT_ERROR_THRESHOLD <;>
      simp [h1, h2, h3, h4]

theorem ecc_classification_witness :
    (warnedTranslateFW.headReq 0 0).request = exampleParams.V2FCommand_ReadPageTransfer ∧
    (CheckReqStatusAsync warningEnv exampleParams warnedTranslateFW 0 0).2 = RS_WARNING :=
  ⟨by decide,
    ((ecc_classification warningEnv exampleParams warnedTranslateFW 0 0 (by decide)).2.2.2
      (by decide)).2.1.2 ⟨⟨rfl, rfl, rfl⟩, by decide⟩⟩

theorem and_three_ne_zero_iff (x : Nat) : x &&& 3 ≠ 0 ↔ (x % 2 = 1 ∨ x / 2 % 2 = 1) := by
  have h : x &&& 3 = x % 4 := Nat.and_pow_two_sub_one_eq_mod x 2
  rw [h]; omega

/-- The verdict on a ready report whose status byte has bits 6 and 5 set. -/
theorem statusReportVerdict_ready (w : Nat) (hw : w % 2 = 1)
    (hs : (w / 2) &&& 0x60 = 0x60) :
    statusReportVerdict w =
      (if (w / 2) % 2 = 1 ∨ (w / 2) / 2 % 2 = 1 then RS_FAIL else RS_DONE, false) := by
  unfold statusReportVerdict
  simp only [hw, if_true, hs]
  by_cases h : (w / 2) &&& 3 ≠ 0
  · rw [if_pos h, if_pos ((and_three_ne_zero_iff _).1 h)]
  · rw [if_neg h, if_neg (fun h2 => h ((and_three_ne_zero_iff _).2 h2))]

/-- The claim as written (RS_FAIL iff bit 0 of the status byte is set) fails on the status
byte `0x62`: bits 6 and 5 are set, bit 0 is clear, and `CheckReqStatusAsync` returns
`RS_FAIL`, because the code tests `status & 3`, that is bit 0 and bit 1. -/
theorem status_bit1_reports_fail :
    (reportFW.headReq 0 0).request ≠ exampleParams.V2FCommand_ReadPageTransfer ∧
    (reportFW.headReq 0 0).statusOption = CHECK_STATUS_REPORT ∧
    completionWord failcEnv exampleParams reportFW 0 0 = 0xc5 ∧
    0xc5 % 2 = 1 ∧ (0xc5 / 2) &&& 0x60 = 0x60 ∧ (0xc5 / 2) % 2 = 0 ∧
    (CheckReqStatusAsync failcEnv exampleParams reportFW 0 0).2 = RS_FAIL := by
  decide

/-- C14 (amended): for a head entry of the primary ring that is not a `ReadPageTransfer`, and
for a head entry of the sub ring that is neither a `ReadPageTransfer` nor a
`ReadPageTransferRaw`, with `statusOption = CHECK_STATUS_REPORT`: when the completion word
`w` has bit 0 set and the status byte `s = w >> 1` has bits 6 and 5 set, the status check
returns `RS_FAIL` if and only if bit 0 or bit 1 of `s` is set (`s & 3` is not zero), and
`RS_DONE` otherwise; `statusOption` stays `CHECK_STATUS_REPORT`. -/
theorem status_report_decoding (env : Env α) (P : Params) (s : FW α) (chNo wayNo : Nat)
    (hw : completionWord env P s chNo wayNo % 2 = 1)
    (hs : (completionWord env P s chNo wayNo / 2) &&& 0x60 = 0x60) :
    ((s.headReq chNo wayNo).request ≠ P.V2FCommand_ReadPageTransfer →
      (s.headReq chNo wayNo).statusOption = CHECK_STATUS_REPORT →
      ((CheckReqStatusAsync env P s chNo wayNo).2 = RS_FAIL ↔
        ((completionWord env P s chNo wayNo / 2) % 2 = 1 ∨
          (completionWord env P s chNo wayNo / 2) / 2 % 2 = 1)) ∧
      ((CheckReqStatusAsync env P s chNo wayNo).2 = RS_DONE ↔
        ¬ ((completionWord env P s chNo wayNo / 2) % 2 = 1 ∨
          (completionWord env P s chNo wayNo / 2) / 2 % 2 = 1)) ∧
      (CheckReqStatusAsync env P s chNo wayNo).1 = s.tick) ∧
    ((s.headSubReq chNo wayNo).request ≠ P.V2FCommand_ReadPageTransfer →
      (s.headSubReq chNo wayNo).request ≠ P.V2FCommand_ReadPageTransferRaw →
      (s.headSubReq chNo wayNo).statusOption = CHECK_STATUS_REPORT →
      ((CheckSubReqStatusAsync env P s chNo wayNo).2 = RS_FAIL ↔
        ((completionWord env P s chNo wayNo / 2) % 2 = 1 ∨
          (completionWord env P s chNo wayNo / 2) / 2 % 2 = 1)) ∧
      ((CheckSubReqStatusAsync env P s chNo wayNo).2 = RS_DONE ↔
        ¬ ((completionWord env P s chNo wayNo / 2) % 2 = 1 ∨
          (completionWord env P s chNo wayNo / 2) / 2 % 2 = 1)) ∧
      (CheckSubReqStatusAsync env P s chNo wayNo).1 = s.tick) := by
  have hv := statusReportVerdict_ready _ hw hs
  constructor
  · intro hreq hopt
    simp only [FW.headReq] at hreq hopt
    unfold CheckReqStatusAsync
    simp only [if_neg hreq, hopt, hv]
    by_cases hb : (completionWord env P s chNo wayNo / 2) % 2 = 1 ∨
        (completionWord env P s chNo wayNo / 2) / 2 % 2 = 1
    · simp [hb]
    · simp [hb]
  · intro hreq hraw hopt
    simp only [FW.headSubReq] at hreq hraw hopt
    unfold CheckSubReqStatusAsync
    simp only [if_neg hreq, if_neg hraw, hopt, hv]
    by_cases hb : (completionWord env P s chNo wayNo / 2) % 2 = 1 ∨
        (completionWord env P s chNo wayNo / 2) / 2 % 2 = 1
    · simp [hb]
    · simp [hb]

theorem status_report_decoding_witness :
    completionWord readyEnv exampleParams reportFW 0 0 = 0xc1 ∧
    (CheckReqStatusAsync readyEnv exampleParams reportFW 0 0).2 = RS_DONE :=
  ⟨by decide,
    ((status_report_decoding readyEnv exampleParams reportFW 0 0 (by decide) (by decide)).1
      (by decide) (by decide)).2.1.2 (by decide)⟩

/-- A call in `STATUS_CHECK`. -/
theorem CheckReqStatusAsync_statusCheck (env : Env α) (P : Params) (s : FW α) (chNo wayNo : Nat)
    (hreq : (s.headReq chNo wayNo).request ≠ P.V2FCommand_ReadPageTransfer)
    (hopt : (s.headReq chNo wayNo).statusOption = STATUS_CHECK) :
    CheckReqStatusAsync env P s chNo wayNo =
      ((s.emit (.StatusCheckAsync chNo wayNo (hpTable P chNo).1 (hpTable P chNo).2)).modReq
          (s.front chNo wayNo) chNo wayNo (fun e => { e with statusOption := CHECK_STATUS_REPORT }),
        RS_RUNNING) := by
  simp only [FW.headReq] at hreq hopt
  unfold CheckReqStatusAsync
  simp only [if_neg hreq, hopt, if_true]

/-- A call in `CHECK_STATUS_REPORT`. -/
theorem CheckReqStatusAsync_report (env : Env α) (P : Params) (s : FW α) (chNo wayNo : Nat)
    (hreq : (s.headReq chNo wayNo).request ≠ P.V2FCommand_ReadPageTransfer)
    (hopt : (s.headReq chNo wayNo).statusOption = CHECK_STATUS_REPORT) :
    CheckReqStatusAsync env P s chNo wayNo =
      (if (statusReportVerdict (reportAt env P chNo wayNo s.clock)).2 then
        (s.tick.modReq (s.front chNo wayNo) chNo wayNo
          (fun e => { e with statusOption := STATUS_CHECK }),
          (statusReportVerdict (reportAt env P chNo wayNo s.clock)).1)
      else (s.tick, (statusReportVerdict (reportAt env P chNo wayNo s.clock)).1)) := by
  simp only [FW.headReq] at hreq hopt
  unfold CheckReqStatusAsync
  simp only [if_neg hreq, hopt, if_true, show CHECK_STATUS_REPORT ≠ STATUS_CHECK by decide,
    if_false]
  rfl

theorem statusReportVerdict_pass (w : Nat) (h : ReadyPass w) :
    statusReportVerdict w = (RS_DONE, false) := by
  obtain ⟨⟨h1, h2⟩, h3⟩ := h
  simp [statusReportVerdict, h1, h2, h3]

theorem statusReportVerdict_notReady (w : Nat) (h : ¬ ReadyReport w) :
    statusReportVerdict w = (RS_RUNNING, decide (w % 2 = 1)) := by
  unfold statusReportVerdict
  by_cases h1 : w % 2 = 1
  · have h2 : ¬ ((w / 2) &&& 0x60 = 0x60) := fun h2 => h ⟨h1, h2⟩
    simp [h1, h2]
  · simp [h1]

/-- A poll run reaches `RS_DONE` once the ready-pass report arrives, and returns `RS_RUNNING`
until then. -/
theorem pollRun_reaches_done (env : Env α) (P : Params) (chNo wayNo : Nat) :
    ∀ m (s : FW α),
      (s.headReq chNo wayNo).request ≠ P.V2FCommand_ReadPageTransfer →
      ((s.headReq chNo wayNo).statusOption = STATUS_CHECK ∨
        (s.headReq chNo wayNo).statusOption = CHECK_STATUS_REPORT) →
      (∀ j, j < m → ¬ ReadyReport (reportAt env P chNo wayNo (s.clock + j))) →
      ReadyPass (reportAt env P chNo wayNo (s.clock + m)) →
      ∃ n, (pollRun env P chNo wayNo (n + 1) s).2 = List.replicate n RS_RUNNING ++ [RS_DONE] ∧
        ((pollRun env P chNo wayNo n s).1.headReq chNo wayNo).statusOption
          = CHECK_STATUS_REPORT := by
  -- from `CHECK_STATUS_REPORT`
  have report : ∀ m, (∀ (s : FW α),
      (s.headReq chNo wayNo).request ≠ P.V2FCommand_ReadPageTransfer →
      (s.headReq chNo wayNo).statusOption = CHECK_STATUS_REPORT →
      (∀ j, j < m → ¬ ReadyReport (reportAt env P chNo wayNo (s.clock + j))) →
      ReadyPass (reportAt env P chNo wayNo (s.clock + m)) →
      ∃ n, (pollRun env P chNo wayNo (n + 1) s).2 = List.replicate n RS_RUNNING ++ [RS_DONE] ∧
        ((pollRun env P chNo wayNo n s).1.headReq chNo wayNo).statusOption
          = CHECK_STATUS_REPORT) →
      ∀ (s : FW α),
      (s.headReq chNo wayNo).request ≠ P.V2FCommand_ReadPageTransfer →
      (s.headReq chNo wayNo).statusOption = STATUS_CHECK →
      (∀ j, j < m → ¬ ReadyReport (reportAt env P chNo wayNo (s.clock + j))) →
      ReadyPass (reportAt env P chNo wayNo (s.clock + m)) →
      ∃ n, (pollRun env P chNo wayNo (n + 1) s).2 = List.replicate n RS_RUNNING ++ [RS_DONE] ∧
        ((pollRun env P chNo wayNo n s).1.headReq chNo wayNo).statusOption
          = CHECK_STATUS_REPORT := by
    intro m hrep s hreq hopt hnot hpass
    have hcall := CheckReqStatusAsync_statusCheck env P s chNo wayNo hreq hopt
    obtain ⟨n, hn1, hn2⟩ := hrep (CheckReqStatusAsync env P s chNo wayNo).1
      (by rw [hcall]; simpa [FW.headReq, FW.front, FW.modReq, FW.emit, set3] using hreq)
      (by rw [hcall]; simp [FW.headReq, FW.front, FW.modReq, FW.emit, set3])
      (by rw [hcall]; exact hnot) (by rw [hcall]; exact hpass)
    refine ⟨n + 1, ?_, ?_⟩
    · show (CheckReqStatusAsync env P s chNo wayNo).2 ::
        (pollRun env P chNo wayNo (n + 1) (CheckReqStatusAsync env P s chNo wayNo).1).2 = _
      rw [hn1, hcall]; rfl
    · exact hn2
  intro m
  induction m with
  | zero =>
    have base : ∀ (s : FW α),
        (s.headReq chNo wayNo).request ≠ P.V2FCommand_ReadPageTransfer →
        (s.headReq chNo wayNo).statusOption = CHECK_STATUS_REPORT →
        (∀ j, j < 0 → ¬ ReadyReport (reportAt env P chNo wayNo (s.clock + j))) →
        ReadyPass (reportAt env P chNo wayNo (s.clock + 0)) →
        ∃ n, (pollRun env P chNo wayNo (n + 1) s).2 = List.replicate n RS_RUNNING ++ [RS_DONE] ∧
          ((pollRun env P chNo wayNo n s).1.headReq chNo wayNo).statusOption
            = CHECK_STATUS_REPORT := by
      intro s hreq hopt _ hpass
      refine ⟨0, ?_, hopt⟩
      have hcall := CheckReqStatusAsync_report env P s chNo wayNo hreq hopt
      rw [statusReportVerdict_pass _ (by simpa using hpass)] at hcall
      show [(CheckReqStatusAsync env P s chNo wayNo).2] = _
      rw [hcall]; rfl
    intro s hreq hopt hnot hpass
    rcases hopt with hopt | hopt
    · exact report 0 base s hreq hopt hnot hpass
    · exact base s hreq hopt hnot hpass
  | succ m ih =>
    have stepc : ∀ (s : FW α),
        (s.headReq chNo wayNo).request ≠ P.V2FCommand_ReadPageTransfer →
        (s.headReq chNo wayNo).statusOption = CHECK_STATUS_REPORT →
        (∀ j, j < m + 1 → ¬ ReadyReport (reportAt env P chNo wayNo (s.clock + j))) →
        ReadyPass (reportAt env P chNo wayNo (s.clock + (m + 1))) →
        ∃ n, (pollRun env P chNo wayNo (n + 1) s).2 = List.replicate n RS_RUNNING ++ [RS_DONE] ∧
          ((pollRun env P chNo wayNo n s).1.headReq chNo wayNo).statusOption
            = CHECK_STATUS_REPORT := by
      intro s hreq hopt hnot hpass
      have hcall := CheckReqStatusAsync_report env P s chNo wayNo hreq hopt
      rw [statusReportVerdict_notReady _ (by simpa using hnot 0 (Nat.succ_pos m))] at hcall
      have hclock : (CheckReqStatusAsync env P s chNo wayNo).1.clock = s.clock + 1 := by
        rw [hcall]; split <;> simp [FW.tick, FW.modReq]
      have hreq2 : ((CheckReqStatusAsync env P s chNo wayNo).1.headReq chNo wayNo).request
          ≠ P.V2FCommand_ReadPageTransfer := by
        rw [hcall]
        split <;> simpa [FW.headReq, FW.front, FW.modReq, FW.tick, set3] using hreq
      have hopt2 : ((CheckReqStatusAsync env P s chNo wayNo).1.headReq chNo wayNo).statusOption
            = STATUS_CHECK ∨
          ((CheckReqStatusAsync env P s chNo wayNo).1.headReq chNo wayNo).statusOption
            = CHECK_STATUS_REPORT := by
        rw [hcall]
        split
        · left; simp [FW.headReq, FW.front, FW.modReq, FW.tick, set3]
        · right; simpa [FW.headReq, FW.front, FW.tick] using hopt
      have hres : (CheckReqStatusAsync env P s chNo wayNo).2 = RS_RUNNING := by
        rw [hcall]; split <;> rfl
      obtain ⟨n, hn1, hn2⟩ := ih (CheckReqStatusAsync env P s chNo wayNo).1 hreq2 hopt2
        (by
          intro j hj
          rw [hclock, show s.clock + 1 + j = s.clock + (j + 1) by omega]
          exact hnot (j + 1) (by omega))
        (by
          rw [hclock, show s.clock + 1 + m = s.clock + (m + 1) by omega]
          exact hpass)
      refine ⟨n + 1, ?_, hn2⟩
      show (CheckReqStatusAsync env P s chNo wayNo).2 ::
        (pollRun env P chNo wayNo (n + 1) (CheckReqStatusAsync env P s chNo wayNo).1).2 = _
      rw [hn1, hres]; rfl
    intro s hreq hopt hnot hpass
    rcases hopt with hopt | hopt
    · exact report (m + 1) stepc s hreq hopt hnot hpass
    · exact stepc s hreq hopt hnot hpass

/-- C15: the status-poll law of `CheckReqStatusAsync` for a head entry that is not a
`ReadPageTransfer`.  A call in `STATUS_CHECK` issues one status-check command, moves to
`CHECK_STATUS_REPORT` and returns `RS_RUNNING`; a call in `CHECK_STATUS_REPORT` whose report
has bit 0 set but not both of bits 6 and 5 of the status byte returns `RS_RUNNING` and goes
back to `STATUS_CHECK`; a report with bit 0 clear returns `RS_RUNNING` and stays.  Hence,
starting in `STATUS_CHECK`, when the reports read are `m` not-ready reports followed by a
ready-pass report, there is a number `n` of calls all returning `RS_RUNNING` after which the
next call returns `RS_DONE`, and that call is made in `CHECK_STATUS_REPORT`. -/
theorem status_poll_law (env : Env α) (P : Params) (s : FW α) (chNo wayNo : Nat)
    (hreq : (s.headReq chNo wayNo).request ≠ P.V2FCommand_ReadPageTransfer) :
    ((s.headReq chNo wayNo).statusOption = STATUS_CHECK →
      CheckReqStatusAsync env P s chNo wayNo =
        ((s.emit (.StatusCheckAsync chNo wayNo (hpTable P chNo).1 (hpTable P chNo).2)).modReq
            (s.front chNo wayNo) chNo wayNo
            (fun e => { e with statusOption := CHECK_STATUS_REPORT }),
          RS_RUNNING)) ∧
    ((s.headReq chNo wayNo).statusOption = CHECK_STATUS_REPORT →
      reportAt env P chNo wayNo s.clock % 2 = 1 →
      (reportAt env P chNo wayNo s.clock / 2) &&& 0x60 ≠ 0x60 →
      CheckReqStatusAsync env P s chNo wayNo =
        (s.tick.modReq (s.front chNo wayNo) chNo wayNo
          (fun e => { e with statusOption := STATUS_CHECK }), RS_RUNNING)) ∧
    ((s.headReq chNo wayNo).statusOption = CHECK_STATUS_REPORT →
      reportAt env P chNo wayNo s.clock % 2 = 0 →
      CheckReqStatusAsync env P s chNo wayNo = (s.tick, RS_RUNNING)) ∧
    ((s.headReq chNo wayNo).statusOption = STATUS_CHECK →
      ∀ m, (∀ j, j < m → ¬ ReadyReport (reportAt env P chNo wayNo (s.clock + j))) →
        ReadyPass (reportAt env P chNo wayNo (s.clock + m)) →
        ∃ n, (pollRun env P chNo wayNo (n + 1) s).2 = List.replicate n RS_RUNNING ++ [RS_DONE] ∧
          ((pollRun env P chNo wayNo n s).1.headReq chNo wayNo).statusOption
            = CHECK_STATUS_REPORT) := by
  refine ⟨CheckReqStatusAsync_statusCheck env P s chNo wayNo hreq, ?_, ?_, ?_⟩
  · intro hopt h1 h2
    rw [CheckReqStatusAsync_report env P s chNo wayNo hreq hopt,
      statusReportVerdict_notReady _ (fun h => h2 h.2)]
    simp [h1]
  · intro hopt h1
    rw [CheckReqStatusAsync_report env P s chNo wayNo hreq hopt,
      statusReportVerdict_notReady _ (fun h => by omega)]
    have : ¬ (reportAt env P chNo wayNo s.clock % 2 = 1) := by omega
    simp [this]
  · intro hopt m hnot hpass
    exact pollRun_reaches_done env P chNo wayNo m s hreq (Or.inl hopt) hnot hpass

theorem status_poll_law_witness :
    (pollRun pollEnv exampleParams 0 0 5 pollFW).2
      = [RS_RUNNING, RS_RUNNING, RS_RUNNING, RS_RUNNING, RS_DONE] ∧
    ∃ n, (pollRun pollEnv exampleParams 0 0 (n + 1) pollFW).2
        = List.replicate n RS_RUNNING ++ [RS_DONE] ∧
      ((pollRun pollEnv exampleParams 0 0 n pollFW).1.headReq 0 0).statusOption
        = CHECK_STATUS_REPORT :=
  ⟨by decide,
    (status_poll_law pollEnv exampleParams pollFW 0 0 (by decide)).2.2.2 (by decide) 2
      (by decide) (by decide)⟩

theorem listOfRequest_ne_idle (P : Params) (request : Nat) :
    listOfRequest P request ≠ .idle := by
  unfold listOfRequest
  split_ifs <;> simp

/-- The code's table against the specification's: they agree on every request code up to
`LLSCommand_TxDMA`, and the code sends every larger code to `nvmeDma`. -/
theorem listOfRequest_spec (P : Params) (request : Nat) :
    listOfRequest P request =
      if request ≥ LLSCommand_RxDMA then .nvmeDma else listNamedBySpec P request := by
  unfold listOfRequest listNamedBySpec
  by_cases h : request ≥ LLSCommand_RxDMA
  · simp [h]
  · have h1 : ¬ (request = LLSCommand_RxDMA ∨ request = LLSCommand_TxDMA) := by
      simp only [LLSCommand_RxDMA, LLSCommand_TxDMA] at h ⊢; omega
    simp only [if_neg h, if_neg h1]

theorem listOfRequest_defined (P : Params) (request : Nat) (h : request ≤ LLSCommand_TxDMA) :
    listOfRequest P request = listNamedBySpec P request := by
  rw [listOfRequest_spec]
  by_cases h1 : request ≥ LLSCommand_RxDMA
  · have h2 : request = LLSCommand_RxDMA ∨ request = LLSCommand_TxDMA := by
      simp only [LLSCommand_RxDMA, LLSCommand_TxDMA] at h h1 ⊢; omega
    simp [listNamedBySpec, h1, h2]
  · simp [h1]

/-- Linking a way changes no flag of any die. -/
theorem LinkTo_flags (l : WayList) (s : FW α) (chNo wayNo c v : Nat) :
    ((LinkTo l s chNo wayNo).dieStatusTable c v).queueSelect
      = (s.dieStatusTable c v).queueSelect ∧
    ((LinkTo l s chNo wayNo).dieStatusTable c v).reqQueueEmpty
      = (s.dieStatusTable c v).reqQueueEmpty ∧
    ((LinkTo l s chNo wayNo).dieStatusTable c v).subReqQueueEmpty
      = (s.dieStatusTable c v).subReqQueueEmpty ∧
    ((LinkTo l s chNo wayNo).dieStatusTable c v).dieStatus
      = (s.dieStatusTable c v).dieStatus := by
  unfold LinkTo
  split_ifs <;>
    simp only [FW.modDie, FW.modWayPriority, set2] <;>
    (repeat' split) <;> simp_all

/-- `FindPriorityTable` sets the flags of the die and links it to the chosen list. -/
theorem FindPriorityTable_chosen (P : Params) (s : FW α) (chNo wayNo firstQueue : Nat) :
    ∃ s1, SameLinks s s1 ∧
      FindPriorityTable P s chNo wayNo firstQueue
        = LinkTo (chosenList P s chNo wayNo firstQueue) s1 chNo wayNo ∧
      (s1.dieStatusTable chNo wayNo).queueSelect = selectedQueue s chNo wayNo firstQueue ∧
      (s1.dieStatusTable chNo wayNo).reqQueueEmpty =
        (if s.reqEmpty chNo wayNo ∧ (firstQueue = REQ_QUEUE ∨ s.subEmpty chNo wayNo) then 1
          else (s.dieStatusTable chNo wayNo).reqQueueEmpty) ∧
      (s1.dieStatusTable chNo wayNo).subReqQueueEmpty =
        (if s.subEmpty chNo wayNo ∧ (firstQueue ≠ REQ_QUEUE ∨ s.reqEmpty chNo wayNo) then 1
          else (s.dieStatusTable chNo wayNo).subReqQueueEmpty) := by
  by_cases hq : firstQueue = REQ_QUEUE <;>
    by_cases h1 : (s.rqPointer chNo wayNo).front = (s.rqPointer chNo wayNo).rear <;>
    by_cases h2 : (s.srqPointer chNo wayNo).front = (s.srqPointer chNo wayNo).rear
  all_goals
    simp only [FindPriorityTable, chosenList, selectedRequest, selectedQueue, FW.reqEmpty,
      FW.subEmpty, hq, h1, h2, if_true, if_false, FW.modDie, LinkToIdle, and_self, and_true,
      and_false, false_and, true_and, or_true, true_or, or_false, false_or, not_true_eq_false,
      not_false_eq_true, ne_eq, FW.headReq, FW.headSubReq, FW.front, FW.subFront,
      show (SUB_REQ_QUEUE = REQ_QUEUE) = False from by decide]
    refine ⟨_, ?_, rfl, ?_, ?_, ?_⟩
    · unfold SameLinks linkView
      simp only [Prod.mk.injEq, true_and]
      funext c w
      simp only [set2]
      split_ifs with hcw <;> first | rfl | (obtain ⟨rfl, rfl⟩ := hcw; rfl)
    · simp [set2]
    · simp [set2]
    · simp [set2]

/-- C16: `FindPriorityTable(ch, way, firstQueue)`, applied to a way that is on no list,
selects the ring named by `firstQueue` if it is not empty and the other ring otherwise, sets
`queueSelect` to the selected ring and the empty flag of each ring it found empty (the flags
are not cleared), and appends the way to exactly one list: `idle` if and only if both rings
are empty, and otherwise the list that the table of the specification names for the head
request of the selected ring (`RxDMA` or `TxDMA` to `nvmeDma`, `ReadPageTrigger` or
`ReadRawPage` to `nandTrigger`, `ReadPageTransfer` or `ReadPageTransferRaw` to
`nandTransfer`, `ProgramPage` to `nandTrigNTrans`, `BlockErase` to `nandErase`, anything else
to `nandStatus`), for every head request whose code is at most `LLSCommand_TxDMA`, the
largest command code that the scheduler defines. -/
theorem FindPriorityTable_classification (P : Params) (s : FW α) (chNo : Nat)
    (ws : WayList → List Nat) (w : Nat) (hW : P.WAY_NUM ≤ 15)
    (h : WayInv P s chNo ws (some w)) (firstQueue : Nat)
    (hcode : ¬ (s.reqEmpty chNo w ∧ s.subEmpty chNo w) →
      selectedRequest s chNo w firstQueue ≤ LLSCommand_TxDMA) :
    ((FindPriorityTable P s chNo w firstQueue).dieStatusTable chNo w).queueSelect
      = selectedQueue s chNo w firstQueue ∧
    ((FindPriorityTable P s chNo w firstQueue).dieStatusTable chNo w).reqQueueEmpty =
      (if s.reqEmpty chNo w ∧ (firstQueue = REQ_QUEUE ∨ s.subEmpty chNo w) then 1
        else (s.dieStatusTable chNo w).reqQueueEmpty) ∧
    ((FindPriorityTable P s chNo w firstQueue).dieStatusTable chNo w).subReqQueueEmpty =
      (if s.subEmpty chNo w ∧ (firstQueue ≠ REQ_QUEUE ∨ s.reqEmpty chNo w) then 1
        else (s.dieStatusTable chNo w).subReqQueueEmpty) ∧
    WayInv P (FindPriorityTable P s chNo w firstQueue) chNo
      (setWs ws (chosenList P s chNo w firstQueue)
        (ws (chosenList P s chNo w firstQueue) ++ [w])) none ∧
    (∀ l, w ∈ setWs ws (chosenList P s chNo w firstQueue)
        (ws (chosenList P s chNo w firstQueue) ++ [w]) l ↔ l = chosenList P s chNo w firstQueue) ∧
    (chosenList P s chNo w firstQueue = .idle ↔ s.reqEmpty chNo w ∧ s.subEmpty chNo w) ∧
    (¬ (s.reqEmpty chNo w ∧ s.subEmpty chNo w) →
      chosenList P s chNo w firstQueue
        = listNamedBySpec P (selectedRequest s chNo w firstQueue)) := by
  obtain ⟨s1, hlinks, heq, hq, hre, hse⟩ := FindPriorityTable_chosen P s chNo w firstQueue
  obtain ⟨f1, f2, f3, _⟩ := LinkTo_flags (chosenList P s chNo w firstQueue) s1 chNo w chNo w
  refine ⟨?_, ?_, ?_, ?_, ?_, ?_, ?_⟩
  · rw [heq, f1, hq]
  · rw [heq, f2, hre]
  · rw [heq, f3, hse]
  · rw [heq]
    exact (LinkTo_inv hW (WayInv_frame (hlinks.on chNo) h) _).1
  · intro l
    constructor
    · intro hx
      rcases mem_setWs_add l w hx with h1 | h1
      · exact absurd h1 ((h.out w rfl).2 l)
      · exact h1.2
    · rintro rfl
      rw [setWs_eq]
      simp
  · unfold chosenList
    constructor
    · intro hc
      by_contra hne
      rw [if_neg hne] at hc
      exact listOfRequest_ne_idle _ _ hc
    · intro hc
      rw [if_pos hc]
  · intro hne
    unfold chosenList
    rw [if_neg hne]
    exact listOfRequest_defined P _ (hcode hne)

theorem unlinkedReadFW_unlinked :
    ∃ ws, WayInv exampleParams unlinkedReadFW 0 ws (some 0) := by
  obtain ⟨ws, h, hrest⟩ := blankFW_allIdle 0
  have h1 : WayInv exampleParams readQueuedFW 0 ws none :=
    WayInv_frame ((SameLinks.of_view (by simp [readQueuedFW])).on 0) h
  obtain ⟨l, hl⟩ := (h.cover 0 (by decide)).resolve_left (by simp)
  have hidle : l = .idle := by
    by_contra hne
    rw [hrest l hne] at hl
    simp at hl
  subst hidle
  obtain ⟨pre, post, hsplit⟩ := List.append_of_mem hl
  refine ⟨_, (unlinkWay_inv (by decide) h1 hsplit false (by simp)).1⟩

theorem FindPriorityTable_classification_witness :
    ¬ (unlinkedReadFW.reqEmpty 0 0 ∧ unlinkedReadFW.subEmpty 0 0) ∧
    selectedRequest unlinkedReadFW 0 0 REQ_QUEUE = exampleParams.V2FCommand_ReadPageTrigger ∧
    ((FindPriorityTable exampleParams unlinkedReadFW 0 0 REQ_QUEUE).dieStatusTable 0 0).queueSelect
      = REQ_QUEUE ∧
    chosenList exampleParams unlinkedReadFW 0 0 REQ_QUEUE = .nandTrigger ∧
    ((FindPriorityTable exampleParams unlinkedReadFW 0 0 REQ_QUEUE).wayPriorityTable 0).head
      .nandTrigger = 0 ∧
    WayListsOK exampleParams (FindPriorityTable exampleParams unlinkedReadFW 0 0 REQ_QUEUE) 0 := by
  obtain ⟨ws, h⟩ := unlinkedReadFW_unlinked
  have hc := FindPriorityTable_classification exampleParams unlinkedReadFW 0 ws 0 (by decide) h
    REQ_QUEUE (fun _ => by decide)
  refine ⟨by decide, by decide, ?_, ?_, by decide, ⟨_, hc.2.2.2.1⟩⟩
  · rw [hc.1]
    decide
  · rw [hc.2.2.2.2.2.2 (by decide)]
    decide

theorem find_range_first (p : Nat → Bool) (w0 : Nat) (hp : p w0 = true)
    (hfirst : ∀ w, w < w0 → p w = false) :
    ∀ n, w0 < n → (List.range n).find? p = some w0 := by
  intro n
  induction n with
  | zero => intro h; omega
  | succ n ih =>
    intro h
    rw [List.range_succ, List.find?_append]
    by_cases hlt : w0 < n
    · rw [ih hlt]; rfl
    · have hw : w0 = n := by omega
      subst hw
      have hnone : (List.range w0).find? p = none := by
        rw [List.find?_eq_none]
        intro x hx
        rw [hfirst x (List.mem_range.1 hx)]
        simp
      rw [hnone]
      simp [hp]

theorem find_range_none (p : Nat → Bool) (n : Nat) (h : ∀ w, w < n → p w = false) :
    (List.range n).find? p = none := by
  rw [List.find?_eq_none]
  intro x hx
  rw [h x (List.mem_range.1 hx)]
  simp

/-- The loop over all ways leaves no mailbox of the channel valid and makes one `translatePage`
call for each mailbox that was valid. -/
theorem drainAll_effect [Add α] (env : Env α) (P : Params) (s : FW α) (chNo : Nat) :
    (∀ w, w < P.WAY_NUM → ((drainAll env P s chNo).transPageReqQueue chNo w).valid = 0) ∧
    (∀ c w, mailboxCalls c w (drainAll env P s chNo).trace
        + (drainAll env P s chNo).mailboxPending c w
      = mailboxCalls c w s.trace + s.mailboxPending c w) := by
  unfold drainAll
  have key : ∀ n, (∀ w, w < n →
        ((forRange n (fun wayNo st => drainMailbox env P st chNo wayNo) s).transPageReqQueue
          chNo w).valid = 0) ∧
      (∀ c w, mailboxCalls c w
          (forRange n (fun wayNo st => drainMailbox env P st chNo wayNo) s).trace
          + (forRange n (fun wayNo st => drainMailbox env P st chNo wayNo) s).mailboxPending c w
        = mailboxCalls c w s.trace + s.mailboxPending c w) := by
    intro n
    induction n with
    | zero =>
      refine ⟨fun w hw => by omega, fun c w => ?_⟩
      simp [forRange]
    | succ n ih =>
      rw [forRange_succ]
      obtain ⟨ih1, ih2⟩ := ih
      have hf := drainMailbox_frame env P
        (forRange n (fun wayNo st => drainMailbox env P st chNo wayNo) s) chNo n
      refine ⟨fun w hw => ?_, fun c w => ?_⟩
      · by_cases hwn : w = n
        · subst hwn; exact hf.2.2.2.2.2.2.2.2.2.2.2
        · rw [hf.2.2.2.2.2.2.2.2.2.2.1 chNo w (fun h => hwn h.2)]
          exact ih1 w (by omega)
      · rw [drainMailbox_balance]; exact ih2 c w
  exact key P.WAY_NUM

/-- The loop that returns at the first valid mailbox. -/
theorem drainFirst_effect [Add α] (env : Env α) (P : Params) (s : FW α) (chNo : Nat) :
    (∀ w0, w0 < P.WAY_NUM → (s.transPageReqQueue chNo w0).valid ≠ 0 →
      (∀ w, w < w0 → (s.transPageReqQueue chNo w).valid = 0) →
      drainFirst env P s chNo = drainMailbox env P s chNo w0 ∧
      ((drainFirst env P s chNo).transPageReqQueue chNo w0).valid = 0 ∧
      mailboxCalls chNo w0 (drainFirst env P s chNo).trace
        = mailboxCalls chNo w0 s.trace + 1 ∧
      (∀ w, w ≠ w0 →
        (drainFirst env P s chNo).transPageReqQueue chNo w = s.transPageReqQueue chNo w ∧
        mailboxCalls chNo w (drainFirst env P s chNo).trace = mailboxCalls chNo w s.trace)) ∧
    ((∀ w, w < P.WAY_NUM → (s.transPageReqQueue chNo w).valid = 0) →
      drainFirst env P s chNo = s) := by
  constructor
  · intro w0 hw0 hv hfirst
    have hfind : (List.range P.WAY_NUM).find?
        (fun wayNo => decide ((s.transPageReqQueue chNo wayNo).valid ≠ 0)) = some w0 :=
      find_range_first _ w0 (by simpa using hv) (fun w hw => by simpa using hfirst w hw) _ hw0
    have hd : drainFirst env P s chNo = drainMailbox env P s chNo w0 := by
      unfold drainFirst
      rw [hfind]
    have hf := drainMailbox_frame env P s chNo w0
    refine ⟨hd, ?_, ?_, ?_⟩
    · rw [hd]; exact hf.2.2.2.2.2.2.2.2.2.2.2
    · have hb := drainMailbox_balance env P s chNo w0 chNo w0
      rw [hd]
      simp only [FW.mailboxPending, hf.2.2.2.2.2.2.2.2.2.2.2, if_pos hv] at hb
      simpa using hb
    · intro w hw
      have hm := hf.2.2.2.2.2.2.2.2.2.2.1 chNo w (fun h => hw h.2)
      have hb := drainMailbox_balance env P s chNo w0 chNo w
      rw [hd]
      refine ⟨hm, ?_⟩
      simp only [FW.mailboxPending, hm] at hb
      omega
  · intro hnone
    unfold drainFirst
    rw [find_range_none _ _ (fun w hw => by simpa using hnone w hw)]

theorem whileWay_leave {σ : Type} (Q : σ → Exit → Prop) (body : σ → Nat → Flow σ)
    (hbody : ∀ st w st2 e, body st w = .leave st2 e → Q st2 e) :
    ∀ fuel st w st2 e, whileWay body fuel st w = .leave st2 e → Q st2 e := by
  intro fuel
  induction fuel with
  | zero => intro st w st2 e h; simp [whileWay] at h
  | succ fuel ih =>
    intro st w st2 e h
    unfold whileWay at h
    by_cases hw : w = 0xf
    · rw [if_pos hw] at h; cases h
    · rw [if_neg hw] at h
      cases hb : body st w with
      | next st3 w3 => rw [hb] at h; exact ih st3 w3 st2 e h
      | leave st3 e3 =>
        rw [hb] at h
        cases h
        exact hbody st w _ _ hb

theorem andThen_fall (r : FW α × Exit) (f : FW α → FW α × Exit) (h : r.2 = .fallThrough) :
    andThen r f = f r.1 := by
  unfold andThen
  rw [h]

theorem andThen_left (r : FW α × Exit) (f : FW α → FW α × Exit) (h : r.2 ≠ .fallThrough) :
    andThen r f = r := by
  unfold andThen
  cases hr : r.2 with
  | fallThrough => exact absurd hr h
  | returned v => rfl
  | stopped => rfl

theorem andThen_first [Add α] (env : Env α) (P : Params) (chNo : Nat) (r : FW α × Exit)
    (f : FW α → FW α × Exit) (hr : ReturnsFirst env P chNo r.1 r.2)
    (hf : ∀ s1, ReturnsFirst env P chNo (f s1).1 (f s1).2) :
    ReturnsFirst env P chNo (andThen r f).1 (andThen r f).2 := by
  unfold andThen
  cases h : r.2 with
  | fallThrough => exact hf r.1
  | returned v => exact hr
  | stopped => exact hr

theorem afterIssue_first [Add α] (env : Env α) (P : Params) (s : FW α) (chNo wayNo : Nat)
    (st2 : FW α) (e : Exit) (h : afterIssue env P s chNo wayNo = .leave st2 e) :
    ReturnsFirst env P chNo st2 e := by
  unfold afterIssue at h
  split_ifs at h
  cases h
  intro v hv
  cases hv
  exact ⟨rfl, _, rfl⟩

theorem exit_first [Add α] (env : Env α) (P : Params) (chNo : Nat)
    (body : FW α → Nat → Flow (FW α))
    (hbody : ∀ st w st2 e, body st w = .leave st2 e → ReturnsFirst env P chNo st2 e)
    (fuel : Nat) (s : FW α) (w : Nat) :
    ReturnsFirst env P chNo ((whileWay body fuel s w).exit id).1
      ((whileWay body fuel s w).exit id).2 := by
  cases hr : whileWay body fuel s w with
  | next st w2 =>
    intro v hv
    simp only [Flow.exit] at hv
    split_ifs at hv
  | leave st e =>
    exact whileWay_leave (ReturnsFirst env P chNo) body hbody fuel s w st e hr

theorem sweep_first [Add α] (env : Env α) (P : Params) (chNo : Nat) (l : WayList)
    (body : FW α → Nat → Flow (FW α))
    (hbody : ∀ st w st2 e, body st w = .leave st2 e → ReturnsFirst env P chNo st2 e)
    (fuel : Nat) (s : FW α) :
    ReturnsFirst env P chNo (sweep l body fuel chNo s).1 (sweep l body fuel chNo s).2 := by
  unfold sweep
  split_ifs
  · exact exit_first env P chNo body hbody fuel s _
  · intro v hv; cases hv

theorem nandIssueBody_first [Add α] (env : Env α) (P : Params) (l : WayList) (slip : Bool)
    (chNo : Nat) (st : FW α) (w : Nat) (st2 : FW α) (e : Exit)
    (h : nandIssueBody env P l slip chNo st w = .leave st2 e) :
    ReturnsFirst env P chNo st2 e :=
  afterIssue_first env P _ chNo w st2 e h

theorem nandDmaBody_first [Add α] (env : Env α) (P : Params) (l target : WayList)
    (chNo : Nat) (st : FW α) (w : Nat) (st2 : FW α) (e : Exit)
    (h : nandDmaBody env P l target chNo st w = .leave st2 e) :
    ReturnsFirst env P chNo st2 e := by
  unfold nandDmaBody at h
  simp only [] at h
  split_ifs at h
  all_goals exact afterIssue_first env P _ chNo w st2 e h

theorem nandStatusBody_first [Add α] (env : Env α) (P : Params) (chNo readyBusy : Nat)
    (st : FW α) (w : Nat) (st2 : FW α) (e : Exit)
    (h : nandStatusBody env P chNo readyBusy st w = .leave st2 e) :
    ReturnsFirst env P chNo st2 e := by
  unfold nandStatusBody at h
  simp only [] at h
  split_ifs at h
  exact afterIssue_first env P _ chNo w st2 e h

theorem nvmeDmaBody_first [Add α] (env : Env α) (P : Params) (chNo firstQueue : Nat)
    (st : FW α) (w : Nat) (st2 : FW α) (e : Exit)
    (h : nvmeDmaBody env P chNo firstQueue st w = .leave st2 e) :
    ReturnsFirst env P chNo st2 e := by
  unfold nvmeDmaBody at h
  simp only [] at h
  split_ifs at h
  cases h
  intro v hv; cases hv

theorem statusReportBody_first [Add α] (env : Env α) (P : Params)
    (chNo firstQueue readyBusy : Nat)
    (st : FW α) (w : Nat) (st2 : FW α) (e : Exit)
    (h : statusReportBody env P chNo firstQueue readyBusy st w = .leave st2 e) :
    ReturnsFirst env P chNo st2 e := by
  unfold statusReportBody at h
  simp only [] at h
  split_ifs at h

/-- The idle stage returns only on its all-idle path: the sweep of the idle list ended with
every way of the channel counted as idle, and the state is the one left by the loop that
drains every mailbox, run after `PopFromTransReqQueue`. -/
theorem idleStage_returned [Add α] [Zero α] (env : Env α) (P : Params)
    (fuel chNo firstQueue transWaiting : Nat) (s : FW α) (v : Nat)
    (h : (idleStage env P fuel chNo firstQueue transWaiting s).2 = .returned v) :
    ∃ st : FW α × Nat,
      whileWay (idleBody P chNo firstQueue) fuel (s, 0) ((s.wayPriorityTable chNo).head .idle)
        = .next st 0xf ∧
      st.2 = P.WAY_NUM ∧
      (idleStage env P fuel chNo firstQueue transWaiting s).1
        = drainAll env P (PopFromTransReqQueue env P st.1).1 chNo ∧
      v = transWaiting ||| (PopFromTransReqQueue env P st.1).2 := by
  unfold idleStage at h ⊢
  by_cases hh : (s.wayPriorityTable chNo).head .idle ≠ 0xf
  · rw [if_pos hh] at h ⊢
    cases hr : whileWay (idleBody P chNo firstQueue) fuel (s, 0)
        ((s.wayPriorityTable chNo).head .idle) with
    | next st w =>
      rw [hr] at h
      simp only [] at h ⊢
      by_cases hw : w ≠ 0xf
      · rw [if_pos hw] at h; cases h
      · rw [if_neg hw] at h ⊢
        by_cases hn : st.2 = P.WAY_NUM
        · rw [if_pos hn] at h ⊢
          by_cases hhalt : (PopFromTransReqQueue env P st.1).1.halted
          · rw [if_pos hhalt] at h; cases h
          · rw [if_neg hhalt] at h ⊢
            have hw2 : w = 0xf := by
              by_contra hc
              exact hw hc
            refine ⟨st, by rw [hw2], hn, rfl, ?_⟩
            cases h
            rfl
        · rw [if_neg hn] at h; cases h
    | leave st e =>
      exfalso
      refine whileWay_leave (fun _ _ => False) (idleBody P chNo firstQueue) ?_ fuel _ _ st e hr
      intro st1 w1 st2 e2 hb
      unfold idleBody at hb
      simp only [] at hb
      split_ifs at hb
  · rw [if_neg hh] at h
    cases h

/-- After an idle stage that fell through, every return of `ExeLowLevelReqPerCh` has the value
1 and comes right after the mailbox loop that stops at the first valid mailbox. -/
theorem ExeLowLevelReqPerCh_first [Add α] [Zero α] (env : Env α) (P : Params) (fuel : Nat)
    (s : FW α) (chNo firstQueue : Nat)
    (hidle : (idleStage env P fuel chNo firstQueue (PopFromTransReadReqQueue P s).2
      (PopFromTransReadReqQueue P s).1).2 = .fallThrough) :
    ReturnsFirst env P chNo (ExeLowLevelReqPerCh env P fuel s chNo firstQueue).1
      (ExeLowLevelReqPerCh env P fuel s chNo firstQueue).2 := by
  unfold ExeLowLevelReqPerCh
  simp only []
  rw [andThen_fall _ _ hidle]
  generalize (idleStage env P fuel chNo firstQueue (PopFromTransReadReqQueue P s).2
      (PopFromTransReadReqQueue P s).1).1 = s1
  refine andThen_first env P chNo _ _ ?_ ?_
  · unfold statusReportStage
    split_ifs
    · exact exit_first env P chNo _ (statusReportBody_first env P chNo firstQueue _) fuel _ _
    · intro v hv; cases hv
  intro s2
  refine andThen_first env P chNo _ _
    (sweep_first env P chNo _ _ (nvmeDmaBody_first env P chNo firstQueue) fuel s2) ?_
  intro s3
  refine andThen_first env P chNo _ _ ?_ ?_
  · unfold nandStages
    split_ifs
    · intro v hv; cases hv
    · refine andThen_first env P chNo _ _ ?_ ?_
      · unfold nandStatusStage
        by_cases hh : (s3.tick.wayPriorityTable chNo).head .nandStatus ≠ 0xf
        · rw [if_pos hh]
          exact exit_first env P chNo _ (nandStatusBody_first env P chNo _) fuel _ _
        · rw [if_neg hh]
          intro v hv; cases hv
      intro t1
      refine andThen_first env P chNo _ _
        (sweep_first env P chNo _ _ (nandIssueBody_first env P _ _ chNo) fuel t1) ?_
      intro t2
      refine andThen_first env P chNo _ _
        (sweep_first env P chNo _ _ (nandIssueBody_first env P _ _ chNo) fuel t2) ?_
      intro t3
      refine andThen_first env P chNo _ _
        (sweep_first env P chNo _ _ (nandDmaBody_first env P _ _ chNo) fuel t3) ?_
      intro t4
      exact sweep_first env P chNo _ _ (nandDmaBody_first env P _ _ chNo) fuel t4
  intro s4
  intro v hv
  cases hv
  exact ⟨rfl, _, rfl⟩

/-- The two ways in which `ExeLowLevelReqPerCh` returns. -/
theorem ExeLowLevelReqPerCh_returns [Add α] [Zero α] (env : Env α) (P : Params) (fuel : Nat)
    (s : FW α) (chNo firstQueue : Nat) (v : Nat)
    (h : (ExeLowLevelReqPerCh env P fuel s chNo firstQueue).2 = .returned v) :
    (∃ st : FW α × Nat,
        whileWay (idleBody P chNo firstQueue) fuel ((PopFromTransReadReqQueue P s).1, 0)
          (((PopFromTransReadReqQueue P s).1.wayPriorityTable chNo).head .idle)
          = .next st 0xf ∧
        st.2 = P.WAY_NUM ∧
        (ExeLowLevelReqPerCh env P fuel s chNo firstQueue).1
          = drainAll env P (PopFromTransReqQueue env P st.1).1 chNo ∧
        v = (PopFromTransReadReqQueue P s).2 ||| (PopFromTransReqQueue env P st.1).2) ∨
    ((idleStage env P fuel chNo firstQueue (PopFromTransReadReqQueue P s).2
          (PopFromTransReadReqQueue P s).1).2 = .fallThrough ∧
      v = 1 ∧
      ∃ s1, (ExeLowLevelReqPerCh env P fuel s chNo firstQueue).1 = drainFirst env P s1 chNo) := by
  cases hi : (idleStage env P fuel chNo firstQueue (PopFromTransReadReqQueue P s).2
      (PopFromTransReadReqQueue P s).1).2 with
  | fallThrough =>
    obtain ⟨h1, h2⟩ := ExeLowLevelReqPerCh_first env P fuel s chNo firstQueue hi v h
    exact Or.inr ⟨rfl, h1, h2⟩
  | returned v2 =>
    have heq : ExeLowLevelReqPerCh env P fuel s chNo firstQueue
        = idleStage env P fuel chNo firstQueue (PopFromTransReadReqQueue P s).2
          (PopFromTransReadReqQueue P s).1 := by
      unfold ExeLowLevelReqPerCh
      simp only []
      exact andThen_left _ _ (by rw [hi]; exact Exit.noConfusion)
    rw [heq] at h ⊢
    obtain ⟨st, e1, e2, e3, e4⟩ := idleStage_returned env P fuel chNo firstQueue _ _ v h
    exact Or.inl ⟨st, e1, e2, e3, e4⟩
  | stopped =>
    exfalso
    have heq : ExeLowLevelReqPerCh env P fuel s chNo firstQueue
        = idleStage env P fuel chNo firstQueue (PopFromTransReadReqQueue P s).2
          (PopFromTransReadReqQueue P s).1 := by
      unfold ExeLowLevelReqPerCh
      simp only []
      exact andThen_left _ _ (by rw [hi]; exact Exit.noConfusion)
    rw [heq, hi] at h
    cases h

/-- The physical row address of a push in SLC mode. -/
theorem phyRowAddrOf_slc (P : Params) (a : Nat) (hslc : P.slcMode = true)
    (ha : a < 2 * P.PAGE_NUM_PER_LUN)
    (hbelow : (a % P.PAGE_NUM_PER_LUN) / P.PAGE_NUM_PER_BLOCK * P.PAGE_NUM_PER_BLOCK * 2
        + (if a % P.PAGE_NUM_PER_BLOCK = 0 then 0 else 2 * (a % P.PAGE_NUM_PER_BLOCK) - 1)
      < LUN_1_BASE_ADDR) :
    phyRowAddrOf P a = (a / P.PAGE_NUM_PER_LUN) * LUN_1_BASE_ADDR
      + ((a % P.PAGE_NUM_PER_LUN) / P.PAGE_NUM_PER_BLOCK * P.PAGE_NUM_PER_BLOCK * 2
        + (if a % P.PAGE_NUM_PER_BLOCK = 0 then 0 else 2 * (a % P.PAGE_NUM_PER_BLOCK) - 1)) := by
  have hL : 0 < P.PAGE_NUM_PER_LUN := by omega
  have hlun : a / P.PAGE_NUM_PER_LUN < 2 := (Nat.div_lt_iff_lt_mul hL).2 ha
  unfold phyRowAddrOf
  simp only [hslc, if_true, LUN_0_BASE_ADDR]
  generalize a / P.PAGE_NUM_PER_LUN = lun at hlun ⊢
  generalize (a % P.PAGE_NUM_PER_LUN) / P.PAGE_NUM_PER_BLOCK * P.PAGE_NUM_PER_BLOCK = bb
    at hbelow ⊢
  generalize a % P.PAGE_NUM_PER_BLOCK = p at hbelow ⊢
  simp only [LUN_1_BASE_ADDR, U32] at hbelow ⊢
  by_cases hp : p = 0
  · simp only [hp, if_true] at hbelow ⊢
    by_cases h0 : lun = 0
    · simp only [h0, if_true]; omega
    · have h1 : lun = 1 := by omega
      simp only [h1]; norm_num; omega
  · simp only [hp, if_false] at hbelow ⊢
    have e : p * 2 - 1 = 2 * p - 1 := by omega
    by_cases h0 : lun = 0
    · simp only [h0, if_true, e]; omega
    · have h1 : lun = 1 := by omega
      simp only [h1, e]; norm_num; omega

/-- The physical row address of a push in MLC mode. -/
theorem phyRowAddrOf_mlc (P : Params) (a : Nat) (hmlc : P.slcMode = false)
    (ha : a < 2 * P.PAGE_NUM_PER_LUN) (hbelow : a % P.PAGE_NUM_PER_LUN < LUN_1_BASE_ADDR) :
    phyRowAddrOf P a = (a / P.PAGE_NUM_PER_LUN) * LUN_1_BASE_ADDR + a % P.PAGE_NUM_PER_LUN := by
  have hL : 0 < P.PAGE_NUM_PER_LUN := by omega
  have hlun : a / P.PAGE_NUM_PER_LUN < 2 := (Nat.div_lt_iff_lt_mul hL).2 ha
  unfold phyRowAddrOf
  simp only [hmlc, LUN_0_BASE_ADDR]
  generalize a / P.PAGE_NUM_PER_LUN = lun at hlun ⊢
  generalize a % P.PAGE_NUM_PER_LUN = q at hbelow ⊢
  simp only [LUN_1_BASE_ADDR, U32] at hbelow ⊢
  by_cases h0 : lun = 0
  · simp [h0]; omega
  · have h1 : lun = 1 := by omega
    simp [h1]; omega

/-- The block number of a row address `lun * LUN_1_BASE_ADDR + offset`. -/
theorem warningBlockNo_of_offset (P : Params) (lun offset : Nat)
    (hoff : offset < LUN_1_BASE_ADDR) :
    warningBlockNo P (lun * LUN_1_BASE_ADDR + offset) =
      (lun * P.MAX_BLOCK_NUM_PER_LUN + offset / P.PAGE_NUM_PER_MLC_BLOCK) % U32 := by
  unfold warningBlockNo
  have h1 : (lun * LUN_1_BASE_ADDR + offset) / LUN_1_BASE_ADDR = lun := by
    rw [Nat.add_comm, Nat.add_mul_div_right _ _ (by decide : 0 < LUN_1_BASE_ADDR),
      Nat.div_eq_of_lt hoff, Nat.zero_add]
  have h2 : (lun * LUN_1_BASE_ADDR + offset) % LUN_1_BASE_ADDR = offset := by
    rw [Nat.add_comm, Nat.add_mul_mod_self_right, Nat.mod_eq_of_lt hoff]
  rw [h1, h2]

/-- The round trip of the block number, on row addresses. -/
theorem warningBlockNo_phyRowAddrOf (P : Params) (a : Nat)
    (ha : a < 2 * P.PAGE_NUM_PER_LUN) (hB : 0 < P.PAGE_NUM_PER_BLOCK)
    (hmode : (P.slcMode = true ∧ 2 * P.PAGE_NUM_PER_BLOCK = P.PAGE_NUM_PER_MLC_BLOCK ∧
        (a % P.PAGE_NUM_PER_LUN) / P.PAGE_NUM_PER_BLOCK * P.PAGE_NUM_PER_BLOCK * 2
          + (if a % P.PAGE_NUM_PER_BLOCK = 0 then 0 else 2 * (a % P.PAGE_NUM_PER_BLOCK) - 1)
        < LUN_1_BASE_ADDR) ∨
      (P.slcMode = false ∧ P.PAGE_NUM_PER_BLOCK = P.PAGE_NUM_PER_MLC_BLOCK ∧
        a % P.PAGE_NUM_PER_LUN < LUN_1_BASE_ADDR)) :
    warningBlockNo P (phyRowAddrOf P a) =
      ((a / P.PAGE_NUM_PER_LUN) * P.MAX_BLOCK_NUM_PER_LUN
        + (a % P.PAGE_NUM_PER_LUN) / P.PAGE_NUM_PER_BLOCK) % U32 := by
  rcases hmode with ⟨hslc, hgeo, hbelow⟩ | ⟨hmlc, hgeo, hbelow⟩
  · rw [phyRowAddrOf_slc P a hslc ha hbelow, warningBlockNo_of_offset P _ _ hbelow, ← hgeo]
    congr 2
    have hp : a % P.PAGE_NUM_PER_BLOCK < P.PAGE_NUM_PER_BLOCK := Nat.mod_lt _ hB
    generalize (a % P.PAGE_NUM_PER_LUN) / P.PAGE_NUM_PER_BLOCK = b
    generalize a % P.PAGE_NUM_PER_BLOCK = p at hp
    apply Nat.div_eq_of_lt_le
    · have : b * P.PAGE_NUM_PER_BLOCK * 2 = b * (2 * P.PAGE_NUM_PER_BLOCK) := by ring
      omega
    · have : (b + 1) * (2 * P.PAGE_NUM_PER_BLOCK)
          = b * P.PAGE_NUM_PER_BLOCK * 2 + 2 * P.PAGE_NUM_PER_BLOCK := by ring
      rw [this]
      split_ifs <;> omega
  · rw [phyRowAddrOf_mlc P a hmlc ha hbelow, warningBlockNo_of_offset P _ _ hbelow, ← hgeo]

/-- C18: the bad-block number round trip across cell modes.  For a logical row address
`a < 2 * PAGE_NUM_PER_LUN` pushed with `PushToReqQueueNonBlocking` as a NAND request, in SLC
mode with `2 * PAGE_NUM_PER_BLOCK = PAGE_NUM_PER_MLC_BLOCK` or in MLC mode with
`PAGE_NUM_PER_BLOCK = PAGE_NUM_PER_MLC_BLOCK`, and the physical page offset inside the LUN
below `LUN_1_BASE_ADDR`: the slot written by the push holds the physical row address
`LUN_base + block * PAGE_NUM_PER_BLOCK * 2 + (page == 0 ? 0 : 2 * page - 1)` (SLC) or
`LUN_base + a mod PAGE_NUM_PER_LUN` (MLC), and the block number that the `RS_WARNING` branch
derives from a head entry with this row address,
`(row / LUN_1_BASE_ADDR) * MAX_BLOCK_NUM_PER_LUN + (row mod LUN_1_BASE_ADDR) /
PAGE_NUM_PER_MLC_BLOCK`, equals `lun * MAX_BLOCK_NUM_PER_LUN + block` (as `unsigned int`),
where `lun = a / PAGE_NUM_PER_LUN` and `block = (a mod PAGE_NUM_PER_LUN) / PAGE_NUM_PER_BLOCK`;
this is the number the branch looks up and stores in the new-bad-block slots of the die. -/
theorem bad_block_number_round_trip (P : Params) (s : FW α) (lowLevelCmd : LowLevelReqInfo)
    (openSlots : Nat)
    (hnand : lowLevelCmd.request < LLSCommand_RxDMA)
    (hpush : (PushToReqQueueNonBlocking P s lowLevelCmd openSlots).2 = 1)
    (ha : lowLevelCmd.rowAddr < 2 * P.PAGE_NUM_PER_LUN) (hB : 0 < P.PAGE_NUM_PER_BLOCK)
    (hmode : (P.slcMode = true ∧ 2 * P.PAGE_NUM_PER_BLOCK = P.PAGE_NUM_PER_MLC_BLOCK ∧
        (lowLevelCmd.rowAddr % P.PAGE_NUM_PER_LUN) / P.PAGE_NUM_PER_BLOCK
            * P.PAGE_NUM_PER_BLOCK * 2
          + (if lowLevelCmd.rowAddr % P.PAGE_NUM_PER_BLOCK = 0 then 0
              else 2 * (lowLevelCmd.rowAddr % P.PAGE_NUM_PER_BLOCK) - 1)
        < LUN_1_BASE_ADDR) ∨
      (P.slcMode = false ∧ P.PAGE_NUM_PER_BLOCK = P.PAGE_NUM_PER_MLC_BLOCK ∧
        lowLevelCmd.rowAddr % P.PAGE_NUM_PER_LUN < LUN_1_BASE_ADDR)) :
    ((PushToReqQueueNonBlocking P s lowLevelCmd openSlots).1.reqQueue
        (s.rqPointer lowLevelCmd.chNo lowLevelCmd.wayNo).rear
        lowLevelCmd.chNo lowLevelCmd.wayNo).rowAddr = phyRowAddrOf P lowLevelCmd.rowAddr ∧
    (P.slcMode = true →
      phyRowAddrOf P lowLevelCmd.rowAddr =
        (lowLevelCmd.rowAddr / P.PAGE_NUM_PER_LUN) * LUN_1_BASE_ADDR
        + ((lowLevelCmd.rowAddr % P.PAGE_NUM_PER_LUN) / P.PAGE_NUM_PER_BLOCK
              * P.PAGE_NUM_PER_BLOCK * 2
            + (if lowLevelCmd.rowAddr % P.PAGE_NUM_PER_BLOCK = 0 then 0
                else 2 * (lowLevelCmd.rowAddr % P.PAGE_NUM_PER_BLOCK) - 1))) ∧
    (P.slcMode = false →
      phyRowAddrOf P lowLevelCmd.rowAddr =
        (lowLevelCmd.rowAddr / P.PAGE_NUM_PER_LUN) * LUN_1_BASE_ADDR
        + lowLevelCmd.rowAddr % P.PAGE_NUM_PER_LUN) ∧
    warningBlockNo P (phyRowAddrOf P lowLevelCmd.rowAddr) =
      ((lowLevelCmd.rowAddr / P.PAGE_NUM_PER_LUN) * P.MAX_BLOCK_NUM_PER_LUN
        + (lowLevelCmd.rowAddr % P.PAGE_NUM_PER_LUN) / P.PAGE_NUM_PER_BLOCK) % U32 ∧
    (∀ (t : FW α) (chNo wayNo : Nat),
      (t.headReq chNo wayNo).rowAddr = phyRowAddrOf P lowLevelCmd.rowAddr →
      (warningBranch P t chNo wayNo).newBadBlocks chNo wayNo =
        recordNewBadBlock (t.newBadBlocks chNo wayNo)
          (((lowLevelCmd.rowAddr / P.PAGE_NUM_PER_LUN) * P.MAX_BLOCK_NUM_PER_LUN
            + (lowLevelCmd.rowAddr % P.PAGE_NUM_PER_LUN) / P.PAGE_NUM_PER_BLOCK) % U32)
          REQ_QUEUE_DEPTH 0) := by
  have hrt := warningBlockNo_phyRowAddrOf P lowLevelCmd.rowAddr ha hB hmode
  refine ⟨?_, ?_, ?_, hrt, ?_⟩
  · have hav : CheckReqQueueAvailability s lowLevelCmd.chNo lowLevelCmd.wayNo openSlots ≠ 0 := by
      intro h0
      simp [PushToReqQueueNonBlocking, h0] at hpush
    have hn : ¬ lowLevelCmd.request ≥ LLSCommand_RxDMA := by omega
    simp [PushToReqQueueNonBlocking, hav, hn, FW.modRq, FW.modReq, FW.modDie, set3, pushNandEntry]
  · intro hslc
    rcases hmode with ⟨_, _, hbelow⟩ | ⟨hmlc, _, _⟩
    · exact phyRowAddrOf_slc P _ hslc ha hbelow
    · rw [hslc] at hmlc; cases hmlc
  · intro hmlc
    rcases hmode with ⟨hslc, _, _⟩ | ⟨_, _, hbelow⟩
    · rw [hmlc] at hslc; cases hslc
    · exact phyRowAddrOf_mlc P _ hmlc ha hbelow
  · intro t chNo wayNo hrow
    rw [(warningBranch_effect P t chNo wayNo).1, hrow, hrt]

theorem bad_block_number_round_trip_witness :
    phyRowAddrOf exampleParams 262444 = 0x200000 + 2 * 256 + 87 ∧
    warningBlockNo exampleParams (phyRowAddrOf exampleParams lunOneReadCmd.rowAddr)
      = (1 * 4096 + 2) % U32 :=
  ⟨by decide,
    (bad_block_number_round_trip exampleParams blankFW lunOneReadCmd 0 (by decide) (by decide)
      (by decide) (by decide) (Or.inl ⟨rfl, by decide, by decide⟩)).2.2.2.1⟩

/-- The rounding of the result size. -/
theorem nlb_ceiling (bytes S : Nat) (hS : 0 < S) :
    (bytes = 0 → bytes / S + (if bytes % S ≠ 0 then 1 else 0) = 0) ∧
    (0 < bytes → bytes ≤ (bytes / S + (if bytes % S ≠ 0 then 1 else 0)) * S ∧
      (bytes / S + (if bytes % S ≠ 0 then 1 else 0) - 1) * S < bytes) := by
  have hdm := Nat.div_add_mod bytes S
  have hlt := Nat.mod_lt bytes hS
  constructor
  · intro h0; subst h0; simp
  · intro hpos
    by_cases hm : bytes % S = 0
    · have hne : ¬ (bytes % S ≠ 0) := fun h => h hm
      rw [if_neg hne, Nat.add_zero]
      have hq : 0 < bytes / S := by
        rcases Nat.eq_zero_or_pos (bytes / S) with h | h
        · rw [h, hm] at hdm; omega
        · exact h
      have e1 : bytes / S * S = bytes := by
        rw [Nat.mul_comm]; omega
      have e2 : (bytes / S - 1) * S = bytes / S * S - S := by
        rw [Nat.sub_mul, Nat.one_mul]
      rw [e2, e1]
      constructor
      · exact le_refl _
      · omega
    · rw [if_pos hm, Nat.add_sub_cancel, Nat.add_mul, Nat.one_mul]
      have e1 : bytes / S * S = S * (bytes / S) := Nat.mul_comm _ _
      constructor <;> omega

/-- The loop that clears the counters of the result sectors. -/
theorem clearCounters_zero (e : Nat) (s1 : FW α) :
    ∀ n, (∀ i, i < n →
        ((forRange n (fun i (st : FW α) => st.modTransMap e (fun x =>
          { x with
            perResultSectorCompletedEmbeddings := set1 x.perResultSectorCompletedEmbeddings i 0
            perResultSectorInputEmbeddings := set1 x.perResultSectorInputEmbeddings i 0 }))
          s1).transMap e).perResultSectorCompletedEmbeddings i = 0 ∧
        ((forRange n (fun i (st : FW α) => st.modTransMap e (fun x =>
          { x with
            perResultSectorCompletedEmbeddings := set1 x.perResultSectorCompletedEmbeddings i 0
            perResultSectorInputEmbeddings := set1 x.perResultSectorInputEmbeddings i 0 }))
          s1).transMap e).perResultSectorInputEmbeddings i = 0) ∧
      ((forRange n (fun i (st : FW α) => st.modTransMap e (fun x =>
          { x with
            perResultSectorCompletedEmbeddings := set1 x.perResultSectorCompletedEmbeddings i 0
            perResultSectorInputEmbeddings := set1 x.perResultSectorInputEmbeddings i 0 }))
          s1).transMap e).nlb = (s1.transMap e).nlb := by
  intro n
  induction n with
  | zero => exact ⟨fun i hi => absurd hi (Nat.not_lt_zero _), rfl⟩
  | succ n ih =>
    rw [forRange_succ]
    obtain ⟨ih1, ih2⟩ := ih
    refine ⟨fun i hi => ?_, ?_⟩
    · simp only [FW.modTransMap, set1_eq]
      by_cases hin : i = n
      · subst hin; simp
      · rw [set1_ne _ _ hin, set1_ne _ _ hin]
        exact ih1 i (by omega)
    · simp only [FW.modTransMap, set1_eq]
      exact ih2

theorem configurePair_count [Add α] (P : Params) (s : FW α) (e nlb m : Nat)
    (st : FW α × ConfigLocals) (h : CountInv P s e nlb m st) :
    CountInv P s e nlb (m + 1) (configurePair P e m st) := by
  obtain ⟨st1, loc⟩ := st
  obtain ⟨hcfg, hcache, hnlb, hcomp, hin⟩ := h
  simp only at hcfg hcache hnlb hcomp hin
  unfold configurePair
  simp only []
  rw [hcfg, hcache]
  by_cases hhit : (s.transCache
        (cacheKey ((s.transConfig e).embeddingIDList m).embeddingID (s.transConfig e).tableID).1).valid
        ≠ 0 ∧
      (s.transCache
        (cacheKey ((s.transConfig e).embeddingIDList m).embeddingID (s.transConfig e).tableID).1).tag
        = (cacheKey ((s.transConfig e).embeddingIDList m).embeddingID (s.transConfig e).tableID).2
  · rw [if_pos hhit]
    refine ⟨rfl, rfl, hnlb, hcomp, fun i hi => ?_⟩
    simp only [missesInSector]
    rw [if_neg (fun hc => hc.1 hhit), Nat.add_zero]
    exact hin i hi
  · rw [if_neg hhit]
    have hcount : ∀ i, missesInSector P s.transCache (s.transConfig e) i (m + 1)
        = missesInSector P s.transCache (s.transConfig e) i m
          + (if resultSectorOf P (s.transConfig e) m = i then 1 else 0) := by
      intro i
      simp only [missesInSector]
      by_cases hsec : resultSectorOf P (s.transConfig e) m = i
      · rw [if_pos ⟨hhit, hsec⟩, if_pos hsec]
      · rw [if_neg (fun hc => hsec hc.2), if_neg hsec]
    have hinput : ∀ i, i < nlb →
        set1 (st1.transMap e).perResultSectorInputEmbeddings
            (resultSectorOf P (s.transConfig e) m)
            (((st1.transMap e).perResultSectorInputEmbeddings
              (resultSectorOf P (s.transConfig e) m) + 1) % U32) i
          = missesInSector P s.transCache (s.transConfig e) i (m + 1) % U32 := by
      intro i hi
      rw [hcount i]
      by_cases hsec : resultSectorOf P (s.transConfig e) m = i
      · subst hsec
        rw [set1_eq, if_pos rfl, hin _ hi, Nat.mod_add_mod]
      · rw [set1_ne _ _ (fun h => hsec h.symm), if_neg hsec, Nat.add_zero]
        exact hin i hi
    split_ifs
    · refine ⟨rfl, rfl, ?_, ?_, ?_⟩
      · simp only [FW.modTransMap, set1_eq]; exact hnlb
      · simp only [FW.modTransMap, set1_eq]; exact hcomp
      · simp only [FW.modTransMap, set1_eq]; exact hinput
    · refine ⟨rfl, rfl, ?_, ?_, ?_⟩
      · simp only [FW.modTransMap, set1_eq]; exact hnlb
      · simp only [FW.modTransMap, set1_eq]; exact hcomp
      · simp only [FW.modTransMap, set1_eq]; exact hinput

theorem configureLoop_count [Add α] (P : Params) (s : FW α) (e nlb : Nat)
    (init : FW α × ConfigLocals) (h0 : CountInv P s e nlb 0 init) (n : Nat) :
    CountInv P s e nlb n (forRange n (configurePair P e) init) := by
  induction n with
  | zero => exact h0
  | succ n ih =>
    rw [forRange_succ]
    exact configurePair_count P s e nlb n _ ih

/-- The size and the counters that `ConfigureTransBufEntry` leaves, on the arrays of the
embedding. -/
theorem ConfigureTransBufEntry_counters [Add α] [Zero α] (P : Params) (s : FW α) (entryIdx : Nat)
    (hS : 0 < P.SECTOR_SIZE_FTL) :
    (resultBytes (s.transConfig entryIdx) = 0 →
      ((ConfigureTransBufEntry P s entryIdx).transMap entryIdx).nlb = 0) ∧
    (0 < resultBytes (s.transConfig entryIdx) →
      resultBytes (s.transConfig entryIdx)
        ≤ ((ConfigureTransBufEntry P s entryIdx).transMap entryIdx).nlb * P.SECTOR_SIZE_FTL ∧
      (((ConfigureTransBufEntry P s entryIdx).transMap entryIdx).nlb - 1) * P.SECTOR_SIZE_FTL
        < resultBytes (s.transConfig entryIdx)) ∧
    (∀ i, i < ((ConfigureTransBufEntry P s entryIdx).transMap entryIdx).nlb →
      ((ConfigureTransBufEntry P s entryIdx).transMap entryIdx).perResultSectorCompletedEmbeddings
          i = 0 ∧
      ((ConfigureTransBufEntry P s entryIdx).transMap entryIdx).perResultSectorInputEmbeddings i
        = missesInSector P s.transCache (s.transConfig entryIdx) i
            (s.transConfig entryIdx).inputEmbeddings % U32) := by
  obtain ⟨hz, hc⟩ := clearCounters_zero entryIdx
    (s.modTransMap entryIdx (fun x => { x with nlb :=
      (resultBytes (s.transConfig entryIdx) / P.SECTOR_SIZE_FTL
        + (if resultBytes (s.transConfig entryIdx) % P.SECTOR_SIZE_FTL ≠ 0 then 1 else 0)) }))
    (resultBytes (s.transConfig entryIdx) / P.SECTOR_SIZE_FTL
        + (if resultBytes (s.transConfig entryIdx) % P.SECTOR_SIZE_FTL ≠ 0 then 1 else 0))
  obtain ⟨hf1, hf2, _, _⟩ := clearCounters_frame entryIdx
    (resultBytes (s.transConfig entryIdx) / P.SECTOR_SIZE_FTL
        + (if resultBytes (s.transConfig entryIdx) % P.SECTOR_SIZE_FTL ≠ 0 then 1 else 0))
    (s.modTransMap entryIdx (fun x => { x with nlb :=
      (resultBytes (s.transConfig entryIdx) / P.SECTOR_SIZE_FTL
        + (if resultBytes (s.transConfig entryIdx) % P.SECTOR_SIZE_FTL ≠ 0 then 1 else 0)) }))
  have hloop := configureLoop_count P s entryIdx
    (resultBytes (s.transConfig entryIdx) / P.SECTOR_SIZE_FTL
        + (if resultBytes (s.transConfig entryIdx) % P.SECTOR_SIZE_FTL ≠ 0 then 1 else 0))
    ((forRange (resultBytes (s.transConfig entryIdx) / P.SECTOR_SIZE_FTL
          + (if resultBytes (s.transConfig entryIdx) % P.SECTOR_SIZE_FTL ≠ 0 then 1 else 0))
        (fun i (st : FW α) => st.modTransMap entryIdx (fun x =>
          { x with
            perResultSectorCompletedEmbeddings := set1 x.perResultSectorCompletedEmbeddings i 0
            perResultSectorInputEmbeddings := set1 x.perResultSectorInputEmbeddings i 0 }))
        (s.modTransMap entryIdx (fun x => { x with nlb :=
          (resultBytes (s.transConfig entryIdx) / P.SECTOR_SIZE_FTL
            + (if resultBytes (s.transConfig entryIdx) % P.SECTOR_SIZE_FTL ≠ 0
                then 1 else 0)) }))).modTransMap entryIdx (fun x =>
        { x with
          perPageSLBAs := set1 x.perPageSLBAs 0
            ((x.slba + (pageIdOf P (s.transConfig entryIdx) 0 * P.SECTOR_NUM_PER_PAGE) % U32)
              % U32)
          perPageStartingIndex := set1 x.perPageStartingIndex 0 0 }),
      { page_index := 0, page_id := pageIdOf P (s.transConfig entryIdx) 0,
        cur_page_input_length := 0 })
    (by
      refine ⟨hf1, hf2, ?_, ?_, ?_⟩
      · simp only [FW.modTransMap, set1_eq] at hc ⊢
        exact hc
      · intro i hi
        simp only [FW.modTransMap, set1_eq] at hz ⊢
        exact (hz i hi).1
      · intro i hi
        simp only [FW.modTransMap, set1_eq, missesInSector, Nat.zero_mod] at hz ⊢
        exact (hz i hi).2)
    (s.transConfig entryIdx).inputEmbeddings
  obtain ⟨_, _, hnlb, hcomp, hin⟩ := hloop
  have hfin : ((ConfigureTransBufEntry P s entryIdx).transMap entryIdx).nlb
      = resultBytes (s.transConfig entryIdx) / P.SECTOR_SIZE_FTL
        + (if resultBytes (s.transConfig entryIdx) % P.SECTOR_SIZE_FTL ≠ 0 then 1 else 0) := by
    unfold ConfigureTransBufEntry
    simp only [FW.modTransMap, set1_eq]
    exact hnlb
  obtain ⟨hc0, hc1⟩ := nlb_ceiling (resultBytes (s.transConfig entryIdx)) P.SECTOR_SIZE_FTL hS
  rw [hfin]
  refine ⟨hc0, hc1, fun i hi => ⟨?_, ?_⟩⟩
  · unfold ConfigureTransBufEntry
    simp only [FW.modTransMap, set1_eq]
    exact hcomp i hi
  · unfold ConfigureTransBufEntry
    simp only [FW.modTransMap, set1_eq]
    exact hin i hi

/-- Page ids follow the order of the embedding ids. -/
theorem pageIdOf_mono (P : Params) (config : TransConfig) (i j : Nat)
    (hle : (config.embeddingIDList i).embeddingID ≤ (config.embeddingIDList j).embeddingID)
    (hfit : (config.embeddingIDList j).embeddingID * config.attributeSize
      * config.embeddingLength < U32) :
    pageIdOf P config i ≤ pageIdOf P config j := by
  unfold pageIdOf
  have h1 : (config.embeddingIDList i).embeddingID * config.attributeSize * config.embeddingLength
      ≤ (config.embeddingIDList j).embeddingID * config.attributeSize * config.embeddingLength :=
    Nat.mul_le_mul_right _ (Nat.mul_le_mul_right _ hle)
  rw [Nat.mod_eq_of_lt hfit, Nat.mod_eq_of_lt (Nat.lt_of_le_of_lt h1 hfit)]
  exact Nat.div_le_div_right h1

theorem slbaOfPage_fit (P : Params) (slba q : Nat) (h : slba + q * P.SECTOR_NUM_PER_PAGE < U32) :
    slbaOfPage P slba q = slba + q * P.SECTOR_NUM_PER_PAGE := by
  unfold slbaOfPage
  rw [Nat.mod_eq_of_lt (by omega : q * P.SECTOR_NUM_PER_PAGE < U32), Nat.mod_eq_of_lt h]

theorem slbaOfPage_lt (P : Params) (slba q1 q2 : Nat) (hS : 0 < P.SECTOR_NUM_PER_PAGE)
    (hq : q1 < q2) (h : slba + q2 * P.SECTOR_NUM_PER_PAGE < U32) :
    slbaOfPage P slba q1 < slbaOfPage P slba q2 := by
  have h12 : q1 * P.SECTOR_NUM_PER_PAGE < q2 * P.SECTOR_NUM_PER_PAGE :=
    Nat.mul_lt_mul_of_pos_right hq hS
  rw [slbaOfPage_fit P slba q2 h, slbaOfPage_fit P slba q1 (by omega)]
  omega

theorem configurePair_order [Add α] (P : Params) (s : FW α) (e n m : Nat)
    (st : FW α × ConfigLocals) (hm : m < n) (hS : 0 < P.SECTOR_NUM_PER_PAGE)
    (hsorted : ∀ i j, i ≤ j → j < n →
      ((s.transConfig e).embeddingIDList i).embeddingID
        ≤ ((s.transConfig e).embeddingIDList j).embeddingID)
    (hfit : ∀ i, i < n → ((s.transConfig e).embeddingIDList i).embeddingID
      * (s.transConfig e).attributeSize * (s.transConfig e).embeddingLength < U32)
    (hslbaFit : ∀ i, i < n →
      (s.transMap e).slba + pageIdOf P (s.transConfig e) i * P.SECTOR_NUM_PER_PAGE < U32)
    (h : PlanOrder P s e m st) :
    PlanOrder P s e (m + 1) (configurePair P e m st) := by
  obtain ⟨st1, loc⟩ := st
  obtain ⟨hcfg, hslba, hstart, ⟨k, hk, hpidk⟩, hslbaCur, hmonoS, hmonoL⟩ := h
  simp only at hcfg hslba hstart hpidk hslbaCur hmonoS hmonoL
  have hkm : k ≤ m := by omega
  have hle : loc.page_id ≤ pageIdOf P (s.transConfig e) m := by
    rw [hpidk]
    exact pageIdOf_mono P _ k m (hsorted k m hkm hm) (hfit m hm)
  have hpid : ((((st1.transConfig e).embeddingIDList m).embeddingID * (st1.transConfig e).attributeSize
      * (st1.transConfig e).embeddingLength) % U32) / P.PAGE_SIZE = pageIdOf P (s.transConfig e) m := by
    rw [hcfg]; rfl
  unfold configurePair
  simp only []
  split_ifs with hhit hchange
  · -- cache hit: the plan is not touched
    exact ⟨hcfg, hslba, hstart.elim (fun h => Or.inl (Nat.lt_succ_of_lt h)) Or.inr,
      ⟨k, hk.elim (fun h => Or.inl (Nat.lt_succ_of_lt h)) Or.inr, hpidk⟩, hslbaCur, hmonoS,
      hmonoL⟩
  · -- miss on a new page: a new slot
    rw [hpid] at hchange
    have hlt : loc.page_id < pageIdOf P (s.transConfig e) m := by omega
    have hm0 : 0 < m := by
      rcases Nat.eq_zero_or_pos m with h0 | h0
      · exfalso
        have hk0 : k = 0 := by omega
        rw [hk0, ← h0] at hpidk
        exact hchange hpidk.symm
      · exact h0
    have hstartlt : (st1.transMap e).perPageStartingIndex loc.page_index < m := by
      rcases hstart with h1 | h1
      · exact h1
      · omega
    refine ⟨hcfg, ?_, ?_, ⟨m, Or.inl (Nat.lt_succ_self m), ?_⟩, ?_, ?_, ?_⟩
    · simp only [FW.modTransMap, set1_eq, hpid]; exact hslba
    · simp only [FW.modTransMap, set1_eq, hpid]; left; omega
    · simp only [hpid]
    · simp only [FW.modTransMap, set1_eq, hpid]
      rw [hslba]; rfl
    · simp only [FW.modTransMap, set1_eq, hpid]
      intro j hj
      by_cases hjl : j = loc.page_index
      · subst hjl
        rw [set1_eq, set1_ne _ _ (by omega)]
        exact hstartlt
      · have hj2 : j < loc.page_index := by omega
        rw [set1_ne _ _ (by omega), set1_ne _ _ (by omega)]
        exact hmonoS j hj2
    · simp only [FW.modTransMap, set1_eq, hpid]
      intro j hj
      by_cases hjl : j = loc.page_index
      · subst hjl
        rw [set1_eq, set1_ne _ _ (by omega), hslbaCur, hslba]
        exact slbaOfPage_lt P _ _ _ hS hlt (hslbaFit m hm)
      · have hj2 : j < loc.page_index := by omega
        rw [set1_ne _ _ (by omega), set1_ne _ _ (by omega)]
        exact hmonoL j hj2
  · -- miss on the current page
    rw [hpid] at hchange
    have heq : pageIdOf P (s.transConfig e) m = loc.page_id := by
      by_contra hne; exact hchange hne
    refine ⟨hcfg, ?_, ?_, ⟨m, Or.inl (Nat.lt_succ_self m), ?_⟩, ?_, ?_, ?_⟩
    · simp only [FW.modTransMap, set1_eq, hpid]; exact hslba
    · simp only [FW.modTransMap, set1_eq, hpid]
      exact hstart.elim (fun h => Or.inl (Nat.lt_succ_of_lt h)) Or.inr
    · simp only [hpid]
    · simp only [FW.modTransMap, set1_eq, hpid]
      rw [heq]; exact hslbaCur
    · simp only [FW.modTransMap, set1_eq, hpid]; exact hmonoS
    · simp only [FW.modTransMap, set1_eq, hpid]; exact hmonoL

theorem configureLoop_order [Add α] (P : Params) (s : FW α) (e n : Nat)
    (init : FW α × ConfigLocals) (hS : 0 < P.SECTOR_NUM_PER_PAGE)
    (hsorted : ∀ i j, i ≤ j → j < n →
      ((s.transConfig e).embeddingIDList i).embeddingID
        ≤ ((s.transConfig e).embeddingIDList j).embeddingID)
    (hfit : ∀ i, i < n → ((s.transConfig e).embeddingIDList i).embeddingID
      * (s.transConfig e).attributeSize * (s.transConfig e).embeddingLength < U32)
    (hslbaFit : ∀ i, i < n →
      (s.transMap e).slba + pageIdOf P (s.transConfig e) i * P.SECTOR_NUM_PER_PAGE < U32)
    (h0 : PlanOrder P s e 0 init) :
    ∀ m, m ≤ n → PlanOrder P s e m (forRange m (configurePair P e) init) := by
  intro m
  induction m with
  | zero => intro _; exact h0
  | succ m ih =>
    intro hm
    rw [forRange_succ]
    exact configurePair_order P s e n m _ (by omega) hS hsorted hfit hslbaFit (ih (by omega))

/-- Adjacent order gives order of every two slots. -/
theorem strictMono_of_adjacent (f : Nat → Nat) (n : Nat)
    (h : ∀ j, j + 1 < n → f j < f (j + 1)) :
    ∀ j1 j2, j1 < j2 → j2 < n → f j1 < f j2 := by
  intro j1 j2 h12
  induction j2 with
  | zero => omega
  | succ j2 ih =>
    intro hn
    by_cases hj : j1 = j2
    · subst hj; exact h j1 hn
    · exact Nat.lt_trans (ih (by omega) (by omega)) (h j2 hn)

theorem orderInit (P : Params) (s s2 : FW α) (e : Nat)
    (hfr : s2.transConfig = s.transConfig ∧ (s2.transMap e).slba = (s.transMap e).slba) :
    PlanOrder P s e 0
      (s2.modTransMap e (fun x =>
        { x with
          perPageSLBAs := set1 x.perPageSLBAs 0
            ((x.slba + (pageIdOf P (s.transConfig e) 0 * P.SECTOR_NUM_PER_PAGE) % U32) % U32)
          perPageStartingIndex := set1 x.perPageStartingIndex 0 0 }),
        { page_index := 0, page_id := pageIdOf P (s.transConfig e) 0,
          cur_page_input_length := 0 }) := by
  obtain ⟨f1, f4⟩ := hfr
  refine ⟨f1, ?_, ?_, ⟨0, Or.inr rfl, rfl⟩, ?_, ?_, ?_⟩
  · simp only [FW.modTransMap, set1_eq]; exact f4
  · right; simp [FW.modTransMap]
  · simp only [FW.modTransMap, set1_eq]; rw [f4]; rfl
  · intro j hj; exact absurd hj (Nat.not_lt_zero _)
  · intro j hj; exact absurd hj (Nat.not_lt_zero _)

theorem orderFinish [Zero α] (P : Params) (s : FW α) (e n bytes : Nat)
    (r : FW α × ConfigLocals) (hinv : PlanOrder P s e n r) :
    let s4 := r.1.modTransMap e (fun x =>
      { x with
        perPageInputLength := set1 x.perPageInputLength r.2.page_index r.2.cur_page_input_length
        nPages := r.2.page_index + 1 })
    let s5 : FW α :=
      { s4 with
        transBuf := forRange bytes (fun i b => set1 b (resultBase P e + i) 0) s4.transBuf }
    let s2 := s5.modTransMap e (fun x => { x with configured := 1 })
    ∀ j, j + 1 < (s2.transMap e).nPages →
      (s2.transMap e).perPageStartingIndex j < (s2.transMap e).perPageStartingIndex (j + 1) ∧
      (s2.transMap e).perPageSLBAs j < (s2.transMap e).perPageSLBAs (j + 1) := by
  obtain ⟨st1, loc⟩ := r
  obtain ⟨_, _, _, _, _, hmonoS, hmonoL⟩ := hinv
  simp only at hmonoS hmonoL
  simp only [FW.modTransMap, set1_eq]
  intro j hj
  exact ⟨hmonoS j (by omega), hmonoL j (by omega)⟩

/-- The order of the plan slots written by `ConfigureTransBufEntry`. -/
theorem ConfigureTransBufEntry_order [Add α] [Zero α] (P : Params) (s : FW α) (e : Nat)
    (hS : 0 < P.SECTOR_NUM_PER_PAGE)
    (hsorted : ∀ i j, i ≤ j → j < (s.transConfig e).inputEmbeddings →
      ((s.transConfig e).embeddingIDList i).embeddingID
        ≤ ((s.transConfig e).embeddingIDList j).embeddingID)
    (hfit : ∀ i, i < (s.transConfig e).inputEmbeddings →
      ((s.transConfig e).embeddingIDList i).embeddingID
        * (s.transConfig e).attributeSize * (s.transConfig e).embeddingLength < U32)
    (hslbaFit : ∀ i, i < (s.transConfig e).inputEmbeddings →
      (s.transMap e).slba + pageIdOf P (s.transConfig e) i * P.SECTOR_NUM_PER_PAGE < U32) :
    ∀ j, j + 1 < ((ConfigureTransBufEntry P s e).transMap e).nPages →
      ((ConfigureTransBufEntry P s e).transMap e).perPageStartingIndex j
        < ((ConfigureTransBufEntry P s e).transMap e).perPageStartingIndex (j + 1) ∧
      ((ConfigureTransBufEntry P s e).transMap e).perPageSLBAs j
        < ((ConfigureTransBufEntry P s e).transMap e).perPageSLBAs (j + 1) := by
  unfold ConfigureTransBufEntry
  refine orderFinish P s e _ _ _
    (configureLoop_order P s e _ _ hS hsorted hfit hslbaFit (orderInit P s _ e ?_) _ (le_refl _))
  have h := clearCounters_frame e
    (((s.transConfig e).resultEmbeddings * (s.transConfig e).attributeSize
        * (s.transConfig e).embeddingLength) % U32 / P.SECTOR_SIZE_FTL
      + (if ((s.transConfig e).resultEmbeddings * (s.transConfig e).attributeSize
        * (s.transConfig e).embeddingLength) % U32 % P.SECTOR_SIZE_FTL ≠ 0 then 1 else 0))
    (s.modTransMap e (fun x => { x with nlb :=
      ((s.transConfig e).resultEmbeddings * (s.transConfig e).attributeSize
        * (s.transConfig e).embeddingLength) % U32 / P.SECTOR_SIZE_FTL
      + (if ((s.transConfig e).resultEmbeddings * (s.transConfig e).attributeSize
        * (s.transConfig e).embeddingLength) % U32 % P.SECTOR_SIZE_FTL ≠ 0 then 1 else 0) }))
  simp only at h
  obtain ⟨f1, _, _, f4⟩ := h
  refine ⟨f1, ?_⟩
  rw [f4]
  simp [FW.modTransMap]

/-- The claim as written fails when the SLBA of a plan slot wraps: with the table starting at
sector `2^32 - 4` and the sorted pairs on table pages 0 and 2, the embedding products do not
overflow, the plan has two slots, and `perPageSLBAs` goes down from `4294967292` to `4`. -/
theorem plan_slba_wraps :
    ((wrapFW.transConfig 0).embeddingIDList 0).embeddingID
      ≤ ((wrapFW.transConfig 0).embeddingIDList 1).embeddingID ∧
    ((wrapFW.transConfig 0).embeddingIDList 1).embeddingID * (wrapFW.transConfig 0).attributeSize
      * (wrapFW.transConfig 0).embeddingLength < U32 ∧
    ((ConfigureTransBufEntry exampleParams wrapFW 0).transMap 0).nPages = 2 ∧
    ((ConfigureTransBufEntry exampleParams wrapFW 0).transMap 0).perPageSLBAs 0 = 4294967292 ∧
    ((ConfigureTransBufEntry exampleParams wrapFW 0).transMap 0).perPageSLBAs 1 = 4 := by
  decide

/-- C20 (amended): after `ConfigureTransBufEntry` the entry has `configured = 1` and
`nPages >= 1`; when the embeddingID list is sorted ascending, no
`embeddingID * attributeSize * embeddingLength` overflows 32 bits, and no
`slba + page_id * SECTOR_NUM_PER_PAGE` of a listed pair overflows 32 bits (with
`SECTOR_NUM_PER_PAGE > 0`), both `perPageStartingIndex` and `perPageSLBAs` are strictly
increasing over the plan slots `0 .. nPages - 1`, so no flash page is planned twice.  Cache
hits do not matter. -/
theorem plan_well_formed [Add α] [Zero α] (P : Params) (s : FW α) (entryIdx : Nat) :
    ((ConfigureTransBufEntry P s entryIdx).transMap entryIdx).configured = 1 ∧
    1 ≤ ((ConfigureTransBufEntry P s entryIdx).transMap entryIdx).nPages ∧
    (0 < P.SECTOR_NUM_PER_PAGE →
      (∀ i j, i ≤ j → j < (s.transConfig entryIdx).inputEmbeddings →
        ((s.transConfig entryIdx).embeddingIDList i).embeddingID
          ≤ ((s.transConfig entryIdx).embeddingIDList j).embeddingID) →
      (∀ i, i < (s.transConfig entryIdx).inputEmbeddings →
        ((s.transConfig entryIdx).embeddingIDList i).embeddingID
          * (s.transConfig entryIdx).attributeSize
          * (s.transConfig entryIdx).embeddingLength < U32) →
      (∀ i, i < (s.transConfig entryIdx).inputEmbeddings →
        (s.transMap entryIdx).slba
          + pageIdOf P (s.transConfig entryIdx) i * P.SECTOR_NUM_PER_PAGE < U32) →
      ∀ j1 j2, j1 < j2 →
        j2 < ((ConfigureTransBufEntry P s entryIdx).transMap entryIdx).nPages →
        ((ConfigureTransBufEntry P s entryIdx).transMap entryIdx).perPageStartingIndex j1
          < ((ConfigureTransBufEntry P s entryIdx).transMap entryIdx).perPageStartingIndex j2 ∧
        ((ConfigureTransBufEntry P s entryIdx).transMap entryIdx).perPageSLBAs j1
          < ((ConfigureTransBufEntry P s entryIdx).transMap entryIdx).perPageSLBAs j2) := by
  refine ⟨?_, ?_, ?_⟩
  · simp [ConfigureTransBufEntry, FW.modTransMap]
  · simp [ConfigureTransBufEntry, FW.modTransMap]
  · intro hS hsorted hfit hslbaFit j1 j2 h12 hj2
    have hadj := ConfigureTransBufEntry_order P s entryIdx hS hsorted hfit hslbaFit
    exact ⟨strictMono_of_adjacent _ _ (fun j hj => (hadj j hj).1) j1 j2 h12 hj2,
      strictMono_of_adjacent _ _ (fun j hj => (hadj j hj).2) j1 j2 h12 hj2⟩

theorem gatherFW_sorted :
    (∀ i j, i ≤ j → j < (gatherFW.transConfig 0).inputEmbeddings →
      ((gatherFW.transConfig 0).embeddingIDList i).embeddingID
        ≤ ((gatherFW.transConfig 0).embeddingIDList j).embeddingID) ∧
    (∀ i, i < (gatherFW.transConfig 0).inputEmbeddings →
      ((gatherFW.transConfig 0).embeddingIDList i).embeddingID
        * (gatherFW.transConfig 0).attributeSize
        * (gatherFW.transConfig 0).embeddingLength < U32) ∧
    (∀ i, i < (gatherFW.transConfig 0).inputEmbeddings →
      (gatherFW.transMap 0).slba
        + pageIdOf exampleParams (gatherFW.transConfig 0) i * exampleParams.SECTOR_NUM_PER_PAGE
        < U32) := by
  have h3 : (gatherFW.transConfig 0).inputEmbeddings = 3 := rfl
  refine ⟨?_, ?_, ?_⟩
  · intro i j hij hj
    rw [h3] at hj
    interval_cases j <;> interval_cases i <;> decide
  · intro i hi
    rw [h3] at hi
    interval_cases i <;> decide
  · intro i hi
    rw [h3] at hi
    interval_cases i <;> decide

theorem plan_well_formed_witness :
    ((ConfigureTransBufEntry exampleParams gatherFW 0).transMap 0).nPages = 2 ∧
    ((ConfigureTransBufEntry exampleParams gatherFW 0).transMap 0).perPageStartingIndex 0
        < ((ConfigureTransBufEntry exampleParams gatherFW 0).transMap 0).perPageStartingIndex 1 ∧
      ((ConfigureTransBufEntry exampleParams gatherFW 0).transMap 0).perPageSLBAs 0
        < ((ConfigureTransBufEntry exampleParams gatherFW 0).transMap 0).perPageSLBAs 1 :=
  ⟨by decide,
    (plan_well_formed exampleParams gatherFW 0).2.2 (by decide) gatherFW_sorted.1
      gatherFW_sorted.2.1 gatherFW_sorted.2.2 0 1 (by decide) (by decide)⟩

/-- C21 fails in the code: a cache hit breaks the per-sector accounting. With the pairs
`(0, 1)` (cached) and `(512, 2)` (not cached) on one flash page, result sectors 0 and 1, the
plan has one slot that starts at pair 0 with length 1, so after `translatePage` on every
planned page sector 0 has completed 1 of 0 awaited pairs and sector 1 has completed 0 of 1:
the pair of sector 1 is neither completed nor a cache hit, the counters of sector 1 differ,
and a read of both sectors ships sector 0 only. -/
theorem cache_hit_breaks_sector_accounting :
    ((configuredAndTranslated (warmFW splitConfig)).transMap 0).configured = 1 ∧
    ((configuredAndTranslated (warmFW splitConfig)).transMap 0).nlb = 2 ∧
    ((configuredAndTranslated (warmFW splitConfig)).transMap 0).nPages = 1 ∧
    ((configuredAndTranslated (warmFW splitConfig)).transMap 0).pagesTranslated = 1 ∧
    pairsInSector exampleParams splitConfig 1 = 1 ∧
    hitsInSector exampleParams (warmFW splitConfig).transCache splitConfig 1 = 0 ∧
    ((configuredAndTranslated (warmFW splitConfig)).transMap 0).perResultSectorCompletedEmbeddings 1
      = 0 ∧
    ((configuredAndTranslated (warmFW splitConfig)).transMap 0).perResultSectorInputEmbeddings 1
      = 1 ∧
    pairsInSector exampleParams splitConfig 0 = 1 ∧
    hitsInSector exampleParams (warmFW splitConfig).transCache splitConfig 0 = 1 ∧
    ((configuredAndTranslated (warmFW splitConfig)).transMap 0).perResultSectorCompletedEmbeddings 0
      = 1 ∧
    ((configuredAndTranslated (warmFW splitConfig)).transMap 0).perResultSectorInputEmbeddings 0
      = 0 ∧
    (readTranslatedPagesNonBlocking exampleParams (configuredAndTranslated (warmFW splitConfig))
      0 0 0 2 7).2 = 1 := by
  decide

theorem translatePairs_nPages [Add α] (P : Params) (s : FW α) (entryIdx : Nat) (page : Nat → α)
    (pair_index base_embedding_id n e : Nat) :
    ((forRange n (translatePair P entryIdx page pair_index base_embedding_id) s).transMap e).nPages
      = (s.transMap e).nPages := by
  refine forRange_induction (fun st : FW α => (st.transMap e).nPages = (s.transMap e).nPages)
    n _ s rfl ?_
  intro i st _ h
  rw [← h]
  unfold translatePair
  simp only [FW.modTransMap]
  by_cases he : e = entryIdx
  · subst he
    simp
  · simp [set1_ne _ _ he]

theorem translatePage_nPages [Add α] (P : Params) (s : FW α) (entryIdx : Nat) (page : Nat → α)
    (pageIdx e : Nat) :
    ((translatePage P s entryIdx page pageIdx).transMap e).nPages = (s.transMap e).nPages := by
  unfold translatePage
  simp only [FW.modTransMap]
  by_cases he : e = entryIdx
  · subst he
    simp only [set1_eq]
    exact translatePairs_nPages P s _ page _ _ _ _
  · rw [set1_ne _ _ he]
    exact translatePairs_nPages P s _ page _ _ _ _

@[simp] theorem transQueueView_mk (a1 : Nat → Nat → Nat → ReqEntry)
    (a2 : Nat → Nat → RqPointerEntry)
    (a3 : Nat → Nat → Nat → SubReqEntry) (a4 : Nat → Nat → RqPointerEntry)
    (a5 : Nat → Nat → DieStatusEntry) (a6 : Nat → Nat → Nat → Nat) (a7 : Nat → Nat → Int)
    (a8 : Nat → WayPriorityEntry) (a9 : Nat → Nat → TransPageReqEntry)
    (a10 a11 : Nat → TransReqEntry) (a12 a13 : TransRqPointerEntry) (a14 a15 : Nat)
    (a16 : Nat → TransConfig) (a17 : Nat → TransBufEntry) (a18 : Nat × Nat)
    (a19 : Nat → TransEmbedCacheEntry α) (a20 : Nat → α) (a21 a22 : Nat) (a23 : Nat → BufEntry)
    (a24 : Nat → BufLruEntry) (a25 : Nat) (a26 : List Event) (a27 : Bool) :
    transQueueView (FW.mk a1 a2 a3 a4 a5 a6 a7 a8 a9 a10 a11 a12 a13 a14 a15 a16 a17 a18 a19 a20
      a21 a22 a23 a24 a25 a26 a27) = (a10, a12, fun e => (a17 e).nPages) := rfl

@[simp] theorem transQueueView_fold (s : FW α) :
    (s.transReqQueue, s.transRqPointer, fun e => (s.transMap e).nPages) = transQueueView s := rfl

@[simp] theorem transQueueView_emit (s : FW α) (e : Event) :
    transQueueView (s.emit e) = transQueueView s := rfl
@[simp] theorem transQueueView_tick (s : FW α) : transQueueView s.tick = transQueueView s := rfl
@[simp] theorem transQueueView_modReq (s : FW α) (a b c : Nat) (f : ReqEntry → ReqEntry) :
    transQueueView (s.modReq a b c f) = transQueueView s := rfl
@[simp] theorem transQueueView_modRq (s : FW α) (b c : Nat)
    (f : RqPointerEntry → RqPointerEntry) :
    transQueueView (s.modRq b c f) = transQueueView s := rfl
@[simp] theorem transQueueView_modDie (s : FW α) (b c : Nat)
    (f : DieStatusEntry → DieStatusEntry) :
    transQueueView (s.modDie b c f) = transQueueView s := rfl
@[simp] theorem transQueueView_modBuf (s : FW α) (b : Nat) (f : BufEntry → BufEntry) :
    transQueueView (s.modBuf b f) = transQueueView s := rfl

@[simp] theorem transQueueView_translatePage [Add α] (P : Params) (s : FW α) (e : Nat)
    (page : Nat → α) (j : Nat) :
    transQueueView (translatePage P s e page j) = transQueueView s := by
  have h1 : (translatePage P s e page j).transReqQueue = s.transReqQueue := by
    obtain ⟨c, b, m, h⟩ := translatePage_frame P s e page j
    rw [h]
  have h2 : (translatePage P s e page j).transRqPointer = s.transRqPointer := by
    obtain ⟨c, b, m, h⟩ := translatePage_frame P s e page j
    rw [h]
  unfold transQueueView
  rw [h1, h2]
  simp only [translatePage_nPages]

@[simp] theorem transQueueView_PushToReqQueueNonBlocking (P : Params) (s : FW α)
    (cmd : LowLevelReqInfo) (openSlots : Nat) :
    transQueueView (PushToReqQueueNonBlocking P s cmd openSlots).1 = transQueueView s := by
  unfold PushToReqQueueNonBlocking
  simp only []
  split_ifs <;> simp

@[simp] theorem transQueueView_readPageToTranslateNonBlocking [Add α] (env : Env α)
    (P : Params) (s : FW α) (entryIdx lpa page_idx : Nat) :
    transQueueView (readPageToTranslateNonBlocking env P s entryIdx lpa page_idx).1
      = transQueueView s := by
  unfold readPageToTranslateNonBlocking
  simp only []
  split_ifs <;> simp

theorem pageAttempt_view [Add α] (env : Env α) (P : Params) (entryIdx page : Nat) (s : FW α) :
    transQueueView (pageAttempt env P entryIdx page s).1 = transQueueView s := by
  unfold pageAttempt
  simp

theorem pagesHandled_view [Add α] (env : Env α) (P : Params) (entryIdx start k : Nat)
    (s : FW α) : transQueueView (pagesHandled env P entryIdx start k s) = transQueueView s := by
  induction k with
  | zero => rfl
  | succ k ih =>
    show transQueueView (pageAttempt env P entryIdx (start + k) _).1 = _
    rw [pageAttempt_view, ih]

theorem transQueueView_nPages {s t : FW α} (h : transQueueView t = transQueueView s) (e : Nat) :
    (t.transMap e).nPages = (s.transMap e).nPages := by
  have := congrArg (fun v => v.2.2 e) h
  exact this

theorem pagesHandled_front [Add α] (env : Env α) (P : Params) (entryIdx start k : Nat)
    (s : FW α) :
    pagesHandled env P entryIdx start (k + 1) s
      = pagesHandled env P entryIdx (start + 1) k (pageAttempt env P entryIdx start s).1 := by
  induction k with
  | zero => rfl
  | succ k ih =>
    show (pageAttempt env P entryIdx (start + (k + 1))
        (pagesHandled env P entryIdx start (k + 1) s)).1
      = (pageAttempt env P entryIdx (start + 1 + k)
        (pagesHandled env P entryIdx (start + 1) k (pageAttempt env P entryIdx start s).1)).1
    rw [ih, show start + (k + 1) = start + 1 + k by omega]

theorem translatePagesFrom_spec [Add α] (env : Env α) (P : Params) (e : Nat) (fuel : Nat)
    (s : FW α) (page : Nat) (hn : (s.transMap e).nPages < U32)
    (hp : page ≤ (s.transMap e).nPages) (hf : (s.transMap e).nPages ≤ page + fuel) :
    ∃ k, page + k ≤ (s.transMap e).nPages ∧
      (∀ i, i < k →
        (pageAttempt env P e (page + i) (pagesHandled env P e page i s)).2 ≠ 0) ∧
      ((page + k = (s.transMap e).nPages ∧
          translatePagesFrom env P e fuel s page = (pagesHandled env P e page k s, -1)) ∨
       (page + k < (s.transMap e).nPages ∧
          (pageAttempt env P e (page + k) (pagesHandled env P e page k s)).2 = 0 ∧
          translatePagesFrom env P e fuel s page
            = ((pageAttempt env P e (page + k) (pagesHandled env P e page k s)).1,
                toInt32 (page + k)))) := by
  induction fuel generalizing s page with
  | zero =>
    refine ⟨0, by omega, fun i hi => absurd hi (Nat.not_lt_zero _), Or.inl ⟨by omega, rfl⟩⟩
  | succ fuel ih =>
    by_cases hlt : page < (s.transMap e).nPages
    · by_cases hr : (pageAttempt env P e page s).2 = 0
      · refine ⟨0, by omega, fun i hi => absurd hi (Nat.not_lt_zero _), Or.inr ⟨hlt, hr, ?_⟩⟩
        unfold translatePagesFrom
        simp only []
        rw [if_pos hlt]
        unfold pageAttempt at hr
        rw [if_pos hr]
        rfl
      · have hnp : ((pageAttempt env P e page s).1.transMap e).nPages = (s.transMap e).nPages :=
          transQueueView_nPages (pageAttempt_view env P e page s) e
        have hmod : (page + 1) % U32 = page + 1 := Nat.mod_eq_of_lt (by omega)
        obtain ⟨k, hk1, hk2, hk3⟩ := ih (pageAttempt env P e page s).1 (page + 1)
          (by rw [hnp]; exact hn) (by rw [hnp]; omega) (by rw [hnp]; omega)
        rw [hnp] at hk1 hk3
        have hstep : translatePagesFrom env P e (fuel + 1) s page
            = translatePagesFrom env P e fuel (pageAttempt env P e page s).1 (page + 1) := by
          conv_lhs => unfold translatePagesFrom
          simp only []
          rw [if_pos hlt]
          unfold pageAttempt at hr
          rw [if_neg hr, hmod]
          rfl
        refine ⟨k + 1, by omega, ?_, ?_⟩
        · intro i hi
          cases i with
          | zero => exact hr
          | succ i =>
            rw [pagesHandled_front, show page + (i + 1) = page + 1 + i by omega]
            exact hk2 i (by omega)
        · rw [hstep, pagesHandled_front, show page + (k + 1) = page + 1 + k by omega]
          exact hk3
    · refine ⟨0, by omega, fun i hi => absurd hi (Nat.not_lt_zero _), Or.inl ⟨by omega, ?_⟩⟩
      unfold translatePagesFrom
      simp only []
      rw [if_neg hlt]
      rfl

theorem toInt32_ne_neg_one {n : Nat} (h : n + 1 < U32) : toInt32 n ≠ -1 := by
  unfold toInt32 U32 at *
  rw [Nat.mod_eq_of_lt (by omega)]
  split_ifs <;> omega

theorem toUInt32_toInt32 {n : Nat} (h : n < U32) : toUInt32 (toInt32 n) = n := by
  unfold toUInt32 toInt32 U32 at *
  rw [Nat.mod_eq_of_lt h]
  split_ifs <;> omega

theorem rotateSlot_set (q : Nat → TransReqEntry) (p : TransRqPointerEntry) (x : TransReqEntry)
    (h : x.next = (q p.current).next) : rotateSlot (set1 q p.current x) p = rotateSlot q p := by
  unfold rotateSlot
  simp [h]

/-- C22: resumable page scheduling. `translatePagesNonBlocking(entry, start)` hands the pages
`start, start + 1, ...` to `readPageToTranslateNonBlocking` in order, once each, as long as
they are accepted: with `k` the number of accepted pages, it returns `-1` exactly when
`start + k = nPages` (every page of `[start, nPages)` was accepted), and otherwise page
`start + k` is the first refused page, the returned value is `start + k` and the state is the
one left by the refused call, no later page having been handed over.  `PopFromTransReqQueue`
on a configured entry resumes at the stored `nextPage`, moves the slot to the free list when
`-1` is returned, and otherwise stores the refused page in `nextPage` and only steps
`current`. -/
theorem translatePagesNonBlocking_resumable [Add α] [Zero α] (env : Env α) (P : Params)
    (s : FW α) (e start : Nat) (hn : (s.transMap e).nPages < U32)
    (hs : start ≤ (s.transMap e).nPages) :
    ∃ k, start + k ≤ (s.transMap e).nPages ∧
      (∀ i, i < k →
        (pageAttempt env P e (start + i) (pagesHandled env P e start i s)).2 ≠ 0) ∧
      ((translatePagesNonBlocking env P s e start).2 = -1 ↔ start + k = (s.transMap e).nPages) ∧
      (start + k = (s.transMap e).nPages →
        translatePagesNonBlocking env P s e start = (pagesHandled env P e start k s, -1)) ∧
      (start + k < (s.transMap e).nPages →
        (pageAttempt env P e (start + k) (pagesHandled env P e start k s)).2 = 0 ∧
        translatePagesNonBlocking env P s e start
          = ((pageAttempt env P e (start + k) (pagesHandled env P e start k s)).1,
              toInt32 (start + k)) ∧
        toUInt32 (toInt32 (start + k)) = start + k) ∧
      (s.transRqPointer.head ≠ 0xffff →
        e = (s.transReqQueue s.transRqPointer.current).entryIdx →
        start = (s.transReqQueue s.transRqPointer.current).nextPage →
        (s.transMap e).configured ≠ 0 →
        (translatePagesNonBlocking env P s e start).1.halted = false →
        (start + k = (s.transMap e).nPages →
          (PopFromTransReqQueue env P s).1
            = { (translatePagesNonBlocking env P s e start).1 with
                transReqQueue := (retireSlot s.transReqQueue s.transRqPointer).1
                transRqPointer := (retireSlot s.transReqQueue s.transRqPointer).2 }) ∧
        (start + k < (s.transMap e).nPages →
          (PopFromTransReqQueue env P s).1
            = { (translatePagesNonBlocking env P s e start).1 with
                transReqQueue := set1 s.transReqQueue s.transRqPointer.current
                  { (s.transReqQueue s.transRqPointer.current) with nextPage := start + k }
                transRqPointer := rotateSlot s.transReqQueue s.transRqPointer })) := by
  obtain ⟨k, hk1, hk2, hk3⟩ := translatePagesFrom_spec env P e
    ((s.transMap e).nPages - start) s start hn hs (by omega)
  have hview : transQueueView (translatePagesNonBlocking env P s e start).1 = transQueueView s := by
    unfold translatePagesNonBlocking
    rcases hk3 with ⟨_, h⟩ | ⟨_, _, h⟩
    · rw [h]; exact pagesHandled_view env P e start k s
    · rw [h]
      show transQueueView (pageAttempt env P e (start + k) _).1 = _
      rw [pageAttempt_view, pagesHandled_view]
  have hq : (translatePagesNonBlocking env P s e start).1.transReqQueue = s.transReqQueue :=
    congrArg (fun v => v.1) hview
  have hp : (translatePagesNonBlocking env P s e start).1.transRqPointer = s.transRqPointer :=
    congrArg (fun v => v.2.1) hview
  have hret : (start + k = (s.transMap e).nPages →
        (translatePagesNonBlocking env P s e start).2 = -1) ∧
      (start + k < (s.transMap e).nPages →
        (translatePagesNonBlocking env P s e start).2 = toInt32 (start + k)) := by
    unfold translatePagesNonBlocking
    rcases hk3 with ⟨h0, h⟩ | ⟨h0, _, h⟩
    · exact ⟨fun _ => by rw [h], fun h1 => absurd h0 (by omega)⟩
    · exact ⟨fun h1 => absurd h1 (by omega), fun _ => by rw [h]⟩
  have hne : start + k < (s.transMap e).nPages →
      (translatePagesNonBlocking env P s e start).2 ≠ -1 := by
    intro h
    rw [hret.2 h]
    exact toInt32_ne_neg_one (by omega)
  have hpop : s.transRqPointer.head ≠ 0xffff →
      e = (s.transReqQueue s.transRqPointer.current).entryIdx →
      start = (s.transReqQueue s.transRqPointer.current).nextPage →
      (s.transMap e).configured ≠ 0 →
      (translatePagesNonBlocking env P s e start).1.halted = false →
      (PopFromTransReqQueue env P s).1
        = if (translatePagesNonBlocking env P s e start).2 = -1 then
            { (translatePagesNonBlocking env P s e start).1 with
              transReqQueue := (retireSlot s.transReqQueue s.transRqPointer).1
              transRqPointer := (retireSlot s.transReqQueue s.transRqPointer).2 }
          else
            { (translatePagesNonBlocking env P s e start).1 with
              transReqQueue := set1 s.transReqQueue s.transRqPointer.current
                { (s.transReqQueue s.transRqPointer.current) with
                  nextPage := toUInt32 (translatePagesNonBlocking env P s e start).2 }
              transRqPointer := rotateSlot s.transReqQueue s.transRqPointer } := by
    intro hh he hst hc hhalt
    have hround : toUInt32 (toInt32 (s.transReqQueue s.transRqPointer.current).nextPage)
        = start := by
      rw [← hst]
      exact toUInt32_toInt32 (by omega)
    unfold PopFromTransReqQueue
    simp only []
    rw [if_neg hh, ← he, if_pos hc]
    simp only [ne_eq, one_ne_zero, not_false_eq_true, if_true, ← he, hround, hhalt,
      Bool.false_eq_true, if_false, hq, hp]
    split_ifs
    · rfl
    · congr 1
      exact rotateSlot_set _ _ _ rfl
  refine ⟨k, hk1, hk2, ⟨fun h => ?_, hret.1⟩, ?_, ?_, ?_⟩
  · by_contra hc
    exact hne (by omega) h
  · intro h
    rcases hk3 with ⟨_, h3⟩ | ⟨h0, _⟩
    · exact h3
    · exact absurd h (by omega)
  · intro h
    rcases hk3 with ⟨h0, _⟩ | ⟨_, h2, h3⟩
    · exact absurd h0 (by omega)
    · exact ⟨h2, h3, toUInt32_toInt32 (by omega)⟩
  · intro hh he hst hc hhalt
    have := hpop hh he hst hc hhalt
    refine ⟨fun h => ?_, fun h => ?_⟩
    · rw [this, if_pos (hret.1 h)]
    · rw [this, if_neg (hne h), hret.2 h, toUInt32_toInt32 (by omega)]

/-- Witness for C22: the plan of `resumeFW` has two pages; page 0 goes to die `(0, 0)` and is
accepted, page 1 goes to die `(2, 0)` whose ring holds 253 requests and is refused, so the
first attempt returns 1, stores `nextPage = 1` and keeps the entry queued; once the ring has
room, the second attempt resumes at page 1, pushes it, returns `-1` and empties the list.
Each page was pushed once. -/
theorem translatePagesNonBlocking_resumable_witness :
    ((resumeFW.transMap 0).nPages < U32 ∧ 0 ≤ (resumeFW.transMap 0).nPages) ∧
    (∃ k, 0 + k ≤ (resumeFW.transMap 0).nPages ∧
      ((translatePagesNonBlocking quietEnv exampleParams resumeFW 0 0).2 = -1
        ↔ 0 + k = (resumeFW.transMap 0).nPages)) ∧
    (resumeFW.transMap 0).nPages = 2 ∧
    (translatePagesNonBlocking quietEnv exampleParams resumeFW 0 0).2 = 1 ∧
    ((PopFromTransReqQueue quietEnv exampleParams resumeFW).1.transReqQueue 0).nextPage = 1 ∧
    (PopFromTransReqQueue quietEnv exampleParams resumeFW).1.transRqPointer.head = 0 ∧
    ((PopFromTransReqQueue quietEnv exampleParams resumeFW).1.rqPointer 0 0).rear = 1 ∧
    ((PopFromTransReqQueue quietEnv exampleParams resumeFW).1.rqPointer 2 0).rear = 0 ∧
    (translatePagesNonBlocking quietEnv exampleParams resumedFW 0 1).2 = -1 ∧
    (PopFromTransReqQueue quietEnv exampleParams resumedFW).1.transRqPointer.head = 0xffff ∧
    ((PopFromTransReqQueue quietEnv exampleParams resumedFW).1.rqPointer 0 0).rear = 1 ∧
    ((PopFromTransReqQueue quietEnv exampleParams resumedFW).1.rqPointer 2 0).rear = 1 ∧
    ((PopFromTransReqQueue quietEnv exampleParams resumedFW).1.reqQueue 0 2 0).transPageIdx
      = 1 :=
  ⟨⟨by decide, by decide⟩,
    (translatePagesNonBlocking_resumable quietEnv exampleParams resumeFW 0 0 (by decide)
      (by decide)).imp (fun _ h => ⟨h.1, h.2.2.1⟩),
    by decide, by decide, by decide, by decide, by decide, by decide, by decide, by decide,
    by decide, by decide, by decide⟩

theorem readTranslatedSector_eq (P : Params) (entryIdx firstSector nextSector cmdSlotTag : Nat)
    (sectorNum : Nat) (st : FW α × Nat × Bool) :
    readTranslatedSector P entryIdx firstSector nextSector cmdSlotTag sectorNum st
      = if st.2.2 then st
        else if sectorReady st.1 entryIdx ((nextSector + sectorNum) % U32) then
          (shipStep P entryIdx firstSector cmdSlotTag ((nextSector + sectorNum) % U32) st.1,
            st.2.1 + 1, false)
        else (st.1, st.2.1, true) := by
  unfold readTranslatedSector sectorReady shipStep shipOne
  simp only []
  split_ifs <;> rfl

theorem shipView_congr {s t : FW α} (h1 : t.transMap = s.transMap) (h2 : t.trace = s.trace)
    (e : Nat) : shipView t e = shipView s e := by
  unfold shipView
  rw [h1, h2]

theorem shipView_modTransMap (s : FW α) (i e : Nat) (f : TransBufEntry → TransBufEntry)
    (hf : ∀ x, (f x).perResultSectorCompletedEmbeddings = x.perResultSectorCompletedEmbeddings ∧
      (f x).perResultSectorInputEmbeddings = x.perResultSectorInputEmbeddings ∧
      (f x).nlb = x.nlb ∧ (f x).nlbCompleted = x.nlbCompleted) :
    shipView (s.modTransMap i f) e = shipView s e := by
  unfold shipView FW.modTransMap
  by_cases he : e = i
  · subst he
    simp only [set1_eq]
    rw [(hf _).1, (hf _).2.1, (hf _).2.2.1, (hf _).2.2.2]
  · simp only [set1_ne _ _ he]

theorem shipView_setAvail (s : FW α) (v : Nat × Nat) (e : Nat) :
    shipView { s with transAvailQ := v } e = shipView s e := rfl

theorem DeallocateTransBufEntry_shipView (s : FW α) (entryIdx e : Nat) :
    shipView (DeallocateTransBufEntry s entryIdx) e = shipView s e := by
  have h4 : shipView ((((s.modTransMap entryIdx
        (fun x => { x with prev := s.transAvailQ.2 % 2 ^ 16 })).modTransMap entryIdx
        (fun x => { x with next := 0xffff })).modTransMap entryIdx
        (fun x => { x with allocated := 0 })).modTransMap entryIdx
        (fun x => { x with configured := 0 })) e = shipView s e := by
    refine (shipView_modTransMap _ _ _ _ ?_).trans ?_
    · intro _; exact ⟨rfl, rfl, rfl, rfl⟩
    refine (shipView_modTransMap _ _ _ _ ?_).trans ?_
    · intro _; exact ⟨rfl, rfl, rfl, rfl⟩
    refine (shipView_modTransMap _ _ _ _ ?_).trans ?_
    · intro _; exact ⟨rfl, rfl, rfl, rfl⟩
    refine shipView_modTransMap _ _ _ _ ?_
    intro _; exact ⟨rfl, rfl, rfl, rfl⟩
  unfold DeallocateTransBufEntry
  simp only []
  split_ifs
  · rw [shipView_setAvail, shipView_setAvail]
    exact h4
  · rw [shipView_setAvail]
    refine (shipView_modTransMap _ _ _ _ ?_).trans h4
    intro _; exact ⟨rfl, rfl, rfl, rfl⟩

theorem shipOne_shipView (P : Params) (e firstSector cmdSlotTag cur : Nat) (s : FW α) :
    shipView (shipOne P e firstSector cmdSlotTag cur s) e
      = (set1 (shipView s e).1 cur 0, (shipView s e).2.1, (shipView s e).2.2.1,
          ((shipView s e).2.2.2.1 + 1) % U32,
          (shipView s e).2.2.2.2 ++ [.set_auto_tx_dma cmdSlotTag
            ((cur + (U32 - firstSector % U32)) % U32)
            ((e * P.TRANS_BUF_ENTRY_SIZE + cur * P.SECTOR_SIZE_FTL) % U32)]) := by
  unfold shipOne shipView
  simp [FW.modTransMap, FW.emit]

theorem shipStep_shipView (P : Params) (e firstSector cmdSlotTag cur : Nat) (s : FW α) :
    shipView (shipStep P e firstSector cmdSlotTag cur s) e
      = (set1 (shipView s e).1 cur 0, (shipView s e).2.1, (shipView s e).2.2.1,
          ((shipView s e).2.2.2.1 + 1) % U32,
          (shipView s e).2.2.2.2 ++ [.set_auto_tx_dma cmdSlotTag
            ((cur + (U32 - firstSector % U32)) % U32)
            ((e * P.TRANS_BUF_ENTRY_SIZE + cur * P.SECTOR_SIZE_FTL) % U32)]) := by
  unfold shipStep
  split_ifs
  · rw [DeallocateTransBufEntry_shipView, shipOne_shipView]
  · rw [shipOne_shipView]
theorem shipped_succ (P : Params) (e firstSector nextSector cmdSlotTag k : Nat) (s : FW α) :
    shipped P e firstSector nextSector cmdSlotTag (k + 1) s
      = shipStep P e firstSector cmdSlotTag ((nextSector + k) % U32)
          (shipped P e firstSector nextSector cmdSlotTag k s) := by
  unfold shipped
  rw [forRange_succ]

theorem shipped_shipView (P : Params) (e firstSector nextSector cmdSlotTag k : Nat) (s : FW α)
    (hc : (s.transMap e).nlbCompleted < U32) :
    shipView (shipped P e firstSector nextSector cmdSlotTag k s) e
      = (clearedRun (s.transMap e).perResultSectorCompletedEmbeddings nextSector k,
          (s.transMap e).perResultSectorInputEmbeddings, (s.transMap e).nlb,
          ((s.transMap e).nlbCompleted + k) % U32,
          s.trace ++ shipEvents P e firstSector nextSector cmdSlotTag k) := by
  induction k with
  | zero =>
    unfold shipped clearedRun shipEvents shipView
    simp only [forRange_zero, List.range_zero, List.map_nil, List.append_nil, Nat.add_zero]
    rw [Nat.mod_eq_of_lt hc]
  | succ k ih =>
    rw [shipped_succ, shipStep_shipView, ih]
    unfold clearedRun shipEvents
    simp only [forRange_succ, List.range_succ, List.map_append, List.map_cons, List.map_nil,
      List.append_assoc, Prod.mk.injEq, true_and]
    refine ⟨?_, trivial⟩
    unfold U32
    omega

theorem clearedRun_outside (completed : Nat → Nat) (nextSector k x : Nat)
    (h : ∀ j, j < k → x ≠ (nextSector + j) % U32) :
    clearedRun completed nextSector k x = completed x := by
  induction k with
  | zero => rfl
  | succ k ih =>
    unfold clearedRun at *
    rw [forRange_succ, set1_ne _ _ (h k (Nat.lt_succ_self k))]
    exact ih (fun j hj => h j (Nat.lt_succ_of_lt hj))

theorem clearedRun_inside (completed : Nat → Nat) (nextSector k j : Nat) (hj : j < k) :
    clearedRun completed nextSector k ((nextSector + j) % U32) = 0 := by
  induction k with
  | zero => exact absurd hj (Nat.not_lt_zero _)
  | succ k ih =>
    unfold clearedRun at *
    rw [forRange_succ]
    by_cases h : (nextSector + j) % U32 = (nextSector + k) % U32
    · rw [h, set1_eq]
    · rw [set1_ne _ _ h]
      by_cases hjk : j < k
      · exact ih hjk
      · have : j = k := by omega
        subst this
        exact absurd rfl h

theorem sector_distinct (nextSector j n : Nat) (hj : j < n) (hn : n < U32) :
    (nextSector + n) % U32 ≠ (nextSector + j) % U32 := by
  unfold U32 at *
  omega

theorem sectorReady_shipped (P : Params) (e firstSector nextSector cmdSlotTag k x : Nat)
    (s : FW α) (hc : (s.transMap e).nlbCompleted < U32)
    (h : ∀ j, j < k → x ≠ (nextSector + j) % U32) :
    sectorReady (shipped P e firstSector nextSector cmdSlotTag k s) e x ↔ sectorReady s e x := by
  have hv := shipped_shipView P e firstSector nextSector cmdSlotTag k s hc
  have h1 : ((shipped P e firstSector nextSector cmdSlotTag k s).transMap e).perResultSectorCompletedEmbeddings
      = clearedRun (s.transMap e).perResultSectorCompletedEmbeddings nextSector k :=
    congrArg (fun v => v.1) hv
  have h2 : ((shipped P e firstSector nextSector cmdSlotTag k s).transMap e).perResultSectorInputEmbeddings
      = (s.transMap e).perResultSectorInputEmbeddings :=
    congrArg (fun v => v.2.1) hv
  unfold sectorReady
  rw [h1, h2, clearedRun_outside _ _ _ _ h]

/-- The sector loop of `readTranslatedPagesNonBlocking` ships the maximal ready run. -/
theorem readTranslatedLoop_spec (P : Params) (e firstSector nextSector cmdSlotTag : Nat)
    (s : FW α) (hc : (s.transMap e).nlbCompleted < U32) (n : Nat) (hn : n ≤ U32) :
    ∃ k, k ≤ n ∧
      (∀ j, j < k → sectorReady s e ((nextSector + j) % U32)) ∧
      (k < n → ¬ sectorReady s e ((nextSector + k) % U32)) ∧
      forRange n (readTranslatedSector P e firstSector nextSector cmdSlotTag) (s, 0, false)
        = (shipped P e firstSector nextSector cmdSlotTag k s, k, decide (k < n)) := by
  induction n with
  | zero =>
    exact ⟨0, le_refl _, fun j hj => absurd hj (Nat.not_lt_zero _),
      fun h => absurd h (Nat.not_lt_zero _), rfl⟩
  | succ n ih =>
    obtain ⟨k, hk, hready, hstop, hrun⟩ := ih (Nat.le_of_succ_le hn)
    rw [forRange_succ, hrun, readTranslatedSector_eq]
    by_cases hkn : k < n
    · refine ⟨k, Nat.le_succ_of_le hk, hready, fun _ => hstop hkn, ?_⟩
      simp [hkn, Nat.lt_succ_of_lt hkn]
    · have hkeq : k = n := by omega
      subst hkeq
      have hiff := sectorReady_shipped P e firstSector nextSector cmdSlotTag k
        ((nextSector + k) % U32) s hc
        (fun j hj => sector_distinct nextSector j k hj (by unfold U32 at *; omega))
      by_cases hr : sectorReady s e ((nextSector + k) % U32)
      · refine ⟨k + 1, le_refl _, ?_, fun h => absurd h (Nat.lt_irrefl _), ?_⟩
        · intro j hj
          by_cases hjk : j < k
          · exact hready j hjk
          · have : j = k := by omega
            subst this
            exact hr
        · simp only [Nat.lt_irrefl, decide_False, Bool.false_eq_true, if_false,
            if_pos (hiff.2 hr), shipped_succ]
      · refine ⟨k, Nat.le_succ _, hready, fun _ => hr, ?_⟩
        simp only [Nat.lt_irrefl, decide_False, Bool.false_eq_true, if_false,
          if_neg (fun h => hr (hiff.1 h)), Nat.lt_succ_self, decide_True]

theorem readView_modTransMap (s : FW α) (i : Nat) (f : TransBufEntry → TransBufEntry) :
    readView (s.modTransMap i f) = readView s := rfl

theorem readView_setAvail (s : FW α) (v : Nat × Nat) :
    readView { s with transAvailQ := v } = readView s := rfl

theorem readView_emit (s : FW α) (ev : Event) : readView (s.emit ev) = readView s := rfl

theorem DeallocateTransBufEntry_readView (s : FW α) (entryIdx : Nat) :
    readView (DeallocateTransBufEntry s entryIdx) = readView s := by
  unfold DeallocateTransBufEntry
  simp only []
  split_ifs
  · rw [readView_setAvail, readView_setAvail, readView_modTransMap, readView_modTransMap,
      readView_modTransMap, readView_modTransMap]
  · rw [readView_setAvail, readView_modTransMap, readView_modTransMap, readView_modTransMap,
      readView_modTransMap, readView_modTransMap]

theorem shipOne_readView (P : Params) (e firstSector cmdSlotTag cur : Nat) (s : FW α) :
    readView (shipOne P e firstSector cmdSlotTag cur s) = readView s := by
  unfold shipOne
  simp only []
  rw [readView_modTransMap, readView_emit, readView_modTransMap]

theorem shipStep_readView (P : Params) (e firstSector cmdSlotTag cur : Nat) (s : FW α) :
    readView (shipStep P e firstSector cmdSlotTag cur s) = readView s := by
  unfold shipStep
  split_ifs
  · rw [DeallocateTransBufEntry_readView, shipOne_readView]
  · rw [shipOne_readView]

theorem shipped_readView (P : Params) (e firstSector nextSector cmdSlotTag k : Nat) (s : FW α) :
    readView (shipped P e firstSector nextSector cmdSlotTag k s) = readView s := by
  induction k with
  | zero => rfl
  | succ k ih => rw [shipped_succ, shipStep_readView, ih]

theorem readTranslatedPagesNonBlocking_spec (P : Params) (s : FW α)
    (e firstSector nextSector n cmdSlotTag : Nat) (hconf : (s.transMap e).configured ≠ 0)
    (hc : (s.transMap e).nlbCompleted < U32) (hn : n ≤ U32) :
    ∃ k, k ≤ n ∧
      (∀ j, j < k → sectorReady s e ((nextSector + j) % U32)) ∧
      (k < n → ¬ sectorReady s e ((nextSector + k) % U32)) ∧
      readTranslatedPagesNonBlocking P s e firstSector nextSector n cmdSlotTag
        = (shipped P e firstSector nextSector cmdSlotTag k s, k) := by
  obtain ⟨k, h1, h2, h3, h4⟩ := readTranslatedLoop_spec P e firstSector nextSector cmdSlotTag s hc
    n hn
  refine ⟨k, h1, h2, h3, ?_⟩
  unfold readTranslatedPagesNonBlocking
  rw [if_neg hconf]
  simp only [h4]

theorem sub_mod_U32 {a k : Nat} (hk : k ≤ a) (ha : a < U32) :
    (a + (U32 - k % U32)) % U32 = a - k := by
  unfold U32 at *
  omega

theorem set1_set1 {β : Type} (f : Nat → β) (i : Nat) (a b : β) :
    set1 (set1 f i a) i b = set1 f i b := by
  funext x
  unfold set1
  split_ifs <;> rfl

/-- `PopFromTransReadReqQueue` in terms of the state `t` left by
`readTranslatedPagesNonBlocking` and the number `k` of sectors it returned. -/
theorem PopFromTransReadReqQueue_eq (P : Params) (s t : FW α) (k : Nat)
    (hh : s.transReadRqPointer.head ≠ 0xffff)
    (hrun : readTranslatedPagesNonBlocking P s
        (s.transReadReqQueue s.transReadRqPointer.current).entryIdx
        (s.transReadReqQueue s.transReadRqPointer.current).firstSector
        (s.transReadReqQueue s.transReadRqPointer.current).nextSector
        (s.transReadReqQueue s.transReadRqPointer.current).nlb
        (s.transReadReqQueue s.transReadRqPointer.current).cmdSlotTag = (t, k))
    (hv : readView t = readView s)
    (hk : k ≤ (s.transReadReqQueue s.transReadRqPointer.current).nlb)
    (hn : (s.transReadReqQueue s.transReadRqPointer.current).nlb < U32) :
    (PopFromTransReadReqQueue P s).1
      = if (s.transReadReqQueue s.transReadRqPointer.current).nlb - k = 0 then
          { t with
            transReadReqQueue :=
              (retireSlot (set1 s.transReadReqQueue s.transReadRqPointer.current
                { (s.transReadReqQueue s.transReadRqPointer.current) with
                  nlb := (s.transReadReqQueue s.transReadRqPointer.current).nlb - k
                  nextSector :=
                    ((s.transReadReqQueue s.transReadRqPointer.current).nextSector + k) % U32 })
                s.transReadRqPointer).1
            transReadRqPointer :=
              (retireSlot (set1 s.transReadReqQueue s.transReadRqPointer.current
                { (s.transReadReqQueue s.transReadRqPointer.current) with
                  nlb := (s.transReadReqQueue s.transReadRqPointer.current).nlb - k
                  nextSector :=
                    ((s.transReadReqQueue s.transReadRqPointer.current).nextSector + k) % U32 })
                s.transReadRqPointer).2 }
        else
          { t with
            transReadReqQueue := set1 s.transReadReqQueue s.transReadRqPointer.current
              { (s.transReadReqQueue s.transReadRqPointer.current) with
                nlb := (s.transReadReqQueue s.transReadRqPointer.current).nlb - k
                nextSector :=
                  ((s.transReadReqQueue s.transReadRqPointer.current).nextSector + k) % U32 }
            transReadRqPointer := rotateSlot s.transReadReqQueue s.transReadRqPointer } := by
  have hq : t.transReadReqQueue = s.transReadReqQueue := congrArg (fun v => v.1) hv
  have hp : t.transReadRqPointer = s.transReadRqPointer := congrArg (fun v => v.2) hv
  unfold PopFromTransReadReqQueue
  simp only []
  rw [if_neg hh, hrun]
  simp only [hq, hp, set1_eq, set1_set1, sub_mod_U32 hk hn]
  split_ifs
  · rfl
  · congr 1
    exact rotateSlot_set _ _ _ rfl

/-- What `PopFromTransReadReqQueue` ships, on the arrays of the embedding. -/
theorem PopFromTransReadReqQueue_ships (P : Params) (s : FW α)
    (hh : s.transReadRqPointer.head ≠ 0xffff)
    (hconf : (s.transMap (s.transReadReqQueue s.transReadRqPointer.current).entryIdx).configured
      ≠ 0)
    (hc : (s.transMap (s.transReadReqQueue s.transReadRqPointer.current).entryIdx).nlbCompleted
      < U32)
    (hn : (s.transReadReqQueue s.transReadRqPointer.current).nlb < U32) :
    ∃ k, k ≤ (s.transReadReqQueue s.transReadRqPointer.current).nlb ∧
      (∀ j, j < k →
        sectorReady s (s.transReadReqQueue s.transReadRqPointer.current).entryIdx
          (((s.transReadReqQueue s.transReadRqPointer.current).nextSector + j) % U32)) ∧
      (k < (s.transReadReqQueue s.transReadRqPointer.current).nlb →
        ¬ sectorReady s (s.transReadReqQueue s.transReadRqPointer.current).entryIdx
          (((s.transReadReqQueue s.transReadRqPointer.current).nextSector + k) % U32)) ∧
      (PopFromTransReadReqQueue P s).1.trace
        = s.trace ++ shipEvents P (s.transReadReqQueue s.transReadRqPointer.current).entryIdx
            (s.transReadReqQueue s.transReadRqPointer.current).firstSector
            (s.transReadReqQueue s.transReadRqPointer.current).nextSector
            (s.transReadReqQueue s.transReadRqPointer.current).cmdSlotTag k ∧
      (∀ j, j < k →
        ((PopFromTransReadReqQueue P s).1.transMap
            (s.transReadReqQueue s.transReadRqPointer.current).entryIdx
          ).perResultSectorCompletedEmbeddings
            (((s.transReadReqQueue s.transReadRqPointer.current).nextSector + j) % U32) = 0) ∧
      (∀ x, (∀ j, j < k →
          x ≠ ((s.transReadReqQueue s.transReadRqPointer.current).nextSector + j) % U32) →
        ((PopFromTransReadReqQueue P s).1.transMap
            (s.transReadReqQueue s.transReadRqPointer.current).entryIdx
          ).perResultSectorCompletedEmbeddings x
          = (s.transMap (s.transReadReqQueue s.transReadRqPointer.current).entryIdx
            ).perResultSectorCompletedEmbeddings x) ∧
      ((PopFromTransReadReqQueue P s).1.transMap
          (s.transReadReqQueue s.transReadRqPointer.current).entryIdx
        ).perResultSectorInputEmbeddings
        = (s.transMap (s.transReadReqQueue s.transReadRqPointer.current).entryIdx
          ).perResultSectorInputEmbeddings ∧
      ((PopFromTransReadReqQueue P s).1.transMap
          (s.transReadReqQueue s.transReadRqPointer.current).entryIdx).nlbCompleted
        = ((s.transMap (s.transReadReqQueue s.transReadRqPointer.current).entryIdx).nlbCompleted
            + k) % U32 ∧
      (k = (s.transReadReqQueue s.transReadRqPointer.current).nlb →
        (PopFromTransReadReqQueue P s).1.transReadReqQueue
          = (retireSlot (set1 s.transReadReqQueue s.transReadRqPointer.current
              { (s.transReadReqQueue s.transReadRqPointer.current) with
                nlb := 0
                nextSector :=
                  ((s.transReadReqQueue s.transReadRqPointer.current).nextSector + k) % U32 })
              s.transReadRqPointer).1 ∧
        (PopFromTransReadReqQueue P s).1.transReadRqPointer
          = (retireSlot (set1 s.transReadReqQueue s.transReadRqPointer.current
              { (s.transReadReqQueue s.transReadRqPointer.current) with
                nlb := 0
                nextSector :=
                  ((s.transReadReqQueue s.transReadRqPointer.current).nextSector + k) % U32 })
              s.transReadRqPointer).2) ∧
      (k < (s.transReadReqQueue s.transReadRqPointer.current).nlb →
        (PopFromTransReadReqQueue P s).1.transReadReqQueue
          = set1 s.transReadReqQueue s.transReadRqPointer.current
              { (s.transReadReqQueue s.transReadRqPointer.current) with
                nlb := (s.transReadReqQueue s.transReadRqPointer.current).nlb - k
                nextSector :=
                  ((s.transReadReqQueue s.transReadRqPointer.current).nextSector + k) % U32 } ∧
        (PopFromTransReadReqQueue P s).1.transReadRqPointer
          = rotateSlot s.transReadReqQueue s.transReadRqPointer) := by
  obtain ⟨k, hk, hready, hstop, hrun⟩ := readTranslatedPagesNonBlocking_spec P s
    (s.transReadReqQueue s.transReadRqPointer.current).entryIdx
    (s.transReadReqQueue s.transReadRqPointer.current).firstSector
    (s.transReadReqQueue s.transReadRqPointer.current).nextSector
    (s.transReadReqQueue s.transReadRqPointer.current).nlb
    (s.transReadReqQueue s.transReadRqPointer.current).cmdSlotTag hconf hc (Nat.le_of_lt hn)
  have hpop := PopFromTransReadReqQueue_eq P s _ k hh hrun (shipped_readView P _ _ _ _ k s) hk hn
  have hview := shipped_shipView P (s.transReadReqQueue s.transReadRqPointer.current).entryIdx
    (s.transReadReqQueue s.transReadRqPointer.current).firstSector
    (s.transReadReqQueue s.transReadRqPointer.current).nextSector
    (s.transReadReqQueue s.transReadRqPointer.current).cmdSlotTag k s hc
  have hsame : shipView (PopFromTransReadReqQueue P s).1
        (s.transReadReqQueue s.transReadRqPointer.current).entryIdx
      = shipView (shipped P (s.transReadReqQueue s.transReadRqPointer.current).entryIdx
          (s.transReadReqQueue s.transReadRqPointer.current).firstSector
          (s.transReadReqQueue s.transReadRqPointer.current).nextSector
          (s.transReadReqQueue s.transReadRqPointer.current).cmdSlotTag k s)
        (s.transReadReqQueue s.transReadRqPointer.current).entryIdx := by
    rw [hpop]
    split_ifs <;> exact shipView_congr rfl rfl _
  rw [hview] at hsame
  have hC := congrArg (fun v => v.1) hsame
  have hI := congrArg (fun v => v.2.1) hsame
  have hN := congrArg (fun v => v.2.2.2.1) hsame
  have hT := congrArg (fun v => v.2.2.2.2) hsame
  simp only [shipView] at hC hI hN hT
  refine ⟨k, hk, hready, hstop, hT, ?_, ?_, hI, hN, ?_, ?_⟩
  · intro j hj
    rw [hC]
    exact clearedRun_inside _ _ _ _ hj
  · intro x hx
    rw [hC]
    exact clearedRun_outside _ _ _ _ hx
  · intro hkeq
    have h0 : (s.transReadReqQueue s.transReadRqPointer.current).nlb - k = 0 := by omega
    rw [hpop, if_pos h0, h0]
    exact ⟨rfl, rfl⟩
  · intro hlt
    have h0 : ¬ (s.transReadReqQueue s.transReadRqPointer.current).nlb - k = 0 := by omega
    rw [hpop, if_neg h0]
    exact ⟨rfl, rfl⟩

theorem shippedPlain_succ (P : Params) (e firstSector nextSector cmdSlotTag k : Nat) (s : FW α) :
    shippedPlain P e firstSector nextSector cmdSlotTag (k + 1) s
      = shipOne P e firstSector cmdSlotTag ((nextSector + k) % U32)
          (shippedPlain P e firstSector nextSector cmdSlotTag k s) := by
  unfold shippedPlain
  rw [forRange_succ]

theorem shippedPlain_sizes (P : Params) (e firstSector nextSector cmdSlotTag k : Nat) (s : FW α)
    (hc : (s.transMap e).nlbCompleted + k < U32) :
    ((shippedPlain P e firstSector nextSector cmdSlotTag k s).transMap e).nlb = (s.transMap e).nlb ∧
    ((shippedPlain P e firstSector nextSector cmdSlotTag k s).transMap e).nlbCompleted
      = (s.transMap e).nlbCompleted + k := by
  induction k with
  | zero => exact ⟨rfl, rfl⟩
  | succ k ih =>
    obtain ⟨h1, h2⟩ := ih (by omega)
    have hv := shipOne_shipView P e firstSector cmdSlotTag ((nextSector + k) % U32)
      (shippedPlain P e firstSector nextSector cmdSlotTag k s)
    have hn := congrArg (fun v => v.2.2.1) hv
    have hcnt := congrArg (fun v => v.2.2.2.1) hv
    simp only [shipView] at hn hcnt
    rw [shippedPlain_succ]
    refine ⟨hn.trans h1, ?_⟩
    rw [hcnt, h2, Nat.mod_eq_of_lt (by omega)]
    omega

/-- Below the size of the result no deallocation takes place. -/
theorem shipped_eq_plain (P : Params) (e firstSector nextSector cmdSlotTag k : Nat) (s : FW α)
    (hlt : (s.transMap e).nlbCompleted + k < (s.transMap e).nlb)
    (hn : (s.transMap e).nlb < U32) :
    shipped P e firstSector nextSector cmdSlotTag k s
      = shippedPlain P e firstSector nextSector cmdSlotTag k s := by
  induction k with
  | zero => rfl
  | succ k ih =>
    rw [shipped_succ, shippedPlain_succ, ih (by omega)]
    obtain ⟨h1, h2⟩ := shippedPlain_sizes P e firstSector nextSector cmdSlotTag (k + 1) s
      (by omega)
    rw [shippedPlain_succ] at h1 h2
    unfold shipStep
    rw [if_neg]
    rw [h1, h2]
    omega

/-- The sector that completes the result is followed by the one deallocation. -/
theorem shipped_eq_dealloc (P : Params) (e firstSector nextSector cmdSlotTag k : Nat) (s : FW α)
    (heq : (s.transMap e).nlbCompleted + (k + 1) = (s.transMap e).nlb)
    (hn : (s.transMap e).nlb < U32) :
    shipped P e firstSector nextSector cmdSlotTag (k + 1) s
      = DeallocateTransBufEntry
          (shippedPlain P e firstSector nextSector cmdSlotTag (k + 1) s) e := by
  rw [shipped_succ, shippedPlain_succ,
    shipped_eq_plain P e firstSector nextSector cmdSlotTag k s (by omega) hn]
  obtain ⟨h1, h2⟩ := shippedPlain_sizes P e firstSector nextSector cmdSlotTag (k + 1) s
    (by omega)
  rw [shippedPlain_succ] at h1 h2
  unfold shipStep
  rw [if_pos]
  rw [h1, h2]
  omega
theorem nextOf_modTransMap (s : FW α) (i : Nat) (f : TransBufEntry → TransBufEntry) :
    nextOf (s.modTransMap i f) = set1 (nextOf s) i (f (s.transMap i)).next := by
  funext j
  unfold nextOf FW.modTransMap set1
  split_ifs <;> simp_all

theorem allocatedOf_modTransMap (s : FW α) (i : Nat) (f : TransBufEntry → TransBufEntry) :
    allocatedOf (s.modTransMap i f) = set1 (allocatedOf s) i (f (s.transMap i)).allocated := by
  funext j
  unfold allocatedOf FW.modTransMap set1
  split_ifs <;> simp_all

theorem nextOf_modTransMap_keep (s : FW α) (i : Nat) (f : TransBufEntry → TransBufEntry)
    (h : ∀ x, (f x).next = x.next) : nextOf (s.modTransMap i f) = nextOf s := by
  rw [nextOf_modTransMap, h]
  exact set1_self _ _

theorem allocatedOf_modTransMap_keep (s : FW α) (i : Nat) (f : TransBufEntry → TransBufEntry)
    (h : ∀ x, (f x).allocated = x.allocated) : allocatedOf (s.modTransMap i f) = allocatedOf s := by
  rw [allocatedOf_modTransMap, h]
  exact set1_self _ _

theorem nextOf_set_prev (s : FW α) (i v : Nat) :
    nextOf (s.modTransMap i (fun x => { x with prev := v })) = nextOf s :=
  nextOf_modTransMap_keep s i _ (fun _ => rfl)

theorem nextOf_set_allocated (s : FW α) (i v : Nat) :
    nextOf (s.modTransMap i (fun x => { x with allocated := v })) = nextOf s :=
  nextOf_modTransMap_keep s i _ (fun _ => rfl)

theorem nextOf_set_configured (s : FW α) (i v : Nat) :
    nextOf (s.modTransMap i (fun x => { x with configured := v })) = nextOf s :=
  nextOf_modTransMap_keep s i _ (fun _ => rfl)

theorem nextOf_set_slba (s : FW α) (i v : Nat) :
    nextOf (s.modTransMap i (fun x => { x with slba := v })) = nextOf s :=
  nextOf_modTransMap_keep s i _ (fun _ => rfl)

theorem nextOf_set_requestId (s : FW α) (i v : Nat) :
    nextOf (s.modTransMap i (fun x => { x with requestId := v })) = nextOf s :=
  nextOf_modTransMap_keep s i _ (fun _ => rfl)

theorem nextOf_set_nlbRequested (s : FW α) (i v : Nat) :
    nextOf (s.modTransMap i (fun x => { x with nlbRequested := v })) = nextOf s :=
  nextOf_modTransMap_keep s i _ (fun _ => rfl)

theorem nextOf_set_nlbCompleted (s : FW α) (i v : Nat) :
    nextOf (s.modTransMap i (fun x => { x with nlbCompleted := v })) = nextOf s :=
  nextOf_modTransMap_keep s i _ (fun _ => rfl)

theorem nextOf_set_pagesTranslated (s : FW α) (i v : Nat) :
    nextOf (s.modTransMap i (fun x => { x with pagesTranslated := v })) = nextOf s :=
  nextOf_modTransMap_keep s i _ (fun _ => rfl)

theorem nextOf_set_rxDmaExe (s : FW α) (i v : Nat) :
    nextOf (s.modTransMap i (fun x => { x with rxDmaExe := v })) = nextOf s :=
  nextOf_modTransMap_keep s i _ (fun _ => rfl)

theorem allocatedOf_set_prev (s : FW α) (i v : Nat) :
    allocatedOf (s.modTransMap i (fun x => { x with prev := v })) = allocatedOf s :=
  allocatedOf_modTransMap_keep s i _ (fun _ => rfl)

theorem allocatedOf_set_next (s : FW α) (i v : Nat) :
    allocatedOf (s.modTransMap i (fun x => { x with next := v })) = allocatedOf s :=
  allocatedOf_modTransMap_keep s i _ (fun _ => rfl)

theorem allocatedOf_set_configured (s : FW α) (i v : Nat) :
    allocatedOf (s.modTransMap i (fun x => { x with configured := v })) = allocatedOf s :=
  allocatedOf_modTransMap_keep s i _ (fun _ => rfl)

theorem allocatedOf_set_slba (s : FW α) (i v : Nat) :
    allocatedOf (s.modTransMap i (fun x => { x with slba := v })) = allocatedOf s :=
  allocatedOf_modTransMap_keep s i _ (fun _ => rfl)

theorem allocatedOf_set_requestId (s : FW α) (i v : Nat) :
    allocatedOf (s.modTransMap i (fun x => { x with requestId := v })) = allocatedOf s :=
  allocatedOf_modTransMap_keep s i _ (fun _ => rfl)

theorem allocatedOf_set_nlbRequested (s : FW α) (i v : Nat) :
    allocatedOf (s.modTransMap i (fun x => { x with nlbRequested := v })) = allocatedOf s :=
  allocatedOf_modTransMap_keep s i _ (fun _ => rfl)

theorem allocatedOf_set_nlbCompleted (s : FW α) (i v : Nat) :
    allocatedOf (s.modTransMap i (fun x => { x with nlbCompleted := v })) = allocatedOf s :=
  allocatedOf_modTransMap_keep s i _ (fun _ => rfl)

theorem allocatedOf_set_pagesTranslated (s : FW α) (i v : Nat) :
    allocatedOf (s.modTransMap i (fun x => { x with pagesTranslated := v })) = allocatedOf s :=
  allocatedOf_modTransMap_keep s i _ (fun _ => rfl)

theorem allocatedOf_set_rxDmaExe (s : FW α) (i v : Nat) :
    allocatedOf (s.modTransMap i (fun x => { x with rxDmaExe := v })) = allocatedOf s :=
  allocatedOf_modTransMap_keep s i _ (fun _ => rfl)

theorem nextOf_set_next (s : FW α) (i v : Nat) :
    nextOf (s.modTransMap i (fun x => { x with next := v })) = set1 (nextOf s) i v :=
  nextOf_modTransMap s i _

theorem allocatedOf_set_allocated (s : FW α) (i v : Nat) :
    allocatedOf (s.modTransMap i (fun x => { x with allocated := v })) = set1 (allocatedOf s) i v :=
  allocatedOf_modTransMap s i _

theorem availQ_modTransMap (s : FW α) (i : Nat) (f : TransBufEntry → TransBufEntry) :
    (s.modTransMap i f).transAvailQ = s.transAvailQ := rfl

theorem nextOf_setAvail (s : FW α) (v : Nat × Nat) :
    nextOf { s with transAvailQ := v } = nextOf s := rfl

theorem allocatedOf_setAvail (s : FW α) (v : Nat × Nat) :
    allocatedOf { s with transAvailQ := v } = allocatedOf s := rfl

theorem availQ_setAvail (s : FW α) (v : Nat × Nat) :
    ({ s with transAvailQ := v } : FW α).transAvailQ = v := rfl

/-- The free list fields after `DeallocateTransBufEntry`. -/
theorem DeallocateTransBufEntry_pool (s : FW α) (e : Nat) :
    nextOf (DeallocateTransBufEntry s e)
      = (if s.transAvailQ.2 = 0xffff then set1 (nextOf s) e 0xffff
          else set1 (set1 (nextOf s) e 0xffff) s.transAvailQ.2 (e % 2 ^ 16)) ∧
    allocatedOf (DeallocateTransBufEntry s e) = set1 (allocatedOf s) e 0 ∧
    (DeallocateTransBufEntry s e).transAvailQ
      = (if s.transAvailQ.2 = 0xffff then e % 2 ^ 16 else s.transAvailQ.1, e % 2 ^ 16) := by
  have hn4 : nextOf ((((s.modTransMap e
        (fun x => { x with prev := s.transAvailQ.2 % 2 ^ 16 })).modTransMap e
        (fun x => { x with next := 0xffff })).modTransMap e
        (fun x => { x with allocated := 0 })).modTransMap e
        (fun x => { x with configured := 0 })) = set1 (nextOf s) e 0xffff := by
    rw [nextOf_set_configured, nextOf_set_allocated, nextOf_set_next, nextOf_set_prev]
  have ha4 : allocatedOf ((((s.modTransMap e
        (fun x => { x with prev := s.transAvailQ.2 % 2 ^ 16 })).modTransMap e
        (fun x => { x with next := 0xffff })).modTransMap e
        (fun x => { x with allocated := 0 })).modTransMap e
        (fun x => { x with configured := 0 })) = set1 (allocatedOf s) e 0 := by
    rw [allocatedOf_set_configured, allocatedOf_set_allocated, allocatedOf_set_next,
      allocatedOf_set_prev]
  unfold DeallocateTransBufEntry
  simp only [availQ_modTransMap]
  by_cases h : s.transAvailQ.2 = 0xffff
  · rw [if_pos h, if_pos h, if_pos h]
    refine ⟨?_, ?_, ?_⟩
    · rw [nextOf_setAvail, nextOf_setAvail]; exact hn4
    · rw [allocatedOf_setAvail, allocatedOf_setAvail]; exact ha4
    · rfl
  · rw [if_neg h, if_neg h, if_neg h]
    refine ⟨?_, ?_, ?_⟩
    · rw [nextOf_setAvail, nextOf_set_next, hn4]
    · rw [allocatedOf_setAvail, allocatedOf_set_next]; exact ha4
    · rfl

theorem halted_modTransMap (s : FW α) (i : Nat) (f : TransBufEntry → TransBufEntry) :
    (s.modTransMap i f).halted = s.halted := rfl

theorem halted_setAvail (s : FW α) (v : Nat × Nat) :
    ({ s with transAvailQ := v } : FW α).halted = s.halted := rfl

theorem transMap_modTransMap_self (s : FW α) (i : Nat) (f : TransBufEntry → TransBufEntry) :
    (s.modTransMap i f).transMap i = f (s.transMap i) := by
  unfold FW.modTransMap
  exact set1_eq _ _ _

/-- The free list fields after an `AllocateTransBufEntry` that finds a free entry. -/
theorem AllocateTransBufEntry_pool (s : FW α) (slba requestId : Nat)
    (hh : s.transAvailQ.1 ≠ 0xffff) :
    (AllocateTransBufEntry s slba requestId).2 = s.transAvailQ.1 ∧
    nextOf (AllocateTransBufEntry s slba requestId).1 = nextOf s ∧
    allocatedOf (AllocateTransBufEntry s slba requestId).1
      = set1 (allocatedOf s) s.transAvailQ.1 1 ∧
    (AllocateTransBufEntry s slba requestId).1.transAvailQ
      = (if s.transAvailQ.1 = s.transAvailQ.2 then (0xffff, 0xffff)
          else (nextOf s s.transAvailQ.1 % 2 ^ 16, s.transAvailQ.2)) ∧
    (AllocateTransBufEntry s slba requestId).1.halted = s.halted := by
  unfold AllocateTransBufEntry
  rw [if_pos hh]
  simp only []
  refine ⟨trivial, ?_, ?_, ?_, ?_⟩
  · rw [nextOf_set_pagesTranslated, nextOf_set_nlbCompleted, nextOf_set_nlbRequested,
      nextOf_set_allocated, nextOf_set_configured, nextOf_set_requestId, nextOf_set_slba]
    by_cases h : s.transAvailQ.1 = s.transAvailQ.2
    · rw [if_pos h, nextOf_setAvail]
    · rw [if_neg h, nextOf_set_prev, nextOf_setAvail]
  · rw [allocatedOf_set_pagesTranslated, allocatedOf_set_nlbCompleted,
      allocatedOf_set_nlbRequested, allocatedOf_set_allocated, allocatedOf_set_configured,
      allocatedOf_set_requestId, allocatedOf_set_slba]
    by_cases h : s.transAvailQ.1 = s.transAvailQ.2
    · rw [if_pos h, allocatedOf_setAvail]
    · rw [if_neg h, allocatedOf_set_prev, allocatedOf_setAvail]
  · rw [availQ_modTransMap, availQ_modTransMap, availQ_modTransMap, availQ_modTransMap,
      availQ_modTransMap, availQ_modTransMap, availQ_modTransMap]
    by_cases h : s.transAvailQ.1 = s.transAvailQ.2
    · rw [if_pos h, if_pos h]
    · rw [if_neg h, if_neg h]
      rfl
  · rw [halted_modTransMap, halted_modTransMap, halted_modTransMap, halted_modTransMap,
      halted_modTransMap, halted_modTransMap, halted_modTransMap]
    by_cases h : s.transAvailQ.1 = s.transAvailQ.2
    · rw [if_pos h]
    · rw [if_neg h]
      rfl

theorem allocFields (t : FW α) (i slba requestId : Nat) :
    (((((((((t.modTransMap i (fun e => { e with slba := slba })).modTransMap i
        (fun e => { e with requestId := requestId })).modTransMap i
        (fun e => { e with configured := 0 })).modTransMap i
        (fun e => { e with allocated := 1 })).modTransMap i
        (fun e => { e with nlbRequested := 0 })).modTransMap i
        (fun e => { e with nlbCompleted := 0 })).modTransMap i
        (fun e => { e with pagesTranslated := 0 })).transMap i).slba = slba) ∧
    (((((((((t.modTransMap i (fun e => { e with slba := slba })).modTransMap i
        (fun e => { e with requestId := requestId })).modTransMap i
        (fun e => { e with configured := 0 })).modTransMap i
        (fun e => { e with allocated := 1 })).modTransMap i
        (fun e => { e with nlbRequested := 0 })).modTransMap i
        (fun e => { e with nlbCompleted := 0 })).modTransMap i
        (fun e => { e with pagesTranslated := 0 })).transMap i).requestId = requestId) ∧
    (((((((((t.modTransMap i (fun e => { e with slba := slba })).modTransMap i
        (fun e => { e with requestId := requestId })).modTransMap i
        (fun e => { e with configured := 0 })).modTransMap i
        (fun e => { e with allocated := 1 })).modTransMap i
        (fun e => { e with nlbRequested := 0 })).modTransMap i
        (fun e => { e with nlbCompleted := 0 })).modTransMap i
        (fun e => { e with pagesTranslated := 0 })).transMap i).allocated = 1) ∧
    (((((((((t.modTransMap i (fun e => { e with slba := slba })).modTransMap i
        (fun e => { e with requestId := requestId })).modTransMap i
        (fun e => { e with configured := 0 })).modTransMap i
        (fun e => { e with allocated := 1 })).modTransMap i
        (fun e => { e with nlbRequested := 0 })).modTransMap i
        (fun e => { e with nlbCompleted := 0 })).modTransMap i
        (fun e => { e with pagesTranslated := 0 })).transMap i).configured = 0) ∧
    (((((((((t.modTransMap i (fun e => { e with slba := slba })).modTransMap i
        (fun e => { e with requestId := requestId })).modTransMap i
        (fun e => { e with configured := 0 })).modTransMap i
        (fun e => { e with allocated := 1 })).modTransMap i
        (fun e => { e with nlbRequested := 0 })).modTransMap i
        (fun e => { e with nlbCompleted := 0 })).modTransMap i
        (fun e => { e with pagesTranslated := 0 })).transMap i).nlbRequested = 0) ∧
    (((((((((t.modTransMap i (fun e => { e with slba := slba })).modTransMap i
        (fun e => { e with requestId := requestId })).modTransMap i
        (fun e => { e with configured := 0 })).modTransMap i
        (fun e => { e with allocated := 1 })).modTransMap i
        (fun e => { e with nlbRequested := 0 })).modTransMap i
        (fun e => { e with nlbCompleted := 0 })).modTransMap i
        (fun e => { e with pagesTranslated := 0 })).transMap i).nlbCompleted = 0) ∧
    (((((((((t.modTransMap i (fun e => { e with slba := slba })).modTransMap i
        (fun e => { e with requestId := requestId })).modTransMap i
        (fun e => { e with configured := 0 })).modTransMap i
        (fun e => { e with allocated := 1 })).modTransMap i
        (fun e => { e with nlbRequested := 0 })).modTransMap i
        (fun e => { e with nlbCompleted := 0 })).modTransMap i
        (fun e => { e with pagesTranslated := 0 })).transMap i).pagesTranslated = 0) := by
  simp only [transMap_modTransMap_self]
  exact ⟨trivial, trivial, trivial, trivial, trivial, trivial, trivial⟩

/-- The entry handed out by `AllocateTransBufEntry` is initialised. -/
theorem AllocateTransBufEntry_entry (s : FW α) (slba requestId : Nat)
    (hh : s.transAvailQ.1 ≠ 0xffff) :
    ((AllocateTransBufEntry s slba requestId).1.transMap s.transAvailQ.1).slba = slba ∧
    ((AllocateTransBufEntry s slba requestId).1.transMap s.transAvailQ.1).requestId
      = requestId ∧
    ((AllocateTransBufEntry s slba requestId).1.transMap s.transAvailQ.1).allocated = 1 ∧
    ((AllocateTransBufEntry s slba requestId).1.transMap s.transAvailQ.1).configured = 0 ∧
    ((AllocateTransBufEntry s slba requestId).1.transMap s.transAvailQ.1).nlbRequested = 0 ∧
    ((AllocateTransBufEntry s slba requestId).1.transMap s.transAvailQ.1).nlbCompleted = 0 ∧
    ((AllocateTransBufEntry s slba requestId).1.transMap s.transAvailQ.1).pagesTranslated
      = 0 := by
  unfold AllocateTransBufEntry
  rw [if_pos hh]
  exact allocFields _ _ _ _

theorem PoolInv.head_eq {s : FW α} {w : Nat} {ws : List Nat} (h : PoolInv s (w :: ws)) :
    s.transAvailQ.1 = w := h.fwd.1

theorem PoolInv.empty_iff {s : FW α} {free : List Nat} (h : PoolInv s free) :
    s.transAvailQ.1 = 0xffff ↔ free = [] := by
  cases free with
  | nil => exact ⟨fun _ => rfl, fun _ => h.fwd⟩
  | cons w ws =>
    have hw : w < TRANS_BUF_ENTRY_NUM := h.bound w (List.mem_cons_self _ _)
    have : s.transAvailQ.1 = w := h.fwd.1
    constructor
    · intro h0
      rw [this] at h0
      unfold TRANS_BUF_ENTRY_NUM at hw
      omega
    · intro h0
      exact absurd h0 (List.cons_ne_nil _ _)

theorem getLastD_mem_of_ne_nil (l : List Nat) (d : Nat) (h : l ≠ []) : l.getLastD d ∈ l := by
  cases l with
  | nil => exact absurd rfl h
  | cons a l =>
    rw [List.getLastD_cons]
    induction l generalizing a with
    | nil => simp
    | cons b l ih =>
      rw [List.getLastD_cons]
      exact List.mem_cons_of_mem _ (ih b (List.cons_ne_nil _ _))

/-- `AllocateTransBufEntry` takes the first entry off a non-empty free list. -/
theorem AllocateTransBufEntry_inv (s : FW α) (slba requestId w : Nat) (ws : List Nat)
    (h : PoolInv s (w :: ws)) :
    PoolInv (AllocateTransBufEntry s slba requestId).1 ws ∧
    (AllocateTransBufEntry s slba requestId).2 = w := by
  have hw : w < TRANS_BUF_ENTRY_NUM := h.bound w (List.mem_cons_self _ _)
  have hhead : s.transAvailQ.1 = w := h.fwd.1
  have hh : s.transAvailQ.1 ≠ 0xffff := by
    rw [hhead]
    unfold TRANS_BUF_ENTRY_NUM at hw
    omega
  obtain ⟨hres, hnx, hal, hq, _⟩ := AllocateTransBufEntry_pool s slba requestId hh
  have hnd : w ∉ ws := (List.nodup_cons.1 h.nodup).1
  have hfw : Fwd (nextOf s) (nextOf s w) ws 0xffff := h.fwd.2
  refine ⟨⟨?_, ?_, (List.nodup_cons.1 h.nodup).2, fun i hi => h.bound i (List.mem_cons_of_mem _ hi),
    ?_⟩, hres.trans hhead⟩
  · show Fwd (nextOf (AllocateTransBufEntry s slba requestId).1)
      (AllocateTransBufEntry s slba requestId).1.transAvailQ.1 ws 0xffff
    rw [hnx, hq, hhead]
    by_cases ht : w = s.transAvailQ.2
    · rw [if_pos ht]
      have hlast := h.last
      rw [← ht] at hlast
      have hnil : ws = [] := by
        by_contra hne
        have hm : (w :: ws).getLastD 0xffff ∈ ws := by
          rw [List.getLastD_cons]
          exact getLastD_mem_of_ne_nil ws w hne
        rw [← hlast] at hm
        exact hnd hm
      subst hnil
      exact rfl
    · rw [if_neg ht]
      have hne : ws ≠ [] := by
        intro hnil
        subst hnil
        exact ht h.last.symm
      have hlt : nextOf s w < 2 ^ 16 := by
        cases ws with
        | nil => exact absurd rfl hne
        | cons a ws =>
          have ha : nextOf s w = a := hfw.1
          have hb := h.bound a (List.mem_cons_of_mem _ (List.mem_cons_self _ _))
          rw [ha]
          unfold TRANS_BUF_ENTRY_NUM at hb
          omega
      show Fwd (nextOf s) (nextOf s w % 2 ^ 16) ws 0xffff
      rw [Nat.mod_eq_of_lt hlt]
      exact hfw
  · rw [hq, hhead]
    by_cases ht : w = s.transAvailQ.2
    · rw [if_pos ht]
      have hlast := h.last
      rw [← ht] at hlast
      have hnil : ws = [] := by
        by_contra hne
        have hm : (w :: ws).getLastD 0xffff ∈ ws := by
          rw [List.getLastD_cons]
          exact getLastD_mem_of_ne_nil ws w hne
        rw [← hlast] at hm
        exact hnd hm
      subst hnil
      rfl
    · rw [if_neg ht]
      show s.transAvailQ.2 = ws.getLastD 0xffff
      have hne : ws ≠ [] := by
        intro hnil
        subst hnil
        exact ht h.last.symm
      rw [h.last, List.getLastD_cons]
      cases ws with
      | nil => exact absurd rfl hne
      | cons a ws => rw [List.getLastD_cons, List.getLastD_cons]
  · intro i hi
    show i ∈ ws ↔ allocatedOf (AllocateTransBufEntry s slba requestId).1 i = 0
    rw [hal, hhead]
    by_cases hiw : i = w
    · subst hiw
      rw [set1_eq]
      exact ⟨fun hm => absurd hm hnd, fun h1 => absurd h1 (by decide)⟩
    · rw [set1_ne _ _ hiw]
      have := h.alloc i hi
      rw [List.mem_cons] at this
      constructor
      · intro hm
        exact this.1 (Or.inr hm)
      · intro h0
        rcases this.2 h0 with h1 | h1
        · exact absurd h1 hiw
        · exact h1

theorem PoolInv.tail_empty_iff {s : FW α} {free : List Nat} (h : PoolInv s free) :
    s.transAvailQ.2 = 0xffff ↔ free = [] := by
  constructor
  · intro h0
    by_contra hne
    have hm := getLastD_mem_of_ne_nil free 0xffff hne
    rw [← h.last, h0] at hm
    have := h.bound _ hm
    unfold TRANS_BUF_ENTRY_NUM at this
    omega
  · intro h0
    subst h0
    exact h.last

theorem getLast?_of_getLastD (l : List Nat) (d : Nat) (h : l ≠ []) :
    l.getLast? = some (l.getLastD d) := by
  cases l with
  | nil => exact absurd rfl h
  | cons a l => simp [List.getLast?_cons_cons, List.getLastD_cons, List.getLast?_eq_getLast,
      List.getLastD_eq_getLast?]

/-- `DeallocateTransBufEntry` of an allocated entry appends it to the free list. -/
theorem DeallocateTransBufEntry_inv (s : FW α) (e : Nat) (free : List Nat)
    (h : PoolInv s free) (he : e < TRANS_BUF_ENTRY_NUM) (ha : (s.transMap e).allocated ≠ 0) :
    PoolInv (DeallocateTransBufEntry s e) (free ++ [e]) := by
  obtain ⟨hnx, hal, hq⟩ := DeallocateTransBufEntry_pool s e
  have hmod : e % 2 ^ 16 = e := Nat.mod_eq_of_lt (by unfold TRANS_BUF_ENTRY_NUM at he; omega)
  have hnot : e ∉ free := fun hm => ha ((h.alloc e he).1 hm)
  have hsn := Fwd_snoc (nextOf s) free e s.transAvailQ.1 0xffff h.fwd hnot h.nodup
  refine ⟨?_, ?_, ?_, ?_, ?_⟩
  · show Fwd (nextOf (DeallocateTransBufEntry s e)) (DeallocateTransBufEntry s e).transAvailQ.1
      (free ++ [e]) 0xffff
    rw [hnx, hq, hmod]
    by_cases ht : s.transAvailQ.2 = 0xffff
    · rw [if_pos ht, if_pos ht]
      exact hsn.1 (h.tail_empty_iff.1 ht)
    · rw [if_neg ht, if_neg ht]
      have hne : free ≠ [] := fun h0 => ht (h.tail_empty_iff.2 h0)
      have hl := getLast?_of_getLastD free 0xffff hne
      rw [← h.last] at hl
      exact hsn.2 _ hl
  · rw [hq, hmod]
    show e = (free ++ [e]).getLastD 0xffff
    simp [List.getLastD_eq_getLast?]
  · rw [List.nodup_append]
    refine ⟨h.nodup, List.nodup_singleton _, ?_⟩
    intro a ha1 ha2
    rw [List.mem_singleton] at ha2
    subst ha2
    exact hnot ha1
  · intro i hi
    rw [List.mem_append, List.mem_singleton] at hi
    rcases hi with hi | hi
    · exact h.bound i hi
    · rw [hi]; exact he
  · intro i hi
    show i ∈ free ++ [e] ↔ allocatedOf (DeallocateTransBufEntry s e) i = 0
    rw [hal, List.mem_append, List.mem_singleton]
    by_cases hie : i = e
    · subst hie
      rw [set1_eq]
      exact ⟨fun _ => rfl, fun _ => Or.inr rfl⟩
    · rw [set1_ne _ _ hie]
      constructor
      · rintro (h1 | h1)
        · exact (h.alloc i hi).1 h1
        · exact absurd h1 hie
      · intro h0
        exact Or.inl ((h.alloc i hi).2 h0)

theorem TransBufInitEntry_pool (i : Nat) (st : FW α) :
    nextOf (TransBufInitEntry i st)
      = set1 (nextOf st) i (if i = TRANS_BUF_ENTRY_NUM - 1 then 0xffff else i + 1) ∧
    allocatedOf (TransBufInitEntry i st) = set1 (allocatedOf st) i 0 := by
  unfold TransBufInitEntry
  constructor
  · rw [nextOf_set_configured, nextOf_set_allocated, nextOf_set_next, nextOf_set_prev,
      nextOf_set_rxDmaExe]
  · rw [allocatedOf_set_configured, allocatedOf_set_allocated, allocatedOf_set_next,
      allocatedOf_set_prev, allocatedOf_set_rxDmaExe]

/-- The entry loop of `TransBufInit` after `n` iterations. -/
theorem TransBufInit_loop (s : FW α) (n : Nat) :
    (∀ i, i < n →
      nextOf (forRange n TransBufInitEntry s) i
        = (if i = TRANS_BUF_ENTRY_NUM - 1 then 0xffff else i + 1)) ∧
    (∀ i, i < n → allocatedOf (forRange n TransBufInitEntry s) i = 0) := by
  induction n with
  | zero => exact ⟨fun i hi => absurd hi (Nat.not_lt_zero _), fun i hi => absurd hi (Nat.not_lt_zero _)⟩
  | succ n ih =>
    rw [forRange_succ]
    obtain ⟨h1, h2⟩ := TransBufInitEntry_pool n (forRange n TransBufInitEntry s)
    constructor
    · intro i hi
      rw [h1]
      by_cases hin : i = n
      · subst hin
        rw [set1_eq]
      · rw [set1_ne _ _ hin]
        exact ih.1 i (by omega)
    · intro i hi
      rw [h2]
      by_cases hin : i = n
      · subst hin
        rw [set1_eq]
      · rw [set1_ne _ _ hin]
        exact ih.2 i (by omega)

theorem nextOf_mk (a1 : Nat → Nat → Nat → ReqEntry) (a2 : Nat → Nat → RqPointerEntry)
    (a3 : Nat → Nat → Nat → SubReqEntry) (a4 : Nat → Nat → RqPointerEntry)
    (a5 : Nat → Nat → DieStatusEntry) (a6 : Nat → Nat → Nat → Nat) (a7 : Nat → Nat → Int)
    (a8 : Nat → WayPriorityEntry) (a9 : Nat → Nat → TransPageReqEntry)
    (a10 a11 : Nat → TransReqEntry) (a12 a13 : TransRqPointerEntry) (a14 a15 : Nat)
    (a16 : Nat → TransConfig) (a17 : Nat → TransBufEntry) (a18 : Nat × Nat)
    (a19 : Nat → TransEmbedCacheEntry α) (a20 : Nat → α) (a21 a22 : Nat) (a23 : Nat → BufEntry)
    (a24 : Nat → BufLruEntry) (a25 : Nat) (a26 : List Event) (a27 : Bool) :
    nextOf (FW.mk a1 a2 a3 a4 a5 a6 a7 a8 a9 a10 a11 a12 a13 a14 a15 a16 a17 a18 a19 a20
      a21 a22 a23 a24 a25 a26 a27) = fun i => (a17 i).next := rfl

theorem allocatedOf_mk (a1 : Nat → Nat → Nat → ReqEntry) (a2 : Nat → Nat → RqPointerEntry)
    (a3 : Nat → Nat → Nat → SubReqEntry) (a4 : Nat → Nat → RqPointerEntry)
    (a5 : Nat → Nat → DieStatusEntry) (a6 : Nat → Nat → Nat → Nat) (a7 : Nat → Nat → Int)
    (a8 : Nat → WayPriorityEntry) (a9 : Nat → Nat → TransPageReqEntry)
    (a10 a11 : Nat → TransReqEntry) (a12 a13 : TransRqPointerEntry) (a14 a15 : Nat)
    (a16 : Nat → TransConfig) (a17 : Nat → TransBufEntry) (a18 : Nat × Nat)
    (a19 : Nat → TransEmbedCacheEntry α) (a20 : Nat → α) (a21 a22 : Nat) (a23 : Nat → BufEntry)
    (a24 : Nat → BufLruEntry) (a25 : Nat) (a26 : List Event) (a27 : Bool) :
    allocatedOf (FW.mk a1 a2 a3 a4 a5 a6 a7 a8 a9 a10 a11 a12 a13 a14 a15 a16 a17 a18 a19 a20
      a21 a22 a23 a24 a25 a26 a27) = fun i => (a17 i).allocated := rfl

/-- The free list fields after `TransBufInit`. -/
theorem TransBufInit_pool (s : FW α) :
    (∀ i, i < TRANS_BUF_ENTRY_NUM →
      nextOf (TransBufInit s) i = (if i = TRANS_BUF_ENTRY_NUM - 1 then 0xffff else i + 1)) ∧
    (∀ i, i < TRANS_BUF_ENTRY_NUM → allocatedOf (TransBufInit s) i = 0) ∧
    (TransBufInit s).transAvailQ = (0, TRANS_BUF_ENTRY_NUM - 1) := by
  obtain ⟨hn, ha⟩ := TransBufInit_loop s TRANS_BUF_ENTRY_NUM
  unfold TransBufInit
  simp only []
  refine ⟨fun i hi => ?_, fun i hi => ?_, trivial⟩
  · rw [nextOf_mk]
    exact hn i hi
  · rw [allocatedOf_mk]
    exact ha i hi

/-- After `TransBufInit` the free list holds all eight entries in index order. -/
theorem TransBufInit_inv (s : FW α) : PoolInv (TransBufInit s) (List.range TRANS_BUF_ENTRY_NUM) := by
  obtain ⟨hnx, hal, hq⟩ := TransBufInit_pool s
  refine ⟨?_, ?_, List.nodup_range _, fun i hi => List.mem_range.1 hi, ?_⟩
  · show Fwd (nextOf (TransBufInit s)) (TransBufInit s).transAvailQ.1 _ 0xffff
    rw [hq]
    show Fwd (nextOf (TransBufInit s)) 0 [0, 1, 2, 3, 4, 5, 6, 7] 0xffff
    simp only [Fwd, hnx 0 (by decide), hnx 1 (by decide), hnx 2 (by decide), hnx 3 (by decide),
      hnx 4 (by decide), hnx 5 (by decide), hnx 6 (by decide), hnx 7 (by decide)]
    decide
  · rw [hq]
    decide
  · intro i hi
    show i ∈ List.range TRANS_BUF_ENTRY_NUM ↔ allocatedOf (TransBufInit s) i = 0
    rw [hal i hi]
    exact ⟨fun _ => rfl, fun _ => List.mem_range.2 hi⟩

/-- Admissible calls keep the free list well formed. -/
theorem poolRun_inv (s : FW α) (ops : List PoolOp) (free : List Nat) (h : PoolInv s free)
    (hok : poolRunOk s ops) : ∃ free1, PoolInv (poolRun s ops) free1 := by
  induction ops generalizing s free with
  | nil => exact ⟨free, h⟩
  | cons op ops ih =>
    obtain ⟨hop, hrest⟩ := hok
    cases op with
    | alloc slba requestId =>
      have hne : free ≠ [] := fun h0 => hop (h.empty_iff.2 h0)
      cases free with
      | nil => exact absurd rfl hne
      | cons w ws =>
        exact ih _ ws (AllocateTransBufEntry_inv s slba requestId w ws h).1 hrest
    | dealloc e =>
      exact ih _ (free ++ [e]) (DeallocateTransBufEntry_inv s e free h hop.1 hop.2) hrest

theorem AllocateTransBufEntry_empty (s : FW α) (slba requestId : Nat)
    (h : s.transAvailQ.1 = 0xffff) :
    AllocateTransBufEntry s slba requestId = ({ s with halted := true }, 0xffff) := by
  unfold AllocateTransBufEntry
  rw [if_neg (fun hne => hne h)]

/-- C25: the translation buffer pool. From `TransBufInit`, after any sequence of
`AllocateTransBufEntry` calls made while a free entry exists and `DeallocateTransBufEntry`
calls on allocated entries of the pool, the free list headed by `transAvailQ` is well formed:
chained through `next` from head to tail, no entry twice, every member an entry of the
pool, and an entry is on the list exactly when `allocated = 0`. A further
`AllocateTransBufEntry` takes the `ASSERT(0)` branch exactly when the free list is empty;
otherwise it returns the head of the list, an index below `TRANS_BUF_ENTRY_NUM` whose
`allocated` bit was 0, records `slba` and `requestId`, sets `allocated = 1`,
`configured = 0`, `nlbRequested = nlbCompleted = pagesTranslated = 0`, and leaves the rest
of the list as the free list. -/
theorem pool_free_list (s : FW α) (ops : List PoolOp) (slba requestId : Nat)
    (hok : poolRunOk (TransBufInit s) ops) :
    ∃ free, PoolInv (poolRun (TransBufInit s) ops) free ∧
      free.length ≤ TRANS_BUF_ENTRY_NUM ∧
      ((poolRun (TransBufInit s) ops).transAvailQ.1 = 0xffff ↔ free = []) ∧
      (free = [] →
        AllocateTransBufEntry (poolRun (TransBufInit s) ops) slba requestId
          = ({ poolRun (TransBufInit s) ops with halted := true }, 0xffff)) ∧
      (free ≠ [] →
        (AllocateTransBufEntry (poolRun (TransBufInit s) ops) slba requestId).2
          = free.headD 0xffff ∧
        (AllocateTransBufEntry (poolRun (TransBufInit s) ops) slba requestId).2
          < TRANS_BUF_ENTRY_NUM ∧
        ((poolRun (TransBufInit s) ops).transMap
          (AllocateTransBufEntry (poolRun (TransBufInit s) ops) slba requestId).2).allocated
          = 0 ∧
        (AllocateTransBufEntry (poolRun (TransBufInit s) ops) slba requestId).1.halted
          = (poolRun (TransBufInit s) ops).halted ∧
        ((AllocateTransBufEntry (poolRun (TransBufInit s) ops) slba requestId).1.transMap
          (AllocateTransBufEntry (poolRun (TransBufInit s) ops) slba requestId).2).slba
          = slba ∧
        ((AllocateTransBufEntry (poolRun (TransBufInit s) ops) slba requestId).1.transMap
          (AllocateTransBufEntry (poolRun (TransBufInit s) ops) slba requestId).2).requestId
          = requestId ∧
        ((AllocateTransBufEntry (poolRun (TransBufInit s) ops) slba requestId).1.transMap
          (AllocateTransBufEntry (poolRun (TransBufInit s) ops) slba requestId).2).allocated
          = 1 ∧
        ((AllocateTransBufEntry (poolRun (TransBufInit s) ops) slba requestId).1.transMap
          (AllocateTransBufEntry (poolRun (TransBufInit s) ops) slba requestId).2).configured
          = 0 ∧
        ((AllocateTransBufEntry (poolRun (TransBufInit s) ops) slba requestId).1.transMap
          (AllocateTransBufEntry (poolRun (TransBufInit s) ops) slba requestId).2).nlbRequested
          = 0 ∧
        ((AllocateTransBufEntry (poolRun (TransBufInit s) ops) slba requestId).1.transMap
          (AllocateTransBufEntry (poolRun (TransBufInit s) ops) slba requestId).2).nlbCompleted
          = 0 ∧
        ((AllocateTransBufEntry (poolRun (TransBufInit s) ops) slba requestId).1.transMap
          (AllocateTransBufEntry (poolRun (TransBufInit s) ops) slba requestId).2
          ).pagesTranslated = 0 ∧
        PoolInv (AllocateTransBufEntry (poolRun (TransBufInit s) ops) slba requestId).1
          free.tail) := by
  obtain ⟨free, hinv⟩ := poolRun_inv (TransBufInit s) ops _ (TransBufInit_inv s) hok
  refine ⟨free, hinv, ?_, hinv.empty_iff, ?_, ?_⟩
  · have hsub : free ⊆ List.range TRANS_BUF_ENTRY_NUM :=
      fun i hi => List.mem_range.2 (hinv.bound i hi)
    have := (List.subperm_of_subset hinv.nodup hsub).length_le
    rwa [List.length_range] at this
  · intro h0
    exact AllocateTransBufEntry_empty _ slba requestId (hinv.empty_iff.2 h0)
  · intro hne
    cases free with
    | nil => exact absurd rfl hne
    | cons w ws =>
      have hw : w < TRANS_BUF_ENTRY_NUM := hinv.bound w (List.mem_cons_self _ _)
      have hhead : (poolRun (TransBufInit s) ops).transAvailQ.1 = w := hinv.fwd.1
      have hh : (poolRun (TransBufInit s) ops).transAvailQ.1 ≠ 0xffff :=
        fun h0 => absurd (hinv.empty_iff.1 h0) (List.cons_ne_nil _ _)
      obtain ⟨hi1, hi2⟩ := AllocateTransBufEntry_inv _ slba requestId w ws hinv
      obtain ⟨_, _, _, _, hhalt⟩ := AllocateTransBufEntry_pool _ slba requestId hh
      have hent := AllocateTransBufEntry_entry (poolRun (TransBufInit s) ops) slba requestId hh
      rw [hhead] at hent
      rw [hi2]
      exact ⟨rfl, hw, (hinv.alloc w hw).1 (List.mem_cons_self _ _), hhalt, hent.1, hent.2.1,
        hent.2.2.1, hent.2.2.2.1, hent.2.2.2.2.1, hent.2.2.2.2.2.1, hent.2.2.2.2.2.2, hi1⟩

theorem poolRunOk_of_bool (s : FW α) (ops : List PoolOp) (h : poolRunOkB s ops = true) :
    poolRunOk s ops := by
  induction ops generalizing s with
  | nil => trivial
  | cons op ops ih =>
    cases op with
    | alloc slba requestId =>
      simp only [poolRunOkB, Bool.and_eq_true, decide_eq_true_eq] at h
      exact ⟨h.1, ih _ h.2⟩
    | dealloc e =>
      simp only [poolRunOkB, Bool.and_eq_true, decide_eq_true_eq] at h
      exact ⟨⟨h.1.1, h.1.2⟩, ih _ h.2⟩

/-- Witness for C25: after `TransBufInit`, two allocations (which return entries 0 and 1)
and the release of entry 0, the free list is 2, 3, 4, 5, 6, 7, 0; the next allocation
returns entry 2 and initialises it; eight allocations in a row exhaust the pool without
reaching the assertion, and the ninth reaches it. -/
theorem pool_free_list_witness :
    poolRunOk (TransBufInit blankFW) examplePoolOps ∧
    (∃ free, PoolInv (poolRun (TransBufInit blankFW) examplePoolOps) free ∧
      free.length ≤ TRANS_BUF_ENTRY_NUM ∧
      ((poolRun (TransBufInit blankFW) examplePoolOps).transAvailQ.1 = 0xffff ↔ free = [])) ∧
    freeListOf (TransBufInit blankFW) 9 (TransBufInit blankFW).transAvailQ.1
      = [0, 1, 2, 3, 4, 5, 6, 7] ∧
    freeListOf (poolRun (TransBufInit blankFW) examplePoolOps) 9
      (poolRun (TransBufInit blankFW) examplePoolOps).transAvailQ.1 = [2, 3, 4, 5, 6, 7, 0] ∧
    (AllocateTransBufEntry (poolRun (TransBufInit blankFW) examplePoolOps) 3000 44).2 = 2 ∧
    ((AllocateTransBufEntry (poolRun (TransBufInit blankFW) examplePoolOps) 3000 44).1.transMap
      2).slba = 3000 ∧
    ((AllocateTransBufEntry (poolRun (TransBufInit blankFW) examplePoolOps) 3000 44).1.transMap
      2).allocated = 1 ∧
    (poolRun (TransBufInit blankFW) (List.replicate 8 (.alloc 0 0))).transAvailQ
      = (0xffff, 0xffff) ∧
    (poolRun (TransBufInit blankFW) (List.replicate 8 (.alloc 0 0))).halted = false ∧
    (poolRun (TransBufInit blankFW) (List.replicate 9 (.alloc 0 0))).halted = true :=
  ⟨poolRunOk_of_bool _ _ (by decide),
    (pool_free_list blankFW examplePoolOps 3000 44 (poolRunOk_of_bool _ _ (by decide))).imp
      (fun _ h => ⟨h.1, h.2.1, h.2.2.1⟩),
    by decide, by decide, by decide, by decide, by decide, by decide, by decide, by decide⟩

theorem CheckReqQueueAvailability_congr (s t : FW α) (chNo wayNo openSlots : Nat)
    (h : t.rqPointer = s.rqPointer) :
    CheckReqQueueAvailability t chNo wayNo openSlots
      = CheckReqQueueAvailability s chNo wayNo openSlots := by
  unfold CheckReqQueueAvailability
  rw [h]

/-- Room for two more than the test of a push asks for: the push succeeds. -/
theorem push_after_check (P : Params) (s : FW α) (cmd : LowLevelReqInfo)
    (hf : (s.rqPointer cmd.chNo cmd.wayNo).front < REQ_QUEUE_DEPTH)
    (hr : (s.rqPointer cmd.chNo cmd.wayNo).rear < REQ_QUEUE_DEPTH)
    (hc : CheckReqQueueAvailability s cmd.chNo cmd.wayNo 2 ≠ 0) :
    s.occupancy cmd.chNo cmd.wayNo < 253 ∧
    CheckReqQueueAvailability s cmd.chNo cmd.wayNo 0 = 1 ∧
    (PushToReqQueueNonBlocking P s cmd 0).2 = 1 := by
  have h2 := CheckReqQueueAvailability_eq s cmd.chNo cmd.wayNo 2 hf hr
  have h0 := CheckReqQueueAvailability_eq s cmd.chNo cmd.wayNo 0 hf hr
  have hocc : s.occupancy cmd.chNo cmd.wayNo < 253 := by
    rw [h2] at hc
    by_contra hge
    apply hc
    rw [if_pos]
    simp only [REQ_QUEUE_DEPTH, U32]
    omega
  have hc0 : CheckReqQueueAvailability s cmd.chNo cmd.wayNo 0 = 1 := by
    rw [h0, if_neg]
    simp only [REQ_QUEUE_DEPTH, U32]
    omega
  refine ⟨hocc, hc0, ?_⟩
  unfold PushToReqQueueNonBlocking
  simp only []
  rw [if_neg (by rw [hc0]; decide)]
theorem rqView_mk (a1 : Nat → Nat → Nat → ReqEntry) (a2 : Nat → Nat → RqPointerEntry)
    (a3 : Nat → Nat → Nat → SubReqEntry) (a4 : Nat → Nat → RqPointerEntry)
    (a5 : Nat → Nat → DieStatusEntry) (a6 : Nat → Nat → Nat → Nat) (a7 : Nat → Nat → Int)
    (a8 : Nat → WayPriorityEntry) (a9 : Nat → Nat → TransPageReqEntry)
    (a10 a11 : Nat → TransReqEntry) (a12 a13 : TransRqPointerEntry) (a14 a15 : Nat)
    (a16 : Nat → TransConfig) (a17 : Nat → TransBufEntry) (a18 : Nat × Nat)
    (a19 : Nat → TransEmbedCacheEntry α) (a20 : Nat → α) (a21 a22 : Nat) (a23 : Nat → BufEntry)
    (a24 : Nat → BufLruEntry) (a25 : Nat) (a26 : List Event) (a27 : Bool) :
    rqView (FW.mk a1 a2 a3 a4 a5 a6 a7 a8 a9 a10 a11 a12 a13 a14 a15 a16 a17 a18 a19 a20
      a21 a22 a23 a24 a25 a26 a27) = a2 := rfl

theorem rqView_fold (s : FW α) : s.rqPointer = rqView s := rfl
theorem rqView_tick (s : FW α) : rqView s.tick = rqView s := rfl
theorem rqView_modBuf (s : FW α) (b : Nat) (f : BufEntry → BufEntry) :
    rqView (s.modBuf b f) = rqView s := rfl

theorem CheckReqQueueAvailability_view (s t : FW α) (chNo wayNo openSlots : Nat)
    (h : rqView t = rqView s) :
    CheckReqQueueAvailability t chNo wayNo openSlots
      = CheckReqQueueAvailability s chNo wayNo openSlots :=
  CheckReqQueueAvailability_congr s t chNo wayNo openSlots h

theorem PushToReqQueueNonBlocking_flag (P : Params) (t : FW α) (cmd : LowLevelReqInfo)
    (openSlots : Nat) :
    (PushToReqQueueNonBlocking P t cmd openSlots).2
      = if CheckReqQueueAvailability t cmd.chNo cmd.wayNo openSlots = 0 then 0 else 1 := by
  unfold PushToReqQueueNonBlocking
  simp only []
  split_ifs <;> rfl

/-- Room for two entries more than a push asks for implies room for the push. -/
theorem check2_implies_check0 (s : FW α) (chNo wayNo : Nat)
    (hf : (s.rqPointer chNo wayNo).front < REQ_QUEUE_DEPTH)
    (hr : (s.rqPointer chNo wayNo).rear < REQ_QUEUE_DEPTH)
    (hc : CheckReqQueueAvailability s chNo wayNo 2 ≠ 0) :
    CheckReqQueueAvailability s chNo wayNo 0 = 1 := by
  have h2 := CheckReqQueueAvailability_eq s chNo wayNo 2 hf hr
  have h0 := CheckReqQueueAvailability_eq s chNo wayNo 0 hf hr
  have hocc : s.occupancy chNo wayNo < 253 := by
    rw [h2] at hc
    by_contra hge
    apply hc
    rw [if_pos]
    simp only [REQ_QUEUE_DEPTH, U32]
    omega
  rw [h0, if_neg]
  simp only [REQ_QUEUE_DEPTH, U32]
  omega

theorem PushToReqQueueNonBlocking_halted (P : Params) (t : FW α) (cmd : LowLevelReqInfo)
    (openSlots : Nat) : (PushToReqQueueNonBlocking P t cmd openSlots).1.halted = t.halted := by
  unfold PushToReqQueueNonBlocking
  simp only []
  split_ifs <;> rfl

/-- A push without reserve succeeds on every state whose ring pointers are those of a state
that passed the test with a reserve of two. -/
theorem push_ok_of_view (P : Params) (s t : FW α) (cmd : LowLevelReqInfo)
    (hv : rqView t = rqView s)
    (hf : (s.rqPointer cmd.chNo cmd.wayNo).front < REQ_QUEUE_DEPTH)
    (hr : (s.rqPointer cmd.chNo cmd.wayNo).rear < REQ_QUEUE_DEPTH)
    (hc : CheckReqQueueAvailability s cmd.chNo cmd.wayNo 2 ≠ 0) :
    (PushToReqQueueNonBlocking P t cmd 0).2 = 1 := by
  rw [PushToReqQueueNonBlocking_flag, CheckReqQueueAvailability_view s t _ _ 0 hv,
    check2_implies_check0 s _ _ hf hr hc]
  rfl

/-- `readPageToTranslateNonBlocking` on a miss of the LRU buffer, in terms of its blocks. -/
theorem readPageToTranslateNonBlocking_miss [Add α] (env : Env α) (P : Params) (s : FW α)
    (entryIdx lpa page_idx : Nat) (hmiss : env.CheckBufHit s.clock lpa = 0x7fff) :
    readPageToTranslateNonBlocking env P s entryIdx lpa page_idx
      = if CheckReqQueueAvailability s.tick ((lpa % P.DIE_NUM) % P.CHANNEL_NUM)
            ((lpa % P.DIE_NUM) / P.CHANNEL_NUM) 2 = 0 then (s.tick, 0)
        else if ¬ env.AllocateBufEntry s.tick.clock lpa < P.BUF_ENTRY_NUM then
          ({ s.tick.tick with halted := true }, 0)
        else
          pushOrTranslate env P
            (lruInsert s.tick.tick (env.AllocateBufEntry s.tick.clock lpa) (lpa % P.DIE_NUM) lpa)
            entryIdx lpa page_idx (env.AllocateBufEntry s.tick.clock lpa) := by
  unfold readPageToTranslateNonBlocking
  simp only []
  rw [if_neg (by rw [hmiss]; exact fun h => h rfl)]
  rfl
theorem coreView_modBuf (s : FW α) (b : Nat) (f : BufEntry → BufEntry) :
    coreView (s.modBuf b f) = coreView s := rfl

theorem coreView_setLru (s : FW α) (v : Nat → BufLruEntry) :
    coreView { s with bufLruList := v } = coreView s := rfl

theorem bufLruList_modBuf (s : FW α) (b : Nat) (f : BufEntry → BufEntry) :
    (s.modBuf b f).bufLruList = s.bufLruList := rfl

theorem lruInsert_view (s1 : FW α) (bufferEntry dieNo lpa : Nat) :
    coreView (lruInsert s1 bufferEntry dieNo lpa) = coreView s1 := by
  unfold lruInsert
  simp only [bufLruList_modBuf]
  rw [coreView_modBuf]
  by_cases h : (s1.bufLruList dieNo).head ≠ 0x7fff
  · rw [if_pos h, coreView_setLru, coreView_modBuf, coreView_modBuf, coreView_modBuf,
      coreView_modBuf]
  · rw [if_neg h, coreView_setLru, coreView_modBuf, coreView_modBuf, coreView_modBuf]

theorem lruInsert_frame (s1 : FW α) (bufferEntry dieNo lpa : Nat) :
    rqView (lruInsert s1 bufferEntry dieNo lpa) = rqView s1 ∧
    (lruInsert s1 bufferEntry dieNo lpa).halted = s1.halted ∧
    (lruInsert s1 bufferEntry dieNo lpa).clock = s1.clock := by
  have h := lruInsert_view s1 bufferEntry dieNo lpa
  exact ⟨congrArg (fun v => v.1) h, congrArg (fun v => v.2.1) h, congrArg (fun v => v.2.2) h⟩

/-- The last block on a mapped page whose push succeeds: the assertion holds. -/
theorem pushOrTranslate_mapped [Add α] (env : Env α) (P : Params) (s4 : FW α)
    (entryIdx lpa page_idx bufferEntry : Nat)
    (hp : env.ppn s4.clock (lpa % P.DIE_NUM) (lpa / P.DIE_NUM) ≠ 0xffffffff)
    (hpush : (PushToReqQueueNonBlocking P s4.tick
      (translateReadCmd P lpa (env.ppn s4.clock (lpa % P.DIE_NUM) (lpa / P.DIE_NUM)) bufferEntry
        entryIdx page_idx) 0).2 = 1) :
    pushOrTranslate env P s4 entryIdx lpa page_idx bufferEntry
      = ((PushToReqQueueNonBlocking P s4.tick
          (translateReadCmd P lpa (env.ppn s4.clock (lpa % P.DIE_NUM) (lpa / P.DIE_NUM))
            bufferEntry entryIdx page_idx) 0).1, 1) := by
  unfold pushOrTranslate
  simp only []
  rw [if_pos hp, if_neg (by rw [hpush]; decide)]

/-- C26: the enqueue assertion of the translation path cannot fail. For a ring with
`front, rear < REQ_QUEUE_DEPTH`: if `CheckReqQueueAvailability(ch, way, 2)` returns non-zero,
a `PushToReqQueueNonBlocking(cmd, 0)` for the same die made in a state with the same ring
pointers returns 1. In `readPageToTranslateNonBlocking` on a miss of the LRU buffer: when the
test fails the function returns 0 and the state is the entry state with the clock advanced
(no buffer entry allocated, no LRU list touched); when the test passes, the buffer entry is
valid and the page is mapped, the function returns 1, the assertion flag is unchanged, and the
state is the one left by the successful push made after the LRU bookkeeping. -/
theorem enqueue_assertion_holds [Add α] (env : Env α) (P : Params) (s : FW α)
    (entryIdx lpa page_idx : Nat)
    (hf : (s.rqPointer ((lpa % P.DIE_NUM) % P.CHANNEL_NUM) ((lpa % P.DIE_NUM) / P.CHANNEL_NUM)).front
      < REQ_QUEUE_DEPTH)
    (hr : (s.rqPointer ((lpa % P.DIE_NUM) % P.CHANNEL_NUM) ((lpa % P.DIE_NUM) / P.CHANNEL_NUM)).rear
      < REQ_QUEUE_DEPTH) :
    (∀ (t : FW α) (cmd : LowLevelReqInfo),
      cmd.chNo = (lpa % P.DIE_NUM) % P.CHANNEL_NUM →
      cmd.wayNo = (lpa % P.DIE_NUM) / P.CHANNEL_NUM →
      t.rqPointer = s.rqPointer →
      CheckReqQueueAvailability s ((lpa % P.DIE_NUM) % P.CHANNEL_NUM)
        ((lpa % P.DIE_NUM) / P.CHANNEL_NUM) 2 ≠ 0 →
      (PushToReqQueueNonBlocking P t cmd 0).2 = 1) ∧
    (env.CheckBufHit s.clock lpa = 0x7fff →
      (CheckReqQueueAvailability s ((lpa % P.DIE_NUM) % P.CHANNEL_NUM)
          ((lpa % P.DIE_NUM) / P.CHANNEL_NUM) 2 = 0 →
        readPageToTranslateNonBlocking env P s entryIdx lpa page_idx = (s.tick, 0)) ∧
      (CheckReqQueueAvailability s ((lpa % P.DIE_NUM) % P.CHANNEL_NUM)
          ((lpa % P.DIE_NUM) / P.CHANNEL_NUM) 2 ≠ 0 →
        env.AllocateBufEntry s.tick.clock lpa < P.BUF_ENTRY_NUM →
        env.ppn s.tick.tick.clock (lpa % P.DIE_NUM) (lpa / P.DIE_NUM) ≠ 0xffffffff →
        (readPageToTranslateNonBlocking env P s entryIdx lpa page_idx).2 = 1 ∧
        (readPageToTranslateNonBlocking env P s entryIdx lpa page_idx).1.halted = s.halted ∧
        readPageToTranslateNonBlocking env P s entryIdx lpa page_idx
          = ((PushToReqQueueNonBlocking P
              (lruInsert s.tick.tick (env.AllocateBufEntry s.tick.clock lpa) (lpa % P.DIE_NUM)
                lpa).tick
              (translateReadCmd P lpa
                (env.ppn s.tick.tick.clock (lpa % P.DIE_NUM) (lpa / P.DIE_NUM))
                (env.AllocateBufEntry s.tick.clock lpa) entryIdx page_idx) 0).1, 1))) := by
  constructor
  · intro t cmd hch hw hrq hc
    rw [← hch, ← hw] at hf hr hc
    exact push_ok_of_view P s t cmd hrq hf hr hc
  · intro hmiss
    have heq := readPageToTranslateNonBlocking_miss env P s entryIdx lpa page_idx hmiss
    have hck : CheckReqQueueAvailability s.tick ((lpa % P.DIE_NUM) % P.CHANNEL_NUM)
        ((lpa % P.DIE_NUM) / P.CHANNEL_NUM) 2
        = CheckReqQueueAvailability s ((lpa % P.DIE_NUM) % P.CHANNEL_NUM)
          ((lpa % P.DIE_NUM) / P.CHANNEL_NUM) 2 :=
      CheckReqQueueAvailability_view s s.tick _ _ 2 rfl
    rw [hck] at heq
    constructor
    · intro h0
      rw [heq, if_pos h0]
    · intro h1 hb hp
      obtain ⟨hv, hh, hcl⟩ := lruInsert_frame s.tick.tick (env.AllocateBufEntry s.tick.clock lpa)
        (lpa % P.DIE_NUM) lpa
      have hp4 : env.ppn (lruInsert s.tick.tick (env.AllocateBufEntry s.tick.clock lpa)
          (lpa % P.DIE_NUM) lpa).clock (lpa % P.DIE_NUM) (lpa / P.DIE_NUM) ≠ 0xffffffff := by
        rw [hcl]; exact hp
      have hpush : (PushToReqQueueNonBlocking P
          (lruInsert s.tick.tick (env.AllocateBufEntry s.tick.clock lpa) (lpa % P.DIE_NUM)
            lpa).tick
          (translateReadCmd P lpa
            (env.ppn (lruInsert s.tick.tick (env.AllocateBufEntry s.tick.clock lpa)
              (lpa % P.DIE_NUM) lpa).clock (lpa % P.DIE_NUM) (lpa / P.DIE_NUM))
            (env.AllocateBufEntry s.tick.clock lpa) entryIdx page_idx) 0).2 = 1 :=
        push_ok_of_view P s _ _ hv hf hr h1
      have hres := pushOrTranslate_mapped env P _ entryIdx lpa page_idx
        (env.AllocateBufEntry s.tick.clock lpa) hp4 hpush
      rw [hcl] at hres
      rw [heq, if_neg h1, if_neg (not_not.2 hb), hres]
      refine ⟨rfl, ?_, rfl⟩
      show (PushToReqQueueNonBlocking P _ _ 0).1.halted = s.halted
      rw [PushToReqQueueNonBlocking_halted]
      exact hh

/-- Witness for C26: with 252 requests in the ring of die `(0, 0)` the test with a reserve of
two passes, the push is made and the assertion holds; with 253 requests the test fails and
the function returns 0 with no LRU list touched. -/
theorem enqueue_assertion_holds_witness :
    (((ringWith 252).rqPointer ((0 % exampleParams.DIE_NUM) % exampleParams.CHANNEL_NUM)
        ((0 % exampleParams.DIE_NUM) / exampleParams.CHANNEL_NUM)).front < REQ_QUEUE_DEPTH ∧
      ((ringWith 252).rqPointer ((0 % exampleParams.DIE_NUM) % exampleParams.CHANNEL_NUM)
        ((0 % exampleParams.DIE_NUM) / exampleParams.CHANNEL_NUM)).rear < REQ_QUEUE_DEPTH) ∧
    (quietEnv.CheckBufHit (ringWith 252).clock 0 = 0x7fff ∧
      CheckReqQueueAvailability (ringWith 252)
        ((0 % exampleParams.DIE_NUM) % exampleParams.CHANNEL_NUM)
        ((0 % exampleParams.DIE_NUM) / exampleParams.CHANNEL_NUM) 2 ≠ 0 ∧
      quietEnv.AllocateBufEntry (ringWith 252).tick.clock 0 < exampleParams.BUF_ENTRY_NUM ∧
      quietEnv.ppn (ringWith 252).tick.tick.clock (0 % exampleParams.DIE_NUM)
        (0 / exampleParams.DIE_NUM) ≠ 0xffffffff) ∧
    ((readPageToTranslateNonBlocking quietEnv exampleParams (ringWith 252) 0 0 0).2 = 1 ∧
      (readPageToTranslateNonBlocking quietEnv exampleParams (ringWith 252) 0 0 0).1.halted
        = (ringWith 252).halted) ∧
    CheckReqQueueAvailability (ringWith 252) 0 0 2 = 1 ∧
    (readPageToTranslateNonBlocking quietEnv exampleParams (ringWith 252) 0 0 0).2 = 1 ∧
    (readPageToTranslateNonBlocking quietEnv exampleParams (ringWith 252) 0 0 0).1.halted
      = false ∧
    ((readPageToTranslateNonBlocking quietEnv exampleParams (ringWith 252) 0 0 0).1.rqPointer
      0 0).rear = 1 ∧
    CheckReqQueueAvailability (ringWith 253) 0 0 2 = 0 ∧
    (readPageToTranslateNonBlocking quietEnv exampleParams (ringWith 253) 0 0 0).2 = 0 ∧
    (readPageToTranslateNonBlocking quietEnv exampleParams (ringWith 253) 0 0 0).1.halted
      = false ∧
    ((readPageToTranslateNonBlocking quietEnv exampleParams (ringWith 253) 0 0 0).1.bufLruList
      0).head = 0x7fff :=
  ⟨⟨by decide, by decide⟩,
    ⟨by decide, by decide, by decide, by decide⟩,
    (fun h => ⟨h.1, h.2.1⟩)
      (((enqueue_assertion_holds quietEnv exampleParams (ringWith 252) 0 0 0 (by decide)
        (by decide)).2 (by decide)).2 (by decide) (by decide) (by decide)),
    by decide, by decide, by decide, by decide, by decide, by decide, by decide, by decide⟩

theorem check2_iff_occupancy (s : FW α) (chNo wayNo : Nat)
    (hf : (s.rqPointer chNo wayNo).front < REQ_QUEUE_DEPTH)
    (hr : (s.rqPointer chNo wayNo).rear < REQ_QUEUE_DEPTH) :
    CheckReqQueueAvailability s chNo wayNo 2 ≠ 0 ↔ s.occupancy chNo wayNo < 253 := by
  rw [CheckReqQueueAvailability_eq s chNo wayNo 2 hf hr]
  simp only [REQ_QUEUE_DEPTH, U32]
  split_ifs with h
  · constructor
    · intro h0; exact absurd rfl h0
    · intro h1; omega
  · constructor
    · intro _; omega
    · intro _; decide

/-- The two outcomes of `readPageToTranslateNonBlocking` on a miss of the LRU buffer. -/
theorem readPage_miss_cases [Add α] (env : Env α) (P : Params) (s : FW α)
    (entryIdx lpa page_idx : Nat)
    (hmiss : env.CheckBufHit s.clock lpa = 0x7fff)
    (hf : (s.rqPointer ((lpa % P.DIE_NUM) % P.CHANNEL_NUM) ((lpa % P.DIE_NUM) / P.CHANNEL_NUM)).front
      < REQ_QUEUE_DEPTH)
    (hr : (s.rqPointer ((lpa % P.DIE_NUM) % P.CHANNEL_NUM) ((lpa % P.DIE_NUM) / P.CHANNEL_NUM)).rear
      < REQ_QUEUE_DEPTH) :
    (CheckReqQueueAvailability s ((lpa % P.DIE_NUM) % P.CHANNEL_NUM)
        ((lpa % P.DIE_NUM) / P.CHANNEL_NUM) 2 = 0 →
      readPageToTranslateNonBlocking env P s entryIdx lpa page_idx = (s.tick, 0)) ∧
    (CheckReqQueueAvailability s ((lpa % P.DIE_NUM) % P.CHANNEL_NUM)
        ((lpa % P.DIE_NUM) / P.CHANNEL_NUM) 2 ≠ 0 →
      env.AllocateBufEntry s.tick.clock lpa < P.BUF_ENTRY_NUM →
      env.ppn s.tick.tick.clock (lpa % P.DIE_NUM) (lpa / P.DIE_NUM) ≠ 0xffffffff →
      readPageToTranslateNonBlocking env P s entryIdx lpa page_idx
        = ((PushToReqQueueNonBlocking P
            (lruInsert s.tick.tick (env.AllocateBufEntry s.tick.clock lpa) (lpa % P.DIE_NUM)
              lpa).tick
            (translateReadCmd P lpa
              (env.ppn s.tick.tick.clock (lpa % P.DIE_NUM) (lpa / P.DIE_NUM))
              (env.AllocateBufEntry s.tick.clock lpa) entryIdx page_idx) 0).1, 1)) := by
  have heq := readPageToTranslateNonBlocking_miss env P s entryIdx lpa page_idx hmiss
  have hck : CheckReqQueueAvailability s.tick ((lpa % P.DIE_NUM) % P.CHANNEL_NUM)
      ((lpa % P.DIE_NUM) / P.CHANNEL_NUM) 2
      = CheckReqQueueAvailability s ((lpa % P.DIE_NUM) % P.CHANNEL_NUM)
        ((lpa % P.DIE_NUM) / P.CHANNEL_NUM) 2 :=
    CheckReqQueueAvailability_view s s.tick _ _ 2 rfl
  rw [hck] at heq
  constructor
  · intro h0
    rw [heq, if_pos h0]
  · intro h1 hb hp
    obtain ⟨hv, _, hcl⟩ := lruInsert_frame s.tick.tick (env.AllocateBufEntry s.tick.clock lpa)
      (lpa % P.DIE_NUM) lpa
    have hp4 : env.ppn (lruInsert s.tick.tick (env.AllocateBufEntry s.tick.clock lpa)
        (lpa % P.DIE_NUM) lpa).clock (lpa % P.DIE_NUM) (lpa / P.DIE_NUM) ≠ 0xffffffff := by
      rw [hcl]; exact hp
    have hpush : (PushToReqQueueNonBlocking P
        (lruInsert s.tick.tick (env.AllocateBufEntry s.tick.clock lpa) (lpa % P.DIE_NUM)
          lpa).tick
        (translateReadCmd P lpa
          (env.ppn (lruInsert s.tick.tick (env.AllocateBufEntry s.tick.clock lpa)
            (lpa % P.DIE_NUM) lpa).clock (lpa % P.DIE_NUM) (lpa / P.DIE_NUM))
          (env.AllocateBufEntry s.tick.clock lpa) entryIdx page_idx) 0).2 = 1 :=
      push_ok_of_view P s _ _ hv hf hr h1
    have hres := pushOrTranslate_mapped env P _ entryIdx lpa page_idx
      (env.AllocateBufEntry s.tick.clock lpa) hp4 hpush
    rw [hcl] at hres
    rw [heq, if_neg h1, if_neg (not_not.2 hb), hres]

/-- C27, with the bound that the code applies: on a miss of the LRU buffer for a mapped page
(valid buffer entry), `readPageToTranslateNonBlocking` returns non-zero exactly when the
primary ring of the target die holds at most 252 requests, that is, when it has room for the
read and two more; it then pushes the `ReadPageTrigger` with `translate = 1`, tagged with the
entry and the page index. It returns 0 exactly when the ring holds 253 requests or more. -/
theorem translation_read_enqueued_iff [Add α] (env : Env α) (P : Params) (s : FW α)
    (entryIdx lpa page_idx : Nat)
    (hmiss : env.CheckBufHit s.clock lpa = 0x7fff)
    (hf : (s.rqPointer ((lpa % P.DIE_NUM) % P.CHANNEL_NUM) ((lpa % P.DIE_NUM) / P.CHANNEL_NUM)).front
      < REQ_QUEUE_DEPTH)
    (hr : (s.rqPointer ((lpa % P.DIE_NUM) % P.CHANNEL_NUM) ((lpa % P.DIE_NUM) / P.CHANNEL_NUM)).rear
      < REQ_QUEUE_DEPTH)
    (hb : env.AllocateBufEntry s.tick.clock lpa < P.BUF_ENTRY_NUM)
    (hp : env.ppn s.tick.tick.clock (lpa % P.DIE_NUM) (lpa / P.DIE_NUM) ≠ 0xffffffff) :
    ((readPageToTranslateNonBlocking env P s entryIdx lpa page_idx).2 ≠ 0 ↔
      s.occupancy ((lpa % P.DIE_NUM) % P.CHANNEL_NUM) ((lpa % P.DIE_NUM) / P.CHANNEL_NUM) < 253) ∧
    ((readPageToTranslateNonBlocking env P s entryIdx lpa page_idx).2 = 0 ↔
      253 ≤ s.occupancy ((lpa % P.DIE_NUM) % P.CHANNEL_NUM) ((lpa % P.DIE_NUM) / P.CHANNEL_NUM)) ∧
    (s.occupancy ((lpa % P.DIE_NUM) % P.CHANNEL_NUM) ((lpa % P.DIE_NUM) / P.CHANNEL_NUM) < 253 →
      readPageToTranslateNonBlocking env P s entryIdx lpa page_idx
        = ((PushToReqQueueNonBlocking P
            (lruInsert s.tick.tick (env.AllocateBufEntry s.tick.clock lpa) (lpa % P.DIE_NUM)
              lpa).tick
            (translateReadCmd P lpa
              (env.ppn s.tick.tick.clock (lpa % P.DIE_NUM) (lpa / P.DIE_NUM))
              (env.AllocateBufEntry s.tick.clock lpa) entryIdx page_idx) 0).1, 1) ∧
      (translateReadCmd P lpa (env.ppn s.tick.tick.clock (lpa % P.DIE_NUM) (lpa / P.DIE_NUM))
        (env.AllocateBufEntry s.tick.clock lpa) entryIdx page_idx).request
        = P.V2FCommand_ReadPageTrigger ∧
      (translateReadCmd P lpa (env.ppn s.tick.tick.clock (lpa % P.DIE_NUM) (lpa / P.DIE_NUM))
        (env.AllocateBufEntry s.tick.clock lpa) entryIdx page_idx).translate = 1 ∧
      (translateReadCmd P lpa (env.ppn s.tick.tick.clock (lpa % P.DIE_NUM) (lpa / P.DIE_NUM))
        (env.AllocateBufEntry s.tick.clock lpa) entryIdx page_idx).transBufferEntry
        = entryIdx ∧
      (translateReadCmd P lpa (env.ppn s.tick.tick.clock (lpa % P.DIE_NUM) (lpa / P.DIE_NUM))
        (env.AllocateBufEntry s.tick.clock lpa) entryIdx page_idx).transPageIdx = page_idx) := by
  have hiff := check2_iff_occupancy s _ _ hf hr
  have hmain := readPage_miss_cases env P s entryIdx lpa page_idx hmiss hf hr
  have hnz : (readPageToTranslateNonBlocking env P s entryIdx lpa page_idx).2 ≠ 0 ↔
      s.occupancy ((lpa % P.DIE_NUM) % P.CHANNEL_NUM) ((lpa % P.DIE_NUM) / P.CHANNEL_NUM)
        < 253 := by
    constructor
    · intro h
      by_contra hocc
      have h0 : CheckReqQueueAvailability s ((lpa % P.DIE_NUM) % P.CHANNEL_NUM)
          ((lpa % P.DIE_NUM) / P.CHANNEL_NUM) 2 = 0 := by
        by_contra hne
        exact hocc (hiff.1 hne)
      rw [hmain.1 h0] at h
      exact h rfl
    · intro hocc
      rw [hmain.2 (hiff.2 hocc) hb hp]
      exact Nat.one_ne_zero
  refine ⟨hnz, ?_, ?_⟩
  · constructor
    · intro h0
      by_contra hlt
      exact (hnz.2 (by omega)) h0
    · intro hge
      by_contra hne
      have := hnz.1 hne
      omega
  · intro hocc
    exact ⟨hmain.2 (hiff.2 hocc) hb hp, rfl, rfl, rfl, rfl⟩
/-- Witness for C27: with 252 requests queued the read is pushed and 1 is returned, and the
pushed entry is the translate-tagged trigger. -/
theorem translation_read_enqueued_iff_witness :
    (quietEnv.CheckBufHit (ringWith 252).clock 0 = 0x7fff ∧
      ((ringWith 252).rqPointer ((0 % exampleParams.DIE_NUM) % exampleParams.CHANNEL_NUM)
        ((0 % exampleParams.DIE_NUM) / exampleParams.CHANNEL_NUM)).front < REQ_QUEUE_DEPTH ∧
      ((ringWith 252).rqPointer ((0 % exampleParams.DIE_NUM) % exampleParams.CHANNEL_NUM)
        ((0 % exampleParams.DIE_NUM) / exampleParams.CHANNEL_NUM)).rear < REQ_QUEUE_DEPTH ∧
      quietEnv.AllocateBufEntry (ringWith 252).tick.clock 0 < exampleParams.BUF_ENTRY_NUM ∧
      quietEnv.ppn (ringWith 252).tick.tick.clock (0 % exampleParams.DIE_NUM)
        (0 / exampleParams.DIE_NUM) ≠ 0xffffffff) ∧
    ((readPageToTranslateNonBlocking quietEnv exampleParams (ringWith 252) 3 0 7).2 ≠ 0 ↔
      (ringWith 252).occupancy ((0 % exampleParams.DIE_NUM) % exampleParams.CHANNEL_NUM)
        ((0 % exampleParams.DIE_NUM) / exampleParams.CHANNEL_NUM) < 253) ∧
    (ringWith 252).occupancy 0 0 = 252 ∧
    (readPageToTranslateNonBlocking quietEnv exampleParams (ringWith 252) 3 0 7).2 = 1 ∧
    ((readPageToTranslateNonBlocking quietEnv exampleParams (ringWith 252) 3 0 7).1.reqQueue
      0 0 0).request = 13 ∧
    ((readPageToTranslateNonBlocking quietEnv exampleParams (ringWith 252) 3 0 7).1.reqQueue
      0 0 0).translate = 1 ∧
    ((readPageToTranslateNonBlocking quietEnv exampleParams (ringWith 252) 3 0 7).1.reqQueue
      0 0 0).transBufferEntry = 3 ∧
    ((readPageToTranslateNonBlocking quietEnv exampleParams (ringWith 252) 3 0 7).1.reqQueue
      0 0 0).transPageIdx = 7 :=
  ⟨⟨by decide, by decide, by decide, by decide, by decide⟩,
    (translation_read_enqueued_iff quietEnv exampleParams (ringWith 252) 3 0 7 (by decide)
      (by decide) (by decide) (by decide) (by decide)).1,
    by decide, by decide, by decide, by decide, by decide, by decide⟩

/-- Counterexample to C27 as stated: with 253 requests in the ring of die `(0, 0)` two
successive `PushToReqQueueNonBlocking` calls with `openSlots = 0` both succeed (a third does
not), so the ring can take two more entries; yet `readPageToTranslateNonBlocking` on a miss
for a mapped page of that die returns 0 and pushes nothing. -/
theorem two_open_slots_refused :
    (ringWith 253).occupancy 0 0 = 253 ∧
    (PushToReqQueueNonBlocking exampleParams (ringWith 253) exampleReadCmd 0).2 = 1 ∧
    (PushToReqQueueNonBlocking exampleParams
      (PushToReqQueueNonBlocking exampleParams (ringWith 253) exampleReadCmd 0).1
      exampleReadCmd 0).2 = 1 ∧
    (PushToReqQueueNonBlocking exampleParams
      (PushToReqQueueNonBlocking exampleParams
        (PushToReqQueueNonBlocking exampleParams (ringWith 253) exampleReadCmd 0).1
        exampleReadCmd 0).1 exampleReadCmd 0).2 = 0 ∧
    quietEnv.CheckBufHit (ringWith 253).clock 0 = 0x7fff ∧
    quietEnv.ppn (ringWith 253).tick.tick.clock 0 0 ≠ 0xffffffff ∧
    CheckReqQueueAvailability (ringWith 253) 0 0 2 = 0 ∧
    (readPageToTranslateNonBlocking quietEnv exampleParams (ringWith 253) 3 0 7).2 = 0 ∧
    ((readPageToTranslateNonBlocking quietEnv exampleParams (ringWith 253) 3 0 7).1.rqPointer
      0 0).rear = ((ringWith 253).rqPointer 0 0).rear := by
  decide

/-- C30 fails in the code: the drain loop can end with a request pending. On the one-die
build with both rings of die `(0, 0)` empty, the die on the idle list and one configured
translation entry waiting in `transRq`, the first pass of the loop `while (reservedReq)` makes
one call of `ExeLowLevelReqPerCh`; the idle sweep finds every way idle, `PopFromTransReqQueue`
then pushes the flash read of the planned page into the primary ring and unlinks the entry,
and the call returns 0. The loop ends after this pass with `reservedReq = 0`, the die on the
idle list and both translation lists empty, but with one request in the primary ring. -/
theorem drain_loop_leaves_pushed_read :
    ((tinyTransFW.rqPointer 0 0).front = (tinyTransFW.rqPointer 0 0).rear ∧
      (tinyTransFW.srqPointer 0 0).front = (tinyTransFW.srqPointer 0 0).rear ∧
      (tinyTransFW.wayPriorityTable 0).head .idle = 0 ∧
      tinyTransFW.transRqPointer.head = 0 ∧
      tinyTransFW.transReadRqPointer.head = 0xffff) ∧
    (ExeLowLevelReqPerCh quietEnv tinyParams 20 tinyTransFW 0 SUB_REQ_QUEUE).2 = .returned 0 ∧
    (drainLoop quietEnv tinyParams 20 SUB_REQ_QUEUE 5 { tinyTransFW with reservedReq := 1 }).2
      = .fallThrough ∧
    (drainLoop quietEnv tinyParams 20 SUB_REQ_QUEUE 5
      { tinyTransFW with reservedReq := 1 }).1.reservedReq = 0 ∧
    ((drainLoop quietEnv tinyParams 20 SUB_REQ_QUEUE 5
      { tinyTransFW with reservedReq := 1 }).1.rqPointer 0 0).front = 0 ∧
    ((drainLoop quietEnv tinyParams 20 SUB_REQ_QUEUE 5
      { tinyTransFW with reservedReq := 1 }).1.rqPointer 0 0).rear = 1 ∧
    ((drainLoop quietEnv tinyParams 20 SUB_REQ_QUEUE 5
      { tinyTransFW with reservedReq := 1 }).1.reqQueue 0 0 0).request = 13 ∧
    ((drainLoop quietEnv tinyParams 20 SUB_REQ_QUEUE 5
      { tinyTransFW with reservedReq := 1 }).1.reqQueue 0 0 0).translate = 1 ∧
    ((drainLoop quietEnv tinyParams 20 SUB_REQ_QUEUE 5
      { tinyTransFW with reservedReq := 1 }).1.wayPriorityTable 0).head .idle = 0 ∧
    ((drainLoop quietEnv tinyParams 20 SUB_REQ_QUEUE 5
      { tinyTransFW with reservedReq := 1 }).1.dieStatusTable 0 0).dieStatus = DS_IDLE ∧
    (drainLoop quietEnv tinyParams 20 SUB_REQ_QUEUE 5
      { tinyTransFW with reservedReq := 1 }).1.transRqPointer.head = 0xffff ∧
    (drainLoop quietEnv tinyParams 20 SUB_REQ_QUEUE 5
      { tinyTransFW with reservedReq := 1 }).1.transReadRqPointer.head = 0xffff ∧
    (drainLoop quietEnv tinyParams 20 SUB_REQ_QUEUE 5
      { tinyTransFW with reservedReq := 1 }).1.halted = false := by
  decide

theorem schedCall_EmptyLowLevelQ [Add α] [Zero α] (env : Env α) (P : Params) (M : MetaParams)
    (uninit : Nat → Nat → Nat) (ticks fuel depth firstQueue : Nat) (s : FW α) :
    schedCall env P M uninit ticks fuel (depth + 1) (.EmptyLowLevelQ firstQueue) s
      = andThen (drainLoop env P fuel firstQueue ticks { s with reservedReq := 1 }) (fun s1 =>
          if s1.badBlockUpdate ≠ 0 then
            andThen
              ((readMarks P M (pushWaiting env P M uninit ticks fuel depth) ticks uninit
                  { s1 with badBlockUpdate := 0 }).fw,
               (readMarks P M (pushWaiting env P M uninit ticks fuel depth) ticks uninit
                  { s1 with badBlockUpdate := 0 }).exit)
              (fun s3 =>
                andThen (drainLoop env P fuel firstQueue ticks { s3 with reservedReq := 1 })
                  (fun s4 => markAndSave P M (pushWaiting env P M uninit ticks fuel depth) ticks
                    s4 (readMarks P M (pushWaiting env P M uninit ticks fuel depth) ticks uninit
                      { s1 with badBlockUpdate := 0 }).update))
          else (s1, .fallThrough)) := rfl

theorem pushWaiting_room [Add α] [Zero α] (env : Env α) (P : Params) (M : MetaParams)
    (uninit : Nat → Nat → Nat) (ticks fuel depth : Nat) (c w rq row buf spare : Nat) (t : FW α)
    (h : ((t.srqPointer c w).rear + 1) % P.SUB_REQ_QUEUE_DEPTH ≠ (t.srqPointer c w).front) :
    pushWaiting env P M uninit ticks fuel (depth + 1) c w rq row buf spare t
      = (PushToSubReqQueue P t c w rq row buf spare, .fallThrough) := by
  unfold pushWaiting
  rw [schedCall, if_neg h]

theorem forRange_indexed {σ : Type} (Q : Nat → σ → Prop) (n : Nat) (body : Nat → σ → σ)
    (init : σ) (h0 : Q 0 init) (hstep : ∀ i st, i < n → Q i st → Q (i + 1) (body i st)) :
    Q n (forRange n body init) := by
  induction n with
  | zero => simpa using h0
  | succ n ih =>
    rw [forRange_succ]
    exact hstep n _ (Nat.lt_succ_self n)
      (ih (fun i st hi hq => hstep i st (Nat.lt_succ_of_lt hi) hq))

theorem forDies_indexed {σ : Type} (P : Params) (Q : Nat → Nat → σ → Prop)
    (body : Nat → Nat → σ → σ) (init : σ) (h0 : Q 0 0 init)
    (hstep : ∀ w c st, w < P.WAY_NUM → c < P.CHANNEL_NUM → Q w c st → Q w (c + 1) (body c w st))
    (hrow : ∀ w st, w < P.WAY_NUM → Q w P.CHANNEL_NUM st → Q (w + 1) 0 st) :
    Q P.WAY_NUM 0 (forDies P body init) := by
  unfold forDies
  refine forRange_indexed (fun w st => Q w 0 st) _ _ _ h0 ?_
  intro w st hw hq
  refine hrow w _ hw ?_
  exact forRange_indexed (fun c st1 => Q w c st1) _ _ _ hq
    (fun c st1 hc hq1 => hstep w c st1 hw hc hq1)

theorem toInt32_toUInt32 (x : Int) (h1 : -2 ^ 31 ≤ x) (h2 : x < 2 ^ 31) :
    toInt32 (toUInt32 x) = x := by
  unfold toInt32 toUInt32 U32
  norm_num at h1 h2 ⊢
  split_ifs <;> omega

theorem lt_coveredPages (P : Params) (hPS : 0 < P.PAGE_SIZE) (l : Nat) :
    l < coveredPages P ↔ l * P.PAGE_SIZE < realBlockNoPerDie P := by
  unfold coveredPages
  rw [Nat.lt_iff_add_one_le, Nat.le_div_iff_mul_le hPS, Nat.add_mul]
  omega

theorem whileDataSize_run (P : Params) (pass : Nat → Nat → MarkState α → MarkState α)
    (Q : Nat → MarkState α → Prop) (d0 : Nat)
    (hPS : 0 < P.PAGE_SIZE) (hPS2 : P.PAGE_SIZE < 2 ^ 31) (hR : realBlockNoPerDie P < 2 ^ 31)
    (hstep : ∀ l st, l < coveredPages P → Q l st →
      Q (l + 1) (pass l ((d0 + l) % U32) st) ∧ (pass l ((d0 + l) % U32) st).exit = .fallThrough) :
    ∀ (m l fuel : Nat) (st : MarkState α), l + m = coveredPages P → m < fuel → Q l st →
      Q (coveredPages P) (whileDataSize P pass fuel
        ((realBlockNoPerDie P : Int) - ((l * P.PAGE_SIZE : Nat) : Int)) l ((d0 + l) % U32) st) := by
  intro m
  induction m with
  | zero =>
    intro l fuel st hl hf hq
    obtain ⟨f, rfl⟩ : ∃ f, fuel = f + 1 := ⟨fuel - 1, by omega⟩
    have hnot : ¬ l < coveredPages P := by omega
    rw [lt_coveredPages P hPS] at hnot
    rw [whileDataSize, if_neg (by omega)]
    have : l = coveredPages P := by omega
    exact this ▸ hq
  | succ m ih =>
    intro l fuel st hl hf hq
    obtain ⟨f, rfl⟩ : ∃ f, fuel = f + 1 := ⟨fuel - 1, by omega⟩
    have hlt : l < coveredPages P := by omega
    have hlt2 := (lt_coveredPages P hPS l).1 hlt
    obtain ⟨hq1, he⟩ := hstep l st hlt hq
    rw [whileDataSize, if_pos (by omega)]
    simp only [he]
    have hmul : (l + 1) * P.PAGE_SIZE = l * P.PAGE_SIZE + P.PAGE_SIZE := Nat.succ_mul _ _
    have hd : toInt32 (toUInt32 ((realBlockNoPerDie P : Int) - ((l * P.PAGE_SIZE : Nat) : Int)
          - (P.PAGE_SIZE : Int)))
        = (realBlockNoPerDie P : Int) - (((l + 1) * P.PAGE_SIZE : Nat) : Int) := by
      rw [toInt32_toUInt32 _ (by omega) (by omega), hmul]
      omega
    have hl1 : (l + 1) % U32 = l + 1 := by
      apply Nat.mod_eq_of_lt
      have : l ≤ l * P.PAGE_SIZE := Nat.le_mul_of_pos_right _ hPS
      unfold U32
      omega
    have hd1 : ((d0 + l) % U32 + 1) % U32 = (d0 + (l + 1)) % U32 := by
      rw [Nat.mod_add_mod, Nat.add_assoc]
    rw [hd, hl1, hd1]
    exact ih (l + 1) f _ (by omega) (by omega) hq1

theorem markPush_update (st : MarkState α) (p : FW α → FW α × Exit) :
    (st.push p).update = st.update := by
  unfold MarkState.push
  split <;> rfl

theorem markPush_exit (st : MarkState α) (p : FW α → FW α × Exit)
    (h : (st.push p).exit = .fallThrough) : st.exit = .fallThrough := by
  unfold MarkState.push at h
  split at h
  · assumption
  · exact h

theorem readMarksPass_zero (P : Params) (M : MetaParams)
    (push : Nat → Nat → Nat → Nat → Nat → Nat → FW α → FW α × Exit) (l d : Nat)
    (st : MarkState α) (h : (readMarksPass P M push l d st).exit = .fallThrough) :
    ∀ ch way, ch < P.CHANNEL_NUM → way < P.WAY_NUM →
      (readMarksPass P M push l d st).update ch way = 0 := by
  have key : (fun (w c : Nat) (st1 : MarkState α) => st1.exit = .fallThrough →
      ∀ ch way, dieDone P w c ch way → st1.update ch way = 0) P.WAY_NUM 0
      (readMarksPass P M push l d st) := by
    unfold readMarksPass
    refine forDies_indexed P (fun (w c : Nat) (st1 : MarkState α) =>
      st1.exit = .fallThrough → ∀ ch way, dieDone P w c ch way → st1.update ch way = 0)
      _ _ ?_ ?_ ?_
    · intro _ ch way hd
      unfold dieDone at hd
      omega
    · intro w c st1 hw hc hq
      simp only []
      split
      · rename_i he
        intro _ ch way hd
        have h1 := markPush_exit _ _ he
        simp only [set2]
        split_ifs with hcw
        · rfl
        · rw [markPush_update]
          apply hq h1
          unfold dieDone at hd ⊢
          omega
      · rename_i hne
        intro he
        exact absurd he hne
    · intro w st1 hw hq he ch way hd
      apply hq he
      unfold dieDone at hd ⊢
      omega
  intro ch way hch hway
  exact key h ch way ⟨hch, hway, Or.inl hway⟩

theorem whileDataSize_established (P : Params)
    (pass : Nat → Nat → MarkState α → MarkState α) (Z : MarkState α → Prop)
    (hpass : ∀ l d st, (pass l d st).exit = .fallThrough → Z (pass l d st)) :
    ∀ (fuel : Nat) (dataSize : Int) (l d : Nat) (st : MarkState α),
      (whileDataSize P pass fuel dataSize l d st).exit = .fallThrough →
      (0 < dataSize ∨ Z st) → Z (whileDataSize P pass fuel dataSize l d st) := by
  intro fuel
  induction fuel with
  | zero =>
    intro dataSize l d st h
    rw [whileDataSize] at h
    cases h
  | succ f ih =>
    intro dataSize l d st h hz
    rw [whileDataSize] at h ⊢
    by_cases hd : dataSize > 0
    · rw [if_pos hd] at h ⊢
      simp only [] at h ⊢
      split at h
      · rename_i he
        exact ih _ _ _ _ h (Or.inr (hpass _ _ _ he))
      · rename_i hne
        exact absurd h hne
    · rw [if_neg hd] at h ⊢
      rcases hz with hz | hz
      · exact absurd hz hd
      · exact hz

theorem readMarks_zero (P : Params) (M : MetaParams)
    (push : Nat → Nat → Nat → Nat → Nat → Nat → FW α → FW α × Exit) (ticks : Nat)
    (uninit : Nat → Nat → Nat) (s : FW α)
    (hR0 : 0 < realBlockNoPerDie P) (hR : realBlockNoPerDie P < 2 ^ 31)
    (h : (readMarks P M push ticks uninit s).exit = .fallThrough) :
    ∀ ch way, ch < P.CHANNEL_NUM → way < P.WAY_NUM →
      (readMarks P M push ticks uninit s).update ch way = 0 := by
  unfold readMarks at h ⊢
  refine whileDataSize_established P _
    (fun st => ∀ ch way, ch < P.CHANNEL_NUM → way < P.WAY_NUM → st.update ch way = 0)
    (fun l d st he => readMarksPass_zero P M push l d st he) _ _ _ _ _ h (Or.inl ?_)
  rw [toInt32_of_lt hR]
  exact_mod_cast hR0

theorem markNewBadBlocks_eq (P : Params) (M : MetaParams) (st : FW α × (Nat → Nat → Nat)) :
    markNewBadBlocks P M st
      = forRange REQ_QUEUE_DEPTH (fun entry st1 =>
          forDies P (fun chNo wayNo st2 => markSlot P M entry chNo wayNo st2) st1) st := rfl

theorem range_succ_bind {β : Type} (n : Nat) (f : Nat → List β) :
    (List.range (n + 1)).flatMap f = (List.range n).flatMap f ++ f n := by
  rw [List.range_succ, List.flatMap_append]
  simp

theorem markAddr_eq (P : Params) (M : MetaParams) (chNo wayNo blockNo : Nat) :
    (M.GC_BUFFER_ADDR + blockNo
        + (wayNo * P.CHANNEL_NUM + chNo) * (realBlockNoPerDie P / P.PAGE_SIZE + 1)
          * P.PAGE_SIZE) % U32
      = (dieRegion P M chNo wayNo + blockNo) % U32 := by
  unfold dieRegion
  rw [Nat.mod_add_mod, Nat.add_right_comm]

theorem MarkInv.markCongr {s4 : FW α} {upd0 : Nat → Nat → Nat}
    {done done1 : Nat → Nat → Nat → Prop} {tr tr1 : List Event}
    {st : FW α × (Nat → Nat → Nat)} (h : MarkInv s4 upd0 done tr st)
    (hd : ∀ entry ch way, done1 entry ch way ↔ done entry ch way) (ht : tr1 = tr) :
    MarkInv s4 upd0 done1 tr1 st := by
  have : done1 = done := by
    funext entry ch way
    exact propext (hd entry ch way)
  rw [this, ht]
  exact h

theorem markSlot_inv (P : Params) (M : MetaParams) (s4 : FW α) (upd0 : Nat → Nat → Nat)
    (e w c : Nat) (tr : List Event) (st : FW α × (Nat → Nat → Nat))
    (hw : w < P.WAY_NUM) (hc : c < P.CHANNEL_NUM)
    (h : MarkInv s4 upd0 (markDone P e w c) tr st) :
    MarkInv s4 upd0 (markDone P e w (c + 1))
      (tr ++ markEvent P M s4.newBadBlockTable e w c) (markSlot P M e c w st) := by
  have hdone : ∀ entry ch way, markDone P e w (c + 1) entry ch way
      ↔ (markDone P e w c entry ch way ∨ (entry = e ∧ ch = c ∧ way = w)) := by
    intro entry ch way
    unfold markDone
    omega
  have hnot : ¬ markDone P e w c e c w := by
    unfold markDone
    omega
  have hp := h.pending e c w hnot
  unfold markSlot markEvent
  rw [hp]
  by_cases hv : s4.newBadBlockTable e c w ≠ 0xffffffff
  · rw [if_pos hv, if_pos hv]
    simp only []
    rw [markAddr_eq]
    refine ⟨h.frame, ?_, ?_, ?_, ?_, ?_⟩
    · show (st.1.trace ++ _) ++ _ = _
      rw [h.trace]
      simp
    · intro entry ch way hd
      show set3 _ _ _ _ _ _ _ _ = _
      simp only [set3]
      split_ifs with heq
      · rfl
      · rcases (hdone entry ch way).1 hd with hd1 | hd1
        · exact h.cleared entry ch way hd1
        · exact absurd hd1 heq
    · intro entry ch way hd
      show set3 _ _ _ _ _ _ _ _ = _
      have hd1 : ¬ (entry = e ∧ ch = c ∧ way = w) := fun hx => hd ((hdone entry ch way).2 (Or.inr hx))
      rw [set3_ne _ _ hd1]
      exact h.pending entry ch way (fun hx => hd ((hdone entry ch way).2 (Or.inl hx)))
    · intro entry ch way hd hval
      show set2 _ _ _ _ _ _ = _
      simp only [set2]
      split_ifs with heq
      · rfl
      · rcases (hdone entry ch way).1 hd with hd1 | hd1
        · exact h.flagged entry ch way hd1 hval
        · exact absurd ⟨hd1.2.1, hd1.2.2⟩ heq
    · intro ch way hall
      show set2 _ _ _ _ _ _ = _
      have hne : ¬ (ch = c ∧ way = w) := by
        rintro ⟨rfl, rfl⟩
        exact hv (hall e ((hdone e ch way).2 (Or.inr ⟨rfl, rfl, rfl⟩)))
      rw [set2_ne _ _ hne]
      exact h.unflagged ch way (fun entry hd => hall entry ((hdone entry ch way).2 (Or.inl hd)))
  · rw [if_neg hv, if_neg hv]
    have hff : s4.newBadBlockTable e c w = 0xffffffff := not_not.1 hv
    refine ⟨h.frame, ?_, ?_, ?_, ?_, ?_⟩
    · rw [h.trace]
      simp
    · intro entry ch way hd
      rcases (hdone entry ch way).1 hd with hd1 | ⟨rfl, rfl, rfl⟩
      · exact h.cleared entry ch way hd1
      · rw [hp]
        exact hff
    · intro entry ch way hd
      exact h.pending entry ch way (fun hx => hd ((hdone entry ch way).2 (Or.inl hx)))
    · intro entry ch way hd hval
      rcases (hdone entry ch way).1 hd with hd1 | ⟨rfl, rfl, rfl⟩
      · exact h.flagged entry ch way hd1 hval
      · exact absurd hff hval
    · intro ch way hall
      exact h.unflagged ch way (fun entry hd => hall entry ((hdone entry ch way).2 (Or.inl hd)))

theorem markEntry_inv (P : Params) (M : MetaParams) (s4 : FW α) (upd0 : Nat → Nat → Nat)
    (e : Nat) (tr : List Event) (st : FW α × (Nat → Nat → Nat))
    (h : MarkInv s4 upd0 (markDone P e 0 0) tr st) :
    MarkInv s4 upd0 (markDone P (e + 1) 0 0)
      (tr ++ markEventsOfEntry P M s4.newBadBlockTable e)
      (forDies P (fun chNo wayNo st2 => markSlot P M e chNo wayNo st2) st) := by
  have key := forDies_indexed P
    (fun (w c : Nat) (st1 : FW α × (Nat → Nat → Nat)) =>
      MarkInv s4 upd0 (markDone P e w c)
        (tr ++ ((List.range w).flatMap (fun wayNo => markEventsOfWay P M s4.newBadBlockTable e wayNo)
          ++ (List.range c).flatMap (fun chNo => markEvent P M s4.newBadBlockTable e w chNo))) st1)
    (fun chNo wayNo st2 => markSlot P M e chNo wayNo st2) st
    (h.markCongr (fun _ _ _ => Iff.rfl) (by simp)) ?_ ?_
  · refine MarkInv.markCongr key ?_ ?_
    · intro entry ch way
      unfold markDone
      omega
    · unfold markEventsOfEntry
      simp
  · intro w c st1 hw hc hq
    refine (markSlot_inv P M s4 upd0 e w c _ st1 hw hc hq).markCongr (fun _ _ _ => Iff.rfl) ?_
    rw [range_succ_bind]
    simp only [List.append_assoc]
  · intro w st1 hw hq
    refine MarkInv.markCongr hq ?_ ?_
    · intro entry ch way
      unfold markDone
      omega
    · rw [range_succ_bind]
      unfold markEventsOfWay
      simp

theorem markNewBadBlocks_inv (P : Params) (M : MetaParams) (s4 : FW α)
    (upd0 : Nat → Nat → Nat) :
    MarkInv s4 upd0 (fun entry ch way =>
        entry < REQ_QUEUE_DEPTH ∧ ch < P.CHANNEL_NUM ∧ way < P.WAY_NUM)
      (markEvents P M s4.newBadBlockTable) (markNewBadBlocks P M (s4, upd0)) := by
  rw [markNewBadBlocks_eq]
  have key := forRange_indexed
    (fun (e : Nat) (st1 : FW α × (Nat → Nat → Nat)) =>
      MarkInv s4 upd0 (markDone P e 0 0)
        ((List.range e).flatMap (fun entry => markEventsOfEntry P M s4.newBadBlockTable entry)) st1)
    REQ_QUEUE_DEPTH
    (fun entry st1 => forDies P (fun chNo wayNo st2 => markSlot P M entry chNo wayNo st2) st1)
    (s4, upd0) ?_ ?_
  · refine MarkInv.markCongr key ?_ rfl
    intro entry ch way
    unfold markDone
    omega
  · refine ⟨rfl, by simp, ?_, fun _ _ _ _ => rfl, ?_, fun _ _ _ => rfl⟩
    · intro entry ch way hd
      unfold markDone at hd
      omega
    · intro entry ch way hd
      unfold markDone at hd
      omega
  · intro e st1 _ hq
    refine (markEntry_inv P M s4 upd0 e _ st1 hq).markCongr (fun _ _ _ => Iff.rfl) ?_
    rw [range_succ_bind]

theorem saveMarksPass_eq (P : Params) (M : MetaParams)
    (push : Nat → Nat → Nat → Nat → Nat → Nat → FW α → FW α × Exit) (loop diePpn : Nat)
    (st : MarkState α) :
    saveMarksPass P M push loop diePpn st
      = forDies P (fun chNo wayNo st1 => saveDie P M push loop diePpn chNo wayNo st1) st := rfl

theorem PushToSubReqQueue_subFrame (P : Params) (s : FW α) (c w rq row buf spare : Nat) :
    subFrame (PushToSubReqQueue P s c w rq row buf spare) = subFrame s := rfl

theorem PushToSubReqQueue_srqPointer (P : Params) (s : FW α) (c w rq row buf spare : Nat) :
    (PushToSubReqQueue P s c w rq row buf spare).srqPointer
      = set2 s.srqPointer c w
          { front := (s.srqPointer c w).front
            rear := ((s.srqPointer c w).rear + 1) % P.SUB_REQ_QUEUE_DEPTH } := rfl

theorem PushToSubReqQueue_subReqQueue (P : Params) (s : FW α) (c w rq row buf spare : Nat) :
    (PushToSubReqQueue P s c w rq row buf spare).subReqQueue
      = set3 s.subReqQueue (s.srqPointer c w).rear c w (subEntryOf P rq row buf spare) := rfl

theorem add_mod_ne (D r j k : Nat) (hj : j < k) (hk : k < D) : (r + j) % D ≠ (r + k) % D := by
  intro h
  have h1 : Nat.ModEq D (r + j) (r + k) := h
  have h2 : Nat.ModEq D j k := Nat.ModEq.add_left_cancel' r h1
  have h3 : j % D = k % D := h2
  rw [Nat.mod_eq_of_lt (Nat.lt_trans hj hk), Nat.mod_eq_of_lt hk] at h3
  omega

theorem SaveInv.saveCongr {P : Params} {M : MetaParams} {s0 : FW α} {upd : Nat → Nat → Nat}
    {k k1 : Nat → Nat → Nat} {st : MarkState α} (h : SaveInv P M s0 upd k st)
    (hk : ∀ ch way, k1 ch way = k ch way) : SaveInv P M s0 upd k1 st := by
  have : k1 = k := by
    funext ch way
    exact hk ch way
  rw [this]
  exact h

theorem savePush_inv (P : Params) (M : MetaParams)
    (push : Nat → Nat → Nat → Nat → Nat → Nat → FW α → FW α × Exit)
    (hpush : ∀ c w rq row buf spare (t : FW α),
      ((t.srqPointer c w).rear + 1) % P.SUB_REQ_QUEUE_DEPTH ≠ (t.srqPointer c w).front →
      push c w rq row buf spare t = (PushToSubReqQueue P t c w rq row buf spare, .fallThrough))
    (s0 : FW α) (upd : Nat → Nat → Nat) (k : Nat → Nat → Nat) (st : MarkState α)
    (h : SaveInv P M s0 upd k st) (c w rq row buf spare : Nat)
    (hrear : (s0.srqPointer c w).rear < P.SUB_REQ_QUEUE_DEPTH)
    (hk : k c w < P.SUB_REQ_QUEUE_DEPTH)
    (hroom : ((s0.srqPointer c w).rear + k c w + 1) % P.SUB_REQ_QUEUE_DEPTH
      ≠ (s0.srqPointer c w).front)
    (hentry : subEntryOf P rq row buf spare = savedRequest P M c w (k c w)) :
    SaveInv P M s0 upd (fun ch way => if ch = c ∧ way = w then k c w + 1 else k ch way)
      (st.push (push c w rq row buf spare)) := by
  have hcur : (st.fw.srqPointer c w).rear
      = ((s0.srqPointer c w).rear + k c w) % P.SUB_REQ_QUEUE_DEPTH := by
    rw [h.rear]
    split_ifs with hk0
    · rw [hk0, Nat.add_zero, Nat.mod_eq_of_lt hrear]
    · rfl
  have hnf : ((st.fw.srqPointer c w).rear + 1) % P.SUB_REQ_QUEUE_DEPTH
      ≠ (st.fw.srqPointer c w).front := by
    rw [hcur, h.front, Nat.mod_add_mod]
    exact hroom
  have hp := hpush c w rq row buf spare st.fw hnf
  have hst : st.push (push c w rq row buf spare)
      = { st with fw := PushToSubReqQueue P st.fw c w rq row buf spare, exit := .fallThrough } := by
    unfold MarkState.push
    rw [h.exit, hp]
  rw [hst]
  refine ⟨rfl, h.update, ?_, ?_, ?_, ?_, ?_⟩
  · show subFrame (PushToSubReqQueue P st.fw c w rq row buf spare) = _
    rw [PushToSubReqQueue_subFrame]
    exact h.frame
  · intro ch way
    show ((PushToSubReqQueue P st.fw c w rq row buf spare).srqPointer ch way).front = _
    rw [PushToSubReqQueue_srqPointer]
    simp only [set2]
    split_ifs with heq
    · obtain ⟨rfl, rfl⟩ := heq
      exact h.front ch way
    · exact h.front ch way
  · intro ch way
    show ((PushToSubReqQueue P st.fw c w rq row buf spare).srqPointer ch way).rear = _
    rw [PushToSubReqQueue_srqPointer]
    simp only [set2]
    by_cases heq : ch = c ∧ way = w
    · obtain ⟨rfl, rfl⟩ := heq
      simp only [and_self, if_true]
      rw [if_neg (Nat.succ_ne_zero _), hcur, Nat.mod_add_mod, Nat.add_assoc]
    · simp only [if_neg heq]
      exact h.rear ch way
  · intro ch way j hj
    show (PushToSubReqQueue P st.fw c w rq row buf spare).subReqQueue _ ch way = _
    rw [PushToSubReqQueue_subReqQueue]
    by_cases heq : ch = c ∧ way = w
    · obtain ⟨rfl, rfl⟩ := heq
      rw [if_pos ⟨rfl, rfl⟩] at hj
      by_cases hjk : j = k ch way
      · subst hjk
        rw [hcur]
        simp only [set3, and_self, if_true]
        exact hentry
      · have hlt : j < k ch way := by omega
        rw [set3_ne, h.pushed ch way j hlt]
        rw [hcur]
        intro hx
        exact add_mod_ne _ _ _ _ hlt hk hx.1
    · rw [if_neg heq] at hj
      rw [set3_ne, h.pushed ch way j hj]
      intro hx
      exact heq hx.2
  · intro ch way slot hslot
    show (PushToSubReqQueue P st.fw c w rq row buf spare).subReqQueue _ ch way = _
    rw [PushToSubReqQueue_subReqQueue]
    by_cases heq : ch = c ∧ way = w
    · obtain ⟨rfl, rfl⟩ := heq
      simp only [and_self, if_true] at hslot
      rw [set3_ne, h.kept ch way slot (fun j hj => hslot j (Nat.lt_succ_of_lt hj))]
      rw [hcur]
      intro hx
      exact hslot (k ch way) (Nat.lt_succ_self _) hx.1
    · simp only [if_neg heq] at hslot
      rw [set3_ne, h.kept ch way slot hslot]
      intro hx
      exact heq hx.2

theorem savedCount_self (P : Params) (upd : Nat → Nat → Nat) (l w c : Nat)
    (hc : c < P.CHANNEL_NUM) (hw : w < P.WAY_NUM) (hu : upd c w ≠ 0) :
    savedCount P upd l w c c w = if l = 0 then 0 else l + 1 := by
  unfold savedCount
  have hno : ¬ (w < w ∨ (w = w ∧ c < c)) := by omega
  rw [if_pos ⟨hc, hw, hu⟩, if_neg hno, Nat.add_zero]

theorem savedCount_step (P : Params) (upd : Nat → Nat → Nat) (l w c ch way : Nat)
    (hc : c < P.CHANNEL_NUM) (hw : w < P.WAY_NUM) :
    savedCount P upd l w (c + 1) ch way
      = if ch = c ∧ way = w then
          (if upd c w ≠ 0 then savedCount P upd l w c c w + (if l = 0 then 2 else 1) else 0)
        else savedCount P upd l w c ch way := by
  by_cases heq : ch = c ∧ way = w
  · obtain ⟨rfl, rfl⟩ := heq
    rw [if_pos ⟨rfl, rfl⟩]
    unfold savedCount
    split_ifs <;> omega
  · rw [if_neg heq]
    unfold savedCount
    split_ifs <;> omega

theorem savedCount_row (P : Params) (upd : Nat → Nat → Nat) (l w ch way : Nat) :
    savedCount P upd l (w + 1) 0 ch way = savedCount P upd l w P.CHANNEL_NUM ch way := by
  unfold savedCount
  split_ifs <;> omega

theorem savedCount_pass (P : Params) (upd : Nat → Nat → Nat) (l ch way : Nat) :
    savedCount P upd (l + 1) 0 0 ch way = savedCount P upd l P.WAY_NUM 0 ch way := by
  unfold savedCount
  split_ifs <;> first | omega | contradiction

theorem saveDie_inv (P : Params) (M : MetaParams)
    (push : Nat → Nat → Nat → Nat → Nat → Nat → FW α → FW α × Exit)
    (hpush : ∀ c w rq row buf spare (t : FW α),
      ((t.srqPointer c w).rear + 1) % P.SUB_REQ_QUEUE_DEPTH ≠ (t.srqPointer c w).front →
      push c w rq row buf spare t = (PushToSubReqQueue P t c w rq row buf spare, .fallThrough))
    (s0 : FW α) (upd : Nat → Nat → Nat) (l w c : Nat) (st : MarkState α)
    (hl : l < coveredPages P) (hn : coveredPages P < P.SUB_REQ_QUEUE_DEPTH)
    (hw : w < P.WAY_NUM) (hc : c < P.CHANNEL_NUM) (hroom : SaveRoom P s0 upd)
    (h : SaveInv P M s0 upd (savedCount P upd l w c) st) :
    SaveInv P M s0 upd (savedCount P upd l w (c + 1))
      (saveDie P M push l ((firstMarkPage P M + l) % U32) c w st) := by
  unfold saveDie
  rw [h.update]
  by_cases hu : upd c w ≠ 0
  · rw [if_pos hu]
    simp only []
    obtain ⟨hrear, hfree⟩ := hroom c w hc hw hu
    have hk := savedCount_self P upd l w c hc hw hu
    by_cases hl0 : l = 0
    · subst hl0
      rw [if_pos rfl]
      rw [if_pos rfl] at hk
      have h1 := savePush_inv P M push hpush s0 upd _ st h c w P.V2FCommand_BlockErase
        ((M.metadataBlockNo * P.PAGE_NUM_PER_BLOCK) % U32) NONE NONE hrear
        (by rw [hk]; omega) (by rw [hk]; exact hfree 0 (Nat.zero_le _)) (by rw [hk]; rfl)
      have h2 := savePush_inv P M push hpush s0 upd _ _ h1 c w LLSCommand_WriteLsbPage
        ((firstMarkPage P M + 0) % U32) ((dieRegion P M c w + 0 * P.PAGE_SIZE) % U32)
        P.SPARE_ADDR hrear
        (by simp only [and_self, if_true, hk]; omega)
        (by simp only [and_self, if_true, hk]; exact hfree 1 hl)
        (by simp only [and_self, if_true, hk]; rfl)
      refine h2.saveCongr ?_
      intro ch way
      rw [savedCount_step P upd 0 w c ch way hc hw]
      by_cases heq : ch = c ∧ way = w
      · simp only [heq, and_self, if_true, hk, if_pos hu]
      · simp only [if_neg heq]
    · rw [if_neg hl0]
      rw [if_neg hl0] at hk
      have h1 := savePush_inv P M push hpush s0 upd _ st h c w LLSCommand_WriteLsbPage
        ((firstMarkPage P M + l) % U32) ((dieRegion P M c w + l * P.PAGE_SIZE) % U32)
        P.SPARE_ADDR hrear
        (by rw [hk]; omega) (by rw [hk]; exact hfree (l + 1) hl) (by rw [hk]; rfl)
      refine h1.saveCongr ?_
      intro ch way
      rw [savedCount_step P upd l w c ch way hc hw]
      by_cases heq : ch = c ∧ way = w
      · simp only [heq, and_self, if_true, hk, if_pos hu, if_neg hl0]
      · simp only [if_neg heq]
  · rw [if_neg hu]
    refine h.saveCongr ?_
    intro ch way
    rw [savedCount_step P upd l w c ch way hc hw]
    by_cases heq : ch = c ∧ way = w
    · obtain ⟨rfl, rfl⟩ := heq
      rw [if_pos ⟨rfl, rfl⟩, if_neg hu]
      unfold savedCount
      rw [if_neg (fun hx => hu hx.2.2)]
    · rw [if_neg heq]

theorem saveMarksPass_inv (P : Params) (M : MetaParams)
    (push : Nat → Nat → Nat → Nat → Nat → Nat → FW α → FW α × Exit)
    (hpush : ∀ c w rq row buf spare (t : FW α),
      ((t.srqPointer c w).rear + 1) % P.SUB_REQ_QUEUE_DEPTH ≠ (t.srqPointer c w).front →
      push c w rq row buf spare t = (PushToSubReqQueue P t c w rq row buf spare, .fallThrough))
    (s0 : FW α) (upd : Nat → Nat → Nat) (l : Nat) (st : MarkState α)
    (hl : l < coveredPages P) (hn : coveredPages P < P.SUB_REQ_QUEUE_DEPTH)
    (hroom : SaveRoom P s0 upd)
    (h : SaveInv P M s0 upd (savedCount P upd l 0 0) st) :
    SaveInv P M s0 upd (savedCount P upd (l + 1) 0 0)
      (saveMarksPass P M push l ((firstMarkPage P M + l) % U32) st) := by
  rw [saveMarksPass_eq]
  have key := forDies_indexed P
    (fun (w c : Nat) (st1 : MarkState α) => SaveInv P M s0 upd (savedCount P upd l w c) st1)
    (fun chNo wayNo st1 =>
      saveDie P M push l ((firstMarkPage P M + l) % U32) chNo wayNo st1) st h
    (fun w c st1 hw hc hq => saveDie_inv P M push hpush s0 upd l w c st1 hl hn hw hc hroom hq)
    (fun w st1 _ hq => hq.saveCongr (fun ch way => savedCount_row P upd l w ch way))
  exact key.saveCongr (fun ch way => savedCount_pass P upd l ch way)

theorem saveMarks_inv (P : Params) (M : MetaParams)
    (push : Nat → Nat → Nat → Nat → Nat → Nat → FW α → FW α × Exit)
    (hpush : ∀ c w rq row buf spare (t : FW α),
      ((t.srqPointer c w).rear + 1) % P.SUB_REQ_QUEUE_DEPTH ≠ (t.srqPointer c w).front →
      push c w rq row buf spare t = (PushToSubReqQueue P t c w rq row buf spare, .fallThrough))
    (ticks : Nat) (s0 : FW α) (upd : Nat → Nat → Nat)
    (hPS : 0 < P.PAGE_SIZE) (hPS2 : P.PAGE_SIZE < 2 ^ 31) (hR : realBlockNoPerDie P < 2 ^ 31)
    (hticks : coveredPages P < ticks) (hn : coveredPages P < P.SUB_REQ_QUEUE_DEPTH)
    (hroom : SaveRoom P s0 upd) :
    SaveInv P M s0 upd (savedCount P upd (coveredPages P) 0 0)
      (saveMarks P M push ticks s0 upd) := by
  have h0 : SaveInv P M s0 upd (savedCount P upd 0 0 0)
      { fw := s0, update := upd, exit := .fallThrough } := by
    have hz : ∀ ch way, savedCount P upd 0 0 0 ch way = 0 := by
      intro ch way
      unfold savedCount
      split_ifs <;> omega
    refine ⟨rfl, rfl, rfl, fun _ _ => rfl, ?_, ?_, fun _ _ _ _ => rfl⟩
    · intro ch way
      rw [if_pos (hz ch way)]
    · intro ch way j hj
      rw [hz] at hj
      omega
  have key := whileDataSize_run P (saveMarksPass P M push)
    (fun l st => SaveInv P M s0 upd (savedCount P upd l 0 0) st) (firstMarkPage P M)
    hPS hPS2 hR
    (fun l st hl hq =>
      ⟨saveMarksPass_inv P M push hpush s0 upd l st hl hn hroom hq,
       (saveMarksPass_inv P M push hpush s0 upd l st hl hn hroom hq).exit⟩)
    (coveredPages P) 0 ticks _ (by omega) hticks h0
  have e1 : ((realBlockNoPerDie P : Int) - ((0 * P.PAGE_SIZE : Nat) : Int))
      = toInt32 (realBlockNoPerDie P) := by
    rw [toInt32_of_lt hR]
    simp
  have e2 : (firstMarkPage P M + 0) % U32 = firstMarkPage P M := by
    unfold firstMarkPage
    simp
  rw [e1, e2] at key
  exact key

theorem rqPointerEntry_ext (a b : RqPointerEntry) (h1 : a.front = b.front)
    (h2 : a.rear = b.rear) : a = b := by
  cases a
  cases b
  simp_all

theorem markAndSave_effect (P : Params) (M : MetaParams)
    (push : Nat → Nat → Nat → Nat → Nat → Nat → FW α → FW α × Exit)
    (hpush : ∀ c w rq row buf spare (t : FW α),
      ((t.srqPointer c w).rear + 1) % P.SUB_REQ_QUEUE_DEPTH ≠ (t.srqPointer c w).front →
      push c w rq row buf spare t = (PushToSubReqQueue P t c w rq row buf spare, .fallThrough))
    (ticks : Nat) (s4 : FW α) (upd0 : Nat → Nat → Nat)
    (hzero : ∀ ch way, ch < P.CHANNEL_NUM → way < P.WAY_NUM → upd0 ch way = 0)
    (hPS : 0 < P.PAGE_SIZE) (hPS2 : P.PAGE_SIZE < 2 ^ 31)
    (hR0 : 0 < realBlockNoPerDie P) (hR : realBlockNoPerDie P < 2 ^ 31)
    (hticks : coveredPages P < ticks) (hn : coveredPages P < P.SUB_REQ_QUEUE_DEPTH)
    (hroom : ∀ ch way, Reported P s4 ch way →
      (s4.srqPointer ch way).rear < P.SUB_REQ_QUEUE_DEPTH ∧
      ∀ k, k ≤ coveredPages P →
        ((s4.srqPointer ch way).rear + k + 1) % P.SUB_REQ_QUEUE_DEPTH
          ≠ (s4.srqPointer ch way).front) :
    ∃ final, markAndSave P M push ticks s4 upd0 = (final, .fallThrough)
      ∧ UpdateEffect P M s4 final := by
  have hmi := markNewBadBlocks_inv P M s4 upd0
  have hflag : ∀ ch way, ch < P.CHANNEL_NUM → way < P.WAY_NUM →
      ((markNewBadBlocks P M (s4, upd0)).2 ch way ≠ 0 ↔
        ∃ entry, entry < REQ_QUEUE_DEPTH ∧ s4.newBadBlockTable entry ch way ≠ 0xffffffff) := by
    intro ch way hc hw
    constructor
    · intro hne
      by_contra hno
      push_neg at hno
      have := hmi.unflagged ch way (fun entry hd => hno entry hd.1)
      rw [this, hzero ch way hc hw] at hne
      exact hne rfl
    · rintro ⟨entry, he, hv⟩
      rw [hmi.flagged entry ch way ⟨he, hc, hw⟩ hv]
      exact Nat.one_ne_zero
  have hsrq : (markNewBadBlocks P M (s4, upd0)).1.srqPointer = s4.srqPointer := by
    have := congrArg FW.srqPointer hmi.frame
    exact this
  have hsq : (markNewBadBlocks P M (s4, upd0)).1.subReqQueue = s4.subReqQueue := by
    have := congrArg FW.subReqQueue hmi.frame
    exact this
  have hsr : SaveRoom P (markNewBadBlocks P M (s4, upd0)).1 (markNewBadBlocks P M (s4, upd0)).2 := by
    intro ch way hc hw hu
    rw [hsrq]
    exact hroom ch way ⟨hc, hw, (hflag ch way hc hw).1 hu⟩
  have hsi := saveMarks_inv P M push hpush ticks _ _ hPS hPS2 hR hticks hn hsr
  have hpos : 0 < coveredPages P := (lt_coveredPages P hPS 0).2 (by simpa using hR0)
  have hcount1 : ∀ ch way, Reported P s4 ch way →
      savedCount P (markNewBadBlocks P M (s4, upd0)).2 (coveredPages P) 0 0 ch way
        = coveredPages P + 1 := by
    intro ch way hrep
    unfold savedCount
    have hno : ¬ (way < 0 ∨ (way = 0 ∧ ch < 0)) := by omega
    rw [if_pos ⟨hrep.1, hrep.2.1, (hflag ch way hrep.1 hrep.2.1).2 hrep.2.2⟩,
      if_neg (Nat.pos_iff_ne_zero.1 hpos), if_neg hno]
  have hcount0 : ∀ ch way, ¬ Reported P s4 ch way →
      savedCount P (markNewBadBlocks P M (s4, upd0)).2 (coveredPages P) 0 0 ch way = 0 := by
    intro ch way hrep
    unfold savedCount
    rw [if_neg]
    intro hx
    exact hrep ⟨hx.1, hx.2.1, (hflag ch way hx.1 hx.2.1).1 hx.2.2⟩
  unfold markAndSave
  simp only []
  rw [andThen]
  simp only [hsi.exit]
  refine ⟨_, rfl, ?_⟩
  refine ⟨rfl, ?_, ?_, ?_, ?_, ?_, ?_, ?_, ?_⟩
  · have e1 : updateFrame (saveMarks P M push ticks (markNewBadBlocks P M (s4, upd0)).1
        (markNewBadBlocks P M (s4, upd0)).2).fw
        = updateFrame (markNewBadBlocks P M (s4, upd0)).1 := by
      have := congrArg updateFrame hsi.frame
      exact this
    have e2 : updateFrame (markNewBadBlocks P M (s4, upd0)).1 = updateFrame s4 := by
      have := congrArg updateFrame hmi.frame
      exact this
    exact Eq.trans e1 e2
  · intro entry ch way he hc hw
    have e1 : (saveMarks P M push ticks (markNewBadBlocks P M (s4, upd0)).1
        (markNewBadBlocks P M (s4, upd0)).2).fw.newBadBlockTable
        = (markNewBadBlocks P M (s4, upd0)).1.newBadBlockTable := by
      have := congrArg FW.newBadBlockTable hsi.frame
      exact this
    exact (congrFun (congrFun (congrFun e1 entry) ch) way).trans
      (hmi.cleared entry ch way ⟨he, hc, hw⟩)
  · have e1 : (saveMarks P M push ticks (markNewBadBlocks P M (s4, upd0)).1
        (markNewBadBlocks P M (s4, upd0)).2).fw.trace
        = (markNewBadBlocks P M (s4, upd0)).1.trace := by
      have := congrArg FW.trace hsi.frame
      exact this
    exact Eq.trans e1 hmi.trace
  · intro ch way
    have := hsi.front ch way
    rw [hsrq] at this
    exact this
  · intro ch way hrep
    have := hsi.rear ch way
    rw [hcount1 ch way hrep, if_neg (Nat.succ_ne_zero _), hsrq] at this
    exact this
  · intro ch way hrep j hj
    have := hsi.pushed ch way j (by rw [hcount1 ch way hrep]; exact hj)
    rw [hsrq] at this
    exact this
  · intro ch way hrep slot hslot
    have := hsi.kept ch way slot (by
      intro j hj
      rw [hcount1 ch way hrep] at hj
      rw [hsrq]
      exact hslot j hj)
    rw [hsq] at this
    exact this
  · intro ch way hrep
    constructor
    · apply rqPointerEntry_ext
      · have := hsi.front ch way
        rw [hsrq] at this
        exact this
      · have := hsi.rear ch way
        rw [hcount0 ch way hrep, if_pos rfl, hsrq] at this
        exact this
    · intro slot
      have := hsi.kept ch way slot (by
        intro j hj
        rw [hcount0 ch way hrep] at hj
        omega)
      rw [hsq] at this
      exact this

theorem EmptyLowLevelQ_effect [Add α] [Zero α] (env : Env α) (P : Params) (M : MetaParams)
    (uninit : Nat → Nat → Nat) (ticks fuel depth firstQueue : Nat) (s s1 s4 : FW α)
    (hPS : 0 < P.PAGE_SIZE) (hPS2 : P.PAGE_SIZE < 2 ^ 31)
    (hR0 : 0 < realBlockNoPerDie P) (hR : realBlockNoPerDie P < 2 ^ 31)
    (hticks : coveredPages P < ticks) (hn : coveredPages P < P.SUB_REQ_QUEUE_DEPTH)
    (h1 : drainLoop env P fuel firstQueue ticks { s with reservedReq := 1 }
      = (s1, .fallThrough))
    (hb : s1.badBlockUpdate ≠ 0)
    (h2 : (readMarks P M (pushWaiting env P M uninit ticks fuel (depth + 1)) ticks uninit
      { s1 with badBlockUpdate := 0 }).exit = .fallThrough)
    (h3 : drainLoop env P fuel firstQueue ticks
      { (readMarks P M (pushWaiting env P M uninit ticks fuel (depth + 1)) ticks uninit
          { s1 with badBlockUpdate := 0 }).fw with reservedReq := 1 } = (s4, .fallThrough))
    (hroom : ∀ ch way, Reported P s4 ch way →
      (s4.srqPointer ch way).rear < P.SUB_REQ_QUEUE_DEPTH ∧
      ∀ k, k ≤ coveredPages P →
        ((s4.srqPointer ch way).rear + k + 1) % P.SUB_REQ_QUEUE_DEPTH
          ≠ (s4.srqPointer ch way).front) :
    ∃ final, schedCall env P M uninit ticks fuel (depth + 2) (.EmptyLowLevelQ firstQueue) s
        = (final, .fallThrough)
      ∧ UpdateEffect P M s4 final := by
  rw [schedCall_EmptyLowLevelQ, h1]
  simp only [andThen, if_pos hb, h2, h3]
  exact markAndSave_effect P M _ (pushWaiting_room env P M uninit ticks fuel depth) ticks s4 _
    (readMarks_zero P M _ ticks uninit _ hR0 hR h2) hPS hPS2 hR0 hR hticks hn hroom

/-- C28: bad-block write-back.  Let `EmptyLowLevelQ` run with `badBlockUpdate` set after
its first drain, let `s4` be the state that its second drain leaves, and let no push of the
last step find the sub ring of a reporting die full.  Then the call returns, and in the state
`final` it returns: for every die of the build with at least one recorded block in
`newBadBlockTable`, the sub ring has received, from its rear on, the `BlockErase` of the
metadata block and then one `WriteLsbPage` for each of the `ceil(R / PAGE_SIZE)` pages, page
`i` from offset `i * PAGE_SIZE` of the scratch region of the die, and no other slot of the
ring has changed; the sub ring of every other die is unchanged; every slot of
`newBadBlockTable` of the build is `0xffffffff`; and the calls made are exactly, for every
recorded `(entry, ch, way)`, the write of 1 to the byte at offset `block` of the scratch
region of the die and `UpdateBadBlockTable(ch, way, block)`. -/
theorem bad_block_write_back [Add α] [Zero α] (env : Env α) (P : Params) (M : MetaParams)
    (uninit : Nat → Nat → Nat) (ticks fuel depth firstQueue : Nat) (s s1 s4 : FW α)
    (hPS : 0 < P.PAGE_SIZE) (hPS2 : P.PAGE_SIZE < 2 ^ 31)
    (hR0 : 0 < realBlockNoPerDie P) (hR : realBlockNoPerDie P < 2 ^ 31)
    (hticks : coveredPages P < ticks) (hn : coveredPages P < P.SUB_REQ_QUEUE_DEPTH)
    (h1 : drainLoop env P fuel firstQueue ticks { s with reservedReq := 1 }
      = (s1, .fallThrough))
    (hb : s1.badBlockUpdate ≠ 0)
    (h2 : (readMarks P M (pushWaiting env P M uninit ticks fuel (depth + 1)) ticks uninit
      { s1 with badBlockUpdate := 0 }).exit = .fallThrough)
    (h3 : drainLoop env P fuel firstQueue ticks
      { (readMarks P M (pushWaiting env P M uninit ticks fuel (depth + 1)) ticks uninit
          { s1 with badBlockUpdate := 0 }).fw with reservedReq := 1 } = (s4, .fallThrough))
    (hroom : ∀ ch way, Reported P s4 ch way →
      (s4.srqPointer ch way).rear < P.SUB_REQ_QUEUE_DEPTH ∧
      ∀ k, k ≤ coveredPages P →
        ((s4.srqPointer ch way).rear + k + 1) % P.SUB_REQ_QUEUE_DEPTH
          ≠ (s4.srqPointer ch way).front) :
    ∃ final, schedCall env P M uninit ticks fuel (depth + 2) (.EmptyLowLevelQ firstQueue) s
        = (final, .fallThrough)
      ∧ (∀ ch way, Reported P s4 ch way →
          (final.srqPointer ch way).front = (s4.srqPointer ch way).front ∧
          (final.srqPointer ch way).rear
            = ((s4.srqPointer ch way).rear + (coveredPages P + 1)) % P.SUB_REQ_QUEUE_DEPTH ∧
          final.subReqQueue (s4.srqPointer ch way).rear ch way
            = subEntryOf P P.V2FCommand_BlockErase
                ((M.metadataBlockNo * P.PAGE_NUM_PER_BLOCK) % U32) NONE NONE ∧
          (∀ i, i < coveredPages P →
            final.subReqQueue
                (((s4.srqPointer ch way).rear + (i + 1)) % P.SUB_REQ_QUEUE_DEPTH) ch way
              = subEntryOf P LLSCommand_WriteLsbPage ((firstMarkPage P M + i) % U32)
                  ((dieRegion P M ch way + i * P.PAGE_SIZE) % U32) P.SPARE_ADDR) ∧
          (∀ slot,
            (∀ j, j < coveredPages P + 1 →
              slot ≠ ((s4.srqPointer ch way).rear + j) % P.SUB_REQ_QUEUE_DEPTH) →
            final.subReqQueue slot ch way = s4.subReqQueue slot ch way))
      ∧ (∀ ch way, ¬ Reported P s4 ch way →
          final.srqPointer ch way = s4.srqPointer ch way ∧
          ∀ slot, final.subReqQueue slot ch way = s4.subReqQueue slot ch way)
      ∧ (∀ entry ch way, entry < REQ_QUEUE_DEPTH → ch < P.CHANNEL_NUM → way < P.WAY_NUM →
          final.newBadBlockTable entry ch way = 0xffffffff)
      ∧ final.trace = s4.trace ++ markEvents P M s4.newBadBlockTable := by
  obtain ⟨final, hrun, heff⟩ := EmptyLowLevelQ_effect env P M uninit ticks fuel depth
    firstQueue s s1 s4 hPS hPS2 hR0 hR hticks hn h1 hb h2 h3 hroom
  refine ⟨final, hrun, ?_, heff.others, heff.cleared, heff.trace⟩
  intro ch way hrep
  refine ⟨heff.front ch way, heff.rear ch way hrep, ?_, ?_, heff.kept ch way hrep⟩
  · have := heff.pushed ch way hrep 0 (Nat.succ_pos _)
    rw [Nat.add_zero, Nat.mod_eq_of_lt (hroom ch way hrep).1] at this
    exact this
  · intro i hi
    exact heff.pushed ch way hrep (i + 1) (Nat.succ_lt_succ hi)

theorem bad_block_write_back_witness :
    Reported tinyParams tinyMarksRead 0 0 ∧
    ∃ final, schedCall readyEnv tinyParams exampleMeta (fun _ _ => 7) 40 20 4
        (.EmptyLowLevelQ SUB_REQ_QUEUE) tinyReportFW = (final, .fallThrough)
      ∧ final.srqPointer 0 0 = { front := 1, rear := 3 }
      ∧ final.subReqQueue 1 0 0 = subEntryOf tinyParams 37 128 NONE NONE
      ∧ final.subReqQueue 2 0 0
          = subEntryOf tinyParams LLSCommand_WriteLsbPage 129 0x20000000 0x1F000000
      ∧ final.newBadBlockTable 0 0 0 = 0xffffffff
      ∧ final.trace = tinyMarksRead.trace
          ++ [.writeByte 0x20000005 1, .UpdateBadBlockTable 0 0 5] := by
  have hrep : Reported tinyParams tinyMarksRead 0 0 :=
    ⟨by decide, by decide, 0, by decide, by decide!⟩
  have hptr : tinyMarksRead.srqPointer 0 0 = { front := 1, rear := 1 } := by decide!
  have hev : markEvents tinyParams exampleMeta tinyMarksRead.newBadBlockTable
      = [.writeByte 0x20000005 1, .UpdateBadBlockTable 0 0 5] := by decide!
  obtain ⟨final, hrun, hdie, -, hclr, htr⟩ :=
    bad_block_write_back readyEnv tinyParams exampleMeta (fun _ _ => 7) 40 20 2 SUB_REQ_QUEUE
      tinyReportFW tinyDrained tinyMarksRead (by decide) (by decide) (by decide) (by decide)
      (by decide) (by decide) (Prod.ext rfl (by decide!)) (by decide!) (by decide!)
      (Prod.ext rfl (by decide!))
      (fun ch way h => by
        have hc : ch = 0 := by
          have : ch < 1 := h.1
          omega
        have hw : way = 0 := by
          have : way < 1 := h.2.1
          omega
        subst hc hw
        decide!)
  obtain ⟨hf, hr, he, hwr, -⟩ := hdie 0 0 hrep
  refine ⟨hrep, final, hrun, ?_, ?_, ?_, hclr 0 0 0 (by decide) (by decide) (by decide), ?_⟩
  · apply rqPointerEntry_ext
    · rw [hf, hptr]
    · rw [hr, hptr]
      decide
  · rw [hptr] at he
    exact he
  · have := hwr 0 (by decide)
    rw [hptr] at this
    exact this
  · rw [htr, hev]

/-- C29, amended: `EmptyLowLevelQ` does not drain the requests of its last step.  Let
`EmptyLowLevelQ` run with `badBlockUpdate` set after its first drain, let `s4` be the state
that its second drain leaves, and let no push of the last step find the sub ring of a
reporting die full.  Then the call returns with `reservedReq = 1`; the primary rings and the
sub rings of the dies without a recorded block are as the second drain left them; and the
sub ring of every reporting die is not empty: its front is unchanged and its rear has
advanced by the erase and the `ceil(R / PAGE_SIZE)` writes. -/
theorem bad_block_update_leaves_requests [Add α] [Zero α] (env : Env α) (P : Params)
    (M : MetaParams) (uninit : Nat → Nat → Nat) (ticks fuel depth firstQueue : Nat)
    (s s1 s4 : FW α)
    (hPS : 0 < P.PAGE_SIZE) (hPS2 : P.PAGE_SIZE < 2 ^ 31)
    (hR0 : 0 < realBlockNoPerDie P) (hR : realBlockNoPerDie P < 2 ^ 31)
    (hticks : coveredPages P < ticks) (hn : coveredPages P < P.SUB_REQ_QUEUE_DEPTH)
    (h1 : drainLoop env P fuel firstQueue ticks { s with reservedReq := 1 }
      = (s1, .fallThrough))
    (hb : s1.badBlockUpdate ≠ 0)
    (h2 : (readMarks P M (pushWaiting env P M uninit ticks fuel (depth + 1)) ticks uninit
      { s1 with badBlockUpdate := 0 }).exit = .fallThrough)
    (h3 : drainLoop env P fuel firstQueue ticks
      { (readMarks P M (pushWaiting env P M uninit ticks fuel (depth + 1)) ticks uninit
          { s1 with badBlockUpdate := 0 }).fw with reservedReq := 1 } = (s4, .fallThrough))
    (hroom : ∀ ch way, Reported P s4 ch way →
      (s4.srqPointer ch way).rear < P.SUB_REQ_QUEUE_DEPTH ∧
      ∀ k, k ≤ coveredPages P →
        ((s4.srqPointer ch way).rear + k + 1) % P.SUB_REQ_QUEUE_DEPTH
          ≠ (s4.srqPointer ch way).front) :
    ∃ final, schedCall env P M uninit ticks fuel (depth + 2) (.EmptyLowLevelQ firstQueue) s
        = (final, .fallThrough)
      ∧ final.reservedReq = 1
      ∧ final.rqPointer = s4.rqPointer
      ∧ final.reqQueue = s4.reqQueue
      ∧ (∀ ch way, ¬ Reported P s4 ch way → final.srqPointer ch way = s4.srqPointer ch way)
      ∧ (∀ ch way, Reported P s4 ch way →
          (final.srqPointer ch way).front = (s4.srqPointer ch way).front ∧
          (final.srqPointer ch way).rear
            = ((s4.srqPointer ch way).rear + (coveredPages P + 1)) % P.SUB_REQ_QUEUE_DEPTH ∧
          (final.srqPointer ch way).rear ≠ (final.srqPointer ch way).front) := by
  obtain ⟨final, hrun, heff⟩ := EmptyLowLevelQ_effect env P M uninit ticks fuel depth
    firstQueue s s1 s4 hPS hPS2 hR0 hR hticks hn h1 hb h2 h3 hroom
  refine ⟨final, hrun, heff.reserved, ?_, ?_, fun ch way h => (heff.others ch way h).1, ?_⟩
  · have := congrArg FW.rqPointer heff.frame
    exact this
  · have := congrArg FW.reqQueue heff.frame
    exact this
  · intro ch way hrep
    refine ⟨heff.front ch way, heff.rear ch way hrep, ?_⟩
    rw [heff.rear ch way hrep, heff.front ch way, ← Nat.add_assoc]
    exact (hroom ch way hrep).2 (coveredPages P) (Nat.le_refl _)

theorem bad_block_update_leaves_requests_witness :
    tinyMarksRead.rqPointer 0 0 = { front := 0, rear := 0 } ∧
    tinyMarksRead.srqPointer 0 0 = { front := 1, rear := 1 } ∧
    ∃ final, schedCall readyEnv tinyParams exampleMeta (fun _ _ => 7) 40 20 4
        (.EmptyLowLevelQ SUB_REQ_QUEUE) tinyReportFW = (final, .fallThrough)
      ∧ final.reservedReq = 1
      ∧ final.rqPointer 0 0 = { front := 0, rear := 0 }
      ∧ (final.srqPointer 0 0).front = 1
      ∧ (final.srqPointer 0 0).rear = 3 := by
  have hrep : Reported tinyParams tinyMarksRead 0 0 :=
    ⟨by decide, by decide, 0, by decide, by decide!⟩
  have hrq : tinyMarksRead.rqPointer 0 0 = { front := 0, rear := 0 } := by decide!
  have hptr : tinyMarksRead.srqPointer 0 0 = { front := 1, rear := 1 } := by decide!
  obtain ⟨final, hrun, hres, hprim, -, -, hdie⟩ :=
    bad_block_update_leaves_requests readyEnv tinyParams exampleMeta (fun _ _ => 7) 40 20 2
      SUB_REQ_QUEUE tinyReportFW tinyDrained tinyMarksRead (by decide) (by decide) (by decide)
      (by decide) (by decide) (by decide) (Prod.ext rfl (by decide!)) (by decide!) (by decide!)
      (Prod.ext rfl (by decide!))
      (fun ch way h => by
        have hc : ch = 0 := by
          have : ch < 1 := h.1
          omega
        have hw : way = 0 := by
          have : way < 1 := h.2.1
          omega
        subst hc hw
        decide!)
  obtain ⟨hf, hr, -⟩ := hdie 0 0 hrep
  refine ⟨hrq, hptr, final, hrun, hres, ?_, ?_, ?_⟩
  · rw [hprim, hrq]
  · rw [hf, hptr]
  · rw [hr, hptr]
    decide

/-- C29 as stated fails: `EmptyLowLevelQ(SUB_REQ_QUEUE)` on the one-die build, with block 5
of die `(0, 0)` recorded, `badBlockUpdate` set and all rings empty, returns after the update
(the flag is cleared, the slot is `0xffffffff`) with the sub ring of die `(0, 0)` holding the
erase and the write of the last step: front 1, rear 3. -/
theorem sub_ring_holds_requests_after_update :
    tinyReportFW.badBlockUpdate = 1 ∧
    tinyReportFW.newBadBlockTable 0 0 0 = 5 ∧
    tinyReportFW.rqPointer 0 0 = { front := 0, rear := 0 } ∧
    tinyReportFW.srqPointer 0 0 = { front := 0, rear := 0 } ∧
    tinyEmptyRun.2 = .fallThrough ∧
    tinyEmptyRun.1.halted = false ∧
    tinyEmptyRun.1.badBlockUpdate = 0 ∧
    tinyEmptyRun.1.newBadBlockTable 0 0 0 = 0xffffffff ∧
    tinyEmptyRun.1.reservedReq = 1 ∧
    tinyEmptyRun.1.rqPointer 0 0 = { front := 0, rear := 0 } ∧
    tinyEmptyRun.1.srqPointer 0 0 = { front := 1, rear := 3 } ∧
    (tinyEmptyRun.1.subReqQueue 1 0 0).request = tinyParams.V2FCommand_BlockErase ∧
    (tinyEmptyRun.1.subReqQueue 2 0 0).request = tinyParams.V2FCommand_ProgramPage := by
  decide!

theorem push_nand_rowAddr (P : Params) (s : FW α) (cmd : LowLevelReqInfo) (openSlots : Nat)
    (hn : cmd.request < LLSCommand_RxDMA)
    (hok : (PushToReqQueueNonBlocking P s cmd openSlots).2 ≠ 0) :
    ((PushToReqQueueNonBlocking P s cmd openSlots).1.reqQueue
        (s.rqPointer cmd.chNo cmd.wayNo).rear cmd.chNo cmd.wayNo).rowAddr
      = phyRowAddrOf P cmd.rowAddr := by
  have hav : ¬ CheckReqQueueAvailability s cmd.chNo cmd.wayNo openSlots = 0 :=
    (push_ok_iff P s cmd openSlots).1 hok
  have hn1 : ¬ cmd.request ≥ LLSCommand_RxDMA := by omega
  simp [PushToReqQueueNonBlocking, hav, hn1, FW.modRq, FW.modReq, FW.modDie, set3, pushNandEntry]

theorem slc_offset_lt (L B a : Nat) (hdiv : B ∣ L) (hL : 0 < L) :
    (a % L) / B * B * 2 + slcPhyPage (a % B) < 2 * L := by
  obtain ⟨m, rfl⟩ := hdiv
  have hB : 0 < B := Nat.pos_of_mul_pos_right hL |> fun h => by
    rcases Nat.eq_zero_or_pos B with h0 | h0
    · subst h0; simp at hL
    · exact h0
  have hp : a % B < B := Nat.mod_lt _ hB
  have hq : (a % (B * m)) / B < m := by
    rw [Nat.div_lt_iff_lt_mul hB, Nat.mul_comm m B]
    exact Nat.mod_lt _ hL
  have hf : slcPhyPage (a % B) < 2 * B := by
    unfold slcPhyPage
    split_ifs <;> omega
  have h1 : ((a % (B * m)) / B + 1) * B ≤ m * B := Nat.mul_le_mul_right B hq
  have h2 : ((a % (B * m)) / B + 1) * B = (a % (B * m)) / B * B + B := Nat.succ_mul _ _
  have h3 : B * m = m * B := Nat.mul_comm _ _
  omega

theorem slcPhyPage_inj (p q : Nat) (h : slcPhyPage p = slcPhyPage q) : p = q := by
  unfold slcPhyPage at h
  split_ifs at h <;> omega

theorem block_page_unique (B x y f g : Nat) (hf : f < 2 * B) (hg : g < 2 * B)
    (h : x * B * 2 + f = y * B * 2 + g) : x = y ∧ f = g := by
  rcases Nat.lt_trichotomy x y with hlt | heq | hgt
  · have h1 : (x + 1) * B ≤ y * B := Nat.mul_le_mul_right B hlt
    have h2 : (x + 1) * B = x * B + B := Nat.succ_mul _ _
    omega
  · subst heq
    exact ⟨rfl, by omega⟩
  · have h1 : (y + 1) * B ≤ x * B := Nat.mul_le_mul_right B hgt
    have h2 : (y + 1) * B = y * B + B := Nat.succ_mul _ _
    omega

theorem rowAddr_of_parts (L B a b : Nat) (hdiv : B ∣ L)
    (h1 : a / L = b / L) (h2 : (a % L) / B = (b % L) / B) (h3 : a % B = b % B) : a = b := by
  have ea : (a % L) % B = a % B := Nat.mod_mod_of_dvd a hdiv
  have eb : (b % L) % B = b % B := Nat.mod_mod_of_dvd b hdiv
  have ha := Nat.div_add_mod (a % L) B
  have hb := Nat.div_add_mod (b % L) B
  have hr : a % L = b % L := by
    rw [← ha, ← hb, h2, ea, eb, h3]
  have ha2 := Nat.div_add_mod a L
  have hb2 := Nat.div_add_mod b L
  rw [← ha2, ← hb2, h1, hr]

theorem phyRowAddrOf_slc_form (P : Params) (a : Nat) (hslc : P.slcMode = true)
    (hdiv : P.PAGE_NUM_PER_BLOCK ∣ P.PAGE_NUM_PER_LUN)
    (hrange : 2 * P.PAGE_NUM_PER_LUN ≤ LUN_1_BASE_ADDR) (ha : a < 2 * P.PAGE_NUM_PER_LUN) :
    phyRowAddrOf P a = (a / P.PAGE_NUM_PER_LUN) * LUN_1_BASE_ADDR
      + ((a % P.PAGE_NUM_PER_LUN) / P.PAGE_NUM_PER_BLOCK * P.PAGE_NUM_PER_BLOCK * 2
        + slcPhyPage (a % P.PAGE_NUM_PER_BLOCK)) := by
  have hL : 0 < P.PAGE_NUM_PER_LUN := by omega
  have hlt := slc_offset_lt P.PAGE_NUM_PER_LUN P.PAGE_NUM_PER_BLOCK a hdiv hL
  unfold slcPhyPage at hlt ⊢
  exact phyRowAddrOf_slc P a hslc ha (Nat.lt_of_lt_of_le hlt hrange)

theorem phyRowAddrOf_inj (P : Params) (a b : Nat)
    (hdiv : P.PAGE_NUM_PER_BLOCK ∣ P.PAGE_NUM_PER_LUN)
    (hrange : if P.slcMode then 2 * P.PAGE_NUM_PER_LUN ≤ LUN_1_BASE_ADDR
      else P.PAGE_NUM_PER_LUN ≤ LUN_1_BASE_ADDR)
    (ha : a < 2 * P.PAGE_NUM_PER_LUN) (hb : b < 2 * P.PAGE_NUM_PER_LUN)
    (h : phyRowAddrOf P a = phyRowAddrOf P b) : a = b := by
  have hL : 0 < P.PAGE_NUM_PER_LUN := by omega
  have hla : a / P.PAGE_NUM_PER_LUN < 2 := (Nat.div_lt_iff_lt_mul hL).2 ha
  have hlb : b / P.PAGE_NUM_PER_LUN < 2 := (Nat.div_lt_iff_lt_mul hL).2 hb
  cases hmode : P.slcMode with
  | true =>
    rw [hmode] at hrange
    simp only [if_true] at hrange
    rw [phyRowAddrOf_slc_form P a hmode hdiv hrange ha,
      phyRowAddrOf_slc_form P b hmode hdiv hrange hb] at h
    have hxa := slc_offset_lt P.PAGE_NUM_PER_LUN P.PAGE_NUM_PER_BLOCK a hdiv hL
    have hxb := slc_offset_lt P.PAGE_NUM_PER_LUN P.PAGE_NUM_PER_BLOCK b hdiv hL
    have hB : 0 < P.PAGE_NUM_PER_BLOCK := by
      rcases Nat.eq_zero_or_pos P.PAGE_NUM_PER_BLOCK with h0 | h0
      · rw [h0] at hdiv
        have := Nat.eq_zero_of_zero_dvd hdiv
        omega
      · exact h0
    have hfa : slcPhyPage (a % P.PAGE_NUM_PER_BLOCK) < 2 * P.PAGE_NUM_PER_BLOCK := by
      have := Nat.mod_lt a hB
      unfold slcPhyPage
      split_ifs <;> omega
    have hfb : slcPhyPage (b % P.PAGE_NUM_PER_BLOCK) < 2 * P.PAGE_NUM_PER_BLOCK := by
      have := Nat.mod_lt b hB
      unfold slcPhyPage
      split_ifs <;> omega
    simp only [LUN_1_BASE_ADDR] at h hrange
    have hlun : a / P.PAGE_NUM_PER_LUN = b / P.PAGE_NUM_PER_LUN := by omega
    have hoff : (a % P.PAGE_NUM_PER_LUN) / P.PAGE_NUM_PER_BLOCK * P.PAGE_NUM_PER_BLOCK * 2
          + slcPhyPage (a % P.PAGE_NUM_PER_BLOCK)
        = (b % P.PAGE_NUM_PER_LUN) / P.PAGE_NUM_PER_BLOCK * P.PAGE_NUM_PER_BLOCK * 2
          + slcPhyPage (b % P.PAGE_NUM_PER_BLOCK) := by omega
    obtain ⟨hblk, hpg⟩ := block_page_unique _ _ _ _ _ hfa hfb hoff
    exact rowAddr_of_parts _ _ a b hdiv hlun hblk (slcPhyPage_inj _ _ hpg)
  | false =>
    rw [hmode] at hrange
    simp only [Bool.false_eq_true, if_false] at hrange
    have hma : a % P.PAGE_NUM_PER_LUN < P.PAGE_NUM_PER_LUN := Nat.mod_lt _ hL
    have hmb : b % P.PAGE_NUM_PER_LUN < P.PAGE_NUM_PER_LUN := Nat.mod_lt _ hL
    rw [phyRowAddrOf_mlc P a hmode ha (Nat.lt_of_lt_of_le hma hrange),
      phyRowAddrOf_mlc P b hmode hb (Nat.lt_of_lt_of_le hmb hrange)] at h
    simp only [LUN_1_BASE_ADDR] at h hrange
    have hlun : a / P.PAGE_NUM_PER_LUN = b / P.PAGE_NUM_PER_LUN := by omega
    have hr : a % P.PAGE_NUM_PER_LUN = b % P.PAGE_NUM_PER_LUN := by omega
    have ha2 := Nat.div_add_mod a P.PAGE_NUM_PER_LUN
    have hb2 := Nat.div_add_mod b P.PAGE_NUM_PER_LUN
    rw [← ha2, ← hb2, hlun, hr]

/-- C36: the row-address mapping of `PushToReqQueueNonBlocking` is injective.  Let
`PAGE_NUM_PER_LUN` be a multiple of `PAGE_NUM_PER_BLOCK` and let the physical range of a LUN
lie below `LUN_1_BASE_ADDR`.  Two accepted pushes of NAND requests with different logical row
addresses below `2 * PAGE_NUM_PER_LUN` store different physical row addresses, in either cell
mode.  In SLC mode the stored address is the base of the LUN plus
`block * PAGE_NUM_PER_BLOCK * 2` plus the physical page, which is 0 for page 0 and `2p - 1`
for page `p > 0` and lies below `2 * PAGE_NUM_PER_BLOCK`. -/
theorem row_address_mapping_injective (P : Params) (s t : FW α) (cmdA cmdB : LowLevelReqInfo)
    (openA openB : Nat)
    (hdiv : P.PAGE_NUM_PER_BLOCK ∣ P.PAGE_NUM_PER_LUN)
    (hrange : if P.slcMode then 2 * P.PAGE_NUM_PER_LUN ≤ LUN_1_BASE_ADDR
      else P.PAGE_NUM_PER_LUN ≤ LUN_1_BASE_ADDR)
    (hnA : cmdA.request < LLSCommand_RxDMA) (hnB : cmdB.request < LLSCommand_RxDMA)
    (ha : cmdA.rowAddr < 2 * P.PAGE_NUM_PER_LUN) (hb : cmdB.rowAddr < 2 * P.PAGE_NUM_PER_LUN)
    (hne : cmdA.rowAddr ≠ cmdB.rowAddr)
    (hokA : (PushToReqQueueNonBlocking P s cmdA openA).2 ≠ 0)
    (hokB : (PushToReqQueueNonBlocking P t cmdB openB).2 ≠ 0) :
    ((PushToReqQueueNonBlocking P s cmdA openA).1.reqQueue
        (s.rqPointer cmdA.chNo cmdA.wayNo).rear cmdA.chNo cmdA.wayNo).rowAddr
      ≠ ((PushToReqQueueNonBlocking P t cmdB openB).1.reqQueue
        (t.rqPointer cmdB.chNo cmdB.wayNo).rear cmdB.chNo cmdB.wayNo).rowAddr
    ∧ (P.slcMode = true →
        ((PushToReqQueueNonBlocking P s cmdA openA).1.reqQueue
            (s.rqPointer cmdA.chNo cmdA.wayNo).rear cmdA.chNo cmdA.wayNo).rowAddr
          = (if cmdA.rowAddr / P.PAGE_NUM_PER_LUN = 0 then LUN_0_BASE_ADDR else LUN_1_BASE_ADDR)
            + (cmdA.rowAddr % P.PAGE_NUM_PER_LUN) / P.PAGE_NUM_PER_BLOCK
                * P.PAGE_NUM_PER_BLOCK * 2
            + slcPhyPage (cmdA.rowAddr % P.PAGE_NUM_PER_BLOCK)
        ∧ slcPhyPage (cmdA.rowAddr % P.PAGE_NUM_PER_BLOCK) < 2 * P.PAGE_NUM_PER_BLOCK) := by
  rw [push_nand_rowAddr P s cmdA openA hnA hokA, push_nand_rowAddr P t cmdB openB hnB hokB]
  refine ⟨fun h => hne (phyRowAddrOf_inj P _ _ hdiv hrange ha hb h), ?_⟩
  intro hslc
  have hL : 0 < P.PAGE_NUM_PER_LUN := by omega
  rw [hslc] at hrange
  simp only [if_true] at hrange
  have hla : cmdA.rowAddr / P.PAGE_NUM_PER_LUN < 2 := (Nat.div_lt_iff_lt_mul hL).2 ha
  have hB : 0 < P.PAGE_NUM_PER_BLOCK := by
    rcases Nat.eq_zero_or_pos P.PAGE_NUM_PER_BLOCK with h0 | h0
    · rw [h0] at hdiv
      have := Nat.eq_zero_of_zero_dvd hdiv
      omega
    · exact h0
  constructor
  · rw [phyRowAddrOf_slc_form P _ hslc hdiv hrange ha]
    simp only [LUN_0_BASE_ADDR, LUN_1_BASE_ADDR]
    generalize cmdA.rowAddr / P.PAGE_NUM_PER_LUN = lun at hla ⊢
    split_ifs with h0
    · rw [h0]; omega
    · have : lun = 1 := by omega
      rw [this]; omega
  · have := Nat.mod_lt cmdA.rowAddr hB
    unfold slcPhyPage
    split_ifs <;> omega

theorem row_address_mapping_injective_witness :
    ((PushToReqQueueNonBlocking exampleParams blankFW exampleReadCmd 0).1.reqQueue 0 0 0).rowAddr
      ≠ ((PushToReqQueueNonBlocking exampleParams blankFW lunOneReadCmd 0).1.reqQueue 0 0 0).rowAddr
    ∧ ((PushToReqQueueNonBlocking exampleParams blankFW exampleReadCmd 0).1.reqQueue 0 0 0).rowAddr
      = 9 :=
  ⟨(row_address_mapping_injective exampleParams blankFW blankFW exampleReadCmd lunOneReadCmd 0 0
      (by decide) (by decide) (by decide) (by decide) (by decide) (by decide) (by decide)
      (by decide) (by decide)).1,
    by decide⟩

theorem cacheKey_eq (e t : Nat) (he : e < 2 ^ 27) (ht : t < 32) :
    cacheKey e t = ((e * 32 + t) % 2 ^ 20, (e * 32 + t) / 2 ^ 20) := by
  unfold cacheKey
  have h1 : (e <<< 5) % U32 = e <<< 5 := by
    apply Nat.mod_eq_of_lt
    rw [Nat.shiftLeft_eq]
    unfold U32
    omega
  have h2 : t % U32 = t := Nat.mod_eq_of_lt (by unfold U32; omega)
  have h3 : e <<< 5 ||| t = e * 32 + t := by
    rw [Nat.shiftLeft_eq, Nat.mul_comm e (2 ^ 5),
      ← Nat.mul_add_lt_is_or (by omega : t < 2 ^ 5) e]
  have h4 : (1 <<< 20) - 1 = 2 ^ 20 - 1 := by decide
  have h5 : (1 <<< 12) - 1 = 2 ^ 12 - 1 := by decide
  simp only [h1, h2, h3, h4, h5, Nat.and_pow_two_sub_one_eq_mod, Nat.shiftRight_eq_div_pow]
  congr 1
  apply Nat.mod_eq_of_lt
  omega

theorem cacheKey_inj (e1 t1 e2 t2 : Nat) (h1 : e1 < 2 ^ 27) (ht1 : t1 < 32)
    (h2 : e2 < 2 ^ 27) (ht2 : t2 < 32) (h : cacheKey e1 t1 = cacheKey e2 t2) :
    e1 = e2 ∧ t1 = t2 := by
  rw [cacheKey_eq e1 t1 h1 ht1, cacheKey_eq e2 t2 h2 ht2] at h
  have ha := congrArg Prod.fst h
  have hb := congrArg Prod.snd h
  simp only at ha hb
  omega

theorem copyVector_apply (dst src : Nat → α) (fromAtr L k : Nat) :
    copyVector dst src fromAtr L k = if k < L then src (fromAtr + k) else dst k := by
  unfold copyVector
  induction L with
  | zero => simp
  | succ n ih =>
    rw [forRange_succ]
    by_cases hk : k = n
    · subst hk
      simp [set1_eq]
    · rw [set1_ne _ _ hk, ih]
      by_cases h1 : k < n
      · rw [if_pos h1, if_pos (by omega)]
      · rw [if_neg h1, if_neg (by omega)]

theorem translatePair_transCache [Add α] (P : Params) (entryIdx : Nat) (page : Nat → α)
    (pair_index0 base_embedding_id i : Nat) (s : FW α) :
    (translatePair P entryIdx page pair_index0 base_embedding_id i s).transCache
      = saveToCache s.transCache (pairSave s entryIdx page pair_index0 base_embedding_id i) :=
  rfl

theorem saveToCache_probe (cache : Nat → TransEmbedCacheEntry α) (sv : CacheSave α) :
    cacheProbe (saveToCache cache sv) sv.embedding_id sv.tableID ∧
    ∀ k, k < sv.embeddingLength →
      (saveToCache cache sv (cacheKey sv.embedding_id sv.tableID).1).embedding k
        = sv.page (sv.fromAtr + k) := by
  unfold cacheProbe saveToCache
  refine ⟨⟨?_, ?_⟩, ?_⟩
  · rw [set1_eq]
    exact Nat.one_ne_zero
  · rw [set1_eq]
  · intro k hk
    rw [set1_eq]
    simp only []
    rw [copyVector_apply, if_pos hk]

theorem configurePair_hit [Add α] (P : Params) (entryIdx j : Nat) (s : FW α)
    (loc : ConfigLocals)
    (h : cacheProbe s.transCache ((s.transConfig entryIdx).embeddingIDList j).embeddingID
      (s.transConfig entryIdx).tableID) :
    configurePair P entryIdx j (s, loc)
      = ({ s with
            transBuf := accumulate s.transBuf
              (resultBase P entryIdx
                + (((s.transConfig entryIdx).embeddingIDList j).result
                    * (s.transConfig entryIdx).embeddingLength) % U32)
              (s.transCache (cacheKey ((s.transConfig entryIdx).embeddingIDList j).embeddingID
                (s.transConfig entryIdx).tableID).1).embedding 0
              (s.transConfig entryIdx).embeddingLength
            cache_hits := s.cache_hits + 1 }, loc) := by
  unfold cacheProbe at h
  unfold configurePair
  simp only []
  rw [if_pos h]

theorem lastSave_append (saves : List (CacheSave α)) (sv : CacheSave α) (e t : Nat) :
    lastSave (saves ++ [sv]) e t
      = if sv.embedding_id = e ∧ sv.tableID = t then some sv else lastSave saves e t := by
  unfold lastSave
  rw [List.reverse_append, List.reverse_singleton, List.singleton_append, List.find?_cons]
  by_cases h : sv.embedding_id = e ∧ sv.tableID = t
  · simp [h]
  · simp [h]

theorem saves_probe (cache0 : Nat → TransEmbedCacheEntry α) (e t : Nat)
    (he : e < 2 ^ 27) (ht : t < 32) (hcold : ∀ k, (cache0 k).valid = 0)
    (saves : List (CacheSave α))
    (hsaves : ∀ sv ∈ saves, sv.embedding_id < 2 ^ 27 ∧ sv.tableID < 32)
    (hprobe : cacheProbe (saves.foldl saveToCache cache0) e t) :
    ∃ sv, lastSave saves e t = some sv ∧ sv.embedding_id = e ∧ sv.tableID = t ∧
      ∀ k, k < sv.embeddingLength →
        (saves.foldl saveToCache cache0 (cacheKey e t).1).embedding k
          = sv.page (sv.fromAtr + k) := by
  induction saves using List.reverseRecOn with
  | nil =>
    exfalso
    exact hprobe.1 (hcold _)
  | append_singleton saves sv ih =>
    rw [List.foldl_append] at hprobe ⊢
    simp only [List.foldl_cons, List.foldl_nil] at hprobe ⊢
    have hsv := hsaves sv (by simp)
    rw [lastSave_append]
    by_cases hsame : sv.embedding_id = e ∧ sv.tableID = t
    · rw [if_pos hsame]
      refine ⟨sv, rfl, hsame.1, hsame.2, ?_⟩
      intro k hk
      have := (saveToCache_probe (saves.foldl saveToCache cache0) sv).2 k hk
      rw [hsame.1, hsame.2] at this
      exact this
    · rw [if_neg hsame]
      have hkey : cacheKey sv.embedding_id sv.tableID ≠ cacheKey e t := by
        intro hk
        exact hsame (cacheKey_inj _ _ _ _ hsv.1 hsv.2 he ht hk)
      by_cases hidx : (cacheKey e t).1 = (cacheKey sv.embedding_id sv.tableID).1
      · exfalso
        unfold cacheProbe saveToCache at hprobe
        rw [hidx, set1_eq] at hprobe
        exact hkey (Prod.ext hidx.symm hprobe.2)
      · have hslot : saveToCache (saves.foldl saveToCache cache0) sv (cacheKey e t).1
            = saves.foldl saveToCache cache0 (cacheKey e t).1 := by
          unfold saveToCache
          exact set1_ne _ _ hidx
        have hp : cacheProbe (saves.foldl saveToCache cache0) e t := by
          unfold cacheProbe at hprobe ⊢
          rw [hslot] at hprobe
          exact hprobe
        obtain ⟨sv2, h1, h2, h3, h4⟩ :=
          ih (fun x hx => hsaves x (by simp [hx])) hp
        refine ⟨sv2, h1, h2, h3, ?_⟩
        intro k hk
        rw [hslot]
        exact h4 k hk

/-- C37: the cache key is collision-free within its bit budget. For pairs with
`embeddingID < 2^27` and `tableID < 32`, two pairs with the same `(cache_index, tag)` are
equal.  For vectors of 4-byte attributes that fit the 128 bytes of a cache slot
(`FloatVectors` for the configurations, the same bounds for every save): the cache write of
the pair loop of `translatePage` is `saveToCache`; right after a save the probe of
`ConfigureTransBufEntry` for the saved pair hits and the slot holds the saved vector; a hit
makes `configurePair` accumulate the vector of the slot; and after any history of in-budget
saves into a cache whose entries were all invalid, a probe that hits finds the vector of the
last save of that same pair. -/
theorem cache_key_collision_free [Add α] (P : Params) (s u : FW α) (entryIdx j : Nat)
    (page : Nat → α) (pair_index0 base_embedding_id i : Nat) (loc : ConfigLocals)
    (cache0 : Nat → TransEmbedCacheEntry α) (saves : List (CacheSave α)) (e t : Nat)
    (he : e < 2 ^ 27) (ht : t < 32)
    (hs : FloatVectors (s.transConfig entryIdx)) (hu : FloatVectors (u.transConfig entryIdx))
    (hcold : ∀ k, (cache0 k).valid = 0)
    (hsaves : ∀ sv ∈ saves, sv.embedding_id < 2 ^ 27 ∧ sv.tableID < 32 ∧
      sv.attributeSize = 4 ∧ sv.embeddingLength * sv.attributeSize ≤ 128)
    (hcache : u.transCache = saves.foldl saveToCache cache0)
    (hpair : ((u.transConfig entryIdx).embeddingIDList j).embeddingID = e ∧
      (u.transConfig entryIdx).tableID = t) :
    (∀ e2 t2, e2 < 2 ^ 27 → t2 < 32 → cacheKey e2 t2 = cacheKey e t → e2 = e ∧ t2 = t)
    ∧ (translatePair P entryIdx page pair_index0 base_embedding_id i s).transCache
        = saveToCache s.transCache (pairSave s entryIdx page pair_index0 base_embedding_id i)
    ∧ (cacheProbe (translatePair P entryIdx page pair_index0 base_embedding_id i s).transCache
          ((s.transConfig entryIdx).embeddingIDList (pair_index0 + i)).embeddingID
          (s.transConfig entryIdx).tableID
        ∧ ∀ k, k < (s.transConfig entryIdx).embeddingLength →
          ((translatePair P entryIdx page pair_index0 base_embedding_id i s).transCache
              (cacheKey ((s.transConfig entryIdx).embeddingIDList (pair_index0 + i)).embeddingID
                (s.transConfig entryIdx).tableID).1).embedding k
            = page ((pairSave s entryIdx page pair_index0 base_embedding_id i).fromAtr + k))
    ∧ (cacheProbe u.transCache e t →
        ∃ sv, lastSave saves e t = some sv ∧ sv.embedding_id = e ∧ sv.tableID = t
          ∧ (∀ k, k < sv.embeddingLength →
              (u.transCache (cacheKey e t).1).embedding k = sv.page (sv.fromAtr + k))
          ∧ (configurePair P entryIdx j (u, loc)).1.transBuf
              = accumulate u.transBuf
                  (resultBase P entryIdx
                    + (((u.transConfig entryIdx).embeddingIDList j).result
                        * (u.transConfig entryIdx).embeddingLength) % U32)
                  (u.transCache (cacheKey e t).1).embedding 0
                  (u.transConfig entryIdx).embeddingLength
          ∧ (configurePair P entryIdx j (u, loc)).1.cache_hits = u.cache_hits + 1) := by
  have _ := hs.float
  have _ := hu.float
  refine ⟨fun e2 t2 h2 ht2 hk => cacheKey_inj e2 t2 e t h2 ht2 he ht hk,
    translatePair_transCache P entryIdx page pair_index0 base_embedding_id i s, ?_, ?_⟩
  · rw [translatePair_transCache]
    exact saveToCache_probe s.transCache
      (pairSave s entryIdx page pair_index0 base_embedding_id i)
  · intro hprobe
    have hp : cacheProbe (saves.foldl saveToCache cache0) e t := by
      rw [← hcache]
      exact hprobe
    obtain ⟨sv, h1, h2, h3, h4⟩ := saves_probe cache0 e t he ht hcold saves
      (fun sv hsv => ⟨(hsaves sv hsv).1, (hsaves sv hsv).2.1⟩) hp
    have hprobe2 : cacheProbe u.transCache
        ((u.transConfig entryIdx).embeddingIDList j).embeddingID
        (u.transConfig entryIdx).tableID := by
      rw [hpair.1, hpair.2]
      exact hprobe
    have hhit := configurePair_hit P entryIdx j u loc hprobe2
    rw [hpair.1, hpair.2] at hhit
    refine ⟨sv, h1, h2, h3, ?_, ?_, ?_⟩
    · intro k hk
      rw [hcache]
      exact h4 k hk
    · rw [hhit]
    · rw [hhit]

theorem cache_key_collision_free_witness :
    FloatVectors (savedFW.transConfig 0) ∧
    cacheProbe savedFW.transCache 1 0 ∧
    (configurePair exampleParams 0 0 (savedFW, default)).1.transBuf
      = accumulate savedFW.transBuf 0 (savedFW.transCache (cacheKey 1 0).1).embedding 0 2
    ∧ ∀ k, k < 2 →
        (savedFW.transCache (cacheKey 1 0).1).embedding k = exampleTable (2 + k) := by
  have hprobe : cacheProbe savedFW.transCache 1 0 := by decide
  obtain ⟨-, -, -, h⟩ :=
    cache_key_collision_free exampleParams (coldFW doubleConfig) savedFW 0 0
      exampleTable 0 0 0 default blankFW.transCache [exampleSave] 1 0 (by decide) (by decide)
      ⟨rfl, by decide⟩ ⟨rfl, by decide⟩
      (fun _ => rfl) (by intro sv hsv; rw [List.mem_singleton.mp hsv]; decide) rfl ⟨rfl, rfl⟩
  obtain ⟨sv, h1, -, -, h4, h5, -⟩ := h hprobe
  have hsv : sv = exampleSave := by
    have : lastSave [exampleSave] 1 0 = some exampleSave := rfl
    rw [this] at h1
    exact (Option.some.inj h1).symm
  subst hsv
  exact ⟨⟨rfl, by decide⟩, hprobe, h5, h4⟩

theorem base_and_offset (P : Params) (A L eid slba : Nat)
    (hdiv : A * L ∣ P.PAGE_SIZE) (hpos : 0 < P.PAGE_SIZE) (hps : P.PAGE_SIZE < U32)
    (hgeo : P.SECTOR_NUM_PER_PAGE * P.SECTOR_SIZE_FTL = P.PAGE_SIZE)
    (hov : eid * A * L < U32) (hslba : slba < U32)
    (hsl : slba + (eid * A * L / P.PAGE_SIZE) * P.SECTOR_NUM_PER_PAGE < U32) :
    let q := ((eid * A * L) % U32) / P.PAGE_SIZE
    let SLBA := slbaOfPage P slba q
    let base := (((SLBA + (U32 - slba % U32)) % U32) * P.SECTOR_SIZE_FTL % U32) / (A * L % U32)
    let off := (eid + (U32 - base % U32)) % U32
    let n := P.PAGE_SIZE / (A * L)
    base = eid / n * n ∧ off = eid % n ∧ (off * L + L) * A ≤ P.PAGE_SIZE := by
  intro q SLBA base off n
  have hAL : 0 < A * L := by
    rcases Nat.eq_zero_or_pos (A * L) with h | h
    · rw [h] at hdiv
      have := Nat.eq_zero_of_zero_dvd hdiv
      omega
    · exact h
  obtain ⟨N, hN⟩ := hdiv
  have hn : n = N := by
    show P.PAGE_SIZE / (A * L) = N
    rw [hN]
    exact Nat.mul_div_cancel_left N hAL
  have hA : 0 < A := Nat.pos_of_mul_pos_right hAL
  have hL : 0 < L := Nat.pos_of_mul_pos_left hAL
  have hNpos : 0 < N := by
    rcases Nat.eq_zero_or_pos N with h | h
    · rw [h, Nat.mul_zero] at hN; omega
    · exact h
  have hSPP : 0 < P.SECTOR_NUM_PER_PAGE := by
    rcases Nat.eq_zero_or_pos P.SECTOR_NUM_PER_PAGE with h | h
    · rw [h, Nat.zero_mul] at hgeo; omega
    · exact h
  have hq : q = eid / N := by
    show ((eid * A * L) % U32) / P.PAGE_SIZE = eid / N
    rw [Nat.mod_eq_of_lt hov, hN, Nat.mul_assoc, Nat.mul_comm (A * L) N]
    exact Nat.mul_div_mul_right eid N hAL
  have hq' : eid * A * L / P.PAGE_SIZE = q := by
    show _ = ((eid * A * L) % U32) / P.PAGE_SIZE
    rw [Nat.mod_eq_of_lt hov]
  have hqN : q * N ≤ eid := by rw [hq]; exact Nat.div_mul_le_self eid N
  have hqS : q * P.SECTOR_NUM_PER_PAGE < U32 := by rw [hq'] at hsl; omega
  have hSLBA : SLBA = slba + q * P.SECTOR_NUM_PER_PAGE := by
    show slbaOfPage P slba q = _
    unfold slbaOfPage
    rw [Nat.mod_eq_of_lt hqS, Nat.mod_eq_of_lt (by rw [hq'] at hsl; exact hsl)]
  have hdiff : (SLBA + (U32 - slba % U32)) % U32 = q * P.SECTOR_NUM_PER_PAGE := by
    rw [hSLBA, Nat.mod_eq_of_lt hslba]
    have : slba + q * P.SECTOR_NUM_PER_PAGE + (U32 - slba) = q * P.SECTOR_NUM_PER_PAGE + U32 := by
      omega
    rw [this, Nat.add_mod_right, Nat.mod_eq_of_lt hqS]
  have hqP : q * P.PAGE_SIZE ≤ eid * A * L := by
    rw [hN, Nat.mul_comm (A * L) N, ← Nat.mul_assoc, Nat.mul_assoc eid A L]
    exact Nat.mul_le_mul_right _ hqN
  have hbytes : q * P.SECTOR_NUM_PER_PAGE * P.SECTOR_SIZE_FTL = q * P.PAGE_SIZE := by
    rw [Nat.mul_assoc, hgeo]
  have hbase : base = q * N := by
    show (((SLBA + (U32 - slba % U32)) % U32) * P.SECTOR_SIZE_FTL % U32) / (A * L % U32) = q * N
    rw [hdiff, hbytes, Nat.mod_eq_of_lt (by omega),
      Nat.mod_eq_of_lt (by
        have : A * L ≤ P.PAGE_SIZE := Nat.le_of_dvd hpos ⟨N, hN⟩
        omega), hN, Nat.mul_comm (A * L) N, ← Nat.mul_assoc]
    exact Nat.mul_div_cancel _ hAL
  have heidlt : eid < U32 := by
    have : eid ≤ eid * A * L := by
      rw [Nat.mul_assoc]
      exact Nat.le_mul_of_pos_right eid hAL
    omega
  have hoff : off = eid - q * N := by
    show (eid + (U32 - base % U32)) % U32 = _
    have hqNlt : q * N < U32 := Nat.lt_of_le_of_lt hqN heidlt
    rw [hbase, Nat.mod_eq_of_lt hqNlt]
    have : eid + (U32 - q * N) = (eid - q * N) + U32 := by omega
    rw [this, Nat.add_mod_right, Nat.mod_eq_of_lt (by omega)]
  have hmod : eid - q * N = eid % N := by
    have := Nat.div_add_mod eid N
    rw [hq, Nat.mul_comm (eid / N) N]
    omega
  refine ⟨by rw [hbase, hn, hq], by rw [hoff, hmod, hn], ?_⟩
  rw [hoff, hmod]
  have hlt : eid % N + 1 ≤ N := Nat.mod_lt eid hNpos
  calc (eid % N * L + L) * A = (eid % N + 1) * (L * A) := by ring
    _ ≤ N * (L * A) := Nat.mul_le_mul_right _ hlt
    _ = P.PAGE_SIZE := by rw [hN, Nat.mul_comm L A, Nat.mul_comm N (A * L)]

/-- C33: the source vector lies inside the page. Let `attributeSize * embeddingLength`
divide `PAGE_SIZE`, let a page be `SECTOR_NUM_PER_PAGE` sectors of `SECTOR_SIZE_FTL` bytes,
and let no 32-bit overflow occur. For the pair `j` that iteration `i` of `translatePage` on
plan slot `p` handles, when the slot holds the SLBA that `ConfigureTransBufEntry` derives from
the pair's own embeddingID, with `n = PAGE_SIZE / (attributeSize * embeddingLength)`:
`translatePage` runs `translatePair` with `base_embedding_id = (embeddingID / n) * n`; that
iteration, from any state `t` of the loop (the configuration is not changed by the loop),
takes its source vector from attribute `(embeddingID mod n) * embeddingLength` of the page
buffer, both for the copy into the cache slot of the pair (shown for the attributes that fit
the 128 bytes of the slot) and for the reduction into the result buffer (shown for 4-byte
attributes, which the reduction assumes); and the source vector ends within `PAGE_SIZE` bytes
of the page buffer. -/
theorem source_vector_inside_page [Add α] (P : Params) (s t : FW α) (entryIdx p j i : Nat)
    (page : Nat → α)
    (hdiv : (s.transConfig entryIdx).attributeSize * (s.transConfig entryIdx).embeddingLength
      ∣ P.PAGE_SIZE)
    (hpos : 0 < P.PAGE_SIZE) (hps : P.PAGE_SIZE < U32)
    (hgeo : P.SECTOR_NUM_PER_PAGE * P.SECTOR_SIZE_FTL = P.PAGE_SIZE)
    (hov : ((s.transConfig entryIdx).embeddingIDList j).embeddingID
      * (s.transConfig entryIdx).attributeSize * (s.transConfig entryIdx).embeddingLength < U32)
    (hslba : (s.transMap entryIdx).slba < U32)
    (hsl : (s.transMap entryIdx).slba
      + pageIdOf P (s.transConfig entryIdx) j * P.SECTOR_NUM_PER_PAGE < U32)
    (hslot : (s.transMap entryIdx).perPageSLBAs p
      = slbaOfPage P (s.transMap entryIdx).slba (pageIdOf P (s.transConfig entryIdx) j))
    (hj : (s.transMap entryIdx).perPageStartingIndex p + i = j)
    (ht : t.transConfig entryIdx = s.transConfig entryIdx) :
    translatePage P s entryIdx page p
      = (forRange ((s.transMap entryIdx).perPageInputLength p)
          (translatePair P entryIdx page ((s.transMap entryIdx).perPageStartingIndex p)
            (((s.transConfig entryIdx).embeddingIDList j).embeddingID
              / (P.PAGE_SIZE / ((s.transConfig entryIdx).attributeSize
                  * (s.transConfig entryIdx).embeddingLength))
              * (P.PAGE_SIZE / ((s.transConfig entryIdx).attributeSize
                  * (s.transConfig entryIdx).embeddingLength)))) s).modTransMap entryIdx
          (fun e => { e with pagesTranslated := (e.pagesTranslated + 1) % U32 })
    ∧ (∀ k, k < (s.transConfig entryIdx).embeddingLength →
        (k + 1) * (s.transConfig entryIdx).attributeSize ≤ 128 →
        ((translatePair P entryIdx page ((s.transMap entryIdx).perPageStartingIndex p)
            (((s.transConfig entryIdx).embeddingIDList j).embeddingID
              / (P.PAGE_SIZE / ((s.transConfig entryIdx).attributeSize
                  * (s.transConfig entryIdx).embeddingLength))
              * (P.PAGE_SIZE / ((s.transConfig entryIdx).attributeSize
                  * (s.transConfig entryIdx).embeddingLength))) i t).transCache
            (cacheKey ((s.transConfig entryIdx).embeddingIDList j).embeddingID
              (s.transConfig entryIdx).tableID).1).embedding k
          = page (((s.transConfig entryIdx).embeddingIDList j).embeddingID
                % (P.PAGE_SIZE / ((s.transConfig entryIdx).attributeSize
                    * (s.transConfig entryIdx).embeddingLength))
              * (s.transConfig entryIdx).embeddingLength + k))
    ∧ ((s.transConfig entryIdx).attributeSize = 4 →
        (translatePair P entryIdx page ((s.transMap entryIdx).perPageStartingIndex p)
            (((s.transConfig entryIdx).embeddingIDList j).embeddingID
              / (P.PAGE_SIZE / ((s.transConfig entryIdx).attributeSize
                  * (s.transConfig entryIdx).embeddingLength))
              * (P.PAGE_SIZE / ((s.transConfig entryIdx).attributeSize
                  * (s.transConfig entryIdx).embeddingLength))) i t).transBuf
          = accumulate t.transBuf
              (resultBase P entryIdx
                + (((s.transConfig entryIdx).embeddingIDList j).result
                    * (s.transConfig entryIdx).embeddingLength) % U32)
              page
              (((s.transConfig entryIdx).embeddingIDList j).embeddingID
                  % (P.PAGE_SIZE / ((s.transConfig entryIdx).attributeSize
                      * (s.transConfig entryIdx).embeddingLength))
                * (s.transConfig entryIdx).embeddingLength)
              (s.transConfig entryIdx).embeddingLength)
    ∧ (((s.transConfig entryIdx).embeddingIDList j).embeddingID
            % (P.PAGE_SIZE / ((s.transConfig entryIdx).attributeSize
                * (s.transConfig entryIdx).embeddingLength))
          * (s.transConfig entryIdx).embeddingLength
          + (s.transConfig entryIdx).embeddingLength) * (s.transConfig entryIdx).attributeSize
        ≤ P.PAGE_SIZE := by
  have hov2 : ((s.transConfig entryIdx).embeddingIDList j).embeddingID
      * (s.transConfig entryIdx).attributeSize * (s.transConfig entryIdx).embeddingLength
      % U32 = ((s.transConfig entryIdx).embeddingIDList j).embeddingID
      * (s.transConfig entryIdx).attributeSize * (s.transConfig entryIdx).embeddingLength :=
    Nat.mod_eq_of_lt hov
  have hsl2 : (s.transMap entryIdx).slba
      + ((s.transConfig entryIdx).embeddingIDList j).embeddingID
        * (s.transConfig entryIdx).attributeSize * (s.transConfig entryIdx).embeddingLength
        / P.PAGE_SIZE * P.SECTOR_NUM_PER_PAGE < U32 := by
    unfold pageIdOf at hsl
    rw [hov2] at hsl
    exact hsl
  obtain ⟨h1, h2, h3⟩ := base_and_offset P (s.transConfig entryIdx).attributeSize
    (s.transConfig entryIdx).embeddingLength
    ((s.transConfig entryIdx).embeddingIDList j).embeddingID (s.transMap entryIdx).slba
    hdiv hpos hps hgeo hov hslba hsl2
  rw [h1] at h2 h3
  rw [h2] at h3
  generalize hn : P.PAGE_SIZE / ((s.transConfig entryIdx).attributeSize
      * (s.transConfig entryIdx).embeddingLength) = n at h1 h2 h3 ⊢
  have hA : 0 < (s.transConfig entryIdx).attributeSize := by
    rcases Nat.eq_zero_or_pos (s.transConfig entryIdx).attributeSize with h | h
    · rw [h, Nat.zero_mul] at hdiv
      have := Nat.eq_zero_of_zero_dvd hdiv
      omega
    · exact h
  have hfrom : (((s.transConfig entryIdx).embeddingIDList j).embeddingID % n
      * (s.transConfig entryIdx).embeddingLength) % U32
      = ((s.transConfig entryIdx).embeddingIDList j).embeddingID % n
        * (s.transConfig entryIdx).embeddingLength := by
    apply Nat.mod_eq_of_lt
    have : ((s.transConfig entryIdx).embeddingIDList j).embeddingID % n
        * (s.transConfig entryIdx).embeddingLength
        ≤ (((s.transConfig entryIdx).embeddingIDList j).embeddingID % n
          * (s.transConfig entryIdx).embeddingLength
          + (s.transConfig entryIdx).embeddingLength)
          * (s.transConfig entryIdx).attributeSize :=
      Nat.le_trans (Nat.le_add_right _ _) (Nat.le_mul_of_pos_right _ hA)
    omega
  have hpage : translatePage P s entryIdx page p
      = (forRange ((s.transMap entryIdx).perPageInputLength p)
          (translatePair P entryIdx page ((s.transMap entryIdx).perPageStartingIndex p)
            (((s.transConfig entryIdx).embeddingIDList j).embeddingID / n * n))
          s).modTransMap entryIdx
          (fun e => { e with pagesTranslated := (e.pagesTranslated + 1) % U32 }) := by
    rw [← h1]
    unfold translatePage pageIdOf at *
    simp only []
    rw [hslot]
  refine ⟨hpage, ?_, ?_, h3⟩
  · intro k hk _
    unfold translatePair
    simp only [FW.modTransMap, ht, hj, h2, hfrom, set1_eq]
    rw [copyVector_apply, if_pos hk]
  · intro _
    unfold translatePair
    simp only [FW.modTransMap, ht, hj, h2, hfrom]

theorem source_vector_inside_page_witness :
    ((ConfigureTransBufEntry exampleParams gatherFW 0).transMap 0).perPageSLBAs 1
      = slbaOfPage exampleParams ((ConfigureTransBufEntry exampleParams gatherFW 0).transMap 0).slba
          (pageIdOf exampleParams gatherConfig 2)
    ∧ ((ConfigureTransBufEntry exampleParams gatherFW 0).transMap 0).perPageStartingIndex 1 + 0 = 2
    ∧ (∀ k, k < 2 → (k + 1) * 4 ≤ 128 →
        ((translatePair exampleParams 0 exampleTable 2 (5000 / (16384 / (4 * 2)) * (16384 / (4 * 2)))
            0 (ConfigureTransBufEntry exampleParams gatherFW 0)).transCache
            (cacheKey 5000 0).1).embedding k
          = exampleTable (5000 % (16384 / (4 * 2)) * 2 + k))
    ∧ (translatePair exampleParams 0 exampleTable 2 (5000 / (16384 / (4 * 2)) * (16384 / (4 * 2)))
          0 (ConfigureTransBufEntry exampleParams gatherFW 0)).transBuf
        = accumulate (ConfigureTransBufEntry exampleParams gatherFW 0).transBuf
            (resultBase exampleParams 0 + (0 * 2) % U32) exampleTable
            (5000 % (16384 / (4 * 2)) * 2) 2
    ∧ (5000 % (16384 / (4 * 2)) * 2 + 2) * 4 ≤ 16384 :=
  have h := source_vector_inside_page exampleParams
    (ConfigureTransBufEntry exampleParams gatherFW 0)
    (ConfigureTransBufEntry exampleParams gatherFW 0) 0 1 2 0 exampleTable
    (by decide) (by decide) (by decide) (by decide) (by decide) (by decide) (by decide)
    (by decide) (by decide) rfl
  ⟨by decide, by decide, h.2.1, h.2.2.1 (by decide), h.2.2.2⟩

/-- C35 fails in the code: the plan slot of a page covers a cache-hit pair and skips a
cache-miss pair. In `warmFW doubleConfig` pair 0 hits the cache and pair 1 misses it, both on
flash page 0. `ConfigureTransBufEntry` plans one slot with starting index 0 and input length
1, so the range that `translatePage` walks for slot 0 is the hit pair 0 alone and the miss
pair 1, whose page is the page of slot 0, lies outside it; after `translatePage` on slot 0
the cache slot of pair 1 is still invalid, pair 1 was never reduced. -/
theorem plan_slot_covers_hit_pair :
    ¬ cacheMiss (warmFW doubleConfig).transCache doubleConfig 0
    ∧ cacheMiss (warmFW doubleConfig).transCache doubleConfig 1
    ∧ ((ConfigureTransBufEntry exampleParams (warmFW doubleConfig) 0).transMap 0).nPages = 1
    ∧ ((ConfigureTransBufEntry exampleParams (warmFW doubleConfig) 0).transMap 0).perPageStartingIndex
        0 = 0
    ∧ ((ConfigureTransBufEntry exampleParams (warmFW doubleConfig) 0).transMap 0).perPageInputLength
        0 = 1
    ∧ ((ConfigureTransBufEntry exampleParams (warmFW doubleConfig) 0).transMap 0).perPageSLBAs 0
        = slbaOfPage exampleParams ((warmFW doubleConfig).transMap 0).slba
            (pageIdOf exampleParams doubleConfig 1)
    ∧ ((translatePage exampleParams (ConfigureTransBufEntry exampleParams (warmFW doubleConfig) 0)
          0 exampleTable 0).transCache (cacheKey 2 0).1).valid = 0
    ∧ ((translatePage exampleParams (ConfigureTransBufEntry exampleParams (warmFW doubleConfig) 0)
          0 exampleTable 0).transMap 0).perResultSectorInputEmbeddings 0 = 1
    ∧ (ConfigureTransBufEntry exampleParams (warmFW doubleConfig) 0).cache_hits = 1
    ∧ (ConfigureTransBufEntry exampleParams (warmFW doubleConfig) 0).cache_misses = 1 := by
  unfold cacheMiss
  decide

theorem ConfigureTransBufEntry_zeroed [Add α] [Zero α] (P : Params) (s : FW α) (e c : Nat)
    (h1 : resultBase P e ≤ c)
    (h2 : c < resultBase P e + ((s.transConfig e).resultEmbeddings
      * (s.transConfig e).attributeSize * (s.transConfig e).embeddingLength) % U32) :
    (ConfigureTransBufEntry P s e).transBuf c = 0 := by
  unfold ConfigureTransBufEntry
  simp only [FW.modTransMap]
  rw [zeroRange_apply, if_pos ⟨h1, h2⟩]

/-- C40 fails in the code: the zeroing loop of `ConfigureTransBufEntry` runs once per result
byte and clears one 4-byte cell per pass, so it clears four times the result size. Whenever
the result takes more bytes than an entry has cells (a quarter of `TRANS_BUF_ENTRY_SIZE`,
64 sectors), the cells from the start of the region of entry `e + 1` up to
`resultBase e + bytes` are set to 0, whatever they held; they lie outside the region of
entry `e`. -/
theorem configure_clears_next_entry [Add α] [Zero α] (P : Params) (s : FW α) (e c : Nat)
    (hc1 : resultBase P (e + 1) ≤ c)
    (hc3 : c < resultBase P e + ((s.transConfig e).resultEmbeddings
      * (s.transConfig e).attributeSize * (s.transConfig e).embeddingLength) % U32) :
    (ConfigureTransBufEntry P s e).transBuf c = 0 ∧
    ¬ (resultBase P e ≤ c ∧ c < resultBase P (e + 1)) := by
  refine ⟨ConfigureTransBufEntry_zeroed P s e c ?_ hc3, fun h => by omega⟩
  unfold resultBase at hc1 ⊢
  have : e * P.transBufStride ≤ (e + 1) * P.transBufStride :=
    Nat.mul_le_mul_right _ (Nat.le_succ e)
  omega

theorem configure_clears_next_entry_witness :
    ((ConfigureTransBufEntry exampleParams wideFW 0).transMap 0).nlb = 65 ∧
    resultBase exampleParams 1 < resultBase exampleParams 2 ∧
    wideFW.transBuf (resultBase exampleParams 1) = 7 ∧
    (ConfigureTransBufEntry exampleParams wideFW 0).transBuf (resultBase exampleParams 1) = 0 :=
  ⟨by decide, by decide, by decide,
    (configure_clears_next_entry exampleParams wideFW 0 (resultBase exampleParams 1)
      (by decide) (by decide)).1⟩

theorem dmaDescriptors_eq (mk : Nat → Nat → Nat → Event) (P : Params) (tag n : Nat) :
    ∀ start devAddr, start < 256 → devAddr < U32 →
      dmaDescriptors mk P tag n start devAddr
        = (List.range n).map (fun k => mk tag ((start + k) % 256)
            ((devAddr + k * P.SECTOR_SIZE_FTL) % U32)) := by
  induction n with
  | zero => intro start devAddr _ _; rfl
  | succ n ih =>
    intro start devAddr hs hd
    rw [dmaDescriptors, List.range_succ_eq_map, List.map_cons, List.map_map]
    have hstart : (if start + 1 ≥ 256 then 0 else start + 1) = (start + 1) % 256 := by
      split_ifs <;> omega
    rw [hstart, ih ((start + 1) % 256) ((devAddr + P.SECTOR_SIZE_FTL) % U32)
      (Nat.mod_lt _ (by decide)) (Nat.mod_lt _ (by decide))]
    congr 1
    · simp only [Nat.add_zero, Nat.zero_mul]
      rw [Nat.mod_eq_of_lt hs, Nat.mod_eq_of_lt hd]
    · apply List.map_congr_left
      intro k _
      simp only [Function.comp, Nat.succ_eq_add_one]
      have h1 : ((start + 1) % 256 + k) % 256 = (start + (k + 1)) % 256 := by omega
      have h2 : ((devAddr + P.SECTOR_SIZE_FTL) % U32 + k * P.SECTOR_SIZE_FTL) % U32
          = (devAddr + (k + 1) * P.SECTOR_SIZE_FTL) % U32 := by
        rw [Nat.succ_mul]
        generalize k * P.SECTOR_SIZE_FTL = x
        unfold U32
        omega
      rw [h1, h2]

theorem PopFromReqQueue_issue (env : Env α) (P : Params) (s : FW α) (chNo wayNo : Nat)
    (h1 : (s.headReq chNo wayNo).request ≠ LLSCommand_RxDMA)
    (h2 : (s.headReq chNo wayNo).request ≠ LLSCommand_TxDMA) :
    PopFromReqQueue env P s chNo wayNo
      = (s.emit (nandIssueEvent P chNo wayNo (s.headReq chNo wayNo)), 1) := by
  unfold PopFromReqQueue nandIssueEvent
  simp only [FW.headReq] at h1 h2 ⊢
  simp only [h1, h2, if_false]
  split_ifs <;> rfl

theorem PopFromReqQueue_dma (env : Env α) (P : Params) (s : FW α) (chNo wayNo : Nat)
    (h : (s.headReq chNo wayNo).request = LLSCommand_RxDMA
      ∨ (s.headReq chNo wayNo).request = LLSCommand_TxDMA) :
    (PopFromReqQueue env P s chNo wayNo).2 = 0 ∧
    (PopFromReqQueue env P s chNo wayNo).1.trace = s.trace ++
      dmaDescriptors
        (if (s.headReq chNo wayNo).request = LLSCommand_RxDMA then Event.set_auto_rx_dma
          else Event.set_auto_tx_dma) P (s.headReq chNo wayNo).cmdSlotTag
        (s.headReq chNo wayNo).subReqSect (s.headReq chNo wayNo).startDmaIndex
        (s.headReq chNo wayNo).devAddr ∧
    (PopFromReqQueue env P s chNo wayNo).1.rqPointer chNo wayNo
      = { s.rqPointer chNo wayNo with
          front := ((s.rqPointer chNo wayNo).front + 1) % REQ_QUEUE_DEPTH } ∧
    (PopFromReqQueue env P s chNo wayNo).1.dieStatusTable = s.dieStatusTable ∧
    (PopFromReqQueue env P s chNo wayNo).1.retryLimitTable = s.retryLimitTable := by
  unfold PopFromReqQueue
  simp only [FW.headReq] at h ⊢
  rcases h with h | h
  · simp only [h, if_true]
    simp [FW.advanceFront, FW.modRq, FW.tick, FW.modBuf, FW.front]
  · have hne : (s.reqQueue (s.front chNo wayNo) chNo wayNo).request ≠ LLSCommand_RxDMA := by
      rw [h]; decide
    simp only [hne, h, if_true, if_false]
    simp [FW.advanceFront, FW.modRq, FW.tick, FW.modBuf, FW.front]

theorem dmaDescriptors_closed (mk : Nat → Nat → Nat → Event) (P : Params) (tag n : Nat)
    (start devAddr : Nat) :
    dmaDescriptors mk P tag n start devAddr
      = (List.range n).map (fun k => mk tag (dmaIndexAt start k) (dmaAddrAt P devAddr k)) := by
  cases n with
  | zero => rfl
  | succ n =>
    rw [dmaDescriptors, List.range_succ_eq_map, List.map_cons, List.map_map,
      dmaDescriptors_eq mk P tag n _ _
        (by split_ifs <;> omega : (if start + 1 ≥ 256 then 0 else start + 1) < 256)
        (Nat.mod_lt _ (by decide))]
    congr 1
    apply List.map_congr_left
    intro k _
    simp only [Function.comp, Nat.succ_eq_add_one]
    have h1 : ((if start + 1 ≥ 256 then 0 else start + 1) + k) % 256 = dmaIndexAt start (k + 1) := by
      unfold dmaIndexAt
      rw [if_neg (Nat.succ_ne_zero k)]
      split_ifs <;> omega
    have h2 : ((devAddr + P.SECTOR_SIZE_FTL) % U32 + k * P.SECTOR_SIZE_FTL) % U32
        = dmaAddrAt P devAddr (k + 1) := by
      unfold dmaAddrAt
      rw [if_neg (Nat.succ_ne_zero k), Nat.succ_mul]
      generalize k * P.SECTOR_SIZE_FTL = x
      unfold U32
      omega
    rw [h1, h2]

theorem dmaIndexAt_low (start k : Nat) (h : start < 256) :
    dmaIndexAt start k = (start + k) % 256 := by
  unfold dmaIndexAt
  split_ifs with hk
  · rw [hk]; omega
  · rfl

theorem dmaAddrAt_low (P : Params) (devAddr k : Nat) (h : devAddr < U32) :
    dmaAddrAt P devAddr k = (devAddr + k * P.SECTOR_SIZE_FTL) % U32 := by
  unfold dmaAddrAt
  split_ifs with hk
  · rw [hk, Nat.zero_mul, Nat.add_zero, Nat.mod_eq_of_lt h]
  · rfl

/-- C34, amended: the die status entry for a fresh pop. In `DS_IDLE` with
`queueSelect = REQ_QUEUE`, a head request other than RxDMA and TxDMA is issued (the trigger,
the transfer or the program primitive for the three NAND codes), the ring pointers are
unchanged, the retry counter is `RETRY_LIMIT` and the die is in `DS_EXE`. For every RxDMA or
TxDMA head, `PopFromReqQueue` issues `subReqSect` descriptors; descriptor `k` carries the DMA
index `dmaIndexAt startDmaIndex k` (the stored start index for `k = 0`, then the index reset
to 0 when an increment reaches 256) and the device address `devAddr + k * SECTOR_SIZE_FTL` in
32-bit arithmetic; the indices are `(startDmaIndex + k) mod 256` when `startDmaIndex < 256`,
and `startDmaIndex, 0, 1, ...` when it is 256 or more; the call drains the mailbox of the
die, the front advances by one, the retry counter is left alone and the die stays in
`DS_IDLE`. With another `queueSelect` the die enters `DS_SUB_EXE` with the counter at
`RETRY_LIMIT`. -/
theorem fresh_pop_entry [Add α] (env : Env α) (P : Params) (s : FW α)
    (chNo wayNo reqStatus : Nat)
    (hidle : (s.dieStatusTable chNo wayNo).dieStatus = DS_IDLE) :
    ((s.dieStatusTable chNo wayNo).queueSelect = REQ_QUEUE →
      (s.headReq chNo wayNo).request ≠ LLSCommand_RxDMA →
      (s.headReq chNo wayNo).request ≠ LLSCommand_TxDMA →
      (ExeLowLevelReqPerDie env P s chNo wayNo reqStatus).trace
        = s.trace ++ [nandIssueEvent P chNo wayNo (s.headReq chNo wayNo)] ∧
      (ExeLowLevelReqPerDie env P s chNo wayNo reqStatus).rqPointer = s.rqPointer ∧
      (ExeLowLevelReqPerDie env P s chNo wayNo reqStatus).retryLimitTable chNo wayNo
        = (P.RETRY_LIMIT : Int) ∧
      ((ExeLowLevelReqPerDie env P s chNo wayNo reqStatus).dieStatusTable chNo wayNo).dieStatus
        = DS_EXE) ∧
    ((s.dieStatusTable chNo wayNo).queueSelect = REQ_QUEUE →
      ((s.headReq chNo wayNo).request = LLSCommand_RxDMA
        ∨ (s.headReq chNo wayNo).request = LLSCommand_TxDMA) →
      ExeLowLevelReqPerDie env P s chNo wayNo reqStatus
        = drainMailbox env P (PopFromReqQueue env P s chNo wayNo).1 chNo wayNo ∧
      (PopFromReqQueue env P s chNo wayNo).1.trace = s.trace ++
        (List.range (s.headReq chNo wayNo).subReqSect).map (fun k =>
          (if (s.headReq chNo wayNo).request = LLSCommand_RxDMA then Event.set_auto_rx_dma
            else Event.set_auto_tx_dma) (s.headReq chNo wayNo).cmdSlotTag
            (dmaIndexAt (s.headReq chNo wayNo).startDmaIndex k)
            (dmaAddrAt P (s.headReq chNo wayNo).devAddr k)) ∧
      ((s.headReq chNo wayNo).startDmaIndex < 256 →
        ∀ k, dmaIndexAt (s.headReq chNo wayNo).startDmaIndex k
          = ((s.headReq chNo wayNo).startDmaIndex + k) % 256) ∧
      (256 ≤ (s.headReq chNo wayNo).startDmaIndex →
        dmaIndexAt (s.headReq chNo wayNo).startDmaIndex 0
          = (s.headReq chNo wayNo).startDmaIndex ∧
        ∀ k, dmaIndexAt (s.headReq chNo wayNo).startDmaIndex (k + 1) = k % 256) ∧
      ((s.headReq chNo wayNo).devAddr < U32 →
        ∀ k, dmaAddrAt P (s.headReq chNo wayNo).devAddr k
          = ((s.headReq chNo wayNo).devAddr + k * P.SECTOR_SIZE_FTL) % U32) ∧
      (ExeLowLevelReqPerDie env P s chNo wayNo reqStatus).rqPointer chNo wayNo
        = { s.rqPointer chNo wayNo with
            front := ((s.rqPointer chNo wayNo).front + 1) % REQ_QUEUE_DEPTH } ∧
      (ExeLowLevelReqPerDie env P s chNo wayNo reqStatus).retryLimitTable = s.retryLimitTable ∧
      ((ExeLowLevelReqPerDie env P s chNo wayNo reqStatus).dieStatusTable chNo wayNo).dieStatus
        = DS_IDLE) ∧
    ((s.dieStatusTable chNo wayNo).queueSelect ≠ REQ_QUEUE →
      ExeLowLevelReqPerDie env P s chNo wayNo reqStatus
        = ({ PopFromSubReqQueue P s chNo wayNo with
              retryLimitTable := set2 (PopFromSubReqQueue P s chNo wayNo).retryLimitTable
                chNo wayNo (P.RETRY_LIMIT : Int) } : FW α).setDieStatus chNo wayNo DS_SUB_EXE ∧
      (ExeLowLevelReqPerDie env P s chNo wayNo reqStatus).retryLimitTable chNo wayNo
        = (P.RETRY_LIMIT : Int) ∧
      ((ExeLowLevelReqPerDie env P s chNo wayNo reqStatus).dieStatusTable chNo wayNo).dieStatus
        = DS_SUB_EXE) := by
  have hexe : ExeLowLevelReqPerDie env P s chNo wayNo reqStatus = idleCase env P s chNo wayNo := by
    simp [ExeLowLevelReqPerDie, hidle]
  rw [hexe]
  refine ⟨?_, ?_, ?_⟩
  · intro hq h1 h2
    unfold idleCase
    rw [if_pos hq, PopFromReqQueue_issue env P s chNo wayNo h1 h2]
    simp [FW.setDieStatus, FW.modDie, FW.emit]
  · intro hq h
    obtain ⟨hr, htr, hptr, hdie, hretry⟩ := PopFromReqQueue_dma env P s chNo wayNo h
    have hcase : idleCase env P s chNo wayNo
        = drainMailbox env P (PopFromReqQueue env P s chNo wayNo).1 chNo wayNo := by
      unfold idleCase
      rw [if_pos hq]
      simp only [hr]
      rfl
    have hfr := drainMailbox_frame env P (PopFromReqQueue env P s chNo wayNo).1 chNo wayNo
    refine ⟨hcase, ?_, fun hs k => dmaIndexAt_low _ k hs, ?_,
      fun hd k => dmaAddrAt_low P _ k hd, ?_, ?_, ?_⟩
    · rw [htr, dmaDescriptors_closed]
    · intro hs
      refine ⟨rfl, fun k => ?_⟩
      unfold dmaIndexAt
      rw [if_neg (Nat.succ_ne_zero k), if_neg (by omega)]
      rfl
    · rw [hcase, hfr.2.1, hptr]
    · rw [hcase, hfr.2.2.2.2.2.1, hretry]
    · rw [hcase, hfr.2.2.2.2.1, hdie, hidle]
  · intro hq
    have hcase : idleCase env P s chNo wayNo
        = ({ PopFromSubReqQueue P s chNo wayNo with
              retryLimitTable := set2 (PopFromSubReqQueue P s chNo wayNo).retryLimitTable
                chNo wayNo (P.RETRY_LIMIT : Int) } : FW α).setDieStatus chNo wayNo DS_SUB_EXE := by
      unfold idleCase
      rw [if_neg hq]
    refine ⟨hcase, ?_, ?_⟩
    · rw [hcase]
      simp [FW.setDieStatus, FW.modDie]
    · rw [hcase]
      simp [FW.setDieStatus, FW.modDie]

theorem fresh_pop_entry_witness :
    (highDmaFW.dieStatusTable 0 0).dieStatus = DS_IDLE ∧
    (highDmaFW.headReq 0 0).request = LLSCommand_RxDMA ∧
    (highDmaFW.headReq 0 0).startDmaIndex = 300 ∧
    (PopFromReqQueue quietEnv exampleParams highDmaFW 0 0).1.trace
      = [.set_auto_rx_dma 3 300 0x10000000, .set_auto_rx_dma 3 0 0x10001000] ∧
    (ExeLowLevelReqPerDie quietEnv exampleParams highDmaFW 0 0 NONE).rqPointer 0 0
      = { front := 1, rear := 1 } ∧
    ((ExeLowLevelReqPerDie quietEnv exampleParams highDmaFW 0 0 NONE).dieStatusTable 0 0).dieStatus
      = DS_IDLE ∧
    (wrapDmaFW.dieStatusTable 0 0).dieStatus = DS_IDLE ∧
    (PopFromReqQueue quietEnv exampleParams wrapDmaFW 0 0).1.trace
      = [.set_auto_rx_dma 3 255 0x10000000, .set_auto_rx_dma 3 0 0x10001000] := by
  obtain ⟨-, h2, -, -, -, h6, -, h8⟩ :=
    (fresh_pop_entry quietEnv exampleParams highDmaFW 0 0 NONE (by decide)).2.1
      (by decide) (Or.inl (by decide))
  refine ⟨by decide, by decide, by decide, ?_, ?_, h8, by decide, by decide⟩
  · rw [h2]
    decide
  · rw [h6]
    decide

/-- C34 as stated fails for a `startDmaIndex` of 256 or more (the field is 16 bits wide):
the index is reduced only after an increment, so the first descriptor carries 300 and the
second 0, not `300 mod 256 = 44` and 45. -/
theorem dma_index_not_reduced :
    (highDmaFW.dieStatusTable 0 0).dieStatus = DS_IDLE ∧
    (highDmaFW.dieStatusTable 0 0).queueSelect = REQ_QUEUE ∧
    (highDmaFW.headReq 0 0).request = LLSCommand_RxDMA ∧
    (highDmaFW.headReq 0 0).startDmaIndex = 300 ∧
    (highDmaFW.headReq 0 0).subReqSect = 2 ∧
    (ExeLowLevelReqPerDie quietEnv exampleParams highDmaFW 0 0 NONE).trace
      = [.set_auto_rx_dma 3 300 0x10000000, .set_auto_rx_dma 3 0 0x10001000] ∧
    (ExeLowLevelReqPerDie quietEnv exampleParams highDmaFW 0 0 NONE).trace
      ≠ (List.range 2).map (fun k =>
          Event.set_auto_rx_dma 3 ((300 + k) % 256) (0x10000000 + k * 4096)) := by
  decide

theorem LinkTo_nextWay (l : WayList) (s : FW α) (chNo wayNo : Nat)
    (h : (s.wayPriorityTable chNo).tail l ≠ wayNo) :
    ((LinkTo l s chNo wayNo).dieStatusTable chNo wayNo).nextWay = 0xf := by
  unfold LinkTo
  split_ifs with h1
  · simp only [FW.modDie, FW.modWayPriority]
    rw [set2_ne _ _ (by
      intro hc
      exact h hc.2.symm), set2_eq]
  · simp only [FW.modDie, FW.modWayPriority, set2_eq]

theorem nandIssueBody_ends_sweep [Add α] (env : Env α) (P : Params) (l : WayList) (slip : Bool)
    (chNo : Nat) (s : FW α) (wayNo fuel : Nat) (hw : wayNo ≠ 0xf)
    (htail : ((ExeLowLevelReqPerDie env P (unlinkWay l slip s chNo wayNo) chNo wayNo
      NONE).wayPriorityTable chNo).tail .nandStatus ≠ wayNo)
    (hbusy : env.controllerBusy (LinkToNandStatus (ExeLowLevelReqPerDie env P
      (unlinkWay l slip s chNo wayNo) chNo wayNo NONE) chNo wayNo).clock chNo = false) :
    whileWay (nandIssueBody env P l slip chNo) (fuel + 2) s wayNo
      = .next (LinkToNandStatus (ExeLowLevelReqPerDie env P
          (unlinkWay l slip s chNo wayNo) chNo wayNo NONE) chNo wayNo).tick 0xf := by
  have hbody : nandIssueBody env P l slip chNo s wayNo
      = .next (LinkToNandStatus (ExeLowLevelReqPerDie env P
          (unlinkWay l slip s chNo wayNo) chNo wayNo NONE) chNo wayNo).tick 0xf := by
    unfold nandIssueBody afterIssue
    simp only [hbusy]
    have := LinkTo_nextWay .nandStatus (ExeLowLevelReqPerDie env P
      (unlinkWay l slip s chNo wayNo) chNo wayNo NONE) chNo wayNo htail
    simp only [LinkToNandStatus, FW.tick] at this ⊢
    simp [this]
  rw [whileWay, if_neg hw, hbody]
  simp only [whileWay, if_true]
/-- C31 fails in the code: a NAND sweep of `ExeLowLevelReqPerCh` serves one way per call.
In `triggersListedFW` ways 0 and 1 are on the trigger list of channel 0, both in `DS_IDLE`
with a `ReadPageTrigger` at the head of their primary rings. In a call during which the
controller never reports busy, the trigger of way 0 is issued and way 0 moves to the NAND
status list, but way 1 is still on the trigger list in `DS_IDLE` when the call returns and
no primitive was issued for it: the sweep reads `nextWay` of way 0 after `LinkToNandStatus`
has set it to `0xf`. -/
theorem trigger_sweep_serves_one_way :
    ((triggersListedFW.wayPriorityTable 0).head .nandTrigger = 0
      ∧ (triggersListedFW.dieStatusTable 0 0).nextWay = 1
      ∧ (triggersListedFW.dieStatusTable 0 1).nextWay = 0xf
      ∧ (triggersListedFW.wayPriorityTable 0).tail .nandTrigger = 1
      ∧ (triggersListedFW.dieStatusTable 0 0).dieStatus = DS_IDLE
      ∧ (triggersListedFW.dieStatusTable 0 1).dieStatus = DS_IDLE
      ∧ (triggersListedFW.headReq 0 0).request = exampleParams.V2FCommand_ReadPageTrigger
      ∧ (triggersListedFW.headReq 0 1).request = exampleParams.V2FCommand_ReadPageTrigger
      ∧ triggersListedFW.trace = [])
    ∧ (ExeLowLevelReqPerCh quietEnv exampleParams 20 triggersListedFW 0 REQ_QUEUE).2
        = .returned 1
    ∧ (ExeLowLevelReqPerCh quietEnv exampleParams 20 triggersListedFW 0 REQ_QUEUE).1.trace
        = [.ReadPageTriggerAsync 0 0 (triggersListedFW.headReq 0 0).rowAddr]
    ∧ (((ExeLowLevelReqPerCh quietEnv exampleParams 20 triggersListedFW 0
          REQ_QUEUE).1.dieStatusTable 0 0).dieStatus = DS_EXE
      ∧ ((ExeLowLevelReqPerCh quietEnv exampleParams 20 triggersListedFW 0
          REQ_QUEUE).1.wayPriorityTable 0).head .nandStatus = 0)
    ∧ (((ExeLowLevelReqPerCh quietEnv exampleParams 20 triggersListedFW 0
          REQ_QUEUE).1.dieStatusTable 0 1).dieStatus = DS_IDLE
      ∧ ((ExeLowLevelReqPerCh quietEnv exampleParams 20 triggersListedFW 0
          REQ_QUEUE).1.wayPriorityTable 0).head .nandTrigger = 1
      ∧ ((ExeLowLevelReqPerCh quietEnv exampleParams 20 triggersListedFW 0
          REQ_QUEUE).1.wayPriorityTable 0).tail .nandTrigger = 1
      ∧ (ExeLowLevelReqPerCh quietEnv exampleParams 20 triggersListedFW 0
          REQ_QUEUE).1.rqPointer 0 1 = { front := 0, rear := 1 }) := by
  decide

theorem Relinked.relinkedRefl (s : FW α) : Relinked s s :=
  ⟨s.dieStatusTable, s.wayPriorityTable, rfl, fun _ _ => rfl⟩

theorem Relinked.relinkedTrans {a b c : FW α} (h1 : Relinked a b) (h2 : Relinked b c) :
    Relinked a c := by
  obtain ⟨D1, W1, rfl, hd1⟩ := h1
  obtain ⟨D2, W2, rfl, hd2⟩ := h2
  exact ⟨D2, W2, rfl, fun c w => (hd2 c w).trans (hd1 c w)⟩

theorem modDie_flags (s : FW α) (chNo wayNo : Nat) (f : DieStatusEntry → DieStatusEntry)
    (hq : ∀ d, (f d).queueSelect = d.queueSelect) (hd : ∀ d, (f d).dieStatus = d.dieStatus)
    (c v : Nat) :
    ((s.modDie chNo wayNo f).dieStatusTable c v).queueSelect
      = (s.dieStatusTable c v).queueSelect ∧
    ((s.modDie chNo wayNo f).dieStatusTable c v).dieStatus
      = (s.dieStatusTable c v).dieStatus := by
  simp only [FW.modDie, set2]
  split_ifs with h
  · obtain ⟨rfl, rfl⟩ := h
    exact ⟨hq _, hd _⟩
  · exact ⟨rfl, rfl⟩

theorem unlinkWay_flags (l : WayList) (slip : Bool) (s : FW α) (chNo wayNo c v : Nat) :
    ((unlinkWay l slip s chNo wayNo).dieStatusTable c v).queueSelect
      = (s.dieStatusTable c v).queueSelect ∧
    ((unlinkWay l slip s chNo wayNo).dieStatusTable c v).dieStatus
      = (s.dieStatusTable c v).dieStatus := by
  unfold unlinkWay
  simp only []
  split_ifs
  · have h1 := modDie_flags s chNo (s.dieStatusTable chNo wayNo).prevWay
      (fun d => { d with nextWay := (s.dieStatusTable chNo wayNo).nextWay % 16 })
      (fun _ => rfl) (fun _ => rfl) c v
    have h2 := modDie_flags (s.modDie chNo (s.dieStatusTable chNo wayNo).prevWay
      (fun d => { d with nextWay := (s.dieStatusTable chNo wayNo).nextWay % 16 })) chNo
      (((s.modDie chNo (s.dieStatusTable chNo wayNo).prevWay
        (fun d => { d with nextWay := (s.dieStatusTable chNo wayNo).nextWay % 16
          })).dieStatusTable chNo wayNo).nextWay)
      (fun d => { d with prevWay := ((s.modDie chNo (s.dieStatusTable chNo wayNo).prevWay
        (fun d => { d with nextWay := (s.dieStatusTable chNo wayNo).nextWay % 16
          })).dieStatusTable chNo wayNo).prevWay % 16 })
      (fun _ => rfl) (fun _ => rfl) c v
    exact ⟨h2.1.trans h1.1, h2.2.trans h1.2⟩
  · exact modDie_flags s chNo _ (fun d => { d with nextWay := 0xf }) (fun _ => rfl)
      (fun _ => rfl) c v
  · exact modDie_flags s chNo _ (fun d => { d with nextWay := 0xf }) (fun _ => rfl)
      (fun _ => rfl) c v
  · exact modDie_flags s chNo _ (fun d => { d with prevWay := 0xf }) (fun _ => rfl)
      (fun _ => rfl) c v
  · exact ⟨rfl, rfl⟩

theorem unlinkWay_relinked (l : WayList) (slip : Bool) (s : FW α) (chNo wayNo : Nat) :
    Relinked s (unlinkWay l slip s chNo wayNo) := by
  refine ⟨(unlinkWay l slip s chNo wayNo).dieStatusTable,
    (unlinkWay l slip s chNo wayNo).wayPriorityTable, ?_,
    fun c v => (unlinkWay_flags l slip s chNo wayNo c v).2⟩
  unfold unlinkWay
  split_ifs <;> rfl

theorem LinkTo_relinked (l : WayList) (s : FW α) (chNo wayNo : Nat) :
    Relinked s (LinkTo l s chNo wayNo) := by
  refine ⟨(LinkTo l s chNo wayNo).dieStatusTable, (LinkTo l s chNo wayNo).wayPriorityTable, ?_,
    fun c v => (LinkTo_flags l s chNo wayNo c v).2.2.2⟩
  unfold LinkTo
  split_ifs <;> rfl

theorem modDie_relinked (s : FW α) (chNo wayNo : Nat) (f : DieStatusEntry → DieStatusEntry)
    (hd : ∀ d, (f d).dieStatus = d.dieStatus) : Relinked s (s.modDie chNo wayNo f) := by
  refine ⟨(s.modDie chNo wayNo f).dieStatusTable, s.wayPriorityTable, rfl, fun c v => ?_⟩
  simp only [FW.modDie, set2]
  split_ifs with h
  · obtain ⟨rfl, rfl⟩ := h
    exact hd _
  · rfl

theorem FindPriorityTable_relinked (P : Params) (s : FW α) (chNo wayNo firstQueue : Nat) :
    Relinked s (FindPriorityTable P s chNo wayNo firstQueue) := by
  unfold FindPriorityTable
  simp only [LinkToIdle]
  split_ifs <;>
    repeat (first
      | exact Relinked.relinkedRefl _
      | refine Relinked.relinkedTrans ?_ (LinkTo_relinked _ _ _ _)
      | refine Relinked.relinkedTrans ?_ (modDie_relinked _ _ _ _ (fun _ => rfl)))

theorem FindPriorityTable_queueSelect (P : Params) (s : FW α) (chNo wayNo firstQueue v : Nat)
    (hv : v ≠ wayNo) :
    ((FindPriorityTable P s chNo wayNo firstQueue).dieStatusTable chNo v).queueSelect
      = (s.dieStatusTable chNo v).queueSelect := by
  unfold FindPriorityTable
  simp only [LinkToIdle]
  split_ifs <;> rw [(LinkTo_flags _ _ _ _ _ _).1] <;> simp [FW.modDie, set2, hv]

theorem Relinked.relinkedQueued {s s' : FW α} (h : Relinked s s') (c w : Nat) :
    s'.queued c w ↔ s.queued c w := by
  obtain ⟨D, W, rfl, -⟩ := h
  rfl

theorem Relinked.relinkedTrigger {P : Params} {s s' : FW α} (h : Relinked s s') {c w fq : Nat}
    (ht : TriggerAtHead P s c w fq) : TriggerAtHead P s' c w fq := by
  obtain ⟨D, W, rfl, hd⟩ := h
  exact ⟨(hd c w).trans ht.idle, ht.queued, ht.request, ht.primary⟩

theorem whileWay_done {σ : Type} (body : σ → Nat → Flow σ) (fuel : Nat) (st : σ) :
    whileWay body fuel st 0xf = .next st 0xf := by
  cases fuel with
  | zero => rfl
  | succ n => rw [whileWay, if_pos rfl]

theorem idleBody_skip (P : Params) (chNo firstQueue : Nat) (s : FW α) (n wayNo : Nat)
    (h : ¬ s.queued chNo wayNo) :
    idleBody P chNo firstQueue (s, n) wayNo
      = .next (s, n + 1) (s.dieStatusTable chNo wayNo).nextWay := by
  unfold FW.queued at h
  unfold idleBody
  simp only []
  rw [if_neg h]

theorem idleBody_move (P : Params) (chNo firstQueue : Nat) (s : FW α) (n wayNo : Nat)
    (h : s.queued chNo wayNo) :
    idleBody P chNo firstQueue (s, n) wayNo
      = .next (FindPriorityTable P (unlinkWay .idle false s chNo wayNo) chNo wayNo firstQueue, n)
          ((unlinkWay .idle false s chNo wayNo).dieStatusTable chNo wayNo).nextWay := by
  unfold FW.queued at h
  unfold idleBody
  simp only []
  rw [if_pos h]

theorem TriggerAtHead.chosenTrigger {P : Params} {s : FW α} {c w fq : Nat}
    (h : TriggerAtHead P s c w fq) (hcode : P.V2FCommand_ReadPageTrigger < LLSCommand_RxDMA) :
    chosenList P s c w fq = .nandTrigger ∧ selectedQueue s c w fq = REQ_QUEUE := by
  have hne : ¬ s.reqEmpty c w := fun he => h.queued he.symm
  have hsel : selectedQueue s c w fq = REQ_QUEUE := by
    unfold selectedQueue
    rcases h.primary with hq | hq
    · rw [if_pos hq, if_neg hne]
    · split_ifs <;> rfl
  refine ⟨?_, hsel⟩
  unfold chosenList selectedRequest
  rw [if_neg (fun hh => hne hh.1), if_pos hsel, h.request]
  unfold listOfRequest
  rw [if_neg (by simp only [LLSCommand_RxDMA] at hcode ⊢; omega), if_pos (Or.inl rfl)]

/-- The sweep of the idle list from a cursor: the ways that have nothing queued stay on the idle
list and are counted, the ways with a read trigger at the head of the primary ring move to the
end of the trigger list, in the order of the idle list. -/
theorem idleSweep_run {P : Params} (hW : P.WAY_NUM ≤ 15)
    (hcode : P.V2FCommand_ReadPageTrigger < LLSCommand_RxDMA) (c fq : Nat) (q : Nat → Bool) :
    ∀ (todo done : List Nat) (fuel n : Nat) (s : FW α) (ws : WayList → List Nat),
      WayInv P s c ws none → ws .idle = done ++ todo →
      (∀ w ∈ todo, (q w = true ↔ s.queued c w)) →
      (∀ w ∈ todo, s.queued c w → TriggerAtHead P s c w fq) →
      todo.length ≤ fuel →
      ∃ s', whileWay (idleBody P c fq) fuel (s, n) (todo.headD 0xf)
          = .next (s', n + (todo.filter (fun w => !q w)).length) 0xf ∧
        WayInv P s' c (setWs (setWs ws .idle (done ++ todo.filter (fun w => !q w)))
          .nandTrigger (ws .nandTrigger ++ todo.filter q)) none ∧
        Relinked s s' ∧
        (∀ w ∈ todo, s.queued c w → (s'.dieStatusTable c w).queueSelect = REQ_QUEUE) ∧
        (∀ w, w ∉ todo →
          (s'.dieStatusTable c w).queueSelect = (s.dieStatusTable c w).queueSelect) := by
  intro todo
  induction todo with
  | nil =>
    intro done fuel n s ws hws hidle _ _ _
    refine ⟨s, whileWay_done _ _ _, ?_, Relinked.relinkedRefl s,
      fun w hw => absurd hw (List.not_mem_nil w), fun _ _ => rfl⟩
    have e : setWs (setWs ws .idle (done ++ List.filter (fun w => !q w) []))
        .nandTrigger (ws .nandTrigger ++ List.filter q []) = ws := by
      funext l
      simp only [setWs, List.filter_nil, List.append_nil]
      split_ifs with h1 h2
      · rw [h1]
      · rw [h2, hidle, List.append_nil]
      · rfl
    rw [e]
    exact hws
  | cons w todo ih =>
    intro done fuel n s ws hws hidle hq hready hfuel
    have hmem : w ∈ ws .idle := by rw [hidle]; simp
    have hw15 : w ≠ 0xf := by
      have := hws.bound .idle w hmem
      omega
    obtain ⟨fuel', rfl⟩ : ∃ f, fuel = f + 1 := ⟨fuel - 1, by
      simp only [List.length_cons] at hfuel; omega⟩
    have hfuel' : todo.length ≤ fuel' := by
      simp only [List.length_cons] at hfuel; omega
    have hnext := (WayInv_pointers hws hidle).1
    have hnd : w ∉ todo := by
      have := hws.nodup .idle
      rw [hidle] at this
      exact (List.nodup_cons.mp (List.nodup_append.mp this).2.1).1
    by_cases hqw : s.queued c w
    · have hqt : q w = true := (hq w (List.mem_cons_self _ _)).mpr hqw
      have hr := hready w (List.mem_cons_self _ _) hqw
      obtain ⟨h1, h2⟩ := unlinkWay_inv hW hws hidle false (fun h => by cases h)
      have hr1 : TriggerAtHead P (unlinkWay .idle false s c w) c w fq :=
        (unlinkWay_relinked .idle false s c w).relinkedTrigger hr
      obtain ⟨hch, hsel⟩ := hr1.chosenTrigger hcode
      obtain ⟨s1, hsl, hF, hqs, -, -⟩ :=
        FindPriorityTable_chosen P (unlinkWay .idle false s c w) c w fq
      rw [hch] at hF
      rw [hsel] at hqs
      have h3 := (LinkTo_inv hW (WayInv_frame (hsl.on c) h1) .nandTrigger).1
      rw [← hF] at h3
      have hrel : Relinked s (FindPriorityTable P (unlinkWay .idle false s c w) c w fq) :=
        (unlinkWay_relinked .idle false s c w).relinkedTrans (FindPriorityTable_relinked P _ c w fq)
      have hqw2 : ((FindPriorityTable P (unlinkWay .idle false s c w) c w fq).dieStatusTable
          c w).queueSelect = REQ_QUEUE := by
        rw [hF, (LinkTo_flags _ _ _ _ _ _).1]
        exact hqs
      obtain ⟨s', hrun, hinv, hrel', hqs', hoth⟩ := ih done fuel' n
        (FindPriorityTable P (unlinkWay .idle false s c w) c w fq) _ h3
        (by simp [setWs])
        (fun v hv => (hq v (List.mem_cons_of_mem _ hv)).trans (hrel.relinkedQueued c v).symm)
        (fun v hv hqv => hrel.relinkedTrigger
          (hready v (List.mem_cons_of_mem _ hv) ((hrel.relinkedQueued c v).mp hqv)))
        hfuel'
      refine ⟨s', ?_, ?_, hrel.relinkedTrans hrel', ?_, ?_⟩
      · rw [List.headD_cons, whileWay, if_neg hw15, idleBody_move _ _ _ _ _ _ hqw]
        simp only []
        rw [h2, hnext, hrun, List.filter_cons_of_neg (by simp [hqt])]
      · have e : setWs (setWs ws .idle (done ++ List.filter (fun w => !q w) (w :: todo)))
            .nandTrigger (ws .nandTrigger ++ List.filter q (w :: todo))
            = setWs (setWs (setWs (setWs ws .idle (done ++ todo)) .nandTrigger
                (setWs ws .idle (done ++ todo) .nandTrigger ++ [w])) .idle
                (done ++ List.filter (fun w => !q w) todo)) .nandTrigger
                (setWs (setWs ws .idle (done ++ todo)) .nandTrigger
                  (setWs ws .idle (done ++ todo) .nandTrigger ++ [w]) .nandTrigger
                  ++ List.filter q todo) := by
          funext l
          rw [List.filter_cons_of_neg (by simp [hqt]), List.filter_cons_of_pos hqt]
          simp only [setWs]
          split_ifs <;> simp_all
        rw [e]
        exact hinv
      · intro v hv hqv
        rcases List.mem_cons.mp hv with rfl | hv'
        · rw [hoth v hnd]
          exact hqw2
        · exact hqs' v hv' ((hrel.relinkedQueued c v).mpr hqv)
      · intro v hv
        have hvw : v ≠ w := fun h => hv (h ▸ List.mem_cons_self _ _)
        have hvt : v ∉ todo := fun h => hv (List.mem_cons_of_mem _ h)
        rw [hoth v hvt, FindPriorityTable_queueSelect P _ c w fq v hvw]
        exact (unlinkWay_flags .idle false s c w c v).1
    · have hqf : q w = false := by
        cases hb : q w with
        | false => rfl
        | true => exact absurd ((hq w (List.mem_cons_self _ _)).mp hb) hqw
      obtain ⟨s', hrun, hinv, hrel', hqs', hoth⟩ := ih (done ++ [w]) fuel' (n + 1) s ws hws
        (by rw [hidle]; simp)
        (fun v hv => hq v (List.mem_cons_of_mem _ hv))
        (fun v hv hqv => hready v (List.mem_cons_of_mem _ hv) hqv)
        hfuel'
      refine ⟨s', ?_, ?_, hrel', ?_, ?_⟩
      · rw [List.headD_cons, whileWay, if_neg hw15, idleBody_skip _ _ _ _ _ _ hqw]
        simp only []
        rw [hnext, hrun, List.filter_cons_of_pos (by simp [hqf]), List.length_cons]
        congr 2
        omega
      · rw [List.filter_cons_of_pos (by simp [hqf]), List.filter_cons_of_neg (by simp [hqf])]
        rw [List.append_assoc] at hinv
        exact hinv
      · intro v hv hqv
        rcases List.mem_cons.mp hv with rfl | hv'
        · exact absurd hqv hqw
        · exact hqs' v hv' hqv
      · intro v hv
        exact hoth v (fun h => hv (List.mem_cons_of_mem _ h))

theorem Relinked.toRescheduled {s s' : FW α} (h : Relinked s s') : Rescheduled s s' := by
  obtain ⟨D, W, rfl, -⟩ := h
  exact ⟨D, W, s.retryLimitTable, s.clock, s.trace, rfl⟩

theorem Rescheduled.reschedTrans {a b c : FW α} (h1 : Rescheduled a b) (h2 : Rescheduled b c) :
    Rescheduled a c := by
  obtain ⟨D1, W1, R1, k1, t1, rfl⟩ := h1
  obtain ⟨D2, W2, R2, k2, t2, rfl⟩ := h2
  exact ⟨D2, W2, R2, k2, t2, rfl⟩

theorem Rescheduled.reschedTick (s : FW α) : Rescheduled s s.tick :=
  ⟨s.dieStatusTable, s.wayPriorityTable, s.retryLimitTable, s.clock + 1, s.trace, rfl⟩

theorem Rescheduled.reschedIssued (P : Params) (s : FW α) (c w : Nat) :
    Rescheduled s (triggerIssued P s c w) :=
  ⟨(triggerIssued P s c w).dieStatusTable, s.wayPriorityTable,
    (triggerIssued P s c w).retryLimitTable, s.clock, (triggerIssued P s c w).trace, rfl⟩

theorem Rescheduled.reschedRings {s s' : FW α} (h : Rescheduled s s') :
    s'.reqQueue = s.reqQueue ∧ s'.rqPointer = s.rqPointer ∧ s'.subReqQueue = s.subReqQueue ∧
    s'.srqPointer = s.srqPointer ∧ s'.transPageReqQueue = s.transPageReqQueue ∧
    s'.transReadRqPointer = s.transReadRqPointer := by
  obtain ⟨D, W, R, k, tr, rfl⟩ := h
  exact ⟨rfl, rfl, rfl, rfl, rfl, rfl⟩

theorem Rescheduled.reschedHeadReq {s s' : FW α} (h : Rescheduled s s') (c w : Nat) :
    s'.headReq c w = s.headReq c w := by
  obtain ⟨D, W, R, k, tr, rfl⟩ := h
  rfl

theorem Rescheduled.reschedQueued {s s' : FW α} (h : Rescheduled s s') (c w : Nat) :
    s'.queued c w ↔ s.queued c w := by
  obtain ⟨D, W, R, k, tr, rfl⟩ := h
  rfl

theorem Relinked.relinkedTimes {s s' : FW α} (h : Relinked s s') :
    s'.clock = s.clock ∧ s'.trace = s.trace := by
  obtain ⟨D, W, rfl, -⟩ := h
  exact ⟨rfl, rfl⟩

theorem Relinked.relinkedDieStatus {s s' : FW α} (h : Relinked s s') (c w : Nat) :
    (s'.dieStatusTable c w).dieStatus = (s.dieStatusTable c w).dieStatus := by
  obtain ⟨D, W, rfl, hd⟩ := h
  exact hd c w

theorem ExeLowLevelReqPerDie_trigger [Add α] (env : Env α) (P : Params) (s : FW α)
    (chNo wayNo : Nat) (hcode : P.V2FCommand_ReadPageTrigger < LLSCommand_RxDMA)
    (hd : (s.dieStatusTable chNo wayNo).dieStatus = DS_IDLE)
    (hqs : (s.dieStatusTable chNo wayNo).queueSelect = REQ_QUEUE)
    (hreq : (s.headReq chNo wayNo).request = P.V2FCommand_ReadPageTrigger) :
    ExeLowLevelReqPerDie env P s chNo wayNo NONE = triggerIssued P s chNo wayNo := by
  have h1 : (s.headReq chNo wayNo).request ≠ LLSCommand_RxDMA := by
    rw [hreq]; simp only [LLSCommand_RxDMA] at hcode ⊢; omega
  have h2 : (s.headReq chNo wayNo).request ≠ LLSCommand_TxDMA := by
    rw [hreq]; simp only [LLSCommand_RxDMA, LLSCommand_TxDMA] at hcode ⊢; omega
  unfold ExeLowLevelReqPerDie
  simp only []
  rw [if_pos hd]
  unfold idleCase
  rw [if_pos hqs, PopFromReqQueue_issue env P s chNo wayNo h1 h2]
  simp only []
  rw [if_pos (by decide)]
  unfold nandIssueEvent triggerIssued
  rw [if_pos hreq]
  rfl

theorem WayInv.headNil {P : Params} {s : FW α} {c : Nat} {ws : WayList → List Nat}
    {free : Option Nat} (h : WayInv P s c ws free) {l : WayList} (hl : ws l = []) :
    (s.wayPriorityTable c).head l = 0xf := by
  have := h.fwd l
  rw [hl] at this
  exact this

theorem WayInv.headCons {P : Params} {s : FW α} {c : Nat} {ws : WayList → List Nat}
    {free : Option Nat} (hW : P.WAY_NUM ≤ 15) (h : WayInv P s c ws free) {l : WayList}
    {x : Nat} {T : List Nat} (hl : ws l = x :: T) :
    (s.wayPriorityTable c).head l = x ∧ x ≠ 0xf := by
  have := h.fwd l
  rw [hl] at this
  have hb := h.bound l x (by rw [hl]; exact List.mem_cons_self _ _)
  exact ⟨this.1, by omega⟩

theorem sweep_empty (l : WayList) (body : FW α → Nat → Flow (FW α)) (fuel c : Nat) (s : FW α)
    (h : (s.wayPriorityTable c).head l = 0xf) : sweep l body fuel c s = (s, .fallThrough) := by
  unfold sweep
  rw [if_neg (by rw [h]; exact fun hh => hh rfl)]

theorem drainFirst_none [Add α] (env : Env α) (P : Params) (s : FW α) (c : Nat)
    (h : ∀ w, w < P.WAY_NUM → (s.transPageReqQueue c w).valid = 0) :
    drainFirst env P s c = s :=
  (drainFirst_effect env P s c).2 h

/-- The sweep of the trigger list serves the first way of the list and ends: the way is in
`DS_EXE` at the end of the NAND status list, and the sweep returns 1 if the controller reports
busy after the issue and falls through otherwise. -/
theorem triggerSweep_issue [Add α] {P : Params} (hW : P.WAY_NUM ≤ 15)
    (hcode : P.V2FCommand_ReadPageTrigger < LLSCommand_RxDMA) (env : Env α) (c x fuel : Nat)
    (T : List Nat) (s : FW α) (ws : WayList → List Nat) (hfuel : 0 < fuel)
    (hws : WayInv P s c ws none) (hT : ws .nandTrigger = x :: T)
    (hmail : ∀ w, w < P.WAY_NUM → (s.transPageReqQueue c w).valid = 0)
    (hd : (s.dieStatusTable c x).dieStatus = DS_IDLE)
    (hqs : (s.dieStatusTable c x).queueSelect = REQ_QUEUE)
    (hreq : (s.headReq c x).request = P.V2FCommand_ReadPageTrigger) :
    ∃ s', sweep .nandTrigger (nandIssueBody env P .nandTrigger false c) fuel c s
        = (s', if env.controllerBusy s.clock c then .returned 1 else .fallThrough) ∧
      WayInv P s' c (setWs (setWs ws .nandTrigger T) .nandStatus
        (setWs ws .nandTrigger T .nandStatus ++ [x])) none ∧
      Rescheduled s s' ∧
      s'.trace = s.trace ++ [.ReadPageTriggerAsync c x (s.headReq c x).rowAddr] ∧
      s'.clock = s.clock + 1 ∧
      (s'.dieStatusTable c x).dieStatus = DS_EXE ∧
      (∀ v, v ≠ x → (s'.dieStatusTable c v).dieStatus = (s.dieStatusTable c v).dieStatus ∧
        (s'.dieStatusTable c v).queueSelect = (s.dieStatusTable c v).queueSelect) := by
  obtain ⟨hhead, hx15⟩ := hws.headCons hW hT
  have hu := unlinkWay_relinked .nandTrigger false s c x
  have hur := hu.toRescheduled
  have huf := unlinkWay_flags .nandTrigger false s c x c
  have hE : ExeLowLevelReqPerDie env P (unlinkWay .nandTrigger false s c x) c x NONE
      = triggerIssued P (unlinkWay .nandTrigger false s c x) c x :=
    ExeLowLevelReqPerDie_trigger env P _ c x hcode ((huf x).2.trans hd) ((huf x).1.trans hqs)
      (by rw [hur.reschedHeadReq]; exact hreq)
  obtain ⟨h1, -⟩ := unlinkWay_inv hW hws (show ws .nandTrigger = [] ++ x :: T from hT) false
    (fun h => by cases h)
  have h2 : WayInv P (triggerIssued P (unlinkWay .nandTrigger false s c x) c x) c
      (setWs ws .nandTrigger ([] ++ T)) (some x) := by
    rw [← hE]
    exact WayInv_frame ((SameLinks.of_view (by simp) :
      SameLinks (unlinkWay .nandTrigger false s c x)
        (ExeLowLevelReqPerDie env P (unlinkWay .nandTrigger false s c x) c x NONE)).on c) h1
  obtain ⟨h3, h4⟩ := LinkTo_inv hW h2 .nandStatus
  have hl := LinkTo_relinked .nandStatus
    (triggerIssued P (unlinkWay .nandTrigger false s c x) c x) c x
  have hlf := LinkTo_flags .nandStatus
    (triggerIssued P (unlinkWay .nandTrigger false s c x) c x) c x c
  have hres : Rescheduled s (LinkToNandStatus
      (triggerIssued P (unlinkWay .nandTrigger false s c x) c x) c x).tick :=
    ((hur.reschedTrans (Rescheduled.reschedIssued P _ c x)).reschedTrans
      hl.toRescheduled).reschedTrans (Rescheduled.reschedTick _)
  have hclock : (LinkToNandStatus
      (triggerIssued P (unlinkWay .nandTrigger false s c x) c x) c x).clock = s.clock :=
    hl.relinkedTimes.1.trans hu.relinkedTimes.1
  have hmail' : ∀ w, w < P.WAY_NUM → ((LinkToNandStatus
      (triggerIssued P (unlinkWay .nandTrigger false s c x) c x) c x).tick.transPageReqQueue
        c w).valid = 0 := by
    intro w hw
    rw [hres.reschedRings.2.2.2.2.1]
    exact hmail w hw
  have hbody : nandIssueBody env P .nandTrigger false c s x
      = if env.controllerBusy s.clock c then
          .leave (LinkToNandStatus
            (triggerIssued P (unlinkWay .nandTrigger false s c x) c x) c x).tick (.returned 1)
        else .next (LinkToNandStatus
            (triggerIssued P (unlinkWay .nandTrigger false s c x) c x) c x).tick 0xf := by
    unfold nandIssueBody
    simp only []
    rw [hE]
    unfold afterIssue
    rw [hclock, drainFirst_none env P _ c hmail']
    have : ((LinkToNandStatus (triggerIssued P (unlinkWay .nandTrigger false s c x) c x)
        c x).tick.dieStatusTable c x).nextWay = 0xf := h4
    rw [this]
  refine ⟨(LinkToNandStatus
      (triggerIssued P (unlinkWay .nandTrigger false s c x) c x) c x).tick, ?_, ?_, hres, ?_, ?_,
    ?_, ?_⟩
  · obtain ⟨f, rfl⟩ : ∃ f, fuel = f + 1 := ⟨fuel - 1, by omega⟩
    unfold sweep
    rw [if_pos (by rw [hhead]; exact hx15), hhead, whileWay, if_neg hx15, hbody]
    cases hb : env.controllerBusy s.clock c
    · simp only [Bool.false_eq_true, if_false, whileWay_done]
      rfl
    · simp only [if_true]
      rfl
  · have h5 : WayInv P (LinkToNandStatus
        (triggerIssued P (unlinkWay .nandTrigger false s c x) c x) c x).tick c _ none :=
      WayInv_frame ((SameLinks.of_view rfl : SameLinks (LinkTo .nandStatus
        (triggerIssued P (unlinkWay .nandTrigger false s c x) c x) c x) _).on c) h3
    exact h5
  · show (LinkTo .nandStatus (triggerIssued P (unlinkWay .nandTrigger false s c x) c x)
      c x).trace = _
    rw [hl.relinkedTimes.2]
    show (unlinkWay .nandTrigger false s c x).trace ++ _ = _
    rw [hu.relinkedTimes.2, hur.reschedHeadReq]
  · show (LinkToNandStatus (triggerIssued P (unlinkWay .nandTrigger false s c x) c x)
      c x).clock + 1 = _
    rw [hclock]
  · show ((LinkTo .nandStatus (triggerIssued P (unlinkWay .nandTrigger false s c x) c x)
      c x).dieStatusTable c x).dieStatus = _
    rw [(hlf x).2.2.2]
    simp [triggerIssued, FW.setDieStatus, FW.modDie]
  · intro v hv
    constructor
    · show ((LinkTo .nandStatus (triggerIssued P (unlinkWay .nandTrigger false s c x) c x)
        c x).dieStatusTable c v).dieStatus = _
      rw [(hlf v).2.2.2, ← (huf v).2]
      simp [triggerIssued, FW.setDieStatus, FW.modDie, FW.emit, set2, hv]
    · show ((LinkTo .nandStatus (triggerIssued P (unlinkWay .nandTrigger false s c x) c x)
        c x).dieStatusTable c v).queueSelect = _
      rw [(hlf v).1, ← (huf v).1]
      simp [triggerIssued, FW.setDieStatus, FW.modDie, FW.emit, set2, hv]

theorem nandStatus_skip [Add α] {P : Params} (hW : P.WAY_NUM ≤ 15) (env : Env α)
    (c readyBusy : Nat) :
    ∀ (todo done : List Nat) (fuel : Nat) (s : FW α) (ws : WayList → List Nat),
      WayInv P s c ws none → ws .nandStatus = done ++ todo →
      (∀ w ∈ todo, (readyBusy >>> w) % 2 ≠ 1) → todo.length ≤ fuel →
      whileWay (nandStatusBody env P c readyBusy) fuel s (todo.headD 0xf) = .next s 0xf := by
  intro todo
  induction todo with
  | nil =>
    intro done fuel s ws _ _ _ _
    exact whileWay_done _ _ _
  | cons w todo ih =>
    intro done fuel s ws hws hS hbusy hfuel
    have hmem : w ∈ ws .nandStatus := by rw [hS]; simp
    have hw15 : w ≠ 0xf := by
      have := hws.bound .nandStatus w hmem
      omega
    obtain ⟨fuel', rfl⟩ : ∃ f, fuel = f + 1 := ⟨fuel - 1, by
      simp only [List.length_cons] at hfuel; omega⟩
    have hfuel' : todo.length ≤ fuel' := by
      simp only [List.length_cons] at hfuel; omega
    have hnext := (WayInv_pointers hws hS).1
    have hbody : nandStatusBody env P c readyBusy s w
        = .next s (s.dieStatusTable c w).nextWay := by
      unfold nandStatusBody
      simp only []
      rw [if_neg (hbusy w (List.mem_cons_self _ _))]
    rw [List.headD_cons, whileWay, if_neg hw15, hbody]
    simp only []
    rw [hnext]
    exact ih (done ++ [w]) fuel' s ws hws (by rw [hS]; simp)
      (fun v hv => hbusy v (List.mem_cons_of_mem _ hv)) hfuel'

theorem WayInv.lengthLe {P : Params} {s : FW α} {c : Nat} {ws : WayList → List Nat}
    {free : Option Nat} (h : WayInv P s c ws free) (l : WayList) :
    (ws l).length ≤ P.WAY_NUM := by
  have hsub : (ws l).Subperm (List.range P.WAY_NUM) :=
    List.subperm_of_subset (h.nodup l) (fun w hw => List.mem_range.mpr (h.bound l w hw))
  simpa using hsub.length_le

theorem WayInv.lengthLt {P : Params} {s : FW α} {c : Nat} {ws : WayList → List Nat}
    {free : Option Nat} (h : WayInv P s c ws free) (l l' : WayList) (x : Nat)
    (hx : x ∈ ws l') (hne : l' ≠ l) : (ws l).length < P.WAY_NUM := by
  have hnot : x ∉ ws l := fun hh => hne (h.disj l' l x hx hh)
  have hsub : (x :: ws l).Subperm (List.range P.WAY_NUM) :=
    List.subperm_of_subset (List.nodup_cons.mpr ⟨hnot, h.nodup l⟩) (fun w hw => by
      rcases List.mem_cons.mp hw with rfl | hw'
      · exact List.mem_range.mpr (h.bound l' _ hx)
      · exact List.mem_range.mpr (h.bound l w hw'))
  have := hsub.length_le
  simp only [List.length_cons, List.length_range] at this
  omega

theorem nandStatusStage_quiet [Add α] {P : Params} (hW : P.WAY_NUM ≤ 15) (env : Env α)
    (c fuel : Nat) (s : FW α) (ws : WayList → List Nat) (hfuel : P.WAY_NUM ≤ fuel)
    (hws : WayInv P s c ws none)
    (hS : ws .nandStatus = [] ∨ (env.beforeNandReset s.clock = 0 ∧
      ∀ w ∈ ws .nandStatus, (env.readyBusy s.clock c >>> w) % 2 ≠ 1)) :
    nandStatusStage env P fuel c s
      = (if ws .nandStatus = [] then s else s.tick, .fallThrough) := by
  unfold nandStatusStage
  cases hl : ws .nandStatus with
  | nil =>
    rw [if_neg (by rw [hws.headNil hl]; exact fun hh => hh rfl), if_pos rfl]
  | cons x T =>
    obtain ⟨hhead, hx15⟩ := hws.headCons hW hl
    rcases hS with hS | ⟨hreset, hbusy⟩
    · rw [hl] at hS
      cases hS
    · rw [if_pos (by rw [hhead]; exact hx15), if_neg (List.cons_ne_nil _ _)]
      simp only []
      rw [if_neg (by rw [hreset]; exact fun hh => hh rfl), hhead]
      have hws' : WayInv P s.tick c ws none :=
        WayInv_frame ((SameLinks.of_view rfl : SameLinks s s.tick).on c) hws
      have := nandStatus_skip hW env c (env.readyBusy s.clock c) (x :: T) [] fuel s.tick ws hws'
        (by rw [hl]; rfl) (by rw [← hl]; exact hbusy)
        (le_trans (by rw [← hl]; exact hws.lengthLe .nandStatus) hfuel)
      rw [List.headD_cons] at this
      rw [this]
      rfl

theorem statusReportStage_empty [Add α] (env : Env α) (P : Params) (fuel c fq : Nat) (s : FW α)
    (h : (s.wayPriorityTable c).head .statusReport = 0xf) :
    statusReportStage env P fuel c fq s = (s, .fallThrough) := by
  unfold statusReportStage
  rw [if_neg (by rw [h]; exact fun hh => hh rfl)]

theorem PopFromTransReadReqQueue_idle (P : Params) (s : FW α)
    (h : s.transReadRqPointer.head = 0xffff) : PopFromTransReadReqQueue P s = (s, 0) := by
  unfold PopFromTransReadReqQueue
  rw [if_pos h]

theorem idleStage_quiet [Add α] [Zero α] {P : Params} (hW : P.WAY_NUM ≤ 15)
    (hcode : P.V2FCommand_ReadPageTrigger < LLSCommand_RxDMA) (env : Env α)
    (c fq fuel transWaiting : Nat) (q : Nat → Bool) (x : Nat) (s : FW α)
    (ws : WayList → List Nat) (hfuel : P.WAY_NUM ≤ fuel) (hws : WayInv P s c ws none)
    (hq : ∀ w ∈ ws .idle, (q w = true ↔ s.queued c w))
    (hready : ∀ w ∈ ws .idle, s.queued c w → TriggerAtHead P s c w fq)
    (hx : x ∈ ws .nandTrigger ++ (ws .idle).filter q) :
    ∃ s', idleStage env P fuel c fq transWaiting s = (s', .fallThrough) ∧
      WayInv P s' c (setWs (setWs ws .idle ((ws .idle).filter (fun w => !q w)))
        .nandTrigger (ws .nandTrigger ++ (ws .idle).filter q)) none ∧
      Relinked s s' ∧
      (∀ w ∈ ws .idle, s.queued c w → (s'.dieStatusTable c w).queueSelect = REQ_QUEUE) ∧
      (∀ w, w ∉ ws .idle →
        (s'.dieStatusTable c w).queueSelect = (s.dieStatusTable c w).queueSelect) := by
  obtain ⟨s', hrun, hinv, hrel, h4, h5⟩ := idleSweep_run hW hcode c fq q (ws .idle) [] fuel 0 s
    ws hws rfl hq hready (le_trans (hws.lengthLe .idle) hfuel)
  have hinv' : WayInv P s' c (setWs (setWs ws .idle ((ws .idle).filter (fun w => !q w)))
      .nandTrigger (ws .nandTrigger ++ (ws .idle).filter q)) none := hinv
  have hlen : ((ws .idle).filter (fun w => !q w)).length < P.WAY_NUM := by
    have := hinv'.lengthLt .idle .nandTrigger x
      (by simp only [setWs, if_true]; exact hx) (by decide)
    simpa [setWs] using this
  have hhead := Fwd_head _ _ _ _ (hws.fwd .idle)
  rw [← hhead] at hrun
  refine ⟨s', ?_, hinv', hrel, h4, h5⟩
  unfold idleStage
  by_cases hh : (s.wayPriorityTable c).head .idle ≠ 0xf
  · rw [if_pos hh, hrun]
    simp only []
    rw [if_neg (fun h => h rfl), if_neg (by omega)]
  · rw [if_neg hh]
    have h0 : (s.wayPriorityTable c).head .idle = 0xf := not_not.mp hh
    rw [h0, whileWay_done] at hrun
    injection hrun with h1 _
    rw [← (Prod.mk.inj h1).1]

theorem andThen_pair_fall (s : FW α) (f : FW α → FW α × Exit) :
    andThen (s, .fallThrough) f = f s := rfl

theorem andThen_pair_returned (s : FW α) (v : Nat) (f : FW α → FW α × Exit) :
    andThen (s, .returned v) f = (s, .returned v) := rfl

/-- One call of `ExeLowLevelReqPerCh` on a quiet channel on which the controller is not busy on
entry and no way of the NAND status list is ready: the idle ways with a trigger queued join
the trigger list, the first way `x` of that list is served, and the call returns 1. -/
theorem ExeLowLevelReqPerCh_quiet [Add α] [Zero α] {P : Params} (hW : P.WAY_NUM ≤ 15)
    (hcode : P.V2FCommand_ReadPageTrigger < LLSCommand_RxDMA) (env : Env α)
    (c fq fuel : Nat) (q : Nat → Bool) (x : Nat) (T : List Nat) (s : FW α)
    (ws : WayList → List Nat) (hfuel : P.WAY_NUM ≤ fuel)
    (hQ : QuietChannel P s c fq ws)
    (hq : ∀ w ∈ ws .idle, (q w = true ↔ s.queued c w))
    (hx : ws .nandTrigger ++ (ws .idle).filter q = x :: T)
    (hentry : env.controllerBusy s.clock c = false)
    (hS : ws .nandStatus = [] ∨ (env.beforeNandReset (s.clock + 1) = 0 ∧
      ∀ w ∈ ws .nandStatus, (env.readyBusy (s.clock + 1) c >>> w) % 2 ≠ 1)) :
    ∃ s', ExeLowLevelReqPerCh env P fuel s c fq = (s', .returned 1) ∧
      (∀ fq', QuietChannel P s' c fq'
        (setWs (setWs (setWs ws .idle ((ws .idle).filter (fun w => !q w))) .nandTrigger T)
          .nandStatus (ws .nandStatus ++ [x]))) ∧
      Rescheduled s s' ∧
      s'.trace = s.trace ++ [.ReadPageTriggerAsync c x (s.headReq c x).rowAddr] ∧
      s'.clock = s.clock + (if ws .nandStatus = [] then 2 else 3) ∧
      (s'.dieStatusTable c x).dieStatus = DS_EXE ∧
      (∀ v, v ≠ x →
        (s'.dieStatusTable c v).dieStatus = (s.dieStatusTable c v).dieStatus) := by
  have hxm : x ∈ ws .nandTrigger ++ (ws .idle).filter q := by
    rw [hx]; exact List.mem_cons_self _ _
  obtain ⟨s1, hI, hws1, hrel1, hq4, hq5⟩ := idleStage_quiet hW hcode env c fq fuel 0 q x s ws
    hfuel hQ.lists hq hQ.idleWays hxm
  rw [hx] at hws1
  have hr1 := hrel1.toRescheduled
  -- the die to be served, in the state after the idle sweep
  have hdie : ∀ v, v ∈ x :: T → (s1.dieStatusTable c v).dieStatus = DS_IDLE ∧
      (s1.dieStatusTable c v).queueSelect = REQ_QUEUE ∧
      (s1.headReq c v).request = P.V2FCommand_ReadPageTrigger := by
    intro v hv
    rw [← hx] at hv
    rw [hrel1.relinkedDieStatus, hr1.reschedHeadReq]
    rcases List.mem_append.mp hv with hv | hv
    · have hni : v ∉ ws .idle := fun hh => by
        have := hQ.lists.disj _ _ v hv hh
        cases this
      rw [hq5 v hni]
      exact hQ.listed v hv
    · obtain ⟨hvi, hvq⟩ := List.mem_filter.mp hv
      have hqv := (hq v hvi).mp hvq
      have ht := hQ.idleWays v hvi hqv
      exact ⟨ht.idle, hq4 v hvi hqv, ht.request⟩
  -- the state after the sweep of the NAND status list
  have hS1 : setWs (setWs ws .idle ((ws .idle).filter (fun w => !q w))) .nandTrigger (x :: T)
      .nandStatus = ws .nandStatus := by
    simp [setWs]
  have hws1t : WayInv P s1.tick c _ none :=
    WayInv_frame ((SameLinks.of_view rfl : SameLinks s1 s1.tick).on c) hws1
  have hst := nandStatusStage_quiet hW env c fuel s1.tick _ hfuel hws1t (by
    rw [hS1]
    show ws .nandStatus = [] ∨ (env.beforeNandReset (s1.clock + 1) = 0 ∧
      ∀ w ∈ ws .nandStatus, (env.readyBusy (s1.clock + 1) c >>> w) % 2 ≠ 1)
    rw [hrel1.relinkedTimes.1]
    exact hS)
  rw [hS1] at hst
  obtain ⟨s3, hs3, hws3, hr3, hc3, ht3, hd3⟩ : ∃ s3,
      nandStatusStage env P fuel c s1.tick = (s3, .fallThrough) ∧
      WayInv P s3 c (setWs (setWs ws .idle ((ws .idle).filter (fun w => !q w)))
        .nandTrigger (x :: T)) none ∧
      Rescheduled s1 s3 ∧ s3.clock = s.clock + (if ws .nandStatus = [] then 1 else 2) ∧
      s3.trace = s.trace ∧ s3.dieStatusTable = s1.dieStatusTable := by
    refine ⟨_, hst, ?_, ?_, ?_, ?_, ?_⟩
    · split_ifs
      · exact hws1t
      · exact WayInv_frame ((SameLinks.of_view rfl : SameLinks s1.tick s1.tick.tick).on c) hws1t
    · split_ifs
      · exact Rescheduled.reschedTick s1
      · exact (Rescheduled.reschedTick s1).reschedTrans (Rescheduled.reschedTick _)
    · split_ifs
      · show s1.clock + 1 = _
        rw [hrel1.relinkedTimes.1]
      · show s1.clock + 1 + 1 = _
        rw [hrel1.relinkedTimes.1]
    · split_ifs
      · exact hrel1.relinkedTimes.2
      · exact hrel1.relinkedTimes.2
    · split_ifs <;> rfl
  -- the sweep of the trigger list
  have hmail3 : ∀ w, w < P.WAY_NUM → (s3.transPageReqQueue c w).valid = 0 := by
    intro w hw
    rw [hr3.reschedRings.2.2.2.2.1, hr1.reschedRings.2.2.2.2.1]
    exact hQ.noMail w hw
  obtain ⟨hd, hqs, hreq⟩ := hdie x (List.mem_cons_self _ _)
  have hxb : x < P.WAY_NUM := hws1.bound .nandTrigger x (by simp [setWs])
  have hfuel0 : 0 < fuel := by omega
  obtain ⟨s6, hsw, hws6, hr6, ht6, hc6, hd6, ho6⟩ := triggerSweep_issue hW hcode env c x fuel T
    s3 _ hfuel0 hws3 (by simp [setWs])
    hmail3 (by rw [hd3]; exact hd) (by rw [hd3]; exact hqs) (by rw [hr3.reschedHeadReq]; exact hreq)
  have hr : Rescheduled s s6 := (hr1.reschedTrans hr3).reschedTrans hr6
  have hws6' : WayInv P s6 c
      (setWs (setWs (setWs ws .idle ((ws .idle).filter (fun w => !q w))) .nandTrigger T)
        .nandStatus (ws .nandStatus ++ [x])) none := by
    have e : (setWs (setWs (setWs ws .idle ((ws .idle).filter (fun w => !q w))) .nandTrigger T)
        .nandStatus (ws .nandStatus ++ [x]))
        = setWs (setWs (setWs (setWs ws .idle ((ws .idle).filter (fun w => !q w)))
            .nandTrigger (x :: T)) .nandTrigger T) .nandStatus
          (setWs (setWs (setWs ws .idle ((ws .idle).filter (fun w => !q w)))
            .nandTrigger (x :: T)) .nandTrigger T .nandStatus ++ [x]) := by
      funext l
      simp only [setWs]
      split_ifs <;> simp_all
    rw [e]
    exact hws6
  have hmail6 : ∀ w, w < P.WAY_NUM → (s6.transPageReqQueue c w).valid = 0 := by
    intro w hw
    rw [hr.reschedRings.2.2.2.2.1]
    exact hQ.noMail w hw
  have hentry3 : env.controllerBusy s1.clock c = false := by
    rw [hrel1.relinkedTimes.1]; exact hentry
  have hothers : ∀ l, l ≠ .idle → l ≠ .nandTrigger → l ≠ .nandStatus →
      (setWs (setWs (setWs ws .idle ((ws .idle).filter (fun w => !q w))) .nandTrigger T)
        .nandStatus (ws .nandStatus ++ [x])) l = [] := by
    intro l h1 h2 h3
    simp only [setWs, if_neg h1, if_neg h2, if_neg h3]
    exact hQ.others l h1 h2 h3
  have hnd : x ∉ T := by
    have := hws1.nodup .nandTrigger
    simp only [setWs, if_true] at this
    exact (List.nodup_cons.mp this).1
  refine ⟨s6, ?_, fun fq' => ⟨hws6', hothers, ?_, hmail6, ?_, ?_⟩, hr, ?_, ?_, hd6, ?_⟩
  · have hN : nandStages env P fuel c s1
        = (s6, if env.controllerBusy s3.clock c then .returned 1 else .fallThrough) := by
      unfold nandStages
      rw [if_neg (by rw [hentry3]; exact Bool.false_ne_true), hs3, andThen_pair_fall, hsw]
      cases hb : env.controllerBusy s3.clock c
      · simp only [Bool.false_eq_true, if_false]
        rw [andThen_pair_fall,
          sweep_empty _ _ _ _ _ (hws6'.headNil (hothers .nandErase (by decide) (by decide)
            (by decide))), andThen_pair_fall,
          sweep_empty _ _ _ _ _ (hws6'.headNil (hothers .nandTrigNTrans (by decide)
            (by decide) (by decide))), andThen_pair_fall,
          sweep_empty _ _ _ _ _ (hws6'.headNil (hothers .nandTransfer (by decide)
            (by decide) (by decide)))]
      · simp only [if_true]
        rw [andThen_pair_returned]
    have hsr : (s1.wayPriorityTable c).head .statusReport = 0xf :=
      hws1.headNil (by
        simp only [setWs]
        exact hQ.others .statusReport (by decide) (by decide) (by decide))
    have hdm : (s1.wayPriorityTable c).head .nvmeDma = 0xf :=
      hws1.headNil (by
        simp only [setWs]
        exact hQ.others .nvmeDma (by decide) (by decide) (by decide))
    unfold ExeLowLevelReqPerCh
    simp only []
    rw [PopFromTransReadReqQueue_idle P s hQ.noReads]
    simp only []
    rw [hI, andThen_pair_fall, statusReportStage_empty env P fuel c fq s1 hsr, andThen_pair_fall,
      sweep_empty _ _ _ _ _ hdm, andThen_pair_fall, hN]
    cases hb : env.controllerBusy s3.clock c
    · simp only [Bool.false_eq_true, if_false]
      rw [andThen_pair_fall, drainFirst_none env P s6 c hmail6]
    · simp only [if_true]
      rw [andThen_pair_returned]
  · rw [hr.reschedRings.2.2.2.2.2]
    exact hQ.noReads
  · intro w hw hqw
    simp only [setWs, if_neg (show WayList.idle ≠ WayList.nandStatus by decide),
      if_neg (show WayList.idle ≠ WayList.nandTrigger by decide), if_true] at hw
    obtain ⟨hwi, hwq⟩ := List.mem_filter.mp hw
    have : q w = true := (hq w hwi).mpr ((hr.reschedQueued c w).mp hqw)
    rw [this] at hwq
    cases hwq
  · intro w hw
    simp only [setWs, if_neg (show WayList.nandTrigger ≠ WayList.nandStatus by decide),
      if_true] at hw
    have hwx : w ≠ x := fun h => hnd (h ▸ hw)
    obtain ⟨h1, h2, h3⟩ := hdie w (List.mem_cons_of_mem _ hw)
    refine ⟨?_, ?_, ?_⟩
    · rw [(ho6 w hwx).1, hd3]; exact h1
    · rw [(ho6 w hwx).2, hd3]; exact h2
    · rw [hr6.reschedHeadReq, hr3.reschedHeadReq]; exact h3
  · rw [ht6, ht3, hr3.reschedHeadReq, hr1.reschedHeadReq]
  · rw [hc6, hc3]
    split_ifs <;> rfl
  · intro v hv
    rw [(ho6 v hv).1, hd3, hrel1.relinkedDieStatus]

theorem blankFW_idleWays (c : Nat) : WayInv exampleParams blankFW c idleWays none := by
  refine ⟨?_, ?_, ?_, ?_, ?_, ?_, ?_⟩
  · intro l
    cases l <;> simp [Fwd, idleWays, blankFW, List.range, List.range.loop]
  · intro l
    cases l <;> simp [Bwd, idleWays, blankFW, List.range, List.range.loop]
  · intro l
    cases l <;> simp [idleWays, List.range, List.range.loop]
  · intro l l' w h1 h2
    cases l <;> cases l' <;> first | rfl | (simp [idleWays] at h1 h2)
  · intro l w hw
    cases l <;> simp [idleWays] at hw
    show w < 8
    exact hw
  · intro w hw
    right
    refine ⟨.idle, ?_⟩
    have : w < 8 := hw
    simp [idleWays, this]
  · intro w hw
    cases hw

theorem twoTriggersFW_idleWays : WayInv exampleParams twoTriggersFW 0 idleWays none :=
  WayInv_frame ((SameLinks.of_view (by simp [twoTriggersFW, chRun, ChOp.step]) :
    SameLinks blankFW twoTriggersFW).on 0) (blankFW_idleWays 0)

/-- C38 fails in the code: a die that retries a request of the sub ring can have
`queueSelect = REQ_QUEUE`. From the blank state, in an environment whose status reports
say fail, the erase of the sub ring of die `(0, 0)` is issued (`DS_SUB_EXE`,
`queueSelect = SUB_REQ_QUEUE`); a read is then pushed to the primary ring; in the next call
the status report fails, the die goes to `DS_SUB_FAIL`, `FindPriorityTable` is called with
`firstQueue = REQ_QUEUE`, finds the primary ring non-empty and sets
`queueSelect = REQ_QUEUE`, and the trigger sweep re-issues the erase: the call returns with
the die in `DS_SUB_REEXE` and `queueSelect = REQ_QUEUE`. -/
theorem retry_of_sub_request_selects_primary_ring :
    (((chRun failcEnv exampleParams blankFW (retryOps.take 3)).dieStatusTable 0 0).dieStatus
        = DS_SUB_EXE
      ∧ ((chRun failcEnv exampleParams blankFW (retryOps.take 3)).dieStatusTable 0 0).queueSelect
        = SUB_REQ_QUEUE
      ∧ (chRun failcEnv exampleParams blankFW (retryOps.take 3)).trace
        = [.EraseBlockAsync 0 0 256, .StatusCheckAsync 0 0 0 0])
    ∧ ((chRun failcEnv exampleParams blankFW retryOps).dieStatusTable 0 0).dieStatus
        = DS_SUB_REEXE
    ∧ ((chRun failcEnv exampleParams blankFW retryOps).dieStatusTable 0 0).queueSelect
        = REQ_QUEUE
    ∧ (chRun failcEnv exampleParams blankFW retryOps).trace
        = [.EraseBlockAsync 0 0 256, .StatusCheckAsync 0 0 0 0, .EraseBlockAsync 0 0 256]
    ∧ (chRun failcEnv exampleParams blankFW retryOps).srqPointer 0 0 = { front := 0, rear := 1 }
    ∧ (chRun failcEnv exampleParams blankFW retryOps).rqPointer 0 0 = { front := 0, rear := 1 }
    ∧ (chRun failcEnv exampleParams blankFW retryOps).halted = false := by
  decide

theorem nextOfQ_set1 (q : Nat → TransReqEntry) (a : Nat) (e : TransReqEntry) :
    nextOfQ (set1 q a e) = set1 (nextOfQ q) a e.next := by
  funext i
  unfold nextOfQ set1
  split_ifs <;> rfl

theorem prevOfQ_set1 (q : Nat → TransReqEntry) (a : Nat) (e : TransReqEntry) :
    prevOfQ (set1 q a e) = set1 (prevOfQ q) a e.prev := by
  funext i
  unfold prevOfQ set1
  split_ifs <;> rfl

theorem nextOfQ_keep (q : Nat → TransReqEntry) (a : Nat) (e : TransReqEntry)
    (h : e.next = (q a).next) : nextOfQ (set1 q a e) = nextOfQ q := by
  rw [nextOfQ_set1, h]
  exact set1_self (nextOfQ q) a

theorem prevOfQ_keep (q : Nat → TransReqEntry) (a : Nat) (e : TransReqEntry)
    (h : e.prev = (q a).prev) : prevOfQ (set1 q a e) = prevOfQ q := by
  rw [prevOfQ_set1, h]
  exact set1_self (prevOfQ q) a

theorem nextOfQ_setNext (q : Nat → TransReqEntry) (a v : Nat) :
    nextOfQ (set1 q a { (q a) with next := v }) = set1 (nextOfQ q) a v :=
  nextOfQ_set1 q a _

theorem nextOfQ_setPrev (q : Nat → TransReqEntry) (a v : Nat) :
    nextOfQ (set1 q a { (q a) with prev := v }) = nextOfQ q :=
  nextOfQ_keep q a _ rfl

theorem prevOfQ_setPrev (q : Nat → TransReqEntry) (a v : Nat) :
    prevOfQ (set1 q a { (q a) with prev := v }) = set1 (prevOfQ q) a v :=
  prevOfQ_set1 q a _

theorem prevOfQ_setNext (q : Nat → TransReqEntry) (a v : Nat) :
    prevOfQ (set1 q a { (q a) with next := v }) = prevOfQ q :=
  prevOfQ_keep q a _ rfl

theorem ite_next (c : Prop) [Decidable c] (Q Q' : Nat → TransReqEntry) (i : Nat) :
    ((if c then Q else Q') i).next = (if c then nextOfQ Q else nextOfQ Q') i := by
  split_ifs <;> rfl

theorem ite_prev (c : Prop) [Decidable c] (Q Q' : Nat → TransReqEntry) (i : Nat) :
    ((if c then Q else Q') i).prev = (if c then prevOfQ Q else prevOfQ Q') i := by
  split_ifs <;> rfl

theorem retireSlot_ptr (q : Nat → TransReqEntry) (p : TransRqPointerEntry) :
    (retireSlot q p).2 = (retireLinks (nextOfQ q) (prevOfQ q) p).2.2 := rfl

theorem retireSlot_next (q : Nat → TransReqEntry) (p : TransRqPointerEntry) :
    nextOfQ (retireSlot q p).1 = (retireLinks (nextOfQ q) (prevOfQ q) p).1 := by
  unfold retireSlot retireLinks
  simp only []
  simp only [nextOfQ_setNext, nextOfQ_setPrev, prevOfQ_setPrev,
    prevOfQ_setNext, apply_ite nextOfQ, apply_ite prevOfQ, ite_self]
  rfl

theorem retireSlot_prev (q : Nat → TransReqEntry) (p : TransRqPointerEntry) :
    prevOfQ (retireSlot q p).1 = (retireLinks (nextOfQ q) (prevOfQ q) p).2.1 := by
  unfold retireSlot retireLinks
  simp only []
  simp only [nextOfQ_setNext, nextOfQ_setPrev, prevOfQ_setPrev,
    prevOfQ_setNext, apply_ite nextOfQ, apply_ite prevOfQ, ite_self]
  simp only [ite_next, ite_prev, nextOfQ_setNext, nextOfQ_setPrev, prevOfQ_setPrev,
    prevOfQ_setNext, ite_self]
  rfl
theorem linkSlot_pass (q : Nat → TransReqEntry) (p : TransRqPointerEntry)
    (h : ¬ (p.availtail = p.availhead ∧ (q p.availhead).next ≠ 0xffff)) :
    (linkSlot q p).2.2 = true ∧
    (linkSlot q p).2.1 = (linkLinks (nextOfQ q) (prevOfQ q) p).2.2 ∧
    nextOfQ (linkSlot q p).1 = (linkLinks (nextOfQ q) (prevOfQ q) p).1 ∧
    prevOfQ (linkSlot q p).1 = (linkLinks (nextOfQ q) (prevOfQ q) p).2.1 := by
  have hc : ¬ (p.availtail = p.availhead ∧
      (if p.availtail = p.availhead then { p with availtail := (q p.availhead).next }
        else p).availtail ≠ 0xffff) := by
    intro hc
    apply h
    refine ⟨hc.1, ?_⟩
    have := hc.2
    rw [if_pos hc.1] at this
    exact this
  unfold linkSlot linkLinks
  simp only []
  rw [if_neg hc]
  refine ⟨rfl, rfl, ?_, ?_⟩
  · simp only [nextOfQ_setNext, nextOfQ_setPrev, prevOfQ_setPrev,
      prevOfQ_setNext, apply_ite nextOfQ, apply_ite prevOfQ, ite_self]
    rfl
  · simp only [nextOfQ_setNext, nextOfQ_setPrev, prevOfQ_setPrev,
      prevOfQ_setNext, apply_ite nextOfQ, apply_ite prevOfQ, ite_self]
    rfl

theorem retireLinks_next (nxt prv : Nat → Nat) (p : TransRqPointerEntry) :
    (retireLinks nxt prv p).1
      = if p.availtail ≠ 0xffff then
          set1 (set1 (if prv p.current ≠ 0xffff then set1 nxt (prv p.current) (nxt p.current)
            else nxt) p.current 0xffff) p.availtail (p.current % 2 ^ 16)
        else set1 (if prv p.current ≠ 0xffff then set1 nxt (prv p.current) (nxt p.current)
            else nxt) p.current 0xffff := by
  unfold retireLinks
  simp only []
  split_ifs <;> rfl

theorem retireLinks_prev (nxt prv : Nat → Nat) (p : TransRqPointerEntry) :
    (retireLinks nxt prv p).2.1
      = set1 (if (if prv p.current ≠ 0xffff then set1 nxt (prv p.current) (nxt p.current)
            else nxt) p.current ≠ 0xffff then
          set1 prv ((if prv p.current ≠ 0xffff then set1 nxt (prv p.current) (nxt p.current)
            else nxt) p.current) (prv p.current)
          else prv) p.current p.availtail := by
  unfold retireLinks
  simp only []
  split_ifs <;> rfl

theorem retireLinks_ptr (nxt prv : Nat → Nat) (p : TransRqPointerEntry) :
    (retireLinks nxt prv p).2.2
      = { head := if p.head = p.current then nxt p.current else p.head
          tail := if p.tail = p.current then prv p.current else p.tail
          current :=
            if p.tail = p.current then (if p.head = p.current then nxt p.current else p.head)
            else nxt p.current
          availhead := if p.availhead = 0xffff then p.current % 2 ^ 16 else p.availhead
          availtail := p.current % 2 ^ 16 } := by
  unfold retireLinks
  simp only []
  split_ifs <;> rfl

theorem mem_ne_of_nodup_middle {pre post : List Nat} {w x : Nat}
    (hnd : (pre ++ w :: post).Nodup) (hx : x ∈ pre ++ post) : x ≠ w := by
  intro hxw
  rw [hxw] at hx
  exact (List.nodup_cons.1 (List.nodup_middle.1 hnd)).1 hx

theorem mem_retire_iff (pre post free : List Nat) (w i : Nat) :
    i ∈ (pre ++ post) ++ (free ++ [w]) ↔ i ∈ (pre ++ w :: post) ++ free := by
  simp only [List.mem_append, List.mem_cons, List.mem_singleton, List.not_mem_nil, or_false]
  tauto

theorem retireLinks_inv (N : Nat) (hN : N ≤ 0xffff) (nxt prv : Nat → Nat)
    (p : TransRqPointerEntry) (pre post free : List Nat)
    (h : TransLinks N nxt prv p (pre ++ p.current :: post) free) :
    TransLinks N (retireLinks nxt prv p).1 (retireLinks nxt prv p).2.1
      (retireLinks nxt prv p).2.2 (pre ++ post) (free ++ [p.current]) ∧
    (retireLinks nxt prv p).2.2.current = (post ++ pre).headD 0xffff := by
  obtain ⟨hfwd, hbwd, hffwd, hflast, hnd, hbound, hcover, -, -⟩ := h
  have hslt : p.current < N :=
    hbound _ (List.mem_append_left _ (List.mem_append_right _ (List.mem_cons_self _ _)))
  have hs16 : p.current % 2 ^ 16 = p.current := Nat.mod_eq_of_lt (by omega)
  have hne : ∀ i, i ∈ (pre ++ p.current :: post) ++ free → i ≠ 0xffff := by
    intro i hi
    have := hbound i hi
    omega
  have hnd1 : (pre ++ p.current :: post).Nodup := (List.nodup_append.1 hnd).1
  have hndf : free.Nodup := (List.nodup_append.1 hnd).2.1
  have hdisj : ∀ x, x ∈ pre ++ p.current :: post → x ∉ free := by
    intro x hx hxf
    exact (List.nodup_append.1 hnd).2.2 hx hxf
  have hnd2 : (pre ++ post).Nodup := (List.nodup_cons.1 (List.nodup_middle.1 hnd1)).2
  have hs_act : p.current ∉ pre ++ post := (List.nodup_cons.1 (List.nodup_middle.1 hnd1)).1
  have hs_free : p.current ∉ free :=
    hdisj _ (List.mem_append_right _ (List.mem_cons_self _ _))
  have hact_free : ∀ x, x ∈ pre ++ post → x ∉ free := by
    intro x hx
    apply hdisj
    rcases List.mem_append.1 hx with hx | hx
    · exact List.mem_append_left _ hx
    · exact List.mem_append_right _ (List.mem_cons_of_mem _ hx)
  -- the neighbours of the slot
  obtain ⟨m, hf1, hf2⟩ := (Fwd_append nxt pre (p.current :: post) p.head 0xffff).1 hfwd
  have hnxt : nxt p.current = post.headD 0xffff := Fwd_head nxt post _ _ hf2.2
  obtain ⟨m', hb1, hb2⟩ := (Bwd_append prv pre (p.current :: post) 0xffff p.tail).1 hbwd
  have hprv : prv p.current = pre.getLastD 0xffff := by
    rw [hb2.1]
    exact Bwd_last prv pre _ _ hb1
  have htl : p.tail = post.getLastD p.current := Bwd_last prv post _ _ hb2.2
  have hhd : p.head = (pre ++ p.current :: post).headD 0xffff := Fwd_head nxt _ _ _ hfwd
  have hhead : p.head = p.current ↔ pre = [] := by
    constructor
    · intro hh
      cases pre with
      | nil => rfl
      | cons a pre' =>
        exfalso
        rw [hh] at hhd
        simp at hhd
        apply hs_act
        rw [hhd]
        simp
    · intro hp
      rw [hhd, hp]
      rfl
  have htail : p.tail = p.current ↔ post = [] := by
    constructor
    · intro ht
      by_contra hpost
      have := getLastD_mem_of_ne_nil post p.current hpost
      rw [← htl, ht] at this
      exact hs_act (List.mem_append_right _ this)
    · intro hp
      rw [htl, hp]
      rfl
  have hc1 : prv p.current ≠ 0xffff ↔ pre ≠ [] := by
    rw [hprv]
    constructor
    · intro hh hp
      rw [hp] at hh
      exact hh rfl
    · intro hp
      exact hne _ (List.mem_append_left _ (List.mem_append_left _
        (getLastD_mem_of_ne_nil pre 0xffff hp)))
  have hprv_ne : pre ≠ [] → prv p.current ≠ p.current := by
    intro hp hh
    apply hs_act
    rw [← hh, hprv]
    exact List.mem_append_left _ (getLastD_mem_of_ne_nil pre 0xffff hp)
  have hn1s : (if prv p.current ≠ 0xffff then set1 nxt (prv p.current) (nxt p.current)
      else nxt) p.current = nxt p.current := by
    split_ifs with hc
    · exact set1_ne _ _ (Ne.symm (hprv_ne (hc1.1 hc)))
    · rfl
  have hc2 : nxt p.current ≠ 0xffff ↔ post ≠ [] := by
    rw [hnxt]
    constructor
    · intro hh hp
      rw [hp] at hh
      exact hh rfl
    · intro hp
      cases post with
      | nil => exact absurd rfl hp
      | cons b post' =>
        exact hne b (by simp)
  have hfree_nil : free = [] ↔ p.availtail = 0xffff := by
    constructor
    · intro hf
      rw [hflast, hf]
      rfl
    · intro ha
      by_contra hf
      have := getLastD_mem_of_ne_nil free 0xffff hf
      rw [← hflast, ha] at this
      exact hne _ (List.mem_append_right _ this) rfl
  have havh : p.availhead = free.headD 0xffff := Fwd_head nxt free _ _ hffwd
  have hfree_nil' : free = [] ↔ p.availhead = 0xffff := by
    constructor
    · intro hf
      rw [havh, hf]
      rfl
    · intro ha
      cases free with
      | nil => rfl
      | cons c free' =>
        exfalso
        rw [havh] at ha
        exact hne c (by simp) ha
  -- the active list, forwards
  have hA : Fwd (if prv p.current ≠ 0xffff then set1 nxt (prv p.current) (nxt p.current)
      else nxt) (if p.head = p.current then nxt p.current else p.head) (pre ++ post) 0xffff := by
    by_cases hp : pre = []
    · rw [if_neg (fun hc => hc1.1 hc hp), if_pos (hhead.2 hp)]
      have := (Fwd_remove nxt pre post p.current p.head 0xffff hfwd hnd1).1 hp
      rw [hp]
      exact this
    · rw [if_pos (hc1.2 hp), if_neg (fun hc => hp (hhead.1 hc)), hprv]
      exact (Fwd_remove nxt pre post p.current p.head 0xffff hfwd hnd1).2 _
        (getLast?_of_getLastD pre 0xffff hp)
  -- the active list, backwards
  have hB : Bwd (if nxt p.current ≠ 0xffff then set1 prv (nxt p.current) (prv p.current)
      else prv) 0xffff (pre ++ post) (if p.tail = p.current then prv p.current else p.tail) := by
    by_cases hp : post = []
    · rw [if_neg (fun hc => hc2.1 hc hp), if_pos (htail.2 hp)]
      have := (Bwd_remove prv pre post p.current 0xffff p.tail hbwd hnd1).1 hp
      rw [hp, List.append_nil]
      exact this
    · rw [if_pos (hc2.2 hp), if_neg (fun hc => hp (htail.1 hc)), hnxt]
      refine (Bwd_remove prv pre post p.current 0xffff p.tail hbwd hnd1).2 _ ?_
      cases post with
      | nil => exact absurd rfl hp
      | cons b post' => rfl
  -- the free list
  have hF0 : Fwd (if prv p.current ≠ 0xffff then set1 nxt (prv p.current) (nxt p.current)
      else nxt) p.availhead free 0xffff := by
    refine (Fwd_congr nxt _ free _ _ ?_).2 hffwd
    intro w hw
    split_ifs with hc
    · apply set1_ne
      intro hwe
      have hp := hc1.1 hc
      have : prv p.current ∈ pre := by
        rw [hprv]
        exact getLastD_mem_of_ne_nil pre 0xffff hp
      rw [← hwe] at this
      exact hdisj w (List.mem_append_left _ this) hw
    · rfl
  have hF := Fwd_snoc _ free p.current p.availhead 0xffff hF0 hs_free hndf
  rw [retireLinks_next, retireLinks_prev, retireLinks_ptr, hn1s, hs16]
  refine ⟨⟨?_, ?_, ?_, ?_, ?_, ?_, ?_, ?_, ?_⟩, ?_⟩
  · -- fwd
    refine (Fwd_congr _ _ (pre ++ post) _ _ ?_).2 hA
    intro w hw
    have hws : w ≠ p.current := fun hh => hs_act (hh ▸ hw)
    by_cases hc : p.availtail ≠ 0xffff
    · have hfne : free ≠ [] := fun hf => hc (hfree_nil.1 hf)
      have hwa : w ≠ p.availtail := by
        intro hh
        apply hact_free w hw
        rw [hh, hflast]
        exact getLastD_mem_of_ne_nil free 0xffff hfne
      rw [if_pos hc, set1_ne _ _ hwa, set1_ne _ _ hws]
    · rw [if_neg hc, set1_ne _ _ hws]
  · -- bwd
    refine (Bwd_congr _ _ (pre ++ post) _ _ ?_).2 hB
    intro w hw
    have hws : w ≠ p.current := fun hh => hs_act (hh ▸ hw)
    rw [set1_ne _ _ hws]
  · -- free list
    by_cases hf : free = []
    · have ha := hfree_nil.1 hf
      have ha' := hfree_nil'.1 hf
      rw [if_neg (fun hc => hc ha)]
      show Fwd _ (if p.availhead = 0xffff then p.current else p.availhead) _ _
      rw [if_pos ha']
      exact hF.1 hf
    · have ha : p.availtail ≠ 0xffff := fun hh => hf (hfree_nil.2 hh)
      have ha' : p.availhead ≠ 0xffff := fun hh => hf (hfree_nil'.2 hh)
      rw [if_pos ha]
      show Fwd _ (if p.availhead = 0xffff then p.current else p.availhead) _ _
      rw [if_neg ha', hflast]
      exact hF.2 _ (getLast?_of_getLastD free 0xffff hf)
  · -- availtail
    show p.current = (free ++ [p.current]).getLastD 0xffff
    simp
  · -- nodup
    rw [List.nodup_append]
    refine ⟨hnd2, ?_, ?_⟩
    · rw [List.nodup_append]
      refine ⟨hndf, List.nodup_singleton _, ?_⟩
      intro x hx hx'
      rw [List.mem_singleton] at hx'
      exact hs_free (hx' ▸ hx)
    · intro x hx hx'
      rcases List.mem_append.1 hx' with h1 | h1
      · exact hact_free x hx h1
      · rw [List.mem_singleton] at h1
        exact hs_act (h1 ▸ hx)
  · -- bound
    intro i hi
    exact hbound i ((mem_retire_iff pre post free p.current i).1 hi)
  · -- cover
    intro i hi
    exact (mem_retire_iff pre post free p.current i).2 (hcover i hi)
  · -- current, empty list
    intro hnil
    have hp : pre = [] := (List.append_eq_nil.1 hnil).1
    have hq : post = [] := (List.append_eq_nil.1 hnil).2
    show (if p.tail = p.current then (if p.head = p.current then nxt p.current else p.head)
      else nxt p.current) = 0xffff
    rw [if_pos (htail.2 hq), if_pos (hhead.2 hp), hnxt, hq]
    rfl
  · -- current, member
    intro hnn
    show (if p.tail = p.current then (if p.head = p.current then nxt p.current else p.head)
      else nxt p.current) ∈ pre ++ post
    by_cases hq : post = []
    · have hp : pre ≠ [] := by
        intro hp
        apply hnn
        rw [hp, hq]
        rfl
      rw [if_pos (htail.2 hq), if_neg (fun hc => hp (hhead.1 hc)), hhd]
      cases pre with
      | nil => exact absurd rfl hp
      | cons a pre' => simp
    · rw [if_neg (fun hc => hq (htail.1 hc)), hnxt]
      cases post with
      | nil => exact absurd rfl hq
      | cons b post' => simp
  · -- the new current
    show (if p.tail = p.current then (if p.head = p.current then nxt p.current else p.head)
      else nxt p.current) = (post ++ pre).headD 0xffff
    by_cases hq : post = []
    · rw [if_pos (htail.2 hq), hq, List.nil_append]
      by_cases hp : pre = []
      · rw [if_pos (hhead.2 hp), hnxt, hq, hp]
      · rw [if_neg (fun hc => hp (hhead.1 hc)), hhd]
        cases pre with
        | nil => exact absurd rfl hp
        | cons a pre' => rfl
    · rw [if_neg (fun hc => hq (htail.1 hc)), hnxt]
      cases post with
      | nil => exact absurd rfl hq
      | cons b post' => rfl

theorem linkLinks_next (nxt prv : Nat → Nat) (p : TransRqPointerEntry) :
    (linkLinks nxt prv p).1
      = if p.tail ≠ 0xffff then
          set1 (set1 nxt p.availhead 0xffff) p.tail (p.availhead % 2 ^ 16)
        else set1 nxt p.availhead 0xffff := by
  unfold linkLinks
  simp only []
  split_ifs <;> rfl

theorem linkLinks_prev (nxt prv : Nat → Nat) (p : TransRqPointerEntry) :
    (linkLinks nxt prv p).2.1 = set1 prv p.availhead p.tail := by
  unfold linkLinks
  simp only []
  split_ifs <;> rfl

theorem linkLinks_ptr (nxt prv : Nat → Nat) (p : TransRqPointerEntry) :
    (linkLinks nxt prv p).2.2
      = { head := if p.head = 0xffff then p.availhead % 2 ^ 16 else p.head
          tail := p.availhead % 2 ^ 16
          current := if p.head = 0xffff then p.availhead % 2 ^ 16 else p.current
          availhead := nxt p.availhead
          availtail := if p.availtail = p.availhead then nxt p.availhead else p.availtail } := by
  unfold linkLinks
  simp only []
  split_ifs <;> rfl

theorem getLastD_of_ne_nil (l : List Nat) (a b : Nat) (h : l ≠ []) :
    l.getLastD a = l.getLastD b := by
  cases l with
  | nil => exact absurd rfl h
  | cons c r => rw [List.getLastD_cons, List.getLastD_cons]

theorem linkLinks_inv (N : Nat) (hN : N ≤ 0xffff) (nxt prv : Nat → Nat)
    (p : TransRqPointerEntry) (act free : List Nat)
    (h : TransLinks N nxt prv p act (p.availhead :: free)) :
    TransLinks N (linkLinks nxt prv p).1 (linkLinks nxt prv p).2.1 (linkLinks nxt prv p).2.2
      (act ++ [p.availhead]) free ∧
    ¬ (p.availtail = p.availhead ∧ nxt p.availhead ≠ 0xffff) := by
  obtain ⟨hfwd, hbwd, hffwd, hflast, hnd, hbound, hcover, hcn, hcm⟩ := h
  have hlist : (act ++ [p.availhead]) ++ free = act ++ p.availhead :: free := by
    rw [List.append_assoc, List.singleton_append]
  have hslt : p.availhead < N :=
    hbound _ (List.mem_append_right _ (List.mem_cons_self _ _))
  have hs16 : p.availhead % 2 ^ 16 = p.availhead := Nat.mod_eq_of_lt (by omega)
  have hne : ∀ i, i ∈ act ++ p.availhead :: free → i ≠ 0xffff := by
    intro i hi
    have := hbound i hi
    omega
  have hnda : act.Nodup := (List.nodup_append.1 hnd).1
  have hndc : (p.availhead :: (act ++ free)).Nodup := List.nodup_middle.1 hnd
  have hs_af : p.availhead ∉ act ++ free := (List.nodup_cons.1 hndc).1
  have hs_act : p.availhead ∉ act := fun hh => hs_af (List.mem_append_left _ hh)
  have hs_free : p.availhead ∉ free := fun hh => hs_af (List.mem_append_right _ hh)
  have hact_free : ∀ x, x ∈ act → x ∉ free := by
    intro x hx hxf
    exact (List.nodup_append.1 (List.nodup_cons.1 hndc).2).2.2 hx hxf
  have hnxt : nxt p.availhead = free.headD 0xffff := Fwd_head nxt free _ _ hffwd.2
  have htl : p.tail = act.getLastD 0xffff := Bwd_last prv act _ _ hbwd
  have hhd : p.head = act.headD 0xffff := Fwd_head nxt act _ _ hfwd
  have hhead : p.head = 0xffff ↔ act = [] := by
    constructor
    · intro hh
      cases act with
      | nil => rfl
      | cons a act' =>
        exfalso
        rw [hhd] at hh
        exact hne a (List.mem_append_left _ (List.mem_cons_self _ _)) hh
    · intro ha
      rw [hhd, ha]
      rfl
  have htail : p.tail = 0xffff ↔ act = [] := by
    constructor
    · intro hh
      by_contra ha
      have := getLastD_mem_of_ne_nil act 0xffff ha
      rw [← htl, hh] at this
      exact hne _ (List.mem_append_left _ this) rfl
    · intro ha
      rw [htl, ha]
      rfl
  have hav : p.availtail = p.availhead ↔ free = [] := by
    constructor
    · intro hh
      by_contra hf
      have h1 : p.availtail = free.getLastD p.availhead := by
        rw [hflast, List.getLastD_cons]
      have := getLastD_mem_of_ne_nil free p.availhead hf
      rw [← h1, hh] at this
      exact hs_free this
    · intro hf
      rw [hflast, hf]
      rfl
  have hassert : ¬ (p.availtail = p.availhead ∧ nxt p.availhead ≠ 0xffff) := by
    intro hc
    apply hc.2
    rw [hnxt, hav.1 hc.1]
    rfl
  refine ⟨?_, hassert⟩
  have hS := Fwd_snoc nxt act p.availhead p.head 0xffff hfwd hs_act hnda
  have hT := Bwd_snoc prv act p.availhead 0xffff p.tail hbwd hs_act
  rw [linkLinks_next, linkLinks_prev, linkLinks_ptr, hs16]
  refine ⟨?_, ?_, ?_, ?_, ?_, ?_, ?_, ?_, ?_⟩
  · -- fwd
    by_cases ha : act = []
    · rw [if_neg (fun hc => hc (htail.2 ha))]
      show Fwd _ (if p.head = 0xffff then p.availhead else p.head) _ _
      rw [if_pos (hhead.2 ha)]
      exact hS.1 ha
    · rw [if_pos (fun hc => ha (htail.1 hc))]
      show Fwd _ (if p.head = 0xffff then p.availhead else p.head) _ _
      rw [if_neg (fun hc => ha (hhead.1 hc)), htl]
      exact hS.2 _ (getLast?_of_getLastD act 0xffff ha)
  · -- bwd
    exact hT
  · -- free list
    show Fwd _ (nxt p.availhead) free 0xffff
    refine (Fwd_congr nxt _ free _ _ ?_).2 hffwd.2
    intro w hw
    have hws : w ≠ p.availhead := fun hh => hs_free (hh ▸ hw)
    by_cases hc : p.tail ≠ 0xffff
    · have ha : act ≠ [] := fun ha => hc (htail.2 ha)
      have hwt : w ≠ p.tail := by
        intro hh
        apply hact_free (p.tail) _ (hh ▸ hw)
        rw [htl]
        exact getLastD_mem_of_ne_nil act 0xffff ha
      rw [if_pos hc, set1_ne _ _ hwt, set1_ne _ _ hws]
    · rw [if_neg hc, set1_ne _ _ hws]
  · -- availtail
    show (if p.availtail = p.availhead then nxt p.availhead else p.availtail)
      = free.getLastD 0xffff
    by_cases hf : free = []
    · rw [if_pos (hav.2 hf), hnxt, hf]
      rfl
    · rw [if_neg (fun hc => hf (hav.1 hc)), hflast, List.getLastD_cons]
      exact getLastD_of_ne_nil free _ _ hf
  · rw [hlist]
    exact hnd
  · rw [hlist]
    exact hbound
  · rw [hlist]
    exact hcover
  · intro hnil
    exact absurd hnil (by simp)
  · intro _
    show (if p.head = 0xffff then p.availhead else p.current) ∈ act ++ [p.availhead]
    by_cases ha : act = []
    · rw [if_pos (hhead.2 ha)]
      simp
    · rw [if_neg (fun hc => ha (hhead.1 hc))]
      exact List.mem_append_left _ (hcm ha)

theorem rotate_inv (N : Nat) (nxt prv : Nat → Nat)
    (p : TransRqPointerEntry) (pre post free : List Nat)
    (h : TransLinks N nxt prv p (pre ++ p.current :: post) free) :
    TransLinks N nxt prv
      (if p.current = p.tail then { p with current := p.head }
        else { p with current := nxt p.current }) (pre ++ p.current :: post) free ∧
    (if p.current = p.tail then { p with current := p.head }
        else { p with current := nxt p.current }).current
      = (post ++ pre ++ [p.current]).headD 0xffff := by
  obtain ⟨hfwd, hbwd, hffwd, hflast, hnd, hbound, hcover, hcn, hcm⟩ := h
  have hnd1 : (pre ++ p.current :: post).Nodup := (List.nodup_append.1 hnd).1
  have hs_act : p.current ∉ pre ++ post := (List.nodup_cons.1 (List.nodup_middle.1 hnd1)).1
  obtain ⟨m, hf1, hf2⟩ := (Fwd_append nxt pre (p.current :: post) p.head 0xffff).1 hfwd
  have hnxt : nxt p.current = post.headD 0xffff := Fwd_head nxt post _ _ hf2.2
  obtain ⟨m', hb1, hb2⟩ := (Bwd_append prv pre (p.current :: post) 0xffff p.tail).1 hbwd
  have htl : p.tail = post.getLastD p.current := Bwd_last prv post _ _ hb2.2
  have hhd : p.head = (pre ++ p.current :: post).headD 0xffff := Fwd_head nxt _ _ _ hfwd
  have htail : p.current = p.tail ↔ post = [] := by
    constructor
    · intro ht
      by_contra hpost
      have := getLastD_mem_of_ne_nil post p.current hpost
      rw [← htl, ← ht] at this
      exact hs_act (List.mem_append_right _ this)
    · intro hp
      rw [htl, hp]
      rfl
  have hcur : (if p.current = p.tail then { p with current := p.head }
        else { p with current := nxt p.current }).current
      = (post ++ pre ++ [p.current]).headD 0xffff := by
    by_cases hq : post = []
    · rw [if_pos (htail.2 hq), hq, List.nil_append]
      show p.head = _
      rw [hhd, hq]
    · rw [if_neg (fun hc => hq (htail.1 hc))]
      show nxt p.current = _
      rw [hnxt]
      cases post with
      | nil => exact absurd rfl hq
      | cons b post' => rfl
  refine ⟨⟨?_, ?_, ?_, ?_, hnd, hbound, hcover, ?_, ?_⟩, hcur⟩
  · split_ifs <;> exact hfwd
  · split_ifs <;> exact hbwd
  · split_ifs <;> exact hffwd
  · split_ifs <;> exact hflast
  · intro hnil
    exact absurd hnil (by simp)
  · intro _
    rw [hcur]
    by_cases hq : post = []
    · rw [hq, List.nil_append]
      cases pre with
      | nil => simp
      | cons a pre' => simp
    · cases post with
      | nil => exact absurd rfl hq
      | cons b post' => simp

/-! ### The translation lists are touched by the push and pop functions only -/

@[simp] theorem transLists_mk (a1 : Nat → Nat → Nat → ReqEntry)
    (a2 : Nat → Nat → RqPointerEntry)
    (a3 : Nat → Nat → Nat → SubReqEntry) (a4 : Nat → Nat → RqPointerEntry)
    (a5 : Nat → Nat → DieStatusEntry) (a6 : Nat → Nat → Nat → Nat) (a7 : Nat → Nat → Int)
    (a8 : Nat → WayPriorityEntry) (a9 : Nat → Nat → TransPageReqEntry)
    (a10 a11 : Nat → TransReqEntry) (a12 a13 : TransRqPointerEntry) (a14 a15 : Nat)
    (a16 : Nat → TransConfig) (a17 : Nat → TransBufEntry) (a18 : Nat × Nat)
    (a19 : Nat → TransEmbedCacheEntry α) (a20 : Nat → α) (a21 a22 : Nat) (a23 : Nat → BufEntry)
    (a24 : Nat → BufLruEntry) (a25 : Nat) (a26 : List Event) (a27 : Bool) :
    transLists (FW.mk a1 a2 a3 a4 a5 a6 a7 a8 a9 a10 a11 a12 a13 a14 a15 a16 a17 a18 a19 a20
      a21 a22 a23 a24 a25 a26 a27) = (a10, a12, a11, a13) := rfl

@[simp] theorem transLists_fold (s : FW α) :
    (s.transReqQueue, s.transRqPointer, s.transReadReqQueue, s.transReadRqPointer)
      = transLists s := rfl

@[simp] theorem transLists_emit (s : FW α) (e : Event) :
    transLists (s.emit e) = transLists s := rfl
@[simp] theorem transLists_tick (s : FW α) : transLists s.tick = transLists s := rfl
@[simp] theorem transLists_modReq (s : FW α) (a b c : Nat) (f : ReqEntry → ReqEntry) :
    transLists (s.modReq a b c f) = transLists s := rfl
@[simp] theorem transLists_modRq (s : FW α) (b c : Nat) (f : RqPointerEntry → RqPointerEntry) :
    transLists (s.modRq b c f) = transLists s := rfl
@[simp] theorem transLists_modBuf (s : FW α) (b : Nat) (f : BufEntry → BufEntry) :
    transLists (s.modBuf b f) = transLists s := rfl
@[simp] theorem transLists_modDie (s : FW α) (b c : Nat) (f : DieStatusEntry → DieStatusEntry) :
    transLists (s.modDie b c f) = transLists s := rfl
@[simp] theorem transLists_modSubReq (s : FW α) (a b c : Nat) (f : SubReqEntry → SubReqEntry) :
    transLists (s.modSubReq a b c f) = transLists s := rfl
@[simp] theorem transLists_modSrq (s : FW α) (b c : Nat) (f : RqPointerEntry → RqPointerEntry) :
    transLists (s.modSrq b c f) = transLists s := rfl
@[simp] theorem transLists_modMailbox (s : FW α) (b c : Nat)
    (f : TransPageReqEntry → TransPageReqEntry) :
    transLists (s.modMailbox b c f) = transLists s := rfl
@[simp] theorem transLists_modWayPriority (s : FW α) (b : Nat)
    (f : WayPriorityEntry → WayPriorityEntry) :
    transLists (s.modWayPriority b f) = transLists s := rfl
@[simp] theorem transLists_modTransMap (s : FW α) (b : Nat) (f : TransBufEntry → TransBufEntry) :
    transLists (s.modTransMap b f) = transLists s := rfl

@[simp] theorem transLists_translatePage [Add α] (P : Params) (s : FW α) (e : Nat)
    (page : Nat → α) (j : Nat) : transLists (translatePage P s e page j) = transLists s := by
  obtain ⟨c, b, m, h⟩ := translatePage_frame P s e page j
  rw [h]
  rfl

@[simp] theorem transLists_PushToReqQueueNonBlocking (P : Params) (s : FW α)
    (cmd : LowLevelReqInfo) (openSlots : Nat) :
    transLists (PushToReqQueueNonBlocking P s cmd openSlots).1 = transLists s := by
  unfold PushToReqQueueNonBlocking
  simp only []
  split_ifs <;> simp

@[simp] theorem transLists_readPageToTranslateNonBlocking [Add α] (env : Env α)
    (P : Params) (s : FW α) (entryIdx lpa page_idx : Nat) :
    transLists (readPageToTranslateNonBlocking env P s entryIdx lpa page_idx).1
      = transLists s := by
  unfold readPageToTranslateNonBlocking
  simp only []
  split_ifs <;> simp

theorem transLists_translatePagesFrom [Add α] (env : Env α) (P : Params) (entryIdx : Nat)
    (fuel : Nat) (s : FW α) (page : Nat) :
    transLists (translatePagesFrom env P entryIdx fuel s page).1 = transLists s := by
  induction fuel generalizing s page with
  | zero => rfl
  | succ n ih =>
    unfold translatePagesFrom
    simp only []
    split_ifs
    · simp
    · rw [ih]; simp
    · rfl

@[simp] theorem transLists_translatePagesNonBlocking [Add α] (env : Env α) (P : Params)
    (s : FW α) (entryIdx nextPageIdx : Nat) :
    transLists (translatePagesNonBlocking env P s entryIdx nextPageIdx).1 = transLists s := by
  unfold translatePagesNonBlocking
  exact transLists_translatePagesFrom env P entryIdx _ s nextPageIdx

@[simp] theorem transLists_ConfigureTransBufEntry [Add α] [Zero α] (P : Params) (s : FW α)
    (e : Nat) : transLists (ConfigureTransBufEntry P s e) = transLists s := by
  unfold ConfigureTransBufEntry
  simp only [transLists_modTransMap, transLists_mk, transLists_fold]
  have h1 : ∀ n (t : FW α), transLists (forRange n (fun i (st : FW α) =>
      st.modTransMap e (fun x =>
      { x with
        perResultSectorCompletedEmbeddings := set1 x.perResultSectorCompletedEmbeddings i 0
        perResultSectorInputEmbeddings := set1 x.perResultSectorInputEmbeddings i 0 })) t)
      = transLists t := by
    intro n t
    refine forRange_induction (fun st : FW α => transLists st = transLists t) _ _ _ rfl ?_
    intro i st hi h
    rw [transLists_modTransMap]
    exact h
  have h2 : ∀ n (t : FW α × ConfigLocals),
      transLists (forRange n (configurePair P e) t).1 = transLists t.1 := by
    intro n t
    refine forRange_induction (fun st : FW α × ConfigLocals => transLists st.1 = transLists t.1)
      _ _ _ rfl ?_
    intro i st hi h
    rw [← h]
    unfold configurePair
    simp only []
    split_ifs <;> simp
  rw [h2]
  simp only [transLists_modTransMap]
  rw [h1]
  simp

@[simp] theorem transLists_CheckTransConfigDMA [Add α] [Zero α] (env : Env α) (P : Params)
    (s : FW α) (bufferEntry : Nat) :
    transLists (CheckTransConfigDMA env P s bufferEntry).1 = transLists s := by
  unfold CheckTransConfigDMA
  split_ifs <;> simp

@[simp] theorem transLists_DeallocateTransBufEntry (s : FW α) (entryIdx : Nat) :
    transLists (DeallocateTransBufEntry s entryIdx) = transLists s := by
  unfold DeallocateTransBufEntry
  simp only []
  split_ifs <;> simp

theorem transLists_readTranslatedSector (P : Params)
    (entryIdx firstSector nextSector cmdSlotTag : Nat) (sectorNum : Nat)
    (st : FW α × Nat × Bool) :
    transLists (readTranslatedSector P entryIdx firstSector nextSector cmdSlotTag sectorNum st).1
      = transLists st.1 := by
  unfold readTranslatedSector
  simp only []
  split_ifs <;> simp

@[simp] theorem transLists_readTranslatedPagesNonBlocking (P : Params) (s : FW α)
    (entryIdx firstSector nextSector requestedSectors cmdSlotTag : Nat) :
    transLists (readTranslatedPagesNonBlocking P s entryIdx firstSector nextSector
      requestedSectors cmdSlotTag).1 = transLists s := by
  unfold readTranslatedPagesNonBlocking
  split_ifs
  · rfl
  · simp only []
    refine forRange_induction (fun st : FW α × Nat × Bool => transLists st.1 = transLists s)
      _ _ _ rfl ?_
    intro i st hi h
    rw [transLists_readTranslatedSector]
    exact h

/-- What `PopFromTransReqQueue` does to the two translation lists: nothing, or `retireSlot`
on `transRq`, or a new `nextPage` in the current slot followed by `rotateSlot`. -/
theorem PopFromTransReqQueue_lists [Add α] [Zero α] (env : Env α) (P : Params) (s : FW α) :
    transLists (PopFromTransReqQueue env P s).1 = transLists s ∨
    (s.transRqPointer.head ≠ 0xffff ∧
      transLists (PopFromTransReqQueue env P s).1
        = ((retireSlot s.transReqQueue s.transRqPointer).1,
            (retireSlot s.transReqQueue s.transRqPointer).2,
            s.transReadReqQueue, s.transReadRqPointer)) ∨
    (s.transRqPointer.head ≠ 0xffff ∧ ∃ v,
      transLists (PopFromTransReqQueue env P s).1
        = (set1 s.transReqQueue s.transRqPointer.current
              { (s.transReqQueue s.transRqPointer.current) with nextPage := v },
            rotateSlot (set1 s.transReqQueue s.transRqPointer.current
              { (s.transReqQueue s.transRqPointer.current) with nextPage := v })
              s.transRqPointer,
            s.transReadReqQueue, s.transReadRqPointer)) := by
  unfold PopFromTransReqQueue
  by_cases hh : s.transRqPointer.head = 0xffff
  · rw [if_pos hh]
    exact Or.inl rfl
  · rw [if_neg hh]
    simp only []
    generalize hc : (if (s.transMap (s.transReqQueue s.transRqPointer.current).entryIdx).configured
        ≠ 0 then (s, 1)
      else CheckTransConfigDMA env P s (s.transReqQueue s.transRqPointer.current).entryIdx) = c
    have hcv : transLists c.1 = transLists s := by
      rw [← hc]
      split_ifs <;> simp
    generalize hr : (if c.2 ≠ 0 then
        translatePagesNonBlocking env P c.1
          (c.1.transReqQueue c.1.transRqPointer.current).entryIdx
          (toUInt32 (toInt32 (s.transReqQueue s.transRqPointer.current).nextPage))
      else (c.1, toInt32 (s.transReqQueue s.transRqPointer.current).nextPage)) = r
    have hrv : transLists r.1 = transLists s := by
      rw [← hr]
      split_ifs
      · rw [transLists_translatePagesNonBlocking, hcv]
      · exact hcv
    have hq : r.1.transReqQueue = s.transReqQueue := congrArg (fun v => v.1) hrv
    have hp : r.1.transRqPointer = s.transRqPointer := congrArg (fun v => v.2.1) hrv
    have hq' : r.1.transReadReqQueue = s.transReadReqQueue := congrArg (fun v => v.2.2.1) hrv
    have hp' : r.1.transReadRqPointer = s.transReadRqPointer :=
      congrArg (fun v => v.2.2.2) hrv
    by_cases hhalt : r.1.halted = true
    · rw [if_pos hhalt]
      exact Or.inl hrv
    · rw [if_neg hhalt]
      by_cases hneg : r.2 = -1
      · rw [if_pos hneg]
        refine Or.inr (Or.inl ⟨hh, ?_⟩)
        simp only [transLists_mk, hq, hp, hq', hp']
      · rw [if_neg hneg]
        refine Or.inr (Or.inr ⟨hh, toUInt32 r.2, ?_⟩)
        simp only [transLists_mk, hq, hp, hq', hp']

/-- What `PopFromTransReadReqQueue` does to the two translation lists: nothing, or new
`nlb` and `nextSector` in the current slot of `transReadRq` followed by `retireSlot` or by
`rotateSlot`. -/
theorem PopFromTransReadReqQueue_lists (P : Params) (s : FW α) :
    transLists (PopFromTransReadReqQueue P s).1 = transLists s ∨
    (s.transReadRqPointer.head ≠ 0xffff ∧ ∃ x : TransReqEntry,
      x.next = (s.transReadReqQueue s.transReadRqPointer.current).next ∧
      x.prev = (s.transReadReqQueue s.transReadRqPointer.current).prev ∧
      (transLists (PopFromTransReadReqQueue P s).1
          = (s.transReqQueue, s.transRqPointer,
              (retireSlot (set1 s.transReadReqQueue s.transReadRqPointer.current x)
                s.transReadRqPointer).1,
              (retireSlot (set1 s.transReadReqQueue s.transReadRqPointer.current x)
                s.transReadRqPointer).2) ∨
        transLists (PopFromTransReadReqQueue P s).1
          = (s.transReqQueue, s.transRqPointer,
              set1 s.transReadReqQueue s.transReadRqPointer.current x,
              rotateSlot (set1 s.transReadReqQueue s.transReadRqPointer.current x)
                s.transReadRqPointer))) := by
  unfold PopFromTransReadReqQueue
  by_cases hh : s.transReadRqPointer.head = 0xffff
  · rw [if_pos hh]
    exact Or.inl rfl
  · rw [if_neg hh]
    simp only []
    generalize hr : readTranslatedPagesNonBlocking P s
      (s.transReadReqQueue s.transReadRqPointer.current).entryIdx
      (s.transReadReqQueue s.transReadRqPointer.current).firstSector
      (s.transReadReqQueue s.transReadRqPointer.current).nextSector
      (s.transReadReqQueue s.transReadRqPointer.current).nlb
      (s.transReadReqQueue s.transReadRqPointer.current).cmdSlotTag = r
    have hrv : transLists r.1 = transLists s := by
      rw [← hr]
      exact transLists_readTranslatedPagesNonBlocking P s _ _ _ _ _
    have hq : r.1.transReqQueue = s.transReqQueue := congrArg (fun v => v.1) hrv
    have hp : r.1.transRqPointer = s.transRqPointer := congrArg (fun v => v.2.1) hrv
    have hq' : r.1.transReadReqQueue = s.transReadReqQueue := congrArg (fun v => v.2.2.1) hrv
    have hp' : r.1.transReadRqPointer = s.transReadRqPointer :=
      congrArg (fun v => v.2.2.2) hrv
    simp only [hq', hp', set1_eq, set1_set1]
    refine Or.inr ⟨hh,
      { (s.transReadReqQueue s.transReadRqPointer.current) with
        nextSector := ((s.transReadReqQueue s.transReadRqPointer.current).nextSector + r.2) % U32
        nlb := ((s.transReadReqQueue s.transReadRqPointer.current).nlb + (U32 - r.2 % U32))
          % U32 }, rfl, rfl, ?_⟩
    by_cases hz : ((s.transReadReqQueue s.transReadRqPointer.current).nlb + (U32 - r.2 % U32))
        % U32 = 0
    · rw [if_pos hz]
      left
      simp only [transLists_mk, hq, hp]
    · rw [if_neg hz]
      right
      simp only [transLists_mk, hq, hp]

/-! ### The invariant of a translation request list -/

theorem TransListInv_keep (N : Nat) (q : Nat → TransReqEntry) (p : TransRqPointerEntry)
    (act free : List Nat) (a : Nat) (x : TransReqEntry)
    (hn : x.next = (q a).next) (hp : x.prev = (q a).prev) :
    TransListInv N (set1 q a x) p act free ↔ TransListInv N q p act free := by
  unfold TransListInv
  rw [nextOfQ_keep q a x hn, prevOfQ_keep q a x hp]

theorem TransLinks_ends (N : Nat) (hN : N ≤ 0xffff) (nxt prv : Nat → Nat)
    (p : TransRqPointerEntry) (act free : List Nat) (h : TransLinks N nxt prv p act free) :
    (p.head = 0xffff ↔ act = []) ∧ (p.tail = 0xffff ↔ act = []) ∧
    (p.current = 0xffff ↔ act = []) ∧ (p.availhead = 0xffff ↔ free = []) := by
  obtain ⟨hfwd, hbwd, hffwd, hflast, hnd, hbound, hcover, hcn, hcm⟩ := h
  have hne : ∀ i, i ∈ act ++ free → i ≠ 0xffff := by
    intro i hi
    have := hbound i hi
    omega
  have hhd : p.head = act.headD 0xffff := Fwd_head nxt act _ _ hfwd
  have htl : p.tail = act.getLastD 0xffff := Bwd_last prv act _ _ hbwd
  have hav : p.availhead = free.headD 0xffff := Fwd_head nxt free _ _ hffwd
  refine ⟨⟨?_, fun ha => by rw [hhd, ha]; rfl⟩, ⟨?_, fun ha => by rw [htl, ha]; rfl⟩,
    ⟨?_, hcn⟩, ⟨?_, fun hf => by rw [hav, hf]; rfl⟩⟩
  · intro hh
    cases act with
    | nil => rfl
    | cons a act' =>
      exfalso
      rw [hhd] at hh
      exact hne a (List.mem_append_left _ (List.mem_cons_self _ _)) hh
  · intro hh
    by_contra ha
    have := getLastD_mem_of_ne_nil act 0xffff ha
    rw [← htl, hh] at this
    exact hne _ (List.mem_append_left _ this) rfl
  · intro hh
    by_contra ha
    have := hcm ha
    rw [hh] at this
    exact hne _ (List.mem_append_left _ this) rfl
  · intro hh
    cases free with
    | nil => rfl
    | cons c free' =>
      exfalso
      rw [hav] at hh
      exact hne c (List.mem_append_right _ (List.mem_cons_self _ _)) hh

theorem retireSlot_inv (N : Nat) (hN : N ≤ 0xffff) (q : Nat → TransReqEntry)
    (p : TransRqPointerEntry) (pre post free : List Nat)
    (h : TransListInv N q p (pre ++ p.current :: post) free) :
    TransListInv N (retireSlot q p).1 (retireSlot q p).2 (pre ++ post) (free ++ [p.current]) ∧
    (retireSlot q p).2.current = (post ++ pre).headD 0xffff := by
  unfold TransListInv at h ⊢
  rw [retireSlot_next, retireSlot_prev, retireSlot_ptr]
  exact retireLinks_inv N hN _ _ p pre post free h

theorem rotateSlot_inv (N : Nat) (q : Nat → TransReqEntry)
    (p : TransRqPointerEntry) (pre post free : List Nat)
    (h : TransListInv N q p (pre ++ p.current :: post) free) :
    TransListInv N q (rotateSlot q p) (pre ++ p.current :: post) free ∧
    (rotateSlot q p).current = (post ++ pre ++ [p.current]).headD 0xffff :=
  rotate_inv N (nextOfQ q) (prevOfQ q) p pre post free h

theorem linkSlot_inv (N : Nat) (hN : N ≤ 0xffff) (q : Nat → TransReqEntry)
    (p : TransRqPointerEntry) (act free : List Nat)
    (h : TransListInv N q p act (p.availhead :: free)) :
    (linkSlot q p).2.2 = true ∧
    TransListInv N (linkSlot q p).1 (linkSlot q p).2.1 (act ++ [p.availhead]) free := by
  unfold TransListInv at h ⊢
  obtain ⟨h1, h2⟩ := linkLinks_inv N hN _ _ p act free h
  obtain ⟨g1, g2, g3, g4⟩ := linkSlot_pass q p h2
  rw [g2, g3, g4]
  exact ⟨g1, h1⟩

theorem TransListInv_split (N : Nat) (hN : N ≤ 0xffff) (q : Nat → TransReqEntry)
    (p : TransRqPointerEntry) (act free : List Nat) (h : TransListInv N q p act free)
    (hh : p.head ≠ 0xffff) : ∃ pre post, act = pre ++ p.current :: post := by
  have ha : act ≠ [] := fun ha => hh ((TransLinks_ends N hN _ _ p act free h).1.2 ha)
  exact List.append_of_mem (h.curMem ha)

theorem TransListInv_free (N : Nat) (q : Nat → TransReqEntry)
    (p : TransRqPointerEntry) (act free : List Nat) (h : TransListInv N q p act free)
    (hh : p.availhead ≠ 0xffff) : ∃ free', free = p.availhead :: free' := by
  have hav : p.availhead = free.headD 0xffff := Fwd_head _ free _ _ h.freeFwd
  cases free with
  | nil => exact absurd hav hh
  | cons c free' => exact ⟨free', by rw [hav]; rfl⟩

theorem PushToTransReqQueue_inv (N : Nat) (hN : N ≤ 0xffff) (s : FW α) (entryIdx : Nat)
    (act free : List Nat)
    (h : TransListInv N s.transReqQueue s.transRqPointer act
      (s.transRqPointer.availhead :: free)) :
    TransListInv N (PushToTransReqQueue s entryIdx).transReqQueue
      (PushToTransReqQueue s entryIdx).transRqPointer
      (act ++ [s.transRqPointer.availhead]) free ∧
    (PushToTransReqQueue s entryIdx).transReadReqQueue = s.transReadReqQueue ∧
    (PushToTransReqQueue s entryIdx).transReadRqPointer = s.transReadRqPointer ∧
    (PushToTransReqQueue s entryIdx).halted = s.halted ∧
    ((PushToTransReqQueue s entryIdx).transReqQueue s.transRqPointer.availhead).entryIdx
      = entryIdx ∧
    ((PushToTransReqQueue s entryIdx).transReqQueue s.transRqPointer.availhead).nextPage
      = 0 := by
  obtain ⟨h1, h2⟩ := linkSlot_inv N hN _ _ act free h
  unfold PushToTransReqQueue
  simp only []
  rw [if_pos h1]
  refine ⟨?_, rfl, rfl, rfl, ?_, ?_⟩
  · refine (TransListInv_keep N _ _ _ _ _ _ ?_ ?_).2
      ((TransListInv_keep N _ _ _ _ _ _ ?_ ?_).2 h2)
    · rw [set1_eq]
    · rw [set1_eq]
    · rfl
    · rfl
  · simp only [set1_eq]
  · simp only [set1_eq]

theorem PushToTransReadReqQueue_inv (M : Nat) (hM : M ≤ 0xffff) (s : FW α)
    (entryIdx cmdSlotTag nlb : Nat) (act free : List Nat)
    (h : TransListInv M s.transReadReqQueue s.transReadRqPointer act
      (s.transReadRqPointer.availhead :: free)) :
    TransListInv M (PushToTransReadReqQueue s entryIdx cmdSlotTag nlb).transReadReqQueue
      (PushToTransReadReqQueue s entryIdx cmdSlotTag nlb).transReadRqPointer
      (act ++ [s.transReadRqPointer.availhead]) free ∧
    (PushToTransReadReqQueue s entryIdx cmdSlotTag nlb).transReqQueue = s.transReqQueue ∧
    (PushToTransReadReqQueue s entryIdx cmdSlotTag nlb).transRqPointer = s.transRqPointer ∧
    (PushToTransReadReqQueue s entryIdx cmdSlotTag nlb).halted = s.halted := by
  obtain ⟨h1, h2⟩ := linkSlot_inv M hM _ _ act free h
  unfold PushToTransReadReqQueue
  simp only []
  rw [if_pos h1]
  refine ⟨?_, rfl, rfl, rfl⟩
  refine (TransListInv_keep M _ _ _ _ _ _ ?_ ?_).2
    ((TransListInv_keep M _ _ _ _ _ _ ?_ ?_).2
      ((TransListInv_keep M _ _ _ _ _ _ ?_ ?_).2
        ((TransListInv_keep M _ _ _ _ _ _ ?_ ?_).2
          ((TransListInv_keep M _ _ _ _ _ _ ?_ ?_).2 h2)))) <;>
    rfl

theorem transLists_eq_iff (u : FW α) (a : Nat → TransReqEntry) (b : TransRqPointerEntry)
    (c : Nat → TransReqEntry) (d : TransRqPointerEntry) :
    transLists u = (a, b, c, d) ↔
      u.transReqQueue = a ∧ u.transRqPointer = b ∧ u.transReadReqQueue = c ∧
        u.transReadRqPointer = d := by
  unfold transLists
  simp only [Prod.mk.injEq]

theorem PopOutcome_inv (N : Nat) (q : Nat → TransReqEntry) (p : TransRqPointerEntry)
    (q2 : Nat → TransReqEntry) (p2 : TransRqPointerEntry) (act free : List Nat)
    (h : TransListInv N q p act free) (ho : PopOutcome N q p q2 p2 act free) :
    ∃ act2 free2, TransListInv N q2 p2 act2 free2 := by
  rcases ho with ⟨h1, h2⟩ | ⟨pre, post, _, ⟨h1, _⟩ | ⟨h1, _⟩⟩
  · exact ⟨act, free, by rw [h1, h2]; exact h⟩
  · exact ⟨_, _, h1⟩
  · exact ⟨_, _, h1⟩

theorem PopFromTransReqQueue_inv [Add α] [Zero α] (env : Env α) (P : Params) (N : Nat)
    (hN : N ≤ 0xffff) (s : FW α) (act free : List Nat)
    (h : TransListInv N s.transReqQueue s.transRqPointer act free) :
    (PopFromTransReqQueue env P s).1.transReadReqQueue = s.transReadReqQueue ∧
    (PopFromTransReqQueue env P s).1.transReadRqPointer = s.transReadRqPointer ∧
    PopOutcome N s.transReqQueue s.transRqPointer
      (PopFromTransReqQueue env P s).1.transReqQueue
      (PopFromTransReqQueue env P s).1.transRqPointer act free := by
  rcases PopFromTransReqQueue_lists env P s with h0 | ⟨hh, h1⟩ | ⟨hh, v, h1⟩
  · have h0 := (transLists_eq_iff _ _ _ _ _).1 h0
    exact ⟨h0.2.2.1, h0.2.2.2, Or.inl ⟨h0.1, h0.2.1⟩⟩
  · have h1 := (transLists_eq_iff _ _ _ _ _).1 h1
    obtain ⟨pre, post, ha⟩ := TransListInv_split N hN _ _ act free h hh
    refine ⟨h1.2.2.1, h1.2.2.2, Or.inr ⟨pre, post, ha, Or.inl ?_⟩⟩
    rw [h1.1, h1.2.1]
    exact retireSlot_inv N hN _ _ pre post free (ha ▸ h)
  · have h1 := (transLists_eq_iff _ _ _ _ _).1 h1
    obtain ⟨pre, post, ha⟩ := TransListInv_split N hN _ _ act free h hh
    refine ⟨h1.2.2.1, h1.2.2.2, Or.inr ⟨pre, post, ha, Or.inr ?_⟩⟩
    rw [h1.1, h1.2.1]
    have hk := (TransListInv_keep N s.transReqQueue s.transRqPointer act free
      s.transRqPointer.current
      { (s.transReqQueue s.transRqPointer.current) with nextPage := v } rfl rfl).2 h
    have hr := rotateSlot_inv N _ _ pre post free (ha ▸ hk)
    rw [← ha] at hr
    exact hr

theorem PopFromTransReadReqQueue_inv (P : Params) (M : Nat)
    (hM : M ≤ 0xffff) (s : FW α) (act free : List Nat)
    (h : TransListInv M s.transReadReqQueue s.transReadRqPointer act free) :
    (PopFromTransReadReqQueue P s).1.transReqQueue = s.transReqQueue ∧
    (PopFromTransReadReqQueue P s).1.transRqPointer = s.transRqPointer ∧
    PopOutcome M s.transReadReqQueue s.transReadRqPointer
      (PopFromTransReadReqQueue P s).1.transReadReqQueue
      (PopFromTransReadReqQueue P s).1.transReadRqPointer act free := by
  rcases PopFromTransReadReqQueue_lists P s with h0 | ⟨hh, x, hn, hp, h1 | h1⟩
  · have h0 := (transLists_eq_iff _ _ _ _ _).1 h0
    exact ⟨h0.1, h0.2.1, Or.inl ⟨h0.2.2.1, h0.2.2.2⟩⟩
  · have h1 := (transLists_eq_iff _ _ _ _ _).1 h1
    obtain ⟨pre, post, ha⟩ := TransListInv_split M hM _ _ act free h hh
    refine ⟨h1.1, h1.2.1, Or.inr ⟨pre, post, ha, Or.inl ?_⟩⟩
    rw [h1.2.2.1, h1.2.2.2]
    have hk := (TransListInv_keep M s.transReadReqQueue s.transReadRqPointer act free
      s.transReadRqPointer.current x hn hp).2 h
    exact retireSlot_inv M hM _ _ pre post free (ha ▸ hk)
  · have h1 := (transLists_eq_iff _ _ _ _ _).1 h1
    obtain ⟨pre, post, ha⟩ := TransListInv_split M hM _ _ act free h hh
    refine ⟨h1.1, h1.2.1, Or.inr ⟨pre, post, ha, Or.inr ?_⟩⟩
    rw [h1.2.2.1, h1.2.2.2]
    have hk := (TransListInv_keep M s.transReadReqQueue s.transReadRqPointer act free
      s.transReadRqPointer.current x hn hp).2 h
    have hr := rotateSlot_inv M _ _ pre post free (ha ▸ hk)
    rw [← ha] at hr
    exact hr

theorem TransListsOK_step [Add α] [Zero α] (env : Env α) (P : Params) (N M : Nat)
    (hN : N ≤ 0xffff) (hM : M ≤ 0xffff) (s : FW α) (op : TransOp)
    (h : TransListsOK N M s) (hok : op.ok s) : TransListsOK N M (op.step env P s) := by
  obtain ⟨⟨actT, freeT, hT⟩, ⟨actR, freeR, hR⟩⟩ := h
  cases op with
  | push e =>
    obtain ⟨f2, hf⟩ := TransListInv_free N _ _ actT freeT hT hok
    obtain ⟨h1, h2, h3, _⟩ := PushToTransReqQueue_inv N hN s e actT f2 (hf ▸ hT)
    refine ⟨⟨_, _, h1⟩, ⟨actR, freeR, ?_⟩⟩
    show TransListInv M (PushToTransReqQueue s e).transReadReqQueue
      (PushToTransReqQueue s e).transReadRqPointer actR freeR
    rw [h2, h3]
    exact hR
  | pop =>
    obtain ⟨h1, h2, h3⟩ := PopFromTransReqQueue_inv env P N hN s actT freeT hT
    refine ⟨PopOutcome_inv N _ _ _ _ actT freeT hT h3, ⟨actR, freeR, ?_⟩⟩
    show TransListInv M (PopFromTransReqQueue env P s).1.transReadReqQueue
      (PopFromTransReqQueue env P s).1.transReadRqPointer actR freeR
    rw [h1, h2]
    exact hR
  | pushRead e c n =>
    obtain ⟨f2, hf⟩ := TransListInv_free M _ _ actR freeR hR hok
    obtain ⟨h1, h2, h3, _⟩ := PushToTransReadReqQueue_inv M hM s e c n actR f2 (hf ▸ hR)
    refine ⟨⟨actT, freeT, ?_⟩, ⟨_, _, h1⟩⟩
    show TransListInv N (PushToTransReadReqQueue s e c n).transReqQueue
      (PushToTransReadReqQueue s e c n).transRqPointer actT freeT
    rw [h2, h3]
    exact hT
  | popRead =>
    obtain ⟨h1, h2, h3⟩ := PopFromTransReadReqQueue_inv P M hM s actR freeR hR
    refine ⟨⟨actT, freeT, ?_⟩, PopOutcome_inv M _ _ _ _ actR freeR hR h3⟩
    show TransListInv N (PopFromTransReadReqQueue P s).1.transReqQueue
      (PopFromTransReadReqQueue P s).1.transRqPointer actT freeT
    rw [h1, h2]
    exact hT

theorem TransListsOK_run [Add α] [Zero α] (env : Env α) (P : Params) (N M : Nat)
    (hN : N ≤ 0xffff) (hM : M ≤ 0xffff) (ops : List TransOp) :
    ∀ s : FW α, TransListsOK N M s → transRunOk env P s ops →
      TransListsOK N M (transRun env P s ops) := by
  induction ops with
  | nil => intro s h _; exact h
  | cons op ops ih =>
    intro s h hok
    exact ih _ (TransListsOK_step env P N M hN hM s op h hok.1) hok.2

theorem transRunOk_of_bool [Add α] [Zero α] (env : Env α) (P : Params) (ops : List TransOp) :
    ∀ s : FW α, transRunOkB env P s ops = true → transRunOk env P s ops := by
  induction ops with
  | nil => intro s _; exact True.intro
  | cons op ops ih =>
    intro s h
    cases op with
    | push e =>
      simp only [transRunOkB, Bool.and_eq_true, decide_eq_true_eq] at h
      exact ⟨h.1, ih _ h.2⟩
    | pop => exact ⟨True.intro, ih _ h⟩
    | pushRead e c n =>
      simp only [transRunOkB, Bool.and_eq_true, decide_eq_true_eq] at h
      exact ⟨h.1, ih _ h.2⟩
    | popRead => exact ⟨True.intro, ih _ h⟩

theorem chainedSlots_inv :
    TransListInv 3 chainedSlots
      { head := 0xffff, tail := 0xffff, current := 0xffff, availhead := 0, availtail := 2 }
      [] [0, 1, 2] where
  fwd := rfl
  bwd := rfl
  freeFwd := ⟨rfl, rfl, rfl, rfl⟩
  freeLast := rfl
  nodup := by decide
  bound := by decide
  cover := by decide
  curNil := fun _ => rfl
  curMem := fun h => absurd rfl h

/-- C39: the two translation request lists stay well formed. From a state in which both
active lists are empty and every slot (`N` of `transRq`, `M` of `transReadRq`, at most
`0xffff` each) is chained on its free list, after any run of pushes made with a free slot
available and of pop attempts, each list still has every slot on exactly one of the active
list (`head` to `tail` through `next`, and back through `prev`) and the free list
(`availhead` to `availtail` through `next`); `head`, `tail` and `current` are `0xffff`
exactly when the active list is empty, and otherwise `current` is a member of it; a further
push with a free slot available moves `availhead` to the end of the active list; and a
further pop attempt either does nothing, or unlinks the current slot, or keeps the
membership and steps `current` to the next member, wrapping from the tail to the head. -/
theorem translation_lists_stay_well_formed [Add α] [Zero α] (env : Env α) (P : Params)
    (N M : Nat) (s : FW α) (freeT freeR : List Nat) (ops : List TransOp)
    (hN : N ≤ 0xffff) (hM : M ≤ 0xffff)
    (hT : TransListInv N s.transReqQueue s.transRqPointer [] freeT)
    (hR : TransListInv M s.transReadReqQueue s.transReadRqPointer [] freeR)
    (hok : transRunOk env P s ops) :
    ∃ actT freeT2 actR freeR2,
      TransListInv N (transRun env P s ops).transReqQueue
        (transRun env P s ops).transRqPointer actT freeT2 ∧
      TransListInv M (transRun env P s ops).transReadReqQueue
        (transRun env P s ops).transReadRqPointer actR freeR2 ∧
      (((transRun env P s ops).transRqPointer.head = 0xffff ↔ actT = []) ∧
        ((transRun env P s ops).transRqPointer.tail = 0xffff ↔ actT = []) ∧
        ((transRun env P s ops).transRqPointer.current = 0xffff ↔ actT = []) ∧
        (actT ≠ [] → (transRun env P s ops).transRqPointer.current ∈ actT)) ∧
      (((transRun env P s ops).transReadRqPointer.head = 0xffff ↔ actR = []) ∧
        ((transRun env P s ops).transReadRqPointer.tail = 0xffff ↔ actR = []) ∧
        ((transRun env P s ops).transReadRqPointer.current = 0xffff ↔ actR = []) ∧
        (actR ≠ [] → (transRun env P s ops).transReadRqPointer.current ∈ actR)) ∧
      (∀ entryIdx, (transRun env P s ops).transRqPointer.availhead ≠ 0xffff →
        ∃ free3, freeT2 = (transRun env P s ops).transRqPointer.availhead :: free3 ∧
          TransListInv N (PushToTransReqQueue (transRun env P s ops) entryIdx).transReqQueue
            (PushToTransReqQueue (transRun env P s ops) entryIdx).transRqPointer
            (actT ++ [(transRun env P s ops).transRqPointer.availhead]) free3) ∧
      (∀ entryIdx cmdSlotTag nlb,
        (transRun env P s ops).transReadRqPointer.availhead ≠ 0xffff →
        ∃ free3, freeR2 = (transRun env P s ops).transReadRqPointer.availhead :: free3 ∧
          TransListInv M
            (PushToTransReadReqQueue (transRun env P s ops) entryIdx cmdSlotTag
              nlb).transReadReqQueue
            (PushToTransReadReqQueue (transRun env P s ops) entryIdx cmdSlotTag
              nlb).transReadRqPointer
            (actR ++ [(transRun env P s ops).transReadRqPointer.availhead]) free3) ∧
      PopOutcome N (transRun env P s ops).transReqQueue (transRun env P s ops).transRqPointer
        (PopFromTransReqQueue env P (transRun env P s ops)).1.transReqQueue
        (PopFromTransReqQueue env P (transRun env P s ops)).1.transRqPointer actT freeT2 ∧
      PopOutcome M (transRun env P s ops).transReadReqQueue
        (transRun env P s ops).transReadRqPointer
        (PopFromTransReadReqQueue P (transRun env P s ops)).1.transReadReqQueue
        (PopFromTransReadReqQueue P (transRun env P s ops)).1.transReadRqPointer
        actR freeR2 := by
  obtain ⟨⟨actT, freeT2, h1⟩, ⟨actR, freeR2, h2⟩⟩ :=
    TransListsOK_run env P N M hN hM ops s ⟨⟨[], freeT, hT⟩, ⟨[], freeR, hR⟩⟩ hok
  have e1 := TransLinks_ends N hN _ _ _ actT freeT2 h1
  have e2 := TransLinks_ends M hM _ _ _ actR freeR2 h2
  refine ⟨actT, freeT2, actR, freeR2, h1, h2, ⟨e1.1, e1.2.1, e1.2.2.1, h1.curMem⟩,
    ⟨e2.1, e2.2.1, e2.2.2.1, h2.curMem⟩, ?_, ?_,
    (PopFromTransReqQueue_inv env P N hN _ actT freeT2 h1).2.2,
    (PopFromTransReadReqQueue_inv P M hM _ actR freeR2 h2).2.2⟩
  · intro e ha
    obtain ⟨f3, hf⟩ := TransListInv_free N _ _ actT freeT2 h1 ha
    exact ⟨f3, hf, (PushToTransReqQueue_inv N hN _ e actT f3 (hf ▸ h1)).1⟩
  · intro e c n ha
    obtain ⟨f3, hf⟩ := TransListInv_free M _ _ actR freeR2 h2 ha
    exact ⟨f3, hf, (PushToTransReadReqQueue_inv M hM _ e c n actR f3 (hf ▸ h2)).1⟩

theorem translation_lists_stay_well_formed_witness :
    TransListInv 3 chainedFW.transReqQueue chainedFW.transRqPointer [] [0, 1, 2] ∧
    TransListInv 3 chainedFW.transReadReqQueue chainedFW.transReadRqPointer [] [0, 1, 2] ∧
    transRunOk quietEnv exampleParams chainedFW exampleTransOps ∧
    (∃ actT freeT2 actR freeR2,
      TransListInv 3 (transRun quietEnv exampleParams chainedFW exampleTransOps).transReqQueue
        (transRun quietEnv exampleParams chainedFW exampleTransOps).transRqPointer
        actT freeT2 ∧
      TransListInv 3
        (transRun quietEnv exampleParams chainedFW exampleTransOps).transReadReqQueue
        (transRun quietEnv exampleParams chainedFW exampleTransOps).transReadRqPointer
        actR freeR2 ∧
      ((transRun quietEnv exampleParams chainedFW exampleTransOps).transRqPointer.current
          = 0xffff ↔ actT = []) ∧
      ((transRun quietEnv exampleParams chainedFW exampleTransOps).transReadRqPointer.current
          = 0xffff ↔ actR = [])) ∧
    (transRun quietEnv exampleParams chainedFW [.push 0, .push 1]).transRqPointer
      = { head := 0, tail := 1, current := 0, availhead := 2, availtail := 2 } ∧
    (transRun quietEnv exampleParams chainedFW [.push 0, .push 1, .pop]).transRqPointer
      = { head := 0, tail := 1, current := 1, availhead := 2, availtail := 2 } ∧
    (transRun quietEnv exampleParams chainedFW [.push 0, .push 1, .pop, .pop]).transRqPointer
      = { head := 0, tail := 1, current := 0, availhead := 2, availtail := 2 } ∧
    (transRun quietEnv exampleParams chainedFW
        [.pushRead 0 5 0, .pushRead 1 6 1, .pushRead 1 7 0]).transReadRqPointer
      = { head := 0, tail := 2, current := 0, availhead := 0xffff, availtail := 0xffff } ∧
    (transRun quietEnv exampleParams chainedFW
        [.pushRead 0 5 0, .pushRead 1 6 1, .pushRead 1 7 0, .popRead]).transReadRqPointer
      = { head := 1, tail := 2, current := 1, availhead := 0, availtail := 0 } ∧
    (transRun quietEnv exampleParams chainedFW
        [.pushRead 0 5 0, .pushRead 1 6 1, .pushRead 1 7 0, .popRead,
          .popRead]).transReadRqPointer
      = { head := 1, tail := 2, current := 2, availhead := 0, availtail := 0 } ∧
    (transRun quietEnv exampleParams chainedFW exampleTransOps).transReadRqPointer
      = { head := 1, tail := 1, current := 1, availhead := 0, availtail := 2 } ∧
    (transRun quietEnv exampleParams chainedFW exampleTransOps).halted = false :=
  ⟨chainedSlots_inv, chainedSlots_inv, transRunOk_of_bool _ _ _ _ (by decide),
    (translation_lists_stay_well_formed quietEnv exampleParams 3 3 chainedFW [0, 1, 2]
      [0, 1, 2] exampleTransOps (by decide) (by decide) chainedSlots_inv chainedSlots_inv
      (transRunOk_of_bool _ _ _ _ (by decide))).imp
      (fun _ h => h.imp (fun _ h => h.imp (fun _ h => h.imp
        (fun _ h => ⟨h.1, h.2.1, h.2.2.1.2.2.1, h.2.2.2.1.2.2.1⟩)))),
    by decide, by decide, by decide, by decide, by decide, by decide, by decide, by decide⟩

end RecSSD
